import Mathlib

/-!
# Spatial binning of the CAC package: `src/nbin_CAC.cpp`

A shallow embedding of `NBinCAC` (the cell grid, the box partitioner, the
growable per-cell member lists, the overlap resolver and the quadrature
sampler) together with the properties of the specification that concern them.

Modelling conventions.

* A finite `double` is an exact rational (`ℚ`); `static_cast<int>` is truncation
  toward zero.  Because every coordinate is finite by type, the `ISFINITE`
  guards do not appear in `quad2bins` and `element2bins`; they are modelled in
  `quad2bins_checked` and `element2bins_checked`, whose coordinates are doubles
  (`Dbl`) that may be infinite or NaN.
* A fatal error (`error->all`, `error->one`) is a value of `Failure` returned
  through `Except`.
* An `int` is an unbounded integer (`Int`, or `Nat` where the code only ever
  stores non-negative values); `setup_bins` bounds every cell count by
  `MAXSMALLINT`, so no wrap-around is modelled.
* A C array is an index-to-value map; where the allocated length matters (the
  member list of a cell) it is a `List` whose length is the allocated capacity.
  A read or write outside the allocated range has no defined result and makes
  the embedded operation return `none`.
* `Memory::create` and `Memory::grow` (not part of the sources at hand) leave
  fresh slots uninitialised: their contents are supplied by a parameter `junk`.
* A counted C loop `for (i = 0; i < n; i++)` is `forLoop n`.
-/

namespace NBinCAC

/-! ## Constants and numeric helpers -/

/-- Initial per-cell capacity (`#define MAXBINCONTENT 100`). -/
def MAXBINCONTENT : Nat := 100

/-- Capacity increment (`#define EXPAND 100`). -/
def EXPAND : Nat := 100

/-- Conversion `static_cast<int>(d)` of a finite double: truncation toward zero. -/
def static_cast_int (d : ℚ) : Int :=
  if 0 ≤ d then ⌊d⌋ else ⌈d⌉

/-- Counted loop `for (i = 0; i < n; i++) s = body i s`. -/
def forLoop {σ : Type} : Nat → (Nat → σ → σ) → σ → σ
  | 0, _, s => s
  | n + 1, body, s => body n (forLoop n body s)

/-- Inclusive integer loop `for (k = lo; k <= hi; k++)` whose body may fail. -/
def forRangeM {σ : Type} (lo hi : Int) (body : Int → σ → Option σ) (s : σ) : Option σ :=
  forLoop (hi + 1 - lo).toNat (fun k acc => acc.bind (body (lo + (k : Int)))) (some s)

/-- A `double[3]`. -/
structure Vec3 where
  c0 : ℚ
  c1 : ℚ
  c2 : ℚ
deriving DecidableEq

/-- An `int[3]`. -/
structure Int3 where
  i0 : Int
  i1 : Int
  i2 : Int
deriving DecidableEq

/-! ## The cell grid and the point rule (`quad2bins`) -/

/-- The geometry fields of `NBin` that `setup_bins` produces and the binning
routines read. -/
structure Grid where
  bboxlo : Vec3
  bboxhi : Vec3
  bininvx : ℚ
  bininvy : ℚ
  bininvz : ℚ
  nbinx : Int
  nbiny : Int
  nbinz : Int
  mbinxlo : Int
  mbinylo : Int
  mbinzlo : Int
  mbinx : Int
  mbiny : Int
  mbinz : Int
  mbins : Nat

/-- The per-axis cell index: the three-way branch that `quad2bins` spells out
for x, y and z (lines 728-750) and `element2bins` repeats for the entity
position and for both corners of the inflated bounding box. -/
def axis_bin (bboxlo bboxhi bininv : ℚ) (nbin : Int) (x : ℚ) : Int :=
  if x ≥ bboxhi then
    static_cast_int ((x - bboxhi) * bininv) + nbin
  else if x ≥ bboxlo then
    min (static_cast_int ((x - bboxlo) * bininv)) (nbin - 1)
  else
    static_cast_int ((x - bboxlo) * bininv) - 1

/-- Flattening of an index triple into a cell id (line 755). -/
def flat_bin (g : Grid) (ix iy iz : Int) : Int :=
  (iz - g.mbinzlo) * g.mbiny * g.mbinx + (iy - g.mbinylo) * g.mbinx + (ix - g.mbinxlo)

/-- The function `NBinCAC::quad2bins`: cell id of a point. -/
def quad2bins (g : Grid) (x : Vec3) : Int :=
  let ix := axis_bin g.bboxlo.c0 g.bboxhi.c0 g.bininvx g.nbinx x.c0
  let iy := axis_bin g.bboxlo.c1 g.bboxhi.c1 g.bininvy g.nbiny x.c1
  let iz := axis_bin g.bboxlo.c2 g.bboxhi.c2 g.bininvz g.nbinz x.c2
  flat_bin g ix iy iz

/-! ## Entity arrays (`atom->...`) -/

/-- The per-entity arrays and scalars of `Atom` that the binning code reads.
`nodal_positions i kkk p` is `atom->nodal_positions[i][kkk][p]`, the current
position of control node `kkk` of phase `p` of entity `i`. -/
structure Atom where
  nlocal : Nat
  nghost : Nat
  nfirst : Nat
  x : Nat → Vec3
  mask : Nat → Nat
  element_type : Nat → Nat
  element_scale : Nat → Int3
  poly_count : Nat → Nat
  nodes_per_element_list : Nat → Nat
  nodal_positions : Nat → Nat → Nat → Vec3
  CAC_cut : ℚ
  CAC_skin : ℚ

/-- Component `dim` of a `double[3]`. -/
def Vec3.get (v : Vec3) (dim : Nat) : ℚ :=
  if dim = 0 then v.c0 else if dim = 1 then v.c1 else v.c2

/-- Assignment `v[dim] = a`. -/
def Vec3.set (v : Vec3) (dim : Nat) (a : ℚ) : Vec3 :=
  if dim = 0 then { v with c0 := a } else if dim = 1 then { v with c1 := a } else { v with c2 := a }

/-! ## The overlap resolver (`element2bins`) -/

/-- The member array `bin_overlap_limits[6]`. -/
structure Limits where
  l0 : Int
  l1 : Int
  l2 : Int
  l3 : Int
  l4 : Int
  l5 : Int
deriving DecidableEq

/-- The bounding-box loop of `element2bins` (lines 831-850): both corners start
at node 0 of phase 0 and are widened over every phase, node and axis. -/
def node_bounding_box (pos : Nat → Nat → Vec3) (current_poly_count nodes_per_element : Nat) :
    Vec3 × Vec3 :=
  forLoop current_poly_count (fun poly_counter bb =>
    forLoop nodes_per_element (fun kkk bb =>
      forLoop 3 (fun dim bb =>
        let lo := if (pos kkk poly_counter).get dim < bb.1.get dim
          then bb.1.set dim ((pos kkk poly_counter).get dim) else bb.1
        let hi := if (pos kkk poly_counter).get dim > bb.2.get dim
          then bb.2.set dim ((pos kkk poly_counter).get dim) else bb.2
        (lo, hi)) bb) bb) (pos 0 0, pos 0 0)

/-- The function `NBinCAC::element2bins`: returns the cell id of the entity
position and, for an extended entity, stores the overlap limits.  The indices
`ixh, iyh, izh` of the inflated high corner are computed (lines 885-907) and the
six limits are then assigned from `ixl, iyl, izl` only (lines 909-914). -/
def element2bins (g : Grid) (a : Atom) (element_index : Nat) (lim : Limits) : Int × Limits :=
  let x := a.x element_index
  let CAC_cut := a.CAC_cut + a.CAC_skin
  let ix := axis_bin g.bboxlo.c0 g.bboxhi.c0 g.bininvx g.nbinx x.c0
  let iy := axis_bin g.bboxlo.c1 g.bboxhi.c1 g.bininvy g.nbiny x.c1
  let iz := axis_bin g.bboxlo.c2 g.bboxhi.c2 g.bininvz g.nbinz x.c2
  let lim1 :=
    if a.element_type element_index ≠ 0 then
      let current_poly_count := a.poly_count element_index
      let nodes_per_element := a.nodes_per_element_list (a.element_type element_index)
      let bb := node_bounding_box (a.nodal_positions element_index) current_poly_count
        nodes_per_element
      let bounding_boxlo : Vec3 := ⟨bb.1.c0 - CAC_cut, bb.1.c1 - CAC_cut, bb.1.c2 - CAC_cut⟩
      let bounding_boxhi : Vec3 := ⟨bb.2.c0 + CAC_cut, bb.2.c1 + CAC_cut, bb.2.c2 + CAC_cut⟩
      let ixl := axis_bin g.bboxlo.c0 g.bboxhi.c0 g.bininvx g.nbinx bounding_boxlo.c0
      let iyl := axis_bin g.bboxlo.c1 g.bboxhi.c1 g.bininvy g.nbiny bounding_boxlo.c1
      let izl := axis_bin g.bboxlo.c2 g.bboxhi.c2 g.bininvz g.nbinz bounding_boxlo.c2
      let _ixh := axis_bin g.bboxlo.c0 g.bboxhi.c0 g.bininvx g.nbinx bounding_boxhi.c0
      let _iyh := axis_bin g.bboxlo.c1 g.bboxhi.c1 g.bininvy g.nbiny bounding_boxhi.c1
      let _izh := axis_bin g.bboxlo.c2 g.bboxhi.c2 g.bininvz g.nbinz bounding_boxhi.c2
      ({ l0 := ixl, l1 := iyl, l2 := izl, l3 := ixl, l4 := iyl, l5 := izl } : Limits)
    else lim
  (flat_bin g ix iy iz, lim1)

/-- The range the specification calls `overlapRange(E)`: per-axis cell indices
(point rule) of the low and of the high corner of the node bounding box
inflated by `CAC_cut + CAC_skin`.  These are the values `ixl..izl` and
`ixh..izh` of `element2bins`. -/
def overlapRange (g : Grid) (a : Atom) (element_index : Nat) : Limits :=
  let CAC_cut := a.CAC_cut + a.CAC_skin
  let bb := node_bounding_box (a.nodal_positions element_index) (a.poly_count element_index)
    (a.nodes_per_element_list (a.element_type element_index))
  { l0 := axis_bin g.bboxlo.c0 g.bboxhi.c0 g.bininvx g.nbinx (bb.1.c0 - CAC_cut),
    l1 := axis_bin g.bboxlo.c1 g.bboxhi.c1 g.bininvy g.nbiny (bb.1.c1 - CAC_cut),
    l2 := axis_bin g.bboxlo.c2 g.bboxhi.c2 g.bininvz g.nbinz (bb.1.c2 - CAC_cut),
    l3 := axis_bin g.bboxlo.c0 g.bboxhi.c0 g.bininvx g.nbinx (bb.2.c0 + CAC_cut),
    l4 := axis_bin g.bboxlo.c1 g.bboxhi.c1 g.bininvy g.nbiny (bb.2.c1 + CAC_cut),
    l5 := axis_bin g.bboxlo.c2 g.bboxhi.c2 g.bininvz g.nbinz (bb.2.c2 + CAC_cut) }

/-! ## The growable cell store -/

/-- The cell-store fields of `NBinCAC`.  `bin_content b` is the allocated block
of cell `b` (its length is the allocated capacity); only its first
`bin_ncontent b` entries are members.  The three arrays are allocated for
indices below `maxbin`. -/
structure Store where
  maxbin : Nat
  first_alloc : Bool
  max_bin_expansion_count : Nat
  bin_ncontent : Nat → Nat
  bin_content : Nat → List Nat
  bin_expansion_counts : Nat → Nat

/-- The store as the constructor leaves it (lines 35-57; `maxbin = 0` comes from
the base class). -/
def Store.init : Store :=
  { maxbin := 0, first_alloc := false, max_bin_expansion_count := 0,
    bin_ncontent := fun _ => 0, bin_content := fun _ => [], bin_expansion_counts := fun _ => 0 }

/-- The members of a cell (`membersOf`): the first `bin_ncontent` entries. -/
def Store.members (st : Store) (b : Nat) : List Nat :=
  (st.bin_content b).take (st.bin_ncontent b)

/-- Allocated capacity of a cell. -/
def Store.capacity (st : Store) (b : Nat) : Nat :=
  (st.bin_content b).length

/-- The call `memory->create(block, n)`: a fresh block of `n` uninitialised slots. -/
def memory_create (junk : Nat → Nat) (n : Nat) : List Nat :=
  (List.range n).map junk

/-- The call `memory->grow(block, n)`: reallocation to `n` slots, keeping the old
entries that fit; the added slots are uninitialised. -/
def memory_grow (junk : Nat → Nat) (old : List Nat) (n : Nat) : List Nat :=
  old.take n ++ (List.range (n - old.length)).map (fun k => junk (old.length + k))

/-- The insertion step of `bin_atoms` (lines 676-682, repeated at 689-696):
grow the block by `EXPAND` when the size has reached the capacity formula,
write the index at the old size, increment the size. -/
def insert_member (junk : Nat → Nat) (st : Store) (ibin : Int) (i : Nat) : Option Store :=
  if 0 ≤ ibin ∧ ibin < (st.maxbin : Int) then
    let b := ibin.toNat
    let current_bin_ncount := st.bin_ncontent b
    let st1 : Store :=
      if st.bin_ncontent b = MAXBINCONTENT + st.bin_expansion_counts b * EXPAND then
        { st with
          bin_expansion_counts :=
            Function.update st.bin_expansion_counts b (st.bin_expansion_counts b + 1),
          bin_content :=
            Function.update st.bin_content b
              (memory_grow junk (st.bin_content b)
                (MAXBINCONTENT + (st.bin_expansion_counts b + 1) * EXPAND)) }
      else st
    if current_bin_ncount < (st1.bin_content b).length then
      some { st1 with
        bin_content :=
          Function.update st1.bin_content b ((st1.bin_content b).set current_bin_ncount i),
        bin_ncontent := Function.update st1.bin_ncontent b (st1.bin_ncontent b + 1) }
    else none
  else none

/-- The reset loop at the start of `bin_atoms` (lines 507-508). -/
def clear_counts (mbins : Nat) (st : Store) : Option Store :=
  if mbins ≤ st.maxbin then
    some { st with bin_ncontent := fun b => if b < mbins then 0 else st.bin_ncontent b }
  else none

/-- The cell-store part of `bin_atoms_setup` (lines 95-128), run with the cell
count `mbins` that `setup_bins` produced. -/
def bin_atoms_setup_store (junk : Nat → Nat) (mbins : Nat) (st : Store) : Store :=
  if mbins > st.maxbin then
    let st1 : Store :=
      if st.first_alloc = false then
        { st with
          first_alloc := true,
          bin_expansion_counts := fun init =>
            if init < mbins then st.max_bin_expansion_count else st.bin_expansion_counts init,
          bin_content := fun init =>
            if init < mbins then memory_create junk MAXBINCONTENT else st.bin_content init }
      else
        let m := forLoop st.maxbin (fun init m =>
          if st.bin_expansion_counts init > m then st.bin_expansion_counts init else m)
          st.max_bin_expansion_count
        { st with
          max_bin_expansion_count := m,
          bin_content := fun init =>
            if init < mbins then
              memory_grow junk (if init ≥ st.maxbin then [] else st.bin_content init)
                (MAXBINCONTENT + m * EXPAND)
            else st.bin_content init,
          bin_expansion_counts := fun init =>
            if init < mbins then m else st.bin_expansion_counts init }
    { st1 with
      maxbin := mbins,
      bin_ncontent := fun b => if b < st.maxbin then st.bin_ncontent b else junk b }
  else st

/-- A list of (cell id, member index) insertions carried out in order. -/
def insert_all (junk : Nat → Nat) : List (Int × Nat) → Store → Option Store
  | [], st => some st
  | p :: ps, st => (insert_member junk st p.1 p.2).bind (insert_all junk ps)

/-- Capacity invariant: every allocated cell has capacity
`MAXBINCONTENT + EXPAND * bin_expansion_counts`. -/
def Store.CapInv (st : Store) : Prop :=
  ∀ b, b < st.maxbin → st.capacity b = MAXBINCONTENT + EXPAND * st.bin_expansion_counts b

/-- Size invariant on the first `n` cells: the logical size is within the capacity. -/
def Store.SizeInv (st : Store) (n : Nat) : Prop :=
  ∀ b, b < n → st.bin_ncontent b ≤ st.capacity b

instance (st : Store) : Decidable st.CapInv := by
  unfold Store.CapInv
  infer_instance

instance (st : Store) (n : Nat) : Decidable (st.SizeInv n) := by
  unfold Store.SizeInv
  infer_instance

/-! ## The quadrature sampler (`compute_quad_points`) -/

/-- The quadrature fields of `NBinCAC` read by `compute_quad_points`. -/
structure Quad where
  quadrature_node_count : Nat
  quadrature_abcissae : Nat → ℚ
  surface_counts : Nat → Int3
  interior_scales : Nat → Vec3

/-- The function `NBinCAC::shape_function` (lines 1524-1558). -/
def shape_function (s t w : ℚ) (flag : Nat) (index : Nat) : ℚ :=
  if flag = 2 then
    if index = 1 then (1 - s) * (1 - t) * (1 - w) / 8
    else if index = 2 then (1 + s) * (1 - t) * (1 - w) / 8
    else if index = 3 then (1 + s) * (1 + t) * (1 - w) / 8
    else if index = 4 then (1 - s) * (1 + t) * (1 - w) / 8
    else if index = 5 then (1 - s) * (1 - t) * (1 + w) / 8
    else if index = 6 then (1 + s) * (1 - t) * (1 + w) / 8
    else if index = 7 then (1 + s) * (1 + t) * (1 + w) / 8
    else if index = 8 then (1 - s) * (1 + t) * (1 + w) / 8
    else 0
  else 0

/-- The scratch buffer while `compute_quad_points` runs: the write index
`quadrature_counter`, the rows of `current_element_quad_points`, and (a ghost
field, not in the code) the parametric coordinate `(s,t,w)` of every row
written so far, in order. -/
structure QuadBuf where
  quadrature_counter : Nat
  current_element_quad_points : Nat → Vec3
  samples : List Vec3

/-- Interpolation of the node positions at `(s,t,w)` followed by the write of
the row at `quadrature_counter` and its increment (lines 1106-1119, repeated
in every group). -/
def put_quad_point (pos : Nat → Nat → Vec3) (nodes_per_element poly_counter : Nat)
    (s t w : ℚ) (qb : QuadBuf) : QuadBuf :=
  let quad_position : Vec3 := forLoop nodes_per_element (fun kkk qp =>
    let shape_func := shape_function s t w 2 (kkk + 1)
    ({ c0 := qp.c0 + (pos kkk poly_counter).c0 * shape_func,
       c1 := qp.c1 + (pos kkk poly_counter).c1 * shape_func,
       c2 := qp.c2 + (pos kkk poly_counter).c2 * shape_func } : Vec3)) ⟨0, 0, 0⟩
  { quadrature_counter := qb.quadrature_counter + 1,
    current_element_quad_points :=
      Function.update qb.current_element_quad_points qb.quadrature_counter quad_position,
    samples := qb.samples ++ [⟨s, t, w⟩] }

/-- Snapping `u * int(v / u)` of a coordinate onto the unit-cell lattice. -/
def snap (u v : ℚ) : ℚ :=
  u * ((static_cast_int (v / u) : Int) : ℚ)

/-- The half-cell shift `if (abscissa < 0) v -= 0.5*u; else v += 0.5*u`. -/
def shift_half (abscissa u v : ℚ) : ℚ :=
  if abscissa < 0 then v - (1 / 2) * u else v + (1 / 2) * u

/-- Entry `sign[sc]` of the table `sign = {-1, 1}`. -/
def sign (sc : Nat) : ℚ :=
  if sc = 0 then -1 else 1

/-- Offset from the low face, `-1 + (i + 0.5) * u`. -/
def from_lo (i : Nat) (u : ℚ) : ℚ :=
  -1 + ((i : ℚ) + 1 / 2) * u

/-- Offset from the high face, `1 - (i + 0.5) * u`. -/
def from_hi (i : Nat) (u : ℚ) : ℚ :=
  1 - ((i : ℚ) + 1 / 2) * u

/-- The parametric coordinate of an edge sample (lines 1295-1417), for edge
`sc`, layer indices `i`, `j` and abscissa index `k`. -/
def edge_sample (u is : Vec3) (absc : Nat → ℚ) (sc i j k : Nat) : Vec3 :=
  let sq := shift_half (absc k) u.c0 (snap u.c0 (is.c0 * absc k))
  let tq := shift_half (absc k) u.c1 (snap u.c1 (is.c1 * absc k))
  let wq := shift_half (absc k) u.c2 (snap u.c2 (is.c2 * absc k))
  if sc = 0 then ⟨from_lo i u.c0, from_lo j u.c1, wq⟩
  else if sc = 1 then ⟨from_hi i u.c0, from_lo j u.c1, wq⟩
  else if sc = 2 then ⟨from_lo i u.c0, from_hi j u.c1, wq⟩
  else if sc = 3 then ⟨from_hi i u.c0, from_hi j u.c1, wq⟩
  else if sc = 4 then ⟨sq, from_lo i u.c1, from_lo j u.c2⟩
  else if sc = 5 then ⟨sq, from_hi i u.c1, from_lo j u.c2⟩
  else if sc = 6 then ⟨sq, from_lo i u.c1, from_hi j u.c2⟩
  else if sc = 7 then ⟨sq, from_hi i u.c1, from_hi j u.c2⟩
  else if sc = 8 then ⟨from_lo i u.c0, tq, from_lo j u.c2⟩
  else if sc = 9 then ⟨from_hi i u.c0, tq, from_lo j u.c2⟩
  else if sc = 10 then ⟨from_lo i u.c0, tq, from_hi j u.c2⟩
  else ⟨from_hi i u.c0, tq, from_hi j u.c2⟩

/-- The parametric coordinate of a corner sample (lines 1452-1494). -/
def corner_sample (u : Vec3) (sc i j k : Nat) : Vec3 :=
  if sc = 0 then ⟨from_lo i u.c0, from_lo j u.c1, from_lo k u.c2⟩
  else if sc = 1 then ⟨from_hi i u.c0, from_lo j u.c1, from_lo k u.c2⟩
  else if sc = 2 then ⟨from_hi i u.c0, from_hi j u.c1, from_lo k u.c2⟩
  else if sc = 3 then ⟨from_lo i u.c0, from_hi j u.c1, from_lo k u.c2⟩
  else if sc = 4 then ⟨from_lo i u.c0, from_lo j u.c1, from_hi k u.c2⟩
  else if sc = 5 then ⟨from_hi i u.c0, from_lo j u.c1, from_hi k u.c2⟩
  else if sc = 6 then ⟨from_hi i u.c0, from_hi j u.c1, from_hi k u.c2⟩
  else ⟨from_lo i u.c0, from_hi j u.c1, from_hi k u.c2⟩

/-- The surface counts used by the edge group `sc` (lines 1272-1286). -/
def edge_counts (surface_count : Int3) (sc : Nat) : Int × Int :=
  if sc = 0 ∨ sc = 1 ∨ sc = 2 ∨ sc = 3 then (surface_count.i0, surface_count.i1)
  else if sc = 4 ∨ sc = 5 ∨ sc = 6 ∨ sc = 7 then (surface_count.i1, surface_count.i2)
  else (surface_count.i0, surface_count.i2)

/-- The body of the phase loop of `compute_quad_points` (lines 1087-1516):
interior, the three pairs of faces, the twelve edges and the eight corners of
phase `poly_counter`. -/
def quad_points_of_phase (pos : Nat → Nat → Vec3) (nodes_per_element : Nat)
    (u is : Vec3) (surface_count : Int3) (n : Nat) (absc : Nat → ℚ)
    (poly_counter : Nat) (qb : QuadBuf) : QuadBuf :=
  let put := put_quad_point pos nodes_per_element poly_counter
  -- interior contributions
  let qb := forLoop n (fun i qb => forLoop n (fun j qb => forLoop n (fun k qb =>
    put (snap u.c0 (is.c0 * absc i)) (snap u.c1 (is.c1 * absc j))
      (snap u.c2 (is.c2 * absc k)) qb) qb) qb) qb
  -- s axis surface contributions
  let qb := forLoop 2 (fun sc qb => forLoop surface_count.i0.toNat (fun i qb =>
    forLoop n (fun j qb => forLoop n (fun k qb =>
      put (sign sc - (i : ℚ) * u.c0 * sign sc - (1 / 2) * u.c0 * sign sc)
        (shift_half (absc j) u.c1 (snap u.c1 (is.c1 * absc j)))
        (shift_half (absc k) u.c2 (snap u.c2 (is.c2 * absc k))) qb) qb) qb) qb) qb
  -- t axis contributions
  let qb := forLoop 2 (fun sc qb => forLoop surface_count.i1.toNat (fun i qb =>
    forLoop n (fun j qb => forLoop n (fun k qb =>
      put (shift_half (absc j) u.c0 (snap u.c0 (is.c0 * absc j)))
        (sign sc - (i : ℚ) * u.c1 * sign sc - (1 / 2) * u.c1 * sign sc)
        (shift_half (absc k) u.c2 (snap u.c2 (is.c2 * absc k))) qb) qb) qb) qb) qb
  -- w axis surface contributions
  let qb := forLoop 2 (fun sc qb => forLoop surface_count.i2.toNat (fun i qb =>
    forLoop n (fun j qb => forLoop n (fun k qb =>
      put (shift_half (absc j) u.c0 (snap u.c0 (is.c0 * absc j)))
        (shift_half (absc k) u.c1 (snap u.c1 (is.c1 * absc k)))
        (sign sc - (i : ℚ) * u.c2 * sign sc - (1 / 2) * u.c2 * sign sc) qb) qb) qb) qb) qb
  -- edge contributions
  let qb := forLoop 12 (fun sc qb =>
    forLoop (edge_counts surface_count sc).1.toNat (fun i qb =>
      forLoop (edge_counts surface_count sc).2.toNat (fun j qb =>
        forLoop n (fun k qb =>
          let p := edge_sample u is absc sc i j k
          put p.c0 p.c1 p.c2 qb) qb) qb) qb) qb
  -- corner contributions
  forLoop 8 (fun sc qb => forLoop surface_count.i0.toNat (fun i qb =>
    forLoop surface_count.i1.toNat (fun j qb => forLoop surface_count.i2.toNat (fun k qb =>
      let p := corner_sample u sc i j k
      put p.c0 p.c1 p.c2 qb) qb) qb) qb) qb

/-- The function `NBinCAC::compute_quad_points`: fills the scratch buffer
`buf` with the quadrature points of entity `element_index`; the value it
returns is the final `quadrature_counter`. -/
def compute_quad_points (a : Atom) (q : Quad) (element_index : Nat) (buf : Nat → Vec3) :
    QuadBuf :=
  let nodes_per_element := a.nodes_per_element_list (a.element_type element_index)
  let unit_cell_mapped : Vec3 :=
    ⟨2 / ((a.element_scale element_index).i0 : ℚ), 2 / ((a.element_scale element_index).i1 : ℚ),
     2 / ((a.element_scale element_index).i2 : ℚ)⟩
  let current_poly_count := a.poly_count element_index
  forLoop current_poly_count
    (quad_points_of_phase (a.nodal_positions element_index) nodes_per_element unit_cell_mapped
      (q.interior_scales element_index) (q.surface_counts element_index)
      q.quadrature_node_count q.quadrature_abcissae)
    { quadrature_counter := 0, current_element_quad_points := buf, samples := [] }

/-- The point count the specification gives for surface counts `(c1,c2,c3)` and
quadrature order `quad`; the same expression as `current_quad_count` in
`bin_atoms_setup` (lines 211-213). -/
def quad_count_formula (quad c1 c2 c3 : Int) : Int :=
  quad * quad * quad + 2 * c1 * quad * quad + 2 * c2 * quad * quad + 2 * c3 * quad * quad
    + 4 * c1 * c2 * quad + 4 * c3 * c2 * quad + 4 * c1 * c3 * quad + 8 * c1 * c2 * c3

/-! ## The indexing driver (`bin_atoms`) -/

/-- The fields of `NBinCAC` that `bin_atoms` writes.  `quad2bin` holds the
entries `quad2bin[0..qi)` written by the running call, in order. -/
structure BinState where
  store : Store
  quad2bin : List Int
  atom2bin : Nat → Int
  bin_overlap_limits : Limits
  current_element_scale : Int3
  current_element_quad_points : Nat → Vec3

/-- Counted loop whose body may fail. -/
def forLoopM {σ : Type} (n : Nat) (body : Nat → σ → Option σ) (s : σ) : Option σ :=
  forLoop n (fun i acc => acc.bind (body i)) (some s)

/-- The body shared by the three entity loops of `bin_atoms` (lines 529-582,
587-640 and 647-700) for entity `i`; `group` tells whether the loop is one of
the two include-group loops, which also record `atom2bin[i]`. -/
def bin_entity (junk : Nat → Nat) (g : Grid) (a : Atom) (q : Quad) (group : Bool) (i : Nat)
    (s : BinState) : Option BinState :=
  let s := { s with current_element_scale := a.element_scale i }
  -- quadrature points of a local entity and their cells
  let s :=
    if i < a.nlocal then
      let qb : QuadBuf :=
        if a.element_type i ≠ 0 then compute_quad_points a q i s.current_element_quad_points
        else { quadrature_counter := 1,
               current_element_quad_points :=
                 Function.update s.current_element_quad_points 0 (a.x i),
               samples := [] }
      forLoop qb.quadrature_counter (fun iquad s =>
        { s with quad2bin := s.quad2bin ++ [quad2bins g (s.current_element_quad_points iquad)] })
        { s with current_element_quad_points := qb.current_element_quad_points }
    else s
  let r := element2bins g a i s.bin_overlap_limits
  let ibin := r.1
  let s := { s with bin_overlap_limits := r.2 }
  let s := if group then { s with atom2bin := Function.update s.atom2bin i ibin } else s
  if a.element_type i = 0 then
    (insert_member junk s.store ibin i).map (fun st => { s with store := st })
  else
    (forRangeM s.bin_overlap_limits.l0 s.bin_overlap_limits.l3 (fun overlapx st =>
      forRangeM s.bin_overlap_limits.l1 s.bin_overlap_limits.l4 (fun overlapy st =>
        forRangeM s.bin_overlap_limits.l2 s.bin_overlap_limits.l5 (fun overlapz st =>
          insert_member junk st (flat_bin g overlapx overlapy overlapz) i) st) st) s.store).map
      (fun st => { s with store := st })

/-- The function `NBinCAC::bin_atoms`.  `includegroup` is the include-group id
(0 when none is set) and `bitmask` stands for `group->bitmask[includegroup]`.
The time stamp `last_bin` is not part of the modelled state. -/
def bin_atoms (junk : Nat → Nat) (g : Grid) (a : Atom) (q : Quad) (includegroup bitmask : Nat)
    (s : BinState) : Option BinState :=
  (clear_counts g.mbins s.store).bind (fun st0 =>
    let s0 : BinState := { s with store := st0, quad2bin := [] }
    let nall := a.nlocal + a.nghost
    if includegroup ≠ 0 then
      (forLoopM (nall - a.nlocal) (fun k s =>
        if a.mask (a.nlocal + k) &&& bitmask ≠ 0 then bin_entity junk g a q true (a.nlocal + k) s
        else some s) s0).bind
        (fun s1 => forLoopM a.nfirst (fun i s => bin_entity junk g a q true i s) s1)
    else
      forLoopM nall (fun i s => bin_entity junk g a q false i s) s0)

/-- The cell in which `bin_atoms` files entity `i`: the cell of `x[i]` for a
point entity, the cell of the inflated low corner for an extended entity. -/
def home_cell (g : Grid) (a : Atom) (i : Nat) : Int :=
  if a.element_type i = 0 then quad2bins g (a.x i)
  else flat_bin g (overlapRange g a i).l0 (overlapRange g a i).l1 (overlapRange g a i).l2

/-- The order in which `bin_atoms` visits the entities. -/
def bin_order (a : Atom) (includegroup bitmask : Nat) : List Nat :=
  if includegroup ≠ 0 then
    (((List.range (a.nlocal + a.nghost - a.nlocal)).map (fun k => a.nlocal + k)).filter
      (fun i => a.mask i &&& bitmask ≠ 0)) ++ List.range a.nfirst
  else List.range (a.nlocal + a.nghost)

/-- The function `NBinCAC::quadrature_init` (lines 1004-1043): the abscissae of
the 1-point and of the 2-point rule. -/
def quadrature_init (quadrature_rank : Nat) (q : Quad) : Quad :=
  let q1 : Quad :=
    if quadrature_rank = 1 then
      { q with quadrature_node_count := 1, quadrature_abcissae := fun _ => 0 }
    else q
  if quadrature_rank = 2 then
    { q1 with
      quadrature_node_count := 2,
      quadrature_abcissae := fun k =>
        if k = 0 then -(5773502691896258 / 10000000000000000)
        else 5773502691896258 / 10000000000000000 }
  else q1

/-! ## A worked configuration

A cubic box `[0,10]³` cut into `10³` cells of size 1 (search range 2), with six
ghost layers below and above (`mbinlo = -6`, `mbin = 22`).  Entity 0 is a local
single-phase 8-node cube element with nodes at `17/4` and `19/4` on every axis,
scale `(1,1,1)` and `CAC_cut + CAC_skin = 1`, so that its inflated bounding box
`[13/4, 23/4]³` reaches exactly one cell layer beyond cell 4 on each side.
Entity 1 is a ghost point at `(21/2, 1/2, 1/2)`. -/

/-- The grid of the worked configuration. -/
def ex_grid : Grid :=
  { bboxlo := ⟨0, 0, 0⟩, bboxhi := ⟨10, 10, 10⟩,
    bininvx := 1, bininvy := 1, bininvz := 1,
    nbinx := 10, nbiny := 10, nbinz := 10,
    mbinxlo := -6, mbinylo := -6, mbinzlo := -6,
    mbinx := 22, mbiny := 22, mbinz := 22,
    mbins := 10649 }

/-- Node `kkk` of the cube `[17/4, 19/4]³`, in the node order of `shape_function`. -/
def ex_cube_node (kkk : Nat) : Vec3 :=
  { c0 := if kkk = 0 ∨ kkk = 3 ∨ kkk = 4 ∨ kkk = 7 then 17 / 4 else 19 / 4,
    c1 := if kkk = 0 ∨ kkk = 1 ∨ kkk = 4 ∨ kkk = 5 then 17 / 4 else 19 / 4,
    c2 := if kkk = 0 ∨ kkk = 1 ∨ kkk = 2 ∨ kkk = 3 then 17 / 4 else 19 / 4 }

/-- The entity arrays of the worked configuration. -/
def ex_atom : Atom :=
  { nlocal := 1, nghost := 1, nfirst := 0,
    x := fun i => if i = 0 then ⟨9 / 2, 9 / 2, 9 / 2⟩ else ⟨21 / 2, 1 / 2, 1 / 2⟩,
    mask := fun _ => 1,
    element_type := fun i => if i = 0 then 1 else 0,
    element_scale := fun _ => ⟨1, 1, 1⟩,
    poly_count := fun _ => 1,
    nodes_per_element_list := fun t => if t = 0 then 1 else 8,
    nodal_positions := fun _ kkk _ => ex_cube_node kkk,
    CAC_cut := 3 / 4,
    CAC_skin := 1 / 4 }

/-- The quadrature data of the worked configuration: the 2-point rule and the
surface counts `(0,0,0)` that `compute_surface_depths` gives the cube. -/
def ex_quad : Quad :=
  quadrature_init 2
    { quadrature_node_count := 0, quadrature_abcissae := fun _ => 0,
      surface_counts := fun _ => ⟨0, 0, 0⟩, interior_scales := fun _ => ⟨0, 0, 0⟩ }

/-- The state in which `bin_atoms` is entered in the worked configuration: the
store as `bin_atoms_setup` allocates it on the first call. -/
def ex_state : BinState :=
  { store := bin_atoms_setup_store (fun _ => 0) ex_grid.mbins Store.init,
    quad2bin := [],
    atom2bin := fun _ => 0,
    bin_overlap_limits := ⟨0, 0, 0, 0, 0, 0⟩,
    current_element_scale := ⟨0, 0, 0⟩,
    current_element_quad_points := fun _ => ⟨0, 0, 0⟩ }

/-! ## The box partitioner (`setup_bins`) -/

/-- The fatal errors raised through `error->all` / `error->one`:
`domain_too_large` is "Domain too large for neighbor bins",
`box_too_small` is "Cannot use neighbor bins - box size << cutoff",
`too_many_bins` is "Too many neighbor bins" and
`non_numeric` is "Non-numeric positions - simulation unstable". -/
inductive Failure where
  | domain_too_large
  | box_too_small
  | too_many_bins
  | non_numeric
deriving DecidableEq

/-- The round-off margin `#define SMALL 1.0e-6`. -/
def SMALL : ℚ := 1 / 1000000

/-- The ratio `#define CUT2BIN_RATIO 100`. -/
def CUT2BIN_RATIO : ℚ := 100

/-- Neighbor style `BIN` of `enum{NSQ,BIN,MULTI}`. -/
def BIN : Nat := 1

/-- What `setup_bins` reads besides the entity arrays: the domain, the
communication cutoff, the neighbor settings copied into `NBin`, the search
range, and the pieces declared outside the sources at hand (the constant
`MAXSMALLINT` and, for triclinic boxes, `domain->x2lamda` and `domain->bbox`). -/
structure SetupInput where
  triclinic : Nat
  dimension : Nat
  sublo : Vec3
  subhi : Vec3
  sublo_lamda : Vec3
  subhi_lamda : Vec3
  bboxlo : Vec3
  bboxhi : Vec3
  cutghost : Vec3
  neighbor_cutneighmax : ℚ
  cutneighmax : ℚ
  cutneighmin : ℚ
  binsizeflag : Nat
  binsize_user : ℚ
  max_search_range : ℚ
  MAXSMALLINT : Int
  x2lamda : Vec3 → Vec3
  domain_bbox : Vec3 → Vec3 → Vec3 × Vec3

/-- What `setup_bins` leaves behind: the grid fields, the cell sizes, and the
locals `mbinxhi, mbinyhi, mbinzhi`, `bsubboxlo`, `bsubboxhi`. -/
structure SetupResult where
  grid : Grid
  binsizex : ℚ
  binsizey : ℚ
  binsizez : ℚ
  mbinxhi : Int
  mbinyhi : Int
  mbinzhi : Int
  bsubboxlo : Vec3
  bsubboxhi : Vec3

/-- The orthogonal stretching loop of `setup_bins` (lines 284-323): the sub-box
`(bsubboxlo, bsubboxhi)` is widened, on the first `dimension` axes, over the
node bounding box of every local extended entity. -/
def stretch_subbox (a : Atom) (dimension : Nat) (sub : Vec3 × Vec3) : Vec3 × Vec3 :=
  forLoop a.nlocal (fun element_index bs =>
    if a.element_type element_index ≠ 0 then
      let eb := node_bounding_box (a.nodal_positions element_index)
        (a.poly_count element_index) (a.nodes_per_element_list (a.element_type element_index))
      forLoop dimension (fun dim bs =>
        let hi := if eb.2.get dim > bs.2.get dim then bs.2.set dim (eb.2.get dim) else bs.2
        let lo := if eb.1.get dim < bs.1.get dim then bs.1.set dim (eb.1.get dim) else bs.1
        (lo, hi)) bs
    else bs) sub

/-- The triclinic stretching loop of `setup_bins` (lines 342-379): the sub-box
`(lo, hi)` in fractional coordinates is widened, on the first `dimension` axes,
over the fractional coordinates of every node of every local extended entity. -/
def stretch_subbox_lamda (a : Atom) (dimension : Nat) (x2lamda : Vec3 → Vec3)
    (sub : Vec3 × Vec3) : Vec3 × Vec3 :=
  forLoop a.nlocal (fun element_index lh =>
    if a.element_type element_index ≠ 0 then
      forLoop (a.poly_count element_index) (fun poly_counter lh =>
        forLoop (a.nodes_per_element_list (a.element_type element_index)) (fun kkk lh =>
          let lamda_temp := x2lamda (a.nodal_positions element_index kkk poly_counter)
          forLoop dimension (fun dim lh =>
            let hi := if lamda_temp.get dim > lh.2.get dim
              then lh.2.set dim (lamda_temp.get dim) else lh.2
            let lo := if lamda_temp.get dim < lh.1.get dim
              then lh.1.set dim (lamda_temp.get dim) else lh.1
            (lo, hi)) lh) lh) lh
    else lh) sub

/-- The expanded sub-box `(bsubboxlo, bsubboxhi)` of `setup_bins` (lines
275-388): stretched over the local elements and inflated by the search range
and the ghost cutoff. -/
def expanded_subbox (inp : SetupInput) (a : Atom) : Vec3 × Vec3 :=
  if inp.triclinic = 0 then
    let bs := stretch_subbox a inp.dimension (inp.sublo, inp.subhi)
    (⟨bs.1.c0 - (inp.max_search_range + inp.cutghost.c0),
      bs.1.c1 - (inp.max_search_range + inp.cutghost.c1),
      bs.1.c2 - (inp.max_search_range + inp.cutghost.c2)⟩,
     ⟨bs.2.c0 + (inp.max_search_range + inp.cutghost.c0),
      bs.2.c1 + (inp.max_search_range + inp.cutghost.c1),
      bs.2.c2 + (inp.max_search_range + inp.cutghost.c2)⟩)
  else
    let lh := stretch_subbox_lamda a inp.dimension inp.x2lamda
      (inp.sublo_lamda, inp.subhi_lamda)
    let cut_max := inp.neighbor_cutneighmax
    inp.domain_bbox
      ⟨lh.1.c0 - inp.cutghost.c0 * (inp.max_search_range / cut_max + 1),
       lh.1.c1 - inp.cutghost.c1 * (inp.max_search_range / cut_max + 1),
       lh.1.c2 - inp.cutghost.c2 * (inp.max_search_range / cut_max + 1)⟩
      ⟨lh.2.c0 + inp.cutghost.c0 * (inp.max_search_range / cut_max + 1),
       lh.2.c1 + inp.cutghost.c1 * (inp.max_search_range / cut_max + 1),
       lh.2.c2 + inp.cutghost.c2 * (inp.max_search_range / cut_max + 1)⟩

/-- The cell size `binsize_optimal` of `setup_bins` (lines 400-405): chosen from
the user size, the style and the neighbor cutoffs, and then overwritten with
half the search range. -/
def binsize_optimal (inp : SetupInput) (style : Nat) : ℚ :=
  let bbox0 := inp.bboxhi.c0 - inp.bboxlo.c0
  let b :=
    if inp.binsizeflag ≠ 0 then inp.binsize_user
    else if style = BIN then (1 / 2) * inp.cutneighmax
    else (1 / 2) * inp.cutneighmin
  let _b := if b = 0 then bbox0 else b
  (1 / 2) * inp.max_search_range

/-- Number of interior cells on one axis (lines 418-425): the truncated quotient,
raised to 1 when it is 0. -/
def axis_nbin (bbox binsizeinv : ℚ) : Int :=
  let nbin := static_cast_int (bbox * binsizeinv)
  if nbin = 0 then 1 else nbin

/-- Lowest cell index a ghost could fall into on one axis, before the extension
by one cell (lines 454-456). -/
def axis_mbinlo (bsubboxlo bbox bboxlo bininv : ℚ) : Int :=
  let coord := bsubboxlo - SMALL * bbox
  let mbinlo := static_cast_int ((coord - bboxlo) * bininv)
  if coord < bboxlo then mbinlo - 1 else mbinlo

/-- Highest cell index a ghost could fall into on one axis, before the extension
by one cell (lines 457-458). -/
def axis_mbinhi (bsubboxhi bbox bboxlo bininv : ℚ) : Int :=
  let coord := bsubboxhi + SMALL * bbox
  static_cast_int ((coord - bboxlo) * bininv)

/-- Everything `setup_bins` computes, without its three error exits. -/
def setup_geometry (inp : SetupInput) (a : Atom) (style : Nat) : SetupResult :=
  let bs := expanded_subbox inp a
  let bsubboxlo := bs.1
  let bsubboxhi := bs.2
  let bbox : Vec3 := ⟨inp.bboxhi.c0 - inp.bboxlo.c0, inp.bboxhi.c1 - inp.bboxlo.c1,
    inp.bboxhi.c2 - inp.bboxlo.c2⟩
  let binsizeinv := 1 / binsize_optimal inp style
  let nbinx := axis_nbin bbox.c0 binsizeinv
  let nbiny := axis_nbin bbox.c1 binsizeinv
  let nbinz := if inp.dimension = 3 then axis_nbin bbox.c2 binsizeinv else 1
  let binsizex := bbox.c0 / (nbinx : ℚ)
  let binsizey := bbox.c1 / (nbiny : ℚ)
  let binsizez := bbox.c2 / (nbinz : ℚ)
  let bininvx := 1 / binsizex
  let bininvy := 1 / binsizey
  let bininvz := 1 / binsizez
  let mbinxlo := axis_mbinlo bsubboxlo.c0 bbox.c0 inp.bboxlo.c0 bininvx - 1
  let mbinxhi := axis_mbinhi bsubboxhi.c0 bbox.c0 inp.bboxlo.c0 bininvx + 1
  let mbinx := mbinxhi - mbinxlo + 1
  let mbinylo := axis_mbinlo bsubboxlo.c1 bbox.c1 inp.bboxlo.c1 bininvy - 1
  let mbinyhi := axis_mbinhi bsubboxhi.c1 bbox.c1 inp.bboxlo.c1 bininvy + 1
  let mbiny := mbinyhi - mbinylo + 1
  let mbinzlo :=
    if inp.dimension = 3 then axis_mbinlo bsubboxlo.c2 bbox.c2 inp.bboxlo.c2 bininvz - 1 else 0
  let mbinzhi :=
    if inp.dimension = 3 then axis_mbinhi bsubboxhi.c2 bbox.c2 inp.bboxlo.c2 bininvz + 1 else 0
  let mbinz := mbinzhi - mbinzlo + 1
  let bbin : Int := mbinx * mbiny * mbinz + 1
  { grid :=
      { bboxlo := inp.bboxlo, bboxhi := inp.bboxhi,
        bininvx := bininvx, bininvy := bininvy, bininvz := bininvz,
        nbinx := nbinx, nbiny := nbiny, nbinz := nbinz,
        mbinxlo := mbinxlo, mbinylo := mbinylo, mbinzlo := mbinzlo,
        mbinx := mbinx, mbiny := mbiny, mbinz := mbinz,
        mbins := bbin.toNat },
    binsizex := binsizex, binsizey := binsizey, binsizez := binsizez,
    mbinxhi := mbinxhi, mbinyhi := mbinyhi, mbinzhi := mbinzhi,
    bsubboxlo := bsubboxlo, bsubboxhi := bsubboxhi }

/-- The function `NBinCAC::setup_bins` (lines 243-494).  The three tests are
made in the order of the code: domain too large (410-412), box much smaller
than the cutoff (441-444), too many bins (491-492).  The divisions are exact;
the model is meant for `max_search_range ≠ 0` and a box of positive extent,
where none of them divides by zero. -/
def setup_bins (inp : SetupInput) (a : Atom) (style : Nat) : Except Failure SetupResult :=
  let r := setup_geometry inp a style
  let bbox : Vec3 := ⟨inp.bboxhi.c0 - inp.bboxlo.c0, inp.bboxhi.c1 - inp.bboxlo.c1,
    inp.bboxhi.c2 - inp.bboxlo.c2⟩
  let binsizeinv := 1 / binsize_optimal inp style
  if bbox.c0 * binsizeinv > (inp.MAXSMALLINT : ℚ) ∨ bbox.c1 * binsizeinv > (inp.MAXSMALLINT : ℚ) ∨
      bbox.c2 * binsizeinv > (inp.MAXSMALLINT : ℚ) then
    Except.error Failure.domain_too_large
  else if binsize_optimal inp style * r.grid.bininvx > CUT2BIN_RATIO ∨
      binsize_optimal inp style * r.grid.bininvy > CUT2BIN_RATIO ∨
      binsize_optimal inp style * r.grid.bininvz > CUT2BIN_RATIO then
    Except.error Failure.box_too_small
  else if r.grid.mbinx * r.grid.mbiny * r.grid.mbinz + 1 > inp.MAXSMALLINT then
    Except.error Failure.too_many_bins
  else Except.ok r

/-- A valid setting for `setup_bins`: a global box of positive extent on every
axis and a positive search range. -/
def SetupInput.Valid (inp : SetupInput) : Prop :=
  inp.bboxlo.c0 < inp.bboxhi.c0 ∧ inp.bboxlo.c1 < inp.bboxhi.c1 ∧
    inp.bboxlo.c2 < inp.bboxhi.c2 ∧ 0 < inp.max_search_range

instance (inp : SetupInput) : Decidable inp.Valid := by
  unfold SetupInput.Valid
  infer_instance

/-- The first test of `setup_bins` (lines 410-411). -/
def domain_too_large_test (inp : SetupInput) (style : Nat) : Prop :=
  (inp.bboxhi.c0 - inp.bboxlo.c0) * (1 / binsize_optimal inp style) > (inp.MAXSMALLINT : ℚ) ∨
    (inp.bboxhi.c1 - inp.bboxlo.c1) * (1 / binsize_optimal inp style) > (inp.MAXSMALLINT : ℚ) ∨
    (inp.bboxhi.c2 - inp.bboxlo.c2) * (1 / binsize_optimal inp style) > (inp.MAXSMALLINT : ℚ)

/-- The second test of `setup_bins` (lines 441-443). -/
def box_too_small_test (inp : SetupInput) (a : Atom) (style : Nat) : Prop :=
  binsize_optimal inp style * (setup_geometry inp a style).grid.bininvx > CUT2BIN_RATIO ∨
    binsize_optimal inp style * (setup_geometry inp a style).grid.bininvy > CUT2BIN_RATIO ∨
    binsize_optimal inp style * (setup_geometry inp a style).grid.bininvz > CUT2BIN_RATIO

/-- The third test of `setup_bins` (lines 491-492). -/
def too_many_bins_test (inp : SetupInput) (a : Atom) (style : Nat) : Prop :=
  (setup_geometry inp a style).grid.mbinx * (setup_geometry inp a style).grid.mbiny
    * (setup_geometry inp a style).grid.mbinz + 1 > inp.MAXSMALLINT

instance (inp : SetupInput) (style : Nat) : Decidable (domain_too_large_test inp style) := by
  unfold domain_too_large_test
  infer_instance

instance (inp : SetupInput) (a : Atom) (style : Nat) :
    Decidable (box_too_small_test inp a style) := by
  unfold box_too_small_test
  infer_instance

instance (inp : SetupInput) (a : Atom) (style : Nat) :
    Decidable (too_many_bins_test inp a style) := by
  unfold too_many_bins_test
  infer_instance

/-- The expanded sub-box is not empty: its low corner is not above its high
corner on any axis. -/
def SetupInput.SubboxOrdered (inp : SetupInput) (a : Atom) : Prop :=
  (expanded_subbox inp a).1.c0 ≤ (expanded_subbox inp a).2.c0 ∧
    (expanded_subbox inp a).1.c1 ≤ (expanded_subbox inp a).2.c1 ∧
    (expanded_subbox inp a).1.c2 ≤ (expanded_subbox inp a).2.c2

/-- The setting of the worked configuration: one process owning the whole box
`[0,10]³`, search range 2, ghost cutoff 2, orthogonal, 3-D. -/
def ex_setup : SetupInput :=
  { triclinic := 0, dimension := 3,
    sublo := ⟨0, 0, 0⟩, subhi := ⟨10, 10, 10⟩,
    sublo_lamda := ⟨0, 0, 0⟩, subhi_lamda := ⟨1, 1, 1⟩,
    bboxlo := ⟨0, 0, 0⟩, bboxhi := ⟨10, 10, 10⟩,
    cutghost := ⟨2, 2, 2⟩,
    neighbor_cutneighmax := 2, cutneighmax := 2, cutneighmin := 2,
    binsizeflag := 0, binsize_user := 0,
    max_search_range := 2,
    MAXSMALLINT := 2147483647,
    x2lamda := fun v => ⟨v.c0 / 10, v.c1 / 10, v.c2 / 10⟩,
    domain_bbox := fun lo hi => (⟨lo.c0 * 10, lo.c1 * 10, lo.c2 * 10⟩,
      ⟨hi.c0 * 10, hi.c1 * 10, hi.c2 * 10⟩) }

/-- The widening step both bounding-box loops are made of: for the axes
`dim < n`, lower the low corner to `plo` and raise the high corner to `phi`
where they lie outside. -/
def widen (plo phi : Vec3) (n : Nat) (bb : Vec3 × Vec3) : Vec3 × Vec3 :=
  forLoop n (fun dim bb =>
    (if plo.get dim < bb.1.get dim then bb.1.set dim (plo.get dim) else bb.1,
     if phi.get dim > bb.2.get dim then bb.2.set dim (phi.get dim) else bb.2)) bb

/-- The box `bb` is, on the axes below `n`, the smallest box that contains the
box `bb0` and every point of `pts`; on the other axes it equals `bb0`. -/
def BoxSpan (n : Nat) (bb0 : Vec3 × Vec3) (pts : Vec3 → Prop) (bb : Vec3 × Vec3) : Prop :=
  ∀ d, d < 3 →
    (bb.1.get d ≤ bb0.1.get d ∧ bb0.2.get d ≤ bb.2.get d) ∧
    (d < n → ∀ q, pts q → bb.1.get d ≤ q.get d ∧ q.get d ≤ bb.2.get d) ∧
    (bb.1.get d = bb0.1.get d ∨ (d < n ∧ ∃ q, pts q ∧ bb.1.get d = q.get d)) ∧
    (bb.2.get d = bb0.2.get d ∨ (d < n ∧ ∃ q, pts q ∧ bb.2.get d = q.get d))

/-! ## Non-finite coordinates -/

/-- The values of a C `double`: the finite ones (taken as exact rationals), the
two infinities and NaN. -/
inductive Dbl where
  | fin (q : ℚ)
  | pinf
  | ninf
  | nan
deriving DecidableEq

/-- Modelled from the spec: the macro `ISFINITE`, which this repository uses
but does not define; it holds exactly for the values that are neither NaN nor
infinite. -/
def ISFINITE : Dbl → Bool
  | Dbl.fin _ => true
  | _ => false

/-- The comparison `a < b` of two doubles: false as soon as one side is NaN. -/
def Dbl.lt : Dbl → Dbl → Bool
  | Dbl.fin a, Dbl.fin b => decide (a < b)
  | Dbl.fin _, Dbl.pinf => true
  | Dbl.ninf, Dbl.fin _ => true
  | Dbl.ninf, Dbl.pinf => true
  | _, _ => false

/-- The rational a finite double stands for (0 for the other values, on which
it is not used). -/
def Dbl.val : Dbl → ℚ
  | Dbl.fin q => q
  | _ => 0

/-- A `double[3]` that may hold non-finite values. -/
structure Dbl3 where
  c0 : Dbl
  c1 : Dbl
  c2 : Dbl
deriving DecidableEq

/-- Component `dim` of a `double[3]`. -/
def Dbl3.get (v : Dbl3) (dim : Nat) : Dbl :=
  if dim = 0 then v.c0 else if dim = 1 then v.c1 else v.c2

/-- Assignment `v[dim] = a`. -/
def Dbl3.set (v : Dbl3) (dim : Nat) (a : Dbl) : Dbl3 :=
  if dim = 0 then { v with c0 := a } else if dim = 1 then { v with c1 := a } else { v with c2 := a }

/-- The rationals of a triple of finite doubles. -/
def Dbl3.val (v : Dbl3) : Vec3 := ⟨v.c0.val, v.c1.val, v.c2.val⟩

/-- A triple of finite doubles. -/
def Vec3.toDbl3 (v : Vec3) : Dbl3 := ⟨Dbl.fin v.c0, Dbl.fin v.c1, Dbl.fin v.c2⟩

/-- The function `NBinCAC::quad2bins` on a point whose coordinates may be
non-finite: the guard of lines 725-726 raises the error, otherwise the cell id
is computed as in `quad2bins`. -/
def quad2bins_checked (g : Grid) (x : Dbl3) : Except Failure Int :=
  if (!ISFINITE x.c0 || !ISFINITE x.c1 || !ISFINITE x.c2) = true then
    Except.error Failure.non_numeric
  else
    Except.ok (quad2bins g x.val)

/-- The bounding-box loop of `element2bins` (lines 831-850) on node positions
that may be non-finite. -/
def node_bounding_box_dbl (pos : Nat → Nat → Dbl3) (current_poly_count nodes_per_element : Nat) :
    Dbl3 × Dbl3 :=
  forLoop current_poly_count (fun poly_counter bb =>
    forLoop nodes_per_element (fun kkk bb =>
      forLoop 3 (fun dim bb =>
        let lo := if Dbl.lt ((pos kkk poly_counter).get dim) (bb.1.get dim) = true
          then bb.1.set dim ((pos kkk poly_counter).get dim) else bb.1
        let hi := if Dbl.lt (bb.2.get dim) ((pos kkk poly_counter).get dim) = true
          then bb.2.set dim ((pos kkk poly_counter).get dim) else bb.2
        (lo, hi)) bb) bb) (pos 0 0, pos 0 0)

/-- The function `NBinCAC::element2bins` on coordinates that may be non-finite:
`x` is `atom->x[element_index]` and `nodal_positions` is
`atom->nodal_positions[element_index]`; the other arrays are read from `a`.
The guard of lines 790-791 tests the three coordinates of `x` and nothing else.
After it the function proceeds as `element2bins`; the result is `none` when a
corner of the bounding box is not finite, because the conversion of such a value
to `int` (lines 860-907) has no defined result. -/
def element2bins_checked (g : Grid) (a : Atom) (x : Dbl3) (nodal_positions : Nat → Nat → Dbl3)
    (element_index : Nat) (lim : Limits) : Except Failure (Option (Int × Limits)) :=
  if (!ISFINITE x.c0 || !ISFINITE x.c1 || !ISFINITE x.c2) = true then
    Except.error Failure.non_numeric
  else
    let CAC_cut := a.CAC_cut + a.CAC_skin
    let ix := axis_bin g.bboxlo.c0 g.bboxhi.c0 g.bininvx g.nbinx x.c0.val
    let iy := axis_bin g.bboxlo.c1 g.bboxhi.c1 g.bininvy g.nbiny x.c1.val
    let iz := axis_bin g.bboxlo.c2 g.bboxhi.c2 g.bininvz g.nbinz x.c2.val
    if a.element_type element_index ≠ 0 then
      let current_poly_count := a.poly_count element_index
      let nodes_per_element := a.nodes_per_element_list (a.element_type element_index)
      let bb := node_bounding_box_dbl nodal_positions current_poly_count nodes_per_element
      if (ISFINITE bb.1.c0 && ISFINITE bb.1.c1 && ISFINITE bb.1.c2
          && ISFINITE bb.2.c0 && ISFINITE bb.2.c1 && ISFINITE bb.2.c2) = true then
        let bounding_boxlo : Vec3 :=
          ⟨bb.1.c0.val - CAC_cut, bb.1.c1.val - CAC_cut, bb.1.c2.val - CAC_cut⟩
        let bounding_boxhi : Vec3 :=
          ⟨bb.2.c0.val + CAC_cut, bb.2.c1.val + CAC_cut, bb.2.c2.val + CAC_cut⟩
        let ixl := axis_bin g.bboxlo.c0 g.bboxhi.c0 g.bininvx g.nbinx bounding_boxlo.c0
        let iyl := axis_bin g.bboxlo.c1 g.bboxhi.c1 g.bininvy g.nbiny bounding_boxlo.c1
        let izl := axis_bin g.bboxlo.c2 g.bboxhi.c2 g.bininvz g.nbinz bounding_boxlo.c2
        let _ixh := axis_bin g.bboxlo.c0 g.bboxhi.c0 g.bininvx g.nbinx bounding_boxhi.c0
        let _iyh := axis_bin g.bboxlo.c1 g.bboxhi.c1 g.bininvy g.nbiny bounding_boxhi.c1
        let _izh := axis_bin g.bboxlo.c2 g.bboxhi.c2 g.bininvz g.nbinz bounding_boxhi.c2
        Except.ok (some (flat_bin g ix iy iz,
          ({ l0 := ixl, l1 := iyl, l2 := izl, l3 := ixl, l4 := iyl, l5 := izl } : Limits)))
      else Except.ok none
    else Except.ok (some (flat_bin g ix iy iz, lim))

/-- The nodes of the cube of the worked configuration with the x coordinate of
node 1 replaced by NaN. -/
def ex_nan_nodes (kkk : Nat) (_poly_counter : Nat) : Dbl3 :=
  if kkk = 1 then ⟨Dbl.nan, Dbl.fin (17 / 4), Dbl.fin (17 / 4)⟩
  else (ex_cube_node kkk).toDbl3

/-- A store after a first allocation of two cells. -/
def ex_small_store : Store := bin_atoms_setup_store (fun _ => 0) 2 Store.init

/-- A point of the expanded sub-box of the worked configuration. -/
def ex_point : Vec3 := ⟨9 / 2, -3, 27 / 2⟩

/-- What `setup_bins` computes in the worked configuration. -/
def ex_result : SetupResult := setup_geometry ex_setup ex_atom BIN

/-! ## Surface depths (`compute_surface_depths`) -/

/-- The sum `ds_x + ds_y + ds_z` of `compute_surface_depths` (lines 937-942):
squared distance between nodes 0 and 1 of phase `poly`. -/
def ds_sq (current_nodal_positions : Nat → Nat → Vec3) (poly : Nat) : ℚ :=
  let ds_x := ((current_nodal_positions 0 poly).c0 - (current_nodal_positions 1 poly).c0) *
    ((current_nodal_positions 0 poly).c0 - (current_nodal_positions 1 poly).c0)
  let ds_y := ((current_nodal_positions 0 poly).c1 - (current_nodal_positions 1 poly).c1) *
    ((current_nodal_positions 0 poly).c1 - (current_nodal_positions 1 poly).c1)
  let ds_z := ((current_nodal_positions 0 poly).c2 - (current_nodal_positions 1 poly).c2) *
    ((current_nodal_positions 0 poly).c2 - (current_nodal_positions 1 poly).c2)
  ds_x + ds_y + ds_z

/-- The sum `dt_x + dt_y + dt_z` (lines 946-951): squared distance between
nodes 0 and 3 of phase `poly`. -/
def dt_sq (current_nodal_positions : Nat → Nat → Vec3) (poly : Nat) : ℚ :=
  let dt_x := ((current_nodal_positions 0 poly).c0 - (current_nodal_positions 3 poly).c0) *
    ((current_nodal_positions 0 poly).c0 - (current_nodal_positions 3 poly).c0)
  let dt_y := ((current_nodal_positions 0 poly).c1 - (current_nodal_positions 3 poly).c1) *
    ((current_nodal_positions 0 poly).c1 - (current_nodal_positions 3 poly).c1)
  let dt_z := ((current_nodal_positions 0 poly).c2 - (current_nodal_positions 3 poly).c2) *
    ((current_nodal_positions 0 poly).c2 - (current_nodal_positions 3 poly).c2)
  dt_x + dt_y + dt_z

/-- The sum `dw_x + dw_y + dw_z` (lines 956-961).  The second factor of `dw_y`
reads node 3 (line 959); the other five factors read node 4. -/
def dw_sq (current_nodal_positions : Nat → Nat → Vec3) (poly : Nat) : ℚ :=
  let dw_x := ((current_nodal_positions 0 poly).c0 - (current_nodal_positions 4 poly).c0) *
    ((current_nodal_positions 0 poly).c0 - (current_nodal_positions 4 poly).c0)
  let dw_y := ((current_nodal_positions 0 poly).c1 - (current_nodal_positions 4 poly).c1) *
    ((current_nodal_positions 0 poly).c1 - (current_nodal_positions 3 poly).c1)
  let dw_z := ((current_nodal_positions 0 poly).c2 - (current_nodal_positions 4 poly).c2) *
    ((current_nodal_positions 0 poly).c2 - (current_nodal_positions 4 poly).c2)
  dw_x + dw_y + dw_z

/-- The two assignments to `ds_surf` before the clamp (lines 943-944, repeated
at 953-954 and 963-964): `2 * rcut / spacing`, then
`u * (int)(ds_surf / u) + u`. -/
def skin_unclamped (rcut u spacing : ℚ) : ℚ :=
  let ds_surf := 2 * rcut / spacing
  u * ((static_cast_int (ds_surf / u) : Int) : ℚ) + u

/-- The values of `ds_surf, dt_surf, dw_surf` when `compute_surface_depths`
reaches line 987: quantised, clamped to 1 (lines 965-980) and, in one-layer
mode, replaced by the unit-cell increment (lines 982-986).  `sqrt` stands for
the C library function. -/
def surface_skin (sqrt : ℚ → ℚ) (a : Atom) (one_layer_flag : Nat)
    (current_nodal_positions : Nat → Nat → Vec3) (current_element_scale : Int3)
    (current_poly_counter : Nat) : Vec3 :=
  let poly := current_poly_counter
  let rcut := a.CAC_cut - a.CAC_skin
  let unit_cell_mapped : Vec3 :=
    ⟨2 / (current_element_scale.i0 : ℚ), 2 / (current_element_scale.i1 : ℚ),
     2 / (current_element_scale.i2 : ℚ)⟩
  let ds_surf := skin_unclamped rcut unit_cell_mapped.c0 (sqrt (ds_sq current_nodal_positions poly))
  let dt_surf := skin_unclamped rcut unit_cell_mapped.c1 (sqrt (dt_sq current_nodal_positions poly))
  let dw_surf := skin_unclamped rcut unit_cell_mapped.c2 (sqrt (dw_sq current_nodal_positions poly))
  let ds_surf := if ds_surf > 1 then 1 else ds_surf
  let dt_surf := if dt_surf > 1 then 1 else dt_surf
  let dw_surf := if dw_surf > 1 then 1 else dw_surf
  if one_layer_flag ≠ 0 then unit_cell_mapped else ⟨ds_surf, dt_surf, dw_surf⟩

/-- What `compute_surface_depths` stores through its reference parameters. -/
structure SurfaceDepths where
  scalex : ℚ
  scaley : ℚ
  scalez : ℚ
  countx : Int
  county : Int
  countz : Int

/-- The function `NBinCAC::compute_surface_depths` (lines 924-998); its
parameter `flag` is not read.  The members `current_nodal_positions`,
`current_element_scale` and `current_poly_counter` are passed as arguments. -/
def compute_surface_depths (sqrt : ℚ → ℚ) (a : Atom) (one_layer_flag : Nat)
    (current_nodal_positions : Nat → Nat → Vec3) (current_element_scale : Int3)
    (current_poly_counter : Nat) : SurfaceDepths :=
  let unit_cell_mapped : Vec3 :=
    ⟨2 / (current_element_scale.i0 : ℚ), 2 / (current_element_scale.i1 : ℚ),
     2 / (current_element_scale.i2 : ℚ)⟩
  let sk := surface_skin sqrt a one_layer_flag current_nodal_positions current_element_scale
    current_poly_counter
  { scalex := 1 - sk.c0, scaley := 1 - sk.c1, scalez := 1 - sk.c2,
    countx := static_cast_int (sk.c0 / unit_cell_mapped.c0),
    county := static_cast_int (sk.c1 / unit_cell_mapped.c1),
    countz := static_cast_int (sk.c2 / unit_cell_mapped.c2) }

/-! ## The quadrature part of `bin_atoms_setup` -/

/-- The phase loop of `bin_atoms_setup` for entity `i` (lines 159-179): the
counts and interior scales of phase 0 are stored, and a later phase replaces,
axis by axis, a count it exceeds together with the scale of that axis.  `cs`
holds `surface_counts[i]` and `interior_scales[i]`. -/
def phase_surface_counts (sqrt : ℚ → ℚ) (a : Atom) (one_layer_flag : Nat) (i : Nat)
    (cs : Int3 × Vec3) : Int3 × Vec3 :=
  forLoop (a.poly_count i) (fun current_poly_counter cs =>
    let sd := compute_surface_depths sqrt a one_layer_flag (a.nodal_positions i)
      (a.element_scale i) current_poly_counter
    if current_poly_counter = 0 then
      (⟨sd.countx, sd.county, sd.countz⟩, ⟨sd.scalex, sd.scaley, sd.scalez⟩)
    else
      let cs := if sd.countx > cs.1.i0
        then (({ cs.1 with i0 := sd.countx } : Int3), ({ cs.2 with c0 := sd.scalex } : Vec3))
        else cs
      let cs := if sd.county > cs.1.i1
        then (({ cs.1 with i1 := sd.county } : Int3), ({ cs.2 with c1 := sd.scaley } : Vec3))
        else cs
      let cs := if sd.countz > cs.1.i2
        then (({ cs.1 with i2 := sd.countz } : Int3), ({ cs.2 with c2 := sd.scalez } : Vec3))
        else cs
      cs) cs

/-- The quadrature fields of `NBinCAC` as `bin_atoms_setup` leaves them;
`quad_rows` is the number of rows of `current_element_quad_points` (line 196)
and `quadrature_point_count` the length of `quad2bin` (line 218). -/
structure QuadSetup where
  quad : Quad
  surface_counts_max : Int3
  surface_counts_max_old : Int3
  quad_rows : Int
  quadrature_point_count : Int

/-- The entity loop of `bin_atoms_setup` (lines 151-185) on the arrays
`surface_counts`, `interior_scales` and on `surface_counts_max`. -/
def surface_counts_loop (sqrt : ℚ → ℚ) (a : Atom) (one_layer_flag : Nat)
    (s : (Nat → Int3) × (Nat → Vec3) × Int3) : (Nat → Int3) × (Nat → Vec3) × Int3 :=
  forLoop a.nlocal (fun i s =>
    if a.element_type i ≠ 0 then
      let cs := phase_surface_counts sqrt a one_layer_flag i (s.1 i, s.2.1 i)
      let m := s.2.2
      let m := if cs.1.i0 > m.i0 then { m with i0 := cs.1.i0 } else m
      let m := if cs.1.i1 > m.i1 then { m with i1 := cs.1.i1 } else m
      let m := if cs.1.i2 > m.i2 then { m with i2 := cs.1.i2 } else m
      (Function.update s.1 i cs.1, Function.update s.2.1 i cs.2, m)
    else s) s

/-- The quadrature part of `NBinCAC::bin_atoms_setup` (lines 90 and 141-218):
the quadrature rule is initialised on the first call, the surface counts and
interior scales of the local extended entities are computed, and the scratch
buffer and `quad2bin` are sized.  The arrays `surface_counts` and
`interior_scales` of `q` stand for the memory before the call, allocated or
not; `maxpoly` is `atom->maxpoly`. -/
def bin_atoms_setup_quad (sqrt : ℚ → ℚ) (a : Atom) (one_layer_flag maxpoly : Nat)
    (quad_rule_initialized : Nat) (q : Quad) (surface_counts_max : Int3) : QuadSetup :=
  let q := if quad_rule_initialized = 0 then quadrature_init 2 q else q
  let surface_counts_max_old := surface_counts_max
  let r := surface_counts_loop sqrt a one_layer_flag
    (q.surface_counts, q.interior_scales, surface_counts_max)
  let surface_counts := r.1
  let interior_scales := r.2.1
  let surface_counts_max := r.2.2
  let n1 := surface_counts_max.i0
  let n2 := surface_counts_max.i1
  let n3 := surface_counts_max.i2
  let quad : Int := q.quadrature_node_count
  let max_quad_count := quad * quad * quad + 2 * n1 * quad * quad + 2 * n2 * quad * quad
    + 2 * n3 * quad * quad + 4 * n1 * n2 * quad + 4 * n3 * n2 * quad + 4 * n1 * n3 * quad
    + 8 * n1 * n2 * n3
  let quadrature_point_count : Int := forLoop a.nlocal (fun init quadrature_point_count =>
    if a.element_type init = 0 then quadrature_point_count + 1
    else
      let c1 := (surface_counts init).i0
      let c2 := (surface_counts init).i1
      let c3 := (surface_counts init).i2
      let current_quad_count := quad * quad * quad + 2 * c1 * quad * quad + 2 * c2 * quad * quad
        + 2 * c3 * quad * quad + 4 * c1 * c2 * quad + 4 * c3 * c2 * quad + 4 * c1 * c3 * quad
        + 8 * c1 * c2 * c3
      quadrature_point_count + current_quad_count * (a.poly_count init)) 0
  { quad := { q with surface_counts := surface_counts, interior_scales := interior_scales },
    surface_counts_max := surface_counts_max,
    surface_counts_max_old := surface_counts_max_old,
    quad_rows := max_quad_count * (maxpoly : Int),
    quadrature_point_count := quadrature_point_count }

/-! ## Two more entities for the surface depths -/

/-- Node `kkk` of the cube `[0,4]³`, in the node order of `shape_function`. -/
def ex_fine_node (kkk : Nat) : Vec3 :=
  { c0 := if kkk = 0 ∨ kkk = 3 ∨ kkk = 4 ∨ kkk = 7 then 0 else 4,
    c1 := if kkk = 0 ∨ kkk = 1 ∨ kkk = 4 ∨ kkk = 5 then 0 else 4,
    c2 := if kkk = 0 ∨ kkk = 1 ∨ kkk = 2 ∨ kkk = 3 then 0 else 4 }

/-- One local single-phase cube element `[0,4]³` of scale `(20,20,20)` with
`CAC_cut - CAC_skin = 1/2`. -/
def ex_fine_atom : Atom :=
  { nlocal := 1, nghost := 0, nfirst := 0,
    x := fun _ => ⟨2, 2, 2⟩,
    mask := fun _ => 1,
    element_type := fun _ => 1,
    element_scale := fun _ => ⟨20, 20, 20⟩,
    poly_count := fun _ => 1,
    nodes_per_element_list := fun t => if t = 0 then 1 else 8,
    nodal_positions := fun _ kkk _ => ex_fine_node kkk,
    CAC_cut := 3 / 4,
    CAC_skin := 1 / 4 }

/-- Node `kkk` of the sheared cell spanned by the edges `(5,0,0)`, `(0,11,0)`
and `(0,3,4)` from the origin, in the node order of `shape_function`. -/
def ex_skew_node (kkk : Nat) : Vec3 :=
  { c0 := if kkk = 0 ∨ kkk = 3 ∨ kkk = 4 ∨ kkk = 7 then 0 else 5,
    c1 := (if kkk = 0 ∨ kkk = 1 ∨ kkk = 4 ∨ kkk = 5 then 0 else 11)
      + (if kkk = 0 ∨ kkk = 1 ∨ kkk = 2 ∨ kkk = 3 then 0 else 3),
    c2 := if kkk = 0 ∨ kkk = 1 ∨ kkk = 2 ∨ kkk = 3 then 0 else 4 }

/-- One local single-phase element on the sheared cell, of scale `(20,20,20)`,
with `CAC_cut - CAC_skin = 7/8`. -/
def ex_skew_atom : Atom :=
  { ex_fine_atom with
    nodal_positions := fun _ kkk _ => ex_skew_node kkk,
    CAC_cut := 1,
    CAC_skin := 1 / 8 }

/-- The cube element of `ex_fine_atom` with a skin larger than the cutoff:
`CAC_cut - CAC_skin = -1/2`. -/
def ex_thick_skin_atom : Atom :=
  { ex_fine_atom with CAC_cut := 1 / 4, CAC_skin := 3 / 4 }

/-! ## The trilinear basis of the specification -/

/-- The corner signs `(s_k, t_k, w_k)` of the specification, for `k = 1..8` in
the order (-,-,-), (+,-,-), (+,+,-), (-,+,-), (-,-,+), (+,-,+), (+,+,+),
(-,+,+). -/
def spec_corner_sign (k : Nat) : Vec3 :=
  { c0 := if k = 1 ∨ k = 4 ∨ k = 5 ∨ k = 8 then -1 else 1,
    c1 := if k = 1 ∨ k = 2 ∨ k = 5 ∨ k = 6 then -1 else 1,
    c2 := if k = 1 ∨ k = 2 ∨ k = 3 ∨ k = 4 then -1 else 1 }

/-- The standard trilinear nodal basis of the specification,
`N_k = (1 + s_k s)(1 + t_k t)(1 + w_k w) / 8`. -/
def spec_trilinear_basis (s t w : ℚ) (k : Nat) : ℚ :=
  (1 + (spec_corner_sign k).c0 * s) * (1 + (spec_corner_sign k).c1 * t)
    * (1 + (spec_corner_sign k).c2 * w) / 8

/-! ## Reading an element line (`AtomVecCAC::data_atom`) -/

/-- The errors `data_atom` raises through `error->one`, in the order of the
code: "poly count declared in data file was greater than maxpoly in input
file", "element type not yet defined ...", "element type requires a greater
number of nodes ...", "Invalid node index ...", "Invalid poly index ...",
"Invalid atom type ..." and "more than one type assigned to the same poly index
in an element". -/
inductive DataFailure where
  | poly_count_too_large
  | element_type_undefined
  | too_many_nodes
  | invalid_node_index
  | invalid_poly_index
  | invalid_atom_type
  | poly_type_conflict
deriving DecidableEq

/-- The entries of the per-entity arrays of `AtomVecCAC` at the slot `nlocal`
that `data_atom` fills; `nodal_positions k p` is
`nodal_positions[nlocal][k][p]`. -/
structure ElementSlot where
  tag : Int
  type : Int
  element_type : Nat
  poly_count : Int
  element_scale : Int3
  node_types : Nat → Int
  nodal_positions : Nat → Nat → Vec3
  initial_nodal_positions : Nat → Nat → Vec3
  nodal_gradients : Nat → Nat → Vec3
  nodal_velocities : Nat → Nat → Vec3

/-- One line of the `CAC_Elements` section as `data_atom` reads it: `ints k` is
`atoi(values[k])` (`ATOTAGINT` for `k = 0`), `dbls k` is `atof(values[k])` and
`element_type_read` is the string `values[1]`. -/
structure DataLine where
  ints : Nat → Int
  dbls : Nat → ℚ
  element_type_read : String

/-- Counted loop whose body may raise an error. -/
def forLoopE {ε σ : Type} (n : Nat) (body : Nat → σ → Except ε σ) (s : σ) : Except ε σ :=
  forLoop n (fun i acc => acc.bind (body i)) (Except.ok s)

/-- The body of the node loop of `data_atom` (lines 1603-1671): one node record
of six values starting at `values[m]`.  An error carries the slot as it is
when the error is raised. -/
def read_node (line : DataLine) (nodetotal npoly ntypes : Int) (st : Nat × ElementSlot) :
    Except (DataFailure × ElementSlot) (Nat × ElementSlot) :=
  let m := st.1
  let slot := st.2
  let node_index := line.ints m
  if node_index ≤ 0 ∨ node_index > nodetotal then
    Except.error (DataFailure.invalid_node_index, slot)
  else
    let poly_index := line.ints (m + 1)
    if poly_index ≤ 0 ∨ poly_index > npoly then
      Except.error (DataFailure.invalid_poly_index, slot)
    else
      let node_index := (node_index - 1).toNat
      let poly_index := (poly_index - 1).toNat
      let node_type := line.ints (m + 2)
      if node_type ≤ 0 ∨ node_type > ntypes then
        Except.error (DataFailure.invalid_atom_type, slot)
      else if slot.node_types poly_index = 0 ∨ slot.node_types poly_index = node_type then
        let p : Vec3 := ⟨line.dbls (m + 3), line.dbls (m + 4), line.dbls (m + 5)⟩
        Except.ok (m + 6,
          { slot with
            node_types := Function.update slot.node_types poly_index node_type,
            nodal_positions := fun k q =>
              if k = node_index ∧ q = poly_index then p else slot.nodal_positions k q,
            initial_nodal_positions := fun k q =>
              if k = node_index ∧ q = poly_index then p else slot.initial_nodal_positions k q,
            nodal_gradients := fun k q =>
              if k = node_index ∧ q = poly_index then ⟨0, 0, 0⟩ else slot.nodal_gradients k q,
            nodal_velocities := fun k q =>
              if k = node_index ∧ q = poly_index then ⟨0, 0, 0⟩
              else slot.nodal_velocities k q })
      else Except.error (DataFailure.poly_type_conflict, slot)

/-- The function `AtomVecCAC::data_atom` from its start to the end of the node
loop (lines 1548-1676), acting on the slot `nlocal`; the bookkeeping of the
scale list that follows it is not part of the model, nor is the growth of the
arrays (`grow(0)`).  `maxpoly` and `nodes_per_element` are the limits given to
the atom style, `nodes_count_list` is `atom->nodes_per_element_list` and
`ntypes` is `atom->ntypes`.  An error carries the slot as it is when the error
is raised. -/
def data_atom (maxpoly nodes_per_element ntypes : Int) (nodes_count_list : Nat → Int)
    (line : DataLine) (slot : ElementSlot) : Except (DataFailure × ElementSlot) ElementSlot :=
  let slot := { slot with tag := line.ints 0, type := 1 }
  let npoly := line.ints 2
  if npoly > maxpoly then Except.error (DataFailure.poly_count_too_large, slot)
  else
    let r : Except (DataFailure × ElementSlot) (Int × Int × ElementSlot) :=
      if line.element_type_read = "Eight_Node" then
        Except.ok (nodes_count_list 1, npoly,
          { slot with
            element_type := 1, poly_count := npoly,
            element_scale := ⟨line.ints 3, line.ints 4, line.ints 5⟩ })
      else if line.element_type_read = "Atom" then
        Except.ok (nodes_count_list 0, 1,
          { slot with element_type := 0, poly_count := 1, element_scale := ⟨1, 1, 1⟩ })
      else Except.error (DataFailure.element_type_undefined, slot)
    r.bind (fun r =>
      let nodetotal := r.1
      let npoly := r.2.1
      let slot := r.2.2
      if nodetotal > nodes_per_element then Except.error (DataFailure.too_many_nodes, slot)
      else
        let slot := forLoop npoly.toNat (fun polycount (slot : ElementSlot) =>
          { slot with node_types := Function.update slot.node_types polycount 0 }) slot
        (forLoopE nodetotal.toNat (fun _nodecount st =>
          forLoopE npoly.toNat (fun _polycount st => read_node line nodetotal npoly ntypes st) st)
          (6, slot)).map (fun st => st.2))

/-- An element line declaring three phases. -/
def ex_line : DataLine :=
  { ints := fun k => if k = 0 then 7 else if k = 2 then 3 else 1,
    dbls := fun _ => 0,
    element_type_read := "Eight_Node" }

/-- An empty slot. -/
def ex_slot : ElementSlot :=
  { tag := 0, type := 0, element_type := 0, poly_count := 0, element_scale := ⟨0, 0, 0⟩,
    node_types := fun _ => 0,
    nodal_positions := fun _ _ => ⟨0, 0, 0⟩,
    initial_nodal_positions := fun _ _ => ⟨0, 0, 0⟩,
    nodal_gradients := fun _ _ => ⟨0, 0, 0⟩,
    nodal_velocities := fun _ _ => ⟨0, 0, 0⟩ }

/-! ## The parametric samples of one phase, as a list -/

/-- The values `P i j k` of a triple loop `i < n1`, `j < n2`, `k < n3`, in the
order of the loop. -/
def grid3 (n1 n2 n3 : Nat) (P : Nat → Nat → Nat → Vec3) : List Vec3 :=
  (List.range n1).flatMap (fun i => (List.range n2).flatMap (fun j =>
    (List.range n3).flatMap (fun k => [P i j k])))

/-- The parametric coordinates `(s,t,w)` at which the body of the phase loop of
`compute_quad_points` interpolates, group after group, in the order of the
code: what `quad_points_of_phase` appends to the ghost field `samples`. -/
def phase_samples (u is : Vec3) (surface_count : Int3) (n : Nat) (absc : Nat → ℚ) :
    List Vec3 :=
  grid3 n n n (fun i j k =>
      ⟨snap u.c0 (is.c0 * absc i), snap u.c1 (is.c1 * absc j), snap u.c2 (is.c2 * absc k)⟩)
    ++ (List.range 2).flatMap (fun sc => grid3 surface_count.i0.toNat n n (fun i j k =>
      ⟨sign sc - (i : ℚ) * u.c0 * sign sc - (1 / 2) * u.c0 * sign sc,
       shift_half (absc j) u.c1 (snap u.c1 (is.c1 * absc j)),
       shift_half (absc k) u.c2 (snap u.c2 (is.c2 * absc k))⟩))
    ++ (List.range 2).flatMap (fun sc => grid3 surface_count.i1.toNat n n (fun i j k =>
      ⟨shift_half (absc j) u.c0 (snap u.c0 (is.c0 * absc j)),
       sign sc - (i : ℚ) * u.c1 * sign sc - (1 / 2) * u.c1 * sign sc,
       shift_half (absc k) u.c2 (snap u.c2 (is.c2 * absc k))⟩))
    ++ (List.range 2).flatMap (fun sc => grid3 surface_count.i2.toNat n n (fun i j k =>
      ⟨shift_half (absc j) u.c0 (snap u.c0 (is.c0 * absc j)),
       shift_half (absc k) u.c1 (snap u.c1 (is.c1 * absc k)),
       sign sc - (i : ℚ) * u.c2 * sign sc - (1 / 2) * u.c2 * sign sc⟩))
    ++ (List.range 12).flatMap (fun sc =>
      grid3 (edge_counts surface_count sc).1.toNat (edge_counts surface_count sc).2.toNat n
        (fun i j k => edge_sample u is absc sc i j k))
    ++ (List.range 8).flatMap (fun sc =>
      grid3 surface_count.i0.toNat surface_count.i1.toNat surface_count.i2.toNat
        (fun i j k => corner_sample u sc i j k))

/-- The zone of a coordinate with respect to the threshold `T`: 0 for the low
surface layers (`v ≤ -T`), 2 for the high ones (`T ≤ v`), 1 in between. -/
def zone (T v : ℚ) : Nat :=
  if v ≤ -T then 0 else if T ≤ v then 2 else 1

/-- The zones of the three coordinates of a sample, for the thresholds
`interior scale + half an increment`. -/
def zones (u is : Vec3) (p : Vec3) : Nat × Nat × Nat :=
  (zone (is.c0 + u.c0 / 2) p.c0, zone (is.c1 + u.c1 / 2) p.c1, zone (is.c2 + u.c2 / 2) p.c2)

/-- The worked configuration with both entities local: entity 1, the point at
`(21/2, 1/2, 1/2)`, is a local point entity. -/
def ex_two_local : Atom :=
  { ex_atom with nlocal := 2, nghost := 0 }

/-! ## The cells of an overlap range, as a list -/

/-- The values of the loop variable of `for (k = lo; k <= hi; k++)`, in order. -/
def int_range (lo hi : Int) : List Int :=
  (List.range (hi + 1 - lo).toNat).map (fun (k : Nat) => lo + (k : Int))

/-- The cell ids `current_bin` that the triple loop of `bin_atoms` over
`bin_overlap_limits` (lines 685-688) visits, in the order of the loop: one entry
for every integer triple of the inclusive range from `limits[0..2]` to
`limits[3..5]`. -/
def range_cells (g : Grid) (lim : Limits) : List Int :=
  (int_range lim.l0 lim.l3).flatMap (fun overlapx =>
    (int_range lim.l1 lim.l4).flatMap (fun overlapy =>
      (int_range lim.l2 lim.l5).map (fun overlapz => flat_bin g overlapx overlapy overlapz)))

/-! ## Element lines with other scale entries -/

/-- The line `line` with `values[3], values[4], values[5]`, the three scale
entries, replaced by `z`. -/
def with_scale (line : DataLine) (z : Int3) : DataLine :=
  { line with
    ints := fun k => if k = 3 then z.i0 else if k = 4 then z.i1 else if k = 5 then z.i2
      else line.ints k }

/-- An `Eight_Node` line with tag 7, one phase, the scale `(0, 4, 4)` and eight
node records `k 1 1 x y z`, `k = 1..8`. -/
def ex_zero_scale_line : DataLine :=
  { ints := fun k =>
      if k = 0 then 7 else if k = 2 then 1 else if k = 3 then 0 else if k = 4 then 4
      else if k = 5 then 4 else if 6 ≤ k ∧ (k - 6) % 6 = 0 then (((k - 6) / 6 + 1 : Nat) : Int)
      else 1,
    dbls := fun k => (k : ℚ),
    element_type_read := "Eight_Node" }

/-! ## Migration of an entity (`AtomVecCAC::pack_exchange`, `unpack_exchange`) -/

/-- The per-entity arrays of `AtomVecCAC` that `pack_exchange` reads and
`unpack_exchange` writes, with `atom->nlocal`; `nodal_positions i k p` is
`nodal_positions[i][k][p]`. -/
structure AtomVec where
  nlocal : Nat
  x : Nat → Vec3
  v : Nat → Vec3
  tag : Nat → Int
  type : Nat → Int
  mask : Nat → Int
  image : Nat → Int
  element_type : Nat → Nat
  element_scale : Nat → Int3
  poly_count : Nat → Nat
  node_types : Nat → Nat → Int
  nodal_positions : Nat → Nat → Nat → Vec3
  initial_nodal_positions : Nat → Nat → Nat → Vec3
  nodal_gradients : Nat → Nat → Nat → Vec3
  nodal_velocities : Nat → Nat → Nat → Vec3

/-- The statement `buf[m++] = val` on the pair `(m, buf)`. -/
def push (val : ℚ) (st : Nat × (Nat → ℚ)) : Nat × (Nat → ℚ) :=
  (st.1 + 1, Function.update st.2 st.1 val)

/-- The function `AtomVecCAC::pack_exchange` (lines 1108-1155) for
`atom->nextra_grow = 0`: the values of entity `i` are written to `buf[1..m)`,
`m` is stored in `buf[0]` and returned.  `ubuf_d n` stands for `ubuf(n).d`, the
double that holds the bits of the integer `n`; an integer assigned to a double
is its value. -/
def pack_exchange (ubuf_d : Int → ℚ) (nodes_count_list : Nat → Nat) (av : AtomVec) (i : Nat)
    (buf : Nat → ℚ) : Nat × (Nat → ℚ) :=
  let st : Nat × (Nat → ℚ) := (1, buf)
  let st := push (av.x i).c0 st
  let st := push (av.x i).c1 st
  let st := push (av.x i).c2 st
  let st := push (av.v i).c0 st
  let st := push (av.v i).c1 st
  let st := push (av.v i).c2 st
  let st := push (ubuf_d (av.tag i)) st
  let st := push (ubuf_d (av.type i)) st
  let st := push (ubuf_d (av.mask i)) st
  let st := push (ubuf_d (av.image i)) st
  let st := push (av.element_type i : ℚ) st
  let st := push ((av.element_scale i).i0 : ℚ) st
  let st := push ((av.element_scale i).i1 : ℚ) st
  let st := push ((av.element_scale i).i2 : ℚ) st
  let st := push (av.poly_count i : ℚ) st
  let st := forLoop (av.poly_count i) (fun type_map st =>
    push (av.node_types i type_map : ℚ) st) st
  let st := forLoop (nodes_count_list (av.element_type i)) (fun nodecount st =>
    forLoop (av.poly_count i) (fun poly_index st =>
      let st := push (av.nodal_positions i nodecount poly_index).c0 st
      let st := push (av.nodal_positions i nodecount poly_index).c1 st
      let st := push (av.nodal_positions i nodecount poly_index).c2 st
      let st := push (av.initial_nodal_positions i nodecount poly_index).c0 st
      let st := push (av.initial_nodal_positions i nodecount poly_index).c1 st
      let st := push (av.initial_nodal_positions i nodecount poly_index).c2 st
      let st := push (av.nodal_gradients i nodecount poly_index).c0 st
      let st := push (av.nodal_gradients i nodecount poly_index).c1 st
      let st := push (av.nodal_gradients i nodecount poly_index).c2 st
      let st := push (av.nodal_velocities i nodecount poly_index).c0 st
      let st := push (av.nodal_velocities i nodecount poly_index).c1 st
      let st := push (av.nodal_velocities i nodecount poly_index).c2 st
      st) st) st
  let m := st.1
  (m, Function.update st.2 0 (m : ℚ))

/-- Assignment `arr[i][p] = val` to a two-dimensional per-entity array. -/
def set2 {α : Type} (arr : Nat → Nat → α) (i p : Nat) (val : α) : Nat → Nat → α :=
  fun i' p' => if i' = i ∧ p' = p then val else arr i' p'

/-- Assignment `arr[i][k][p] = val` to a three-dimensional per-entity array. -/
def set3 {α : Type} (arr : Nat → Nat → Nat → α) (i k p : Nat) (val : α) :
    Nat → Nat → Nat → α :=
  fun i' k' p' => if i' = i ∧ k' = k ∧ p' = p then val else arr i' k' p'

/-- The function `AtomVecCAC::unpack_exchange` (lines 1159-1209) for
`atom->nextra_grow = 0`: the slot `nlocal` is filled from `buf[1..m)`, `nlocal`
is incremented and `m` returned.  `ubuf_i d` stands for `ubuf(d).i`, the integer
whose bits the double `d` holds; a double assigned to an `int` is truncated, and
the counts `element_type`, `poly_count`, kept as naturals, take the truncated
value when it is not negative.  The growth of the arrays (`grow(0)`) is not
part of the model. -/
def unpack_exchange (ubuf_i : ℚ → Int) (nodes_count_list : Nat → Nat) (buf : Nat → ℚ)
    (av : AtomVec) : Nat × AtomVec :=
  let nlocal := av.nlocal
  let av : AtomVec :=
    { av with
      x := Function.update av.x nlocal ⟨buf 1, buf 2, buf 3⟩,
      v := Function.update av.v nlocal ⟨buf 4, buf 5, buf 6⟩,
      tag := Function.update av.tag nlocal (ubuf_i (buf 7)),
      type := Function.update av.type nlocal (ubuf_i (buf 8)),
      mask := Function.update av.mask nlocal (ubuf_i (buf 9)),
      image := Function.update av.image nlocal (ubuf_i (buf 10)),
      element_type := Function.update av.element_type nlocal (static_cast_int (buf 11)).toNat,
      element_scale := Function.update av.element_scale nlocal
        ⟨static_cast_int (buf 12), static_cast_int (buf 13), static_cast_int (buf 14)⟩,
      poly_count := Function.update av.poly_count nlocal (static_cast_int (buf 15)).toNat }
  let st : Nat × AtomVec := (16, av)
  let st := forLoop (st.2.poly_count nlocal) (fun type_map (st : Nat × AtomVec) =>
    (st.1 + 1,
     { st.2 with node_types := set2 st.2.node_types nlocal type_map (static_cast_int (buf st.1)) }))
    st
  let st := forLoop (nodes_count_list (st.2.element_type nlocal))
    (fun nodecount (st : Nat × AtomVec) =>
      forLoop (st.2.poly_count nlocal) (fun poly_index (st : Nat × AtomVec) =>
        let m := st.1
        (m + 12,
         { st.2 with
           nodal_positions := set3 st.2.nodal_positions nlocal nodecount poly_index
             ⟨buf m, buf (m + 1), buf (m + 2)⟩,
           initial_nodal_positions := set3 st.2.initial_nodal_positions nlocal nodecount
             poly_index ⟨buf (m + 3), buf (m + 4), buf (m + 5)⟩,
           nodal_gradients := set3 st.2.nodal_gradients nlocal nodecount poly_index
             ⟨buf (m + 6), buf (m + 7), buf (m + 8)⟩,
           nodal_velocities := set3 st.2.nodal_velocities nlocal nodecount poly_index
             ⟨buf (m + 9), buf (m + 10), buf (m + 11)⟩ })) st) st
  (st.1, { st.2 with nlocal := nlocal + 1 })

/-- The buffer holds the list `l` from index `m` on. -/
def Feeds (buf : Nat → ℚ) (m : Nat) (l : List ℚ) : Prop :=
  ∀ k, k < l.length → l[k]? = some (buf (m + k))

/-- The statements `buf[m++] = val` for the values of a list, in order. -/
def pushes (l : List ℚ) (st : Nat × (Nat → ℚ)) : Nat × (Nat → ℚ) :=
  l.foldl (fun st val => push val st) st

/-- The twelve values that `pack_exchange` writes for node `k` and phase `p`. -/
def node_block (av : AtomVec) (i k p : Nat) : List ℚ :=
  [(av.nodal_positions i k p).c0, (av.nodal_positions i k p).c1, (av.nodal_positions i k p).c2,
   (av.initial_nodal_positions i k p).c0, (av.initial_nodal_positions i k p).c1,
   (av.initial_nodal_positions i k p).c2,
   (av.nodal_gradients i k p).c0, (av.nodal_gradients i k p).c1, (av.nodal_gradients i k p).c2,
   (av.nodal_velocities i k p).c0, (av.nodal_velocities i k p).c1,
   (av.nodal_velocities i k p).c2]

/-- The values that `pack_exchange` writes to `buf[1..m)`, in order: fifteen
header values, the node types of the phases, and a block of twelve values for
every node and phase. -/
def pack_values (ubuf_d : Int → ℚ) (nodes_count_list : Nat → Nat) (av : AtomVec) (i : Nat) :
    List ℚ :=
  [(av.x i).c0, (av.x i).c1, (av.x i).c2, (av.v i).c0, (av.v i).c1, (av.v i).c2,
   ubuf_d (av.tag i), ubuf_d (av.type i), ubuf_d (av.mask i), ubuf_d (av.image i),
   (av.element_type i : ℚ), ((av.element_scale i).i0 : ℚ), ((av.element_scale i).i1 : ℚ),
   ((av.element_scale i).i2 : ℚ), (av.poly_count i : ℚ)]
  ++ (List.range (av.poly_count i)).flatMap (fun type_map => [(av.node_types i type_map : ℚ)])
  ++ (List.range (nodes_count_list (av.element_type i))).flatMap (fun nodecount =>
      (List.range (av.poly_count i)).flatMap (fun poly_index =>
        node_block av i nodecount poly_index))

/-! ## Interpolated positions and the parametric cube -/

/-- The interpolation that every group of `compute_quad_points` performs before
writing a row (lines 1106-1115): the sum over the nodes `kkk` of the position of
node `kkk` in phase `poly_counter` times `shape_function(s,t,w,2,kkk+1)`. -/
def interpolate (pos : Nat → Nat → Vec3) (nodes_per_element poly_counter : Nat)
    (s t w : ℚ) : Vec3 :=
  forLoop nodes_per_element (fun kkk qp =>
    let shape_func := shape_function s t w 2 (kkk + 1)
    ({ c0 := qp.c0 + (pos kkk poly_counter).c0 * shape_func,
       c1 := qp.c1 + (pos kkk poly_counter).c1 * shape_func,
       c2 := qp.c2 + (pos kkk poly_counter).c2 * shape_func } : Vec3)) ⟨0, 0, 0⟩

/-- The parametric cube `[-1,1]³`. -/
def in_cube (p : Vec3) : Prop :=
  (-1 ≤ p.c0 ∧ p.c0 ≤ 1) ∧ (-1 ≤ p.c1 ∧ p.c1 ≤ 1) ∧ (-1 ≤ p.c2 ∧ p.c2 ≤ 1)

instance (p : Vec3) : Decidable (in_cube p) := by
  unfold in_cube
  infer_instance

/-- The position `p` lies in the axis-aligned box with corners `bb.1`, `bb.2`. -/
def in_box (bb : Vec3 × Vec3) (p : Vec3) : Prop :=
  (bb.1.c0 ≤ p.c0 ∧ p.c0 ≤ bb.2.c0) ∧ (bb.1.c1 ≤ p.c1 ∧ p.c1 ≤ bb.2.c1) ∧
  (bb.1.c2 ≤ p.c2 ∧ p.c2 ≤ bb.2.c2)

instance (bb : Vec3 × Vec3) (p : Vec3) : Decidable (in_box bb p) := by
  unfold in_box
  infer_instance

/-- What an axis needs for its sampling coordinates to stay in `[-1,1]`:
increment `u` in `(0,2]`, interior factor `is` in `[-1,1]`, layer count `c` with
`c * u ≤ 2`, and either `is ≥ 0` with `is + u/2 ≤ 1` or the values `is = -1`,
`u = 2` of single-layer mode at scale 1. -/
def axis_ok (u is : ℚ) (c : Int) : Prop :=
  0 < u ∧ u ≤ 2 ∧ -1 ≤ is ∧ is ≤ 1 ∧ (c : ℚ) * u ≤ 2 ∧
  ((0 ≤ is ∧ is + u / 2 ≤ 1) ∨ (is = -1 ∧ u = 2))

/-- The rows of the scratch buffer during phase `p`, which starts at write
index `c0` over the rows `rows0`: the write index equals the number of samples,
rows below `c0` are those of `rows0`, and every row from `c0` on is the
interpolation of the nodes of phase `p` at the sample of that row. -/
def PhaseRows (pos : Nat → Nat → Vec3) (npe p c0 : Nat) (rows0 : Nat → Vec3) (qb : QuadBuf) :
    Prop :=
  qb.quadrature_counter = qb.samples.length ∧ c0 ≤ qb.quadrature_counter ∧
  (∀ r, r < c0 → qb.current_element_quad_points r = rows0 r) ∧
  ∀ r, c0 ≤ r → ∀ smp, qb.samples[r]? = some smp →
    qb.current_element_quad_points r = interpolate pos npe p smp.c0 smp.c1 smp.c2

/-! ## Further worked configurations -/

/-- The slot `data_atom` fills from `ex_zero_scale_line`. -/
def ex_zero_scale_slot : ElementSlot :=
  match data_atom 1 8 1 (fun t => if t = 0 then 1 else 8) ex_zero_scale_line ex_slot with
  | Except.ok s => s
  | Except.error _ => ex_slot

/-- The worked configuration with the scale `(0, 4, 4)` stored for every
entity. -/
def ex_zero_scale_atom : Atom :=
  { ex_atom with element_scale := fun _ => ⟨0, 4, 4⟩ }

/-- One entity to migrate: a single-phase cube element with tag 7 and scale
`(2, 3, 4)`. -/
def ex_atom_vec : AtomVec :=
  { nlocal := 1,
    x := fun _ => ⟨9 / 2, 9 / 2, 9 / 2⟩,
    v := fun _ => ⟨1, 0, -1⟩,
    tag := fun _ => 7,
    type := fun _ => 1,
    mask := fun _ => 1,
    image := fun _ => 0,
    element_type := fun _ => 1,
    element_scale := fun _ => ⟨2, 3, 4⟩,
    poly_count := fun _ => 1,
    node_types := fun _ _ => 1,
    nodal_positions := fun _ kkk _ => ex_cube_node kkk,
    initial_nodal_positions := fun _ kkk _ => ex_cube_node kkk,
    nodal_gradients := fun _ _ _ => ⟨0, 0, 0⟩,
    nodal_velocities := fun _ _ _ => ⟨1, 0, -1⟩ }

/-- An empty receiving process. -/
def ex_atom_vec_empty : AtomVec :=
  { nlocal := 0,
    x := fun _ => ⟨0, 0, 0⟩,
    v := fun _ => ⟨0, 0, 0⟩,
    tag := fun _ => 0,
    type := fun _ => 0,
    mask := fun _ => 0,
    image := fun _ => 0,
    element_type := fun _ => 0,
    element_scale := fun _ => ⟨0, 0, 0⟩,
    poly_count := fun _ => 0,
    node_types := fun _ _ => 0,
    nodal_positions := fun _ _ _ => ⟨0, 0, 0⟩,
    initial_nodal_positions := fun _ _ _ => ⟨0, 0, 0⟩,
    nodal_gradients := fun _ _ _ => ⟨0, 0, 0⟩,
    nodal_velocities := fun _ _ _ => ⟨0, 0, 0⟩ }

/-! ## Machine arithmetic: doubles and 32-bit integers

The definitions above compute with exact rationals and unbounded integers.
Here a `double` is a rational `m * 2^e` with `|m| < 2^53`, every arithmetic
operation on doubles is followed by rounding to the nearest double (ties to
even), and an `int` has 32 bits.  The exponent range of a double (overflow to
infinity, subnormal numbers) is not modelled: what follows is about
computations in which no double operation overflows or underflows. -/

/-- The constant `INT_MAX` of a 32-bit `int`. -/
def INT_MAX : Int := 2147483647

/-- The constant `INT_MIN` of a 32-bit `int`. -/
def INT_MIN : Int := -2147483648

/-- An `int` sum or difference whose exact value is `n`: the value itself when it
is representable, and the two's-complement wrap-around otherwise. -/
def wrap_int32 (n : Int) : Int :=
  if INT_MIN ≤ n ∧ n ≤ INT_MAX then n else (n - INT_MIN) % 4294967296 + INT_MIN

/-- Conversion `static_cast<int>(d)` or `(int)d` of a finite double to a 32-bit
`int`: truncation toward zero when the truncated value is representable.
Otherwise C++ defines no result; the value given here, `INT_MIN`, is what the
conversion instruction of x86-64 returns. -/
def static_cast_int32 (d : ℚ) : Int :=
  if (INT_MIN : ℚ) - 1 < d ∧ d < (INT_MAX : ℚ) + 1 then static_cast_int d else INT_MIN

/-- The integer nearest to `x`, the even one of the two when `x` lies half-way. -/
def round_even (x : ℚ) : Int :=
  if x - (⌊x⌋ : ℚ) < 1 / 2 then ⌊x⌋
  else if 1 / 2 < x - (⌊x⌋ : ℚ) then ⌊x⌋ + 1
  else if ⌊x⌋ % 2 = 0 then ⌊x⌋ else ⌊x⌋ + 1

/-- The spacing of the doubles in the binade of `q > 0`: `2^(e-52)` for
`2^e ≤ q < 2^(e+1)`. -/
def ulp (q : ℚ) : ℚ :=
  (2 : ℚ) ^ (Int.log 2 q - 52)

/-- The double nearest to `q ≥ 0`. -/
def round_pos (q : ℚ) : ℚ :=
  (round_even (q / ulp q) : ℚ) * ulp q

/-- The double nearest to the real value `q` (round to nearest, ties to even):
what a double operation with exact result `q` returns. -/
def round_dbl (q : ℚ) : ℚ :=
  if 0 ≤ q then round_pos q else -round_pos (-q)

/-- The rational `x` is a double: `m * 2^e` with a significand of 53 bits. -/
def IsDbl (x : ℚ) : Prop :=
  ∃ m e : Int, |m| < 2 ^ 53 ∧ x = (m : ℚ) * (2 : ℚ) ^ e

/-! ## The per-axis cell index in machine arithmetic -/

/-- The double that the per-axis rule converts to `int`: `(x - lo) * bininv`,
the difference and the product each rounded. -/
def scaled_offset (lo bininv x : ℚ) : ℚ :=
  round_dbl (round_dbl (x - lo) * bininv)

/-- The per-axis rule of `quad2bins` and `element2bins` (lines 728-750, 793-815
and 859-907) in machine arithmetic: the branch of `axis_bin` with rounded double
operations, the conversion to a 32-bit `int` and 32-bit `int` arithmetic. -/
def axis_bin_dbl (bboxlo bboxhi bininv : ℚ) (nbin : Int) (x : ℚ) : Int :=
  if x ≥ bboxhi then
    wrap_int32 (static_cast_int32 (scaled_offset bboxhi bininv x) + nbin)
  else if x ≥ bboxlo then
    min (static_cast_int32 (scaled_offset bboxlo bininv x)) (wrap_int32 (nbin - 1))
  else
    wrap_int32 (static_cast_int32 (scaled_offset bboxlo bininv x) - 1)

/-- The coordinate `x` is within the reach of 32-bit arithmetic on this axis:
the truncation of the double that its branch converts, with the `nbin` added
or the `1` subtracted, is representable as an `int`. -/
def axis_fits (bboxlo bboxhi bininv : ℚ) (nbin : Int) (x : ℚ) : Prop :=
  if x ≥ bboxhi then scaled_offset bboxhi bininv x + (nbin : ℚ) < 2147483648
  else if x ≥ bboxlo then scaled_offset bboxlo bininv x < 2147483648
  else -2147483648 < scaled_offset bboxlo bininv x

instance (bboxlo bboxhi bininv : ℚ) (nbin : Int) (x : ℚ) :
    Decidable (axis_fits bboxlo bboxhi bininv nbin x) := by
  unfold axis_fits
  infer_instance

/-- The corners of the node bounding box inflated by `CAC_cut + CAC_skin`, as
`element2bins` computes them (lines 783-784 and 836-857), each sum and
difference rounded. -/
def inflated_box_dbl (a : Atom) (element_index : Nat) : Vec3 × Vec3 :=
  let CAC_cut := round_dbl (a.CAC_cut + a.CAC_skin)
  let bb := node_bounding_box (a.nodal_positions element_index) (a.poly_count element_index)
    (a.nodes_per_element_list (a.element_type element_index))
  (⟨round_dbl (bb.1.c0 - CAC_cut), round_dbl (bb.1.c1 - CAC_cut), round_dbl (bb.1.c2 - CAC_cut)⟩,
   ⟨round_dbl (bb.2.c0 + CAC_cut), round_dbl (bb.2.c1 + CAC_cut), round_dbl (bb.2.c2 + CAC_cut)⟩)

/-- The indices `ixl, iyl, izl` and `ixh, iyh, izh` of `element2bins` (lines
859-907) in machine arithmetic. -/
def overlapRange_dbl (g : Grid) (a : Atom) (element_index : Nat) : Limits :=
  let bb := inflated_box_dbl a element_index
  { l0 := axis_bin_dbl g.bboxlo.c0 g.bboxhi.c0 g.bininvx g.nbinx bb.1.c0,
    l1 := axis_bin_dbl g.bboxlo.c1 g.bboxhi.c1 g.bininvy g.nbiny bb.1.c1,
    l2 := axis_bin_dbl g.bboxlo.c2 g.bboxhi.c2 g.bininvz g.nbinz bb.1.c2,
    l3 := axis_bin_dbl g.bboxlo.c0 g.bboxhi.c0 g.bininvx g.nbinx bb.2.c0,
    l4 := axis_bin_dbl g.bboxlo.c1 g.bboxhi.c1 g.bininvy g.nbiny bb.2.c1,
    l5 := axis_bin_dbl g.bboxlo.c2 g.bboxhi.c2 g.bininvz g.nbinz bb.2.c2 }

/-! ## The cell sizes of `setup_bins` in machine arithmetic -/

/-- The cell size `binsize_optimal` of `setup_bins` (lines 399-405) in double
arithmetic: the value taken from the user size, the style and the cutoffs is
overwritten with `0.5*max_search_range`. -/
def binsize_optimal_dbl (inp : SetupInput) (style : Nat) : ℚ :=
  let bbox0 := round_dbl (inp.bboxhi.c0 - inp.bboxlo.c0)
  let b :=
    if inp.binsizeflag ≠ 0 then inp.binsize_user
    else if style = BIN then round_dbl ((1 / 2) * inp.cutneighmax)
    else round_dbl ((1 / 2) * inp.cutneighmin)
  let _b := if b = 0 then bbox0 else b
  round_dbl ((1 / 2) * inp.max_search_range)

/-- Number of interior cells on one axis (lines 418-425) in machine arithmetic:
the rounded product converted to `int`, raised to 1 when it is 0. -/
def axis_nbin_dbl (bbox binsizeinv : ℚ) : Int :=
  let nbin := static_cast_int32 (round_dbl (bbox * binsizeinv))
  if nbin = 0 then 1 else nbin

/-- The cell counts and cell sizes `setup_bins` computes. -/
structure CellSizes where
  nbinx : Int
  nbiny : Int
  nbinz : Int
  binsizex : ℚ
  binsizey : ℚ
  binsizez : ℚ

/-- Lines 390-433 of `setup_bins` in machine arithmetic: the extents, the target
size and its reciprocal, the test "Domain too large for neighbor bins", the cell
counts and the cell sizes. -/
def setup_cells_dbl (inp : SetupInput) (style : Nat) : Except Failure CellSizes :=
  let bbox : Vec3 := ⟨round_dbl (inp.bboxhi.c0 - inp.bboxlo.c0),
    round_dbl (inp.bboxhi.c1 - inp.bboxlo.c1), round_dbl (inp.bboxhi.c2 - inp.bboxlo.c2)⟩
  let binsizeinv := round_dbl (1 / binsize_optimal_dbl inp style)
  if round_dbl (bbox.c0 * binsizeinv) > (inp.MAXSMALLINT : ℚ) ∨
      round_dbl (bbox.c1 * binsizeinv) > (inp.MAXSMALLINT : ℚ) ∨
      round_dbl (bbox.c2 * binsizeinv) > (inp.MAXSMALLINT : ℚ) then
    Except.error Failure.domain_too_large
  else
    let nbinx := axis_nbin_dbl bbox.c0 binsizeinv
    let nbiny := axis_nbin_dbl bbox.c1 binsizeinv
    let nbinz := if inp.dimension = 3 then axis_nbin_dbl bbox.c2 binsizeinv else 1
    Except.ok
      { nbinx := nbinx, nbiny := nbiny, nbinz := nbinz,
        binsizex := round_dbl (bbox.c0 / (nbinx : ℚ)),
        binsizey := round_dbl (bbox.c1 / (nbiny : ℚ)),
        binsizez := round_dbl (bbox.c2 / (nbinz : ℚ)) }

/-- The worked setting with a box `[0,98]³` and the search range 98, so that the
extent of every axis is twice the target size 49. -/
def ex_setup_wide : SetupInput :=
  { ex_setup with
    subhi := ⟨98, 98, 98⟩,
    bboxhi := ⟨98, 98, 98⟩,
    max_search_range := 98 }

/-- The worked setting with the search range 5 and a box whose extent is the
double next below `7.5`, that is `7.5 - 2^-50`. -/
def ex_setup_short : SetupInput :=
  { ex_setup with
    subhi := ⟨8444249301319679 / 1125899906842624, 8444249301319679 / 1125899906842624,
      8444249301319679 / 1125899906842624⟩,
    bboxhi := ⟨8444249301319679 / 1125899906842624, 8444249301319679 / 1125899906842624,
      8444249301319679 / 1125899906842624⟩,
    max_search_range := 5 }

/-! ## Surface depths in machine arithmetic

`compute_surface_depths` (lines 924-998) with every double operation rounded
and the conversions to `int` on 32 bits.  The scale of each axis is at least 1
in what follows (with scale 0 the code divides by zero). -/

/-- The sum `ds_x + ds_y + ds_z` (lines 937-943) in double arithmetic. -/
def ds_sq_dbl (current_nodal_positions : Nat → Nat → Vec3) (poly : Nat) : ℚ :=
  let ds_x := round_dbl
    (round_dbl ((current_nodal_positions 0 poly).c0 - (current_nodal_positions 1 poly).c0) *
     round_dbl ((current_nodal_positions 0 poly).c0 - (current_nodal_positions 1 poly).c0))
  let ds_y := round_dbl
    (round_dbl ((current_nodal_positions 0 poly).c1 - (current_nodal_positions 1 poly).c1) *
     round_dbl ((current_nodal_positions 0 poly).c1 - (current_nodal_positions 1 poly).c1))
  let ds_z := round_dbl
    (round_dbl ((current_nodal_positions 0 poly).c2 - (current_nodal_positions 1 poly).c2) *
     round_dbl ((current_nodal_positions 0 poly).c2 - (current_nodal_positions 1 poly).c2))
  round_dbl (round_dbl (ds_x + ds_y) + ds_z)

/-- The sum `dt_x + dt_y + dt_z` (lines 946-953) in double arithmetic. -/
def dt_sq_dbl (current_nodal_positions : Nat → Nat → Vec3) (poly : Nat) : ℚ :=
  let dt_x := round_dbl
    (round_dbl ((current_nodal_positions 0 poly).c0 - (current_nodal_positions 3 poly).c0) *
     round_dbl ((current_nodal_positions 0 poly).c0 - (current_nodal_positions 3 poly).c0))
  let dt_y := round_dbl
    (round_dbl ((current_nodal_positions 0 poly).c1 - (current_nodal_positions 3 poly).c1) *
     round_dbl ((current_nodal_positions 0 poly).c1 - (current_nodal_positions 3 poly).c1))
  let dt_z := round_dbl
    (round_dbl ((current_nodal_positions 0 poly).c2 - (current_nodal_positions 3 poly).c2) *
     round_dbl ((current_nodal_positions 0 poly).c2 - (current_nodal_positions 3 poly).c2))
  round_dbl (round_dbl (dt_x + dt_y) + dt_z)

/-- The sum `dw_x + dw_y + dw_z` (lines 956-963) in double arithmetic.  The
second factor of `dw_y` reads node 3 (line 959), so that `dw_y`, and with it
the sum, can be negative. -/
def dw_sq_dbl (current_nodal_positions : Nat → Nat → Vec3) (poly : Nat) : ℚ :=
  let dw_x := round_dbl
    (round_dbl ((current_nodal_positions 0 poly).c0 - (current_nodal_positions 4 poly).c0) *
     round_dbl ((current_nodal_positions 0 poly).c0 - (current_nodal_positions 4 poly).c0))
  let dw_y := round_dbl
    (round_dbl ((current_nodal_positions 0 poly).c1 - (current_nodal_positions 4 poly).c1) *
     round_dbl ((current_nodal_positions 0 poly).c1 - (current_nodal_positions 3 poly).c1))
  let dw_z := round_dbl
    (round_dbl ((current_nodal_positions 0 poly).c2 - (current_nodal_positions 4 poly).c2) *
     round_dbl ((current_nodal_positions 0 poly).c2 - (current_nodal_positions 4 poly).c2))
  round_dbl (round_dbl (dw_x + dw_y) + dw_z)

/-- The conversion `(int)(ds_surf / unit_cell_mapped[0])` of line 944 (and of
lines 954 and 964), where `ds_surf = 2 * rcut / sqrt(sum)` (line 943).  The
root of a negative sum is NaN and the quotient by a zero root is infinite or
NaN; their conversion, as that of a value outside the range of `int`, gives
`INT_MIN`.  `sqrt` stands for the C library function. -/
def skin_increments (sqrt : ℚ → ℚ) (rcut u sum : ℚ) : Int :=
  if sum < 0 ∨ round_dbl (sqrt sum) = 0 then INT_MIN
  else static_cast_int32
    (round_dbl (round_dbl (round_dbl (2 * rcut) / round_dbl (sqrt sum)) / u))

/-- The three conversions of lines 944, 954 and 964: the number of whole
unit-cell increments in the required skin of each axis. -/
def surface_increments (sqrt : ℚ → ℚ) (a : Atom)
    (current_nodal_positions : Nat → Nat → Vec3) (current_element_scale : Int3)
    (current_poly_counter : Nat) : Int3 :=
  let poly := current_poly_counter
  let rcut := round_dbl (a.CAC_cut - a.CAC_skin)
  ⟨skin_increments sqrt rcut (round_dbl (2 / (current_element_scale.i0 : ℚ)))
      (ds_sq_dbl current_nodal_positions poly),
   skin_increments sqrt rcut (round_dbl (2 / (current_element_scale.i1 : ℚ)))
      (dt_sq_dbl current_nodal_positions poly),
   skin_increments sqrt rcut (round_dbl (2 / (current_element_scale.i2 : ℚ)))
      (dw_sq_dbl current_nodal_positions poly)⟩

/-- The second assignment to `ds_surf` (line 944, repeated at 954 and 964):
`u * k + u` with `k` the converted quotient, product and sum rounded. -/
def skin_unclamped_dbl (u : ℚ) (k : Int) : ℚ :=
  round_dbl (round_dbl (u * (k : ℚ)) + u)

/-- The values of `ds_surf, dt_surf, dw_surf` when `compute_surface_depths`
reaches line 987, in machine arithmetic: quantised, clamped to 1 (lines
965-980) and, in one-layer mode, replaced by the unit-cell increment (lines
982-986). -/
def surface_skin_dbl (sqrt : ℚ → ℚ) (a : Atom) (one_layer_flag : Nat)
    (current_nodal_positions : Nat → Nat → Vec3) (current_element_scale : Int3)
    (current_poly_counter : Nat) : Vec3 :=
  let unit_cell_mapped : Vec3 :=
    ⟨round_dbl (2 / (current_element_scale.i0 : ℚ)),
     round_dbl (2 / (current_element_scale.i1 : ℚ)),
     round_dbl (2 / (current_element_scale.i2 : ℚ))⟩
  let k := surface_increments sqrt a current_nodal_positions current_element_scale
    current_poly_counter
  let ds_surf := skin_unclamped_dbl unit_cell_mapped.c0 k.i0
  let dt_surf := skin_unclamped_dbl unit_cell_mapped.c1 k.i1
  let dw_surf := skin_unclamped_dbl unit_cell_mapped.c2 k.i2
  let ds_surf := if ds_surf > 1 then 1 else ds_surf
  let dt_surf := if dt_surf > 1 then 1 else dt_surf
  let dw_surf := if dw_surf > 1 then 1 else dw_surf
  if one_layer_flag ≠ 0 then unit_cell_mapped else ⟨ds_surf, dt_surf, dw_surf⟩

/-- The function `NBinCAC::compute_surface_depths` (lines 924-998) in machine
arithmetic; its parameter `flag` is not read. -/
def compute_surface_depths_dbl (sqrt : ℚ → ℚ) (a : Atom) (one_layer_flag : Nat)
    (current_nodal_positions : Nat → Nat → Vec3) (current_element_scale : Int3)
    (current_poly_counter : Nat) : SurfaceDepths :=
  let unit_cell_mapped : Vec3 :=
    ⟨round_dbl (2 / (current_element_scale.i0 : ℚ)),
     round_dbl (2 / (current_element_scale.i1 : ℚ)),
     round_dbl (2 / (current_element_scale.i2 : ℚ))⟩
  let sk := surface_skin_dbl sqrt a one_layer_flag current_nodal_positions current_element_scale
    current_poly_counter
  { scalex := round_dbl (1 - sk.c0), scaley := round_dbl (1 - sk.c1),
    scalez := round_dbl (1 - sk.c2),
    countx := static_cast_int32 (round_dbl (sk.c0 / unit_cell_mapped.c0)),
    county := static_cast_int32 (round_dbl (sk.c1 / unit_cell_mapped.c1)),
    countz := static_cast_int32 (round_dbl (sk.c2 / unit_cell_mapped.c2)) }

/-! ## Entities for the surface depths in machine arithmetic -/

/-- Node `kkk` of the sheared cell spanned by the edges `(5,0,0)`, `(0,11,0)`
and `(0,-3,4)` from the origin, in the node order of `shape_function`. -/
def ex_shear_node (kkk : Nat) : Vec3 :=
  { c0 := if kkk = 0 ∨ kkk = 3 ∨ kkk = 4 ∨ kkk = 7 then 0 else 5,
    c1 := (if kkk = 0 ∨ kkk = 1 ∨ kkk = 4 ∨ kkk = 5 then 0 else 11)
      - (if kkk = 0 ∨ kkk = 1 ∨ kkk = 2 ∨ kkk = 3 then 0 else 3),
    c2 := if kkk = 0 ∨ kkk = 1 ∨ kkk = 2 ∨ kkk = 3 then 0 else 4 }

/-- One local single-phase element on that sheared cell, of scale `(20,20,20)`,
with `CAC_cut = 3/4` and `CAC_skin = 1/4`. -/
def ex_shear_atom : Atom :=
  { ex_fine_atom with nodal_positions := fun _ kkk _ => ex_shear_node kkk }

/-- The cube element of `ex_fine_atom` with `CAC_cut = 11/8`. -/
def ex_deep_skin_atom : Atom :=
  { ex_fine_atom with CAC_cut := 11 / 8 }

/-- The cube `[0,4]³` at scale `(16,16,16)` with `CAC_cut = 0` and
`CAC_skin = 5/2`. -/
def ex_outside_atom : Atom :=
  { ex_fine_atom with element_scale := fun _ => ⟨16, 16, 16⟩, CAC_cut := 0, CAC_skin := 5 / 2 }

/-- The 2-point rule with the layer counts and interior factors that
`compute_surface_depths` gives `ex_outside_atom` in normal mode. -/
def ex_outside_quad : Quad :=
  { ex_quad with
    surface_counts := fun _ =>
      ⟨(compute_surface_depths_dbl Rat.sqrt ex_outside_atom 0 (ex_outside_atom.nodal_positions 0)
          (ex_outside_atom.element_scale 0) 0).countx,
       (compute_surface_depths_dbl Rat.sqrt ex_outside_atom 0 (ex_outside_atom.nodal_positions 0)
          (ex_outside_atom.element_scale 0) 0).county,
       (compute_surface_depths_dbl Rat.sqrt ex_outside_atom 0 (ex_outside_atom.nodal_positions 0)
          (ex_outside_atom.element_scale 0) 0).countz⟩,
    interior_scales := fun _ =>
      ⟨(compute_surface_depths_dbl Rat.sqrt ex_outside_atom 0 (ex_outside_atom.nodal_positions 0)
          (ex_outside_atom.element_scale 0) 0).scalex,
       (compute_surface_depths_dbl Rat.sqrt ex_outside_atom 0 (ex_outside_atom.nodal_positions 0)
          (ex_outside_atom.element_scale 0) 0).scaley,
       (compute_surface_depths_dbl Rat.sqrt ex_outside_atom 0 (ex_outside_atom.nodal_positions 0)
          (ex_outside_atom.element_scale 0) 0).scalez⟩ }

/-- The 2-point rule with the layer counts and interior factors that
`compute_surface_depths` gives `ex_fine_atom` in normal mode. -/
def ex_fine_quad : Quad :=
  { ex_quad with
    surface_counts := fun _ =>
      ⟨(compute_surface_depths_dbl Rat.sqrt ex_fine_atom 0 (ex_fine_atom.nodal_positions 0)
          (ex_fine_atom.element_scale 0) 0).countx,
       (compute_surface_depths_dbl Rat.sqrt ex_fine_atom 0 (ex_fine_atom.nodal_positions 0)
          (ex_fine_atom.element_scale 0) 0).county,
       (compute_surface_depths_dbl Rat.sqrt ex_fine_atom 0 (ex_fine_atom.nodal_positions 0)
          (ex_fine_atom.element_scale 0) 0).countz⟩,
    interior_scales := fun _ =>
      ⟨(compute_surface_depths_dbl Rat.sqrt ex_fine_atom 0 (ex_fine_atom.nodal_positions 0)
          (ex_fine_atom.element_scale 0) 0).scalex,
       (compute_surface_depths_dbl Rat.sqrt ex_fine_atom 0 (ex_fine_atom.nodal_positions 0)
          (ex_fine_atom.element_scale 0) 0).scaley,
       (compute_surface_depths_dbl Rat.sqrt ex_fine_atom 0 (ex_fine_atom.nodal_positions 0)
          (ex_fine_atom.element_scale 0) 0).scalez⟩ }

/-! ## Truncation and the per-axis cell index -/

theorem static_cast_int_of_nonneg {d : ℚ} (h : 0 ≤ d) : static_cast_int d = ⌊d⌋ := by
  simp [static_cast_int, h]

theorem static_cast_int_of_neg {d : ℚ} (h : d < 0) : static_cast_int d = ⌈d⌉ := by
  simp [static_cast_int, not_le.mpr h]

theorem static_cast_int_nonneg {d : ℚ} (h : 0 ≤ d) : 0 ≤ static_cast_int d := by
  rw [static_cast_int_of_nonneg h]
  exact Int.floor_nonneg.mpr h

theorem static_cast_int_nonpos {d : ℚ} (h : d ≤ 0) : static_cast_int d ≤ 0 := by
  rcases h.lt_or_eq with h | h
  · rw [static_cast_int_of_neg h]
    exact Int.ceil_le.mpr (by simpa using h.le)
  · subst h
    simp [static_cast_int]

/-- Evaluation of a truncation from bounds on its argument. -/
theorem static_cast_int_eq (d : ℚ) (n : Int)
    (h : (0 ≤ d ∧ (n : ℚ) ≤ d ∧ d < n + 1) ∨ (d < 0 ∧ (n : ℚ) - 1 < d ∧ d ≤ n)) :
    static_cast_int d = n := by
  rcases h with ⟨h0, h1, h2⟩ | ⟨h0, h1, h2⟩
  · rw [static_cast_int_of_nonneg h0]
    exact Int.floor_eq_iff.mpr ⟨h1, h2⟩
  · rw [static_cast_int_of_neg h0]
    exact Int.ceil_eq_iff.mpr ⟨h1, h2⟩

theorem static_cast_int_intCast (n : Int) : static_cast_int (n : ℚ) = n := by
  unfold static_cast_int
  split <;> simp

/-- In the interior of an exactly tiled axis the index is the floor of the scaled
offset. -/
theorem axis_bin_interior (bboxlo bboxhi binsize bininv : ℚ) (nbin : Int) (x : ℚ)
    (hn : 1 ≤ nbin) (htile : (nbin : ℚ) * binsize = bboxhi - bboxlo)
    (hinv : bininv = 1 / binsize) (hlo : bboxlo ≤ x) (hhi : x < bboxhi) :
    0 < bininv ∧ (bboxhi - bboxlo) * bininv = nbin ∧
      axis_bin bboxlo bboxhi bininv nbin x = ⌊(x - bboxlo) * bininv⌋ := by
  have hL : 0 < bboxhi - bboxlo := by linarith
  have hnq : (0 : ℚ) < nbin := by exact_mod_cast (by omega : (0 : Int) < nbin)
  have hbs : 0 < binsize := by
    by_contra hneg
    have : (nbin : ℚ) * binsize ≤ 0 := mul_nonpos_of_nonneg_of_nonpos hnq.le (not_lt.mp hneg)
    linarith
  have hpos : 0 < bininv := by rw [hinv]; positivity
  have hLn : (bboxhi - bboxlo) * bininv = nbin := by
    rw [hinv, ← htile]; field_simp
  refine ⟨hpos, hLn, ?_⟩
  have h1 : ¬ x ≥ bboxhi := not_le.mpr hhi
  have h0 : 0 ≤ (x - bboxlo) * bininv := mul_nonneg (sub_nonneg.mpr hlo) hpos.le
  have hlt : (x - bboxlo) * bininv < nbin := by
    rw [← hLn]
    exact mul_lt_mul_of_pos_right (by linarith) hpos
  have hfl : ⌊(x - bboxlo) * bininv⌋ ≤ nbin - 1 := by
    have : ⌊(x - bboxlo) * bininv⌋ < nbin := Int.floor_lt.mpr hlt
    omega
  simp only [axis_bin, h1, if_false, ge_iff_le, hlo, if_true, static_cast_int_of_nonneg h0]
  exact min_eq_left hfl

theorem forLoop_succ {σ : Type} (n : Nat) (body : Nat → σ → σ) (s : σ) :
    forLoop (n + 1) body s = body n (forLoop n body s) := rfl

theorem forLoop_zero {σ : Type} (body : Nat → σ → σ) (s : σ) : forLoop 0 body s = s := rfl

/-- A loop whose body advances the write index by `f i` advances it by the sum. -/
theorem forLoop_counter_sum (n : Nat) (body : Nat → QuadBuf → QuadBuf) (f : Nat → Nat)
    (h : ∀ i qb, (body i qb).quadrature_counter = qb.quadrature_counter + f i) (qb : QuadBuf) :
    (forLoop n body qb).quadrature_counter
      = qb.quadrature_counter + ∑ i in Finset.range n, f i := by
  induction n with
  | zero => simp [forLoop]
  | succ n ih => rw [forLoop_succ, h, ih, Finset.sum_range_succ, Nat.add_assoc]

/-- A loop whose body advances the write index by `k` advances it by `n * k`. -/
theorem forLoop_counter (n : Nat) (body : Nat → QuadBuf → QuadBuf) (k : Nat)
    (h : ∀ i qb, (body i qb).quadrature_counter = qb.quadrature_counter + k) (qb : QuadBuf) :
    (forLoop n body qb).quadrature_counter = qb.quadrature_counter + n * k := by
  rw [forLoop_counter_sum n body (fun _ => k) h]
  simp

theorem put_quad_point_counter (pos : Nat → Nat → Vec3) (npe poly : Nat) (s t w : ℚ)
    (qb : QuadBuf) :
    (put_quad_point pos npe poly s t w qb).quadrature_counter = qb.quadrature_counter + 1 := rfl

/-- Number of rows one phase adds to the scratch buffer. -/
theorem quad_points_of_phase_counter (pos : Nat → Nat → Vec3) (npe : Nat) (u is : Vec3)
    (c : Int3) (n : Nat) (absc : Nat → ℚ) (poly : Nat) (qb : QuadBuf) :
    (quad_points_of_phase pos npe u is c n absc poly qb).quadrature_counter
      = qb.quadrature_counter +
        (n * (n * n) + 2 * (c.i0.toNat * (n * n)) + 2 * (c.i1.toNat * (n * n))
          + 2 * (c.i2.toNat * (n * n))
          + (4 * (c.i0.toNat * (c.i1.toNat * n)) + 4 * (c.i1.toNat * (c.i2.toNat * n))
            + 4 * (c.i0.toNat * (c.i2.toNat * n)))
          + 8 * (c.i0.toNat * (c.i1.toNat * c.i2.toNat))) := by
  unfold quad_points_of_phase
  simp only []
  have hput : ∀ (s t w : ℚ) (qb : QuadBuf),
      (put_quad_point pos npe poly s t w qb).quadrature_counter = qb.quadrature_counter + 1 :=
    fun _ _ _ _ => rfl
  -- corners
  rw [forLoop_counter 8 _ (c.i0.toNat * (c.i1.toNat * c.i2.toNat))
    (fun sc qb => by
      rw [forLoop_counter _ _ (c.i1.toNat * c.i2.toNat) (fun i qb => by
        rw [forLoop_counter _ _ c.i2.toNat (fun j qb => by
          rw [forLoop_counter _ _ 1 (fun k qb => hput _ _ _ _)]; simp)])])]
  -- edges
  rw [forLoop_counter_sum 12 _
    (fun sc => (edge_counts c sc).1.toNat * ((edge_counts c sc).2.toNat * n))
    (fun sc qb => by
      rw [forLoop_counter _ _ ((edge_counts c sc).2.toNat * n) (fun i qb => by
        rw [forLoop_counter _ _ n (fun j qb => by
          rw [forLoop_counter _ _ 1 (fun k qb => hput _ _ _ _)]; simp)])])]
  -- faces
  rw [forLoop_counter 2 _ (c.i2.toNat * (n * n))
    (fun sc qb => by
      rw [forLoop_counter _ _ (n * n) (fun i qb => by
        rw [forLoop_counter _ _ n (fun j qb => by
          rw [forLoop_counter _ _ 1 (fun k qb => hput _ _ _ _)]; simp)])])]
  rw [forLoop_counter 2 _ (c.i1.toNat * (n * n))
    (fun sc qb => by
      rw [forLoop_counter _ _ (n * n) (fun i qb => by
        rw [forLoop_counter _ _ n (fun j qb => by
          rw [forLoop_counter _ _ 1 (fun k qb => hput _ _ _ _)]; simp)])])]
  rw [forLoop_counter 2 _ (c.i0.toNat * (n * n))
    (fun sc qb => by
      rw [forLoop_counter _ _ (n * n) (fun i qb => by
        rw [forLoop_counter _ _ n (fun j qb => by
          rw [forLoop_counter _ _ 1 (fun k qb => hput _ _ _ _)]; simp)])])]
  -- interior
  rw [forLoop_counter n _ (n * n)
    (fun i qb => by
      rw [forLoop_counter _ _ n (fun j qb => by
        rw [forLoop_counter _ _ 1 (fun k qb => hput _ _ _ _)]; simp)])]
  simp only [Finset.sum_range_succ, Finset.sum_range_zero, edge_counts]
  simp
  ring

/-- The value returned by `compute_quad_points`, for any phase count. -/
theorem compute_quad_points_counter (a : Atom) (q : Quad) (i : Nat) (buf : Nat → Vec3) :
    (compute_quad_points a q i buf).quadrature_counter
      = a.poly_count i *
        (q.quadrature_node_count * (q.quadrature_node_count * q.quadrature_node_count)
          + 2 * ((q.surface_counts i).i0.toNat * (q.quadrature_node_count * q.quadrature_node_count))
          + 2 * ((q.surface_counts i).i1.toNat * (q.quadrature_node_count * q.quadrature_node_count))
          + 2 * ((q.surface_counts i).i2.toNat * (q.quadrature_node_count * q.quadrature_node_count))
          + (4 * ((q.surface_counts i).i0.toNat
                * ((q.surface_counts i).i1.toNat * q.quadrature_node_count))
            + 4 * ((q.surface_counts i).i1.toNat
                * ((q.surface_counts i).i2.toNat * q.quadrature_node_count))
            + 4 * ((q.surface_counts i).i0.toNat
                * ((q.surface_counts i).i2.toNat * q.quadrature_node_count)))
          + 8 * ((q.surface_counts i).i0.toNat
              * ((q.surface_counts i).i1.toNat * (q.surface_counts i).i2.toNat))) := by
  unfold compute_quad_points
  simp only []
  rw [forLoop_counter _ _ _ (fun p qb => quad_points_of_phase_counter _ _ _ _ _ _ _ p qb)]
  simp

/-- C2: for a single-phase entity with stored surface counts
`(countx, county, countz)`, each `≥ 0`, and quadrature order `q`,
`compute_quad_points` returns `q³ + 2·countx·q² + 2·county·q² + 2·countz·q² +
4·countx·county·q + 4·countz·county·q + 4·countx·countz·q +
8·countx·county·countz`; with all counts zero this is `q³`. -/
theorem compute_quad_points_count (a : Atom) (q : Quad) (i : Nat) (buf : Nat → Vec3)
    (hpoly : a.poly_count i = 1) (hx : 0 ≤ (q.surface_counts i).i0)
    (hy : 0 ≤ (q.surface_counts i).i1) (hz : 0 ≤ (q.surface_counts i).i2) :
    ((compute_quad_points a q i buf).quadrature_counter : Int)
        = quad_count_formula q.quadrature_node_count (q.surface_counts i).i0
            (q.surface_counts i).i1 (q.surface_counts i).i2 ∧
      (q.surface_counts i = ⟨0, 0, 0⟩ →
        (compute_quad_points a q i buf).quadrature_counter
          = q.quadrature_node_count ^ 3) := by
  rw [compute_quad_points_counter, hpoly]
  constructor
  · unfold quad_count_formula
    push_cast
    rw [Int.toNat_of_nonneg hx, Int.toNat_of_nonneg hy, Int.toNat_of_nonneg hz]
    ring
  · intro h0
    rw [h0]
    simp
    ring

/-! ## The growable cell store -/

theorem memory_grow_length (junk : Nat → Nat) (old : List Nat) (n : Nat) :
    (memory_grow junk old n).length = n := by
  simp only [memory_grow, List.length_append, List.length_take, List.length_map,
    List.length_range]
  omega

theorem memory_grow_take (junk : Nat → Nat) (old : List Nat) (n k : Nat)
    (hk : k ≤ old.length) (hn : old.length ≤ n) :
    (memory_grow junk old n).take k = old.take k := by
  unfold memory_grow
  rw [List.take_of_length_le hn, List.take_append_of_le_length hk]

theorem memory_create_length (junk : Nat → Nat) (n : Nat) :
    (memory_create junk n).length = n := by
  simp [memory_create]

/-- Writing slot `n` and reading the first `n + 1` slots. -/
theorem take_succ_set (l : List Nat) (n i : Nat) (h : n < l.length) :
    (l.set n i).take (n + 1) = l.take n ++ [i] := by
  induction l generalizing n with
  | nil => simp at h
  | cons x xs ih =>
    cases n with
    | zero => simp
    | succ n =>
      simp only [List.set_cons_succ, List.take_succ_cons, List.cons_append, List.cons.injEq,
        true_and]
      exact ih n (by simpa using h)

/-- The insertion into a full cell: growth, then the write. -/
theorem insert_member_full (junk : Nat → Nat) (st : Store) (b i : Nat) (hb : b < st.maxbin)
    (hfull : st.bin_ncontent b = MAXBINCONTENT + st.bin_expansion_counts b * EXPAND) :
    insert_member junk st (b : Int) i = some
      { st with
        bin_expansion_counts :=
          Function.update st.bin_expansion_counts b (st.bin_expansion_counts b + 1),
        bin_content := Function.update st.bin_content b
          ((memory_grow junk (st.bin_content b)
            (MAXBINCONTENT + (st.bin_expansion_counts b + 1) * EXPAND)).set
              (st.bin_ncontent b) i),
        bin_ncontent := Function.update st.bin_ncontent b (st.bin_ncontent b + 1) } := by
  have hrange : 0 ≤ (b : Int) ∧ (b : Int) < (st.maxbin : Int) := ⟨by omega, by exact_mod_cast hb⟩
  have hlt : st.bin_ncontent b <
      (memory_grow junk (st.bin_content b)
        (MAXBINCONTENT + (st.bin_expansion_counts b + 1) * EXPAND)).length := by
    rw [memory_grow_length, hfull]
    simp only [EXPAND]
    omega
  unfold insert_member
  rw [if_pos hrange]
  simp only [Int.toNat_ofNat, if_pos hfull, Function.update_same, Function.update_idem]
  rw [if_pos hlt]

/-- The insertion into a cell with room left: the write alone. -/
theorem insert_member_room (junk : Nat → Nat) (st : Store) (b i : Nat) (hb : b < st.maxbin)
    (hfull : st.bin_ncontent b ≠ MAXBINCONTENT + st.bin_expansion_counts b * EXPAND)
    (hlt : st.bin_ncontent b < (st.bin_content b).length) :
    insert_member junk st (b : Int) i = some
      { st with
        bin_content :=
          Function.update st.bin_content b ((st.bin_content b).set (st.bin_ncontent b) i),
        bin_ncontent := Function.update st.bin_ncontent b (st.bin_ncontent b + 1) } := by
  have hrange : 0 ≤ (b : Int) ∧ (b : Int) < (st.maxbin : Int) := ⟨by omega, by exact_mod_cast hb⟩
  unfold insert_member
  rw [if_pos hrange]
  simp only [Int.toNat_ofNat, if_neg hfull]
  rw [if_pos hlt]

/-- Effect of one insertion on a store whose target cell satisfies the capacity
formula and the size bound: the insertion succeeds, appends the index to the
members of that cell, writes strictly below the (possibly grown) capacity,
grows the capacity by exactly `EXPAND` when the cell was full and not at all
otherwise, and leaves every other cell as it was. -/
theorem insert_member_spec (junk : Nat → Nat) (st : Store) (b i : Nat) (hb : b < st.maxbin)
    (hcap : st.capacity b = MAXBINCONTENT + EXPAND * st.bin_expansion_counts b)
    (hsz : st.bin_ncontent b ≤ st.capacity b) :
    ∃ st', insert_member junk st (b : Int) i = some st' ∧
      st'.maxbin = st.maxbin ∧ st'.first_alloc = st.first_alloc ∧
      st'.max_bin_expansion_count = st.max_bin_expansion_count ∧
      st'.bin_ncontent b = st.bin_ncontent b + 1 ∧
      st'.members b = st.members b ++ [i] ∧
      st'.capacity b = MAXBINCONTENT + EXPAND * st'.bin_expansion_counts b ∧
      st.bin_ncontent b < st'.capacity b ∧
      st'.capacity b
        = (if st.bin_ncontent b = st.capacity b then st.capacity b + EXPAND else st.capacity b) ∧
      st.bin_expansion_counts b ≤ st'.bin_expansion_counts b ∧
      (∀ c, c ≠ b → st'.bin_ncontent c = st.bin_ncontent c ∧
        st'.bin_content c = st.bin_content c ∧
        st'.bin_expansion_counts c = st.bin_expansion_counts c) := by
  unfold Store.capacity at hcap hsz
  by_cases hfull : st.bin_ncontent b = MAXBINCONTENT + st.bin_expansion_counts b * EXPAND
  · have hlen : st.bin_ncontent b = (st.bin_content b).length := by
      rw [hcap, hfull, Nat.mul_comm]
    have hglen := memory_grow_length junk (st.bin_content b)
      (MAXBINCONTENT + (st.bin_expansion_counts b + 1) * EXPAND)
    have hlt : st.bin_ncontent b <
        (memory_grow junk (st.bin_content b)
          (MAXBINCONTENT + (st.bin_expansion_counts b + 1) * EXPAND)).length := by
      rw [hglen, hfull]
      simp only [EXPAND]
      omega
    have hle : (st.bin_content b).length
        ≤ MAXBINCONTENT + (st.bin_expansion_counts b + 1) * EXPAND := by
      rw [← hlen, hfull]
      simp only [EXPAND]
      omega
    refine ⟨_, insert_member_full junk st b i hb hfull, rfl, rfl, rfl, ?_, ?_, ?_, ?_, ?_, ?_, ?_⟩
    · simp only [Function.update_same]
    · simp only [Store.members, Function.update_same]
      rw [take_succ_set _ _ _ hlt, memory_grow_take junk _ _ _ (le_of_eq hlen) hle]
    · simp only [Store.capacity, Function.update_same, List.length_set, hglen]
      ring
    · simp only [Store.capacity, Function.update_same, List.length_set]
      exact hlt
    · simp only [Store.capacity, Function.update_same, List.length_set, hglen, hlen, if_true]
      rw [hcap]
      ring
    · simp only [Function.update_same]
      omega
    · intro c hc
      simp only [Function.update_noteq hc, and_self]
  · have hlt : st.bin_ncontent b < (st.bin_content b).length := by
      have : st.bin_ncontent b ≠ (st.bin_content b).length := by
        rw [hcap, Nat.mul_comm]; exact hfull
      omega
    refine ⟨_, insert_member_room junk st b i hb hfull hlt, rfl, rfl, rfl,
      ?_, ?_, ?_, ?_, ?_, ?_, ?_⟩
    · simp only [Function.update_same]
    · simp only [Store.members, Function.update_same]
      rw [take_succ_set _ _ _ hlt]
    · simp only [Store.capacity, Function.update_same, List.length_set]
      exact hcap
    · simp only [Store.capacity, Function.update_same, List.length_set]
      exact hlt
    · simp only [Store.capacity, Function.update_same, List.length_set]
      rw [if_neg (ne_of_lt hlt)]
    · exact le_rfl
    · intro c hc
      simp only [Function.update_noteq hc, and_self]

theorem insert_all_append (junk : Nat → Nat) (ps qs : List (Int × Nat)) (st : Store) :
    insert_all junk (ps ++ qs) st = (insert_all junk ps st).bind (insert_all junk qs) := by
  induction ps generalizing st with
  | nil => rfl
  | cons p ps ih =>
    simp only [List.cons_append, insert_all]
    cases insert_member junk st p.1 p.2 with
    | none => rfl
    | some st1 => exact ih st1

/-- Effect of a sequence of insertions into cells below `n` on a store that
satisfies the capacity invariant and, on the first `n` cells, the size
invariant: all insertions succeed, both invariants still hold, and every cell
has gained, in order, exactly the indices addressed to it. -/
theorem insert_all_spec (junk : Nat → Nat) (n : Nat) (ps : List (Int × Nat)) (st : Store)
    (hn : n ≤ st.maxbin) (hcap : st.CapInv) (hsz : st.SizeInv n)
    (hps : ∀ p ∈ ps, 0 ≤ p.1 ∧ p.1 < (n : Int)) :
    ∃ st', insert_all junk ps st = some st' ∧ st'.maxbin = st.maxbin ∧
      st'.CapInv ∧ st'.SizeInv n ∧
      (∀ b, st'.members b
        = st.members b ++ (ps.filter (fun p => p.1 = (b : Int))).map (fun p => p.2)) ∧
      (∀ b, st'.bin_ncontent b
        = st.bin_ncontent b + (ps.filter (fun p => p.1 = (b : Int))).length) ∧
      (∀ b, st.bin_expansion_counts b ≤ st'.bin_expansion_counts b) := by
  induction ps generalizing st with
  | nil =>
    exact ⟨st, rfl, rfl, hcap, hsz, fun b => by simp, fun b => by simp, fun b => le_rfl⟩
  | cons p ps ih =>
    obtain ⟨hp0, hp1⟩ := hps p (List.mem_cons_self _ _)
    have hpc : p.1 = ((p.1.toNat : Nat) : Int) := (Int.toNat_of_nonneg hp0).symm
    have hbn : p.1.toNat < n := by omega
    have hbm : p.1.toNat < st.maxbin := by omega
    obtain ⟨st1, he, hmax, _, _, hnc, hmem, hcap1, hw, _, hexp, hother⟩ :=
      insert_member_spec junk st p.1.toNat p.2 hbm (hcap _ hbm) (hsz _ hbn)
    rw [← hpc] at he
    have hcapInv1 : st1.CapInv := by
      intro c hc
      by_cases hcb : c = p.1.toNat
      · subst hcb; exact hcap1
      · obtain ⟨_, h2, h3⟩ := hother c hcb
        unfold Store.capacity
        rw [h2, h3]
        exact hcap c (by omega)
    have hszInv1 : st1.SizeInv n := by
      intro c hc
      by_cases hcb : c = p.1.toNat
      · subst hcb; omega
      · obtain ⟨h1, h2, _⟩ := hother c hcb
        unfold Store.capacity
        rw [h1, h2]
        exact hsz c hc
    obtain ⟨st', he', hmax', hcap', hsz', hmem', hnc', hexp'⟩ :=
      ih st1 (by omega) hcapInv1 hszInv1 (fun q hq => hps q (List.mem_cons_of_mem _ hq))
    refine ⟨st', ?_, by omega, hcap', hsz', ?_, ?_, ?_⟩
    · simp only [insert_all, he, Option.some_bind, he']
    · intro b
      rw [hmem' b]
      by_cases hcb : b = p.1.toNat
      · subst hcb
        rw [hmem]
        simp [List.filter_cons, ← hpc]
      · have hne : ¬ p.1 = (b : Int) := by omega
        obtain ⟨h1, h2, _⟩ := hother b hcb
        simp only [List.filter_cons, hne, decide_False, Bool.false_eq_true, if_false]
        unfold Store.members
        rw [h1, h2]
    · intro b
      rw [hnc' b]
      by_cases hcb : b = p.1.toNat
      · subst hcb
        rw [hnc]
        simp [List.filter_cons, ← hpc]
        omega
      · have hne : ¬ p.1 = (b : Int) := by omega
        obtain ⟨h1, _, _⟩ := hother b hcb
        simp only [List.filter_cons, hne, decide_False, Bool.false_eq_true, if_false]
        rw [h1]
    · intro b
      by_cases hcb : b = p.1.toNat
      · subst hcb; exact le_trans hexp (hexp' _)
      · obtain ⟨_, _, h3⟩ := hother b hcb
        rw [← h3]; exact hexp' b

/-! ## The indexing driver -/

theorem forLoop_inv {σ : Type} (P : σ → Prop) (n : Nat) (body : Nat → σ → σ) (s : σ)
    (h0 : P s) (hstep : ∀ i s, P s → P (body i s)) : P (forLoop n body s) := by
  induction n with
  | zero => exact h0
  | succ n ih => exact hstep n _ ih

theorem forLoopM_succ {σ : Type} (n : Nat) (body : Nat → σ → Option σ) (s : σ) :
    forLoopM (n + 1) body s = (forLoopM n body s).bind (body n) := rfl

/-- A range with equal ends runs its body once. -/
theorem forRangeM_single {σ : Type} (lo : Int) (body : Int → σ → Option σ) (s : σ) :
    forRangeM lo lo body s = body lo s := by
  have h : (lo + 1 - lo).toNat = 1 := by
    have : lo + 1 - lo = 1 := by ring
    rw [this]; rfl
  unfold forRangeM
  rw [h]
  simp [forLoop]

/-- The limits `element2bins` leaves for an extended entity: both ends are the
cell indices of the inflated low corner. -/
theorem element2bins_limits (g : Grid) (a : Atom) (i : Nat) (lim : Limits)
    (h : a.element_type i ≠ 0) :
    (element2bins g a i lim).2 =
      { l0 := (overlapRange g a i).l0, l1 := (overlapRange g a i).l1,
        l2 := (overlapRange g a i).l2, l3 := (overlapRange g a i).l0,
        l4 := (overlapRange g a i).l1, l5 := (overlapRange g a i).l2 } := by
  simp only [element2bins, overlapRange, if_pos h]

theorem element2bins_limits_point (g : Grid) (a : Atom) (i : Nat) (lim : Limits)
    (h : a.element_type i = 0) : (element2bins g a i lim).2 = lim := by
  simp [element2bins, h]

/-- The cell id `element2bins` returns is the one `quad2bins` gives to `x[i]`. -/
theorem element2bins_fst (g : Grid) (a : Atom) (i : Nat) (lim : Limits) :
    (element2bins g a i lim).1 = quad2bins g (a.x i) := rfl

/-- The effect of the loop body of `bin_atoms` on the cell store: one insertion
of `i` into its home cell. -/
theorem bin_entity_store (junk : Nat → Nat) (g : Grid) (a : Atom) (q : Quad) (group : Bool)
    (i : Nat) (s : BinState) :
    (bin_entity junk g a q group i s).map (fun t => t.store)
      = insert_member junk s.store (home_cell g a i) i := by
  unfold bin_entity
  simp only []
  -- the quadrature part leaves the store and the limits alone
  have hq : ∀ (n : Nat) (s0 : BinState),
      (forLoop n (fun iquad (s : BinState) =>
        { s with quad2bin := s.quad2bin ++ [quad2bins g (s.current_element_quad_points iquad)] })
        s0).store = s0.store ∧
      (forLoop n (fun iquad (s : BinState) =>
        { s with quad2bin := s.quad2bin ++ [quad2bins g (s.current_element_quad_points iquad)] })
        s0).bin_overlap_limits = s0.bin_overlap_limits := by
    intro n s0
    induction n with
    | zero => exact ⟨rfl, rfl⟩
    | succ n ih => exact ih
  by_cases ht : a.element_type i = 0
  · simp only [ht, if_true, home_cell, element2bins_fst]
    by_cases hl : i < a.nlocal <;> by_cases hg : group = true <;>
      simp [hl, hg, (hq _ _).1, Option.map_map, Function.comp_def]
  · simp only [ht, if_false, home_cell]
    by_cases hl : i < a.nlocal <;> by_cases hg : group = true <;>
      simp [hl, hg, ht, (hq _ _).1, (hq _ _).2, Option.map_map, Function.comp_def,
        element2bins_limits g a i _ ht, forRangeM_single]

/-- An entity loop of `bin_atoms` that visits `idx 0, ..., idx (m-1)` and files
those that satisfy `P` acts on the store as the insertion of each of them into
its home cell, in that order. -/
theorem forLoopM_bin_entity_store (junk : Nat → Nat) (g : Grid) (a : Atom) (q : Quad)
    (group : Bool) (idx : Nat → Nat) (P : Nat → Prop) [DecidablePred P] (m : Nat)
    (s0 : BinState) :
    (forLoopM m (fun k s => if P (idx k) then bin_entity junk g a q group (idx k) s else some s)
        s0).map (fun t => t.store)
      = insert_all junk
          ((((List.range m).map idx).filter (fun i => decide (P i))).map
            (fun i => (home_cell g a i, i))) s0.store := by
  induction m with
  | zero => rfl
  | succ m ih =>
    rw [forLoopM_succ, List.range_succ, List.map_append, List.filter_append, List.map_append,
      insert_all_append, ← ih]
    cases forLoopM m
        (fun k s => if P (idx k) then bin_entity junk g a q group (idx k) s else some s) s0 with
    | none => rfl
    | some s1 =>
      simp only [Option.some_bind, Option.map_some', List.map_cons, List.map_nil]
      by_cases hP : P (idx m)
      · simp only [hP, if_true, List.filter_cons, decide_True, List.filter_nil, List.map_cons,
          List.map_nil, insert_all]
        rw [bin_entity_store]
        cases insert_member junk s1.store (home_cell g a (idx m)) (idx m) <;> rfl
      · simp only [hP, if_false, List.filter_cons, decide_False, Bool.false_eq_true,
          List.filter_nil, List.map_nil, insert_all, Option.map_some']

/-- The cell store after `bin_atoms`: the counts are reset and every visited
entity is then inserted into its home cell, in visiting order. -/
theorem bin_atoms_store (junk : Nat → Nat) (g : Grid) (a : Atom) (q : Quad)
    (includegroup bitmask : Nat) (s : BinState) :
    (bin_atoms junk g a q includegroup bitmask s).map (fun t => t.store)
      = (clear_counts g.mbins s.store).bind
          (insert_all junk
            ((bin_order a includegroup bitmask).map (fun i => (home_cell g a i, i)))) := by
  unfold bin_atoms
  cases hc : clear_counts g.mbins s.store with
  | none => rfl
  | some st0 =>
    simp only [Option.some_bind]
    by_cases hg : includegroup ≠ 0
    · simp only [hg, if_true, bin_order, ne_eq, not_false_eq_true, List.map_append,
        insert_all_append]
      have h1 := forLoopM_bin_entity_store junk g a q true (fun k => a.nlocal + k)
        (fun i => a.mask i &&& bitmask ≠ 0) (a.nlocal + a.nghost - a.nlocal)
        { s with store := st0, quad2bin := [] }
      simp only [ne_eq] at h1
      rw [← h1]
      cases forLoopM (a.nlocal + a.nghost - a.nlocal)
          (fun k s => if ¬ a.mask (a.nlocal + k) &&& bitmask = 0
            then bin_entity junk g a q true (a.nlocal + k) s else some s)
          { s with store := st0, quad2bin := [] } with
      | none => rfl
      | some s1 =>
        simp only [Option.some_bind, Option.map_some']
        have h2 := forLoopM_bin_entity_store junk g a q true (fun k => k) (fun _ => True)
          a.nfirst s1
        simpa using h2
    · simp only [hg, if_false, bin_order]
      have h2 := forLoopM_bin_entity_store junk g a q false (fun k => k) (fun _ => True)
        (a.nlocal + a.nghost) { s with store := st0, quad2bin := [] }
      simpa using h2

theorem clear_counts_spec (mbins : Nat) (st : Store) (h : mbins ≤ st.maxbin) :
    ∃ st', clear_counts mbins st = some st' ∧ st'.maxbin = st.maxbin ∧
      st'.first_alloc = st.first_alloc ∧
      st'.max_bin_expansion_count = st.max_bin_expansion_count ∧
      (∀ b, b < mbins → st'.bin_ncontent b = 0) ∧
      (∀ b, ¬ b < mbins → st'.bin_ncontent b = st.bin_ncontent b) ∧
      st'.bin_content = st.bin_content ∧
      st'.bin_expansion_counts = st.bin_expansion_counts := by
  have he : clear_counts mbins st
      = some { st with bin_ncontent := fun b => if b < mbins then 0 else st.bin_ncontent b } := by
    simp only [clear_counts, if_pos h]
  refine ⟨_, he, rfl, rfl, rfl, ?_, ?_, rfl, rfl⟩
  · intro b hb; simp only [if_pos hb]
  · intro b hb; simp only [if_neg hb]

theorem filter_home_map (g : Grid) (a : Atom) (l : List Nat) (b : Nat) :
    ((l.map (fun i => (home_cell g a i, i))).filter (fun p => p.1 = (b : Int))).map (fun p => p.2)
      = l.filter (fun i => home_cell g a i = (b : Int)) := by
  induction l with
  | nil => rfl
  | cons x xs ih =>
    by_cases h : home_cell g a x = (b : Int)
    · simp only [List.map_cons, List.filter_cons, h, decide_True, if_true, List.map_cons, ih]
    · simp only [List.map_cons, List.filter_cons, h, decide_False, Bool.false_eq_true, if_false,
        ih]

/-- The result of `bin_atoms` on a store that covers the grid and satisfies the
capacity invariant, when every visited entity has its home cell inside the grid:
the call succeeds, keeps both store invariants, and the members of every cell
are exactly the visited entities whose home cell it is, in visiting order. -/
theorem bin_atoms_spec (junk : Nat → Nat) (g : Grid) (a : Atom) (q : Quad)
    (includegroup bitmask : Nat) (s : BinState)
    (hmb : g.mbins ≤ s.store.maxbin) (hcap : s.store.CapInv)
    (hrange : ∀ i ∈ bin_order a includegroup bitmask,
      0 ≤ home_cell g a i ∧ home_cell g a i < (g.mbins : Int)) :
    ∃ s', bin_atoms junk g a q includegroup bitmask s = some s' ∧
      s'.store.maxbin = s.store.maxbin ∧ s'.store.CapInv ∧ s'.store.SizeInv g.mbins ∧
      (∀ b, b < g.mbins → s'.store.members b
        = (bin_order a includegroup bitmask).filter (fun i => home_cell g a i = (b : Int))) ∧
      (∀ b, b < g.mbins → s'.store.bin_ncontent b
        = ((bin_order a includegroup bitmask).filter
            (fun i => home_cell g a i = (b : Int))).length) := by
  obtain ⟨st0, hc, hmax0, _, _, hz, _, hcont, hexp⟩ := clear_counts_spec g.mbins s.store hmb
  have hcap0 : st0.CapInv := by
    intro b hb
    unfold Store.capacity
    rw [hcont, hexp]
    exact hcap b (by omega)
  have hsz0 : st0.SizeInv g.mbins := by
    intro b hb
    rw [hz b hb]
    exact Nat.zero_le _
  have hps : ∀ p ∈ (bin_order a includegroup bitmask).map (fun i => (home_cell g a i, i)),
      0 ≤ p.1 ∧ p.1 < (g.mbins : Int) := by
    intro p hp
    obtain ⟨i, hi, rfl⟩ := List.mem_map.mp hp
    exact hrange i hi
  obtain ⟨st', he, hmax', hcap', hsz', hmem', hnc', _⟩ :=
    insert_all_spec junk g.mbins _ st0 (by omega) hcap0 hsz0 hps
  have hstore := bin_atoms_store junk g a q includegroup bitmask s
  rw [hc, Option.some_bind, he] at hstore
  cases hb : bin_atoms junk g a q includegroup bitmask s with
  | none => rw [hb] at hstore; simp at hstore
  | some s' =>
    rw [hb] at hstore
    simp only [Option.map_some', Option.some.injEq] at hstore
    refine ⟨s', rfl, ?_, ?_, ?_, ?_, ?_⟩
    · rw [hstore]; omega
    · rw [hstore]; exact hcap'
    · rw [hstore]; exact hsz'
    · intro b hb
      rw [hstore, hmem' b, filter_home_map]
      simp [Store.members, hz b hb]
    · intro b hb
      rw [hstore, hnc' b, hz b hb, ← filter_home_map g a _ b]
      simp

/-- C3: after `bin_atoms` with no include-group (on a store that covers the
grid, with every home cell inside the grid) the index of every local or ghost
point entity occurs exactly once in the member list of the cell
`quad2bins(x[i])` and in no other cell. -/
theorem bin_atoms_point_single_ownership (junk : Nat → Nat) (g : Grid) (a : Atom) (q : Quad)
    (bitmask : Nat) (s : BinState)
    (hmb : g.mbins ≤ s.store.maxbin) (hcap : s.store.CapInv)
    (hrange : ∀ i, i < a.nlocal + a.nghost →
      0 ≤ home_cell g a i ∧ home_cell g a i < (g.mbins : Int)) :
    ∃ s', bin_atoms junk g a q 0 bitmask s = some s' ∧
      ∀ i, i < a.nlocal + a.nghost → a.element_type i = 0 →
        ∀ b, b < g.mbins →
          (s'.store.members b).count i = if (b : Int) = quad2bins g (a.x i) then 1 else 0 := by
  have hord : bin_order a 0 bitmask = List.range (a.nlocal + a.nghost) := by
    simp [bin_order]
  obtain ⟨s', hs, _, _, _, hmem, _⟩ := bin_atoms_spec junk g a q 0 bitmask s hmb hcap
    (by rw [hord]; intro i hi; exact hrange i (List.mem_range.mp hi))
  refine ⟨s', hs, ?_⟩
  intro i hi ht b hb
  rw [hmem b hb, hord]
  have hhome : home_cell g a i = quad2bins g (a.x i) := by simp [home_cell, ht]
  have hnd : ((List.range (a.nlocal + a.nghost)).filter
      (fun i => home_cell g a i = (b : Int))).Nodup := (List.nodup_range _).filter _
  by_cases hc : (b : Int) = quad2bins g (a.x i)
  · rw [if_pos hc]
    apply List.count_eq_one_of_mem hnd
    rw [List.mem_filter]
    exact ⟨List.mem_range.mpr hi, by simp [hhome, hc]⟩
  · rw [if_neg hc]
    apply List.count_eq_zero_of_not_mem
    rw [List.mem_filter]
    rintro ⟨_, h⟩
    simp only [decide_eq_true_eq] at h
    exact hc (by rw [← h, hhome])

/-- Insertions into one cell that satisfies the capacity formula and the size
bound. -/
theorem insert_cell_spec (junk : Nat → Nat) (b : Nat) (is : List Nat) (st : Store)
    (hb : b < st.maxbin)
    (hcap : st.capacity b = MAXBINCONTENT + EXPAND * st.bin_expansion_counts b)
    (hsz : st.bin_ncontent b ≤ st.capacity b) :
    ∃ st', insert_all junk (is.map (fun i => ((b : Int), i))) st = some st' ∧
      st'.bin_ncontent b = st.bin_ncontent b + is.length ∧
      st'.members b = st.members b ++ is ∧
      st'.bin_ncontent b ≤ st'.capacity b ∧
      st'.capacity b = MAXBINCONTENT + EXPAND * st'.bin_expansion_counts b := by
  induction is generalizing st with
  | nil => exact ⟨st, rfl, rfl, by simp, hsz, hcap⟩
  | cons i is ih =>
    obtain ⟨st1, he, hmax, _, _, hnc, hmem, hcap1, hw, _, _, _⟩ :=
      insert_member_spec junk st b i hb hcap hsz
    obtain ⟨st', he', hnc', hmem', hsz', hcap'⟩ := ih st1 (by omega) hcap1 (by omega)
    refine ⟨st', ?_, ?_, ?_, hsz', hcap'⟩
    · simp only [List.map_cons, insert_all, he, Option.some_bind, he']
    · rw [hnc', hnc, List.length_cons]; omega
    · rw [hmem', hmem, List.append_assoc, List.singleton_append]

/-- C7: inserting the indices `is` (any number `N` of them) into one cleared
cell through the insertion step of `bin_atoms` leaves `bin_ncontent = N` and
`bin_content[0..N-1]` equal to `is` in insertion order; when `N` exceeds the
capacity the cell had, the capacity has grown. -/
theorem insert_many_into_cleared_cell (junk : Nat → Nat) (st : Store) (b : Nat) (is : List Nat)
    (hb : b < st.maxbin)
    (hcap : st.capacity b = MAXBINCONTENT + EXPAND * st.bin_expansion_counts b)
    (hclear : st.bin_ncontent b = 0) :
    ∃ st', insert_all junk (is.map (fun i => ((b : Int), i))) st = some st' ∧
      st'.bin_ncontent b = is.length ∧
      (st'.bin_content b).take is.length = is ∧
      (st.capacity b < is.length → st.capacity b < st'.capacity b) := by
  obtain ⟨st', he, hnc, hmem, hsz, _⟩ :=
    insert_cell_spec junk b is st hb hcap (by rw [hclear]; exact Nat.zero_le _)
  rw [hclear, Nat.zero_add] at hnc
  refine ⟨st', he, hnc, ?_, fun h => by omega⟩
  have : st.members b = [] := by simp [Store.members, hclear]
  rw [this, List.nil_append] at hmem
  rw [← hnc]
  exact hmem

/-- C9: two calls of `bin_atoms` in succession with the same entity arrays and
the same grid (the uninitialised memory met by the two calls may differ) give
every cell the same `bin_ncontent` and the same members
`bin_content[0..bin_ncontent-1]` after the second call as after the first. -/
theorem bin_atoms_idempotent (junk junk2 : Nat → Nat) (g : Grid) (a : Atom) (q : Quad)
    (includegroup bitmask : Nat) (s : BinState)
    (hmb : g.mbins ≤ s.store.maxbin) (hcap : s.store.CapInv)
    (hrange : ∀ i ∈ bin_order a includegroup bitmask,
      0 ≤ home_cell g a i ∧ home_cell g a i < (g.mbins : Int)) :
    ∃ s1 s2, bin_atoms junk g a q includegroup bitmask s = some s1 ∧
      bin_atoms junk2 g a q includegroup bitmask s1 = some s2 ∧
      ∀ b, b < g.mbins →
        s2.store.bin_ncontent b = s1.store.bin_ncontent b ∧
        s2.store.members b = s1.store.members b := by
  obtain ⟨s1, h1, hmax1, hcap1, _, hmem1, hnc1⟩ :=
    bin_atoms_spec junk g a q includegroup bitmask s hmb hcap hrange
  obtain ⟨s2, h2, _, _, _, hmem2, hnc2⟩ :=
    bin_atoms_spec junk2 g a q includegroup bitmask s1 (by omega) hcap1 hrange
  exact ⟨s1, s2, h1, h2, fun b hb => ⟨by rw [hnc2 b hb, hnc1 b hb], by rw [hmem2 b hb, hmem1 b hb]⟩⟩

/-- C10: the reset at the start of `bin_atoms` (on a store that covers the
grid) sets `bin_ncontent[b]` to zero for every `b < mbins` and leaves every
cell's block, capacity and expansion count unchanged. -/
theorem clear_counts_frame (mbins : Nat) (st : Store) (h : mbins ≤ st.maxbin) :
    ∃ st', clear_counts mbins st = some st' ∧
      (∀ b, b < mbins → st'.bin_ncontent b = 0) ∧
      (∀ b, st'.capacity b = st.capacity b ∧
        st'.bin_expansion_counts b = st.bin_expansion_counts b ∧
        st'.bin_content b = st.bin_content b) ∧
      st'.maxbin = st.maxbin := by
  obtain ⟨st', hc, hmax, _, _, hz, _, hcont, hexp⟩ := clear_counts_spec mbins st h
  exact ⟨st', hc, hz, fun b => ⟨by simp [Store.capacity, hcont], by rw [hexp], by rw [hcont]⟩,
    hmax⟩

/-- The cell-store part of `bin_atoms_setup` establishes the capacity invariant
and an allocation that covers the grid, from the constructor state as well as
from any later state that satisfies the invariant. -/
theorem bin_atoms_setup_store_capInv (junk : Nat → Nat) (mbins : Nat) (st : Store)
    (hst : (st.first_alloc = false ∧ st.maxbin = 0 ∧ st.max_bin_expansion_count = 0) ∨
      (st.first_alloc = true ∧ st.CapInv)) :
    (bin_atoms_setup_store junk mbins st).CapInv ∧
      mbins ≤ (bin_atoms_setup_store junk mbins st).maxbin := by
  unfold bin_atoms_setup_store
  by_cases hgt : mbins > st.maxbin
  · rw [if_pos hgt]
    refine ⟨?_, le_rfl⟩
    intro b hb
    have hb' : b < mbins := hb
    by_cases hfa : st.first_alloc = false
    · rcases hst with ⟨_, _, hm⟩ | ⟨ht, _⟩
      · simp only [Store.capacity, if_pos hfa, if_pos hb', memory_create_length, hm,
          Nat.mul_zero, Nat.add_zero]
      · rw [ht] at hfa; cases hfa
    · simp only [Store.capacity, if_neg hfa, if_pos hb', memory_grow_length]
      ring
  · rw [if_neg hgt]
    refine ⟨?_, by omega⟩
    rcases hst with ⟨_, hm, _⟩ | ⟨_, hc⟩
    · intro b hb; omega
    · exact hc

/-- C8 (as the code has it): after `bin_atoms_setup` every allocated cell has
capacity `MAXBINCONTENT + EXPAND * bin_expansion_counts[b]`; from the reset at
the start of `bin_atoms` on, and after any sequence of insertions into cells of
the grid, that still holds and `bin_ncontent[b]` is within the capacity for
every `b < mbins`; each further insertion succeeds, raises the capacity by
exactly `EXPAND` when the size equals the capacity (and not otherwise) before
it writes, and writes at an index strictly below the capacity. -/
theorem cell_store_invariant (junk : Nat → Nat) (mbins : Nat) (st : Store)
    (hst : (st.first_alloc = false ∧ st.maxbin = 0 ∧ st.max_bin_expansion_count = 0) ∨
      (st.first_alloc = true ∧ st.CapInv)) :
    (bin_atoms_setup_store junk mbins st).CapInv ∧
    ∃ s0, clear_counts mbins (bin_atoms_setup_store junk mbins st) = some s0 ∧
      s0.CapInv ∧ s0.SizeInv mbins ∧
      ∀ ps : List (Int × Nat), (∀ p ∈ ps, 0 ≤ p.1 ∧ p.1 < (mbins : Int)) →
        ∃ s1, insert_all junk ps s0 = some s1 ∧ s1.CapInv ∧ s1.SizeInv mbins ∧
          ∀ b i : Nat, b < mbins →
            ∃ s2, insert_member junk s1 (b : Int) i = some s2 ∧ s2.CapInv ∧ s2.SizeInv mbins ∧
              s1.bin_ncontent b < s2.capacity b ∧
              s2.capacity b
                = (if s1.bin_ncontent b = s1.capacity b then s1.capacity b + EXPAND
                    else s1.capacity b) := by
  obtain ⟨hcap, hmb⟩ := bin_atoms_setup_store_capInv junk mbins st hst
  refine ⟨hcap, ?_⟩
  obtain ⟨s0, hc, hmax0, _, _, hz, _, hcont, hexp⟩ := clear_counts_spec mbins _ hmb
  have hcap0 : s0.CapInv := by
    intro b hb
    unfold Store.capacity
    rw [hcont, hexp]
    exact hcap b (by omega)
  have hsz0 : s0.SizeInv mbins := by
    intro b hb
    rw [hz b hb]
    exact Nat.zero_le _
  refine ⟨s0, hc, hcap0, hsz0, ?_⟩
  intro ps hps
  obtain ⟨s1, he, hmax1, hcap1, hsz1, _, _, _⟩ :=
    insert_all_spec junk mbins ps s0 (by omega) hcap0 hsz0 hps
  refine ⟨s1, he, hcap1, hsz1, ?_⟩
  intro b i hb
  have hbm : b < s1.maxbin := by omega
  obtain ⟨s2, he2, hmax2, _, _, hnc, _, hcapb, hw, hgrow, _, hother⟩ :=
    insert_member_spec junk s1 b i hbm (hcap1 b hbm) (hsz1 b hb)
  refine ⟨s2, he2, ?_, ?_, hw, hgrow⟩
  · intro c hc
    by_cases hcb : c = b
    · subst hcb; exact hcapb
    · obtain ⟨_, h2, h3⟩ := hother c hcb
      unfold Store.capacity
      rw [h2, h3]
      exact hcap1 c (by omega)
  · intro c hc
    by_cases hcb : c = b
    · subst hcb; omega
    · obtain ⟨h1, h2, _⟩ := hother c hcb
      unfold Store.capacity
      rw [h1, h2]
      exact hsz1 c hc

theorem cell_store_invariant_witness :
    ((Store.init.first_alloc = false ∧ Store.init.maxbin = 0 ∧
        Store.init.max_bin_expansion_count = 0) ∨
      (Store.init.first_alloc = true ∧ Store.init.CapInv)) ∧
    ((bin_atoms_setup_store (fun _ => 7) 3 Store.init).CapInv ∧
    ∃ s0, clear_counts 3 (bin_atoms_setup_store (fun _ => 7) 3 Store.init) = some s0 ∧
      s0.CapInv ∧ s0.SizeInv 3 ∧
      ∀ ps : List (Int × Nat), (∀ p ∈ ps, 0 ≤ p.1 ∧ p.1 < ((3 : Nat) : Int)) →
        ∃ s1, insert_all (fun _ => 7) ps s0 = some s1 ∧ s1.CapInv ∧ s1.SizeInv 3 ∧
          ∀ b i : Nat, b < 3 →
            ∃ s2, insert_member (fun _ => 7) s1 (b : Int) i = some s2 ∧ s2.CapInv ∧
              s2.SizeInv 3 ∧ s1.bin_ncontent b < s2.capacity b ∧
              s2.capacity b
                = (if s1.bin_ncontent b = s1.capacity b then s1.capacity b + EXPAND
                    else s1.capacity b)) :=
  ⟨Or.inl ⟨rfl, rfl, rfl⟩, cell_store_invariant (fun _ => 7) 3 Store.init (Or.inl ⟨rfl, rfl, rfl⟩)⟩

/-- C8 as stated fails right after `bin_atoms_setup`: the first allocation
leaves `bin_ncontent` uninitialised, so with 1000 in the fresh slot the size of
cell 0 exceeds its capacity of 100 until `bin_atoms` resets it. -/
theorem setup_leaves_counts_uninitialised :
    (0 < (bin_atoms_setup_store (fun _ => 1000) 1 Store.init).maxbin) ∧
    (bin_atoms_setup_store (fun _ => 1000) 1 Store.init).capacity 0 = 100 ∧
    (bin_atoms_setup_store (fun _ => 1000) 1 Store.init).bin_ncontent 0 = 1000 ∧
    ¬ ((bin_atoms_setup_store (fun _ => 1000) 1 Store.init).bin_ncontent 0
        ≤ (bin_atoms_setup_store (fun _ => 1000) 1 Store.init).capacity 0) := by
  decide

/-! ## The worked configuration -/

theorem ex_node_bounding_box :
    node_bounding_box (ex_atom.nodal_positions 0) 1 8
      = (⟨17 / 4, 17 / 4, 17 / 4⟩, ⟨19 / 4, 19 / 4, 19 / 4⟩) := by
  simp only [node_bounding_box, forLoop, ex_atom, ex_cube_node, Vec3.get, Vec3.set]
  norm_num

theorem ex_axis_bin_interior (x : ℚ) (n : Int) (h0 : 0 ≤ n) (h9 : n ≤ 9) (hx : (n : ℚ) ≤ x)
    (hx' : x < n + 1) : axis_bin 0 10 1 10 x = n := by
  have hn0 : (0 : ℚ) ≤ n := by exact_mod_cast h0
  have hn9 : (n : ℚ) ≤ 9 := by exact_mod_cast h9
  have h1 : ¬ x ≥ 10 := by simp only [ge_iff_le, not_le]; linarith
  have h2 : x ≥ 0 := by linarith
  have h3 : static_cast_int ((x - 0) * 1) = n :=
    static_cast_int_eq _ _ (Or.inl ⟨by linarith, by linarith, by linarith⟩)
  simp only [axis_bin, h1, if_false, h2, if_true, h3]
  omega

theorem ex_axis_bin_ghost : axis_bin 0 10 1 10 (21 / 2) = 10 := by
  have h1 : (21 / 2 : ℚ) ≥ 10 := by norm_num
  have h3 : static_cast_int (((21 / 2 : ℚ) - 10) * 1) = 0 :=
    static_cast_int_eq _ _ (Or.inl (by norm_num))
  simp only [axis_bin, h1, if_true, h3]
  rfl

theorem ex_overlapRange : overlapRange ex_grid ex_atom 0 = ⟨3, 3, 3, 5, 5, 5⟩ := by
  have hp : ex_atom.poly_count 0 = 1 := rfl
  have hn : ex_atom.nodes_per_element_list (ex_atom.element_type 0) = 8 := rfl
  have hlo : axis_bin 0 10 1 10 (17 / 4 - (3 / 4 + 1 / 4)) = 3 :=
    ex_axis_bin_interior _ 3 (by norm_num) (by norm_num) (by norm_num) (by norm_num)
  have hhi : axis_bin 0 10 1 10 (19 / 4 + (3 / 4 + 1 / 4)) = 5 :=
    ex_axis_bin_interior _ 5 (by norm_num) (by norm_num) (by norm_num) (by norm_num)
  unfold overlapRange
  rw [hp, hn, ex_node_bounding_box]
  simp only [ex_grid, ex_atom, hlo, hhi]

theorem ex_home_cell_element : home_cell ex_grid ex_atom 0 = 4563 := by
  have ht : ex_atom.element_type 0 ≠ 0 := by decide
  simp only [home_cell, if_neg ht, ex_overlapRange]
  rfl

theorem ex_home_cell_point : home_cell ex_grid ex_atom 1 = 3052 := by
  have ht : ex_atom.element_type 1 = 0 := by decide
  have h0 : axis_bin 0 10 1 10 (1 / 2) = 0 :=
    ex_axis_bin_interior _ 0 (by norm_num) (by norm_num) (by norm_num) (by norm_num)
  simp only [home_cell, if_pos ht, quad2bins]
  simp only [ex_grid, ex_atom, if_neg (show ¬ (1 : Nat) = 0 by decide), ex_axis_bin_ghost, h0]
  rfl

theorem ex_store_ok :
    ex_grid.mbins ≤ ex_state.store.maxbin ∧ ex_state.store.CapInv :=
  ⟨(bin_atoms_setup_store_capInv (fun _ => 0) ex_grid.mbins Store.init
      (Or.inl ⟨rfl, rfl, rfl⟩)).2,
    (bin_atoms_setup_store_capInv (fun _ => 0) ex_grid.mbins Store.init
      (Or.inl ⟨rfl, rfl, rfl⟩)).1⟩

theorem ex_home_cells_in_grid :
    ∀ i, i < ex_atom.nlocal + ex_atom.nghost →
      0 ≤ home_cell ex_grid ex_atom i ∧ home_cell ex_grid ex_atom i < (ex_grid.mbins : Int) := by
  intro i hi
  have hi2 : i < 2 := hi
  have : i = 0 ∨ i = 1 := by omega
  rcases this with rfl | rfl
  · rw [ex_home_cell_element]; decide
  · rw [ex_home_cell_point]; decide

theorem ex_bin_order : bin_order ex_atom 0 0 = [0, 1] := by
  decide

/-- C1: in the worked configuration the inflated bounding box of the cube
element 0 overlaps the `3×3×3` cells `[3..5]³`, yet after `bin_atoms` its index
is a member of the single cell `(3,3,3)` (id 4563) and of no other cell of the
grid; for instance not of the cells `(4,4,4)` and `(5,5,5)` of the range. -/
theorem ex_element_filed_in_one_cell :
    overlapRange ex_grid ex_atom 0 = ⟨3, 3, 3, 5, 5, 5⟩ ∧
    flat_bin ex_grid 3 3 3 = 4563 ∧ flat_bin ex_grid 4 4 4 = 5070 ∧
    flat_bin ex_grid 5 5 5 = 5577 ∧
    ∃ s', bin_atoms (fun _ => 0) ex_grid ex_atom ex_quad 0 0 ex_state = some s' ∧
      (∀ b, b < ex_grid.mbins → (0 ∈ s'.store.members b ↔ b = 4563)) ∧
      s'.store.members 4563 = [0] ∧ s'.store.members 5070 = [] ∧
      s'.store.members 5577 = [] := by
  refine ⟨ex_overlapRange, by decide, by decide, by decide, ?_⟩
  obtain ⟨s', hs, _, _, _, hmem, _⟩ := bin_atoms_spec (fun _ => 0) ex_grid ex_atom ex_quad 0 0
    ex_state ex_store_ok.1 ex_store_ok.2
    (by rw [ex_bin_order]; intro i hi; exact ex_home_cells_in_grid i (by
      simp only [List.mem_cons, List.mem_singleton, List.not_mem_nil, or_false] at hi
      rcases hi with rfl | rfl <;> decide))
  have hm : ∀ b, b < ex_grid.mbins → s'.store.members b
      = (if (4563 : Int) = (b : Int) then [0] else []) ++
        (if (3052 : Int) = (b : Int) then [1] else []) := by
    intro b hb
    rw [hmem b hb, ex_bin_order]
    simp only [List.filter_cons, List.filter_nil, ex_home_cell_element, ex_home_cell_point]
    by_cases h1 : (4563 : Int) = (b : Int) <;> by_cases h2 : (3052 : Int) = (b : Int) <;>
      simp [h1, h2]
  refine ⟨s', hs, ?_, ?_, ?_, ?_⟩
  · intro b hb
    rw [hm b hb]
    by_cases h1 : (4563 : Int) = (b : Int) <;> by_cases h2 : (3052 : Int) = (b : Int) <;>
      simp [h1, h2] <;> omega
  · rw [hm 4563 (by decide)]; decide
  · rw [hm 5070 (by decide)]; decide
  · rw [hm 5577 (by decide)]; decide

/-! ## Instances of the theorems in the worked configuration -/

theorem compute_quad_points_count_witness :
    ex_atom.poly_count 0 = 1 ∧ 0 ≤ (ex_quad.surface_counts 0).i0 ∧
    0 ≤ (ex_quad.surface_counts 0).i1 ∧ 0 ≤ (ex_quad.surface_counts 0).i2 ∧
    (((compute_quad_points ex_atom ex_quad 0 (fun _ => ⟨0, 0, 0⟩)).quadrature_counter : Int)
        = quad_count_formula ex_quad.quadrature_node_count (ex_quad.surface_counts 0).i0
            (ex_quad.surface_counts 0).i1 (ex_quad.surface_counts 0).i2 ∧
      (ex_quad.surface_counts 0 = ⟨0, 0, 0⟩ →
        (compute_quad_points ex_atom ex_quad 0 (fun _ => ⟨0, 0, 0⟩)).quadrature_counter
          = ex_quad.quadrature_node_count ^ 3)) :=
  ⟨rfl, by decide, by decide, by decide,
    compute_quad_points_count ex_atom ex_quad 0 (fun _ => ⟨0, 0, 0⟩) rfl (by decide) (by decide)
      (by decide)⟩

theorem bin_atoms_point_single_ownership_witness :
    ex_grid.mbins ≤ ex_state.store.maxbin ∧ ex_state.store.CapInv ∧
    (∀ i, i < ex_atom.nlocal + ex_atom.nghost →
      0 ≤ home_cell ex_grid ex_atom i ∧ home_cell ex_grid ex_atom i < (ex_grid.mbins : Int)) ∧
    ∃ s', bin_atoms (fun _ => 0) ex_grid ex_atom ex_quad 0 0 ex_state = some s' ∧
      ∀ i, i < ex_atom.nlocal + ex_atom.nghost → ex_atom.element_type i = 0 →
        ∀ b, b < ex_grid.mbins →
          (s'.store.members b).count i
            = if (b : Int) = quad2bins ex_grid (ex_atom.x i) then 1 else 0 :=
  ⟨ex_store_ok.1, ex_store_ok.2, ex_home_cells_in_grid,
    bin_atoms_point_single_ownership (fun _ => 0) ex_grid ex_atom ex_quad 0 ex_state
      ex_store_ok.1 ex_store_ok.2 ex_home_cells_in_grid⟩

theorem ex_home_cells_in_order :
    ∀ i ∈ bin_order ex_atom 0 0,
      0 ≤ home_cell ex_grid ex_atom i ∧ home_cell ex_grid ex_atom i < (ex_grid.mbins : Int) := by
  rw [ex_bin_order]
  intro i hi
  apply ex_home_cells_in_grid
  simp only [List.mem_cons, List.mem_singleton, List.not_mem_nil, or_false] at hi
  rcases hi with rfl | rfl <;> decide

theorem bin_atoms_idempotent_witness :
    ex_grid.mbins ≤ ex_state.store.maxbin ∧ ex_state.store.CapInv ∧
    (∀ i ∈ bin_order ex_atom 0 0,
      0 ≤ home_cell ex_grid ex_atom i ∧ home_cell ex_grid ex_atom i < (ex_grid.mbins : Int)) ∧
    ∃ s1 s2, bin_atoms (fun _ => 0) ex_grid ex_atom ex_quad 0 0 ex_state = some s1 ∧
      bin_atoms (fun _ => 5) ex_grid ex_atom ex_quad 0 0 s1 = some s2 ∧
      ∀ b, b < ex_grid.mbins →
        s2.store.bin_ncontent b = s1.store.bin_ncontent b ∧
        s2.store.members b = s1.store.members b :=
  ⟨ex_store_ok.1, ex_store_ok.2, ex_home_cells_in_order,
    bin_atoms_idempotent (fun _ => 0) (fun _ => 5) ex_grid ex_atom ex_quad 0 0 ex_state
      ex_store_ok.1 ex_store_ok.2 ex_home_cells_in_order⟩

theorem insert_many_into_cleared_cell_witness :
    4563 < ex_state.store.maxbin ∧
    ex_state.store.capacity 4563
      = MAXBINCONTENT + EXPAND * ex_state.store.bin_expansion_counts 4563 ∧
    ex_state.store.bin_ncontent 4563 = 0 ∧
    ∃ st', insert_all (fun _ => 0) ((List.range 250).map (fun i => (((4563 : Nat) : Int), i)))
        ex_state.store = some st' ∧
      st'.bin_ncontent 4563 = (List.range 250).length ∧
      (st'.bin_content 4563).take (List.range 250).length = List.range 250 ∧
      (ex_state.store.capacity 4563 < (List.range 250).length →
        ex_state.store.capacity 4563 < st'.capacity 4563) :=
  ⟨by decide, by decide, by decide,
    insert_many_into_cleared_cell (fun _ => 0) ex_state.store 4563 (List.range 250) (by decide)
      (by decide) (by decide)⟩

theorem clear_counts_frame_witness :
    ex_grid.mbins ≤ ex_state.store.maxbin ∧
    ∃ st', clear_counts ex_grid.mbins ex_state.store = some st' ∧
      (∀ b, b < ex_grid.mbins → st'.bin_ncontent b = 0) ∧
      (∀ b, st'.capacity b = ex_state.store.capacity b ∧
        st'.bin_expansion_counts b = ex_state.store.bin_expansion_counts b ∧
        st'.bin_content b = ex_state.store.bin_content b) ∧
      st'.maxbin = ex_state.store.maxbin :=
  ⟨ex_store_ok.1, clear_counts_frame ex_grid.mbins ex_state.store ex_store_ok.1⟩

/-! ## The box partitioner -/

theorem setup_bins_ok (inp : SetupInput) (a : Atom) (style : Nat) (r : SetupResult)
    (hr : setup_bins inp a style = Except.ok r) : r = setup_geometry inp a style := by
  unfold setup_bins at hr
  simp only [] at hr
  split_ifs at hr
  exact (Except.ok.inj hr).symm

theorem axis_nbin_pos (bbox binsizeinv : ℚ) (h : 0 ≤ bbox * binsizeinv) :
    1 ≤ axis_nbin bbox binsizeinv := by
  unfold axis_nbin
  have h0 := static_cast_int_nonneg h
  simp only []
  split_ifs with hz
  · exact le_rfl
  · omega

theorem setup_geometry_valid (inp : SetupInput) (style : Nat) (hv : inp.Valid) :
    0 < binsize_optimal inp style ∧
    0 ≤ (inp.bboxhi.c0 - inp.bboxlo.c0) * (1 / binsize_optimal inp style) ∧
    0 ≤ (inp.bboxhi.c1 - inp.bboxlo.c1) * (1 / binsize_optimal inp style) ∧
    0 ≤ (inp.bboxhi.c2 - inp.bboxlo.c2) * (1 / binsize_optimal inp style) := by
  obtain ⟨h0, h1, h2, hm⟩ := hv
  have hp : 0 < binsize_optimal inp style := by
    unfold binsize_optimal
    simp only []
    linarith
  have hi : 0 ≤ 1 / binsize_optimal inp style := by positivity
  exact ⟨hp, mul_nonneg (by linarith) hi, mul_nonneg (by linarith) hi,
    mul_nonneg (by linarith) hi⟩

/-- The cell counts of a valid setting are at least 1 on every axis. -/
theorem setup_geometry_nbin (inp : SetupInput) (a : Atom) (style : Nat) (hv : inp.Valid) :
    1 ≤ (setup_geometry inp a style).grid.nbinx ∧
    1 ≤ (setup_geometry inp a style).grid.nbiny ∧
    1 ≤ (setup_geometry inp a style).grid.nbinz := by
  obtain ⟨_, hx, hy, hz⟩ := setup_geometry_valid inp style hv
  refine ⟨axis_nbin_pos _ _ hx, axis_nbin_pos _ _ hy, ?_⟩
  show 1 ≤ (if inp.dimension = 3 then
    axis_nbin (inp.bboxhi.c2 - inp.bboxlo.c2) (1 / binsize_optimal inp style) else 1)
  split_ifs
  · exact axis_nbin_pos _ _ hz
  · exact le_rfl

/-- The cells of a valid setting tile the global box exactly on every axis. -/
theorem setup_geometry_tiles (inp : SetupInput) (a : Atom) (style : Nat) (hv : inp.Valid) :
    ((setup_geometry inp a style).grid.nbinx : ℚ) * (setup_geometry inp a style).binsizex
        = inp.bboxhi.c0 - inp.bboxlo.c0 ∧
    ((setup_geometry inp a style).grid.nbiny : ℚ) * (setup_geometry inp a style).binsizey
        = inp.bboxhi.c1 - inp.bboxlo.c1 ∧
    ((setup_geometry inp a style).grid.nbinz : ℚ) * (setup_geometry inp a style).binsizez
        = inp.bboxhi.c2 - inp.bboxlo.c2 := by
  obtain ⟨hx, hy, hz⟩ := setup_geometry_nbin inp a style hv
  have key : ∀ (n : Int) (b : ℚ), 1 ≤ n → (n : ℚ) * (b / (n : ℚ)) = b := by
    intro n b hn
    have : (n : ℚ) ≠ 0 := by
      have : (0 : ℚ) < n := by exact_mod_cast (by omega : (0 : Int) < n)
      exact ne_of_gt this
    field_simp
  exact ⟨key _ _ hx, key _ _ hy, key _ _ hz⟩

theorem binsize_optimal_eq (inp : SetupInput) (style : Nat) :
    binsize_optimal inp style = (1 / 2) * inp.max_search_range := rfl

/-- The bounds `mbinlo`/`mbinhi` of one axis enclose the index of every
coordinate of the expanded sub-box: for `bsubboxlo ≤ x ≤ bsubboxhi` on an
exactly tiled axis the index the point rule gives to `x` lies between the
values `setup_bins` computes at lines 455-458, even before they are extended
by one cell. -/
theorem axis_bin_within (bboxlo bboxhi binsize bininv : ℚ) (nbin : Int)
    (bsubboxlo bsubboxhi x : ℚ)
    (hn : 1 ≤ nbin) (htile : (nbin : ℚ) * binsize = bboxhi - bboxlo)
    (hinv : bininv = 1 / binsize) (hbox : bboxlo < bboxhi)
    (hlo : bsubboxlo ≤ x) (hhi : x ≤ bsubboxhi) :
    axis_mbinlo bsubboxlo (bboxhi - bboxlo) bboxlo bininv
        ≤ axis_bin bboxlo bboxhi bininv nbin x ∧
      axis_bin bboxlo bboxhi bininv nbin x
        ≤ axis_mbinhi bsubboxhi (bboxhi - bboxlo) bboxlo bininv := by
  obtain ⟨hpos, hLn, _⟩ := axis_bin_interior bboxlo bboxhi binsize bininv nbin bboxlo hn htile
    hinv le_rfl hbox
  have hL : 0 < bboxhi - bboxlo := by linarith
  have hS : 0 ≤ SMALL * (bboxhi - bboxlo) := by
    unfold SMALL; positivity
  -- scaled offsets of the two coordinates `coord` and of `x`
  have hcx : (bsubboxlo - SMALL * (bboxhi - bboxlo) - bboxlo) * bininv ≤ (x - bboxlo) * bininv :=
    mul_le_mul_of_nonneg_right (by linarith) hpos.le
  have hxh : (x - bboxlo) * bininv ≤ (bsubboxhi + SMALL * (bboxhi - bboxlo) - bboxlo) * bininv :=
    mul_le_mul_of_nonneg_right (by linarith) hpos.le
  -- the index of `x` in the three branches
  have hix : (x < bboxlo → axis_bin bboxlo bboxhi bininv nbin x = ⌈(x - bboxlo) * bininv⌉ - 1) ∧
      (bboxlo ≤ x → 0 ≤ axis_bin bboxlo bboxhi bininv nbin x ∧
        axis_bin bboxlo bboxhi bininv nbin x ≤ ⌊(x - bboxlo) * bininv⌋ ∧
        (x < bboxhi → axis_bin bboxlo bboxhi bininv nbin x = ⌊(x - bboxlo) * bininv⌋) ∧
        (bboxhi ≤ x → axis_bin bboxlo bboxhi bininv nbin x = ⌊(x - bboxlo) * bininv⌋)) := by
    constructor
    · intro hx
      have h1 : ¬ x ≥ bboxhi := by simp only [ge_iff_le, not_le]; linarith
      have h3 : ¬ x ≥ bboxlo := not_le.mpr hx
      have hneg : (x - bboxlo) * bininv < 0 := mul_neg_of_neg_of_pos (by linarith) hpos
      simp only [axis_bin, h1, h3, if_false, static_cast_int_of_neg hneg]
    · intro hx
      have hy0 : 0 ≤ (x - bboxlo) * bininv := mul_nonneg (by linarith) hpos.le
      by_cases hxh' : x < bboxhi
      · obtain ⟨_, _, he⟩ := axis_bin_interior bboxlo bboxhi binsize bininv nbin x hn htile
          hinv hx hxh'
        refine ⟨?_, le_of_eq he, fun _ => he, fun h => absurd hxh' (not_lt.mpr h)⟩
        rw [he]; exact Int.floor_nonneg.mpr hy0
      · have hge : x ≥ bboxhi := not_lt.mp hxh'
        have harg : (x - bboxhi) * bininv = (x - bboxlo) * bininv - nbin := by
          rw [← hLn]; ring
        have h0 : 0 ≤ (x - bboxhi) * bininv := mul_nonneg (by linarith) hpos.le
        have he : axis_bin bboxlo bboxhi bininv nbin x = ⌊(x - bboxlo) * bininv⌋ := by
          simp only [axis_bin, hge, if_true, static_cast_int_of_nonneg h0]
          rw [harg, Int.floor_sub_int]
          ring
        refine ⟨?_, le_of_eq he, fun h => absurd h hxh', fun _ => he⟩
        rw [he]; exact Int.floor_nonneg.mpr hy0
  constructor
  · -- lower bound
    unfold axis_mbinlo
    simp only []
    by_cases hc : bsubboxlo - SMALL * (bboxhi - bboxlo) < bboxlo
    · have hneg : (bsubboxlo - SMALL * (bboxhi - bboxlo) - bboxlo) * bininv < 0 :=
        mul_neg_of_neg_of_pos (by linarith) hpos
      rw [if_pos hc, static_cast_int_of_neg hneg]
      by_cases hx : x < bboxlo
      · rw [hix.1 hx]
        have := Int.ceil_mono hcx
        omega
      · have h0 := (hix.2 (not_lt.mp hx)).1
        have : ⌈(bsubboxlo - SMALL * (bboxhi - bboxlo) - bboxlo) * bininv⌉ ≤ 0 :=
          Int.ceil_le.mpr (by simpa using hneg.le)
        omega
    · have hc' : bboxlo ≤ bsubboxlo - SMALL * (bboxhi - bboxlo) := not_lt.mp hc
      have h0 : 0 ≤ (bsubboxlo - SMALL * (bboxhi - bboxlo) - bboxlo) * bininv :=
        mul_nonneg (by linarith) hpos.le
      rw [if_neg hc, static_cast_int_of_nonneg h0]
      have hx : bboxlo ≤ x := by linarith
      have hmono := Int.floor_mono hcx
      by_cases hxh' : x < bboxhi
      · rw [(hix.2 hx).2.2.1 hxh']; exact hmono
      · rw [(hix.2 hx).2.2.2 (not_lt.mp hxh')]; exact hmono
  · -- upper bound
    unfold axis_mbinhi
    simp only []
    by_cases hx : x < bboxlo
    · rw [hix.1 hx]
      by_cases hc : 0 ≤ (bsubboxhi + SMALL * (bboxhi - bboxlo) - bboxlo) * bininv
      · rw [static_cast_int_of_nonneg hc]
        have h1 : ⌈(x - bboxlo) * bininv⌉ ≤ 0 :=
          Int.ceil_le.mpr (by
            simpa using (mul_neg_of_neg_of_pos (by linarith : x - bboxlo < 0) hpos).le)
        have h2 := Int.floor_nonneg.mpr hc
        omega
      · rw [static_cast_int_of_neg (not_le.mp hc)]
        have := Int.ceil_mono hxh
        omega
    · have hx' : bboxlo ≤ x := not_lt.mp hx
      have hy0 : 0 ≤ (x - bboxlo) * bininv := mul_nonneg (by linarith) hpos.le
      rw [static_cast_int_of_nonneg (le_trans hy0 hxh)]
      exact le_trans (hix.2 hx').2.1 (Int.floor_mono hxh)

/-- The flattened id of an index triple inside the per-axis ranges lies in
`[0, mbinx * mbiny * mbinz - 1]`. -/
theorem flat_bin_bounds (g : Grid) (ix iy iz : Int)
    (hx : g.mbinxlo ≤ ix ∧ ix ≤ g.mbinxlo + g.mbinx - 1)
    (hy : g.mbinylo ≤ iy ∧ iy ≤ g.mbinylo + g.mbiny - 1)
    (hz : g.mbinzlo ≤ iz ∧ iz ≤ g.mbinzlo + g.mbinz - 1) :
    0 ≤ flat_bin g ix iy iz ∧ flat_bin g ix iy iz ≤ g.mbinx * g.mbiny * g.mbinz - 1 := by
  unfold flat_bin
  obtain ⟨hx0, hx1⟩ := hx
  obtain ⟨hy0, hy1⟩ := hy
  obtain ⟨hz0, hz1⟩ := hz
  have dx0 : 0 ≤ ix - g.mbinxlo := by omega
  have dy0 : 0 ≤ iy - g.mbinylo := by omega
  have dz0 : 0 ≤ iz - g.mbinzlo := by omega
  have dx1 : ix - g.mbinxlo ≤ g.mbinx - 1 := by omega
  have dy1 : iy - g.mbinylo ≤ g.mbiny - 1 := by omega
  have dz1 : iz - g.mbinzlo ≤ g.mbinz - 1 := by omega
  have X1 : 0 ≤ g.mbinx := by omega
  have Y1 : 0 ≤ g.mbiny := by omega
  generalize ix - g.mbinxlo = dx at *
  generalize iy - g.mbinylo = dy at *
  generalize iz - g.mbinzlo = dz at *
  have e1 : 0 ≤ dz * g.mbiny := mul_nonneg dz0 Y1
  have e2 : 0 ≤ dz * g.mbiny * g.mbinx := mul_nonneg e1 X1
  have e3 : 0 ≤ dy * g.mbinx := mul_nonneg dy0 X1
  have f1 : 0 ≤ (g.mbinz - 1 - dz) * g.mbiny := mul_nonneg (by omega) Y1
  have f2 : 0 ≤ (g.mbinz - 1 - dz) * g.mbiny * g.mbinx := mul_nonneg f1 X1
  have f3 : 0 ≤ (g.mbiny - 1 - dy) * g.mbinx := mul_nonneg (by omega) X1
  constructor
  · linarith
  · nlinarith

/-- The three tests of `setup_bins`, as the code writes them. -/
theorem setup_bins_cases (inp : SetupInput) (a : Atom) (style : Nat) :
    setup_bins inp a style =
      if domain_too_large_test inp style then Except.error Failure.domain_too_large
      else if box_too_small_test inp a style then Except.error Failure.box_too_small
      else if too_many_bins_test inp a style then Except.error Failure.too_many_bins
      else Except.ok (setup_geometry inp a style) := rfl

/-- The per-axis index ranges of a valid setting whose expanded sub-box is not
empty hold at least three cells on the axes that are binned, one cell on the
third axis in 2-D. -/
theorem setup_geometry_mbin_pos (inp : SetupInput) (a : Atom) (style : Nat)
    (hv : inp.Valid) (hord : inp.SubboxOrdered a) :
    3 ≤ (setup_geometry inp a style).grid.mbinx ∧
    3 ≤ (setup_geometry inp a style).grid.mbiny ∧
    1 ≤ (setup_geometry inp a style).grid.mbinz := by
  obtain ⟨nx, ny, nz⟩ := setup_geometry_nbin inp a style hv
  obtain ⟨tx, ty, tz⟩ := setup_geometry_tiles inp a style hv
  obtain ⟨o0, o1, o2⟩ := hord
  obtain ⟨h0, h1, h2, _⟩ := hv
  have bx := axis_bin_within inp.bboxlo.c0 inp.bboxhi.c0 (setup_geometry inp a style).binsizex
    (setup_geometry inp a style).grid.bininvx (setup_geometry inp a style).grid.nbinx
    (expanded_subbox inp a).1.c0 (expanded_subbox inp a).2.c0 (expanded_subbox inp a).1.c0
    nx tx rfl h0 le_rfl o0
  have by' := axis_bin_within inp.bboxlo.c1 inp.bboxhi.c1 (setup_geometry inp a style).binsizey
    (setup_geometry inp a style).grid.bininvy (setup_geometry inp a style).grid.nbiny
    (expanded_subbox inp a).1.c1 (expanded_subbox inp a).2.c1 (expanded_subbox inp a).1.c1
    ny ty rfl h1 le_rfl o1
  have bz := axis_bin_within inp.bboxlo.c2 inp.bboxhi.c2 (setup_geometry inp a style).binsizez
    (setup_geometry inp a style).grid.bininvz (setup_geometry inp a style).grid.nbinz
    (expanded_subbox inp a).1.c2 (expanded_subbox inp a).2.c2 (expanded_subbox inp a).1.c2
    nz tz rfl h2 le_rfl o2
  have mx : (setup_geometry inp a style).grid.mbinx
      = (axis_mbinhi (expanded_subbox inp a).2.c0 (inp.bboxhi.c0 - inp.bboxlo.c0) inp.bboxlo.c0
            (setup_geometry inp a style).grid.bininvx + 1)
        - (axis_mbinlo (expanded_subbox inp a).1.c0 (inp.bboxhi.c0 - inp.bboxlo.c0) inp.bboxlo.c0
            (setup_geometry inp a style).grid.bininvx - 1) + 1 := rfl
  have my : (setup_geometry inp a style).grid.mbiny
      = (axis_mbinhi (expanded_subbox inp a).2.c1 (inp.bboxhi.c1 - inp.bboxlo.c1) inp.bboxlo.c1
            (setup_geometry inp a style).grid.bininvy + 1)
        - (axis_mbinlo (expanded_subbox inp a).1.c1 (inp.bboxhi.c1 - inp.bboxlo.c1) inp.bboxlo.c1
            (setup_geometry inp a style).grid.bininvy - 1) + 1 := rfl
  have mz : (setup_geometry inp a style).grid.mbinz
      = (if inp.dimension = 3 then
          axis_mbinhi (expanded_subbox inp a).2.c2 (inp.bboxhi.c2 - inp.bboxlo.c2) inp.bboxlo.c2
            (setup_geometry inp a style).grid.bininvz + 1 else 0)
        - (if inp.dimension = 3 then
          axis_mbinlo (expanded_subbox inp a).1.c2 (inp.bboxhi.c2 - inp.bboxlo.c2) inp.bboxlo.c2
            (setup_geometry inp a style).grid.bininvz - 1 else 0) + 1 := rfl
  have lx := le_trans bx.1 bx.2
  have ly := le_trans by'.1 by'.2
  have lz := le_trans bz.1 bz.2
  refine ⟨?_, ?_, ?_⟩
  · rw [mx]; omega
  · rw [my]; omega
  · rw [mz]; split_ifs <;> omega

/-- The cell count of a valid setting with a non-empty expanded sub-box is the
product of the per-axis counts plus one. -/
theorem setup_geometry_mbins (inp : SetupInput) (a : Atom) (style : Nat)
    (hv : inp.Valid) (hord : inp.SubboxOrdered a) :
    ((setup_geometry inp a style).grid.mbins : Int)
      = (setup_geometry inp a style).grid.mbinx * (setup_geometry inp a style).grid.mbiny
          * (setup_geometry inp a style).grid.mbinz + 1 := by
  obtain ⟨px, py, pz⟩ := setup_geometry_mbin_pos inp a style hv hord
  have h1 : 0 ≤ (setup_geometry inp a style).grid.mbinx * (setup_geometry inp a style).grid.mbiny :=
    mul_nonneg (by omega) (by omega)
  have h2 : 0 ≤ (setup_geometry inp a style).grid.mbinx * (setup_geometry inp a style).grid.mbiny
      * (setup_geometry inp a style).grid.mbinz := mul_nonneg h1 (by omega)
  show (((setup_geometry inp a style).grid.mbinx * (setup_geometry inp a style).grid.mbiny
      * (setup_geometry inp a style).grid.mbinz + 1).toNat : Int) = _
  rw [Int.toNat_of_nonneg (by omega)]

/-- C12: in 3-D, after `setup_bins` succeeds on a valid setting, every point
inside the expanded sub-box `[bsubboxlo, bsubboxhi]` gets from `quad2bins`
per-axis indices within `[mbinlo, mbinhi]` and a cell id in `[0, mbins - 1)`. -/
theorem quad2bins_in_grid (inp : SetupInput) (a : Atom) (style : Nat) (r : SetupResult)
    (hv : inp.Valid) (hdim : inp.dimension = 3) (hr : setup_bins inp a style = Except.ok r)
    (x : Vec3)
    (hx : r.bsubboxlo.c0 ≤ x.c0 ∧ x.c0 ≤ r.bsubboxhi.c0)
    (hy : r.bsubboxlo.c1 ≤ x.c1 ∧ x.c1 ≤ r.bsubboxhi.c1)
    (hz : r.bsubboxlo.c2 ≤ x.c2 ∧ x.c2 ≤ r.bsubboxhi.c2) :
    (r.grid.mbinxlo ≤ axis_bin r.grid.bboxlo.c0 r.grid.bboxhi.c0 r.grid.bininvx r.grid.nbinx x.c0 ∧
      axis_bin r.grid.bboxlo.c0 r.grid.bboxhi.c0 r.grid.bininvx r.grid.nbinx x.c0 ≤ r.mbinxhi) ∧
    (r.grid.mbinylo ≤ axis_bin r.grid.bboxlo.c1 r.grid.bboxhi.c1 r.grid.bininvy r.grid.nbiny x.c1 ∧
      axis_bin r.grid.bboxlo.c1 r.grid.bboxhi.c1 r.grid.bininvy r.grid.nbiny x.c1 ≤ r.mbinyhi) ∧
    (r.grid.mbinzlo ≤ axis_bin r.grid.bboxlo.c2 r.grid.bboxhi.c2 r.grid.bininvz r.grid.nbinz x.c2 ∧
      axis_bin r.grid.bboxlo.c2 r.grid.bboxhi.c2 r.grid.bininvz r.grid.nbinz x.c2 ≤ r.mbinzhi) ∧
    0 ≤ quad2bins r.grid x ∧ quad2bins r.grid x < (r.grid.mbins : Int) - 1 := by
  have hg := setup_bins_ok inp a style r hr
  subst hg
  obtain ⟨nx, ny, nz⟩ := setup_geometry_nbin inp a style hv
  obtain ⟨tx, ty, tz⟩ := setup_geometry_tiles inp a style hv
  have hord : inp.SubboxOrdered a :=
    ⟨le_trans hx.1 hx.2, le_trans hy.1 hy.2, le_trans hz.1 hz.2⟩
  have hmb := setup_geometry_mbins inp a style hv hord
  obtain ⟨h0, h1, h2, _⟩ := hv
  have bx := axis_bin_within inp.bboxlo.c0 inp.bboxhi.c0 (setup_geometry inp a style).binsizex
    (setup_geometry inp a style).grid.bininvx (setup_geometry inp a style).grid.nbinx
    (expanded_subbox inp a).1.c0 (expanded_subbox inp a).2.c0 x.c0 nx tx rfl h0 hx.1 hx.2
  have by' := axis_bin_within inp.bboxlo.c1 inp.bboxhi.c1 (setup_geometry inp a style).binsizey
    (setup_geometry inp a style).grid.bininvy (setup_geometry inp a style).grid.nbiny
    (expanded_subbox inp a).1.c1 (expanded_subbox inp a).2.c1 x.c1 ny ty rfl h1 hy.1 hy.2
  have bz := axis_bin_within inp.bboxlo.c2 inp.bboxhi.c2 (setup_geometry inp a style).binsizez
    (setup_geometry inp a style).grid.bininvz (setup_geometry inp a style).grid.nbinz
    (expanded_subbox inp a).1.c2 (expanded_subbox inp a).2.c2 x.c2 nz tz rfl h2 hz.1 hz.2
  have ex : (setup_geometry inp a style).grid.mbinxlo
      = axis_mbinlo (expanded_subbox inp a).1.c0 (inp.bboxhi.c0 - inp.bboxlo.c0) inp.bboxlo.c0
          (setup_geometry inp a style).grid.bininvx - 1 := rfl
  have exh : (setup_geometry inp a style).mbinxhi
      = axis_mbinhi (expanded_subbox inp a).2.c0 (inp.bboxhi.c0 - inp.bboxlo.c0) inp.bboxlo.c0
          (setup_geometry inp a style).grid.bininvx + 1 := rfl
  have ey : (setup_geometry inp a style).grid.mbinylo
      = axis_mbinlo (expanded_subbox inp a).1.c1 (inp.bboxhi.c1 - inp.bboxlo.c1) inp.bboxlo.c1
          (setup_geometry inp a style).grid.bininvy - 1 := rfl
  have eyh : (setup_geometry inp a style).mbinyhi
      = axis_mbinhi (expanded_subbox inp a).2.c1 (inp.bboxhi.c1 - inp.bboxlo.c1) inp.bboxlo.c1
          (setup_geometry inp a style).grid.bininvy + 1 := rfl
  have ez : (setup_geometry inp a style).grid.mbinzlo
      = axis_mbinlo (expanded_subbox inp a).1.c2 (inp.bboxhi.c2 - inp.bboxlo.c2) inp.bboxlo.c2
          (setup_geometry inp a style).grid.bininvz - 1 := by
    show (if inp.dimension = 3 then _ else 0) = _
    rw [if_pos hdim]
    rfl
  have ezh : (setup_geometry inp a style).mbinzhi
      = axis_mbinhi (expanded_subbox inp a).2.c2 (inp.bboxhi.c2 - inp.bboxlo.c2) inp.bboxlo.c2
          (setup_geometry inp a style).grid.bininvz + 1 := by
    show (if inp.dimension = 3 then _ else 0) = _
    rw [if_pos hdim]
    rfl
  have mx : (setup_geometry inp a style).grid.mbinx
      = (setup_geometry inp a style).mbinxhi - (setup_geometry inp a style).grid.mbinxlo + 1 := rfl
  have my : (setup_geometry inp a style).grid.mbiny
      = (setup_geometry inp a style).mbinyhi - (setup_geometry inp a style).grid.mbinylo + 1 := rfl
  have mz : (setup_geometry inp a style).grid.mbinz
      = (setup_geometry inp a style).mbinzhi - (setup_geometry inp a style).grid.mbinzlo + 1 := rfl
  have rx : (setup_geometry inp a style).grid.mbinxlo
        ≤ axis_bin inp.bboxlo.c0 inp.bboxhi.c0 (setup_geometry inp a style).grid.bininvx
            (setup_geometry inp a style).grid.nbinx x.c0 ∧
      axis_bin inp.bboxlo.c0 inp.bboxhi.c0 (setup_geometry inp a style).grid.bininvx
            (setup_geometry inp a style).grid.nbinx x.c0 ≤ (setup_geometry inp a style).mbinxhi := by
    rw [ex, exh]; omega
  have ry : (setup_geometry inp a style).grid.mbinylo
        ≤ axis_bin inp.bboxlo.c1 inp.bboxhi.c1 (setup_geometry inp a style).grid.bininvy
            (setup_geometry inp a style).grid.nbiny x.c1 ∧
      axis_bin inp.bboxlo.c1 inp.bboxhi.c1 (setup_geometry inp a style).grid.bininvy
            (setup_geometry inp a style).grid.nbiny x.c1 ≤ (setup_geometry inp a style).mbinyhi := by
    rw [ey, eyh]; omega
  have rz : (setup_geometry inp a style).grid.mbinzlo
        ≤ axis_bin inp.bboxlo.c2 inp.bboxhi.c2 (setup_geometry inp a style).grid.bininvz
            (setup_geometry inp a style).grid.nbinz x.c2 ∧
      axis_bin inp.bboxlo.c2 inp.bboxhi.c2 (setup_geometry inp a style).grid.bininvz
            (setup_geometry inp a style).grid.nbinz x.c2 ≤ (setup_geometry inp a style).mbinzhi := by
    rw [ez, ezh]; omega
  have hf := flat_bin_bounds (setup_geometry inp a style).grid _ _ _
    ⟨rx.1, by rw [mx]; omega⟩ ⟨ry.1, by rw [my]; omega⟩ ⟨rz.1, by rw [mz]; omega⟩
  refine ⟨rx, ry, rz, hf.1, ?_⟩
  have hq : quad2bins (setup_geometry inp a style).grid x
      = flat_bin (setup_geometry inp a style).grid
          (axis_bin inp.bboxlo.c0 inp.bboxhi.c0 (setup_geometry inp a style).grid.bininvx
            (setup_geometry inp a style).grid.nbinx x.c0)
          (axis_bin inp.bboxlo.c1 inp.bboxhi.c1 (setup_geometry inp a style).grid.bininvy
            (setup_geometry inp a style).grid.nbiny x.c1)
          (axis_bin inp.bboxlo.c2 inp.bboxhi.c2 (setup_geometry inp a style).grid.bininvz
            (setup_geometry inp a style).grid.nbinz x.c2) := rfl
  rw [hq, hmb]
  have := hf.2
  omega

/-! ## Evaluation of the box partitioner on concrete settings -/

theorem axis_nbin_eval (bbox binsizeinv : ℚ) (n : Int) (hn : 1 ≤ n)
    (h1 : (n : ℚ) ≤ bbox * binsizeinv) (h2 : bbox * binsizeinv < n + 1) :
    axis_nbin bbox binsizeinv = n := by
  have hnq : (1 : ℚ) ≤ n := by exact_mod_cast hn
  have h : static_cast_int (bbox * binsizeinv) = n :=
    static_cast_int_eq _ _ (Or.inl ⟨by linarith, h1, h2⟩)
  unfold axis_nbin
  simp only [h]
  rw [if_neg (by omega)]

theorem axis_mbinlo_eval_below (bsubboxlo bbox bboxlo bininv : ℚ) (n : Int)
    (hc : bsubboxlo - SMALL * bbox < bboxlo)
    (h0 : (bsubboxlo - SMALL * bbox - bboxlo) * bininv < 0)
    (h1 : (n : ℚ) - 1 < (bsubboxlo - SMALL * bbox - bboxlo) * bininv)
    (h2 : (bsubboxlo - SMALL * bbox - bboxlo) * bininv ≤ n) :
    axis_mbinlo bsubboxlo bbox bboxlo bininv = n - 1 := by
  have h : static_cast_int ((bsubboxlo - SMALL * bbox - bboxlo) * bininv) = n :=
    static_cast_int_eq _ _ (Or.inr ⟨h0, h1, h2⟩)
  unfold axis_mbinlo
  simp only [h, if_pos hc]

theorem axis_mbinhi_eval (bsubboxhi bbox bboxlo bininv : ℚ) (n : Int)
    (h0 : 0 ≤ (bsubboxhi + SMALL * bbox - bboxlo) * bininv)
    (h1 : (n : ℚ) ≤ (bsubboxhi + SMALL * bbox - bboxlo) * bininv)
    (h2 : (bsubboxhi + SMALL * bbox - bboxlo) * bininv < n + 1) :
    axis_mbinhi bsubboxhi bbox bboxlo bininv = n := by
  unfold axis_mbinhi
  exact static_cast_int_eq _ _ (Or.inl ⟨h0, h1, h2⟩)

theorem ex_subbox :
    expanded_subbox ex_setup ex_atom = (⟨-4, -4, -4⟩, ⟨14, 14, 14⟩) := by
  have hp : ex_atom.poly_count 0 = 1 := rfl
  have hn : ex_atom.nodes_per_element_list (ex_atom.element_type 0) = 8 := rfl
  have ht : ex_atom.element_type 0 ≠ 0 := by decide
  have hl : ex_atom.nlocal = 1 := rfl
  simp only [expanded_subbox, stretch_subbox, hl, forLoop, if_pos ht, hp, hn,
    ex_node_bounding_box]
  simp only [ex_setup, Vec3.get, Vec3.set, if_true]
  norm_num

theorem ex_geometry : (setup_geometry ex_setup ex_atom BIN).grid = ex_grid := by
  have hb : binsize_optimal ex_setup BIN = 1 := by
    rw [binsize_optimal_eq]; norm_num [ex_setup]
  have nx : axis_nbin (10 - 0) (1 / 1) = 10 :=
    axis_nbin_eval _ _ 10 (by norm_num) (by norm_num) (by norm_num)
  simp only [setup_geometry, ex_subbox, hb]
  simp only [ex_setup, nx, if_true]
  have xh : axis_mbinhi 14 (10 - 0) 0 (1 / ((10 - 0) / ((10 : Int) : ℚ))) = 14 :=
    axis_mbinhi_eval _ _ _ _ 14 (by norm_num [SMALL]) (by norm_num [SMALL])
      (by norm_num [SMALL])
  have xl : axis_mbinlo (-4) (10 - 0) 0 (1 / ((10 - 0) / ((10 : Int) : ℚ))) = -4 - 1 :=
    axis_mbinlo_eval_below _ _ _ _ (-4) (by norm_num [SMALL]) (by norm_num [SMALL])
      (by norm_num [SMALL]) (by norm_num [SMALL])
  rw [xh, xl]
  simp only [ex_grid, Grid.mk.injEq]
  norm_num
  rfl

theorem ex_setup_valid : ex_setup.Valid := by
  unfold SetupInput.Valid
  norm_num [ex_setup]

/-- In the worked configuration `setup_bins` succeeds and produces `ex_grid`. -/
theorem ex_setup_bins :
    setup_bins ex_setup ex_atom BIN = Except.ok (setup_geometry ex_setup ex_atom BIN) := by
  have hb : binsize_optimal ex_setup BIN = 1 := by
    rw [binsize_optimal_eq]; norm_num [ex_setup]
  have hA : ¬ domain_too_large_test ex_setup BIN := by
    unfold domain_too_large_test
    rw [hb]
    norm_num [ex_setup]
  have hC : ¬ box_too_small_test ex_setup ex_atom BIN := by
    unfold box_too_small_test
    rw [hb, ex_geometry]
    norm_num [ CUT2BIN_RATIO, ex_grid]
  have hB : ¬ too_many_bins_test ex_setup ex_atom BIN := by
    unfold too_many_bins_test
    rw [ex_geometry]
    decide
  rw [setup_bins_cases, if_neg hA, if_neg hC, if_neg hB]

/-! ## Bounding boxes -/

theorem Vec3.get_set (v : Vec3) (d d' : Nat) (x : ℚ) (hd : d < 3) (hd' : d' < 3) :
    (v.set d x).get d' = if d' = d then x else v.get d' := by
  interval_cases d <;> interval_cases d' <;> simp [Vec3.get, Vec3.set]

theorem node_bounding_box_widen (pos : Nat → Nat → Vec3) (pc npe : Nat) :
    node_bounding_box pos pc npe
      = forLoop pc (fun p bb => forLoop npe (fun k bb => widen (pos k p) (pos k p) 3 bb) bb)
          (pos 0 0, pos 0 0) := rfl

theorem stretch_subbox_widen (a : Atom) (dimension : Nat) (sub : Vec3 × Vec3) :
    stretch_subbox a dimension sub
      = forLoop a.nlocal (fun i bs =>
          if a.element_type i ≠ 0 then
            widen
              (node_bounding_box (a.nodal_positions i) (a.poly_count i)
                (a.nodes_per_element_list (a.element_type i))).1
              (node_bounding_box (a.nodal_positions i) (a.poly_count i)
                (a.nodes_per_element_list (a.element_type i))).2 dimension bs
          else bs) sub := rfl

theorem stretch_subbox_lamda_widen (a : Atom) (dimension : Nat) (x2lamda : Vec3 → Vec3)
    (sub : Vec3 × Vec3) :
    stretch_subbox_lamda a dimension x2lamda sub
      = forLoop a.nlocal (fun i lh =>
          if a.element_type i ≠ 0 then
            forLoop (a.poly_count i) (fun p lh =>
              forLoop (a.nodes_per_element_list (a.element_type i)) (fun k lh =>
                widen (x2lamda (a.nodal_positions i k p)) (x2lamda (a.nodal_positions i k p))
                  dimension lh) lh) lh
          else lh) sub := rfl

theorem widen_succ_get (plo phi : Vec3) (n : Nat) (hn : n < 3) (bb : Vec3 × Vec3) (d : Nat)
    (hd : d < 3) :
    (widen plo phi (n + 1) bb).1.get d
        = (if d = n then min ((widen plo phi n bb).1.get n) (plo.get n)
            else (widen plo phi n bb).1.get d) ∧
    (widen plo phi (n + 1) bb).2.get d
        = (if d = n then max ((widen plo phi n bb).2.get n) (phi.get n)
            else (widen plo phi n bb).2.get d) := by
  have e : widen plo phi (n + 1) bb
      = (if plo.get n < (widen plo phi n bb).1.get n
          then (widen plo phi n bb).1.set n (plo.get n) else (widen plo phi n bb).1,
         if phi.get n > (widen plo phi n bb).2.get n
          then (widen plo phi n bb).2.set n (phi.get n) else (widen plo phi n bb).2) := rfl
  rw [e]
  constructor
  · show (if plo.get n < (widen plo phi n bb).1.get n
        then (widen plo phi n bb).1.set n (plo.get n) else (widen plo phi n bb).1).get d = _
    by_cases h : plo.get n < (widen plo phi n bb).1.get n
    · rw [if_pos h, Vec3.get_set _ _ _ _ hn hd, min_eq_right h.le]
    · rw [if_neg h, min_eq_left (not_lt.mp h)]
      by_cases hdn : d = n
      · rw [if_pos hdn, hdn]
      · rw [if_neg hdn]
  · show (if phi.get n > (widen plo phi n bb).2.get n
        then (widen plo phi n bb).2.set n (phi.get n) else (widen plo phi n bb).2).get d = _
    by_cases h : phi.get n > (widen plo phi n bb).2.get n
    · rw [if_pos h, Vec3.get_set _ _ _ _ hn hd, max_eq_right (le_of_lt h)]
    · rw [if_neg h, max_eq_left (not_lt.mp h)]
      by_cases hdn : d = n
      · rw [if_pos hdn, hdn]
      · rw [if_neg hdn]

/-- The widening step, axis by axis: on the axes below `n` the low corner
becomes the minimum and the high corner the maximum; the other axes keep their
values. -/
theorem widen_get (plo phi : Vec3) (n : Nat) (hn : n ≤ 3) (bb : Vec3 × Vec3) (d : Nat)
    (hd : d < 3) :
    (widen plo phi n bb).1.get d = (if d < n then min (bb.1.get d) (plo.get d) else bb.1.get d) ∧
    (widen plo phi n bb).2.get d = (if d < n then max (bb.2.get d) (phi.get d) else bb.2.get d) := by
  induction n generalizing d with
  | zero => exact ⟨rfl, rfl⟩
  | succ n ih =>
    obtain ⟨s1, s2⟩ := widen_succ_get plo phi n (by omega) bb d hd
    rw [s1, s2]
    by_cases hdn : d = n
    · subst hdn
      obtain ⟨ih1, ih2⟩ := ih (by omega) d hd
      rw [if_pos rfl, if_pos rfl, ih1, ih2, if_neg (lt_irrefl d), if_neg (lt_irrefl d),
        if_pos (Nat.lt_succ_self d), if_pos (Nat.lt_succ_self d)]
      exact ⟨rfl, rfl⟩
    · obtain ⟨ih1, ih2⟩ := ih (by omega) d hd
      rw [if_neg hdn, if_neg hdn, ih1, ih2]
      by_cases hlt : d < n
      · rw [if_pos hlt, if_pos hlt, if_pos (by omega : d < n + 1), if_pos (by omega : d < n + 1)]
        exact ⟨rfl, rfl⟩
      · rw [if_neg hlt, if_neg hlt, if_neg (by omega : ¬ d < n + 1),
          if_neg (by omega : ¬ d < n + 1)]
        exact ⟨rfl, rfl⟩

theorem forLoop_inv_lt {σ : Type} (P : Nat → σ → Prop) (n : Nat) (body : Nat → σ → σ) (s : σ)
    (h0 : P 0 s) (hstep : ∀ i, i < n → ∀ t, P i t → P (i + 1) (body i t)) :
    P n (forLoop n body s) := by
  induction n with
  | zero => exact h0
  | succ n ih =>
    exact hstep n (Nat.lt_succ_self n) _
      (ih (fun i hi t ht => hstep i (Nat.lt_succ_of_lt hi) t ht))

theorem boxSpan_refl (n : Nat) (bb0 : Vec3 × Vec3) : BoxSpan n bb0 (fun _ => False) bb0 := by
  intro d _
  exact ⟨⟨le_rfl, le_rfl⟩, fun _ q hq => absurd hq id, Or.inl rfl, Or.inl rfl⟩

theorem boxSpan_congr (n : Nat) (bb0 bb : Vec3 × Vec3) (S T : Vec3 → Prop)
    (h : ∀ q, S q ↔ T q) (hs : BoxSpan n bb0 S bb) : BoxSpan n bb0 T bb := by
  have e : S = T := funext (fun q => propext (h q))
  rw [← e]; exact hs

/-- Widening by one more point keeps the box the smallest one. -/
theorem boxSpan_widen (n : Nat) (hn : n ≤ 3) (bb0 bb : Vec3 × Vec3) (S : Vec3 → Prop)
    (p : Vec3) (hs : BoxSpan n bb0 S bb) :
    BoxSpan n bb0 (fun q => S q ∨ q = p) (widen p p n bb) := by
  intro d hd
  obtain ⟨⟨s1, s2⟩, sc, sl, sh⟩ := hs d hd
  obtain ⟨w1, w2⟩ := widen_get p p n hn bb d hd
  rw [w1, w2]
  by_cases hdn : d < n
  · rw [if_pos hdn, if_pos hdn]
    refine ⟨⟨le_trans (min_le_left _ _) s1, le_trans s2 (le_max_left _ _)⟩, ?_, ?_, ?_⟩
    · intro _ q hq
      rcases hq with hq | rfl
      · exact ⟨le_trans (min_le_left _ _) (sc hdn q hq).1,
          le_trans (sc hdn q hq).2 (le_max_left _ _)⟩
      · exact ⟨min_le_right _ _, le_max_right _ _⟩
    · rcases min_choice (bb.1.get d) (p.get d) with h | h
      · rw [h]
        rcases sl with h1 | ⟨_, q, hq, h1⟩
        · exact Or.inl h1
        · exact Or.inr ⟨hdn, q, Or.inl hq, h1⟩
      · rw [h]
        exact Or.inr ⟨hdn, p, Or.inr rfl, rfl⟩
    · rcases max_choice (bb.2.get d) (p.get d) with h | h
      · rw [h]
        rcases sh with h1 | ⟨_, q, hq, h1⟩
        · exact Or.inl h1
        · exact Or.inr ⟨hdn, q, Or.inl hq, h1⟩
      · rw [h]
        exact Or.inr ⟨hdn, p, Or.inr rfl, rfl⟩
  · rw [if_neg hdn, if_neg hdn]
    refine ⟨⟨s1, s2⟩, fun h => absurd h hdn, ?_, ?_⟩
    · rcases sl with h1 | ⟨h, _⟩
      · exact Or.inl h1
      · exact absurd h hdn
    · rcases sh with h1 | ⟨h, _⟩
      · exact Or.inl h1
      · exact absurd h hdn

/-- Two widenings in a row. -/
theorem boxSpan_trans (n : Nat) (bb0 bb bb' : Vec3 × Vec3) (S T : Vec3 → Prop)
    (hs : BoxSpan n bb0 S bb) (ht : BoxSpan n bb T bb') :
    BoxSpan n bb0 (fun q => S q ∨ T q) bb' := by
  intro d hd
  obtain ⟨⟨s1, s2⟩, sc, sl, sh⟩ := hs d hd
  obtain ⟨⟨t1, t2⟩, tc, tl, th⟩ := ht d hd
  refine ⟨⟨le_trans t1 s1, le_trans s2 t2⟩, ?_, ?_, ?_⟩
  · intro hdn q hq
    rcases hq with hq | hq
    · exact ⟨le_trans t1 (sc hdn q hq).1, le_trans (sc hdn q hq).2 t2⟩
    · exact tc hdn q hq
  · rcases tl with h | ⟨hdn, q, hq, h⟩
    · rw [h]
      rcases sl with h1 | ⟨hdn, q, hq, h1⟩
      · exact Or.inl h1
      · exact Or.inr ⟨hdn, q, Or.inl hq, h1⟩
    · exact Or.inr ⟨hdn, q, Or.inr hq, h⟩
  · rcases th with h | ⟨hdn, q, hq, h⟩
    · rw [h]
      rcases sh with h1 | ⟨hdn, q, hq, h1⟩
      · exact Or.inl h1
      · exact Or.inr ⟨hdn, q, Or.inl hq, h1⟩
    · exact Or.inr ⟨hdn, q, Or.inr hq, h⟩

/-- A loop that widens by the points `f 0, ..., f (m-1)`. -/
theorem boxSpan_loop (n : Nat) (hn : n ≤ 3) (f : Nat → Vec3) (m : Nat) (bb0 : Vec3 × Vec3) :
    BoxSpan n bb0 (fun q => ∃ k, k < m ∧ q = f k)
      (forLoop m (fun k bb => widen (f k) (f k) n bb) bb0) := by
  refine forLoop_inv_lt (fun j bb => BoxSpan n bb0 (fun q => ∃ k, k < j ∧ q = f k) bb) m _ bb0
    ?_ ?_
  · exact boxSpan_congr n bb0 bb0 _ _ (fun q => ⟨fun h => absurd h id,
      fun ⟨k, hk, _⟩ => absurd hk (Nat.not_lt_zero k)⟩) (boxSpan_refl n bb0)
  · intro i _ t ht
    refine boxSpan_congr n bb0 _ _ _ ?_ (boxSpan_widen n hn bb0 t _ (f i) ht)
    intro q
    constructor
    · rintro (⟨k, hk, rfl⟩ | rfl)
      · exact ⟨k, Nat.lt_succ_of_lt hk, rfl⟩
      · exact ⟨i, Nat.lt_succ_self i, rfl⟩
    · rintro ⟨k, hk, rfl⟩
      by_cases hki : k = i
      · exact Or.inr (by rw [hki])
      · exact Or.inl ⟨k, by omega, rfl⟩

/-- A double loop (phases outside, nodes inside) that widens by the points
`f k p`. -/
theorem boxSpan_loop2 (n : Nat) (hn : n ≤ 3) (f : Nat → Nat → Vec3) (pc npe : Nat)
    (bb0 : Vec3 × Vec3) :
    BoxSpan n bb0 (fun q => ∃ p, p < pc ∧ ∃ k, k < npe ∧ q = f k p)
      (forLoop pc (fun p bb => forLoop npe (fun k bb => widen (f k p) (f k p) n bb) bb) bb0) := by
  refine forLoop_inv_lt
    (fun j bb => BoxSpan n bb0 (fun q => ∃ p, p < j ∧ ∃ k, k < npe ∧ q = f k p) bb) pc _ bb0
    ?_ ?_
  · exact boxSpan_congr n bb0 bb0 _ _ (fun q => ⟨fun h => absurd h id,
      fun ⟨p, hp, _⟩ => absurd hp (Nat.not_lt_zero p)⟩) (boxSpan_refl n bb0)
  · intro i _ t ht
    refine boxSpan_congr n bb0 _ _ _ ?_
      (boxSpan_trans n bb0 t _ _ _ ht (boxSpan_loop n hn (fun k => f k i) npe t))
    intro q
    constructor
    · rintro (⟨p, hp, k, hk, rfl⟩ | ⟨k, hk, rfl⟩)
      · exact ⟨p, Nat.lt_succ_of_lt hp, k, hk, rfl⟩
      · exact ⟨i, Nat.lt_succ_self i, k, hk, rfl⟩
    · rintro ⟨p, hp, k, hk, rfl⟩
      by_cases hpi : p = i
      · exact Or.inr ⟨k, hk, by rw [hpi]⟩
      · exact Or.inl ⟨p, by omega, k, hk, rfl⟩

/-- The node bounding box is the smallest box that contains node 0 of phase 0
and every node of every phase. -/
theorem node_bounding_box_span (pos : Nat → Nat → Vec3) (pc npe : Nat) :
    BoxSpan 3 (pos 0 0, pos 0 0) (fun q => ∃ p, p < pc ∧ ∃ k, k < npe ∧ q = pos k p)
      (node_bounding_box pos pc npe) := by
  rw [node_bounding_box_widen]
  exact boxSpan_loop2 3 le_rfl pos pc npe _

theorem widen_le (plo phi : Vec3) (n : Nat) (hn : n ≤ 3) (bb : Vec3 × Vec3) (d : Nat)
    (hd : d < 3) :
    ((widen plo phi n bb).1.get d ≤ bb.1.get d ∧ bb.2.get d ≤ (widen plo phi n bb).2.get d) ∧
    (d < n → (widen plo phi n bb).1.get d ≤ plo.get d ∧ phi.get d ≤ (widen plo phi n bb).2.get d) := by
  obtain ⟨w1, w2⟩ := widen_get plo phi n hn bb d hd
  rw [w1, w2]
  by_cases hdn : d < n
  · rw [if_pos hdn, if_pos hdn]
    exact ⟨⟨min_le_left _ _, le_max_left _ _⟩, fun _ => ⟨min_le_right _ _, le_max_right _ _⟩⟩
  · rw [if_neg hdn, if_neg hdn]
    exact ⟨⟨le_rfl, le_rfl⟩, fun h => absurd h hdn⟩

/-- The orthogonal stretch keeps the nominal sub-box inside and takes in the
bounding box of every local element on the first `dimension` axes. -/
theorem stretch_subbox_spec (a : Atom) (dimension : Nat) (hdim : dimension ≤ 3)
    (sub : Vec3 × Vec3) :
    (∀ d, d < 3 → (stretch_subbox a dimension sub).1.get d ≤ sub.1.get d ∧
      sub.2.get d ≤ (stretch_subbox a dimension sub).2.get d) ∧
    (∀ i, i < a.nlocal → a.element_type i ≠ 0 → ∀ d, d < dimension →
      (stretch_subbox a dimension sub).1.get d
          ≤ (node_bounding_box (a.nodal_positions i) (a.poly_count i)
              (a.nodes_per_element_list (a.element_type i))).1.get d ∧
        (node_bounding_box (a.nodal_positions i) (a.poly_count i)
              (a.nodes_per_element_list (a.element_type i))).2.get d
          ≤ (stretch_subbox a dimension sub).2.get d) := by
  rw [stretch_subbox_widen]
  refine forLoop_inv_lt (fun m bs =>
    (∀ d, d < 3 → bs.1.get d ≤ sub.1.get d ∧ sub.2.get d ≤ bs.2.get d) ∧
    (∀ i, i < m → a.element_type i ≠ 0 → ∀ d, d < dimension →
      bs.1.get d ≤ (node_bounding_box (a.nodal_positions i) (a.poly_count i)
              (a.nodes_per_element_list (a.element_type i))).1.get d ∧
        (node_bounding_box (a.nodal_positions i) (a.poly_count i)
              (a.nodes_per_element_list (a.element_type i))).2.get d ≤ bs.2.get d))
    a.nlocal _ sub ?_ ?_
  · exact ⟨fun d _ => ⟨le_rfl, le_rfl⟩, fun i hi => absurd hi (Nat.not_lt_zero i)⟩
  · intro i _ t ⟨h1, h2⟩
    by_cases hty : a.element_type i ≠ 0
    · simp only [if_pos hty]
      constructor
      · intro d hd
        have w := (widen_le
          (node_bounding_box (a.nodal_positions i) (a.poly_count i)
              (a.nodes_per_element_list (a.element_type i))).1
          (node_bounding_box (a.nodal_positions i) (a.poly_count i)
              (a.nodes_per_element_list (a.element_type i))).2 dimension hdim t d hd).1
        exact ⟨le_trans w.1 (h1 d hd).1, le_trans (h1 d hd).2 w.2⟩
      · intro j hj htj d hd
        have hd3 : d < 3 := lt_of_lt_of_le hd hdim
        have w := widen_le
          (node_bounding_box (a.nodal_positions i) (a.poly_count i)
              (a.nodes_per_element_list (a.element_type i))).1
          (node_bounding_box (a.nodal_positions i) (a.poly_count i)
              (a.nodes_per_element_list (a.element_type i))).2 dimension hdim t d hd3
        by_cases hji : j = i
        · rw [hji]
          exact w.2 hd
        · have hj' : j < i := by omega
          exact ⟨le_trans w.1.1 (h2 j hj' htj d hd).1, le_trans (h2 j hj' htj d hd).2 w.1.2⟩
    · simp only [if_neg hty]
      refine ⟨h1, ?_⟩
      intro j hj htj d hd
      by_cases hji : j = i
      · rw [hji] at htj
        exact absurd htj hty
      · exact h2 j (by omega) htj d hd

/-- The triclinic stretch yields, on the first `dimension` axes, the smallest
box that contains the nominal fractional sub-box and the fractional position of
every node of every local element. -/
theorem stretch_subbox_lamda_span (a : Atom) (dimension : Nat) (hdim : dimension ≤ 3)
    (x2lamda : Vec3 → Vec3) (sub : Vec3 × Vec3) :
    BoxSpan dimension sub
      (fun q => ∃ i, i < a.nlocal ∧ a.element_type i ≠ 0 ∧ ∃ p, p < a.poly_count i ∧
        ∃ k, k < a.nodes_per_element_list (a.element_type i) ∧
          q = x2lamda (a.nodal_positions i k p))
      (stretch_subbox_lamda a dimension x2lamda sub) := by
  rw [stretch_subbox_lamda_widen]
  refine forLoop_inv_lt (fun m lh => BoxSpan dimension sub
      (fun q => ∃ i, i < m ∧ a.element_type i ≠ 0 ∧ ∃ p, p < a.poly_count i ∧
        ∃ k, k < a.nodes_per_element_list (a.element_type i) ∧
          q = x2lamda (a.nodal_positions i k p)) lh) a.nlocal _ sub ?_ ?_
  · exact boxSpan_congr dimension sub sub _ _ (fun q => ⟨fun h => absurd h id,
      fun ⟨i, hi, _⟩ => absurd hi (Nat.not_lt_zero i)⟩) (boxSpan_refl dimension sub)
  · intro i _ t ht
    by_cases hty : a.element_type i ≠ 0
    · simp only [if_pos hty]
      refine boxSpan_congr dimension sub _ _ _ ?_
        (boxSpan_trans dimension sub t _ _ _ ht
          (boxSpan_loop2 dimension hdim (fun k p => x2lamda (a.nodal_positions i k p))
            (a.poly_count i) (a.nodes_per_element_list (a.element_type i)) t))
      intro q
      constructor
      · rintro (⟨j, hj, htj, p, hp, k, hk, rfl⟩ | ⟨p, hp, k, hk, rfl⟩)
        · exact ⟨j, Nat.lt_succ_of_lt hj, htj, p, hp, k, hk, rfl⟩
        · exact ⟨i, Nat.lt_succ_self i, hty, p, hp, k, hk, rfl⟩
      · rintro ⟨j, hj, htj, p, hp, k, hk, rfl⟩
        by_cases hji : j = i
        · subst hji
          exact Or.inr ⟨p, hp, k, hk, rfl⟩
        · exact Or.inl ⟨j, by omega, htj, p, hp, k, hk, rfl⟩
    · simp only [if_neg hty]
      refine boxSpan_congr dimension sub _ _ _ ?_ ht
      intro q
      constructor
      · rintro ⟨j, hj, htj, rest⟩
        exact ⟨j, Nat.lt_succ_of_lt hj, htj, rest⟩
      · rintro ⟨j, hj, htj, rest⟩
        by_cases hji : j = i
        · rw [hji] at htj
          exact absurd htj hty
        · exact ⟨j, by omega, htj, rest⟩

/-- C17: in `setup_bins`, before the inflation by the search range and the
ghost cutoff, the local sub-box contains the nominal sub-domain on all three
axes and, on each of the first `dimension` axes, every node position of every
phase of every local extended entity: in box coordinates for an orthogonal
domain (`stretch_subbox`), in fractional coordinates for a triclinic one
(`stretch_subbox_lamda`).  The expanded sub-box is this box after inflation. -/
theorem setup_bins_subbox_contains_nodes (inp : SetupInput) (a : Atom)
    (hdim : inp.dimension ≤ 3) :
    (∀ d, d < 3 →
      (stretch_subbox a inp.dimension (inp.sublo, inp.subhi)).1.get d ≤ inp.sublo.get d ∧
      inp.subhi.get d ≤ (stretch_subbox a inp.dimension (inp.sublo, inp.subhi)).2.get d) ∧
    (∀ i, i < a.nlocal → a.element_type i ≠ 0 → ∀ p, p < a.poly_count i →
      ∀ k, k < a.nodes_per_element_list (a.element_type i) → ∀ d, d < inp.dimension →
        (stretch_subbox a inp.dimension (inp.sublo, inp.subhi)).1.get d
            ≤ (a.nodal_positions i k p).get d ∧
          (a.nodal_positions i k p).get d
            ≤ (stretch_subbox a inp.dimension (inp.sublo, inp.subhi)).2.get d) ∧
    (∀ d, d < 3 →
      (stretch_subbox_lamda a inp.dimension inp.x2lamda
          (inp.sublo_lamda, inp.subhi_lamda)).1.get d ≤ inp.sublo_lamda.get d ∧
      inp.subhi_lamda.get d ≤ (stretch_subbox_lamda a inp.dimension inp.x2lamda
          (inp.sublo_lamda, inp.subhi_lamda)).2.get d) ∧
    (∀ i, i < a.nlocal → a.element_type i ≠ 0 → ∀ p, p < a.poly_count i →
      ∀ k, k < a.nodes_per_element_list (a.element_type i) → ∀ d, d < inp.dimension →
        (stretch_subbox_lamda a inp.dimension inp.x2lamda
            (inp.sublo_lamda, inp.subhi_lamda)).1.get d
            ≤ (inp.x2lamda (a.nodal_positions i k p)).get d ∧
          (inp.x2lamda (a.nodal_positions i k p)).get d
            ≤ (stretch_subbox_lamda a inp.dimension inp.x2lamda
                (inp.sublo_lamda, inp.subhi_lamda)).2.get d) ∧
    (inp.triclinic = 0 → ∀ d, d < 3 →
      (expanded_subbox inp a).1.get d
          = (stretch_subbox a inp.dimension (inp.sublo, inp.subhi)).1.get d
            - (inp.max_search_range + inp.cutghost.get d) ∧
        (expanded_subbox inp a).2.get d
          = (stretch_subbox a inp.dimension (inp.sublo, inp.subhi)).2.get d
            + (inp.max_search_range + inp.cutghost.get d)) := by
  have ho := stretch_subbox_spec a inp.dimension hdim (inp.sublo, inp.subhi)
  have ht := stretch_subbox_lamda_span a inp.dimension hdim inp.x2lamda
    (inp.sublo_lamda, inp.subhi_lamda)
  refine ⟨ho.1, ?_, fun d hd => (ht d hd).1, ?_, ?_⟩
  · intro i hi hty p hp k hk d hd
    have hd3 : d < 3 := lt_of_lt_of_le hd hdim
    have hb := ((node_bounding_box_span (a.nodal_positions i) (a.poly_count i)
      (a.nodes_per_element_list (a.element_type i))) d hd3).2.1 hd3 _ ⟨p, hp, k, hk, rfl⟩
    have hs := ho.2 i hi hty d hd
    exact ⟨le_trans hs.1 hb.1, le_trans hb.2 hs.2⟩
  · intro i hi hty p hp k hk d hd
    have hd3 : d < 3 := lt_of_lt_of_le hd hdim
    exact (ht d hd3).2.1 hd _ ⟨i, hi, hty, p, hp, k, hk, rfl⟩
  · intro htri d hd
    unfold expanded_subbox
    rw [if_pos htri]
    interval_cases d <;> exact ⟨rfl, rfl⟩

/-- When the entity has at least one phase and one node, the node bounding box
is the per-axis minimum and maximum of the node positions. -/
theorem node_bounding_box_min_max (pos : Nat → Nat → Vec3) (pc npe : Nat) (hpc : 1 ≤ pc)
    (hnpe : 1 ≤ npe) (d : Nat) (hd : d < 3) :
    (∀ p, p < pc → ∀ k, k < npe →
      (node_bounding_box pos pc npe).1.get d ≤ (pos k p).get d ∧
      (pos k p).get d ≤ (node_bounding_box pos pc npe).2.get d) ∧
    (∃ p, p < pc ∧ ∃ k, k < npe ∧ (node_bounding_box pos pc npe).1.get d = (pos k p).get d) ∧
    (∃ p, p < pc ∧ ∃ k, k < npe ∧ (node_bounding_box pos pc npe).2.get d = (pos k p).get d) := by
  obtain ⟨_, hc, hl, hh⟩ := node_bounding_box_span pos pc npe d hd
  refine ⟨fun p hp k hk => hc hd _ ⟨p, hp, k, hk, rfl⟩, ?_, ?_⟩
  · rcases hl with h | ⟨_, q, ⟨p, hp, k, hk, rfl⟩, h⟩
    · exact ⟨0, hpc, 0, hnpe, h⟩
    · exact ⟨p, hp, k, hk, h⟩
  · rcases hh with h | ⟨_, q, ⟨p, hp, k, hk, rfl⟩, h⟩
    · exact ⟨0, hpc, 0, hnpe, h⟩
    · exact ⟨p, hp, k, hk, h⟩

theorem setup_bins_subbox_contains_nodes_witness :
    ex_setup.dimension ≤ 3 ∧
    ((∀ d, d < 3 →
      (stretch_subbox ex_atom ex_setup.dimension (ex_setup.sublo, ex_setup.subhi)).1.get d
        ≤ ex_setup.sublo.get d ∧
      ex_setup.subhi.get d
        ≤ (stretch_subbox ex_atom ex_setup.dimension (ex_setup.sublo, ex_setup.subhi)).2.get d) ∧
    (∀ i, i < ex_atom.nlocal → ex_atom.element_type i ≠ 0 → ∀ p, p < ex_atom.poly_count i →
      ∀ k, k < ex_atom.nodes_per_element_list (ex_atom.element_type i) →
      ∀ d, d < ex_setup.dimension →
        (stretch_subbox ex_atom ex_setup.dimension (ex_setup.sublo, ex_setup.subhi)).1.get d
            ≤ (ex_atom.nodal_positions i k p).get d ∧
          (ex_atom.nodal_positions i k p).get d
            ≤ (stretch_subbox ex_atom ex_setup.dimension
                (ex_setup.sublo, ex_setup.subhi)).2.get d) ∧
    (∀ d, d < 3 →
      (stretch_subbox_lamda ex_atom ex_setup.dimension ex_setup.x2lamda
          (ex_setup.sublo_lamda, ex_setup.subhi_lamda)).1.get d ≤ ex_setup.sublo_lamda.get d ∧
      ex_setup.subhi_lamda.get d ≤ (stretch_subbox_lamda ex_atom ex_setup.dimension
          ex_setup.x2lamda (ex_setup.sublo_lamda, ex_setup.subhi_lamda)).2.get d) ∧
    (∀ i, i < ex_atom.nlocal → ex_atom.element_type i ≠ 0 → ∀ p, p < ex_atom.poly_count i →
      ∀ k, k < ex_atom.nodes_per_element_list (ex_atom.element_type i) →
      ∀ d, d < ex_setup.dimension →
        (stretch_subbox_lamda ex_atom ex_setup.dimension ex_setup.x2lamda
            (ex_setup.sublo_lamda, ex_setup.subhi_lamda)).1.get d
            ≤ (ex_setup.x2lamda (ex_atom.nodal_positions i k p)).get d ∧
          (ex_setup.x2lamda (ex_atom.nodal_positions i k p)).get d
            ≤ (stretch_subbox_lamda ex_atom ex_setup.dimension ex_setup.x2lamda
                (ex_setup.sublo_lamda, ex_setup.subhi_lamda)).2.get d) ∧
    (ex_setup.triclinic = 0 → ∀ d, d < 3 →
      (expanded_subbox ex_setup ex_atom).1.get d
          = (stretch_subbox ex_atom ex_setup.dimension (ex_setup.sublo, ex_setup.subhi)).1.get d
            - (ex_setup.max_search_range + ex_setup.cutghost.get d) ∧
        (expanded_subbox ex_setup ex_atom).2.get d
          = (stretch_subbox ex_atom ex_setup.dimension (ex_setup.sublo, ex_setup.subhi)).2.get d
            + (ex_setup.max_search_range + ex_setup.cutghost.get d))) :=
  ⟨by decide, setup_bins_subbox_contains_nodes ex_setup ex_atom (by decide)⟩

/-! ## Regrowing the cell store -/

/-- The running-maximum loop of `bin_atoms_setup` (lines 110-112). -/
theorem max_loop_spec (f : Nat → Nat) (n m0 : Nat) :
    m0 ≤ forLoop n (fun init m => if f init > m then f init else m) m0 ∧
    (∀ b, b < n → f b ≤ forLoop n (fun init m => if f init > m then f init else m) m0) ∧
    (forLoop n (fun init m => if f init > m then f init else m) m0 = m0 ∨
      ∃ b, b < n ∧ forLoop n (fun init m => if f init > m then f init else m) m0 = f b) := by
  refine forLoop_inv_lt (fun j m => m0 ≤ m ∧ (∀ b, b < j → f b ≤ m) ∧
    (m = m0 ∨ ∃ b, b < j ∧ m = f b)) n _ m0 ?_ ?_
  · exact ⟨le_rfl, fun b hb => absurd hb (Nat.not_lt_zero b), Or.inl rfl⟩
  · intro i _ t ⟨h1, h2, h3⟩
    by_cases h : f i > t
    · simp only [if_pos h]
      refine ⟨by omega, ?_, Or.inr ⟨i, Nat.lt_succ_self i, rfl⟩⟩
      intro b hb
      by_cases hbi : b = i
      · rw [hbi]
      · have := h2 b (by omega)
        omega
    · simp only [if_neg h]
      refine ⟨h1, ?_, ?_⟩
      · intro b hb
        by_cases hbi : b = i
        · rw [hbi]; omega
        · exact h2 b (by omega)
      · rcases h3 with h3 | ⟨b, hb, h3⟩
        · exact Or.inl h3
        · exact Or.inr ⟨b, Nat.lt_succ_of_lt hb, h3⟩

/-- The store `bin_atoms_setup` leaves when the grid has grown after the first
allocation. -/
theorem bin_atoms_setup_store_regrow (junk : Nat → Nat) (mbins : Nat) (st : Store)
    (hfirst : st.first_alloc = true) (hgrow : st.maxbin < mbins) :
    bin_atoms_setup_store junk mbins st
      = { st with
          max_bin_expansion_count :=
            forLoop st.maxbin (fun init m =>
              if st.bin_expansion_counts init > m then st.bin_expansion_counts init else m)
              st.max_bin_expansion_count,
          bin_content := fun init =>
            if init < mbins then
              memory_grow junk (if init ≥ st.maxbin then [] else st.bin_content init)
                (MAXBINCONTENT + forLoop st.maxbin (fun init m =>
                  if st.bin_expansion_counts init > m then st.bin_expansion_counts init else m)
                  st.max_bin_expansion_count * EXPAND)
            else st.bin_content init,
          bin_expansion_counts := fun init =>
            if init < mbins then
              forLoop st.maxbin (fun init m =>
                if st.bin_expansion_counts init > m then st.bin_expansion_counts init else m)
                st.max_bin_expansion_count
            else st.bin_expansion_counts init,
          maxbin := mbins,
          bin_ncontent := fun b => if b < st.maxbin then st.bin_ncontent b else junk b } := by
  have h1 : mbins > st.maxbin := hgrow
  have h2 : ¬ st.first_alloc = false := by rw [hfirst]; decide
  simp only [bin_atoms_setup_store, if_pos h1, if_neg h2]

/-- The maximum recorded by `bin_atoms_setup` never decreases. -/
theorem bin_atoms_setup_store_max_mono (junk : Nat → Nat) (mbins : Nat) (st : Store) :
    st.max_bin_expansion_count
      ≤ (bin_atoms_setup_store junk mbins st).max_bin_expansion_count := by
  by_cases h1 : mbins > st.maxbin
  · by_cases h2 : st.first_alloc = false
    · simp only [bin_atoms_setup_store, if_pos h1, if_pos h2]
      exact le_rfl
    · have h3 : st.first_alloc = true := by
        cases h : st.first_alloc
        · exact absurd h h2
        · rfl
      rw [bin_atoms_setup_store_regrow junk mbins st h3 h1]
      exact (max_loop_spec st.bin_expansion_counts st.maxbin st.max_bin_expansion_count).1
  · simp only [bin_atoms_setup_store, if_neg h1]
    exact le_rfl

/-- An insertion leaves the recorded maximum alone. -/
theorem insert_member_max (junk : Nat → Nat) (st st' : Store) (ibin : Int) (i : Nat)
    (h : insert_member junk st ibin i = some st') :
    st'.max_bin_expansion_count = st.max_bin_expansion_count := by
  unfold insert_member at h
  by_cases hr : 0 ≤ ibin ∧ ibin < (st.maxbin : Int)
  · rw [if_pos hr] at h
    by_cases hfull : st.bin_ncontent ibin.toNat
        = MAXBINCONTENT + st.bin_expansion_counts ibin.toNat * EXPAND
    · simp only [if_pos hfull] at h
      split_ifs at h
      simp only [Option.some.injEq] at h
      rw [← h]
    · simp only [if_neg hfull] at h
      split_ifs at h
      simp only [Option.some.injEq] at h
      rw [← h]
  · rw [if_neg hr] at h
    cases h

theorem clear_counts_max (mbins : Nat) (st st' : Store)
    (h : clear_counts mbins st = some st') :
    st'.max_bin_expansion_count = st.max_bin_expansion_count := by
  unfold clear_counts at h
  split_ifs at h
  simp only [Option.some.injEq] at h
  rw [← h]

/-- C11: when `bin_atoms_setup` runs after the first allocation with a cell
count `mbins` larger than the allocated `maxbin`, every cell below `mbins`, old
or new, ends with capacity `MAXBINCONTENT + EXPAND * M` and expansion count
`M`, where `M`, the new `max_bin_expansion_count`, is the maximum of the
previous `max_bin_expansion_count` and the expansion counts recorded for the
previously allocated cells.  The recorded maximum never decreases: no call of
`bin_atoms_setup` lowers it, and the reset and the insertions of `bin_atoms`
leave it unchanged. -/
theorem bin_atoms_setup_regrow_uniform (junk : Nat → Nat) (mbins : Nat) (st : Store)
    (hfirst : st.first_alloc = true) (hgrow : st.maxbin < mbins) :
    (bin_atoms_setup_store junk mbins st).maxbin = mbins ∧
    (∀ b, b < mbins →
      (bin_atoms_setup_store junk mbins st).capacity b
        = MAXBINCONTENT
          + EXPAND * (bin_atoms_setup_store junk mbins st).max_bin_expansion_count ∧
      (bin_atoms_setup_store junk mbins st).bin_expansion_counts b
        = (bin_atoms_setup_store junk mbins st).max_bin_expansion_count) ∧
    st.max_bin_expansion_count
      ≤ (bin_atoms_setup_store junk mbins st).max_bin_expansion_count ∧
    (∀ b, b < st.maxbin → st.bin_expansion_counts b
      ≤ (bin_atoms_setup_store junk mbins st).max_bin_expansion_count) ∧
    ((bin_atoms_setup_store junk mbins st).max_bin_expansion_count = st.max_bin_expansion_count ∨
      ∃ b, b < st.maxbin ∧
        (bin_atoms_setup_store junk mbins st).max_bin_expansion_count
          = st.bin_expansion_counts b) ∧
    (∀ (junk2 : Nat → Nat) (mbins2 : Nat) (t : Store),
      t.max_bin_expansion_count
        ≤ (bin_atoms_setup_store junk2 mbins2 t).max_bin_expansion_count) ∧
    (∀ (junk2 : Nat → Nat) (t t' : Store) (ibin : Int) (i : Nat),
      insert_member junk2 t ibin i = some t' →
        t'.max_bin_expansion_count = t.max_bin_expansion_count) ∧
    (∀ (n : Nat) (t t' : Store), clear_counts n t = some t' →
        t'.max_bin_expansion_count = t.max_bin_expansion_count) := by
  have hm := max_loop_spec st.bin_expansion_counts st.maxbin st.max_bin_expansion_count
  rw [bin_atoms_setup_store_regrow junk mbins st hfirst hgrow]
  refine ⟨rfl, ?_, hm.1, hm.2.1, hm.2.2, bin_atoms_setup_store_max_mono, insert_member_max,
    clear_counts_max⟩
  intro b hb
  simp only [Store.capacity, if_pos hb, memory_grow_length, Nat.mul_comm, and_self]

/-! ## Non-finite coordinates -/

theorem ISFINITE_eq_false (d : Dbl) :
    ISFINITE d = false ↔ d = Dbl.nan ∨ d = Dbl.pinf ∨ d = Dbl.ninf := by
  cases d <;> simp [ISFINITE]

theorem guard_iff (x : Dbl3) :
    (!ISFINITE x.c0 || !ISFINITE x.c1 || !ISFINITE x.c2) = true
      ↔ (ISFINITE x.c0 = false ∨ ISFINITE x.c1 = false ∨ ISFINITE x.c2 = false) := by
  cases ISFINITE x.c0 <;> cases ISFINITE x.c1 <;> cases ISFINITE x.c2 <;> simp

/-- C20: `quad2bins` fails with the error "Non-numeric positions - simulation
unstable" if and only if at least one of the three coordinates of the point is
NaN or infinite; it raises no other error, and for a point with three finite
coordinates it returns the cell id. -/
theorem quad2bins_checked_fails_iff (g : Grid) (x : Dbl3) :
    (quad2bins_checked g x = Except.error Failure.non_numeric ↔
      ((x.c0 = Dbl.nan ∨ x.c0 = Dbl.pinf ∨ x.c0 = Dbl.ninf) ∨
       (x.c1 = Dbl.nan ∨ x.c1 = Dbl.pinf ∨ x.c1 = Dbl.ninf) ∨
       (x.c2 = Dbl.nan ∨ x.c2 = Dbl.pinf ∨ x.c2 = Dbl.ninf))) ∧
    (∀ e, quad2bins_checked g x = Except.error e → e = Failure.non_numeric) ∧
    (∀ v : Vec3, quad2bins_checked g v.toDbl3 = Except.ok (quad2bins g v)) ∧
    ((∃ c, quad2bins_checked g x = Except.ok c) ↔
      (ISFINITE x.c0 = true ∧ ISFINITE x.c1 = true ∧ ISFINITE x.c2 = true)) := by
  refine ⟨?_, ?_, ?_, ?_⟩
  · rw [← ISFINITE_eq_false, ← ISFINITE_eq_false, ← ISFINITE_eq_false, ← guard_iff]
    unfold quad2bins_checked
    by_cases h : (!ISFINITE x.c0 || !ISFINITE x.c1 || !ISFINITE x.c2) = true
    · rw [if_pos h]
      exact ⟨fun _ => h, fun _ => rfl⟩
    · rw [if_neg h]
      exact ⟨fun hh => (by cases hh), fun hh => absurd hh h⟩
  · intro e he
    unfold quad2bins_checked at he
    by_cases h : (!ISFINITE x.c0 || !ISFINITE x.c1 || !ISFINITE x.c2) = true
    · rw [if_pos h] at he
      injection he with he
      exact he.symm
    · rw [if_neg h] at he
      cases he
  · intro v
    rfl
  · unfold quad2bins_checked
    by_cases h : (!ISFINITE x.c0 || !ISFINITE x.c1 || !ISFINITE x.c2) = true
    · rw [if_pos h]
      have h' := (guard_iff x).mp h
      constructor
      · rintro ⟨c, hc⟩
        cases hc
      · rintro ⟨h0, h1, h2⟩
        rw [h0, h1, h2] at h'
        simp at h'
    · rw [if_neg h]
      have h' : ¬ (ISFINITE x.c0 = false ∨ ISFINITE x.c1 = false ∨ ISFINITE x.c2 = false) :=
        fun hh => h ((guard_iff x).mpr hh)
      refine ⟨fun _ => ?_, fun _ => ⟨_, rfl⟩⟩
      cases h0 : ISFINITE x.c0 <;> cases h1 : ISFINITE x.c1 <;> cases h2 : ISFINITE x.c2 <;>
        simp [h0, h1, h2] at h' ⊢

theorem forLoop_map {σ τ : Type} (h : σ → τ) (n : Nat) (body : Nat → σ → σ)
    (body' : Nat → τ → τ) (hc : ∀ i s, h (body i s) = body' i (h s)) (s : σ) :
    h (forLoop n body s) = forLoop n body' (h s) := by
  induction n with
  | zero => rfl
  | succ n ih =>
    show h (body n (forLoop n body s)) = body' n (forLoop n body' (h s))
    rw [hc, ih]

theorem Vec3.toDbl3_get (v : Vec3) (d : Nat) : v.toDbl3.get d = Dbl.fin (v.get d) := by
  unfold Dbl3.get Vec3.get Vec3.toDbl3
  split_ifs <;> rfl

theorem Vec3.toDbl3_set (v : Vec3) (d : Nat) (x : ℚ) :
    v.toDbl3.set d (Dbl.fin x) = (v.set d x).toDbl3 := by
  unfold Dbl3.set Vec3.set Vec3.toDbl3
  split_ifs <;> rfl

theorem Vec3.toDbl3_val (v : Vec3) : v.toDbl3.val = v := rfl

/-- On finite node positions the bounding-box loop on doubles is the loop on
rationals. -/
theorem node_bounding_box_dbl_finite (pos : Nat → Nat → Vec3) (pc npe : Nat) :
    node_bounding_box_dbl (fun k p => (pos k p).toDbl3) pc npe
      = ((node_bounding_box pos pc npe).1.toDbl3, (node_bounding_box pos pc npe).2.toDbl3) := by
  unfold node_bounding_box_dbl node_bounding_box
  symm
  refine forLoop_map (fun bb : Vec3 × Vec3 => (bb.1.toDbl3, bb.2.toDbl3)) pc _ _ ?_ _
  intro p bb
  refine forLoop_map (fun bb : Vec3 × Vec3 => (bb.1.toDbl3, bb.2.toDbl3)) npe _ _ ?_ _
  intro k bb
  refine forLoop_map (fun bb : Vec3 × Vec3 => (bb.1.toDbl3, bb.2.toDbl3)) 3 _ _ ?_ _
  intro d bb
  simp only [Vec3.toDbl3_get, Dbl.lt, decide_eq_true_eq, gt_iff_lt]
  by_cases h1 : (pos k p).get d < bb.1.get d <;> by_cases h2 : bb.2.get d < (pos k p).get d <;>
    simp only [h1, h2, if_true, if_false, Vec3.toDbl3_set]

theorem element2bins_checked_error_iff (g : Grid) (a : Atom) (x : Dbl3)
    (nodal_positions : Nat → Nat → Dbl3) (i : Nat) (lim : Limits) :
    element2bins_checked g a x nodal_positions i lim = Except.error Failure.non_numeric
      ↔ (ISFINITE x.c0 = false ∨ ISFINITE x.c1 = false ∨ ISFINITE x.c2 = false) := by
  rw [← guard_iff]
  unfold element2bins_checked
  by_cases h : (!ISFINITE x.c0 || !ISFINITE x.c1 || !ISFINITE x.c2) = true
  · rw [if_pos h]
    exact ⟨fun _ => h, fun _ => rfl⟩
  · rw [if_neg h]
    refine ⟨fun hh => ?_, fun hh => absurd hh h⟩
    simp only [] at hh
    split_ifs at hh

/-- With finite coordinates the function on doubles is `element2bins`. -/
theorem element2bins_checked_finite (g : Grid) (a : Atom) (i : Nat) (lim : Limits) :
    element2bins_checked g a (a.x i).toDbl3 (fun k p => (a.nodal_positions i k p).toDbl3) i lim
      = Except.ok (some (element2bins g a i lim)) := by
  by_cases hty : a.element_type i ≠ 0
  · simp only [element2bins_checked, element2bins,
      node_bounding_box_dbl_finite (a.nodal_positions i), if_pos hty]
    simp only [Vec3.toDbl3, ISFINITE, Dbl.val, Bool.not_true, Bool.or_self, Bool.false_eq_true,
      if_false, Bool.and_self, if_true]
  · simp only [element2bins_checked, element2bins, Vec3.toDbl3, ISFINITE, Dbl.val,
      Bool.not_true, Bool.or_self, Bool.false_eq_true, if_false, if_neg hty]

set_option maxRecDepth 8000 in
theorem ex_node_bounding_box_dbl :
    node_bounding_box_dbl ex_nan_nodes 1 8
      = (⟨Dbl.fin (17 / 4), Dbl.fin (17 / 4), Dbl.fin (17 / 4)⟩,
         ⟨Dbl.fin (19 / 4), Dbl.fin (19 / 4), Dbl.fin (19 / 4)⟩) := by
  simp only [node_bounding_box_dbl, forLoop, ex_nan_nodes, ex_cube_node, Vec3.toDbl3, Dbl3.get,
    Dbl3.set, Dbl.lt]
  norm_num

/-- C19: in the worked configuration the cube element 0 is given the node
positions `ex_nan_nodes`, whose node 1 has the x coordinate NaN, while its
position `x` stays finite: `element2bins` raises no error and returns the cell
id 5070 with the limits `(3,3,3,3,3,3)`. -/
theorem ex_nan_node_not_rejected :
    ex_atom.element_type 0 ≠ 0 ∧ 0 < ex_atom.poly_count 0 ∧
    1 < ex_atom.nodes_per_element_list (ex_atom.element_type 0) ∧
    (ex_nan_nodes 1 0).c0 = Dbl.nan ∧ ISFINITE (ex_nan_nodes 1 0).c0 = false ∧
    element2bins_checked ex_grid ex_atom (ex_atom.x 0).toDbl3 ex_nan_nodes 0 ⟨0, 0, 0, 0, 0, 0⟩
      = Except.ok (some (5070, ⟨3, 3, 3, 3, 3, 3⟩)) ∧
    element2bins_checked ex_grid ex_atom (ex_atom.x 0).toDbl3 ex_nan_nodes 0 ⟨0, 0, 0, 0, 0, 0⟩
      ≠ Except.error Failure.non_numeric := by
  have hty : ex_atom.element_type 0 ≠ 0 := by decide
  have hp : ex_atom.poly_count 0 = 1 := rfl
  have hn : ex_atom.nodes_per_element_list (ex_atom.element_type 0) = 8 := rfl
  have hx : axis_bin 0 10 1 10 (9 / 2) = 4 :=
    ex_axis_bin_interior _ 4 (by norm_num) (by norm_num) (by norm_num) (by norm_num)
  have hlo : axis_bin 0 10 1 10 (17 / 4 - (3 / 4 + 1 / 4)) = 3 :=
    ex_axis_bin_interior _ 3 (by norm_num) (by norm_num) (by norm_num) (by norm_num)
  have he : element2bins_checked ex_grid ex_atom (ex_atom.x 0).toDbl3 ex_nan_nodes 0
      ⟨0, 0, 0, 0, 0, 0⟩ = Except.ok (some (5070, ⟨3, 3, 3, 3, 3, 3⟩)) := by
    unfold element2bins_checked
    simp only [if_pos hty, hp, hn, ex_node_bounding_box_dbl]
    simp only [ex_atom, ex_grid, Vec3.toDbl3, ISFINITE, Dbl.val, if_true, Bool.not_true,
      Bool.or_self, Bool.false_eq_true, if_false, Bool.and_self, hx, hlo]
    rfl
  refine ⟨hty, by decide, by decide, rfl, rfl, he, ?_⟩
  rw [he]
  intro h
  cases h

/-- C19 (as the code has it): `element2bins` fails with the error "Non-numeric
positions - simulation unstable" if and only if at least one of the three
coordinates of the entity position `x` is NaN or infinite, whatever the node
coordinates are; it raises no other error, and on finite coordinates it returns
what `element2bins` computes. -/
theorem element2bins_checked_fails_iff (g : Grid) (a : Atom) (x : Dbl3)
    (nodal_positions : Nat → Nat → Dbl3) (i : Nat) (lim : Limits) :
    (element2bins_checked g a x nodal_positions i lim = Except.error Failure.non_numeric ↔
      ((x.c0 = Dbl.nan ∨ x.c0 = Dbl.pinf ∨ x.c0 = Dbl.ninf) ∨
       (x.c1 = Dbl.nan ∨ x.c1 = Dbl.pinf ∨ x.c1 = Dbl.ninf) ∨
       (x.c2 = Dbl.nan ∨ x.c2 = Dbl.pinf ∨ x.c2 = Dbl.ninf))) ∧
    (∀ e, element2bins_checked g a x nodal_positions i lim = Except.error e →
      e = Failure.non_numeric) ∧
    element2bins_checked g a (a.x i).toDbl3 (fun k p => (a.nodal_positions i k p).toDbl3) i lim
      = Except.ok (some (element2bins g a i lim)) := by
  refine ⟨?_, ?_, element2bins_checked_finite g a i lim⟩
  · rw [← ISFINITE_eq_false, ← ISFINITE_eq_false, ← ISFINITE_eq_false]
    exact element2bins_checked_error_iff g a x nodal_positions i lim
  · intro e he
    unfold element2bins_checked at he
    by_cases h : (!ISFINITE x.c0 || !ISFINITE x.c1 || !ISFINITE x.c2) = true
    · rw [if_pos h] at he
      injection he with he
      exact he.symm
    · rw [if_neg h] at he
      simp only [] at he
      split_ifs at he

/-! ## Instances in the worked configuration -/

theorem ex_point_in_subbox :
    (ex_result.bsubboxlo.c0 ≤ ex_point.c0 ∧ ex_point.c0 ≤ ex_result.bsubboxhi.c0) ∧
    (ex_result.bsubboxlo.c1 ≤ ex_point.c1 ∧ ex_point.c1 ≤ ex_result.bsubboxhi.c1) ∧
    (ex_result.bsubboxlo.c2 ≤ ex_point.c2 ∧ ex_point.c2 ≤ ex_result.bsubboxhi.c2) := by
  have e1 : ex_result.bsubboxlo = (expanded_subbox ex_setup ex_atom).1 := rfl
  have e2 : ex_result.bsubboxhi = (expanded_subbox ex_setup ex_atom).2 := rfl
  rw [e1, e2, ex_subbox]
  norm_num [ex_point]

theorem quad2bins_in_grid_witness :
    ex_setup.Valid ∧ ex_setup.dimension = 3 ∧
    setup_bins ex_setup ex_atom BIN = Except.ok ex_result ∧
    (ex_result.bsubboxlo.c0 ≤ ex_point.c0 ∧ ex_point.c0 ≤ ex_result.bsubboxhi.c0) ∧
    (ex_result.bsubboxlo.c1 ≤ ex_point.c1 ∧ ex_point.c1 ≤ ex_result.bsubboxhi.c1) ∧
    (ex_result.bsubboxlo.c2 ≤ ex_point.c2 ∧ ex_point.c2 ≤ ex_result.bsubboxhi.c2) ∧
    ((ex_result.grid.mbinxlo ≤
        axis_bin ex_result.grid.bboxlo.c0 ex_result.grid.bboxhi.c0 ex_result.grid.bininvx
          ex_result.grid.nbinx ex_point.c0 ∧
      axis_bin ex_result.grid.bboxlo.c0 ex_result.grid.bboxhi.c0 ex_result.grid.bininvx
          ex_result.grid.nbinx ex_point.c0 ≤ ex_result.mbinxhi) ∧
    (ex_result.grid.mbinylo ≤
        axis_bin ex_result.grid.bboxlo.c1 ex_result.grid.bboxhi.c1 ex_result.grid.bininvy
          ex_result.grid.nbiny ex_point.c1 ∧
      axis_bin ex_result.grid.bboxlo.c1 ex_result.grid.bboxhi.c1 ex_result.grid.bininvy
          ex_result.grid.nbiny ex_point.c1 ≤ ex_result.mbinyhi) ∧
    (ex_result.grid.mbinzlo ≤
        axis_bin ex_result.grid.bboxlo.c2 ex_result.grid.bboxhi.c2 ex_result.grid.bininvz
          ex_result.grid.nbinz ex_point.c2 ∧
      axis_bin ex_result.grid.bboxlo.c2 ex_result.grid.bboxhi.c2 ex_result.grid.bininvz
          ex_result.grid.nbinz ex_point.c2 ≤ ex_result.mbinzhi) ∧
    0 ≤ quad2bins ex_result.grid ex_point ∧ quad2bins ex_result.grid ex_point <
        (ex_result.grid.mbins : Int) - 1) :=
  ⟨ex_setup_valid, rfl, ex_setup_bins, ex_point_in_subbox.1, ex_point_in_subbox.2.1,
    ex_point_in_subbox.2.2,
    quad2bins_in_grid ex_setup ex_atom BIN ex_result ex_setup_valid rfl ex_setup_bins ex_point
      ex_point_in_subbox.1 ex_point_in_subbox.2.1 ex_point_in_subbox.2.2⟩

theorem bin_atoms_setup_regrow_uniform_witness :
    ex_small_store.first_alloc = true ∧ ex_small_store.maxbin < 3 ∧
    ((bin_atoms_setup_store (fun _ => 0) 3 ex_small_store).maxbin = 3 ∧
    (∀ b, b < 3 →
      (bin_atoms_setup_store (fun _ => 0) 3 ex_small_store).capacity b
        = MAXBINCONTENT
          + EXPAND * (bin_atoms_setup_store (fun _ => 0) 3 ex_small_store).max_bin_expansion_count ∧
      (bin_atoms_setup_store (fun _ => 0) 3 ex_small_store).bin_expansion_counts b
        = (bin_atoms_setup_store (fun _ => 0) 3 ex_small_store).max_bin_expansion_count) ∧
    ex_small_store.max_bin_expansion_count
      ≤ (bin_atoms_setup_store (fun _ => 0) 3 ex_small_store).max_bin_expansion_count ∧
    (∀ b, b < ex_small_store.maxbin → ex_small_store.bin_expansion_counts b
      ≤ (bin_atoms_setup_store (fun _ => 0) 3 ex_small_store).max_bin_expansion_count) ∧
    ((bin_atoms_setup_store (fun _ => 0) 3 ex_small_store).max_bin_expansion_count =
        ex_small_store.max_bin_expansion_count ∨
      ∃ b, b < ex_small_store.maxbin ∧
        (bin_atoms_setup_store (fun _ => 0) 3 ex_small_store).max_bin_expansion_count
          = ex_small_store.bin_expansion_counts b) ∧
    (∀ (junk2 : Nat → Nat) (mbins2 : Nat) (t : Store),
      t.max_bin_expansion_count
        ≤ (bin_atoms_setup_store junk2 mbins2 t).max_bin_expansion_count) ∧
    (∀ (junk2 : Nat → Nat) (t t' : Store) (ibin : Int) (i : Nat),
      insert_member junk2 t ibin i = some t' →
        t'.max_bin_expansion_count = t.max_bin_expansion_count) ∧
    (∀ (n : Nat) (t t' : Store), clear_counts n t = some t' →
        t'.max_bin_expansion_count = t.max_bin_expansion_count)) :=
  ⟨rfl, by decide,
    bin_atoms_setup_regrow_uniform (fun _ => 0) 3 ex_small_store rfl (by decide)⟩

/-! ## Surface depths -/

theorem surface_skin_one_layer (sqrt : ℚ → ℚ) (a : Atom) (one_layer_flag : Nat)
    (pos : Nat → Nat → Vec3) (scale : Int3) (poly : Nat) (h : one_layer_flag ≠ 0) :
    surface_skin sqrt a one_layer_flag pos scale poly
      = ⟨2 / (scale.i0 : ℚ), 2 / (scale.i1 : ℚ), 2 / (scale.i2 : ℚ)⟩ := by
  simp only [surface_skin, if_pos h]

theorem surface_skin_normal (sqrt : ℚ → ℚ) (a : Atom) (pos : Nat → Nat → Vec3) (scale : Int3)
    (poly : Nat) :
    surface_skin sqrt a 0 pos scale poly
      = ⟨if skin_unclamped (a.CAC_cut - a.CAC_skin) (2 / (scale.i0 : ℚ)) (sqrt (ds_sq pos poly)) > 1
          then 1
          else skin_unclamped (a.CAC_cut - a.CAC_skin) (2 / (scale.i0 : ℚ)) (sqrt (ds_sq pos poly)),
         if skin_unclamped (a.CAC_cut - a.CAC_skin) (2 / (scale.i1 : ℚ)) (sqrt (dt_sq pos poly)) > 1
          then 1
          else skin_unclamped (a.CAC_cut - a.CAC_skin) (2 / (scale.i1 : ℚ)) (sqrt (dt_sq pos poly)),
         if skin_unclamped (a.CAC_cut - a.CAC_skin) (2 / (scale.i2 : ℚ)) (sqrt (dw_sq pos poly)) > 1
          then 1
          else skin_unclamped (a.CAC_cut - a.CAC_skin) (2 / (scale.i2 : ℚ)) (sqrt (dw_sq pos poly))⟩ := by
  simp only [surface_skin, ne_eq, not_true_eq_false, if_false]

/-- The unit-cell increment `2 / scale` of an axis of scale at least 1 lies in
`(0, 2]`. -/
theorem unit_cell_pos (n : Int) (h : 1 ≤ n) : (0 : ℚ) < 2 / (n : ℚ) ∧ 2 / (n : ℚ) ≤ 2 := by
  have hn : (1 : ℚ) ≤ n := by exact_mod_cast h
  have hp : (0 : ℚ) < n := by linarith
  refine ⟨by positivity, ?_⟩
  rw [div_le_iff₀ hp]
  linarith

/-- Before the clamp the skin is a whole number of increments: one more than
the truncated quotient. -/
theorem skin_unclamped_eq (rcut u spacing : ℚ) :
    skin_unclamped rcut u spacing
      = u * (((static_cast_int (2 * rcut / spacing / u) + 1 : Int)) : ℚ) := by
  unfold skin_unclamped
  push_cast
  ring

/-- For a non-negative cutoff and positive spacing and increment the truncated
quotient is the floor, and the skin before the clamp is at least one
increment. -/
theorem skin_unclamped_floor (rcut u spacing : ℚ) (hr : 0 ≤ rcut) (hu : 0 < u)
    (hs : 0 < spacing) :
    skin_unclamped rcut u spacing = u * (((⌊2 * rcut / spacing / u⌋ + 1 : Int)) : ℚ) ∧
    u ≤ skin_unclamped rcut u spacing := by
  have hq : 0 ≤ 2 * rcut / spacing / u := by positivity
  have hf : (0 : Int) ≤ ⌊2 * rcut / spacing / u⌋ := Int.floor_nonneg.mpr hq
  rw [skin_unclamped_eq, static_cast_int_of_nonneg hq]
  refine ⟨rfl, ?_⟩
  have h1 : (1 : ℚ) ≤ ((⌊2 * rcut / spacing / u⌋ + 1 : Int) : ℚ) := by
    exact_mod_cast (by omega : (1 : Int) ≤ ⌊2 * rcut / spacing / u⌋ + 1)
  nlinarith

/-- The layer count of a skin of `n` increments is `n`. -/
theorem count_of_increments (u : ℚ) (n : Int) (hu : u ≠ 0) :
    static_cast_int (u * (n : ℚ) / u) = n := by
  rw [mul_div_assoc, mul_comm, div_mul_cancel₀ _ hu]
  exact static_cast_int_intCast n

theorem count_of_one_increment (u : ℚ) (hu : u ≠ 0) : static_cast_int (u / u) = 1 := by
  rw [div_self hu]
  exact static_cast_int_intCast 1

theorem rat_sqrt_sq (q : ℚ) (h : 0 ≤ q) : Rat.sqrt (q * q) = q := by
  rw [Rat.sqrt_eq, abs_of_nonneg h]

theorem ex_cube_spacing :
    ds_sq (ex_atom.nodal_positions 0) 0 = 1 / 2 * (1 / 2) ∧
    dt_sq (ex_atom.nodal_positions 0) 0 = 1 / 2 * (1 / 2) ∧
    dw_sq (ex_atom.nodal_positions 0) 0 = 1 / 2 * (1 / 2) := by
  simp only [ds_sq, dt_sq, dw_sq, ex_atom, ex_cube_node]
  norm_num

theorem ex_fine_spacing (a : Atom) (h : a.nodal_positions = ex_fine_atom.nodal_positions) :
    ds_sq (a.nodal_positions 0) 0 = 4 * 4 ∧
    dt_sq (a.nodal_positions 0) 0 = 4 * 4 ∧
    dw_sq (a.nodal_positions 0) 0 = 4 * 4 := by
  rw [h]
  simp only [ds_sq, dt_sq, dw_sq, ex_fine_atom, ex_fine_node]
  norm_num

theorem ex_skew_spacing :
    ds_sq (ex_skew_atom.nodal_positions 0) 0 = 5 * 5 ∧
    dt_sq (ex_skew_atom.nodal_positions 0) 0 = 11 * 11 ∧
    dw_sq (ex_skew_atom.nodal_positions 0) 0 = 7 * 7 := by
  simp only [ds_sq, dt_sq, dw_sq, ex_skew_atom, ex_skew_node]
  norm_num

/-- Evaluation of the skin before the clamp from bounds on the quotient. -/
theorem skin_unclamped_eval (rcut u spacing : ℚ) (n : Int)
    (h : (0 ≤ 2 * rcut / spacing / u ∧ (n : ℚ) ≤ 2 * rcut / spacing / u ∧
          2 * rcut / spacing / u < n + 1) ∨
        (2 * rcut / spacing / u < 0 ∧ (n : ℚ) - 1 < 2 * rcut / spacing / u ∧
          2 * rcut / spacing / u ≤ n)) :
    skin_unclamped rcut u spacing = u * (n : ℚ) + u := by
  unfold skin_unclamped
  simp only []
  rw [static_cast_int_eq _ n h]

theorem clamp_one_le (v : ℚ) : (if v > 1 then 1 else v) ≤ 1 := by
  split_ifs with h
  · exact le_rfl
  · exact not_lt.mp h

theorem clamp_one_pos (v : ℚ) (h : 0 < v) : 0 < (if v > 1 then 1 else v) := by
  split_ifs
  · norm_num
  · exact h

theorem count_clamped (n : Int) (h : 1 ≤ n) : static_cast_int (1 / (2 / (n : ℚ))) = n / 2 := by
  have hn : (0 : ℚ) < n := by exact_mod_cast (by omega : (0 : Int) < n)
  have e : (1 : ℚ) / (2 / (n : ℚ)) = (n : ℚ) / ((2 : Nat) : ℚ) := by
    field_simp
  rw [e, static_cast_int_of_nonneg (by positivity)]
  exact Rat.floor_intCast_div_natCast n 2

/-- The skin and the layer count of one axis in normal mode. -/
theorem axis_skin_count (rcut spacing : ℚ) (n : Int) (hn : 1 ≤ n) (hr : 0 ≤ rcut)
    (hs : 0 < spacing) :
    skin_unclamped rcut (2 / (n : ℚ)) spacing
      = 2 / (n : ℚ) * (((⌊2 * rcut / spacing / (2 / (n : ℚ))⌋ + 1 : Int)) : ℚ) ∧
    (skin_unclamped rcut (2 / (n : ℚ)) spacing ≤ 1 →
      static_cast_int ((if skin_unclamped rcut (2 / (n : ℚ)) spacing > 1 then 1
          else skin_unclamped rcut (2 / (n : ℚ)) spacing) / (2 / (n : ℚ)))
        = ⌊2 * rcut / spacing / (2 / (n : ℚ))⌋ + 1) ∧
    (1 < skin_unclamped rcut (2 / (n : ℚ)) spacing →
      static_cast_int ((if skin_unclamped rcut (2 / (n : ℚ)) spacing > 1 then 1
          else skin_unclamped rcut (2 / (n : ℚ)) spacing) / (2 / (n : ℚ))) = n / 2) := by
  have hu := (unit_cell_pos n hn).1
  have hf := (skin_unclamped_floor rcut (2 / (n : ℚ)) spacing hr hu hs).1
  refine ⟨hf, ?_, ?_⟩
  · intro hle
    rw [if_neg (not_lt.mpr hle), hf]
    exact count_of_increments _ _ (ne_of_gt hu)
  · intro hgt
    rw [if_pos hgt]
    exact count_clamped n hn

/-- C23: in single-layer mode `compute_surface_depths` returns the layer count 1
on every axis, the skin is one unit-cell increment `2 / scale` and the interior
factor `1 - 2 / scale`, for every node geometry, cutoff and scale at least 1
(and every value of `sqrt`). -/
theorem compute_surface_depths_single_layer (sqrt : ℚ → ℚ) (a : Atom) (one_layer_flag : Nat)
    (pos : Nat → Nat → Vec3) (scale : Int3) (poly : Nat) (hflag : one_layer_flag ≠ 0)
    (h0 : 1 ≤ scale.i0) (h1 : 1 ≤ scale.i1) (h2 : 1 ≤ scale.i2) :
    (compute_surface_depths sqrt a one_layer_flag pos scale poly).countx = 1 ∧
    (compute_surface_depths sqrt a one_layer_flag pos scale poly).county = 1 ∧
    (compute_surface_depths sqrt a one_layer_flag pos scale poly).countz = 1 ∧
    surface_skin sqrt a one_layer_flag pos scale poly
      = ⟨2 / (scale.i0 : ℚ), 2 / (scale.i1 : ℚ), 2 / (scale.i2 : ℚ)⟩ ∧
    (compute_surface_depths sqrt a one_layer_flag pos scale poly).scalex
      = 1 - 2 / (scale.i0 : ℚ) ∧
    (compute_surface_depths sqrt a one_layer_flag pos scale poly).scaley
      = 1 - 2 / (scale.i1 : ℚ) ∧
    (compute_surface_depths sqrt a one_layer_flag pos scale poly).scalez
      = 1 - 2 / (scale.i2 : ℚ) := by
  have hsk := surface_skin_one_layer sqrt a one_layer_flag pos scale poly hflag
  unfold compute_surface_depths
  simp only [hsk]
  exact ⟨count_of_one_increment _ (ne_of_gt (unit_cell_pos _ h0).1),
    count_of_one_increment _ (ne_of_gt (unit_cell_pos _ h1).1),
    count_of_one_increment _ (ne_of_gt (unit_cell_pos _ h2).1), trivial, trivial, trivial,
    trivial⟩

/-- C24: the first two spacings of `compute_surface_depths` are taken from the
squared distances of nodes 0-1 and 0-3, but the sum for the third axis has
`(y0 - y4) * (y0 - y3)` in place of `(y0 - y4)²`.  On the sheared cell
`ex_skew_node` (node 3 at `(0,11,0)`, node 4 at `(0,3,4)`) the squared distance
of nodes 0 and 4 is 25 and the sum the code forms is 49: with spacing 7 instead
of 5 the third axis gets the skin `3/10` and 3 layers, where the distance 5
gives the skin `4/10`. -/
theorem dw_sq_reads_node_three :
    (∀ (pos : Nat → Nat → Vec3) (poly : Nat),
      ds_sq pos poly = ((pos 0 poly).c0 - (pos 1 poly).c0) ^ 2
        + ((pos 0 poly).c1 - (pos 1 poly).c1) ^ 2 + ((pos 0 poly).c2 - (pos 1 poly).c2) ^ 2 ∧
      dt_sq pos poly = ((pos 0 poly).c0 - (pos 3 poly).c0) ^ 2
        + ((pos 0 poly).c1 - (pos 3 poly).c1) ^ 2 + ((pos 0 poly).c2 - (pos 3 poly).c2) ^ 2 ∧
      dw_sq pos poly = ((pos 0 poly).c0 - (pos 4 poly).c0) ^ 2
        + ((pos 0 poly).c1 - (pos 4 poly).c1) * ((pos 0 poly).c1 - (pos 3 poly).c1)
        + ((pos 0 poly).c2 - (pos 4 poly).c2) ^ 2) ∧
    ((ex_skew_node 0).c0 - (ex_skew_node 4).c0) ^ 2
      + ((ex_skew_node 0).c1 - (ex_skew_node 4).c1) ^ 2
      + ((ex_skew_node 0).c2 - (ex_skew_node 4).c2) ^ 2 = 25 ∧
    dw_sq (ex_skew_atom.nodal_positions 0) 0 = 49 ∧
    Rat.sqrt (dw_sq (ex_skew_atom.nodal_positions 0) 0) = 7 ∧
    (surface_skin Rat.sqrt ex_skew_atom 0 (ex_skew_atom.nodal_positions 0)
      (ex_skew_atom.element_scale 0) 0).c2 = 3 / 10 ∧
    (compute_surface_depths Rat.sqrt ex_skew_atom 0 (ex_skew_atom.nodal_positions 0)
      (ex_skew_atom.element_scale 0) 0).countz = 3 ∧
    skin_unclamped (ex_skew_atom.CAC_cut - ex_skew_atom.CAC_skin)
      (2 / (((ex_skew_atom.element_scale 0).i2 : Int) : ℚ)) 5 = 4 / 10 := by
  have hw : Rat.sqrt (dw_sq (ex_skew_atom.nodal_positions 0) 0) = 7 := by
    rw [ex_skew_spacing.2.2]; exact rat_sqrt_sq _ (by norm_num)
  have hu : skin_unclamped (ex_skew_atom.CAC_cut - ex_skew_atom.CAC_skin)
      (2 / (((ex_skew_atom.element_scale 0).i2 : Int) : ℚ)) 7 = 3 / 10 := by
    rw [skin_unclamped_eval _ _ _ 2 (Or.inl (by
      simp only [ex_skew_atom, ex_fine_atom]; norm_num))]
    simp only [ex_skew_atom, ex_fine_atom]
    norm_num
  have hu5 : skin_unclamped (ex_skew_atom.CAC_cut - ex_skew_atom.CAC_skin)
      (2 / (((ex_skew_atom.element_scale 0).i2 : Int) : ℚ)) 5 = 4 / 10 := by
    rw [skin_unclamped_eval _ _ _ 3 (Or.inl (by
      simp only [ex_skew_atom, ex_fine_atom]; norm_num))]
    simp only [ex_skew_atom, ex_fine_atom]
    norm_num
  have hsk : (surface_skin Rat.sqrt ex_skew_atom 0 (ex_skew_atom.nodal_positions 0)
      (ex_skew_atom.element_scale 0) 0).c2 = 3 / 10 := by
    rw [surface_skin_normal, hw, hu]
    norm_num
  refine ⟨?_, by simp only [ex_skew_node]; norm_num, by rw [ex_skew_spacing.2.2]; norm_num,
    hw, hsk, ?_, hu5⟩
  · intro pos poly
    simp only [ds_sq, dt_sq, dw_sq]
    refine ⟨by ring, by ring, by ring⟩
  · show static_cast_int ((surface_skin Rat.sqrt ex_skew_atom 0 (ex_skew_atom.nodal_positions 0)
        (ex_skew_atom.element_scale 0) 0).c2
        / (2 / (((ex_skew_atom.element_scale 0).i2 : Int) : ℚ))) = 3
    rw [hsk]
    exact static_cast_int_eq _ 3 (Or.inl (by simp only [ex_skew_atom, ex_fine_atom]; norm_num))

/-! ## The shape function -/

/-- C26: for `k = 1..8`, `shape_function(s,t,w,2,k)` is the trilinear nodal
basis `(1 + s_k s)(1 + t_k t)(1 + w_k w) / 8` with the corner signs of the
specification; it is 1 at corner `k` and 0 at the other seven corners, and the
eight values sum to 1 at every `(s,t,w)`. -/
theorem shape_function_trilinear :
    (∀ (s t w : ℚ) (k : Nat), 1 ≤ k → k ≤ 8 →
      shape_function s t w 2 k = spec_trilinear_basis s t w k) ∧
    (∀ k j : Nat, 1 ≤ k → k ≤ 8 → 1 ≤ j → j ≤ 8 →
      shape_function (spec_corner_sign j).c0 (spec_corner_sign j).c1 (spec_corner_sign j).c2 2 k
        = if j = k then 1 else 0) ∧
    (∀ s t w : ℚ,
      shape_function s t w 2 1 + shape_function s t w 2 2 + shape_function s t w 2 3
        + shape_function s t w 2 4 + shape_function s t w 2 5 + shape_function s t w 2 6
        + shape_function s t w 2 7 + shape_function s t w 2 8 = 1) := by
  refine ⟨?_, ?_, ?_⟩
  · intro s t w k h1 h8
    interval_cases k <;> simp [shape_function, spec_trilinear_basis, spec_corner_sign] <;> ring
  · intro k j hk1 hk8 hj1 hj8
    interval_cases k <;> interval_cases j <;>
      norm_num [shape_function, spec_corner_sign]
  · intro s t w
    simp [shape_function]
    ring

/-! ## The quadrature part of `bin_atoms_setup` -/

/-- The running maximum of one axis. -/
theorem max_step_le (c m : Int) : m ≤ (if c > m then c else m) ∧ c ≤ (if c > m then c else m) := by
  split_ifs with h
  · exact ⟨by omega, le_rfl⟩
  · exact ⟨le_rfl, by omega⟩

/-- One pass of the entity loop of `bin_atoms_setup`: what it leaves in
`surface_counts`, `interior_scales` and `surface_counts_max`. -/
theorem surface_counts_loop_spec (sqrt : ℚ → ℚ) (a : Atom) (one_layer_flag : Nat)
    (sc : Nat → Int3) (is : Nat → Vec3) (m : Int3) :
    (m.i0 ≤ (surface_counts_loop sqrt a one_layer_flag (sc, is, m)).2.2.i0 ∧
      m.i1 ≤ (surface_counts_loop sqrt a one_layer_flag (sc, is, m)).2.2.i1 ∧
      m.i2 ≤ (surface_counts_loop sqrt a one_layer_flag (sc, is, m)).2.2.i2) ∧
    (∀ i, i < a.nlocal → a.element_type i ≠ 0 →
      (surface_counts_loop sqrt a one_layer_flag (sc, is, m)).1 i
        = (phase_surface_counts sqrt a one_layer_flag i (sc i, is i)).1 ∧
      (surface_counts_loop sqrt a one_layer_flag (sc, is, m)).2.1 i
        = (phase_surface_counts sqrt a one_layer_flag i (sc i, is i)).2 ∧
      ((surface_counts_loop sqrt a one_layer_flag (sc, is, m)).1 i).i0
        ≤ (surface_counts_loop sqrt a one_layer_flag (sc, is, m)).2.2.i0 ∧
      ((surface_counts_loop sqrt a one_layer_flag (sc, is, m)).1 i).i1
        ≤ (surface_counts_loop sqrt a one_layer_flag (sc, is, m)).2.2.i1 ∧
      ((surface_counts_loop sqrt a one_layer_flag (sc, is, m)).1 i).i2
        ≤ (surface_counts_loop sqrt a one_layer_flag (sc, is, m)).2.2.i2) ∧
    (∀ i, (¬ i < a.nlocal ∨ a.element_type i = 0) →
      (surface_counts_loop sqrt a one_layer_flag (sc, is, m)).1 i = sc i ∧
      (surface_counts_loop sqrt a one_layer_flag (sc, is, m)).2.1 i = is i) := by
  unfold surface_counts_loop
  refine forLoop_inv_lt (fun j (s : (Nat → Int3) × (Nat → Vec3) × Int3) =>
    (m.i0 ≤ s.2.2.i0 ∧ m.i1 ≤ s.2.2.i1 ∧ m.i2 ≤ s.2.2.i2) ∧
    (∀ i, i < j → a.element_type i ≠ 0 →
      s.1 i = (phase_surface_counts sqrt a one_layer_flag i (sc i, is i)).1 ∧
      s.2.1 i = (phase_surface_counts sqrt a one_layer_flag i (sc i, is i)).2 ∧
      (s.1 i).i0 ≤ s.2.2.i0 ∧ (s.1 i).i1 ≤ s.2.2.i1 ∧ (s.1 i).i2 ≤ s.2.2.i2) ∧
    (∀ i, (¬ i < j ∨ a.element_type i = 0) → s.1 i = sc i ∧ s.2.1 i = is i))
    a.nlocal _ (sc, is, m) ?_ ?_
  · exact ⟨⟨le_rfl, le_rfl, le_rfl⟩, fun i hi => absurd hi (Nat.not_lt_zero i),
      fun i _ => ⟨rfl, rfl⟩⟩
  · intro j _ s ⟨⟨m0, m1, m2⟩, hlt, hge⟩
    by_cases hty : a.element_type j ≠ 0
    · simp only [if_pos hty]
      have hsj := hge j (Or.inl (Nat.lt_irrefl j))
      have x0 := max_step_le (phase_surface_counts sqrt a one_layer_flag j (s.1 j, s.2.1 j)).1.i0
        s.2.2.i0
      have x1 := max_step_le (phase_surface_counts sqrt a one_layer_flag j (s.1 j, s.2.1 j)).1.i1
        s.2.2.i1
      have x2 := max_step_le (phase_surface_counts sqrt a one_layer_flag j (s.1 j, s.2.1 j)).1.i2
        s.2.2.i2
      have e0 : ∀ (c0 c1 c2 : Int) (mm : Int3),
          (if c2 > (if c1 > (if c0 > mm.i0 then { mm with i0 := c0 } else mm).i1
              then { (if c0 > mm.i0 then { mm with i0 := c0 } else mm) with i1 := c1 }
              else (if c0 > mm.i0 then { mm with i0 := c0 } else mm)).i2
            then { (if c1 > (if c0 > mm.i0 then { mm with i0 := c0 } else mm).i1
              then { (if c0 > mm.i0 then { mm with i0 := c0 } else mm) with i1 := c1 }
              else (if c0 > mm.i0 then { mm with i0 := c0 } else mm)) with i2 := c2 }
            else (if c1 > (if c0 > mm.i0 then { mm with i0 := c0 } else mm).i1
              then { (if c0 > mm.i0 then { mm with i0 := c0 } else mm) with i1 := c1 }
              else (if c0 > mm.i0 then { mm with i0 := c0 } else mm)))
          = ⟨if c0 > mm.i0 then c0 else mm.i0, if c1 > mm.i1 then c1 else mm.i1,
              if c2 > mm.i2 then c2 else mm.i2⟩ := by
        intro c0 c1 c2 mm
        by_cases h0 : c0 > mm.i0 <;> by_cases h1 : c1 > mm.i1 <;> by_cases h2 : c2 > mm.i2 <;>
          simp [h0, h1, h2]
      simp only [e0]
      refine ⟨⟨le_trans m0 x0.1, le_trans m1 x1.1, le_trans m2 x2.1⟩, ?_, ?_⟩
      · intro i hi hti
        by_cases hij : i = j
        · subst hij
          simp only [Function.update_same]
          rw [hsj.1, hsj.2] at x0 x1 x2 ⊢
          exact ⟨rfl, rfl, x0.2, x1.2, x2.2⟩
        · simp only [Function.update_noteq hij]
          obtain ⟨a1, a2, a3, a4, a5⟩ := hlt i (by omega) hti
          exact ⟨a1, a2, le_trans a3 x0.1, le_trans a4 x1.1, le_trans a5 x2.1⟩
      · intro i hi
        have hij : i ≠ j := by
          rintro rfl
          rcases hi with h | h
          · exact h (Nat.lt_succ_self _)
          · exact hty h
        simp only [Function.update_noteq hij]
        exact hge i (by
          rcases hi with h | h
          · exact Or.inl (fun hh => h (Nat.lt_succ_of_lt hh))
          · exact Or.inr h)
    · simp only [if_neg hty]
      have hty0 : a.element_type j = 0 := by
        by_contra h; exact hty h
      refine ⟨⟨m0, m1, m2⟩, ?_, ?_⟩
      · intro i hi hti
        have hij : i ≠ j := by
          rintro rfl; exact hti hty0
        exact hlt i (by omega) hti
      · intro i hi
        by_cases hij : i = j
        · subst hij
          exact hge i (Or.inr hty0)
        · exact hge i (by
            rcases hi with h | h
            · exact Or.inl (fun hh => h (Nat.lt_succ_of_lt hh))
            · exact Or.inr h)

/-- Rows at or above the write index are untouched by a write. -/
theorem put_quad_point_frame (buf : Nat → Vec3) (pos : Nat → Nat → Vec3) (npe poly : Nat)
    (s t w : ℚ) (qb : QuadBuf)
    (h : ∀ k, qb.quadrature_counter ≤ k → qb.current_element_quad_points k = buf k) :
    ∀ k, (put_quad_point pos npe poly s t w qb).quadrature_counter ≤ k →
      (put_quad_point pos npe poly s t w qb).current_element_quad_points k = buf k := by
  intro k hk
  have hk' : qb.quadrature_counter + 1 ≤ k := hk
  show Function.update qb.current_element_quad_points qb.quadrature_counter _ k = buf k
  rw [Function.update_noteq (by omega)]
  exact h k (by omega)

/-- The function `compute_quad_points` writes only rows below the count it
returns. -/
theorem compute_quad_points_frame (a : Atom) (q : Quad) (i : Nat) (buf : Nat → Vec3) :
    ∀ k, (compute_quad_points a q i buf).quadrature_counter ≤ k →
      (compute_quad_points a q i buf).current_element_quad_points k = buf k := by
  unfold compute_quad_points
  simp only []
  refine forLoop_inv (fun qb : QuadBuf =>
    ∀ k, qb.quadrature_counter ≤ k → qb.current_element_quad_points k = buf k) _ _ _
    (fun k _ => rfl) ?_
  intro p qb hqb
  unfold quad_points_of_phase
  simp only []
  repeat' first
    | assumption
    | (apply put_quad_point_frame)
    | (refine forLoop_inv (fun qb : QuadBuf =>
        ∀ k, qb.quadrature_counter ≤ k → qb.current_element_quad_points k = buf k) _ _ _ ?_ ?_)
    | intro _ _ _

/-- The point count of an entity with counts `c` and at most `maxpoly` phases
is within the rows sized from counts `n ≥ c`, `n ≥ 0`. -/
theorem quad_rows_bound (qn : Nat) (c n : Int3) (p maxpoly : Nat)
    (hc0 : c.i0 ≤ n.i0) (hc1 : c.i1 ≤ n.i1) (hc2 : c.i2 ≤ n.i2)
    (hn0 : 0 ≤ n.i0) (hn1 : 0 ≤ n.i1) (hn2 : 0 ≤ n.i2) (hp : p ≤ maxpoly) :
    ((p * (qn * (qn * qn) + 2 * (c.i0.toNat * (qn * qn)) + 2 * (c.i1.toNat * (qn * qn))
          + 2 * (c.i2.toNat * (qn * qn))
          + (4 * (c.i0.toNat * (c.i1.toNat * qn)) + 4 * (c.i1.toNat * (c.i2.toNat * qn))
            + 4 * (c.i0.toNat * (c.i2.toNat * qn)))
          + 8 * (c.i0.toNat * (c.i1.toNat * c.i2.toNat))) : Nat) : Int)
      ≤ ((qn : Int) * qn * qn + 2 * n.i0 * qn * qn + 2 * n.i1 * qn * qn + 2 * n.i2 * qn * qn
          + 4 * n.i0 * n.i1 * qn + 4 * n.i2 * n.i1 * qn + 4 * n.i0 * n.i2 * qn
          + 8 * n.i0 * n.i1 * n.i2) * (maxpoly : Int) := by
  have e0 : ((n.i0.toNat : Nat) : Int) = n.i0 := Int.toNat_of_nonneg hn0
  have e1 : ((n.i1.toNat : Nat) : Int) = n.i1 := Int.toNat_of_nonneg hn1
  have e2 : ((n.i2.toNat : Nat) : Int) = n.i2 := Int.toNat_of_nonneg hn2
  have l0 : c.i0.toNat ≤ n.i0.toNat := Int.toNat_le_toNat hc0
  have l1 : c.i1.toNat ≤ n.i1.toNat := Int.toNat_le_toNat hc1
  have l2 : c.i2.toNat ≤ n.i2.toNat := Int.toNat_le_toNat hc2
  have hnat : p * (qn * (qn * qn) + 2 * (c.i0.toNat * (qn * qn)) + 2 * (c.i1.toNat * (qn * qn))
          + 2 * (c.i2.toNat * (qn * qn))
          + (4 * (c.i0.toNat * (c.i1.toNat * qn)) + 4 * (c.i1.toNat * (c.i2.toNat * qn))
            + 4 * (c.i0.toNat * (c.i2.toNat * qn)))
          + 8 * (c.i0.toNat * (c.i1.toNat * c.i2.toNat)))
      ≤ maxpoly * (qn * (qn * qn) + 2 * (n.i0.toNat * (qn * qn)) + 2 * (n.i1.toNat * (qn * qn))
          + 2 * (n.i2.toNat * (qn * qn))
          + (4 * (n.i0.toNat * (n.i1.toNat * qn)) + 4 * (n.i1.toNat * (n.i2.toNat * qn))
            + 4 * (n.i0.toNat * (n.i2.toNat * qn)))
          + 8 * (n.i0.toNat * (n.i1.toNat * n.i2.toNat))) := by
    gcongr
  have hint := Int.ofNat_le.mpr hnat
  refine le_trans hint (le_of_eq ?_)
  push_cast
  rw [e0, e1, e2]
  ring

/-- The surface counts and the quadrature order that `bin_atoms_setup` leaves. -/
theorem bin_atoms_setup_quad_fields (sqrt : ℚ → ℚ) (a : Atom) (one_layer_flag maxpoly : Nat)
    (quad_rule_initialized : Nat) (q : Quad) (scm : Int3) :
    (bin_atoms_setup_quad sqrt a one_layer_flag maxpoly quad_rule_initialized q scm).quad.surface_counts
      = (surface_counts_loop sqrt a one_layer_flag
          ((if quad_rule_initialized = 0 then quadrature_init 2 q else q).surface_counts,
           (if quad_rule_initialized = 0 then quadrature_init 2 q else q).interior_scales,
           scm)).1 ∧
    (bin_atoms_setup_quad sqrt a one_layer_flag maxpoly quad_rule_initialized q scm).quad.interior_scales
      = (surface_counts_loop sqrt a one_layer_flag
          ((if quad_rule_initialized = 0 then quadrature_init 2 q else q).surface_counts,
           (if quad_rule_initialized = 0 then quadrature_init 2 q else q).interior_scales,
           scm)).2.1 ∧
    (bin_atoms_setup_quad sqrt a one_layer_flag maxpoly quad_rule_initialized q scm).surface_counts_max
      = (surface_counts_loop sqrt a one_layer_flag
          ((if quad_rule_initialized = 0 then quadrature_init 2 q else q).surface_counts,
           (if quad_rule_initialized = 0 then quadrature_init 2 q else q).interior_scales,
           scm)).2.2 ∧
    (bin_atoms_setup_quad sqrt a one_layer_flag maxpoly quad_rule_initialized q
        scm).quad.quadrature_node_count
      = (if quad_rule_initialized = 0 then quadrature_init 2 q else q).quadrature_node_count ∧
    (bin_atoms_setup_quad sqrt a one_layer_flag maxpoly quad_rule_initialized q
        scm).quad.quadrature_abcissae
      = (if quad_rule_initialized = 0 then quadrature_init 2 q else q).quadrature_abcissae ∧
    (quad_rule_initialized = 0 →
      (bin_atoms_setup_quad sqrt a one_layer_flag maxpoly quad_rule_initialized q
        scm).quad.quadrature_node_count = 2) :=
  ⟨rfl, rfl, rfl, rfl, rfl, fun h => by
    show (if quad_rule_initialized = 0 then quadrature_init 2 q else q).quadrature_node_count = 2
    rw [if_pos h]
    rfl⟩

/-- C27: for every local extended entity with at most `maxpoly` phases the point
count returned by `compute_quad_points` does not exceed
`max_quad_count * maxpoly`, the number of rows that `bin_atoms_setup` gave the
scratch buffer in the same rebuild, and no row at or beyond that number is
written; `surface_counts_max`, which starts at 0, stays non-negative. -/
theorem compute_quad_points_within_rows (sqrt : ℚ → ℚ) (a : Atom)
    (one_layer_flag maxpoly quad_rule_initialized : Nat) (q : Quad) (scm : Int3)
    (buf : Nat → Vec3) (i : Nat)
    (hm0 : 0 ≤ scm.i0) (hm1 : 0 ≤ scm.i1) (hm2 : 0 ≤ scm.i2)
    (hi : i < a.nlocal) (hty : a.element_type i ≠ 0) (hpoly : a.poly_count i ≤ maxpoly) :
    ((compute_quad_points a
        (bin_atoms_setup_quad sqrt a one_layer_flag maxpoly quad_rule_initialized q scm).quad
        i buf).quadrature_counter : Int)
      ≤ (bin_atoms_setup_quad sqrt a one_layer_flag maxpoly quad_rule_initialized q scm).quad_rows ∧
    (∀ k : Nat,
      (bin_atoms_setup_quad sqrt a one_layer_flag maxpoly quad_rule_initialized q scm).quad_rows
          ≤ (k : Int) →
        (compute_quad_points a
          (bin_atoms_setup_quad sqrt a one_layer_flag maxpoly quad_rule_initialized q scm).quad
          i buf).current_element_quad_points k = buf k) ∧
    0 ≤ (bin_atoms_setup_quad sqrt a one_layer_flag maxpoly quad_rule_initialized q
        scm).surface_counts_max.i0 ∧
    0 ≤ (bin_atoms_setup_quad sqrt a one_layer_flag maxpoly quad_rule_initialized q
        scm).surface_counts_max.i1 ∧
    0 ≤ (bin_atoms_setup_quad sqrt a one_layer_flag maxpoly quad_rule_initialized q
        scm).surface_counts_max.i2 := by
  obtain ⟨⟨g0, g1, g2⟩, hloc, _⟩ := surface_counts_loop_spec sqrt a one_layer_flag
    (if quad_rule_initialized = 0 then quadrature_init 2 q else q).surface_counts
    (if quad_rule_initialized = 0 then quadrature_init 2 q else q).interior_scales scm
  obtain ⟨_, _, c0, c1, c2⟩ := hloc i hi hty
  obtain ⟨fs, _, fm, fq, _, _⟩ := bin_atoms_setup_quad_fields sqrt a one_layer_flag maxpoly
    quad_rule_initialized q scm
  rw [fm]
  have hb : ((compute_quad_points a
        (bin_atoms_setup_quad sqrt a one_layer_flag maxpoly quad_rule_initialized q scm).quad
        i buf).quadrature_counter : Int)
      ≤ (bin_atoms_setup_quad sqrt a one_layer_flag maxpoly quad_rule_initialized q
          scm).quad_rows := by
    rw [compute_quad_points_counter, fs, fq]
    exact quad_rows_bound _ _ _ _ _ c0 c1 c2 (le_trans hm0 g0) (le_trans hm1 g1)
      (le_trans hm2 g2) hpoly
  refine ⟨hb, ?_, le_trans hm0 g0, le_trans hm1 g1, le_trans hm2 g2⟩
  intro k hk
  exact compute_quad_points_frame a _ i buf k (by exact_mod_cast le_trans hb hk)

/-! ## The point-to-cell map `quad2bin` -/

/-- The loop of `bin_atoms` that records the cells of the scratch rows
(lines 663-667). -/
theorem quad2bin_loop (g : Grid) (n : Nat) (s0 : BinState) :
    (forLoop n (fun iquad (s : BinState) =>
      { s with quad2bin := s.quad2bin ++ [quad2bins g (s.current_element_quad_points iquad)] })
      s0).quad2bin
      = s0.quad2bin
        ++ (List.range n).map (fun iquad => quad2bins g (s0.current_element_quad_points iquad)) ∧
    (forLoop n (fun iquad (s : BinState) =>
      { s with quad2bin := s.quad2bin ++ [quad2bins g (s.current_element_quad_points iquad)] })
      s0).current_element_quad_points = s0.current_element_quad_points := by
  induction n with
  | zero => simp [forLoop]
  | succ n ih =>
    rw [forLoop_succ]
    simp only [ih.1, ih.2, List.range_succ, List.map_append, List.map_cons, List.map_nil,
      List.append_assoc, and_self]

/-- What the loop body of `bin_atoms` appends to `quad2bin` for entity `i`:
nothing for a ghost, the cell of `x[i]` for a local point entity (whose
position is then row 0 of the scratch buffer), one cell per generated point for
a local extended entity. -/
theorem bin_entity_quad2bin (junk : Nat → Nat) (g : Grid) (a : Atom) (q : Quad) (group : Bool)
    (i : Nat) (s s' : BinState) (h : bin_entity junk g a q group i s = some s') :
    ∃ l : List Int, s'.quad2bin = s.quad2bin ++ l ∧
      (¬ i < a.nlocal → l = []) ∧
      (i < a.nlocal → a.element_type i = 0 →
        l = [quad2bins g (a.x i)] ∧ s'.current_element_quad_points 0 = a.x i) ∧
      (i < a.nlocal → a.element_type i ≠ 0 →
        l.length
          = (compute_quad_points a q i s.current_element_quad_points).quadrature_counter) := by
  unfold bin_entity at h
  simp only [] at h
  by_cases hl : i < a.nlocal
  · by_cases ht : a.element_type i = 0
    · simp only [hl, ht, if_true, ne_eq, not_true_eq_false, if_false] at h
      obtain ⟨st, _, rfl⟩ := Option.map_eq_some'.mp h
      refine ⟨[quad2bins g (a.x i)], ?_, fun hn => absurd hl hn, fun _ _ => ⟨rfl, ?_⟩,
        fun _ hn => absurd ht hn⟩
      · cases group <;> simp [forLoop]
      · cases group <;> simp [forLoop]
    · simp only [hl, ht, if_true, ne_eq, not_false_eq_true, if_false] at h
      obtain ⟨st, _, rfl⟩ := Option.map_eq_some'.mp h
      refine ⟨(List.range
          (compute_quad_points a q i s.current_element_quad_points).quadrature_counter).map
          (fun iquad => quad2bins g
            ((compute_quad_points a q i s.current_element_quad_points).current_element_quad_points
              iquad)), ?_, fun hn => absurd hl hn, fun _ h0 => absurd h0 ht, fun _ _ => by simp⟩
      cases group <;> simp [(quad2bin_loop g _ _).1]
  · by_cases ht : a.element_type i = 0
    · simp only [hl, ht, if_true, if_false] at h
      obtain ⟨st, _, rfl⟩ := Option.map_eq_some'.mp h
      refine ⟨[], ?_, fun _ => rfl, fun h0 => absurd h0 hl, fun h0 => absurd h0 hl⟩
      cases group <;> simp
    · simp only [hl, ht, if_false] at h
      obtain ⟨st, _, rfl⟩ := Option.map_eq_some'.mp h
      refine ⟨[], ?_, fun _ => rfl, fun h0 => absurd h0 hl, fun h0 => absurd h0 hl⟩
      cases group <;> simp

/-- An entity loop of `bin_atoms` appends to `quad2bin`, entity after entity,
the cells `L i` of the entities it visits. -/
theorem forLoopM_bin_entity_quad2bin (junk : Nat → Nat) (g : Grid) (a : Atom) (q : Quad)
    (group : Bool) (m : Nat) (s0 s' : BinState)
    (h : forLoopM m (fun i s => bin_entity junk g a q group i s) s0 = some s') :
    ∃ L : Nat → List Int, s'.quad2bin = s0.quad2bin ++ (List.range m).flatMap L ∧
      ∀ i, i < m →
        (¬ i < a.nlocal → L i = []) ∧
        (i < a.nlocal → a.element_type i = 0 → L i = [quad2bins g (a.x i)]) ∧
        (i < a.nlocal → a.element_type i ≠ 0 →
          (L i).length
            = (compute_quad_points a q i (fun _ => ⟨0, 0, 0⟩)).quadrature_counter) := by
  induction m generalizing s' with
  | zero =>
    have e : s' = s0 := by
      have : some s0 = some s' := h
      injection this with this
      exact this.symm
    exact ⟨fun _ => [], by simp [e], fun i hi => absurd hi (Nat.not_lt_zero i)⟩
  | succ m ih =>
    rw [forLoopM_succ] at h
    cases hm : forLoopM m (fun i s => bin_entity junk g a q group i s) s0 with
    | none => rw [hm] at h; cases h
    | some s1 =>
      rw [hm, Option.some_bind] at h
      obtain ⟨L, hL, hprop⟩ := ih s1 hm
      obtain ⟨l, hl, p1, p2, p3⟩ := bin_entity_quad2bin junk g a q group m s1 s' h
      refine ⟨fun i => if i = m then l else L i, ?_, ?_⟩
      · rw [hl, hL, List.range_succ, List.flatMap_append, List.append_assoc]
        congr 1
        have e1 : (List.range m).flatMap (fun i => if i = m then l else L i)
            = (List.range m).flatMap L := by
          apply List.flatMap_congr
          intro i hi
          have : i ≠ m := by
            have := List.mem_range.mp hi
            omega
          simp [this]
        rw [e1]
        simp
      · intro i hi
        by_cases him : i = m
        · subst him
          simp only [if_true]
          refine ⟨p1, fun h1 h2 => (p2 h1 h2).1, fun h1 h2 => ?_⟩
          rw [p3 h1 h2, compute_quad_points_counter, compute_quad_points_counter]
        · simp only [if_neg him]
          exact hprop i (by omega)

theorem flatMap_range_trailing_nil {α : Type} (L : Nat → List α) (n m : Nat)
    (h : ∀ k, n ≤ k → k < n + m → L k = []) :
    (List.range (n + m)).flatMap L = (List.range n).flatMap L := by
  induction m with
  | zero => rfl
  | succ m ih =>
    rw [← Nat.add_assoc, List.range_succ, List.flatMap_append,
      ih (fun k h1 h2 => h k h1 (by omega))]
    simp [h (n + m) (by omega) (by omega)]

/-- With no include-group, `bin_atoms` writes `quad2bin` entries for the local
entities only, entity after entity: one for a point entity, one per generated
point for an extended entity. -/
theorem bin_atoms_quad2bin (junk : Nat → Nat) (g : Grid) (a : Atom) (q : Quad)
    (bitmask : Nat) (s s' : BinState) (h : bin_atoms junk g a q 0 bitmask s = some s') :
    ∃ L : Nat → List Int, s'.quad2bin = (List.range a.nlocal).flatMap L ∧
      ∀ i, i < a.nlocal →
        (a.element_type i = 0 → L i = [quad2bins g (a.x i)]) ∧
        (a.element_type i ≠ 0 →
          (L i).length
            = (compute_quad_points a q i (fun _ => ⟨0, 0, 0⟩)).quadrature_counter) := by
  unfold bin_atoms at h
  cases hc : clear_counts g.mbins s.store with
  | none => rw [hc] at h; cases h
  | some st0 =>
    rw [hc, Option.some_bind] at h
    simp only [ne_eq, not_true_eq_false, if_false] at h
    obtain ⟨L, hL, hprop⟩ := forLoopM_bin_entity_quad2bin junk g a q false _ _ s' h
    refine ⟨L, ?_, fun i hi => ⟨(hprop i (by omega)).2.1 hi, (hprop i (by omega)).2.2 hi⟩⟩
    rw [hL]
    simp only [List.nil_append]
    exact flatMap_range_trailing_nil L a.nlocal a.nghost
      (fun k h1 h2 => (hprop k h2).1 (by omega))

/-- The point count of an entity with non-negative counts, as an integer. -/
theorem quad_counter_int (a : Atom) (q : Quad) (i : Nat) (buf : Nat → Vec3)
    (h0 : 0 ≤ (q.surface_counts i).i0) (h1 : 0 ≤ (q.surface_counts i).i1)
    (h2 : 0 ≤ (q.surface_counts i).i2) :
    ((compute_quad_points a q i buf).quadrature_counter : Int)
      = ((q.quadrature_node_count : Int) * q.quadrature_node_count * q.quadrature_node_count
          + 2 * (q.surface_counts i).i0 * q.quadrature_node_count * q.quadrature_node_count
          + 2 * (q.surface_counts i).i1 * q.quadrature_node_count * q.quadrature_node_count
          + 2 * (q.surface_counts i).i2 * q.quadrature_node_count * q.quadrature_node_count
          + 4 * (q.surface_counts i).i0 * (q.surface_counts i).i1 * q.quadrature_node_count
          + 4 * (q.surface_counts i).i2 * (q.surface_counts i).i1 * q.quadrature_node_count
          + 4 * (q.surface_counts i).i0 * (q.surface_counts i).i2 * q.quadrature_node_count
          + 8 * (q.surface_counts i).i0 * (q.surface_counts i).i1 * (q.surface_counts i).i2)
        * (a.poly_count i : Int) := by
  rw [compute_quad_points_counter]
  push_cast
  rw [Int.toNat_of_nonneg h0, Int.toNat_of_nonneg h1, Int.toNat_of_nonneg h2]
  ring

/-- The length of the entries of the first `n` entities is the value the sizing
loop of `bin_atoms_setup` (lines 202-217) reaches after `n` steps. -/
theorem quad2bin_length_loop (a : Atom) (quad : Int) (sc : Nat → Int3) (L : Nat → List Int)
    (n : Nat)
    (h : ∀ i, i < n →
      (a.element_type i = 0 → ((L i).length : Int) = 1) ∧
      (a.element_type i ≠ 0 → ((L i).length : Int)
        = (quad * quad * quad + 2 * (sc i).i0 * quad * quad + 2 * (sc i).i1 * quad * quad
          + 2 * (sc i).i2 * quad * quad + 4 * (sc i).i0 * (sc i).i1 * quad
          + 4 * (sc i).i2 * (sc i).i1 * quad + 4 * (sc i).i0 * (sc i).i2 * quad
          + 8 * (sc i).i0 * (sc i).i1 * (sc i).i2) * (a.poly_count i : Int))) :
    ((((List.range n).flatMap L).length : Nat) : Int)
      = forLoop n (fun init (quadrature_point_count : Int) =>
          if a.element_type init = 0 then quadrature_point_count + 1
          else quadrature_point_count
            + (quad * quad * quad + 2 * (sc init).i0 * quad * quad
              + 2 * (sc init).i1 * quad * quad + 2 * (sc init).i2 * quad * quad
              + 4 * (sc init).i0 * (sc init).i1 * quad + 4 * (sc init).i2 * (sc init).i1 * quad
              + 4 * (sc init).i0 * (sc init).i2 * quad
              + 8 * (sc init).i0 * (sc init).i1 * (sc init).i2) * (a.poly_count init)) 0 := by
  induction n with
  | zero => rfl
  | succ n ih =>
    rw [forLoop_succ, ← ih (fun i hi => h i (by omega)), List.range_succ, List.flatMap_append,
      List.length_append]
    have hn := h n (Nat.lt_succ_self n)
    by_cases ht : a.element_type n = 0
    · rw [if_pos ht]
      push_cast
      simp [hn.1 ht]
    · rw [if_neg ht]
      push_cast
      simp [hn.2 ht]

/-- C28 (as the code has it): with no include-group, on a store that covers the
grid, `bin_atoms` (run on the quadrature data `bin_atoms_setup` prepared) writes
`quad2bin` entries for the local entities only, consecutively in entity order:
one for a point entity and one per generated point for an extended one.  When
the stored surface counts of the local extended entities are non-negative, the
number of entries of an extended entity is
`poly_count * (q³ + 2q²(c1+c2+c3) + 4q(c1c2+c2c3+c1c3) + 8c1c2c3)` and the total
number is `quadrature_point_count`, the length `bin_atoms_setup` gave
`quad2bin`. -/
theorem bin_atoms_quad2bin_count (sqrt : ℚ → ℚ) (junk : Nat → Nat) (g : Grid) (a : Atom)
    (one_layer_flag maxpoly quad_rule_initialized : Nat) (q : Quad) (scm : Int3)
    (bitmask : Nat) (s : BinState)
    (hmb : g.mbins ≤ s.store.maxbin) (hcap : s.store.CapInv)
    (hrange : ∀ i, i < a.nlocal + a.nghost →
      0 ≤ home_cell g a i ∧ home_cell g a i < (g.mbins : Int)) :
    ∃ (s' : BinState) (L : Nat → List Int),
      bin_atoms junk g a (bin_atoms_setup_quad sqrt a one_layer_flag maxpoly quad_rule_initialized q scm).quad
        0 bitmask s = some s' ∧
      s'.quad2bin = (List.range a.nlocal).flatMap L ∧
      (∀ i, i < a.nlocal →
        (a.element_type i = 0 → L i = [quad2bins g (a.x i)]) ∧
        (a.element_type i ≠ 0 → (L i).length
          = (compute_quad_points a (bin_atoms_setup_quad sqrt a one_layer_flag maxpoly quad_rule_initialized q scm).quad i
              (fun _ => ⟨0, 0, 0⟩)).quadrature_counter)) ∧
      ((∀ i, i < a.nlocal → a.element_type i ≠ 0 →
          0 ≤ ((bin_atoms_setup_quad sqrt a one_layer_flag maxpoly quad_rule_initialized q scm).quad.surface_counts i).i0 ∧
          0 ≤ ((bin_atoms_setup_quad sqrt a one_layer_flag maxpoly quad_rule_initialized q scm).quad.surface_counts i).i1 ∧
          0 ≤ ((bin_atoms_setup_quad sqrt a one_layer_flag maxpoly quad_rule_initialized q scm).quad.surface_counts i).i2) →
        (∀ i, i < a.nlocal → a.element_type i ≠ 0 → ((L i).length : Int)
          = (a.poly_count i : Int) *
            (((bin_atoms_setup_quad sqrt a one_layer_flag maxpoly quad_rule_initialized q scm).quad.quadrature_node_count : Int) ^ 3
              + 2 * ((bin_atoms_setup_quad sqrt a one_layer_flag maxpoly quad_rule_initialized q scm).quad.quadrature_node_count : Int) ^ 2 *
                (((bin_atoms_setup_quad sqrt a one_layer_flag maxpoly quad_rule_initialized q scm).quad.surface_counts i).i0
                  + ((bin_atoms_setup_quad sqrt a one_layer_flag maxpoly quad_rule_initialized q scm).quad.surface_counts i).i1
                  + ((bin_atoms_setup_quad sqrt a one_layer_flag maxpoly quad_rule_initialized q scm).quad.surface_counts i).i2)
              + 4 * ((bin_atoms_setup_quad sqrt a one_layer_flag maxpoly quad_rule_initialized q scm).quad.quadrature_node_count : Int) *
                (((bin_atoms_setup_quad sqrt a one_layer_flag maxpoly quad_rule_initialized q scm).quad.surface_counts i).i0
                    * ((bin_atoms_setup_quad sqrt a one_layer_flag maxpoly quad_rule_initialized q scm).quad.surface_counts i).i1
                  + ((bin_atoms_setup_quad sqrt a one_layer_flag maxpoly quad_rule_initialized q scm).quad.surface_counts i).i1
                    * ((bin_atoms_setup_quad sqrt a one_layer_flag maxpoly quad_rule_initialized q scm).quad.surface_counts i).i2
                  + ((bin_atoms_setup_quad sqrt a one_layer_flag maxpoly quad_rule_initialized q scm).quad.surface_counts i).i0
                    * ((bin_atoms_setup_quad sqrt a one_layer_flag maxpoly quad_rule_initialized q scm).quad.surface_counts i).i2)
              + 8 * ((bin_atoms_setup_quad sqrt a one_layer_flag maxpoly quad_rule_initialized q scm).quad.surface_counts i).i0
                * ((bin_atoms_setup_quad sqrt a one_layer_flag maxpoly quad_rule_initialized q scm).quad.surface_counts i).i1
                * ((bin_atoms_setup_quad sqrt a one_layer_flag maxpoly quad_rule_initialized q scm).quad.surface_counts i).i2)) ∧
        (s'.quad2bin.length : Int)
          = (bin_atoms_setup_quad sqrt a one_layer_flag maxpoly quad_rule_initialized q scm).quadrature_point_count) := by
  have hord : bin_order a 0 bitmask = List.range (a.nlocal + a.nghost) := by
    simp [bin_order]
  obtain ⟨s', hs, _⟩ := bin_atoms_spec junk g a
    (bin_atoms_setup_quad sqrt a one_layer_flag maxpoly quad_rule_initialized q scm).quad 0 bitmask s
    hmb hcap (by rw [hord]; intro i hi; exact hrange i (List.mem_range.mp hi))
  obtain ⟨L, hL, hprop⟩ := bin_atoms_quad2bin junk g a _ bitmask s s' hs
  refine ⟨s', L, hs, hL, hprop, fun hcnt => ?_⟩
  have hlen : ∀ i, i < a.nlocal → a.element_type i ≠ 0 → ((L i).length : Int)
      = (((bin_atoms_setup_quad sqrt a one_layer_flag maxpoly quad_rule_initialized q scm).quad.quadrature_node_count : Int)
            * ((bin_atoms_setup_quad sqrt a one_layer_flag maxpoly quad_rule_initialized q scm).quad.quadrature_node_count : Int)
            * ((bin_atoms_setup_quad sqrt a one_layer_flag maxpoly quad_rule_initialized q scm).quad.quadrature_node_count : Int)
          + 2 * ((bin_atoms_setup_quad sqrt a one_layer_flag maxpoly quad_rule_initialized q scm).quad.surface_counts i).i0 * ((bin_atoms_setup_quad sqrt a one_layer_flag maxpoly quad_rule_initialized q scm).quad.quadrature_node_count : Int) * ((bin_atoms_setup_quad sqrt a one_layer_flag maxpoly quad_rule_initialized q scm).quad.quadrature_node_count : Int)
          + 2 * ((bin_atoms_setup_quad sqrt a one_layer_flag maxpoly quad_rule_initialized q scm).quad.surface_counts i).i1 * ((bin_atoms_setup_quad sqrt a one_layer_flag maxpoly quad_rule_initialized q scm).quad.quadrature_node_count : Int) * ((bin_atoms_setup_quad sqrt a one_layer_flag maxpoly quad_rule_initialized q scm).quad.quadrature_node_count : Int)
          + 2 * ((bin_atoms_setup_quad sqrt a one_layer_flag maxpoly quad_rule_initialized q scm).quad.surface_counts i).i2 * ((bin_atoms_setup_quad sqrt a one_layer_flag maxpoly quad_rule_initialized q scm).quad.quadrature_node_count : Int) * ((bin_atoms_setup_quad sqrt a one_layer_flag maxpoly quad_rule_initialized q scm).quad.quadrature_node_count : Int)
          + 4 * ((bin_atoms_setup_quad sqrt a one_layer_flag maxpoly quad_rule_initialized q scm).quad.surface_counts i).i0 * ((bin_atoms_setup_quad sqrt a one_layer_flag maxpoly quad_rule_initialized q scm).quad.surface_counts i).i1 * ((bin_atoms_setup_quad sqrt a one_layer_flag maxpoly quad_rule_initialized q scm).quad.quadrature_node_count : Int)
          + 4 * ((bin_atoms_setup_quad sqrt a one_layer_flag maxpoly quad_rule_initialized q scm).quad.surface_counts i).i2 * ((bin_atoms_setup_quad sqrt a one_layer_flag maxpoly quad_rule_initialized q scm).quad.surface_counts i).i1 * ((bin_atoms_setup_quad sqrt a one_layer_flag maxpoly quad_rule_initialized q scm).quad.quadrature_node_count : Int)
          + 4 * ((bin_atoms_setup_quad sqrt a one_layer_flag maxpoly quad_rule_initialized q scm).quad.surface_counts i).i0 * ((bin_atoms_setup_quad sqrt a one_layer_flag maxpoly quad_rule_initialized q scm).quad.surface_counts i).i2 * ((bin_atoms_setup_quad sqrt a one_layer_flag maxpoly quad_rule_initialized q scm).quad.quadrature_node_count : Int)
          + 8 * ((bin_atoms_setup_quad sqrt a one_layer_flag maxpoly quad_rule_initialized q scm).quad.surface_counts i).i0 * ((bin_atoms_setup_quad sqrt a one_layer_flag maxpoly quad_rule_initialized q scm).quad.surface_counts i).i1 * ((bin_atoms_setup_quad sqrt a one_layer_flag maxpoly quad_rule_initialized q scm).quad.surface_counts i).i2)
        * (a.poly_count i : Int) := by
    intro i hi ht
    rw [(hprop i hi).2 ht]
    exact quad_counter_int a _ i _ (hcnt i hi ht).1 (hcnt i hi ht).2.1 (hcnt i hi ht).2.2
  refine ⟨fun i hi ht => ?_, ?_⟩
  · rw [hlen i hi ht]
    ring
  · rw [hL]
    exact quad2bin_length_loop a _ _ L a.nlocal (fun i hi =>
      ⟨fun ht => by rw [(hprop i hi).1 ht]; rfl, fun ht => hlen i hi ht⟩)

/-- C29: a local point entity `i` is handled as a one-point entity.  The cell
`element2bins(i)` returns is `quad2bins(x[i])`; the loop body of `bin_atoms`
puts `x[i]` into row 0 of the scratch buffer, appends the single entry
`quad2bins(x[i])` to `quad2bin` and inserts `i` into that same cell.  After
`bin_atoms` with no include-group the entry of `i` in `quad2bin` (the one that
follows the entries of the entities `0..i-1`) is `quad2bins(x[i])`, and `i` is
a member, once, of exactly that cell. -/
theorem bin_atoms_point_quad_cell (junk : Nat → Nat) (g : Grid) (a : Atom) (q : Quad)
    (bitmask : Nat) (s : BinState)
    (hmb : g.mbins ≤ s.store.maxbin) (hcap : s.store.CapInv)
    (hrange : ∀ i, i < a.nlocal + a.nghost →
      0 ≤ home_cell g a i ∧ home_cell g a i < (g.mbins : Int))
    (i : Nat) (hi : i < a.nlocal) (hty : a.element_type i = 0) :
    (∀ lim, (element2bins g a i lim).1 = quad2bins g (a.x i)) ∧
    (∀ (group : Bool) (t t' : BinState), bin_entity junk g a q group i t = some t' →
      t'.quad2bin = t.quad2bin ++ [quad2bins g (a.x i)] ∧
      t'.current_element_quad_points 0 = a.x i ∧
      insert_member junk t.store (quad2bins g (a.x i)) i = some t'.store) ∧
    ∃ (s' : BinState) (L : Nat → List Int),
      bin_atoms junk g a q 0 bitmask s = some s' ∧
      s'.quad2bin = (List.range a.nlocal).flatMap L ∧
      L i = [quad2bins g (a.x i)] ∧
      s'.quad2bin[((List.range i).flatMap L).length]? = some (quad2bins g (a.x i)) ∧
      ∀ b, b < g.mbins →
        (s'.store.members b).count i = if (b : Int) = quad2bins g (a.x i) then 1 else 0 := by
  have hhome : home_cell g a i = quad2bins g (a.x i) := by simp [home_cell, hty]
  refine ⟨fun lim => element2bins_fst g a i lim, ?_, ?_⟩
  · intro group t t' ht
    obtain ⟨l, hl, _, p2, _⟩ := bin_entity_quad2bin junk g a q group i t t' ht
    have hst := bin_entity_store junk g a q group i t
    rw [ht, hhome] at hst
    refine ⟨by rw [hl, (p2 hi hty).1], (p2 hi hty).2, hst.symm⟩
  · have hord : bin_order a 0 bitmask = List.range (a.nlocal + a.nghost) := by
      simp [bin_order]
    obtain ⟨s', hs, _, _, _, hmem, _⟩ := bin_atoms_spec junk g a q 0 bitmask s hmb hcap
      (by rw [hord]; intro i hi; exact hrange i (List.mem_range.mp hi))
    obtain ⟨L, hL, hprop⟩ := bin_atoms_quad2bin junk g a q bitmask s s' hs
    have hLi := (hprop i hi).1 hty
    refine ⟨s', L, hs, hL, hLi, ?_, ?_⟩
    · have hsplit : List.range a.nlocal
          = List.range i ++ (i :: (List.range' (i + 1) (a.nlocal - (i + 1)))) := by
        have e1 : a.nlocal = i + (a.nlocal - i) := by omega
        conv_lhs => rw [e1, List.range_add]
        congr 1
        have e2 : a.nlocal - i = (a.nlocal - (i + 1)) + 1 := by omega
        rw [e2, List.range_succ_eq_map, List.map_cons, List.map_map]
        simp [List.range'_eq_map_range, Function.comp_def, Nat.add_comm, Nat.add_left_comm]
      rw [hL, hsplit, List.flatMap_append, List.flatMap_cons, hLi]
      rw [List.getElem?_append_right (le_refl _)]
      simp
    · intro b hb
      rw [hmem b hb, hord]
      have hnd : ((List.range (a.nlocal + a.nghost)).filter
          (fun i => home_cell g a i = (b : Int))).Nodup := (List.nodup_range _).filter _
      by_cases hc : (b : Int) = quad2bins g (a.x i)
      · rw [if_pos hc]
        apply List.count_eq_one_of_mem hnd
        rw [List.mem_filter]
        exact ⟨List.mem_range.mpr (by omega), by simp [hhome, hc]⟩
      · rw [if_neg hc]
        apply List.count_eq_zero_of_not_mem
        rw [List.mem_filter]
        rintro ⟨_, h⟩
        simp only [decide_eq_true_eq] at h
        exact hc (by rw [← h, hhome])

/-! ## Reading an element line -/

/-- C30: `data_atom` rejects every line whose declared phase count `values[2]`
exceeds `maxpoly` with the error "poly count declared in data file was greater
than maxpoly in input file"; when the error is raised only `tag` and `type` of
the slot have been written, and no node type, node position, gradient or
velocity, nor the element type, phase count or scale. -/
theorem data_atom_rejects_poly_count (maxpoly nodes_per_element ntypes : Int)
    (nodes_count_list : Nat → Int) (line : DataLine) (slot : ElementSlot)
    (h : line.ints 2 > maxpoly) :
    data_atom maxpoly nodes_per_element ntypes nodes_count_list line slot
      = Except.error (DataFailure.poly_count_too_large,
          { slot with tag := line.ints 0, type := 1 }) ∧
    (∀ s', data_atom maxpoly nodes_per_element ntypes nodes_count_list line slot
        ≠ Except.ok s') ∧
    (∀ f s', data_atom maxpoly nodes_per_element ntypes nodes_count_list line slot
        = Except.error (f, s') →
      f = DataFailure.poly_count_too_large ∧
      s'.node_types = slot.node_types ∧ s'.nodal_positions = slot.nodal_positions ∧
      s'.initial_nodal_positions = slot.initial_nodal_positions ∧
      s'.nodal_gradients = slot.nodal_gradients ∧
      s'.nodal_velocities = slot.nodal_velocities ∧
      s'.element_type = slot.element_type ∧ s'.poly_count = slot.poly_count ∧
      s'.element_scale = slot.element_scale) := by
  have e : data_atom maxpoly nodes_per_element ntypes nodes_count_list line slot
      = Except.error (DataFailure.poly_count_too_large,
          { slot with tag := line.ints 0, type := 1 }) := by
    unfold data_atom
    simp only [if_pos h]
  refine ⟨e, ?_, ?_⟩
  · intro s' hs
    rw [e] at hs
    cases hs
  · intro f s' hs
    rw [e] at hs
    injection hs with hs
    injection hs with h1 h2
    subst h1 h2
    exact ⟨rfl, rfl, rfl, rfl, rfl, rfl, rfl, rfl, rfl⟩

theorem data_atom_rejects_poly_count_witness :
    ex_line.ints 2 > 2 ∧
    (data_atom 2 8 1 (fun t => if t = 0 then 1 else 8) ex_line ex_slot
      = Except.error (DataFailure.poly_count_too_large,
          { ex_slot with tag := ex_line.ints 0, type := 1 }) ∧
    (∀ s', data_atom 2 8 1 (fun t => if t = 0 then 1 else 8) ex_line ex_slot
        ≠ Except.ok s') ∧
    (∀ f s', data_atom 2 8 1 (fun t => if t = 0 then 1 else 8) ex_line ex_slot
        = Except.error (f, s') →
      f = DataFailure.poly_count_too_large ∧
      s'.node_types = ex_slot.node_types ∧ s'.nodal_positions = ex_slot.nodal_positions ∧
      s'.initial_nodal_positions = ex_slot.initial_nodal_positions ∧
      s'.nodal_gradients = ex_slot.nodal_gradients ∧
      s'.nodal_velocities = ex_slot.nodal_velocities ∧
      s'.element_type = ex_slot.element_type ∧ s'.poly_count = ex_slot.poly_count ∧
      s'.element_scale = ex_slot.element_scale)) :=
  ⟨by decide, data_atom_rejects_poly_count 2 8 1 (fun t => if t = 0 then 1 else 8) ex_line
    ex_slot (by decide)⟩

/-! ## The samples of one phase -/

/-- A loop whose body appends `f i` to the samples appends their concatenation. -/
theorem forLoop_samples (n : Nat) (body : Nat → QuadBuf → QuadBuf) (f : Nat → List Vec3)
    (h : ∀ i qb, (body i qb).samples = qb.samples ++ f i) (qb : QuadBuf) :
    (forLoop n body qb).samples = qb.samples ++ (List.range n).flatMap f := by
  induction n with
  | zero => simp [forLoop]
  | succ n ih =>
    rw [forLoop_succ, h, ih, List.range_succ, List.flatMap_append, List.append_assoc]
    simp

/-- A triple loop of writes appends the grid of its coordinates. -/
theorem forLoop3_samples (pos : Nat → Nat → Vec3) (npe poly : Nat) (n1 n2 n3 : Nat)
    (P : Nat → Nat → Nat → Vec3) (qb : QuadBuf) :
    (forLoop n1 (fun i qb => forLoop n2 (fun j qb => forLoop n3 (fun k qb =>
      put_quad_point pos npe poly (P i j k).c0 (P i j k).c1 (P i j k).c2 qb) qb) qb) qb).samples
      = qb.samples ++ grid3 n1 n2 n3 P := by
  unfold grid3
  rw [forLoop_samples n1 _ (fun i => (List.range n2).flatMap (fun j =>
    (List.range n3).flatMap (fun k => [P i j k])))]
  intro i qb
  rw [forLoop_samples n2 _ (fun j => (List.range n3).flatMap (fun k => [P i j k]))]
  intro j qb
  rw [forLoop_samples n3 _ (fun k => [P i j k])]
  intro k qb
  rfl

/-- The samples one phase appends. -/
theorem quad_points_of_phase_samples (pos : Nat → Nat → Vec3) (npe : Nat) (u is : Vec3)
    (c : Int3) (n : Nat) (absc : Nat → ℚ) (poly : Nat) (qb : QuadBuf) :
    (quad_points_of_phase pos npe u is c n absc poly qb).samples
      = qb.samples ++ phase_samples u is c n absc := by
  unfold quad_points_of_phase phase_samples
  simp only []
  rw [forLoop_samples 8 _ (fun sc => grid3 c.i0.toNat c.i1.toNat c.i2.toNat
    (fun i j k => corner_sample u sc i j k))
    (fun sc qb => forLoop3_samples pos npe poly _ _ _ (fun i j k => corner_sample u sc i j k) qb)]
  rw [forLoop_samples 12 _ (fun sc => grid3 (edge_counts c sc).1.toNat (edge_counts c sc).2.toNat n
    (fun i j k => edge_sample u is absc sc i j k))
    (fun sc qb => forLoop3_samples pos npe poly _ _ _
      (fun i j k => edge_sample u is absc sc i j k) qb)]
  rw [forLoop_samples 2 _ (fun sc => grid3 c.i2.toNat n n (fun i j k =>
      ⟨shift_half (absc j) u.c0 (snap u.c0 (is.c0 * absc j)),
       shift_half (absc k) u.c1 (snap u.c1 (is.c1 * absc k)),
       sign sc - (i : ℚ) * u.c2 * sign sc - (1 / 2) * u.c2 * sign sc⟩))
    (fun sc qb => forLoop3_samples pos npe poly _ _ _ _ qb)]
  rw [forLoop_samples 2 _ (fun sc => grid3 c.i1.toNat n n (fun i j k =>
      ⟨shift_half (absc j) u.c0 (snap u.c0 (is.c0 * absc j)),
       sign sc - (i : ℚ) * u.c1 * sign sc - (1 / 2) * u.c1 * sign sc,
       shift_half (absc k) u.c2 (snap u.c2 (is.c2 * absc k))⟩))
    (fun sc qb => forLoop3_samples pos npe poly _ _ _ _ qb)]
  rw [forLoop_samples 2 _ (fun sc => grid3 c.i0.toNat n n (fun i j k =>
      ⟨sign sc - (i : ℚ) * u.c0 * sign sc - (1 / 2) * u.c0 * sign sc,
       shift_half (absc j) u.c1 (snap u.c1 (is.c1 * absc j)),
       shift_half (absc k) u.c2 (snap u.c2 (is.c2 * absc k))⟩))
    (fun sc qb => forLoop3_samples pos npe poly _ _ _ _ qb)]
  rw [forLoop3_samples pos npe poly n n n (fun i j k =>
      ⟨snap u.c0 (is.c0 * absc i), snap u.c1 (is.c1 * absc j), snap u.c2 (is.c2 * absc k)⟩) qb]
  simp only [List.append_assoc]

theorem mem_grid3 (n1 n2 n3 : Nat) (P : Nat → Nat → Nat → Vec3) (x : Vec3) :
    x ∈ grid3 n1 n2 n3 P ↔ ∃ i, i < n1 ∧ ∃ j, j < n2 ∧ ∃ k, k < n3 ∧ x = P i j k := by
  simp only [grid3, List.mem_flatMap, List.mem_range, List.mem_singleton]

theorem nodup_flatMap_range {α : Type} (n : Nat) (f : Nat → List α)
    (h1 : ∀ i, i < n → (f i).Nodup)
    (h2 : ∀ i, i < n → ∀ j, j < n → i ≠ j → ∀ x, x ∈ f i → x ∈ f j → False) :
    ((List.range n).flatMap f).Nodup := by
  rw [List.nodup_flatMap]
  refine ⟨fun i hi => h1 i (List.mem_range.mp hi), ?_⟩
  refine List.Pairwise.imp_of_mem ?_ (List.nodup_range n)
  intro i j hi hj hij
  intro x hx hy
  exact h2 i (List.mem_range.mp hi) j (List.mem_range.mp hj) hij x hx hy

/-- A triple loop whose coordinates determine the indices has no repetition. -/
theorem nodup_grid3 (n1 n2 n3 : Nat) (P : Nat → Nat → Nat → Vec3)
    (hinj : ∀ i, i < n1 → ∀ j, j < n2 → ∀ k, k < n3 → ∀ i', i' < n1 → ∀ j', j' < n2 →
      ∀ k', k' < n3 → P i j k = P i' j' k' → i = i' ∧ j = j' ∧ k = k') :
    (grid3 n1 n2 n3 P).Nodup := by
  unfold grid3
  refine nodup_flatMap_range n1 _ (fun i hi => ?_) ?_
  · refine nodup_flatMap_range n2 _ (fun j hj => ?_) ?_
    · refine nodup_flatMap_range n3 _ (fun k _ => List.nodup_singleton _) ?_
      intro k hk k' hk' hkk x hx hx'
      rw [List.mem_singleton] at hx hx'
      exact hkk (hinj i hi j hj k hk i hi j hj k' hk' (hx.symm.trans hx')).2.2
    · intro j hj j' hj' hjj x hx hx'
      simp only [List.mem_flatMap, List.mem_range, List.mem_singleton] at hx hx'
      obtain ⟨k, hk, rfl⟩ := hx
      obtain ⟨k', hk', e⟩ := hx'
      exact hjj (hinj i hi j hj k hk i hi j' hj' k' hk' e).2.1
  · intro i hi i' hi' hii x hx hx'
    simp only [List.mem_flatMap, List.mem_range, List.mem_singleton] at hx hx'
    obtain ⟨j, hj, k, hk, rfl⟩ := hx
    obtain ⟨j', hj', k', hk', e⟩ := hx'
    exact hii (hinj i hi j hj k hk i' hi' j' hj' k' hk' e).1

/-- Lists whose elements have keys in disjoint sets can be appended without
repetition. -/
theorem nodup_append_keys {α κ : Type} (Z : α → κ) (l1 l2 : List α) (K1 K2 : List κ)
    (h1 : l1.Nodup) (h2 : l2.Nodup) (z1 : ∀ x, x ∈ l1 → Z x ∈ K1) (z2 : ∀ x, x ∈ l2 → Z x ∈ K2)
    (hd : ∀ a, a ∈ K1 → ∀ b, b ∈ K2 → a ≠ b) :
    (l1 ++ l2).Nodup ∧ ∀ x, x ∈ l1 ++ l2 → Z x ∈ K1 ++ K2 := by
  constructor
  · rw [List.nodup_append]
    refine ⟨h1, h2, ?_⟩
    intro x hx1 hx2
    exact hd _ (z1 x hx1) _ (z2 x hx2) rfl
  · intro x hx
    rcases List.mem_append.mp hx with h | h
    · exact List.mem_append.mpr (Or.inl (z1 x h))
    · exact List.mem_append.mpr (Or.inr (z2 x h))

/-- Groups with pairwise different keys can be concatenated without repetition. -/
theorem nodup_flatMap_keys {α κ : Type} (Z : α → κ) (n : Nat) (f : Nat → List α)
    (tag : Nat → κ) (h1 : ∀ i, i < n → (f i).Nodup)
    (hz : ∀ i, i < n → ∀ x, x ∈ f i → Z x = tag i)
    (htag : ∀ i, i < n → ∀ j, j < n → tag i = tag j → i = j) :
    ((List.range n).flatMap f).Nodup ∧
      ∀ x, x ∈ (List.range n).flatMap f → Z x ∈ (List.range n).map tag := by
  constructor
  · refine nodup_flatMap_range n f h1 ?_
    intro i hi j hj hij x hx hx'
    exact hij (htag i hi j hj ((hz i hi x hx).symm.trans (hz j hj x hx')))
  · intro x hx
    obtain ⟨i, hi, hxi⟩ := List.mem_flatMap.mp hx
    rw [hz i (List.mem_range.mp hi) x hxi]
    exact List.mem_map.mpr ⟨i, hi, rfl⟩

/-! Truncation toward zero and snapping -/

theorem static_cast_int_le {d : ℚ} (h : 0 ≤ d) : ((static_cast_int d : Int) : ℚ) ≤ d := by
  rw [static_cast_int_of_nonneg h]
  exact Int.floor_le d

theorem le_static_cast_int {d : ℚ} (h : d ≤ 0) : d ≤ ((static_cast_int d : Int) : ℚ) := by
  rcases h.lt_or_eq with h | h
  · rw [static_cast_int_of_neg h]
    exact Int.le_ceil d
  · subst h
    have : static_cast_int (0 : ℚ) = 0 := static_cast_int_intCast 0
    rw [this]
    norm_num

/-- Snapping moves a value toward zero, onto the lattice. -/
theorem snap_bounds (u v : ℚ) (hu : 0 < u) :
    (0 ≤ v → 0 ≤ snap u v ∧ snap u v ≤ v) ∧ (v ≤ 0 → v ≤ snap u v ∧ snap u v ≤ 0) := by
  unfold snap
  constructor
  · intro hv
    have hd : 0 ≤ v / u := by positivity
    have h1 := static_cast_int_le hd
    have h0 : (0 : ℚ) ≤ ((static_cast_int (v / u) : Int) : ℚ) := by
      exact_mod_cast static_cast_int_nonneg hd
    refine ⟨by positivity, ?_⟩
    calc u * ((static_cast_int (v / u) : Int) : ℚ) ≤ u * (v / u) :=
          mul_le_mul_of_nonneg_left h1 hu.le
      _ = v := by field_simp
  · intro hv
    have hd : v / u ≤ 0 := div_nonpos_of_nonpos_of_nonneg hv hu.le
    have h1 := le_static_cast_int hd
    have h0 : ((static_cast_int (v / u) : Int) : ℚ) ≤ 0 := by
      exact_mod_cast static_cast_int_nonpos hd
    refine ⟨?_, mul_nonpos_of_nonneg_of_nonpos hu.le h0⟩
    calc v = u * (v / u) := by field_simp
      _ ≤ u * ((static_cast_int (v / u) : Int) : ℚ) := mul_le_mul_of_nonneg_left h1 hu.le

/-! Zones of the coordinates of one axis: increment `u > 0`, interior scale
`is > 0`, layer count `c` with `c * u = 1 - is`. -/

theorem face_coord (sc i : Nat) (u : ℚ) :
    sign sc - (i : ℚ) * u * sign sc - (1 / 2) * u * sign sc
      = if sc = 0 then from_lo i u else from_hi i u := by
  unfold sign from_lo from_hi
  split_ifs <;> ring

theorem layer_index_le (c : Int) (i : Nat) (hi : i < c.toNat) : ((i : ℚ) + 1) ≤ (c : ℚ) := by
  have h : (i : Int) + 1 ≤ c := by omega
  exact_mod_cast h

theorem zone_from_lo (u is : ℚ) (c : Int) (i : Nat) (hu : 0 < u) (hc : (c : ℚ) * u = 1 - is)
    (hi : i < c.toNat) : zone (is + u / 2) (from_lo i u) = 0 := by
  have h1 := layer_index_le c i hi
  have h2 : ((i : ℚ) + 1) * u ≤ (c : ℚ) * u := mul_le_mul_of_nonneg_right h1 hu.le
  unfold zone from_lo
  rw [if_pos (by linarith)]

theorem zone_from_hi (u is : ℚ) (c : Int) (i : Nat) (hu : 0 < u) (his : 0 < is)
    (hc : (c : ℚ) * u = 1 - is) (hi : i < c.toNat) : zone (is + u / 2) (from_hi i u) = 2 := by
  have h1 := layer_index_le c i hi
  have h2 : ((i : ℚ) + 1) * u ≤ (c : ℚ) * u := mul_le_mul_of_nonneg_right h1 hu.le
  unfold zone from_hi
  rw [if_neg (by intro h; linarith), if_pos (by linarith)]

theorem zone_snap (u is a : ℚ) (hu : 0 < u) (his : 0 < is) (ha : |a| < 1) :
    zone (is + u / 2) (snap u (is * a)) = 1 := by
  obtain ⟨ha1, ha2⟩ := abs_lt.mp ha
  have hb := snap_bounds u (is * a) hu
  unfold zone
  by_cases h0 : 0 ≤ a
  · obtain ⟨b1, b2⟩ := hb.1 (by positivity)
    have : is * a < is := by nlinarith
    rw [if_neg (by intro h; linarith), if_neg (by intro h; linarith)]
  · have ha0 : a ≤ 0 := le_of_lt (not_le.mp h0)
    obtain ⟨b1, b2⟩ := hb.2 (mul_nonpos_of_nonneg_of_nonpos his.le ha0)
    have : -is < is * a := by nlinarith
    rw [if_neg (by intro h; linarith), if_neg (by intro h; linarith)]

theorem zone_shift (u is a : ℚ) (hu : 0 < u) (his : 0 < is) (ha : |a| < 1) :
    zone (is + u / 2) (shift_half a u (snap u (is * a))) = 1 := by
  obtain ⟨ha1, ha2⟩ := abs_lt.mp ha
  have hb := snap_bounds u (is * a) hu
  unfold zone shift_half
  by_cases h0 : a < 0
  · obtain ⟨b1, b2⟩ := hb.2 (mul_nonpos_of_nonneg_of_nonpos his.le h0.le)
    have : -is < is * a := by nlinarith
    rw [if_pos h0, if_neg (by intro h; linarith), if_neg (by intro h; linarith)]
  · have ha0 : 0 ≤ a := not_lt.mp h0
    obtain ⟨b1, b2⟩ := hb.1 (by positivity)
    have : is * a < is := by nlinarith
    rw [if_neg h0, if_neg (by intro h; linarith), if_neg (by intro h; linarith)]

theorem from_lo_inj (u : ℚ) (hu : 0 < u) (i i' : Nat) (h : from_lo i u = from_lo i' u) :
    i = i' := by
  unfold from_lo at h
  have h1 : ((i : ℚ) - i') * u = 0 := by linarith
  rcases mul_eq_zero.mp h1 with h2 | h2
  · have : (i : ℚ) = i' := by linarith
    exact_mod_cast this
  · exact absurd h2 (ne_of_gt hu)

theorem from_hi_inj (u : ℚ) (hu : 0 < u) (i i' : Nat) (h : from_hi i u = from_hi i' u) :
    i = i' := by
  unfold from_hi at h
  have h1 : ((i : ℚ) - i') * u = 0 := by linarith
  rcases mul_eq_zero.mp h1 with h2 | h2
  · have : (i : ℚ) = i' := by linarith
    exact_mod_cast this
  · exact absurd h2 (ne_of_gt hu)

/-- The shifted coordinates of two abscissae differ as soon as the snapped
ones do. -/
theorem shift_inj (u is : ℚ) (absc : Nat → ℚ) (n : Nat) (hu : 0 < u) (his : 0 < is)
    (hinj : ∀ j, j < n → ∀ j', j' < n →
      snap u (is * absc j) = snap u (is * absc j') → j = j')
    (j j' : Nat) (hj : j < n) (hj' : j' < n)
    (h : shift_half (absc j) u (snap u (is * absc j))
      = shift_half (absc j') u (snap u (is * absc j'))) : j = j' := by
  have hb := snap_bounds u (is * absc j) hu
  have hb' := snap_bounds u (is * absc j') hu
  unfold shift_half at h
  by_cases h0 : absc j < 0 <;> by_cases h0' : absc j' < 0
  · rw [if_pos h0, if_pos h0'] at h
    exact hinj j hj j' hj' (by linarith)
  · rw [if_pos h0, if_neg h0'] at h
    have b := (hb.2 (mul_nonpos_of_nonneg_of_nonpos his.le h0.le)).2
    have b' := (hb'.1 (mul_nonneg his.le (not_lt.mp h0'))).1
    linarith
  · rw [if_neg h0, if_pos h0'] at h
    have b := (hb.1 (mul_nonneg his.le (not_lt.mp h0))).1
    have b' := (hb'.2 (mul_nonpos_of_nonneg_of_nonpos his.le h0'.le)).2
    linarith
  · rw [if_neg h0, if_neg h0'] at h
    exact hinj j hj j' hj' (by linarith)

/-- The samples of one phase are pairwise distinct when, on every axis, the
interior scale is positive, the layer count `c` satisfies `c * u = 1 - is`, the
abscissae lie strictly between -1 and 1 and snap to pairwise different lattice
values. -/
theorem phase_samples_nodup (u is : Vec3) (c : Int3) (n : Nat) (absc : Nat → ℚ)
    (hu0 : 0 < u.c0) (hu1 : 0 < u.c1) (hu2 : 0 < u.c2)
    (his0 : 0 < is.c0) (his1 : 0 < is.c1) (his2 : 0 < is.c2)
    (hc0 : (c.i0 : ℚ) * u.c0 = 1 - is.c0) (hc1 : (c.i1 : ℚ) * u.c1 = 1 - is.c1)
    (hc2 : (c.i2 : ℚ) * u.c2 = 1 - is.c2)
    (ha : ∀ j, j < n → |absc j| < 1)
    (hinj0 : ∀ j, j < n → ∀ j', j' < n →
      snap u.c0 (is.c0 * absc j) = snap u.c0 (is.c0 * absc j') → j = j')
    (hinj1 : ∀ j, j < n → ∀ j', j' < n →
      snap u.c1 (is.c1 * absc j) = snap u.c1 (is.c1 * absc j') → j = j')
    (hinj2 : ∀ j, j < n → ∀ j', j' < n →
      snap u.c2 (is.c2 * absc j) = snap u.c2 (is.c2 * absc j') → j = j') :
    (phase_samples u is c n absc).Nodup := by
  -- zones of the coordinates
  have zl0 : ∀ i, i < c.i0.toNat → zone (is.c0 + u.c0 / 2) (from_lo i u.c0) = 0 :=
    fun i hi => zone_from_lo _ _ _ i hu0 hc0 hi
  have zl1 : ∀ i, i < c.i1.toNat → zone (is.c1 + u.c1 / 2) (from_lo i u.c1) = 0 :=
    fun i hi => zone_from_lo _ _ _ i hu1 hc1 hi
  have zl2 : ∀ i, i < c.i2.toNat → zone (is.c2 + u.c2 / 2) (from_lo i u.c2) = 0 :=
    fun i hi => zone_from_lo _ _ _ i hu2 hc2 hi
  have zh0 : ∀ i, i < c.i0.toNat → zone (is.c0 + u.c0 / 2) (from_hi i u.c0) = 2 :=
    fun i hi => zone_from_hi _ _ _ i hu0 his0 hc0 hi
  have zh1 : ∀ i, i < c.i1.toNat → zone (is.c1 + u.c1 / 2) (from_hi i u.c1) = 2 :=
    fun i hi => zone_from_hi _ _ _ i hu1 his1 hc1 hi
  have zh2 : ∀ i, i < c.i2.toNat → zone (is.c2 + u.c2 / 2) (from_hi i u.c2) = 2 :=
    fun i hi => zone_from_hi _ _ _ i hu2 his2 hc2 hi
  have zs0 : ∀ j, j < n → zone (is.c0 + u.c0 / 2) (snap u.c0 (is.c0 * absc j)) = 1 :=
    fun j hj => zone_snap _ _ _ hu0 his0 (ha j hj)
  have zs1 : ∀ j, j < n → zone (is.c1 + u.c1 / 2) (snap u.c1 (is.c1 * absc j)) = 1 :=
    fun j hj => zone_snap _ _ _ hu1 his1 (ha j hj)
  have zs2 : ∀ j, j < n → zone (is.c2 + u.c2 / 2) (snap u.c2 (is.c2 * absc j)) = 1 :=
    fun j hj => zone_snap _ _ _ hu2 his2 (ha j hj)
  have zm0 : ∀ j, j < n →
      zone (is.c0 + u.c0 / 2) (shift_half (absc j) u.c0 (snap u.c0 (is.c0 * absc j))) = 1 :=
    fun j hj => zone_shift _ _ _ hu0 his0 (ha j hj)
  have zm1 : ∀ j, j < n →
      zone (is.c1 + u.c1 / 2) (shift_half (absc j) u.c1 (snap u.c1 (is.c1 * absc j))) = 1 :=
    fun j hj => zone_shift _ _ _ hu1 his1 (ha j hj)
  have zm2 : ∀ j, j < n →
      zone (is.c2 + u.c2 / 2) (shift_half (absc j) u.c2 (snap u.c2 (is.c2 * absc j))) = 1 :=
    fun j hj => zone_shift _ _ _ hu2 his2 (ha j hj)
  -- injectivity of the coordinates
  have il0 := from_lo_inj u.c0 hu0
  have il1 := from_lo_inj u.c1 hu1
  have il2 := from_lo_inj u.c2 hu2
  have ih0 := from_hi_inj u.c0 hu0
  have ih1 := from_hi_inj u.c1 hu1
  have ih2 := from_hi_inj u.c2 hu2
  have im0 := shift_inj u.c0 is.c0 absc n hu0 his0 hinj0
  have im1 := shift_inj u.c1 is.c1 absc n hu1 his1 hinj1
  have im2 := shift_inj u.c2 is.c2 absc n hu2 his2 hinj2
  -- the interior
  have hI := nodup_grid3 n n n (fun i j k =>
      (⟨snap u.c0 (is.c0 * absc i), snap u.c1 (is.c1 * absc j), snap u.c2 (is.c2 * absc k)⟩ :
        Vec3)) (by
    intro i hi j hj k hk i' hi' j' hj' k' hk' e
    simp only [Vec3.mk.injEq] at e
    exact ⟨hinj0 i hi i' hi' e.1, hinj1 j hj j' hj' e.2.1, hinj2 k hk k' hk' e.2.2⟩)
  have kI : ∀ x, x ∈ grid3 n n n (fun i j k =>
      (⟨snap u.c0 (is.c0 * absc i), snap u.c1 (is.c1 * absc j), snap u.c2 (is.c2 * absc k)⟩ :
        Vec3)) → zones u is x ∈ [(1, 1, 1)] := by
    intro x hx
    obtain ⟨i, hi, j, hj, k, hk, rfl⟩ := (mem_grid3 _ _ _ _ x).mp hx
    simp only [zones, zs0 i hi, zs1 j hj, zs2 k hk, List.mem_singleton]
  -- the faces
  have hS := nodup_flatMap_keys (zones u is) 2 (fun sc => grid3 c.i0.toNat n n (fun i j k =>
      (⟨sign sc - (i : ℚ) * u.c0 * sign sc - (1 / 2) * u.c0 * sign sc,
       shift_half (absc j) u.c1 (snap u.c1 (is.c1 * absc j)),
       shift_half (absc k) u.c2 (snap u.c2 (is.c2 * absc k))⟩ : Vec3)))
    (fun sc => (if sc = 0 then 0 else 2, 1, 1))
    (by
      intro sc _
      refine nodup_grid3 _ _ _ _ ?_
      intro i hi j hj k hk i' hi' j' hj' k' hk' e
      simp only [Vec3.mk.injEq, face_coord] at e
      refine ⟨?_, im1 j j' hj hj' e.2.1, im2 k k' hk hk' e.2.2⟩
      by_cases h : sc = 0
      · simp only [h, if_true] at e; exact il0 i i' e.1
      · simp only [h, if_false] at e; exact ih0 i i' e.1)
    (by
      intro sc _ x hx
      obtain ⟨i, hi, j, hj, k, hk, rfl⟩ := (mem_grid3 _ _ _ _ x).mp hx
      simp only [zones, face_coord, zm1 j hj, zm2 k hk]
      by_cases h : sc = 0
      · simp only [h, if_true, zl0 i hi]
      · simp only [h, if_false, zh0 i hi])
    (by decide)
  have hT := nodup_flatMap_keys (zones u is) 2 (fun sc => grid3 c.i1.toNat n n (fun i j k =>
      (⟨shift_half (absc j) u.c0 (snap u.c0 (is.c0 * absc j)),
       sign sc - (i : ℚ) * u.c1 * sign sc - (1 / 2) * u.c1 * sign sc,
       shift_half (absc k) u.c2 (snap u.c2 (is.c2 * absc k))⟩ : Vec3)))
    (fun sc => (1, if sc = 0 then 0 else 2, 1))
    (by
      intro sc _
      refine nodup_grid3 _ _ _ _ ?_
      intro i hi j hj k hk i' hi' j' hj' k' hk' e
      simp only [Vec3.mk.injEq, face_coord] at e
      refine ⟨?_, im0 j j' hj hj' e.1, im2 k k' hk hk' e.2.2⟩
      by_cases h : sc = 0
      · simp only [h, if_true] at e; exact il1 i i' e.2.1
      · simp only [h, if_false] at e; exact ih1 i i' e.2.1)
    (by
      intro sc _ x hx
      obtain ⟨i, hi, j, hj, k, hk, rfl⟩ := (mem_grid3 _ _ _ _ x).mp hx
      simp only [zones, face_coord, zm0 j hj, zm2 k hk]
      by_cases h : sc = 0
      · simp only [h, if_true, zl1 i hi]
      · simp only [h, if_false, zh1 i hi])
    (by decide)
  have hW := nodup_flatMap_keys (zones u is) 2 (fun sc => grid3 c.i2.toNat n n (fun i j k =>
      (⟨shift_half (absc j) u.c0 (snap u.c0 (is.c0 * absc j)),
       shift_half (absc k) u.c1 (snap u.c1 (is.c1 * absc k)),
       sign sc - (i : ℚ) * u.c2 * sign sc - (1 / 2) * u.c2 * sign sc⟩ : Vec3)))
    (fun sc => (1, 1, if sc = 0 then 0 else 2))
    (by
      intro sc _
      refine nodup_grid3 _ _ _ _ ?_
      intro i hi j hj k hk i' hi' j' hj' k' hk' e
      simp only [Vec3.mk.injEq, face_coord] at e
      refine ⟨?_, im0 j j' hj hj' e.1, im1 k k' hk hk' e.2.1⟩
      by_cases h : sc = 0
      · simp only [h, if_true] at e; exact il2 i i' e.2.2
      · simp only [h, if_false] at e; exact ih2 i i' e.2.2)
    (by
      intro sc _ x hx
      obtain ⟨i, hi, j, hj, k, hk, rfl⟩ := (mem_grid3 _ _ _ _ x).mp hx
      simp only [zones, face_coord, zm0 j hj, zm1 k hk]
      by_cases h : sc = 0
      · simp only [h, if_true, zl2 i hi]
      · simp only [h, if_false, zh2 i hi])
    (by decide)
  -- the edges
  have hE := nodup_flatMap_keys (zones u is) 12 (fun sc =>
      grid3 (edge_counts c sc).1.toNat (edge_counts c sc).2.toNat n
        (fun i j k => edge_sample u is absc sc i j k))
    (fun sc => [(0, 0, 1), (2, 0, 1), (0, 2, 1), (2, 2, 1), (1, 0, 0), (1, 2, 0), (1, 0, 2),
      (1, 2, 2), (0, 1, 0), (2, 1, 0), (0, 1, 2), (2, 1, 2)].getD sc (0, 0, 0))
    (by
      intro sc hsc
      refine nodup_grid3 _ _ _ _ ?_
      intro i hi j hj k hk i' hi' j' hj' k' hk' e
      interval_cases sc <;> simp [edge_sample, edge_counts] at e hi hj hi' hj' <;>
        first
          | exact ⟨il0 i i' e.1, il1 j j' e.2.1, im2 k k' hk hk' e.2.2⟩
          | exact ⟨ih0 i i' e.1, il1 j j' e.2.1, im2 k k' hk hk' e.2.2⟩
          | exact ⟨il0 i i' e.1, ih1 j j' e.2.1, im2 k k' hk hk' e.2.2⟩
          | exact ⟨ih0 i i' e.1, ih1 j j' e.2.1, im2 k k' hk hk' e.2.2⟩
          | exact ⟨il1 i i' e.2.1, il2 j j' e.2.2, im0 k k' hk hk' e.1⟩
          | exact ⟨ih1 i i' e.2.1, il2 j j' e.2.2, im0 k k' hk hk' e.1⟩
          | exact ⟨il1 i i' e.2.1, ih2 j j' e.2.2, im0 k k' hk hk' e.1⟩
          | exact ⟨ih1 i i' e.2.1, ih2 j j' e.2.2, im0 k k' hk hk' e.1⟩
          | exact ⟨il0 i i' e.1, il2 j j' e.2.2, im1 k k' hk hk' e.2.1⟩
          | exact ⟨ih0 i i' e.1, il2 j j' e.2.2, im1 k k' hk hk' e.2.1⟩
          | exact ⟨il0 i i' e.1, ih2 j j' e.2.2, im1 k k' hk hk' e.2.1⟩
          | exact ⟨ih0 i i' e.1, ih2 j j' e.2.2, im1 k k' hk hk' e.2.1⟩)
    (by
      intro sc hsc x hx
      obtain ⟨i, hi, j, hj, k, hk, rfl⟩ := (mem_grid3 _ _ _ _ x).mp hx
      interval_cases sc <;> simp [edge_counts] at hi hj <;>
        simp [edge_sample, zones, zl0, zl1, zl2, zh0, zh1, zh2, zm0, zm1, zm2, hi, hj, hk])
    (by decide)
  -- the corners
  have hC := nodup_flatMap_keys (zones u is) 8 (fun sc =>
      grid3 c.i0.toNat c.i1.toNat c.i2.toNat (fun i j k => corner_sample u sc i j k))
    (fun sc => [(0, 0, 0), (2, 0, 0), (2, 2, 0), (0, 2, 0), (0, 0, 2), (2, 0, 2), (2, 2, 2),
      (0, 2, 2)].getD sc (0, 0, 0))
    (by
      intro sc hsc
      refine nodup_grid3 _ _ _ _ ?_
      intro i hi j hj k hk i' hi' j' hj' k' hk' e
      interval_cases sc <;> simp [corner_sample] at e <;>
        first
          | exact ⟨il0 i i' e.1, il1 j j' e.2.1, il2 k k' e.2.2⟩
          | exact ⟨ih0 i i' e.1, il1 j j' e.2.1, il2 k k' e.2.2⟩
          | exact ⟨ih0 i i' e.1, ih1 j j' e.2.1, il2 k k' e.2.2⟩
          | exact ⟨il0 i i' e.1, ih1 j j' e.2.1, il2 k k' e.2.2⟩
          | exact ⟨il0 i i' e.1, il1 j j' e.2.1, ih2 k k' e.2.2⟩
          | exact ⟨ih0 i i' e.1, il1 j j' e.2.1, ih2 k k' e.2.2⟩
          | exact ⟨ih0 i i' e.1, ih1 j j' e.2.1, ih2 k k' e.2.2⟩
          | exact ⟨il0 i i' e.1, ih1 j j' e.2.1, ih2 k k' e.2.2⟩)
    (by
      intro sc hsc x hx
      obtain ⟨i, hi, j, hj, k, hk, rfl⟩ := (mem_grid3 _ _ _ _ x).mp hx
      interval_cases sc <;>
        simp [corner_sample, zones, zl0, zl1, zl2, zh0, zh1, zh2, hi, hj, hk])
    (by decide)
  -- the six parts have keys in disjoint sets
  unfold phase_samples
  have a1 := nodup_append_keys (zones u is) _ _ _ _ hI hS.1 kI hS.2 (by decide)
  have a2 := nodup_append_keys (zones u is) _ _ _ _ a1.1 hT.1 a1.2 hT.2 (by decide)
  have a3 := nodup_append_keys (zones u is) _ _ _ _ a2.1 hW.1 a2.2 hW.2 (by decide)
  have a4 := nodup_append_keys (zones u is) _ _ _ _ a3.1 hE.1 a3.2 hE.2 (by decide)
  have a5 := nodup_append_keys (zones u is) _ _ _ _ a4.1 hC.1 a4.2 hC.2 (by decide)
  exact a5.1

/-- A skin of `m` increments that leaves a positive interior factor was not
clamped, and its layer count times the increment is the skin. -/
theorem skin_layers (u su : ℚ) (m : Int) (hu : u ≠ 0) (hsu : su = u * (m : ℚ))
    (h : 0 < 1 - (if su > 1 then 1 else su)) :
    ((static_cast_int ((if su > 1 then 1 else su) / u) : Int) : ℚ) * u
      = 1 - (1 - (if su > 1 then 1 else su)) := by
  by_cases hgt : su > 1
  · rw [if_pos hgt] at h
    norm_num at h
  · rw [if_neg hgt, hsu, count_of_increments u m hu]
    ring

/-- On an axis where `compute_surface_depths` leaves a positive interior factor,
the layers fill the skin exactly: `count * u = 1 - scale` with `u = 2 / scale`. -/
theorem surface_depth_layers (sqrt : ℚ → ℚ) (a : Atom) (one_layer_flag : Nat)
    (pos : Nat → Nat → Vec3) (scale : Int3) (poly : Nat)
    (h0 : 1 ≤ scale.i0) (h1 : 1 ≤ scale.i1) (h2 : 1 ≤ scale.i2) :
    (0 < (compute_surface_depths sqrt a one_layer_flag pos scale poly).scalex →
      (((compute_surface_depths sqrt a one_layer_flag pos scale poly).countx : Int) : ℚ)
          * (2 / (scale.i0 : ℚ))
        = 1 - (compute_surface_depths sqrt a one_layer_flag pos scale poly).scalex) ∧
    (0 < (compute_surface_depths sqrt a one_layer_flag pos scale poly).scaley →
      (((compute_surface_depths sqrt a one_layer_flag pos scale poly).county : Int) : ℚ)
          * (2 / (scale.i1 : ℚ))
        = 1 - (compute_surface_depths sqrt a one_layer_flag pos scale poly).scaley) ∧
    (0 < (compute_surface_depths sqrt a one_layer_flag pos scale poly).scalez →
      (((compute_surface_depths sqrt a one_layer_flag pos scale poly).countz : Int) : ℚ)
          * (2 / (scale.i2 : ℚ))
        = 1 - (compute_surface_depths sqrt a one_layer_flag pos scale poly).scalez) := by
  have hu0 := ne_of_gt (unit_cell_pos scale.i0 h0).1
  have hu1 := ne_of_gt (unit_cell_pos scale.i1 h1).1
  have hu2 := ne_of_gt (unit_cell_pos scale.i2 h2).1
  by_cases hf : one_layer_flag = 0
  · subst hf
    simp only [compute_surface_depths, surface_skin_normal]
    exact ⟨skin_layers _ _ _ hu0 (skin_unclamped_eq _ _ _),
      skin_layers _ _ _ hu1 (skin_unclamped_eq _ _ _),
      skin_layers _ _ _ hu2 (skin_unclamped_eq _ _ _)⟩
  · simp only [compute_surface_depths, surface_skin_one_layer _ _ _ _ _ _ hf,
      count_of_one_increment _ hu0, count_of_one_increment _ hu1, count_of_one_increment _ hu2]
    refine ⟨fun _ => ?_, fun _ => ?_, fun _ => ?_⟩ <;> push_cast <;> ring

/-- C25 (as the code has it): for an entity of scale at least 1 on each axis, in
normal or single-layer mode, take the interior factors and layer counts that
`compute_surface_depths` produces.  If the three interior factors are positive,
every quadrature abscissa lies strictly between -1 and 1, and on each axis the
scaled abscissae snap to pairwise different lattice values, then the parametric
coordinates that the phase body of `compute_quad_points` appends (interior,
faces, edges and corners together) are pairwise distinct. -/
theorem quad_points_of_phase_distinct (sqrt : ℚ → ℚ) (a : Atom) (one_layer_flag : Nat)
    (pos : Nat → Nat → Vec3) (scale : Int3) (poly : Nat)
    (nodes_per_element n : Nat) (absc : Nat → ℚ) (poly_counter : Nat) (qb : QuadBuf)
    (h0 : 1 ≤ scale.i0) (h1 : 1 ≤ scale.i1) (h2 : 1 ≤ scale.i2)
    (hs0 : 0 < (compute_surface_depths sqrt a one_layer_flag pos scale poly).scalex)
    (hs1 : 0 < (compute_surface_depths sqrt a one_layer_flag pos scale poly).scaley)
    (hs2 : 0 < (compute_surface_depths sqrt a one_layer_flag pos scale poly).scalez)
    (ha : ∀ j, j < n → |absc j| < 1)
    (hinj0 : ∀ j, j < n → ∀ j', j' < n →
      snap (2 / (scale.i0 : ℚ))
          ((compute_surface_depths sqrt a one_layer_flag pos scale poly).scalex * absc j)
        = snap (2 / (scale.i0 : ℚ))
          ((compute_surface_depths sqrt a one_layer_flag pos scale poly).scalex * absc j') →
      j = j')
    (hinj1 : ∀ j, j < n → ∀ j', j' < n →
      snap (2 / (scale.i1 : ℚ))
          ((compute_surface_depths sqrt a one_layer_flag pos scale poly).scaley * absc j)
        = snap (2 / (scale.i1 : ℚ))
          ((compute_surface_depths sqrt a one_layer_flag pos scale poly).scaley * absc j') →
      j = j')
    (hinj2 : ∀ j, j < n → ∀ j', j' < n →
      snap (2 / (scale.i2 : ℚ))
          ((compute_surface_depths sqrt a one_layer_flag pos scale poly).scalez * absc j)
        = snap (2 / (scale.i2 : ℚ))
          ((compute_surface_depths sqrt a one_layer_flag pos scale poly).scalez * absc j') →
      j = j') :
    ∃ l : List Vec3,
      (quad_points_of_phase pos nodes_per_element
          ⟨2 / (scale.i0 : ℚ), 2 / (scale.i1 : ℚ), 2 / (scale.i2 : ℚ)⟩
          ⟨(compute_surface_depths sqrt a one_layer_flag pos scale poly).scalex,
           (compute_surface_depths sqrt a one_layer_flag pos scale poly).scaley,
           (compute_surface_depths sqrt a one_layer_flag pos scale poly).scalez⟩
          ⟨(compute_surface_depths sqrt a one_layer_flag pos scale poly).countx,
           (compute_surface_depths sqrt a one_layer_flag pos scale poly).county,
           (compute_surface_depths sqrt a one_layer_flag pos scale poly).countz⟩
          n absc poly_counter qb).samples = qb.samples ++ l ∧
      l.Nodup ∧
      ∀ i j, i < j → j < l.length → l[i]? ≠ l[j]? := by
  obtain ⟨c0, c1, c2⟩ := surface_depth_layers sqrt a one_layer_flag pos scale poly h0 h1 h2
  have hnd := phase_samples_nodup
    ⟨2 / (scale.i0 : ℚ), 2 / (scale.i1 : ℚ), 2 / (scale.i2 : ℚ)⟩
    ⟨(compute_surface_depths sqrt a one_layer_flag pos scale poly).scalex,
     (compute_surface_depths sqrt a one_layer_flag pos scale poly).scaley,
     (compute_surface_depths sqrt a one_layer_flag pos scale poly).scalez⟩
    ⟨(compute_surface_depths sqrt a one_layer_flag pos scale poly).countx,
     (compute_surface_depths sqrt a one_layer_flag pos scale poly).county,
     (compute_surface_depths sqrt a one_layer_flag pos scale poly).countz⟩
    n absc (unit_cell_pos _ h0).1 (unit_cell_pos _ h1).1 (unit_cell_pos _ h2).1
    hs0 hs1 hs2 (c0 hs0) (c1 hs1) (c2 hs2) ha hinj0 hinj1 hinj2
  refine ⟨_, quad_points_of_phase_samples _ _ _ _ _ _ _ _ _, hnd, ?_⟩
  intro i j hij hj e
  have hi : i < _ := lt_trans hij hj
  rw [List.getElem?_eq_getElem hi, List.getElem?_eq_getElem hj, Option.some.injEq] at e
  exact absurd ((List.Nodup.getElem_inj_iff hnd).mp e) (Nat.ne_of_lt hij)

/-- The surface depths of the cube `[0,4]³` of scale 20: skin `3/10`, interior
factor `7/10` and three layers on every axis. -/
theorem ex_fine_depths :
    compute_surface_depths Rat.sqrt ex_fine_atom 0 (ex_fine_atom.nodal_positions 0)
      (ex_fine_atom.element_scale 0) 0 = ⟨7 / 10, 7 / 10, 7 / 10, 3, 3, 3⟩ := by
  obtain ⟨e0, e1, e2⟩ := ex_fine_spacing ex_fine_atom rfl
  have hu : skin_unclamped (ex_fine_atom.CAC_cut - ex_fine_atom.CAC_skin) (2 / ((20 : Int) : ℚ)) 4
      = 3 / 10 := by
    rw [skin_unclamped_eval _ _ _ 2 (Or.inl (by
      simp only [ex_fine_atom]; norm_num))]
    norm_num
  have hsk : surface_skin Rat.sqrt ex_fine_atom 0 (ex_fine_atom.nodal_positions 0)
      (ex_fine_atom.element_scale 0) 0 = ⟨3 / 10, 3 / 10, 3 / 10⟩ := by
    rw [surface_skin_normal, e0, e1, e2, rat_sqrt_sq _ (by norm_num)]
    show (⟨_, _, _⟩ : Vec3) = _
    simp only [show ex_fine_atom.element_scale 0 = ⟨20, 20, 20⟩ from rfl, hu]
    norm_num
  have hc : static_cast_int ((3 / 10 : ℚ) / (2 / ((20 : Int) : ℚ))) = 3 :=
    static_cast_int_eq _ 3 (Or.inl (by norm_num))
  simp only [compute_surface_depths, hsk]
  simp only [show ex_fine_atom.element_scale 0 = ⟨20, 20, 20⟩ from rfl, hc]
  norm_num

/-- The surface depths of the cube of the worked configuration (scale 1): the
skin is clamped to 1, so the interior factor is 0 and there is no layer. -/
theorem ex_cube_depths :
    compute_surface_depths Rat.sqrt ex_atom 0 (ex_atom.nodal_positions 0)
      (ex_atom.element_scale 0) 0 = ⟨0, 0, 0, 0, 0, 0⟩ := by
  obtain ⟨e0, e1, e2⟩ := ex_cube_spacing
  have hu : skin_unclamped (ex_atom.CAC_cut - ex_atom.CAC_skin) (2 / ((1 : Int) : ℚ)) (1 / 2)
      = 4 := by
    rw [skin_unclamped_eval _ _ _ 1 (Or.inl (by
      simp only [ex_atom]; norm_num))]
    norm_num
  have hsk : surface_skin Rat.sqrt ex_atom 0 (ex_atom.nodal_positions 0)
      (ex_atom.element_scale 0) 0 = ⟨1, 1, 1⟩ := by
    rw [surface_skin_normal, e0, e1, e2, rat_sqrt_sq _ (by norm_num)]
    show (⟨_, _, _⟩ : Vec3) = _
    simp only [show ex_atom.element_scale 0 = ⟨1, 1, 1⟩ from rfl, hu]
    norm_num
  have hc : static_cast_int ((1 : ℚ) / (2 / ((1 : Int) : ℚ))) = 0 :=
    static_cast_int_eq _ 0 (Or.inl (by norm_num))
  simp only [compute_surface_depths, hsk]
  simp only [show ex_atom.element_scale 0 = ⟨1, 1, 1⟩ from rfl, hc]
  norm_num

theorem ex_quad_abscissae (j : Nat) :
    ex_quad.quadrature_abcissae j
      = if j = 0 then -(5773502691896258 / 10000000000000000)
        else 5773502691896258 / 10000000000000000 := rfl

/-- The snapped abscissae of the 2-point rule for the interior factor `7/10` and
the increment `1/10`: `-4/10` and `4/10`. -/
theorem ex_fine_snap (j : Nat) :
    snap (2 / ((20 : Int) : ℚ)) (7 / 10 * ex_quad.quadrature_abcissae j)
      = if j = 0 then -(4 / 10) else 4 / 10 := by
  by_cases h : j = 0
  · rw [if_pos h]
    unfold snap
    rw [ex_quad_abscissae, if_pos h, static_cast_int_eq _ (-4) (Or.inr (by norm_num))]
    norm_num
  · rw [if_neg h]
    unfold snap
    rw [ex_quad_abscissae, if_neg h, static_cast_int_eq _ 4 (Or.inl (by norm_num))]
    norm_num

theorem ex_fine_snap_inj (j : Nat) (_ : j < 2) (j' : Nat) (_ : j' < 2)
    (e : snap (2 / ((20 : Int) : ℚ)) (7 / 10 * ex_quad.quadrature_abcissae j)
      = snap (2 / ((20 : Int) : ℚ)) (7 / 10 * ex_quad.quadrature_abcissae j')) : j = j' := by
  rw [ex_fine_snap, ex_fine_snap] at e
  by_cases h : j = 0 <;> by_cases h' : j' = 0
  · omega
  · rw [if_pos h, if_neg h'] at e; norm_num at e
  · rw [if_neg h, if_pos h'] at e; norm_num at e
  · omega

theorem ex_abscissae_lt_one (j : Nat) (_ : j < 2) : |ex_quad.quadrature_abcissae j| < 1 := by
  rw [abs_lt, ex_quad_abscissae]
  by_cases h : j = 0
  · rw [if_pos h]; norm_num
  · rw [if_neg h]; norm_num

theorem snap_zero (u : ℚ) : snap u 0 = 0 := by
  unfold snap
  rw [zero_div, static_cast_int_eq 0 0 (Or.inl (by norm_num))]
  norm_num

theorem grid3_zero (n2 n3 : Nat) (P : Nat → Nat → Nat → Vec3) : grid3 0 n2 n3 P = [] := rfl

theorem grid3_const (p : Vec3) : grid3 2 2 2 (fun _ _ _ => p) = List.replicate 8 p := rfl

theorem flatMap_range_nil (n : Nat) :
    (List.range n).flatMap (fun _ => ([] : List Vec3)) = [] := by
  rw [List.flatMap_eq_nil_iff]
  intro _ _
  rfl

theorem forLoop_one {σ : Type} (body : Nat → σ → σ) (s : σ) : forLoop 1 body s = body 0 s := rfl

/-- The parametric samples of a single-phase entity. -/
theorem compute_quad_points_samples (a : Atom) (q : Quad) (i : Nat) (buf : Nat → Vec3)
    (h : a.poly_count i = 1) :
    (compute_quad_points a q i buf).samples
      = phase_samples ⟨2 / ((a.element_scale i).i0 : ℚ), 2 / ((a.element_scale i).i1 : ℚ),
          2 / ((a.element_scale i).i2 : ℚ)⟩ (q.interior_scales i) (q.surface_counts i)
          q.quadrature_node_count q.quadrature_abcissae := by
  rw [compute_quad_points, h, forLoop_one, quad_points_of_phase_samples]
  exact List.nil_append _

/-- C25: the cube of the worked configuration has scale 1 on every axis;
`compute_surface_depths` gives it the interior factor 0 and no layer, the values
held by `ex_quad`.  With the 2-point rule `compute_quad_points` then generates
eight samples, all at the parametric coordinate `(0,0,0)`. -/
theorem ex_cube_samples_coincide :
    1 ≤ (ex_atom.element_scale 0).i0 ∧ 1 ≤ (ex_atom.element_scale 0).i1 ∧
    1 ≤ (ex_atom.element_scale 0).i2 ∧
    compute_surface_depths Rat.sqrt ex_atom 0 (ex_atom.nodal_positions 0)
      (ex_atom.element_scale 0) 0 = ⟨0, 0, 0, 0, 0, 0⟩ ∧
    ex_quad.interior_scales 0 = ⟨0, 0, 0⟩ ∧ ex_quad.surface_counts 0 = ⟨0, 0, 0⟩ ∧
    (compute_quad_points ex_atom ex_quad 0 (fun _ => ⟨0, 0, 0⟩)).samples
      = List.replicate 8 ⟨0, 0, 0⟩ ∧
    ¬ (compute_quad_points ex_atom ex_quad 0 (fun _ => ⟨0, 0, 0⟩)).samples.Nodup := by
  have hs : (compute_quad_points ex_atom ex_quad 0 (fun _ => ⟨0, 0, 0⟩)).samples
      = List.replicate 8 ⟨0, 0, 0⟩ := by
    rw [compute_quad_points_samples ex_atom ex_quad 0 _ rfl,
      show ex_quad.interior_scales 0 = ⟨0, 0, 0⟩ from rfl,
      show ex_quad.surface_counts 0 = ⟨0, 0, 0⟩ from rfl,
      show ex_quad.quadrature_node_count = 2 from rfl]
    simp only [phase_samples, edge_counts, Int.toNat_zero, grid3_zero, zero_mul, snap_zero,
      grid3_const, ite_self, flatMap_range_nil, List.append_nil]
  refine ⟨by decide, by decide, by decide, ex_cube_depths, rfl, rfl, hs, ?_⟩
  rw [hs]
  intro h
  have := List.nodup_replicate.mp h
  omega

/-- The phase loop of `bin_atoms_setup` for a single-phase entity stores the
result of `compute_surface_depths` for phase 0. -/
theorem phase_surface_counts_one (sqrt : ℚ → ℚ) (a : Atom) (one_layer_flag i : Nat)
    (cs : Int3 × Vec3) (h : a.poly_count i = 1) :
    phase_surface_counts sqrt a one_layer_flag i cs
      = (⟨(compute_surface_depths sqrt a one_layer_flag (a.nodal_positions i)
            (a.element_scale i) 0).countx,
          (compute_surface_depths sqrt a one_layer_flag (a.nodal_positions i)
            (a.element_scale i) 0).county,
          (compute_surface_depths sqrt a one_layer_flag (a.nodal_positions i)
            (a.element_scale i) 0).countz⟩,
         ⟨(compute_surface_depths sqrt a one_layer_flag (a.nodal_positions i)
            (a.element_scale i) 0).scalex,
          (compute_surface_depths sqrt a one_layer_flag (a.nodal_positions i)
            (a.element_scale i) 0).scaley,
          (compute_surface_depths sqrt a one_layer_flag (a.nodal_positions i)
            (a.element_scale i) 0).scalez⟩) := by
  rw [phase_surface_counts, h, forLoop_one]
  simp only [if_true]

/-- In the worked configuration `bin_atoms_setup` stores no surface layer for
the cube. -/
theorem ex_setup_counts (maxpoly quad_rule_initialized : Nat) (q : Quad) (scm : Int3) :
    (bin_atoms_setup_quad Rat.sqrt ex_atom 0 maxpoly quad_rule_initialized q scm).quad.surface_counts 0
      = ⟨0, 0, 0⟩ := by
  rw [(bin_atoms_setup_quad_fields _ _ _ _ _ _ _).1,
    ((surface_counts_loop_spec _ _ _ _ _ _).2.1 0 (by decide) (by decide)).1,
    phase_surface_counts_one _ _ _ _ _ rfl, ex_cube_depths]

theorem ex_setup_counts_nonneg (maxpoly quad_rule_initialized : Nat) (q : Quad) (scm : Int3) :
    ∀ i, i < ex_atom.nlocal → ex_atom.element_type i ≠ 0 →
      0 ≤ ((bin_atoms_setup_quad Rat.sqrt ex_atom 0 maxpoly quad_rule_initialized q
        scm).quad.surface_counts i).i0 ∧
      0 ≤ ((bin_atoms_setup_quad Rat.sqrt ex_atom 0 maxpoly quad_rule_initialized q
        scm).quad.surface_counts i).i1 ∧
      0 ≤ ((bin_atoms_setup_quad Rat.sqrt ex_atom 0 maxpoly quad_rule_initialized q
        scm).quad.surface_counts i).i2 := by
  intro i hi _
  have h0 : i = 0 := Nat.lt_one_iff.mp hi
  subst h0
  rw [ex_setup_counts]
  exact ⟨le_refl _, le_refl _, le_refl _⟩

/-- The home cell of an entity does not depend on the entity counts. -/
theorem home_cell_with_counts (g : Grid) (a : Atom) (n m i : Nat) :
    home_cell g { a with nlocal := n, nghost := m } i = home_cell g a i := rfl

theorem ex_two_local_cells :
    ∀ i, i < ex_two_local.nlocal + ex_two_local.nghost →
      0 ≤ home_cell ex_grid ex_two_local i ∧
      home_cell ex_grid ex_two_local i < (ex_grid.mbins : Int) := by
  intro i hi
  rw [show ex_two_local = { ex_atom with nlocal := 2, nghost := 0 } from rfl,
    home_cell_with_counts]
  exact ex_home_cells_in_grid i hi

/-- The snapped abscissae of the cube `[0,4]³` differ on every axis. -/
theorem ex_fine_snaps_differ :
    (∀ j, j < 2 → ∀ j', j' < 2 →
      snap (2 / ((ex_fine_atom.element_scale 0).i0 : ℚ))
          ((compute_surface_depths Rat.sqrt ex_fine_atom 0 (ex_fine_atom.nodal_positions 0)
            (ex_fine_atom.element_scale 0) 0).scalex * ex_quad.quadrature_abcissae j)
        = snap (2 / ((ex_fine_atom.element_scale 0).i0 : ℚ))
          ((compute_surface_depths Rat.sqrt ex_fine_atom 0 (ex_fine_atom.nodal_positions 0)
            (ex_fine_atom.element_scale 0) 0).scalex * ex_quad.quadrature_abcissae j') →
      j = j') ∧
    (∀ j, j < 2 → ∀ j', j' < 2 →
      snap (2 / ((ex_fine_atom.element_scale 0).i1 : ℚ))
          ((compute_surface_depths Rat.sqrt ex_fine_atom 0 (ex_fine_atom.nodal_positions 0)
            (ex_fine_atom.element_scale 0) 0).scaley * ex_quad.quadrature_abcissae j)
        = snap (2 / ((ex_fine_atom.element_scale 0).i1 : ℚ))
          ((compute_surface_depths Rat.sqrt ex_fine_atom 0 (ex_fine_atom.nodal_positions 0)
            (ex_fine_atom.element_scale 0) 0).scaley * ex_quad.quadrature_abcissae j') →
      j = j') ∧
    (∀ j, j < 2 → ∀ j', j' < 2 →
      snap (2 / ((ex_fine_atom.element_scale 0).i2 : ℚ))
          ((compute_surface_depths Rat.sqrt ex_fine_atom 0 (ex_fine_atom.nodal_positions 0)
            (ex_fine_atom.element_scale 0) 0).scalez * ex_quad.quadrature_abcissae j)
        = snap (2 / ((ex_fine_atom.element_scale 0).i2 : ℚ))
          ((compute_surface_depths Rat.sqrt ex_fine_atom 0 (ex_fine_atom.nodal_positions 0)
            (ex_fine_atom.element_scale 0) 0).scalez * ex_quad.quadrature_abcissae j') →
      j = j') := by
  rw [ex_fine_depths]
  exact ⟨ex_fine_snap_inj, ex_fine_snap_inj, ex_fine_snap_inj⟩

theorem ex_fine_interior_pos :
    0 < (compute_surface_depths Rat.sqrt ex_fine_atom 0 (ex_fine_atom.nodal_positions 0)
      (ex_fine_atom.element_scale 0) 0).scalex ∧
    0 < (compute_surface_depths Rat.sqrt ex_fine_atom 0 (ex_fine_atom.nodal_positions 0)
      (ex_fine_atom.element_scale 0) 0).scaley ∧
    0 < (compute_surface_depths Rat.sqrt ex_fine_atom 0 (ex_fine_atom.nodal_positions 0)
      (ex_fine_atom.element_scale 0) 0).scalez := by
  rw [ex_fine_depths]
  norm_num

/-! ## Instances of the theorems on the surface depths and the quadrature samples -/

theorem compute_surface_depths_single_layer_witness :
    (1 ≠ 0) ∧
    (1 ≤ (ex_atom.element_scale 0).i0) ∧
    (1 ≤ (ex_atom.element_scale 0).i1) ∧
    (1 ≤ (ex_atom.element_scale 0).i2) ∧
    ((compute_surface_depths Rat.sqrt ex_atom 1 (ex_atom.nodal_positions 0) (ex_atom.element_scale 0) 0).countx = 1 ∧
    (compute_surface_depths Rat.sqrt ex_atom 1 (ex_atom.nodal_positions 0) (ex_atom.element_scale 0) 0).county = 1 ∧
    (compute_surface_depths Rat.sqrt ex_atom 1 (ex_atom.nodal_positions 0) (ex_atom.element_scale 0) 0).countz = 1 ∧
    surface_skin Rat.sqrt ex_atom 1 (ex_atom.nodal_positions 0) (ex_atom.element_scale 0) 0
      = ⟨2 / ((ex_atom.element_scale 0).i0 : ℚ), 2 / ((ex_atom.element_scale 0).i1 : ℚ), 2 / ((ex_atom.element_scale 0).i2 : ℚ)⟩ ∧
    (compute_surface_depths Rat.sqrt ex_atom 1 (ex_atom.nodal_positions 0) (ex_atom.element_scale 0) 0).scalex
      = 1 - 2 / ((ex_atom.element_scale 0).i0 : ℚ) ∧
    (compute_surface_depths Rat.sqrt ex_atom 1 (ex_atom.nodal_positions 0) (ex_atom.element_scale 0) 0).scaley
      = 1 - 2 / ((ex_atom.element_scale 0).i1 : ℚ) ∧
    (compute_surface_depths Rat.sqrt ex_atom 1 (ex_atom.nodal_positions 0) (ex_atom.element_scale 0) 0).scalez
      = 1 - 2 / ((ex_atom.element_scale 0).i2 : ℚ)) :=
  ⟨(by decide),
    (by decide),
    (by decide),
    (by decide),
    compute_surface_depths_single_layer Rat.sqrt ex_atom 1 (ex_atom.nodal_positions 0)
      (ex_atom.element_scale 0) 0 (by decide) (by decide) (by decide) (by decide)⟩

theorem quad_points_of_phase_distinct_witness :
    (1 ≤ (ex_fine_atom.element_scale 0).i0) ∧
    (1 ≤ (ex_fine_atom.element_scale 0).i1) ∧
    (1 ≤ (ex_fine_atom.element_scale 0).i2) ∧
    (0 < (compute_surface_depths Rat.sqrt ex_fine_atom 0 (ex_fine_atom.nodal_positions 0) (ex_fine_atom.element_scale 0) 0).scalex) ∧
    (0 < (compute_surface_depths Rat.sqrt ex_fine_atom 0 (ex_fine_atom.nodal_positions 0) (ex_fine_atom.element_scale 0) 0).scaley) ∧
    (0 < (compute_surface_depths Rat.sqrt ex_fine_atom 0 (ex_fine_atom.nodal_positions 0) (ex_fine_atom.element_scale 0) 0).scalez) ∧
    (∀ j, j < 2 → |ex_quad.quadrature_abcissae j| < 1) ∧
    (∀ j, j < 2 → ∀ j', j' < 2 → snap (2 / ((ex_fine_atom.element_scale 0).i0 : ℚ)) ((compute_surface_depths Rat.sqrt ex_fine_atom 0 (ex_fine_atom.nodal_positions 0) (ex_fine_atom.element_scale 0) 0).scalex * ex_quad.quadrature_abcissae j) = snap (2 / ((ex_fine_atom.element_scale 0).i0 : ℚ)) ((compute_surface_depths Rat.sqrt ex_fine_atom 0 (ex_fine_atom.nodal_positions 0) (ex_fine_atom.element_scale 0) 0).scalex * ex_quad.quadrature_abcissae j') → j = j') ∧
    (∀ j, j < 2 → ∀ j', j' < 2 → snap (2 / ((ex_fine_atom.element_scale 0).i1 : ℚ)) ((compute_surface_depths Rat.sqrt ex_fine_atom 0 (ex_fine_atom.nodal_positions 0) (ex_fine_atom.element_scale 0) 0).scaley * ex_quad.quadrature_abcissae j) = snap (2 / ((ex_fine_atom.element_scale 0).i1 : ℚ)) ((compute_surface_depths Rat.sqrt ex_fine_atom 0 (ex_fine_atom.nodal_positions 0) (ex_fine_atom.element_scale 0) 0).scaley * ex_quad.quadrature_abcissae j') → j = j') ∧
    (∀ j, j < 2 → ∀ j', j' < 2 → snap (2 / ((ex_fine_atom.element_scale 0).i2 : ℚ)) ((compute_surface_depths Rat.sqrt ex_fine_atom 0 (ex_fine_atom.nodal_positions 0) (ex_fine_atom.element_scale 0) 0).scalez * ex_quad.quadrature_abcissae j) = snap (2 / ((ex_fine_atom.element_scale 0).i2 : ℚ)) ((compute_surface_depths Rat.sqrt ex_fine_atom 0 (ex_fine_atom.nodal_positions 0) (ex_fine_atom.element_scale 0) 0).scalez * ex_quad.quadrature_abcissae j') → j = j') ∧
    (∃ l : List Vec3,
      (quad_points_of_phase (ex_fine_atom.nodal_positions 0) 8
          ⟨2 / ((ex_fine_atom.element_scale 0).i0 : ℚ), 2 / ((ex_fine_atom.element_scale 0).i1 : ℚ), 2 / ((ex_fine_atom.element_scale 0).i2 : ℚ)⟩
          ⟨(compute_surface_depths Rat.sqrt ex_fine_atom 0 (ex_fine_atom.nodal_positions 0) (ex_fine_atom.element_scale 0) 0).scalex,
           (compute_surface_depths Rat.sqrt ex_fine_atom 0 (ex_fine_atom.nodal_positions 0) (ex_fine_atom.element_scale 0) 0).scaley,
           (compute_surface_depths Rat.sqrt ex_fine_atom 0 (ex_fine_atom.nodal_positions 0) (ex_fine_atom.element_scale 0) 0).scalez⟩
          ⟨(compute_surface_depths Rat.sqrt ex_fine_atom 0 (ex_fine_atom.nodal_positions 0) (ex_fine_atom.element_scale 0) 0).countx,
           (compute_surface_depths Rat.sqrt ex_fine_atom 0 (ex_fine_atom.nodal_positions 0) (ex_fine_atom.element_scale 0) 0).county,
           (compute_surface_depths Rat.sqrt ex_fine_atom 0 (ex_fine_atom.nodal_positions 0) (ex_fine_atom.element_scale 0) 0).countz⟩
          2 ex_quad.quadrature_abcissae 0 (⟨0, fun _ => ⟨0, 0, 0⟩, []⟩ : QuadBuf)).samples = (⟨0, fun _ => ⟨0, 0, 0⟩, []⟩ : QuadBuf).samples ++ l ∧
      l.Nodup ∧
      ∀ i j, i < j → j < l.length → l[i]? ≠ l[j]?) :=
  ⟨(by decide),
    (by decide),
    (by decide),
    ex_fine_interior_pos.1,
    ex_fine_interior_pos.2.1,
    ex_fine_interior_pos.2.2,
    ex_abscissae_lt_one,
    ex_fine_snaps_differ.1,
    ex_fine_snaps_differ.2.1,
    ex_fine_snaps_differ.2.2,
    quad_points_of_phase_distinct Rat.sqrt ex_fine_atom 0 (ex_fine_atom.nodal_positions 0)
      (ex_fine_atom.element_scale 0) 0 8 2 ex_quad.quadrature_abcissae 0
      (⟨0, fun _ => ⟨0, 0, 0⟩, []⟩ : QuadBuf) (by decide) (by decide) (by decide)
      ex_fine_interior_pos.1 ex_fine_interior_pos.2.1 ex_fine_interior_pos.2.2 ex_abscissae_lt_one
      ex_fine_snaps_differ.1 ex_fine_snaps_differ.2.1 ex_fine_snaps_differ.2.2⟩

theorem compute_quad_points_within_rows_witness :
    (0 ≤ (⟨0, 0, 0⟩ : Int3).i0) ∧
    (0 ≤ (⟨0, 0, 0⟩ : Int3).i1) ∧
    (0 ≤ (⟨0, 0, 0⟩ : Int3).i2) ∧
    (0 < ex_atom.nlocal) ∧
    (ex_atom.element_type 0 ≠ 0) ∧
    (ex_atom.poly_count 0 ≤ 1) ∧
    (((compute_quad_points ex_atom
        (bin_atoms_setup_quad Rat.sqrt ex_atom 0 1 0 ex_quad (⟨0, 0, 0⟩ : Int3)).quad
        0 (fun _ => (⟨0, 0, 0⟩ : Vec3))).quadrature_counter : Int)
      ≤ (bin_atoms_setup_quad Rat.sqrt ex_atom 0 1 0 ex_quad (⟨0, 0, 0⟩ : Int3)).quad_rows ∧
    (∀ k : Nat,
      (bin_atoms_setup_quad Rat.sqrt ex_atom 0 1 0 ex_quad (⟨0, 0, 0⟩ : Int3)).quad_rows
          ≤ (k : Int) →
        (compute_quad_points ex_atom
          (bin_atoms_setup_quad Rat.sqrt ex_atom 0 1 0 ex_quad (⟨0, 0, 0⟩ : Int3)).quad
          0 (fun _ => (⟨0, 0, 0⟩ : Vec3))).current_element_quad_points k = (fun _ => (⟨0, 0, 0⟩ : Vec3)) k) ∧
    0 ≤ (bin_atoms_setup_quad Rat.sqrt ex_atom 0 1 0 ex_quad
        (⟨0, 0, 0⟩ : Int3)).surface_counts_max.i0 ∧
    0 ≤ (bin_atoms_setup_quad Rat.sqrt ex_atom 0 1 0 ex_quad
        (⟨0, 0, 0⟩ : Int3)).surface_counts_max.i1 ∧
    0 ≤ (bin_atoms_setup_quad Rat.sqrt ex_atom 0 1 0 ex_quad
        (⟨0, 0, 0⟩ : Int3)).surface_counts_max.i2) :=
  ⟨(by decide),
    (by decide),
    (by decide),
    (by decide),
    (by decide),
    (by decide),
    compute_quad_points_within_rows Rat.sqrt ex_atom 0 1 0 ex_quad (⟨0, 0, 0⟩ : Int3)
      (fun _ => (⟨0, 0, 0⟩ : Vec3)) 0 (by decide) (by decide) (by decide) (by decide) (by decide)
      (by decide)⟩

theorem bin_atoms_point_quad_cell_witness :
    (ex_grid.mbins ≤ ex_state.store.maxbin) ∧
    (ex_state.store.CapInv) ∧
    (∀ i, i < ex_two_local.nlocal + ex_two_local.nghost → 0 ≤ home_cell ex_grid ex_two_local i ∧ home_cell ex_grid ex_two_local i < (ex_grid.mbins : Int)) ∧
    (1 < ex_two_local.nlocal) ∧
    (ex_two_local.element_type 1 = 0) ∧
    ((∀ lim, (element2bins ex_grid ex_two_local 1 lim).1 = quad2bins ex_grid (ex_two_local.x 1)) ∧
    (∀ (group : Bool) (t t' : BinState), bin_entity (fun _ => 0) ex_grid ex_two_local ex_quad group 1 t = some t' →
      t'.quad2bin = t.quad2bin ++ [quad2bins ex_grid (ex_two_local.x 1)] ∧
      t'.current_element_quad_points 0 = ex_two_local.x 1 ∧
      insert_member (fun _ => 0) t.store (quad2bins ex_grid (ex_two_local.x 1)) 1 = some t'.store) ∧
    ∃ (s' : BinState) (L : Nat → List Int),
      bin_atoms (fun _ => 0) ex_grid ex_two_local ex_quad 0 0 ex_state = some s' ∧
      s'.quad2bin = (List.range ex_two_local.nlocal).flatMap L ∧
      L 1 = [quad2bins ex_grid (ex_two_local.x 1)] ∧
      s'.quad2bin[((List.range 1).flatMap L).length]? = some (quad2bins ex_grid (ex_two_local.x 1)) ∧
      ∀ b, b < ex_grid.mbins →
        (s'.store.members b).count 1 = if (b : Int) = quad2bins ex_grid (ex_two_local.x 1) then 1 else 0) :=
  ⟨ex_store_ok.1,
    ex_store_ok.2,
    ex_two_local_cells,
    (by decide),
    (by decide),
    bin_atoms_point_quad_cell (fun _ => 0) ex_grid ex_two_local ex_quad 0 ex_state ex_store_ok.1
      ex_store_ok.2 ex_two_local_cells 1 (by decide) (by decide)⟩

theorem shape_function_trilinear_witness :
    (1 ≤ 3 ∧ 3 ≤ 8) ∧
    shape_function (1 / 2) (1 / 3) (1 / 5) 2 3 = spec_trilinear_basis (1 / 2) (1 / 3) (1 / 5) 3 :=
  ⟨⟨by decide, by decide⟩,
    shape_function_trilinear.1 (1 / 2) (1 / 3) (1 / 5) 3 (by decide) (by decide)⟩

/-! ## The flattening of cell triples -/

/-- A number `a * m + b` with `0 ≤ b < m` determines `a` and `b`. -/
theorem mul_add_inj (m a b c d : Int) (hb : 0 ≤ b ∧ b < m) (hd : 0 ≤ d ∧ d < m)
    (h : a * m + b = c * m + d) : a = c ∧ b = d := by
  have hac : a = c := by
    rcases lt_trichotomy a c with hlt | heq | hgt
    · have h1 : a + 1 ≤ c := hlt
      have : (a + 1) * m ≤ c * m := by nlinarith
      nlinarith
    · exact heq
    · have h1 : c + 1 ≤ a := hgt
      have : (c + 1) * m ≤ a * m := by nlinarith
      nlinarith
  subst hac
  exact ⟨rfl, by linarith⟩

/-- C33: `flat_bin`, the flattening
`(iz-mbinzlo)*mbiny*mbinx + (iy-mbinylo)*mbinx + (ix-mbinxlo)`, is injective on
the triples with `mbinxlo ≤ ix ≤ mbinxhi`, `mbinylo ≤ iy ≤ mbinyhi` and
`mbinzlo ≤ iz ≤ mbinzhi`, where `mbinx = mbinxhi - mbinxlo + 1` and
`mbiny = mbinyhi - mbinylo + 1` as `setup_bins` sets them: two in-range triples
with the same cell id are equal. -/
theorem flat_bin_injective (g : Grid) (mbinxhi mbinyhi mbinzhi : Int)
    (hmx : g.mbinx = mbinxhi - g.mbinxlo + 1) (hmy : g.mbiny = mbinyhi - g.mbinylo + 1)
    (ix iy iz jx jy jz : Int)
    (hix : g.mbinxlo ≤ ix ∧ ix ≤ mbinxhi) (hiy : g.mbinylo ≤ iy ∧ iy ≤ mbinyhi)
    (_hiz : g.mbinzlo ≤ iz ∧ iz ≤ mbinzhi)
    (hjx : g.mbinxlo ≤ jx ∧ jx ≤ mbinxhi) (hjy : g.mbinylo ≤ jy ∧ jy ≤ mbinyhi)
    (_hjz : g.mbinzlo ≤ jz ∧ jz ≤ mbinzhi)
    (h : flat_bin g ix iy iz = flat_bin g jx jy jz) :
    ix = jx ∧ iy = jy ∧ iz = jz := by
  unfold flat_bin at h
  have h1 := mul_add_inj g.mbinx ((iz - g.mbinzlo) * g.mbiny + (iy - g.mbinylo))
    (ix - g.mbinxlo) ((jz - g.mbinzlo) * g.mbiny + (jy - g.mbinylo)) (jx - g.mbinxlo)
    ⟨by linarith [hix.1], by rw [hmx]; linarith [hix.2]⟩
    ⟨by linarith [hjx.1], by rw [hmx]; linarith [hjx.2]⟩ (by linarith)
  have h2 := mul_add_inj g.mbiny (iz - g.mbinzlo) (iy - g.mbinylo) (jz - g.mbinzlo)
    (jy - g.mbinylo) ⟨by linarith [hiy.1], by rw [hmy]; linarith [hiy.2]⟩
    ⟨by linarith [hjy.1], by rw [hmy]; linarith [hjy.2]⟩ h1.1
  exact ⟨by linarith [h1.2], by linarith [h2.2], by linarith [h2.1]⟩

theorem flat_bin_injective_witness :
    (ex_grid.mbinx = 15 - ex_grid.mbinxlo + 1) ∧ (ex_grid.mbiny = 15 - ex_grid.mbinylo + 1) ∧
    (ex_grid.mbinxlo ≤ 3 ∧ (3 : Int) ≤ 15) ∧ (ex_grid.mbinylo ≤ 3 ∧ (3 : Int) ≤ 15) ∧
    (ex_grid.mbinzlo ≤ 3 ∧ (3 : Int) ≤ 15) ∧
    (flat_bin ex_grid 3 3 3 = flat_bin ex_grid 3 3 3) ∧
    ((3 : Int) = 3 ∧ (3 : Int) = 3 ∧ (3 : Int) = 3) :=
  ⟨by decide, by decide, by decide, by decide, by decide, rfl,
    flat_bin_injective ex_grid 15 15 15 (by decide) (by decide) 3 3 3 3 3 3 (by decide)
      (by decide) (by decide) (by decide) (by decide) (by decide) rfl⟩

/-! ## Monotonicity of the per-axis cell index -/

/-- Truncation toward zero is monotone. -/
theorem static_cast_int_mono {d e : ℚ} (h : d ≤ e) : static_cast_int d ≤ static_cast_int e := by
  by_cases hd : 0 ≤ d
  · rw [static_cast_int_of_nonneg hd, static_cast_int_of_nonneg (le_trans hd h)]
    exact Int.floor_le_floor h
  · have hd' : d < 0 := not_le.mp hd
    by_cases he : 0 ≤ e
    · exact le_trans (static_cast_int_nonpos hd'.le) (static_cast_int_nonneg he)
    · rw [static_cast_int_of_neg hd', static_cast_int_of_neg (not_le.mp he)]
      exact Int.ceil_le_ceil h

/-- The per-axis cell index is monotone for a non-negative inverse cell size and
at least one interior cell. -/
theorem axis_bin_mono (bboxlo bboxhi bininv : ℚ) (nbin : Int) (hn : 1 ≤ nbin)
    (hinv : 0 ≤ bininv) (x y : ℚ) (hxy : x ≤ y) :
    axis_bin bboxlo bboxhi bininv nbin x ≤ axis_bin bboxlo bboxhi bininv nbin y := by
  unfold axis_bin
  by_cases hx1 : x ≥ bboxhi
  · have hy1 : y ≥ bboxhi := le_trans hx1 hxy
    rw [if_pos hx1, if_pos hy1]
    have := static_cast_int_mono (mul_le_mul_of_nonneg_right (sub_le_sub_right hxy bboxhi) hinv)
    omega
  · rw [if_neg hx1]
    by_cases hx2 : x ≥ bboxlo
    · rw [if_pos hx2]
      have hx0 : 0 ≤ static_cast_int ((x - bboxlo) * bininv) :=
        static_cast_int_nonneg (mul_nonneg (sub_nonneg.mpr hx2) hinv)
      by_cases hy1 : y ≥ bboxhi
      · rw [if_pos hy1]
        have hy0 : 0 ≤ static_cast_int ((y - bboxhi) * bininv) :=
          static_cast_int_nonneg (mul_nonneg (sub_nonneg.mpr hy1) hinv)
        have := min_le_right (static_cast_int ((x - bboxlo) * bininv)) (nbin - 1)
        omega
      · rw [if_neg hy1, if_pos (le_trans hx2 hxy)]
        have := static_cast_int_mono
          (mul_le_mul_of_nonneg_right (sub_le_sub_right hxy bboxlo) hinv)
        exact min_le_min this (le_refl _)
    · rw [if_neg hx2]
      have hx0 : static_cast_int ((x - bboxlo) * bininv) ≤ 0 :=
        static_cast_int_nonpos (mul_nonpos_of_nonpos_of_nonneg
          (sub_nonpos.mpr (not_le.mp hx2).le) hinv)
      by_cases hy1 : y ≥ bboxhi
      · rw [if_pos hy1]
        have hy0 : 0 ≤ static_cast_int ((y - bboxhi) * bininv) :=
          static_cast_int_nonneg (mul_nonneg (sub_nonneg.mpr hy1) hinv)
        omega
      · rw [if_neg hy1]
        by_cases hy2 : y ≥ bboxlo
        · rw [if_pos hy2]
          have hy0 : 0 ≤ static_cast_int ((y - bboxlo) * bininv) :=
            static_cast_int_nonneg (mul_nonneg (sub_nonneg.mpr hy2) hinv)
          have : (-1 : Int) ≤ min (static_cast_int ((y - bboxlo) * bininv)) (nbin - 1) :=
            le_min (by omega) (by omega)
          omega
        · rw [if_neg hy2]
          have := static_cast_int_mono
            (mul_le_mul_of_nonneg_right (sub_le_sub_right hxy bboxlo) hinv)
          omega

/-- Exact tiling of a box of positive extent by at least one cell gives a
positive inverse cell size. -/
theorem tiling_bininv_pos (bboxlo bboxhi binsize bininv : ℚ) (nbin : Int) (hn : 1 ≤ nbin)
    (htile : (nbin : ℚ) * binsize = bboxhi - bboxlo) (hinv : bininv = 1 / binsize)
    (hbox : bboxlo < bboxhi) : 0 < bininv := by
  have hnq : (0 : ℚ) < nbin := by exact_mod_cast (by omega : (0 : Int) < nbin)
  have hb : 0 < binsize := by
    by_contra hc
    have : (nbin : ℚ) * binsize ≤ 0 := mul_nonpos_of_nonneg_of_nonpos hnq.le (not_lt.mp hc)
    linarith
  rw [hinv]
  positivity

/-- The node bounding box has its low corner below its high corner. -/
theorem node_bounding_box_ordered (pos : Nat → Nat → Vec3) (pc npe : Nat) :
    (node_bounding_box pos pc npe).1.c0 ≤ (node_bounding_box pos pc npe).2.c0 ∧
    (node_bounding_box pos pc npe).1.c1 ≤ (node_bounding_box pos pc npe).2.c1 ∧
    (node_bounding_box pos pc npe).1.c2 ≤ (node_bounding_box pos pc npe).2.c2 := by
  have h := node_bounding_box_span pos pc npe
  have h0 := (h 0 (by decide)).1
  have h1 := (h 1 (by decide)).1
  have h2 := (h 2 (by decide)).1
  simp only [Vec3.get] at h0 h1 h2
  norm_num at h0 h1 h2
  exact ⟨le_trans h0.1 h0.2, le_trans h1.1 h1.2, le_trans h2.1 h2.2⟩

/-! ## Bounds on the layer count -/

/-- The layer count of one axis in normal mode, for a non-negative cutoff and a
positive spacing: twice the count is between 0 and the scale, and the count is
at least 1 from scale 2 on. -/
theorem axis_count_bounds (rcut spacing : ℚ) (n : Int) (hn : 1 ≤ n) (hr : 0 ≤ rcut)
    (hs : 0 < spacing) :
    0 ≤ 2 * static_cast_int ((if skin_unclamped rcut (2 / (n : ℚ)) spacing > 1 then 1
        else skin_unclamped rcut (2 / (n : ℚ)) spacing) / (2 / (n : ℚ))) ∧
    2 * static_cast_int ((if skin_unclamped rcut (2 / (n : ℚ)) spacing > 1 then 1
        else skin_unclamped rcut (2 / (n : ℚ)) spacing) / (2 / (n : ℚ))) ≤ n ∧
    (2 ≤ n → 1 ≤ static_cast_int ((if skin_unclamped rcut (2 / (n : ℚ)) spacing > 1 then 1
        else skin_unclamped rcut (2 / (n : ℚ)) spacing) / (2 / (n : ℚ)))) := by
  obtain ⟨hsk, hle, hgt⟩ := axis_skin_count rcut spacing n hn hr hs
  have hnq : (0 : ℚ) < n := by exact_mod_cast (by omega : (0 : Int) < n)
  have hq : 0 ≤ 2 * rcut / spacing / (2 / (n : ℚ)) := by positivity
  have hf : (0 : Int) ≤ ⌊2 * rcut / spacing / (2 / (n : ℚ))⌋ := Int.floor_nonneg.mpr hq
  by_cases h1 : skin_unclamped rcut (2 / (n : ℚ)) spacing ≤ 1
  · rw [hle h1]
    have h2 : (2 / (n : ℚ)) * (((⌊2 * rcut / spacing / (2 / (n : ℚ))⌋ + 1 : Int)) : ℚ) ≤ 1 := by
      rw [← hsk]; exact h1
    have h3 : ((2 * (⌊2 * rcut / spacing / (2 / (n : ℚ))⌋ + 1) : Int) : ℚ) ≤ (n : ℚ) := by
      have h4 : (2 / (n : ℚ)) * (((⌊2 * rcut / spacing / (2 / (n : ℚ))⌋ + 1 : Int)) : ℚ)
          = ((2 * (⌊2 * rcut / spacing / (2 / (n : ℚ))⌋ + 1) : Int) : ℚ) / (n : ℚ) := by
        push_cast
        ring
      rw [h4, div_le_one hnq] at h2
      exact h2
    have h5 : 2 * (⌊2 * rcut / spacing / (2 / (n : ℚ))⌋ + 1) ≤ n := by exact_mod_cast h3
    exact ⟨by omega, h5, fun _ => by omega⟩
  · rw [hgt (not_le.mp h1)]
    exact ⟨by omega, by omega, fun h => by omega⟩

/-! ## The per-phase maximum of the layer counts -/

/-- One step of a running maximum that keeps the value attached to the first
index attaining it. -/
theorem argmax_step (c : Nat → Int) (f : Nat → ℚ) (i : Nat) (m : Int) (v : ℚ)
    (h : ∃ p, p < i ∧ m = c p ∧ v = f p ∧ (∀ p', p' < i → c p' ≤ c p) ∧
      ∀ p', p' < p → c p' < c p) :
    ∃ p, p < i + 1 ∧ (if c i > m then c i else m) = c p ∧ (if c i > m then f i else v) = f p ∧
      (∀ p', p' < i + 1 → c p' ≤ c p) ∧ ∀ p', p' < p → c p' < c p := by
  obtain ⟨p, hp, hm, hv, hmax, hfirst⟩ := h
  by_cases hgt : c i > m
  · refine ⟨i, Nat.lt_succ_self i, by rw [if_pos hgt], by rw [if_pos hgt], ?_, ?_⟩
    · intro p' hp'
      rcases Nat.lt_succ_iff_lt_or_eq.mp hp' with h1 | h1
      · have := hmax p' h1
        omega
      · rw [h1]
    · intro p' hp'
      have := hmax p' hp'
      omega
  · refine ⟨p, Nat.lt_succ_of_lt hp, by rw [if_neg hgt]; exact hm,
      by rw [if_neg hgt]; exact hv, ?_, hfirst⟩
    intro p' hp'
    rcases Nat.lt_succ_iff_lt_or_eq.mp hp' with h1 | h1
    · exact hmax p' h1
    · rw [h1]
      omega

/-- The three conditional replacements of one later phase, axis by axis. -/
theorem phase_step_proj (sd : SurfaceDepths) (cs : Int3 × Vec3) :
    let r : Int3 × Vec3 :=
      (let cs := if sd.countx > cs.1.i0
        then (({ cs.1 with i0 := sd.countx } : Int3), ({ cs.2 with c0 := sd.scalex } : Vec3))
        else cs
      let cs := if sd.county > cs.1.i1
        then (({ cs.1 with i1 := sd.county } : Int3), ({ cs.2 with c1 := sd.scaley } : Vec3))
        else cs
      let cs := if sd.countz > cs.1.i2
        then (({ cs.1 with i2 := sd.countz } : Int3), ({ cs.2 with c2 := sd.scalez } : Vec3))
        else cs
      cs)
    (r.1.i0 = (if sd.countx > cs.1.i0 then sd.countx else cs.1.i0) ∧
      r.2.c0 = (if sd.countx > cs.1.i0 then sd.scalex else cs.2.c0)) ∧
    (r.1.i1 = (if sd.county > cs.1.i1 then sd.county else cs.1.i1) ∧
      r.2.c1 = (if sd.county > cs.1.i1 then sd.scaley else cs.2.c1)) ∧
    (r.1.i2 = (if sd.countz > cs.1.i2 then sd.countz else cs.1.i2) ∧
      r.2.c2 = (if sd.countz > cs.1.i2 then sd.scalez else cs.2.c2)) := by
  intro r
  by_cases hx : sd.countx > cs.1.i0 <;> by_cases hy : sd.county > cs.1.i1 <;>
    by_cases hz : sd.countz > cs.1.i2 <;> simp [r, hx, hy, hz]

/-- After its phase loop, `bin_atoms_setup` holds on every axis the largest
per-phase layer count and the interior factor of the first phase attaining
it. -/
theorem phase_surface_counts_spec (sqrt : ℚ → ℚ) (a : Atom) (one_layer_flag i : Nat)
    (cs : Int3 × Vec3) (hpc : 1 ≤ a.poly_count i) :
    (∃ p, p < a.poly_count i ∧
      (phase_surface_counts sqrt a one_layer_flag i cs).1.i0
        = (compute_surface_depths sqrt a one_layer_flag (a.nodal_positions i)
            (a.element_scale i) p).countx ∧
      (phase_surface_counts sqrt a one_layer_flag i cs).2.c0
        = (compute_surface_depths sqrt a one_layer_flag (a.nodal_positions i)
            (a.element_scale i) p).scalex ∧
      (∀ p', p' < a.poly_count i →
        (compute_surface_depths sqrt a one_layer_flag (a.nodal_positions i)
            (a.element_scale i) p').countx
          ≤ (compute_surface_depths sqrt a one_layer_flag (a.nodal_positions i)
            (a.element_scale i) p).countx) ∧
      ∀ p', p' < p →
        (compute_surface_depths sqrt a one_layer_flag (a.nodal_positions i)
            (a.element_scale i) p').countx
          < (compute_surface_depths sqrt a one_layer_flag (a.nodal_positions i)
            (a.element_scale i) p).countx) ∧
    (∃ p, p < a.poly_count i ∧
      (phase_surface_counts sqrt a one_layer_flag i cs).1.i1
        = (compute_surface_depths sqrt a one_layer_flag (a.nodal_positions i)
            (a.element_scale i) p).county ∧
      (phase_surface_counts sqrt a one_layer_flag i cs).2.c1
        = (compute_surface_depths sqrt a one_layer_flag (a.nodal_positions i)
            (a.element_scale i) p).scaley ∧
      (∀ p', p' < a.poly_count i →
        (compute_surface_depths sqrt a one_layer_flag (a.nodal_positions i)
            (a.element_scale i) p').county
          ≤ (compute_surface_depths sqrt a one_layer_flag (a.nodal_positions i)
            (a.element_scale i) p).county) ∧
      ∀ p', p' < p →
        (compute_surface_depths sqrt a one_layer_flag (a.nodal_positions i)
            (a.element_scale i) p').county
          < (compute_surface_depths sqrt a one_layer_flag (a.nodal_positions i)
            (a.element_scale i) p).county) ∧
    (∃ p, p < a.poly_count i ∧
      (phase_surface_counts sqrt a one_layer_flag i cs).1.i2
        = (compute_surface_depths sqrt a one_layer_flag (a.nodal_positions i)
            (a.element_scale i) p).countz ∧
      (phase_surface_counts sqrt a one_layer_flag i cs).2.c2
        = (compute_surface_depths sqrt a one_layer_flag (a.nodal_positions i)
            (a.element_scale i) p).scalez ∧
      (∀ p', p' < a.poly_count i →
        (compute_surface_depths sqrt a one_layer_flag (a.nodal_positions i)
            (a.element_scale i) p').countz
          ≤ (compute_surface_depths sqrt a one_layer_flag (a.nodal_positions i)
            (a.element_scale i) p).countz) ∧
      ∀ p', p' < p →
        (compute_surface_depths sqrt a one_layer_flag (a.nodal_positions i)
            (a.element_scale i) p').countz
          < (compute_surface_depths sqrt a one_layer_flag (a.nodal_positions i)
            (a.element_scale i) p).countz) := by
  have key := forLoop_inv_lt
    (fun (n : Nat) (t : Int3 × Vec3) => 0 < n →
      (∃ p, p < n ∧
        t.1.i0 = (compute_surface_depths sqrt a one_layer_flag (a.nodal_positions i)
            (a.element_scale i) p).countx ∧
        t.2.c0 = (compute_surface_depths sqrt a one_layer_flag (a.nodal_positions i)
            (a.element_scale i) p).scalex ∧
        (∀ p', p' < n →
          (compute_surface_depths sqrt a one_layer_flag (a.nodal_positions i)
              (a.element_scale i) p').countx
            ≤ (compute_surface_depths sqrt a one_layer_flag (a.nodal_positions i)
              (a.element_scale i) p).countx) ∧
        ∀ p', p' < p →
          (compute_surface_depths sqrt a one_layer_flag (a.nodal_positions i)
              (a.element_scale i) p').countx
            < (compute_surface_depths sqrt a one_layer_flag (a.nodal_positions i)
              (a.element_scale i) p).countx) ∧
      (∃ p, p < n ∧
        t.1.i1 = (compute_surface_depths sqrt a one_layer_flag (a.nodal_positions i)
            (a.element_scale i) p).county ∧
        t.2.c1 = (compute_surface_depths sqrt a one_layer_flag (a.nodal_positions i)
            (a.element_scale i) p).scaley ∧
        (∀ p', p' < n →
          (compute_surface_depths sqrt a one_layer_flag (a.nodal_positions i)
              (a.element_scale i) p').county
            ≤ (compute_surface_depths sqrt a one_layer_flag (a.nodal_positions i)
              (a.element_scale i) p).county) ∧
        ∀ p', p' < p →
          (compute_surface_depths sqrt a one_layer_flag (a.nodal_positions i)
              (a.element_scale i) p').county
            < (compute_surface_depths sqrt a one_layer_flag (a.nodal_positions i)
              (a.element_scale i) p).county) ∧
      (∃ p, p < n ∧
        t.1.i2 = (compute_surface_depths sqrt a one_layer_flag (a.nodal_positions i)
            (a.element_scale i) p).countz ∧
        t.2.c2 = (compute_surface_depths sqrt a one_layer_flag (a.nodal_positions i)
            (a.element_scale i) p).scalez ∧
        (∀ p', p' < n →
          (compute_surface_depths sqrt a one_layer_flag (a.nodal_positions i)
              (a.element_scale i) p').countz
            ≤ (compute_surface_depths sqrt a one_layer_flag (a.nodal_positions i)
              (a.element_scale i) p).countz) ∧
        ∀ p', p' < p →
          (compute_surface_depths sqrt a one_layer_flag (a.nodal_positions i)
              (a.element_scale i) p').countz
            < (compute_surface_depths sqrt a one_layer_flag (a.nodal_positions i)
              (a.element_scale i) p).countz))
    (a.poly_count i)
    (fun current_poly_counter cs =>
      let sd := compute_surface_depths sqrt a one_layer_flag (a.nodal_positions i)
        (a.element_scale i) current_poly_counter
      if current_poly_counter = 0 then
        (⟨sd.countx, sd.county, sd.countz⟩, ⟨sd.scalex, sd.scaley, sd.scalez⟩)
      else
        let cs := if sd.countx > cs.1.i0
          then (({ cs.1 with i0 := sd.countx } : Int3), ({ cs.2 with c0 := sd.scalex } : Vec3))
          else cs
        let cs := if sd.county > cs.1.i1
          then (({ cs.1 with i1 := sd.county } : Int3), ({ cs.2 with c1 := sd.scaley } : Vec3))
          else cs
        let cs := if sd.countz > cs.1.i2
          then (({ cs.1 with i2 := sd.countz } : Int3), ({ cs.2 with c2 := sd.scalez } : Vec3))
          else cs
        cs) cs
    (fun h => absurd h (lt_irrefl 0))
    (by
      intro n _ t ht _
      by_cases hn : n = 0
      · subst hn
        simp only [if_true]
        have hz : ∀ p', p' < 0 + 1 → p' = 0 := fun p' hp' => by omega
        refine ⟨⟨0, by omega, rfl, rfl, ?_, ?_⟩, ⟨0, by omega, rfl, rfl, ?_, ?_⟩,
          ⟨0, by omega, rfl, rfl, ?_, ?_⟩⟩
        all_goals first
          | (intro p' hp'; rw [hz p' hp'])
          | (intro p' hp'; omega)
      · obtain ⟨t0, t1, t2⟩ := ht (Nat.pos_of_ne_zero hn)
        simp only [if_neg hn]
        obtain ⟨⟨e0, f0⟩, ⟨e1, f1⟩, ⟨e2, f2⟩⟩ := phase_step_proj
          (compute_surface_depths sqrt a one_layer_flag (a.nodal_positions i)
            (a.element_scale i) n) t
        simp only [] at e0 f0 e1 f1 e2 f2
        rw [e0, f0, e1, f1, e2, f2]
        exact ⟨argmax_step (fun p => (compute_surface_depths sqrt a one_layer_flag
              (a.nodal_positions i) (a.element_scale i) p).countx)
            (fun p => (compute_surface_depths sqrt a one_layer_flag
              (a.nodal_positions i) (a.element_scale i) p).scalex) n _ _ t0,
          argmax_step (fun p => (compute_surface_depths sqrt a one_layer_flag
              (a.nodal_positions i) (a.element_scale i) p).county)
            (fun p => (compute_surface_depths sqrt a one_layer_flag
              (a.nodal_positions i) (a.element_scale i) p).scaley) n _ _ t1,
          argmax_step (fun p => (compute_surface_depths sqrt a one_layer_flag
              (a.nodal_positions i) (a.element_scale i) p).countz)
            (fun p => (compute_surface_depths sqrt a one_layer_flag
              (a.nodal_positions i) (a.element_scale i) p).scalez) n _ _ t2⟩)
  exact key hpc

/-- C37: after `bin_atoms_setup`, for every local extended entity `i` with at
least one phase and for every axis, `surface_counts[i]` is the largest layer
count that `compute_surface_depths` returns over the phases of the entity,
`interior_scales[i]` is the interior factor of the first phase attaining that
count, and `surface_counts_max` is at least `surface_counts[i]`. -/
theorem bin_atoms_setup_surface_counts (sqrt : ℚ → ℚ) (a : Atom)
    (one_layer_flag maxpoly quad_rule_initialized : Nat) (q : Quad) (scm : Int3) (i : Nat)
    (hi : i < a.nlocal) (hty : a.element_type i ≠ 0) (hpc : 1 ≤ a.poly_count i) :
    (∃ p, p < a.poly_count i ∧
      ((bin_atoms_setup_quad sqrt a one_layer_flag maxpoly quad_rule_initialized q scm).quad.surface_counts i).i0
        = (compute_surface_depths sqrt a one_layer_flag (a.nodal_positions i)
            (a.element_scale i) p).countx ∧
      ((bin_atoms_setup_quad sqrt a one_layer_flag maxpoly quad_rule_initialized q scm).quad.interior_scales i).c0
        = (compute_surface_depths sqrt a one_layer_flag (a.nodal_positions i)
            (a.element_scale i) p).scalex ∧
      (∀ p', p' < a.poly_count i →
        (compute_surface_depths sqrt a one_layer_flag (a.nodal_positions i)
            (a.element_scale i) p').countx
          ≤ (compute_surface_depths sqrt a one_layer_flag (a.nodal_positions i)
            (a.element_scale i) p).countx) ∧
      ∀ p', p' < p →
        (compute_surface_depths sqrt a one_layer_flag (a.nodal_positions i)
            (a.element_scale i) p').countx
          < (compute_surface_depths sqrt a one_layer_flag (a.nodal_positions i)
            (a.element_scale i) p).countx) ∧
    (∃ p, p < a.poly_count i ∧
      ((bin_atoms_setup_quad sqrt a one_layer_flag maxpoly quad_rule_initialized q scm).quad.surface_counts i).i1
        = (compute_surface_depths sqrt a one_layer_flag (a.nodal_positions i)
            (a.element_scale i) p).county ∧
      ((bin_atoms_setup_quad sqrt a one_layer_flag maxpoly quad_rule_initialized q scm).quad.interior_scales i).c1
        = (compute_surface_depths sqrt a one_layer_flag (a.nodal_positions i)
            (a.element_scale i) p).scaley ∧
      (∀ p', p' < a.poly_count i →
        (compute_surface_depths sqrt a one_layer_flag (a.nodal_positions i)
            (a.element_scale i) p').county
          ≤ (compute_surface_depths sqrt a one_layer_flag (a.nodal_positions i)
            (a.element_scale i) p).county) ∧
      ∀ p', p' < p →
        (compute_surface_depths sqrt a one_layer_flag (a.nodal_positions i)
            (a.element_scale i) p').county
          < (compute_surface_depths sqrt a one_layer_flag (a.nodal_positions i)
            (a.element_scale i) p).county) ∧
    (∃ p, p < a.poly_count i ∧
      ((bin_atoms_setup_quad sqrt a one_layer_flag maxpoly quad_rule_initialized q scm).quad.surface_counts i).i2
        = (compute_surface_depths sqrt a one_layer_flag (a.nodal_positions i)
            (a.element_scale i) p).countz ∧
      ((bin_atoms_setup_quad sqrt a one_layer_flag maxpoly quad_rule_initialized q scm).quad.interior_scales i).c2
        = (compute_surface_depths sqrt a one_layer_flag (a.nodal_positions i)
            (a.element_scale i) p).scalez ∧
      (∀ p', p' < a.poly_count i →
        (compute_surface_depths sqrt a one_layer_flag (a.nodal_positions i)
            (a.element_scale i) p').countz
          ≤ (compute_surface_depths sqrt a one_layer_flag (a.nodal_positions i)
            (a.element_scale i) p).countz) ∧
      ∀ p', p' < p →
        (compute_surface_depths sqrt a one_layer_flag (a.nodal_positions i)
            (a.element_scale i) p').countz
          < (compute_surface_depths sqrt a one_layer_flag (a.nodal_positions i)
            (a.element_scale i) p).countz) ∧
    ((bin_atoms_setup_quad sqrt a one_layer_flag maxpoly quad_rule_initialized q scm).quad.surface_counts i).i0
      ≤ (bin_atoms_setup_quad sqrt a one_layer_flag maxpoly quad_rule_initialized q scm).surface_counts_max.i0 ∧
    ((bin_atoms_setup_quad sqrt a one_layer_flag maxpoly quad_rule_initialized q scm).quad.surface_counts i).i1
      ≤ (bin_atoms_setup_quad sqrt a one_layer_flag maxpoly quad_rule_initialized q scm).surface_counts_max.i1 ∧
    ((bin_atoms_setup_quad sqrt a one_layer_flag maxpoly quad_rule_initialized q scm).quad.surface_counts i).i2
      ≤ (bin_atoms_setup_quad sqrt a one_layer_flag maxpoly quad_rule_initialized q scm).surface_counts_max.i2 := by
  obtain ⟨e1, e2, e3, -, -, -⟩ := bin_atoms_setup_quad_fields sqrt a one_layer_flag maxpoly
    quad_rule_initialized q scm
  obtain ⟨c1, c2, m0, m1, m2⟩ := (surface_counts_loop_spec sqrt a one_layer_flag
    (if quad_rule_initialized = 0 then quadrature_init 2 q else q).surface_counts
    (if quad_rule_initialized = 0 then quadrature_init 2 q else q).interior_scales
    scm).2.1 i hi hty
  rw [e1, e2, e3]
  refine ⟨?_, ?_, ?_, m0, m1, m2⟩
  · rw [c1, c2]
    exact (phase_surface_counts_spec sqrt a one_layer_flag i _ hpc).1
  · rw [c1, c2]
    exact (phase_surface_counts_spec sqrt a one_layer_flag i _ hpc).2.1
  · rw [c1, c2]
    exact (phase_surface_counts_spec sqrt a one_layer_flag i _ hpc).2.2

/-! ## Filing an extended entity into the cells of its overlap range -/

theorem insert_all_single (junk : Nat → Nat) (st : Store) (b : Int) (i : Nat) :
    insert_all junk [(b, i)] st = insert_member junk st b i := by
  simp only [insert_all]
  cases insert_member junk st b i <;> rfl

/-- A counted loop of list insertions is the insertion of the concatenated
lists. -/
theorem forLoop_insert_all (junk : Nat → Nat) (L : Nat → List (Int × Nat)) (n : Nat)
    (st : Store) :
    forLoop n (fun k acc => acc.bind (fun st => insert_all junk (L k) st)) (some st)
      = insert_all junk ((List.range n).flatMap L) st := by
  induction n with
  | zero => rfl
  | succ n ih =>
    rw [forLoop_succ, ih, List.range_succ, List.flatMap_append, insert_all_append]
    simp only [List.flatMap_cons, List.flatMap_nil, List.append_nil]

theorem flatMap_map_left {α β γ : Type} (l : List α) (f : α → β) (h : β → List γ) :
    (l.map f).flatMap h = l.flatMap (fun x => h (f x)) := by
  induction l with
  | nil => rfl
  | cons x xs ih => simp only [List.map_cons, List.flatMap_cons, ih]

theorem flatMap_singleton_map {α β : Type} (l : List α) (f : α → β) :
    l.flatMap (fun x => [f x]) = l.map f := by
  induction l with
  | nil => rfl
  | cons x xs ih => simp only [List.map_cons, List.flatMap_cons, ih, List.singleton_append]

/-- An inclusive integer loop of list insertions. -/
theorem forRangeM_insert_all (junk : Nat → Nat) (lo hi : Int) (L : Int → List (Int × Nat))
    (st : Store) :
    forRangeM lo hi (fun k st => insert_all junk (L k) st) st
      = insert_all junk ((int_range lo hi).flatMap L) st := by
  have h := forLoop_insert_all junk (fun k => L (lo + (k : Int))) (hi + 1 - lo).toNat st
  have e := flatMap_map_left (List.range (hi + 1 - lo).toNat) (fun k : Nat => lo + (k : Int)) L
  unfold forRangeM int_range
  rw [e]
  exact h

/-- The triple loop over `bin_overlap_limits` inserts the entity once for every
triple of the range, in the order of the loop. -/
theorem overlap_loop_insert_all (junk : Nat → Nat) (g : Grid) (i : Nat) (lim : Limits)
    (st : Store) :
    forRangeM lim.l0 lim.l3 (fun overlapx st =>
      forRangeM lim.l1 lim.l4 (fun overlapy st =>
        forRangeM lim.l2 lim.l5 (fun overlapz st =>
          insert_member junk st (flat_bin g overlapx overlapy overlapz) i) st) st) st
      = insert_all junk ((range_cells g lim).map (fun b => (b, i))) st := by
  have h3 : ∀ ox oy st, forRangeM lim.l2 lim.l5 (fun overlapz st =>
      insert_member junk st (flat_bin g ox oy overlapz) i) st
      = insert_all junk ((int_range lim.l2 lim.l5).flatMap
          (fun oz => [(flat_bin g ox oy oz, i)])) st := by
    intro ox oy st
    rw [← forRangeM_insert_all]
    simp only [insert_all_single]
  have h2 : ∀ ox st, forRangeM lim.l1 lim.l4 (fun overlapy st =>
      forRangeM lim.l2 lim.l5 (fun overlapz st =>
        insert_member junk st (flat_bin g ox overlapy overlapz) i) st) st
      = insert_all junk ((int_range lim.l1 lim.l4).flatMap (fun oy =>
          (int_range lim.l2 lim.l5).flatMap (fun oz => [(flat_bin g ox oy oz, i)]))) st := by
    intro ox st
    rw [← forRangeM_insert_all]
    simp only [h3]
  simp only [h2]
  rw [forRangeM_insert_all]
  simp only [range_cells, List.map_flatMap, flatMap_singleton_map, List.map_map,
    Function.comp_def]

/-- The quadrature part of the loop body of `bin_atoms` leaves the store and the
overlap limits alone. -/
theorem quad2bin_loop_frame (g : Grid) (n : Nat) (s0 : BinState) :
    (forLoop n (fun iquad (s : BinState) =>
      { s with quad2bin := s.quad2bin ++ [quad2bins g (s.current_element_quad_points iquad)] })
      s0).store = s0.store ∧
    (forLoop n (fun iquad (s : BinState) =>
      { s with quad2bin := s.quad2bin ++ [quad2bins g (s.current_element_quad_points iquad)] })
      s0).bin_overlap_limits = s0.bin_overlap_limits := by
  induction n with
  | zero => exact ⟨rfl, rfl⟩
  | succ n ih => exact ih

/-- The store after the loop body of `bin_atoms` for an extended entity: the
entity is inserted once for every triple of the range that `element2bins` has
just stored, in the order of the triple loop. -/
theorem bin_entity_store_range (junk : Nat → Nat) (g : Grid) (a : Atom) (q : Quad)
    (group : Bool) (i : Nat) (s : BinState) (ht : a.element_type i ≠ 0) :
    (bin_entity junk g a q group i s).map (fun t => t.store)
      = insert_all junk
          ((range_cells g (element2bins g a i s.bin_overlap_limits).2).map (fun b => (b, i)))
          s.store := by
  unfold bin_entity
  simp only []
  simp only [ht, if_false]
  by_cases hl : i < a.nlocal <;> by_cases hg : group = true <;>
    simp [hl, hg, ht, (quad2bin_loop_frame g _ _).1, (quad2bin_loop_frame g _ _).2,
      Option.map_map, Function.comp_def, overlap_loop_insert_all]

/-- The overlap limits after the loop body of `bin_atoms`: those that
`element2bins` returns. -/
theorem bin_entity_limits (junk : Nat → Nat) (g : Grid) (a : Atom) (q : Quad)
    (group : Bool) (i : Nat) (s t : BinState) (h : bin_entity junk g a q group i s = some t) :
    t.bin_overlap_limits = (element2bins g a i s.bin_overlap_limits).2 := by
  unfold bin_entity at h
  simp only [] at h
  by_cases ht : a.element_type i = 0 <;> by_cases hl : i < a.nlocal <;>
    by_cases hg : group = true <;>
    simp only [ht, hl, hg, if_true, if_false, Option.map_eq_some', ne_eq, not_true_eq_false,
      not_false_eq_true, Bool.false_eq_true] at h <;>
    obtain ⟨st, -, rfl⟩ := h <;>
    simp [(quad2bin_loop_frame g _ _).2]

theorem int_range_single (lo : Int) : int_range lo lo = [lo] := by
  have h : (lo + 1 - lo).toNat = 1 := by
    have : lo + 1 - lo = 1 := by ring
    rw [this]; rfl
  unfold int_range
  rw [h]
  simp [List.range_succ]

/-- The range that `element2bins` stores for an extended entity holds a single
triple: its upper limits repeat the lower ones. -/
theorem range_cells_element2bins (g : Grid) (a : Atom) (i : Nat) (lim : Limits)
    (ht : a.element_type i ≠ 0) :
    range_cells g (element2bins g a i lim).2 = [home_cell g a i] := by
  rw [element2bins_limits g a i lim ht]
  simp only [range_cells, int_range_single, List.flatMap_cons, List.flatMap_nil, List.map_cons,
    List.map_nil, List.append_nil, home_cell, if_neg ht]

/-- C32: for an extended entity `i`, the loop body of `bin_atoms` (in each of its
three entity loops) inserts `i` once for every integer triple of the inclusive
range from `bin_overlap_limits[0..2]` to `bin_overlap_limits[3..5]` that
`element2bins(i)` has just set, in the order of the triple loop, and into no
other cell; that range holds the single triple `(ixl, iyl, izl)`.  For a point
entity `j` the body inserts `j` into the cell of `x[j]` whatever range the
limits hold, and leaves the limits as they are.  After `bin_atoms` with no
include-group, on a store that covers the grid, `i` occurs in a cell as often as
the cell id occurs among the triples of its range, and a point entity once in
the cell of its position only. -/
theorem bin_atoms_extended_range (junk : Nat → Nat) (g : Grid) (a : Atom) (q : Quad)
    (bitmask : Nat) (s : BinState)
    (hmb : g.mbins ≤ s.store.maxbin) (hcap : s.store.CapInv)
    (hrange : ∀ i, i < a.nlocal + a.nghost →
      0 ≤ home_cell g a i ∧ home_cell g a i < (g.mbins : Int)) :
    (∀ i, a.element_type i ≠ 0 → ∀ (group : Bool) (t : BinState),
      (bin_entity junk g a q group i t).map (fun t' => t'.store)
        = insert_all junk
            ((range_cells g (element2bins g a i t.bin_overlap_limits).2).map (fun b => (b, i)))
            t.store ∧
      (∀ t', bin_entity junk g a q group i t = some t' →
        t'.bin_overlap_limits = (element2bins g a i t.bin_overlap_limits).2) ∧
      range_cells g (element2bins g a i t.bin_overlap_limits).2
        = [flat_bin g (element2bins g a i t.bin_overlap_limits).2.l0
            (element2bins g a i t.bin_overlap_limits).2.l1
            (element2bins g a i t.bin_overlap_limits).2.l2]) ∧
    (∀ j, a.element_type j = 0 → ∀ (group : Bool) (t : BinState) (lim : Limits),
      (bin_entity junk g a q group j { t with bin_overlap_limits := lim }).map
          (fun t' => t'.store)
        = insert_member junk t.store (quad2bins g (a.x j)) j ∧
      ∀ t', bin_entity junk g a q group j { t with bin_overlap_limits := lim } = some t' →
        t'.bin_overlap_limits = lim) ∧
    ∃ s', bin_atoms junk g a q 0 bitmask s = some s' ∧
      (∀ i, i < a.nlocal + a.nghost → a.element_type i ≠ 0 →
        ∀ (lim : Limits) (b : Nat), b < g.mbins →
          (s'.store.members b).count i
            = (range_cells g (element2bins g a i lim).2).count (b : Int)) ∧
      (∀ j, j < a.nlocal + a.nghost → a.element_type j = 0 →
        ∀ b, b < g.mbins →
          (s'.store.members b).count j = if (b : Int) = quad2bins g (a.x j) then 1 else 0) := by
  have hord : bin_order a 0 bitmask = List.range (a.nlocal + a.nghost) := by
    simp [bin_order]
  obtain ⟨s', hs, _, _, _, hmem, _⟩ := bin_atoms_spec junk g a q 0 bitmask s hmb hcap
    (by rw [hord]; intro i hi; exact hrange i (List.mem_range.mp hi))
  have hcount : ∀ i, i < a.nlocal + a.nghost → ∀ b, b < g.mbins →
      (s'.store.members b).count i = if (b : Int) = home_cell g a i then 1 else 0 := by
    intro i hi b hb
    rw [hmem b hb, hord]
    have hnd : ((List.range (a.nlocal + a.nghost)).filter
        (fun i => home_cell g a i = (b : Int))).Nodup := (List.nodup_range _).filter _
    by_cases hc : (b : Int) = home_cell g a i
    · rw [if_pos hc]
      apply List.count_eq_one_of_mem hnd
      rw [List.mem_filter]
      exact ⟨List.mem_range.mpr hi, by simp [hc]⟩
    · rw [if_neg hc]
      apply List.count_eq_zero_of_not_mem
      rw [List.mem_filter]
      rintro ⟨_, h⟩
      simp only [decide_eq_true_eq] at h
      exact hc h.symm
  refine ⟨?_, ?_, s', hs, ?_, ?_⟩
  · intro i ht group t
    refine ⟨bin_entity_store_range junk g a q group i t ht,
      fun t' h => bin_entity_limits junk g a q group i t t' h, ?_⟩
    rw [range_cells_element2bins g a i _ ht, element2bins_limits g a i _ ht]
    simp only [home_cell, if_neg ht]
  · intro j ht group t lim
    refine ⟨?_, ?_⟩
    · rw [bin_entity_store]
      simp only [home_cell, if_pos ht]
    · intro t' h
      rw [bin_entity_limits junk g a q group j _ t' h, element2bins_limits_point g a j _ ht]
  · intro i hi ht lim b hb
    rw [hcount i hi b hb, range_cells_element2bins g a i lim ht]
    by_cases hc : (b : Int) = home_cell g a i
    · rw [if_pos hc, hc]
      simp
    · rw [if_neg hc]
      symm
      apply List.count_eq_zero_of_not_mem
      simp only [List.mem_singleton]
      exact hc
  · intro j hj ht b hb
    rw [hcount j hj b hb]
    simp only [home_cell, if_pos ht]

/-! ## The declared scale is not checked -/

/-- The surface counts `bin_atoms_setup` stores for a local single-phase
extended entity are those `compute_surface_depths` returns for its stored
scale. -/
theorem bin_atoms_setup_quad_single_phase (sqrt : ℚ → ℚ) (a : Atom)
    (one_layer_flag maxpoly quad_rule_initialized : Nat) (q : Quad) (scm : Int3) (i : Nat)
    (hi : i < a.nlocal) (hty : a.element_type i ≠ 0) (hpc : a.poly_count i = 1) :
    (bin_atoms_setup_quad sqrt a one_layer_flag maxpoly quad_rule_initialized q
        scm).quad.surface_counts i
      = ⟨(compute_surface_depths sqrt a one_layer_flag (a.nodal_positions i)
            (a.element_scale i) 0).countx,
         (compute_surface_depths sqrt a one_layer_flag (a.nodal_positions i)
            (a.element_scale i) 0).county,
         (compute_surface_depths sqrt a one_layer_flag (a.nodal_positions i)
            (a.element_scale i) 0).countz⟩ ∧
    (bin_atoms_setup_quad sqrt a one_layer_flag maxpoly quad_rule_initialized q
        scm).quad.interior_scales i
      = ⟨(compute_surface_depths sqrt a one_layer_flag (a.nodal_positions i)
            (a.element_scale i) 0).scalex,
         (compute_surface_depths sqrt a one_layer_flag (a.nodal_positions i)
            (a.element_scale i) 0).scaley,
         (compute_surface_depths sqrt a one_layer_flag (a.nodal_positions i)
            (a.element_scale i) 0).scalez⟩ := by
  obtain ⟨f1, f2, -⟩ := bin_atoms_setup_quad_fields sqrt a one_layer_flag maxpoly
    quad_rule_initialized q scm
  obtain ⟨g1, g2, -⟩ := (surface_counts_loop_spec sqrt a one_layer_flag
    (if quad_rule_initialized = 0 then quadrature_init 2 q else q).surface_counts
    (if quad_rule_initialized = 0 then quadrature_init 2 q else q).interior_scales
    scm).2.1 i hi hty
  rw [f1, f2, g1, g2, phase_surface_counts_one _ _ _ _ _ hpc]
  exact ⟨rfl, rfl⟩

/-- C31: an `Eight_Node` line that declares the scale `(0, 4, 4)` is accepted by
`data_atom`, which stores the entity as an extended entity with that scale; and
`bin_atoms_setup`, run on a configuration whose local extended entity 0 has the
stored scale `(0, 4, 4)`, reports nothing and stores for it the layer counts
that `compute_surface_depths` returns for that scale. -/
theorem ex_zero_scale_accepted :
    (∃ s, data_atom 1 8 1 (fun t => if t = 0 then 1 else 8) ex_zero_scale_line ex_slot
        = Except.ok s ∧
      s.element_type = 1 ∧ s.element_scale = ⟨0, 4, 4⟩) ∧
    0 < ex_zero_scale_atom.nlocal ∧ ex_zero_scale_atom.element_type 0 ≠ 0 ∧
    ex_zero_scale_atom.element_scale 0 = ⟨0, 4, 4⟩ ∧
    (bin_atoms_setup_quad Rat.sqrt ex_zero_scale_atom 0 1 0 ex_quad ⟨0, 0, 0⟩).quad.surface_counts 0
      = ⟨(compute_surface_depths Rat.sqrt ex_zero_scale_atom 0
            (ex_zero_scale_atom.nodal_positions 0) ⟨0, 4, 4⟩ 0).countx,
         (compute_surface_depths Rat.sqrt ex_zero_scale_atom 0
            (ex_zero_scale_atom.nodal_positions 0) ⟨0, 4, 4⟩ 0).county,
         (compute_surface_depths Rat.sqrt ex_zero_scale_atom 0
            (ex_zero_scale_atom.nodal_positions 0) ⟨0, 4, 4⟩ 0).countz⟩ :=
  ⟨⟨_, rfl, rfl, rfl⟩, by decide, by decide, rfl,
    (bin_atoms_setup_quad_single_phase Rat.sqrt ex_zero_scale_atom 0 1 0 ex_quad ⟨0, 0, 0⟩ 0
      (by decide) (by decide) rfl).1⟩

theorem ex_zero_scale_slot_ok :
    data_atom 1 8 1 (fun t => if t = 0 then 1 else 8) ex_zero_scale_line ex_slot
      = Except.ok ex_zero_scale_slot := rfl

/-- The element of `ex_fine_atom` has positive node spacing in its phase and a
cutoff at least the skin. -/
theorem ex_fine_normal_mode :
    ex_fine_atom.CAC_skin ≤ ex_fine_atom.CAC_cut ∧
    ∀ p, p < ex_fine_atom.poly_count 0 →
      0 < Rat.sqrt (ds_sq (ex_fine_atom.nodal_positions 0) p) ∧
      0 < Rat.sqrt (dt_sq (ex_fine_atom.nodal_positions 0) p) ∧
      0 < Rat.sqrt (dw_sq (ex_fine_atom.nodal_positions 0) p) := by
  refine ⟨by simp only [ex_fine_atom]; norm_num, ?_⟩
  intro p hp
  have hp1 : p < 1 := hp
  have hp0 : p = 0 := by omega
  subst hp0
  refine ⟨?_, ?_, ?_⟩
  · rw [(ex_fine_spacing ex_fine_atom rfl).1, rat_sqrt_sq _ (by norm_num)]; norm_num
  · rw [(ex_fine_spacing ex_fine_atom rfl).2.1, rat_sqrt_sq _ (by norm_num)]; norm_num
  · rw [(ex_fine_spacing ex_fine_atom rfl).2.2, rat_sqrt_sq _ (by norm_num)]; norm_num

/-- A successful run of a counted loop with errors keeps an invariant of its
successful steps. -/
theorem forLoopE_inv {ε σ : Type} (P : σ → Prop) (body : Nat → σ → Except ε σ)
    (hb : ∀ i s t, P s → body i s = Except.ok t → P t) (n : Nat) (s t : σ) (hs : P s)
    (h : forLoopE n body s = Except.ok t) : P t := by
  induction n generalizing t with
  | zero =>
    have e : Except.ok s = (Except.ok t : Except ε σ) := h
    injection e with e
    exact e ▸ hs
  | succ n ih =>
    have e : (forLoopE n body s).bind (body n) = Except.ok t := h
    cases h1 : forLoopE n body s with
    | error x => rw [h1] at e; cases e
    | ok s1 =>
      rw [h1] at e
      exact hb n s1 t (ih s1 h1) e

/-- Two counted loops with errors whose successful steps respect a relation
between the states: when the first loop succeeds, so does the second, in a
related state. -/
theorem forLoopE_rel {ε σ : Type} (R : σ → σ → Prop) (body body' : Nat → σ → Except ε σ)
    (hb : ∀ i s s' t, R s s' → body i s = Except.ok t →
      ∃ t', body' i s' = Except.ok t' ∧ R t t')
    (n : Nat) (s s' t : σ) (hs : R s s') (h : forLoopE n body s = Except.ok t) :
    ∃ t', forLoopE n body' s' = Except.ok t' ∧ R t t' := by
  induction n generalizing t with
  | zero =>
    have e : Except.ok s = (Except.ok t : Except ε σ) := h
    injection e with e
    exact ⟨s', rfl, e ▸ hs⟩
  | succ n ih =>
    have e : (forLoopE n body s).bind (body n) = Except.ok t := h
    cases h1 : forLoopE n body s with
    | error x => rw [h1] at e; cases e
    | ok s1 =>
      rw [h1] at e
      obtain ⟨s1', e1, r1⟩ := ih s1 h1
      obtain ⟨t', e2, r2⟩ := hb n s1 s1' t r1 e
      refine ⟨t', ?_, r2⟩
      show (forLoopE n body' s').bind (body' n) = Except.ok t'
      rw [e1]
      exact e2

theorem with_scale_ints (line : DataLine) (z : Int3) (k : Nat) (hk : k < 3 ∨ 6 ≤ k) :
    (with_scale line z).ints k = line.ints k := by
  have h3 : k ≠ 3 := by omega
  have h4 : k ≠ 4 := by omega
  have h5 : k ≠ 5 := by omega
  simp only [with_scale, if_neg h3, if_neg h4, if_neg h5]

/-- A node record read from `values[m]` on, `m ≥ 6`, does not involve the scale
entries of the line nor the scale stored in the slot. -/
theorem read_node_with_scale (line : DataLine) (z : Int3) (nodetotal npoly ntypes : Int)
    (st t : Nat × ElementSlot) (hm : 6 ≤ st.1)
    (h : read_node line nodetotal npoly ntypes st = Except.ok t) :
    read_node (with_scale line z) nodetotal npoly ntypes
        (st.1, { st.2 with element_scale := z })
      = Except.ok (t.1, { t.2 with element_scale := z }) ∧
    6 ≤ t.1 ∧ t.2.element_type = st.2.element_type ∧ t.2.element_scale = st.2.element_scale ∧
    t.2.tag = st.2.tag ∧ t.2.type = st.2.type ∧ t.2.poly_count = st.2.poly_count := by
  obtain ⟨m, slot⟩ := st
  simp only [] at hm
  unfold read_node at h ⊢
  simp only [with_scale_ints line z m (Or.inr hm),
    with_scale_ints line z (m + 1) (Or.inr (by omega)),
    with_scale_ints line z (m + 2) (Or.inr (by omega))] at h ⊢
  by_cases c1 : line.ints m ≤ 0 ∨ line.ints m > nodetotal
  · rw [if_pos c1] at h; cases h
  · rw [if_neg c1] at h ⊢
    by_cases c2 : line.ints (m + 1) ≤ 0 ∨ line.ints (m + 1) > npoly
    · rw [if_pos c2] at h; cases h
    · rw [if_neg c2] at h ⊢
      by_cases c3 : line.ints (m + 2) ≤ 0 ∨ line.ints (m + 2) > ntypes
      · rw [if_pos c3] at h; cases h
      · rw [if_neg c3] at h ⊢
        by_cases c4 : slot.node_types (line.ints (m + 1) - 1).toNat = 0 ∨
            slot.node_types (line.ints (m + 1) - 1).toNat = line.ints (m + 2)
        · rw [if_pos c4] at h
          rw [if_pos c4]
          injection h with h
          subst h
          exact ⟨rfl, by simp only []; omega, rfl, rfl, rfl, rfl, rfl⟩
        · rw [if_neg c4] at h; cases h

theorem data_atom_eight_node (maxpoly nodes_per_element ntypes : Int)
    (nodes_count_list : Nat → Int) (line : DataLine) (slot s : ElementSlot)
    (he : line.element_type_read = "Eight_Node")
    (h : data_atom maxpoly nodes_per_element ntypes nodes_count_list line slot = Except.ok s) :
    ¬ line.ints 2 > maxpoly ∧ ¬ nodes_count_list 1 > nodes_per_element ∧
    ∃ st, forLoopE (nodes_count_list 1).toNat (fun _nodecount st =>
        forLoopE (line.ints 2).toNat (fun _polycount st =>
          read_node line (nodes_count_list 1) (line.ints 2) ntypes st) st)
        (6, forLoop (line.ints 2).toNat (fun polycount (slot : ElementSlot) =>
          { slot with node_types := Function.update slot.node_types polycount 0 })
          { slot with tag := line.ints 0, type := 1, element_type := 1,
                      poly_count := line.ints 2,
                      element_scale := ⟨line.ints 3, line.ints 4, line.ints 5⟩ })
      = Except.ok st ∧ st.2 = s := by
  unfold data_atom at h
  simp only [] at h
  by_cases c1 : line.ints 2 > maxpoly
  · rw [if_pos c1] at h; cases h
  · rw [if_neg c1, if_pos he] at h
    by_cases c2 : nodes_count_list 1 > nodes_per_element
    · simp only [Except.bind, if_pos c2] at h
      cases h
    · simp only [Except.bind, if_neg c2] at h
      refine ⟨c1, c2, ?_⟩
      revert h
      generalize forLoopE (nodes_count_list 1).toNat _ _ = r
      intro h
      cases r with
      | error x => cases h
      | ok st =>
        refine ⟨st, rfl, ?_⟩
        have e : Except.ok st.2 = (Except.ok s : Except (DataFailure × ElementSlot) ElementSlot) := h
        injection e

theorem data_atom_eight_node_ok (maxpoly nodes_per_element ntypes : Int)
    (nodes_count_list : Nat → Int) (line : DataLine) (slot : ElementSlot)
    (st : Nat × ElementSlot)
    (he : line.element_type_read = "Eight_Node")
    (c1 : ¬ line.ints 2 > maxpoly) (c2 : ¬ nodes_count_list 1 > nodes_per_element)
    (h : forLoopE (nodes_count_list 1).toNat (fun _nodecount st =>
        forLoopE (line.ints 2).toNat (fun _polycount st =>
          read_node line (nodes_count_list 1) (line.ints 2) ntypes st) st)
        (6, forLoop (line.ints 2).toNat (fun polycount (slot : ElementSlot) =>
          { slot with node_types := Function.update slot.node_types polycount 0 })
          { slot with tag := line.ints 0, type := 1, element_type := 1,
                      poly_count := line.ints 2,
                      element_scale := ⟨line.ints 3, line.ints 4, line.ints 5⟩ })
      = Except.ok st) :
    data_atom maxpoly nodes_per_element ntypes nodes_count_list line slot = Except.ok st.2 := by
  unfold data_atom
  simp only []
  rw [if_neg c1, if_pos he]
  simp only [Except.bind, if_neg c2]
  rw [h]
  rfl

/-- Zeroing the node types of the phases commutes with a change of the stored
scale, and keeps the other fields. -/
theorem zero_node_types_frame (n : Nat) (slot : ElementSlot) (z : Int3) :
    forLoop n (fun polycount (slot : ElementSlot) =>
        { slot with node_types := Function.update slot.node_types polycount 0 })
        { slot with element_scale := z }
      = { forLoop n (fun polycount (slot : ElementSlot) =>
          { slot with node_types := Function.update slot.node_types polycount 0 }) slot
          with element_scale := z } ∧
    (forLoop n (fun polycount (slot : ElementSlot) =>
        { slot with node_types := Function.update slot.node_types polycount 0 })
        slot).element_scale = slot.element_scale ∧
    (forLoop n (fun polycount (slot : ElementSlot) =>
        { slot with node_types := Function.update slot.node_types polycount 0 })
        slot).element_type = slot.element_type := by
  induction n with
  | zero => exact ⟨rfl, rfl, rfl⟩
  | succ n ih =>
    obtain ⟨i1, i2, i3⟩ := ih
    refine ⟨?_, i2, i3⟩
    rw [forLoop_succ, i1]
    rfl

/-- C31 (as the code has it): `data_atom` does not examine the declared scale.
When it accepts an `Eight_Node` line, the entity is stored as an extended
entity (element type 1) with the scale `(values[3], values[4], values[5])` as
read, and the same line with any other scale entries `z`, zero included, is
accepted too and stored with the scale `z`, all other fields being the same.
`bin_atoms_setup` then hands the stored scale of a local extended entity to
`compute_surface_depths` with no test in between: for a single-phase entity
`surface_counts[i]` and `interior_scales[i]` are the values
`compute_surface_depths` returns for that scale. -/
theorem data_atom_scale_unchecked (maxpoly nodes_per_element ntypes : Int)
    (nodes_count_list : Nat → Int) (line : DataLine) (slot s : ElementSlot) (z : Int3)
    (he : line.element_type_read = "Eight_Node")
    (h : data_atom maxpoly nodes_per_element ntypes nodes_count_list line slot = Except.ok s) :
    s.element_type = 1 ∧
    s.element_scale = ⟨line.ints 3, line.ints 4, line.ints 5⟩ ∧
    data_atom maxpoly nodes_per_element ntypes nodes_count_list (with_scale line z) slot
      = Except.ok { s with element_scale := z } ∧
    ∀ (sqrt : ℚ → ℚ) (a : Atom) (one_layer_flag maxpoly' quad_rule_initialized : Nat) (q : Quad)
      (scm : Int3) (i : Nat), i < a.nlocal → a.element_type i ≠ 0 → a.poly_count i = 1 →
      (bin_atoms_setup_quad sqrt a one_layer_flag maxpoly' quad_rule_initialized q
          scm).quad.surface_counts i
        = ⟨(compute_surface_depths sqrt a one_layer_flag (a.nodal_positions i)
              (a.element_scale i) 0).countx,
           (compute_surface_depths sqrt a one_layer_flag (a.nodal_positions i)
              (a.element_scale i) 0).county,
           (compute_surface_depths sqrt a one_layer_flag (a.nodal_positions i)
              (a.element_scale i) 0).countz⟩ ∧
      (bin_atoms_setup_quad sqrt a one_layer_flag maxpoly' quad_rule_initialized q
          scm).quad.interior_scales i
        = ⟨(compute_surface_depths sqrt a one_layer_flag (a.nodal_positions i)
              (a.element_scale i) 0).scalex,
           (compute_surface_depths sqrt a one_layer_flag (a.nodal_positions i)
              (a.element_scale i) 0).scaley,
           (compute_surface_depths sqrt a one_layer_flag (a.nodal_positions i)
              (a.element_scale i) 0).scalez⟩ := by
  obtain ⟨c1, c2, st, hst, rfl⟩ := data_atom_eight_node maxpoly nodes_per_element ntypes
    nodes_count_list line slot s he h
  -- fields kept by the node loops
  have hinner : ∀ (n : Nat) (u t : Nat × ElementSlot), 6 ≤ u.1 →
      forLoopE n (fun _polycount st =>
        read_node line (nodes_count_list 1) (line.ints 2) ntypes st) u = Except.ok t →
      (6 ≤ t.1 ∧ t.2.element_type = u.2.element_type ∧
        t.2.element_scale = u.2.element_scale) ∧
      forLoopE n (fun _polycount st =>
        read_node (with_scale line z) (nodes_count_list 1) (line.ints 2) ntypes st)
          (u.1, { u.2 with element_scale := z })
        = Except.ok (t.1, { t.2 with element_scale := z }) := by
    intro n u t hu ht
    refine ⟨?_, ?_⟩
    · exact forLoopE_inv (fun v => 6 ≤ v.1 ∧ v.2.element_type = u.2.element_type ∧
          v.2.element_scale = u.2.element_scale) _
        (fun _ v w hv hw => by
          obtain ⟨-, w1, w2, w3, -⟩ := read_node_with_scale line z _ _ _ v w hv.1 hw
          exact ⟨w1, w2.trans hv.2.1, w3.trans hv.2.2⟩) n u t ⟨hu, rfl, rfl⟩ ht
    · obtain ⟨t', e1, r1, r2, r3⟩ := forLoopE_rel
        (fun (v v' : Nat × ElementSlot) => v'.1 = v.1 ∧ 6 ≤ v.1 ∧
          v'.2 = { v.2 with element_scale := z }) _
        (fun _polycount st =>
          read_node (with_scale line z) (nodes_count_list 1) (line.ints 2) ntypes st)
        (fun _ v v' w hv hw => by
          obtain ⟨w0, w1, -⟩ := read_node_with_scale line z _ _ _ v w hv.2.1 hw
          refine ⟨(w.1, { w.2 with element_scale := z }), ?_, rfl, w1, rfl⟩
          obtain ⟨v1, v2⟩ := v'
          obtain ⟨hv1, -, hv2⟩ := hv
          simp only [] at hv1 hv2
          subst hv1 hv2
          exact w0) n u (u.1, { u.2 with element_scale := z }) t ⟨rfl, hu, rfl⟩ ht
      rw [e1]
      obtain ⟨t1, t2⟩ := t'
      simp only [] at r1 r3
      subst r1 r3
      rfl
  have houter := forLoopE_inv (fun v : Nat × ElementSlot => 6 ≤ v.1 ∧
      v.2.element_type = 1 ∧
      v.2.element_scale = ⟨line.ints 3, line.ints 4, line.ints 5⟩) _
    (fun _ v w hv hw => by
      obtain ⟨⟨w1, w2, w3⟩, -⟩ := hinner (line.ints 2).toNat v w hv.1 hw
      exact ⟨w1, w2.trans hv.2.1, w3.trans hv.2.2⟩) (nodes_count_list 1).toNat
    (6, forLoop (line.ints 2).toNat (fun polycount (slot : ElementSlot) =>
          { slot with node_types := Function.update slot.node_types polycount 0 })
          { slot with tag := line.ints 0, type := 1, element_type := 1,
                      poly_count := line.ints 2,
                      element_scale := ⟨line.ints 3, line.ints 4, line.ints 5⟩ }) st
    ⟨le_refl 6, (zero_node_types_frame _ _ z).2.2, (zero_node_types_frame _ _ z).2.1⟩ hst
  obtain ⟨t', e1, r1, r2, r3⟩ := forLoopE_rel
    (fun (v v' : Nat × ElementSlot) => v'.1 = v.1 ∧ 6 ≤ v.1 ∧
      v'.2 = { v.2 with element_scale := z }) _
    (fun _nodecount st =>
      forLoopE (line.ints 2).toNat (fun _polycount st =>
        read_node (with_scale line z) (nodes_count_list 1) (line.ints 2) ntypes st) st)
    (fun _ v v' w hv hw => by
      obtain ⟨⟨w1, -⟩, w0⟩ := hinner (line.ints 2).toNat v w hv.2.1 hw
      refine ⟨(w.1, { w.2 with element_scale := z }), ?_, rfl, w1, rfl⟩
      obtain ⟨v1, v2⟩ := v'
      obtain ⟨hv1, -, hv2⟩ := hv
      simp only [] at hv1 hv2
      subst hv1 hv2
      exact w0) (nodes_count_list 1).toNat
    (6, forLoop (line.ints 2).toNat (fun polycount (slot : ElementSlot) =>
          { slot with node_types := Function.update slot.node_types polycount 0 })
          { slot with tag := line.ints 0, type := 1, element_type := 1,
                      poly_count := line.ints 2,
                      element_scale := ⟨line.ints 3, line.ints 4, line.ints 5⟩ })
    (6, forLoop (line.ints 2).toNat (fun polycount (slot : ElementSlot) =>
          { slot with node_types := Function.update slot.node_types polycount 0 })
          { slot with tag := line.ints 0, type := 1, element_type := 1,
                      poly_count := line.ints 2, element_scale := z }) st
    ⟨rfl, le_refl 6, (zero_node_types_frame (line.ints 2).toNat
      { slot with tag := line.ints 0, type := 1, element_type := 1,
                  poly_count := line.ints 2,
                  element_scale := ⟨line.ints 3, line.ints 4, line.ints 5⟩ } z).1⟩ hst
  refine ⟨houter.2.1, houter.2.2, ?_, ?_⟩
  · have e2 := data_atom_eight_node_ok maxpoly nodes_per_element ntypes nodes_count_list
      (with_scale line z) slot t' he c1 c2 (by
        rw [with_scale_ints line z 2 (Or.inl (by omega)),
          with_scale_ints line z 0 (Or.inl (by omega))]
        exact e1)
    rw [e2, r3]
  · intro sqrt a one_layer_flag maxpoly' quad_rule_initialized q scm i hi hty hpc
    exact bin_atoms_setup_quad_single_phase sqrt a one_layer_flag maxpoly' quad_rule_initialized
      q scm i hi hty hpc

/-! ## Migration of an entity -/

theorem pushes_cons (val : ℚ) (l : List ℚ) (st : Nat × (Nat → ℚ)) :
    pushes (val :: l) st = pushes l (push val st) := rfl

theorem pushes_append (l1 l2 : List ℚ) (st : Nat × (Nat → ℚ)) :
    pushes (l1 ++ l2) st = pushes l2 (pushes l1 st) := by
  unfold pushes
  rw [List.foldl_append]

/-- Writing a list to the buffer: the index advances by its length, the buffer
holds the list from the old index on, and lower indices are untouched. -/
theorem pushes_spec (l : List ℚ) (st : Nat × (Nat → ℚ)) :
    (pushes l st).1 = st.1 + l.length ∧ Feeds (pushes l st).2 st.1 l ∧
    ∀ k, k < st.1 → (pushes l st).2 k = st.2 k := by
  induction l generalizing st with
  | nil => exact ⟨rfl, fun k hk => absurd hk (Nat.not_lt_zero k), fun _ _ => rfl⟩
  | cons val l ih =>
    obtain ⟨i1, i2, i3⟩ := ih (push val st)
    rw [pushes_cons]
    refine ⟨?_, ?_, ?_⟩
    · rw [i1]
      simp only [push, List.length_cons]
      omega
    · intro k hk
      cases k with
      | zero =>
        have e : (pushes l (push val st)).2 st.1 = val := by
          rw [i3 st.1 (by simp only [push]; omega)]
          simp only [push, Function.update_same]
        simp only [List.getElem?_cons_zero, Nat.add_zero, e]
      | succ k =>
        have hk' : k < l.length := by simpa using hk
        have e := i2 k hk'
        have e2 : (push val st).1 + k = st.1 + (k + 1) := by
          simp only [push]
          omega
        rw [e2] at e
        simp only [List.getElem?_cons_succ]
        exact e
    · intro k hk
      rw [i3 k (by simp only [push]; omega)]
      simp only [push]
      rw [Function.update_noteq (by omega)]

theorem forLoop_pushes (f : Nat → List ℚ) (n : Nat) (st : Nat × (Nat → ℚ)) :
    forLoop n (fun i st => pushes (f i) st) st = pushes ((List.range n).flatMap f) st := by
  induction n with
  | zero => rfl
  | succ n ih =>
    rw [forLoop_succ, ih, List.range_succ, List.flatMap_append, pushes_append]
    simp only [List.flatMap_cons, List.flatMap_nil, List.append_nil]

/-- The buffer that `pack_exchange` returns, through the list of the values. -/
theorem pack_exchange_eq (ubuf_d : Int → ℚ) (nodes_count_list : Nat → Nat) (av : AtomVec)
    (i : Nat) (buf : Nat → ℚ) :
    pack_exchange ubuf_d nodes_count_list av i buf
      = ((pushes (pack_values ubuf_d nodes_count_list av i) (1, buf)).1,
         Function.update (pushes (pack_values ubuf_d nodes_count_list av i) (1, buf)).2 0
           (((pushes (pack_values ubuf_d nodes_count_list av i) (1, buf)).1 : Nat) : ℚ)) := by
  unfold pack_values
  rw [pushes_append, pushes_append, ← forLoop_pushes, ← forLoop_pushes]
  simp only [← forLoop_pushes]
  rfl

theorem feeds_append (buf : Nat → ℚ) (m : Nat) (l1 l2 : List ℚ) (h : Feeds buf m (l1 ++ l2)) :
    Feeds buf m l1 ∧ Feeds buf (m + l1.length) l2 := by
  refine ⟨?_, ?_⟩
  · intro k hk
    have := h k (by rw [List.length_append]; omega)
    rwa [List.getElem?_append_left hk] at this
  · intro k hk
    have := h (l1.length + k) (by rw [List.length_append]; omega)
    rw [List.getElem?_append_right (by omega)] at this
    rw [Nat.add_sub_cancel_left] at this
    rw [this]
    congr 2
    omega

theorem feeds_head (buf : Nat → ℚ) (m : Nat) (val : ℚ) (l : List ℚ)
    (h : Feeds buf m (val :: l)) : buf m = val ∧ Feeds buf (m + 1) l := by
  have h0 := h 0 (by simp)
  simp only [List.getElem?_cons_zero, Option.some.injEq, Nat.add_zero] at h0
  refine ⟨h0.symm, ?_⟩
  intro k hk
  have := h (k + 1) (by simpa using hk)
  simp only [List.getElem?_cons_succ] at this
  rw [this]
  congr 2
  omega

theorem length_flatMap_blocks (f : Nat → List ℚ) (c : Nat) (hf : ∀ k, (f k).length = c)
    (n : Nat) : ((List.range n).flatMap f).length = c * n := by
  induction n with
  | zero => rfl
  | succ n ih =>
    rw [List.range_succ, List.flatMap_append, List.length_append, ih]
    simp only [List.flatMap_cons, List.flatMap_nil, List.append_nil, hf]
    ring

theorem feeds_node_block (buf : Nat → ℚ) (m : Nat) (src : AtomVec) (i k p : Nat)
    (h : Feeds buf m (node_block src i k p)) :
    (⟨buf m, buf (m + 1), buf (m + 2)⟩ : Vec3) = src.nodal_positions i k p ∧
    (⟨buf (m + 3), buf (m + 4), buf (m + 5)⟩ : Vec3) = src.initial_nodal_positions i k p ∧
    (⟨buf (m + 6), buf (m + 7), buf (m + 8)⟩ : Vec3) = src.nodal_gradients i k p ∧
    (⟨buf (m + 9), buf (m + 10), buf (m + 11)⟩ : Vec3) = src.nodal_velocities i k p := by
  have e : ∀ j, j < 12 → (node_block src i k p)[j]? = some (buf (m + j)) := fun j hj => h j hj
  have e0 := e 0 (by omega)
  have e1 := e 1 (by omega)
  have e2 := e 2 (by omega)
  have e3 := e 3 (by omega)
  have e4 := e 4 (by omega)
  have e5 := e 5 (by omega)
  have e6 := e 6 (by omega)
  have e7 := e 7 (by omega)
  have e8 := e 8 (by omega)
  have e9 := e 9 (by omega)
  have e10 := e 10 (by omega)
  have e11 := e 11 (by omega)
  simp only [node_block, List.getElem?_cons_zero, List.getElem?_cons_succ, Option.some.injEq,
    Nat.add_zero] at e0 e1 e2 e3 e4 e5 e6 e7 e8 e9 e10 e11
  rw [← e0, ← e1, ← e2, ← e3, ← e4, ← e5, ← e6, ← e7, ← e8, ← e9, ← e10, ← e11]
  exact ⟨rfl, rfl, rfl, rfl⟩

theorem set3_same {α : Type} (arr : Nat → Nat → Nat → α) (i k p : Nat) (val : α) :
    set3 arr i k p val i k p = val := by
  simp only [set3, and_self, if_true]

theorem set3_other {α : Type} (arr : Nat → Nat → Nat → α) (i k p : Nat) (val : α)
    (i' k' p' : Nat) (h : ¬ (i' = i ∧ k' = k ∧ p' = p)) :
    set3 arr i k p val i' k' p' = arr i' k' p' := by
  simp only [set3, if_neg h]

/-- The phase loop of `unpack_exchange` for node `k`, fed with the blocks of
`n` phases: the index advances by `12 n`, the four node arrays of the slot hold
the values of the source for the phases below `n`, their entries for other
nodes are as before, and no other field changes. -/
theorem unpack_phase_loop (buf : Nat → ℚ) (src : AtomVec) (i nl k : Nat) (n m : Nat)
    (av : AtomVec)
    (h : Feeds buf m ((List.range n).flatMap (fun p => node_block src i k p))) :
    ∃ (P I G V : Nat → Nat → Nat → Vec3),
      forLoop n (fun poly_index (st : Nat × AtomVec) =>
        let m := st.1
        (m + 12,
         { st.2 with
           nodal_positions := set3 st.2.nodal_positions nl k poly_index
             ⟨buf m, buf (m + 1), buf (m + 2)⟩,
           initial_nodal_positions := set3 st.2.initial_nodal_positions nl k
             poly_index ⟨buf (m + 3), buf (m + 4), buf (m + 5)⟩,
           nodal_gradients := set3 st.2.nodal_gradients nl k poly_index
             ⟨buf (m + 6), buf (m + 7), buf (m + 8)⟩,
           nodal_velocities := set3 st.2.nodal_velocities nl k poly_index
             ⟨buf (m + 9), buf (m + 10), buf (m + 11)⟩ })) (m, av)
        = (m + 12 * n,
           { av with nodal_positions := P, initial_nodal_positions := I, nodal_gradients := G,
                     nodal_velocities := V }) ∧
      (∀ p, p < n → P nl k p = src.nodal_positions i k p ∧
        I nl k p = src.initial_nodal_positions i k p ∧
        G nl k p = src.nodal_gradients i k p ∧ V nl k p = src.nodal_velocities i k p) ∧
      (∀ k' p, k' ≠ k → P nl k' p = av.nodal_positions nl k' p ∧
        I nl k' p = av.initial_nodal_positions nl k' p ∧
        G nl k' p = av.nodal_gradients nl k' p ∧ V nl k' p = av.nodal_velocities nl k' p) := by
  induction n with
  | zero =>
    exact ⟨av.nodal_positions, av.initial_nodal_positions, av.nodal_gradients,
      av.nodal_velocities, rfl, fun p hp => absurd hp (Nat.not_lt_zero p),
      fun _ _ _ => ⟨rfl, rfl, rfl, rfl⟩⟩
  | succ n ih =>
    rw [List.range_succ, List.flatMap_append] at h
    obtain ⟨h1, h2⟩ := feeds_append _ _ _ _ h
    rw [length_flatMap_blocks (fun p => node_block src i k p) 12 (fun _ => rfl)] at h2
    simp only [List.flatMap_cons, List.flatMap_nil, List.append_nil] at h2
    obtain ⟨b0, b1, b2, b3⟩ := feeds_node_block buf (m + 12 * n) src i k n h2
    obtain ⟨P, I, G, V, e, hin, hout⟩ := ih h1
    refine ⟨set3 P nl k n (src.nodal_positions i k n),
      set3 I nl k n (src.initial_nodal_positions i k n),
      set3 G nl k n (src.nodal_gradients i k n),
      set3 V nl k n (src.nodal_velocities i k n), ?_, ?_, ?_⟩
    · rw [forLoop_succ, e]
      simp only []
      rw [b0, b1, b2, b3]
      have e12 : m + 12 * n + 12 = m + 12 * (n + 1) := by ring
      rw [e12]
    · intro p hp
      rcases Nat.lt_succ_iff_lt_or_eq.mp hp with h' | h'
      · have hne : ¬ (nl = nl ∧ k = k ∧ p = n) := fun c => by omega
        rw [set3_other _ _ _ _ _ _ _ _ hne, set3_other _ _ _ _ _ _ _ _ hne,
          set3_other _ _ _ _ _ _ _ _ hne, set3_other _ _ _ _ _ _ _ _ hne]
        exact hin p h'
      · subst h'
        exact ⟨set3_same _ _ _ _ _, set3_same _ _ _ _ _, set3_same _ _ _ _ _,
          set3_same _ _ _ _ _⟩
    · intro k' p hk'
      have hne : ¬ (nl = nl ∧ k' = k ∧ p = n) := fun c => hk' c.2.1
      rw [set3_other _ _ _ _ _ _ _ _ hne, set3_other _ _ _ _ _ _ _ _ hne,
        set3_other _ _ _ _ _ _ _ _ hne, set3_other _ _ _ _ _ _ _ _ hne]
      exact hout k' p hk'

theorem static_cast_int_natCast (n : Nat) : static_cast_int ((n : Nat) : ℚ) = (n : Int) := by
  have h := static_cast_int_intCast (n : Int)
  simpa using h

theorem set2_same {α : Type} (arr : Nat → Nat → α) (i p : Nat) (val : α) :
    set2 arr i p val i p = val := by
  simp only [set2, and_self, if_true]

theorem set2_other {α : Type} (arr : Nat → Nat → α) (i p : Nat) (val : α)
    (i' p' : Nat) (h : ¬ (i' = i ∧ p' = p)) : set2 arr i p val i' p' = arr i' p' := by
  simp only [set2, if_neg h]

/-- The node-type loop of `unpack_exchange`, fed with the node types of `n`
phases. -/
theorem unpack_types_loop (buf : Nat → ℚ) (c : Nat → Int) (nl n m : Nat) (av : AtomVec)
    (h : Feeds buf m ((List.range n).flatMap (fun t => [((c t : Int) : ℚ)]))) :
    ∃ T : Nat → Nat → Int,
      forLoop n (fun type_map (st : Nat × AtomVec) =>
        (st.1 + 1,
         { st.2 with
           node_types := set2 st.2.node_types nl type_map (static_cast_int (buf st.1)) }))
        (m, av) = (m + n, { av with node_types := T }) ∧
      ∀ t, t < n → T nl t = c t := by
  induction n with
  | zero => exact ⟨av.node_types, rfl, fun t ht => absurd ht (Nat.not_lt_zero t)⟩
  | succ n ih =>
    rw [List.range_succ, List.flatMap_append] at h
    obtain ⟨h1, h2⟩ := feeds_append _ _ _ _ h
    rw [length_flatMap_blocks (fun t => [((c t : Int) : ℚ)]) 1 (fun _ => rfl)] at h2
    simp only [List.flatMap_cons, List.flatMap_nil, List.append_nil, one_mul] at h2
    have hb := (feeds_head _ _ _ _ h2).1
    obtain ⟨T, e, hin⟩ := ih h1
    refine ⟨set2 T nl n (c n), ?_, ?_⟩
    · rw [forLoop_succ, e]
      simp only []
      rw [hb, static_cast_int_intCast]
      rfl
    · intro t ht
      rcases Nat.lt_succ_iff_lt_or_eq.mp ht with h' | h'
      · rw [set2_other _ _ _ _ _ _ (fun c => by omega)]
        exact hin t h'
      · subst h'
        exact set2_same _ _ _ _

/-- The node loop of `unpack_exchange`, fed with the blocks of `n` nodes of `pc`
phases each. -/
theorem unpack_node_loop (buf : Nat → ℚ) (src : AtomVec) (i nl pc : Nat) (n m : Nat)
    (av : AtomVec) (hpc : av.poly_count nl = pc)
    (h : Feeds buf m ((List.range n).flatMap (fun k =>
      (List.range pc).flatMap (fun p => node_block src i k p)))) :
    ∃ (P I G V : Nat → Nat → Nat → Vec3),
      forLoop n (fun nodecount (st : Nat × AtomVec) =>
        forLoop (st.2.poly_count nl) (fun poly_index (st : Nat × AtomVec) =>
          let m := st.1
          (m + 12,
           { st.2 with
             nodal_positions := set3 st.2.nodal_positions nl nodecount poly_index
               ⟨buf m, buf (m + 1), buf (m + 2)⟩,
             initial_nodal_positions := set3 st.2.initial_nodal_positions nl nodecount
               poly_index ⟨buf (m + 3), buf (m + 4), buf (m + 5)⟩,
             nodal_gradients := set3 st.2.nodal_gradients nl nodecount poly_index
               ⟨buf (m + 6), buf (m + 7), buf (m + 8)⟩,
             nodal_velocities := set3 st.2.nodal_velocities nl nodecount poly_index
               ⟨buf (m + 9), buf (m + 10), buf (m + 11)⟩ })) st) (m, av)
        = (m + 12 * pc * n,
           { av with nodal_positions := P, initial_nodal_positions := I, nodal_gradients := G,
                     nodal_velocities := V }) ∧
      ∀ k, k < n → ∀ p, p < pc → P nl k p = src.nodal_positions i k p ∧
        I nl k p = src.initial_nodal_positions i k p ∧
        G nl k p = src.nodal_gradients i k p ∧ V nl k p = src.nodal_velocities i k p := by
  induction n with
  | zero =>
    exact ⟨av.nodal_positions, av.initial_nodal_positions, av.nodal_gradients,
      av.nodal_velocities, rfl, fun k hk => absurd hk (Nat.not_lt_zero k)⟩
  | succ n ih =>
    rw [List.range_succ, List.flatMap_append] at h
    obtain ⟨h1, h2⟩ := feeds_append _ _ _ _ h
    rw [length_flatMap_blocks
      (fun k => (List.range pc).flatMap (fun p => node_block src i k p)) (12 * pc)
      (fun k => length_flatMap_blocks (fun p => node_block src i k p) 12 (fun _ => rfl) pc)]
      at h2
    simp only [List.flatMap_cons, List.flatMap_nil, List.append_nil] at h2
    obtain ⟨P, I, G, V, e, hin⟩ := ih h1
    obtain ⟨P', I', G', V', e', hin', hout'⟩ := unpack_phase_loop buf src i nl n pc
      (m + 12 * pc * n)
      { av with nodal_positions := P, initial_nodal_positions := I, nodal_gradients := G,
                nodal_velocities := V } h2
    refine ⟨P', I', G', V', ?_, ?_⟩
    · rw [forLoop_succ, e]
      simp only []
      rw [hpc, e']
      have e12 : m + 12 * pc * n + 12 * pc = m + 12 * pc * (n + 1) := by ring
      rw [e12]
    · intro k hk p hp
      rcases Nat.lt_succ_iff_lt_or_eq.mp hk with h' | h'
      · obtain ⟨o1, o2, o3, o4⟩ := hout' k p (by omega)
        obtain ⟨j1, j2, j3, j4⟩ := hin k h' p hp
        exact ⟨o1.trans j1, o2.trans j2, o3.trans j3, o4.trans j4⟩
      · subst h'
        exact hin' p hp

/-- What `unpack_exchange` makes of a buffer that holds, from index 1 on, the
values `pack_exchange` writes for entity `i` of `src`. -/
theorem unpack_exchange_of_feeds (ubuf_d : Int → ℚ) (ubuf_i : ℚ → Int)
    (nodes_count_list : Nat → Nat) (src : AtomVec) (i : Nat) (buf : Nat → ℚ) (dst : AtomVec)
    (hub : ∀ n : Int, ubuf_i (ubuf_d n) = n)
    (h : Feeds buf 1 (pack_values ubuf_d nodes_count_list src i)) :
    ∃ (T : Nat → Nat → Int) (P I G V : Nat → Nat → Nat → Vec3),
      unpack_exchange ubuf_i nodes_count_list buf dst
        = (16 + src.poly_count i
            + 12 * src.poly_count i * nodes_count_list (src.element_type i),
           { nlocal := dst.nlocal + 1,
             x := Function.update dst.x dst.nlocal (src.x i),
             v := Function.update dst.v dst.nlocal (src.v i),
             tag := Function.update dst.tag dst.nlocal (src.tag i),
             type := Function.update dst.type dst.nlocal (src.type i),
             mask := Function.update dst.mask dst.nlocal (src.mask i),
             image := Function.update dst.image dst.nlocal (src.image i),
             element_type := Function.update dst.element_type dst.nlocal (src.element_type i),
             element_scale := Function.update dst.element_scale dst.nlocal (src.element_scale i),
             poly_count := Function.update dst.poly_count dst.nlocal (src.poly_count i),
             node_types := T, nodal_positions := P, initial_nodal_positions := I,
             nodal_gradients := G, nodal_velocities := V }) ∧
      (∀ t, t < src.poly_count i → T dst.nlocal t = src.node_types i t) ∧
      ∀ k, k < nodes_count_list (src.element_type i) → ∀ p, p < src.poly_count i →
        P dst.nlocal k p = src.nodal_positions i k p ∧
        I dst.nlocal k p = src.initial_nodal_positions i k p ∧
        G dst.nlocal k p = src.nodal_gradients i k p ∧
        V dst.nlocal k p = src.nodal_velocities i k p := by
  unfold pack_values at h
  obtain ⟨h12, h3⟩ := feeds_append _ _ _ _ h
  obtain ⟨h1, h2⟩ := feeds_append _ _ _ _ h12
  rw [List.length_append, length_flatMap_blocks (fun t => [((src.node_types i t : Int) : ℚ)]) 1
    (fun _ => rfl)] at h3
  simp only [List.length_cons, List.length_nil, one_mul] at h2 h3
  have h2' : Feeds buf 16
      ((List.range (src.poly_count i)).flatMap
        (fun t => [((src.node_types i t : Int) : ℚ)])) := by
    have e16 : 16 = 1 + (0 + 1 + 1 + 1 + 1 + 1 + 1 + 1 + 1 + 1 + 1 + 1 + 1 + 1 + 1 + 1) := by
      omega
    rw [e16]
    exact h2
  have h3' : Feeds buf (16 + src.poly_count i)
      ((List.range (nodes_count_list (src.element_type i))).flatMap (fun k =>
        (List.range (src.poly_count i)).flatMap (fun p => node_block src i k p))) := by
    have e16 : 16 + src.poly_count i
        = 1 + (0 + 1 + 1 + 1 + 1 + 1 + 1 + 1 + 1 + 1 + 1 + 1 + 1 + 1 + 1 + 1
          + src.poly_count i) := by
      omega
    rw [e16]
    exact h3
  have e : ∀ j, j < 15 → _ := fun j hj => h1 j hj
  have e1 := e 0 (by omega)
  have e2 := e 1 (by omega)
  have e3 := e 2 (by omega)
  have e4 := e 3 (by omega)
  have e5 := e 4 (by omega)
  have e6 := e 5 (by omega)
  have e7 := e 6 (by omega)
  have e8 := e 7 (by omega)
  have e9 := e 8 (by omega)
  have e10 := e 9 (by omega)
  have e11 := e 10 (by omega)
  have e12 := e 11 (by omega)
  have e13 := e 12 (by omega)
  have e14 := e 13 (by omega)
  have e15 := e 14 (by omega)
  simp only [List.getElem?_cons_zero, List.getElem?_cons_succ, Option.some.injEq,
    Nat.add_zero, Nat.reduceAdd] at e1 e2 e3 e4 e5 e6 e7 e8 e9 e10 e11 e12 e13 e14 e15
  obtain ⟨T, eT, hT⟩ := unpack_types_loop buf (fun t => src.node_types i t) dst.nlocal
    (src.poly_count i) 16
    { dst with
      x := Function.update dst.x dst.nlocal (src.x i),
      v := Function.update dst.v dst.nlocal (src.v i),
      tag := Function.update dst.tag dst.nlocal (src.tag i),
      type := Function.update dst.type dst.nlocal (src.type i),
      mask := Function.update dst.mask dst.nlocal (src.mask i),
      image := Function.update dst.image dst.nlocal (src.image i),
      element_type := Function.update dst.element_type dst.nlocal (src.element_type i),
      element_scale := Function.update dst.element_scale dst.nlocal (src.element_scale i),
      poly_count := Function.update dst.poly_count dst.nlocal (src.poly_count i) } h2'
  obtain ⟨P, I, G, V, eN, hN⟩ := unpack_node_loop buf src i dst.nlocal (src.poly_count i)
    (nodes_count_list (src.element_type i)) (16 + src.poly_count i)
    { dst with
      x := Function.update dst.x dst.nlocal (src.x i),
      v := Function.update dst.v dst.nlocal (src.v i),
      tag := Function.update dst.tag dst.nlocal (src.tag i),
      type := Function.update dst.type dst.nlocal (src.type i),
      mask := Function.update dst.mask dst.nlocal (src.mask i),
      image := Function.update dst.image dst.nlocal (src.image i),
      element_type := Function.update dst.element_type dst.nlocal (src.element_type i),
      element_scale := Function.update dst.element_scale dst.nlocal (src.element_scale i),
      poly_count := Function.update dst.poly_count dst.nlocal (src.poly_count i),
      node_types := T }
    (by simp only [Function.update_same]) h3'
  refine ⟨T, P, I, G, V, ?_, hT, hN⟩
  unfold unpack_exchange
  simp only []
  rw [← e1, ← e2, ← e3, ← e4, ← e5, ← e6, ← e7, ← e8, ← e9, ← e10, ← e11, ← e12, ← e13, ← e14,
    ← e15]
  simp only [hub, static_cast_int_natCast, static_cast_int_intCast, Int.toNat_ofNat,
    Function.update_same]
  rw [eT]
  simp only [Function.update_same]
  rw [eN]

theorem pack_values_length (ubuf_d : Int → ℚ) (nodes_count_list : Nat → Nat) (av : AtomVec)
    (i : Nat) :
    (pack_values ubuf_d nodes_count_list av i).length
      = 15 + av.poly_count i + 12 * nodes_count_list (av.element_type i) * av.poly_count i := by
  unfold pack_values
  rw [List.length_append, List.length_append,
    length_flatMap_blocks (fun t => [((av.node_types i t : Int) : ℚ)]) 1 (fun _ => rfl),
    length_flatMap_blocks
      (fun k => (List.range (av.poly_count i)).flatMap (fun p => node_block av i k p))
      (12 * av.poly_count i)
      (fun k => length_flatMap_blocks (fun p => node_block av i k p) 12 (fun _ => rfl) _)]
  simp only [List.length_cons, List.length_nil]
  ring

/-- What `pack_exchange` returns: the index after the last value written, which
it also stores in `buf[0]`, and a buffer that holds the values from index 1
on. -/
theorem pack_exchange_spec (ubuf_d : Int → ℚ) (nodes_count_list : Nat → Nat) (av : AtomVec)
    (i : Nat) (buf : Nat → ℚ) :
    (pack_exchange ubuf_d nodes_count_list av i buf).1
      = 16 + av.poly_count i + 12 * nodes_count_list (av.element_type i) * av.poly_count i ∧
    (pack_exchange ubuf_d nodes_count_list av i buf).2 0
      = (((pack_exchange ubuf_d nodes_count_list av i buf).1 : Nat) : ℚ) ∧
    Feeds (pack_exchange ubuf_d nodes_count_list av i buf).2 1
      (pack_values ubuf_d nodes_count_list av i) := by
  obtain ⟨p1, p2, -⟩ := pushes_spec (pack_values ubuf_d nodes_count_list av i) (1, buf)
  rw [pack_exchange_eq]
  refine ⟨?_, ?_, ?_⟩
  · show (pushes (pack_values ubuf_d nodes_count_list av i) (1, buf)).1 = _
    rw [p1, pack_values_length]
    simp only []
    omega
  · simp only [Function.update_same]
  · intro k hk
    rw [p2 k hk]
    simp only []
    rw [Function.update_noteq (by omega)]

/-- C38: with no extra per-atom fix data (`atom->nextra_grow = 0`) and `ubuf`
returning the integer it was given, `unpack_exchange` applied to the buffer that
`pack_exchange(i)` wrote returns the same `m` as `pack_exchange` did, which is
`16 + poly_count + 12 * nodes * poly_count` and is held by `buf[0]`; it
increments `nlocal` by one and leaves in the slot `nlocal` the position,
velocity, tag, type, mask, image, element type, scale and phase count of entity
`i`, its node type for every phase and, for every node and phase, its current
and initial position, gradient and velocity. -/
theorem unpack_pack_exchange (ubuf_d : Int → ℚ) (ubuf_i : ℚ → Int)
    (nodes_count_list : Nat → Nat) (src : AtomVec) (i : Nat) (buf : Nat → ℚ) (dst : AtomVec)
    (hub : ∀ n : Int, ubuf_i (ubuf_d n) = n) :
    (unpack_exchange ubuf_i nodes_count_list
        (pack_exchange ubuf_d nodes_count_list src i buf).2 dst).1
      = (pack_exchange ubuf_d nodes_count_list src i buf).1 ∧
    (pack_exchange ubuf_d nodes_count_list src i buf).1
      = 16 + src.poly_count i + 12 * nodes_count_list (src.element_type i) * src.poly_count i ∧
    (pack_exchange ubuf_d nodes_count_list src i buf).2 0
      = (((pack_exchange ubuf_d nodes_count_list src i buf).1 : Nat) : ℚ) ∧
    (unpack_exchange ubuf_i nodes_count_list
        (pack_exchange ubuf_d nodes_count_list src i buf).2 dst).2.nlocal = dst.nlocal + 1 ∧
    (unpack_exchange ubuf_i nodes_count_list
        (pack_exchange ubuf_d nodes_count_list src i buf).2 dst).2.x dst.nlocal = src.x i ∧
    (unpack_exchange ubuf_i nodes_count_list
        (pack_exchange ubuf_d nodes_count_list src i buf).2 dst).2.v dst.nlocal = src.v i ∧
    (unpack_exchange ubuf_i nodes_count_list
        (pack_exchange ubuf_d nodes_count_list src i buf).2 dst).2.tag dst.nlocal = src.tag i ∧
    (unpack_exchange ubuf_i nodes_count_list
        (pack_exchange ubuf_d nodes_count_list src i buf).2 dst).2.type dst.nlocal
      = src.type i ∧
    (unpack_exchange ubuf_i nodes_count_list
        (pack_exchange ubuf_d nodes_count_list src i buf).2 dst).2.mask dst.nlocal
      = src.mask i ∧
    (unpack_exchange ubuf_i nodes_count_list
        (pack_exchange ubuf_d nodes_count_list src i buf).2 dst).2.image dst.nlocal
      = src.image i ∧
    (unpack_exchange ubuf_i nodes_count_list
        (pack_exchange ubuf_d nodes_count_list src i buf).2 dst).2.element_type dst.nlocal
      = src.element_type i ∧
    (unpack_exchange ubuf_i nodes_count_list
        (pack_exchange ubuf_d nodes_count_list src i buf).2 dst).2.element_scale dst.nlocal
      = src.element_scale i ∧
    (unpack_exchange ubuf_i nodes_count_list
        (pack_exchange ubuf_d nodes_count_list src i buf).2 dst).2.poly_count dst.nlocal
      = src.poly_count i ∧
    (∀ t, t < src.poly_count i →
      (unpack_exchange ubuf_i nodes_count_list
          (pack_exchange ubuf_d nodes_count_list src i buf).2 dst).2.node_types dst.nlocal t
        = src.node_types i t) ∧
    ∀ k, k < nodes_count_list (src.element_type i) → ∀ p, p < src.poly_count i →
      (unpack_exchange ubuf_i nodes_count_list
          (pack_exchange ubuf_d nodes_count_list src i buf).2 dst).2.nodal_positions
          dst.nlocal k p = src.nodal_positions i k p ∧
      (unpack_exchange ubuf_i nodes_count_list
          (pack_exchange ubuf_d nodes_count_list src i buf).2 dst).2.initial_nodal_positions
          dst.nlocal k p = src.initial_nodal_positions i k p ∧
      (unpack_exchange ubuf_i nodes_count_list
          (pack_exchange ubuf_d nodes_count_list src i buf).2 dst).2.nodal_gradients
          dst.nlocal k p = src.nodal_gradients i k p ∧
      (unpack_exchange ubuf_i nodes_count_list
          (pack_exchange ubuf_d nodes_count_list src i buf).2 dst).2.nodal_velocities
          dst.nlocal k p = src.nodal_velocities i k p := by
  obtain ⟨q1, q2, q3⟩ := pack_exchange_spec ubuf_d nodes_count_list src i buf
  obtain ⟨T, P, I, G, V, e, hT, hN⟩ := unpack_exchange_of_feeds ubuf_d ubuf_i nodes_count_list
    src i (pack_exchange ubuf_d nodes_count_list src i buf).2 dst hub q3
  rw [e]
  refine ⟨?_, q1, q2, rfl, ?_, ?_, ?_, ?_, ?_, ?_, ?_, ?_, ?_, hT, hN⟩
  · rw [q1]
    simp only []
    ring
  all_goals simp only [Function.update_same]

/-! ## The sampling coordinates stay in the parametric cube -/

theorem put_quad_point_eq (pos : Nat → Nat → Vec3) (npe poly : Nat) (s t w : ℚ) (qb : QuadBuf) :
    put_quad_point pos npe poly s t w qb
      = { quadrature_counter := qb.quadrature_counter + 1,
          current_element_quad_points :=
            Function.update qb.current_element_quad_points qb.quadrature_counter
              (interpolate pos npe poly s t w),
          samples := qb.samples ++ [⟨s, t, w⟩] } := rfl

/-- A weighted mean with non-negative weights of sum 1 is at least any lower
bound of its eight values. -/
theorem convex_lower (n1 n2 n3 n4 n5 n6 n7 n8 x1 x2 x3 x4 x5 x6 x7 x8 L : ℚ)
    (h1 : 0 ≤ n1) (h2 : 0 ≤ n2) (h3 : 0 ≤ n3) (h4 : 0 ≤ n4) (h5 : 0 ≤ n5) (h6 : 0 ≤ n6)
    (h7 : 0 ≤ n7) (h8 : 0 ≤ n8) (hs : n1 + n2 + n3 + n4 + n5 + n6 + n7 + n8 = 1)
    (g1 : L ≤ x1) (g2 : L ≤ x2) (g3 : L ≤ x3) (g4 : L ≤ x4) (g5 : L ≤ x5) (g6 : L ≤ x6)
    (g7 : L ≤ x7) (g8 : L ≤ x8) :
    L ≤ x1 * n1 + x2 * n2 + x3 * n3 + x4 * n4 + x5 * n5 + x6 * n6 + x7 * n7 + x8 * n8 := by
  have e : x1 * n1 + x2 * n2 + x3 * n3 + x4 * n4 + x5 * n5 + x6 * n6 + x7 * n7 + x8 * n8
      - L * (n1 + n2 + n3 + n4 + n5 + n6 + n7 + n8)
      = n1 * (x1 - L) + n2 * (x2 - L) + n3 * (x3 - L) + n4 * (x4 - L) + n5 * (x5 - L)
        + n6 * (x6 - L) + n7 * (x7 - L) + n8 * (x8 - L) := by ring
  rw [hs, mul_one] at e
  have p1 := mul_nonneg h1 (sub_nonneg.mpr g1)
  have p2 := mul_nonneg h2 (sub_nonneg.mpr g2)
  have p3 := mul_nonneg h3 (sub_nonneg.mpr g3)
  have p4 := mul_nonneg h4 (sub_nonneg.mpr g4)
  have p5 := mul_nonneg h5 (sub_nonneg.mpr g5)
  have p6 := mul_nonneg h6 (sub_nonneg.mpr g6)
  have p7 := mul_nonneg h7 (sub_nonneg.mpr g7)
  have p8 := mul_nonneg h8 (sub_nonneg.mpr g8)
  linarith

theorem convex_upper (n1 n2 n3 n4 n5 n6 n7 n8 x1 x2 x3 x4 x5 x6 x7 x8 U : ℚ)
    (h1 : 0 ≤ n1) (h2 : 0 ≤ n2) (h3 : 0 ≤ n3) (h4 : 0 ≤ n4) (h5 : 0 ≤ n5) (h6 : 0 ≤ n6)
    (h7 : 0 ≤ n7) (h8 : 0 ≤ n8) (hs : n1 + n2 + n3 + n4 + n5 + n6 + n7 + n8 = 1)
    (g1 : x1 ≤ U) (g2 : x2 ≤ U) (g3 : x3 ≤ U) (g4 : x4 ≤ U) (g5 : x5 ≤ U) (g6 : x6 ≤ U)
    (g7 : x7 ≤ U) (g8 : x8 ≤ U) :
    x1 * n1 + x2 * n2 + x3 * n3 + x4 * n4 + x5 * n5 + x6 * n6 + x7 * n7 + x8 * n8 ≤ U := by
  have e : U * (n1 + n2 + n3 + n4 + n5 + n6 + n7 + n8)
      - (x1 * n1 + x2 * n2 + x3 * n3 + x4 * n4 + x5 * n5 + x6 * n6 + x7 * n7 + x8 * n8)
      = n1 * (U - x1) + n2 * (U - x2) + n3 * (U - x3) + n4 * (U - x4) + n5 * (U - x5)
        + n6 * (U - x6) + n7 * (U - x7) + n8 * (U - x8) := by ring
  rw [hs, mul_one] at e
  have p1 := mul_nonneg h1 (sub_nonneg.mpr g1)
  have p2 := mul_nonneg h2 (sub_nonneg.mpr g2)
  have p3 := mul_nonneg h3 (sub_nonneg.mpr g3)
  have p4 := mul_nonneg h4 (sub_nonneg.mpr g4)
  have p5 := mul_nonneg h5 (sub_nonneg.mpr g5)
  have p6 := mul_nonneg h6 (sub_nonneg.mpr g6)
  have p7 := mul_nonneg h7 (sub_nonneg.mpr g7)
  have p8 := mul_nonneg h8 (sub_nonneg.mpr g8)
  linarith

/-- In the parametric cube the eight shape functions are non-negative. -/
theorem shape_function_nonneg (s t w : ℚ) (hs : -1 ≤ s ∧ s ≤ 1) (ht : -1 ≤ t ∧ t ≤ 1)
    (hw : -1 ≤ w ∧ w ≤ 1) (k : Nat) : 0 ≤ shape_function s t w 2 k := by
  have a1 : 0 ≤ 1 - s := by linarith [hs.2]
  have a2 : 0 ≤ 1 + s := by linarith [hs.1]
  have b1 : 0 ≤ 1 - t := by linarith [ht.2]
  have b2 : 0 ≤ 1 + t := by linarith [ht.1]
  have c1 : 0 ≤ 1 - w := by linarith [hw.2]
  have c2 : 0 ≤ 1 + w := by linarith [hw.1]
  unfold shape_function
  simp only [if_true]
  split_ifs <;> positivity

/-- The eight shape functions sum to 1. -/
theorem shape_function_sum (s t w : ℚ) :
    shape_function s t w 2 1 + shape_function s t w 2 2 + shape_function s t w 2 3
      + shape_function s t w 2 4 + shape_function s t w 2 5 + shape_function s t w 2 6
      + shape_function s t w 2 7 + shape_function s t w 2 8 = 1 := by
  simp [shape_function]
  ring

/-- The interpolation over eight nodes as an explicit sum. -/
theorem interpolate_eight (pos : Nat → Nat → Vec3) (p : Nat) (s t w : ℚ) :
    interpolate pos 8 p s t w
      = ⟨(pos 0 p).c0 * shape_function s t w 2 1 + (pos 1 p).c0 * shape_function s t w 2 2
          + (pos 2 p).c0 * shape_function s t w 2 3 + (pos 3 p).c0 * shape_function s t w 2 4
          + (pos 4 p).c0 * shape_function s t w 2 5 + (pos 5 p).c0 * shape_function s t w 2 6
          + (pos 6 p).c0 * shape_function s t w 2 7 + (pos 7 p).c0 * shape_function s t w 2 8,
         (pos 0 p).c1 * shape_function s t w 2 1 + (pos 1 p).c1 * shape_function s t w 2 2
          + (pos 2 p).c1 * shape_function s t w 2 3 + (pos 3 p).c1 * shape_function s t w 2 4
          + (pos 4 p).c1 * shape_function s t w 2 5 + (pos 5 p).c1 * shape_function s t w 2 6
          + (pos 6 p).c1 * shape_function s t w 2 7 + (pos 7 p).c1 * shape_function s t w 2 8,
         (pos 0 p).c2 * shape_function s t w 2 1 + (pos 1 p).c2 * shape_function s t w 2 2
          + (pos 2 p).c2 * shape_function s t w 2 3 + (pos 3 p).c2 * shape_function s t w 2 4
          + (pos 4 p).c2 * shape_function s t w 2 5 + (pos 5 p).c2 * shape_function s t w 2 6
          + (pos 6 p).c2 * shape_function s t w 2 7 + (pos 7 p).c2 * shape_function s t w 2 8⟩ := by
  simp only [interpolate, forLoop, zero_add, Nat.reduceAdd]

/-- The interpolated position of a point of the parametric cube lies in the
bounding box of the eight nodes of the phase. -/
theorem interpolate_in_box (pos : Nat → Nat → Vec3) (p : Nat) (s t w : ℚ)
    (hc : in_cube ⟨s, t, w⟩) :
    in_box (node_bounding_box (fun k _ => pos k p) 1 8) (interpolate pos 8 p s t w) := by
  obtain ⟨hs, ht, hw⟩ := hc
  have hn := fun k => shape_function_nonneg s t w hs ht hw k
  have hsum := shape_function_sum s t w
  have hb : ∀ d, d < 3 → ∀ k, k < 8 →
      (node_bounding_box (fun k _ => pos k p) 1 8).1.get d ≤ (pos k p).get d ∧
      (pos k p).get d ≤ (node_bounding_box (fun k _ => pos k p) 1 8).2.get d :=
    fun d hd k hk =>
      (node_bounding_box_min_max (fun k _ => pos k p) 1 8 (le_refl 1) (by omega) d hd).1 0
        (by omega) k hk
  have hb0 := hb 0 (by omega)
  have hb1 := hb 1 (by omega)
  have hb2 := hb 2 (by omega)
  simp only [Vec3.get, if_true, one_ne_zero, if_false, OfNat.ofNat_ne_zero,
    OfNat.ofNat_ne_one] at hb0 hb1 hb2
  rw [interpolate_eight]
  refine ⟨⟨?_, ?_⟩, ⟨?_, ?_⟩, ⟨?_, ?_⟩⟩
  · exact convex_lower _ _ _ _ _ _ _ _ _ _ _ _ _ _ _ _ _ (hn 1) (hn 2) (hn 3) (hn 4) (hn 5)
      (hn 6) (hn 7) (hn 8) hsum (hb0 0 (by omega)).1 (hb0 1 (by omega)).1 (hb0 2 (by omega)).1
      (hb0 3 (by omega)).1 (hb0 4 (by omega)).1 (hb0 5 (by omega)).1 (hb0 6 (by omega)).1
      (hb0 7 (by omega)).1
  · exact convex_upper _ _ _ _ _ _ _ _ _ _ _ _ _ _ _ _ _ (hn 1) (hn 2) (hn 3) (hn 4) (hn 5)
      (hn 6) (hn 7) (hn 8) hsum (hb0 0 (by omega)).2 (hb0 1 (by omega)).2 (hb0 2 (by omega)).2
      (hb0 3 (by omega)).2 (hb0 4 (by omega)).2 (hb0 5 (by omega)).2 (hb0 6 (by omega)).2
      (hb0 7 (by omega)).2
  · exact convex_lower _ _ _ _ _ _ _ _ _ _ _ _ _ _ _ _ _ (hn 1) (hn 2) (hn 3) (hn 4) (hn 5)
      (hn 6) (hn 7) (hn 8) hsum (hb1 0 (by omega)).1 (hb1 1 (by omega)).1 (hb1 2 (by omega)).1
      (hb1 3 (by omega)).1 (hb1 4 (by omega)).1 (hb1 5 (by omega)).1 (hb1 6 (by omega)).1
      (hb1 7 (by omega)).1
  · exact convex_upper _ _ _ _ _ _ _ _ _ _ _ _ _ _ _ _ _ (hn 1) (hn 2) (hn 3) (hn 4) (hn 5)
      (hn 6) (hn 7) (hn 8) hsum (hb1 0 (by omega)).2 (hb1 1 (by omega)).2 (hb1 2 (by omega)).2
      (hb1 3 (by omega)).2 (hb1 4 (by omega)).2 (hb1 5 (by omega)).2 (hb1 6 (by omega)).2
      (hb1 7 (by omega)).2
  · exact convex_lower _ _ _ _ _ _ _ _ _ _ _ _ _ _ _ _ _ (hn 1) (hn 2) (hn 3) (hn 4) (hn 5)
      (hn 6) (hn 7) (hn 8) hsum (hb2 0 (by omega)).1 (hb2 1 (by omega)).1 (hb2 2 (by omega)).1
      (hb2 3 (by omega)).1 (hb2 4 (by omega)).1 (hb2 5 (by omega)).1 (hb2 6 (by omega)).1
      (hb2 7 (by omega)).1
  · exact convex_upper _ _ _ _ _ _ _ _ _ _ _ _ _ _ _ _ _ (hn 1) (hn 2) (hn 3) (hn 4) (hn 5)
      (hn 6) (hn 7) (hn 8) hsum (hb2 0 (by omega)).2 (hb2 1 (by omega)).2 (hb2 2 (by omega)).2
      (hb2 3 (by omega)).2 (hb2 4 (by omega)).2 (hb2 5 (by omega)).2 (hb2 6 (by omega)).2
      (hb2 7 (by omega)).2

/-! Coordinates of one axis -/

theorem from_lo_in (u : ℚ) (c : Int) (i : Nat) (hu : 0 < u) (hc : (c : ℚ) * u ≤ 2)
    (hi : i < c.toNat) : -1 ≤ from_lo i u ∧ from_lo i u ≤ 1 := by
  have h1 := layer_index_le c i hi
  have h0 : (0 : ℚ) ≤ i := Nat.cast_nonneg i
  have h2 : ((i : ℚ) + 1) * u ≤ (c : ℚ) * u := mul_le_mul_of_nonneg_right h1 hu.le
  unfold from_lo
  constructor <;> nlinarith

theorem from_hi_in (u : ℚ) (c : Int) (i : Nat) (hu : 0 < u) (hc : (c : ℚ) * u ≤ 2)
    (hi : i < c.toNat) : -1 ≤ from_hi i u ∧ from_hi i u ≤ 1 := by
  have h1 := layer_index_le c i hi
  have h0 : (0 : ℚ) ≤ i := Nat.cast_nonneg i
  have h2 : ((i : ℚ) + 1) * u ≤ (c : ℚ) * u := mul_le_mul_of_nonneg_right h1 hu.le
  unfold from_hi
  constructor <;> nlinarith

theorem face_coord_in (u : ℚ) (c : Int) (sc i : Nat) (hu : 0 < u) (hc : (c : ℚ) * u ≤ 2)
    (hi : i < c.toNat) :
    -1 ≤ sign sc - (i : ℚ) * u * sign sc - (1 / 2) * u * sign sc ∧
    sign sc - (i : ℚ) * u * sign sc - (1 / 2) * u * sign sc ≤ 1 := by
  rw [face_coord]
  split_ifs
  · exact from_lo_in u c i hu hc hi
  · exact from_hi_in u c i hu hc hi

theorem snap_in (u is a : ℚ) (c : Int) (h : axis_ok u is c) (ha : |a| ≤ 1) :
    -1 ≤ snap u (is * a) ∧ snap u (is * a) ≤ 1 := by
  obtain ⟨hu, -, hl, hh, -, -⟩ := h
  obtain ⟨a1, a2⟩ := abs_le.mp ha
  have hv : -1 ≤ is * a ∧ is * a ≤ 1 := by
    constructor <;> nlinarith
  obtain ⟨b1, b2⟩ := snap_bounds u (is * a) hu
  by_cases h0 : 0 ≤ is * a
  · obtain ⟨c1, c2⟩ := b1 h0
    exact ⟨by linarith, by linarith [hv.2]⟩
  · obtain ⟨c1, c2⟩ := b2 (not_le.mp h0).le
    exact ⟨by linarith [hv.1], by linarith⟩

theorem snap_two_small (v : ℚ) (h1 : -1 ≤ v) (h2 : v ≤ 1) : snap 2 v = 0 := by
  unfold snap
  rw [static_cast_int_eq (v / 2) 0 (by
    by_cases h0 : 0 ≤ v
    · exact Or.inl ⟨by positivity, by push_cast; linarith, by push_cast; linarith⟩
    · exact Or.inr ⟨by linarith [not_le.mp h0], by push_cast; linarith,
        by push_cast; linarith [not_le.mp h0]⟩)]
  simp

theorem shift_in (u is a : ℚ) (c : Int) (h : axis_ok u is c) (ha : |a| ≤ 1) :
    -1 ≤ shift_half a u (snap u (is * a)) ∧ shift_half a u (snap u (is * a)) ≤ 1 := by
  obtain ⟨hu, hu2, hl, hh, -, hcase⟩ := h
  obtain ⟨a1, a2⟩ := abs_le.mp ha
  obtain ⟨b1, b2⟩ := snap_bounds u (is * a) hu
  rcases hcase with ⟨h0, h1⟩ | ⟨h0, h1⟩
  · unfold shift_half
    by_cases hneg : a < 0
    · rw [if_pos hneg]
      obtain ⟨c1, c2⟩ := b2 (mul_nonpos_of_nonneg_of_nonpos h0 hneg.le)
      constructor <;> nlinarith
    · rw [if_neg hneg]
      obtain ⟨c1, c2⟩ := b1 (mul_nonneg h0 (not_lt.mp hneg))
      constructor <;> nlinarith
  · subst h0 h1
    rw [snap_two_small (-1 * a) (by linarith) (by linarith)]
    unfold shift_half
    split_ifs <;> constructor <;> norm_num

/-- Every parametric coordinate at which one phase interpolates lies in the
cube `[-1,1]³`, when each axis satisfies `axis_ok` and the abscissae used lie in
`[-1,1]`. -/
theorem phase_samples_in_cube (u is : Vec3) (c : Int3) (n : Nat) (absc : Nat → ℚ)
    (h0 : axis_ok u.c0 is.c0 c.i0) (h1 : axis_ok u.c1 is.c1 c.i1)
    (h2 : axis_ok u.c2 is.c2 c.i2) (ha : ∀ j, j < n → |absc j| ≤ 1) :
    ∀ x, x ∈ phase_samples u is c n absc → in_cube x := by
  have S0 := fun j (hj : j < n) => snap_in u.c0 is.c0 (absc j) c.i0 h0 (ha j hj)
  have S1 := fun j (hj : j < n) => snap_in u.c1 is.c1 (absc j) c.i1 h1 (ha j hj)
  have S2 := fun j (hj : j < n) => snap_in u.c2 is.c2 (absc j) c.i2 h2 (ha j hj)
  have H0 := fun j (hj : j < n) => shift_in u.c0 is.c0 (absc j) c.i0 h0 (ha j hj)
  have H1 := fun j (hj : j < n) => shift_in u.c1 is.c1 (absc j) c.i1 h1 (ha j hj)
  have H2 := fun j (hj : j < n) => shift_in u.c2 is.c2 (absc j) c.i2 h2 (ha j hj)
  have F0 := fun sc i (hi : i < c.i0.toNat) => face_coord_in u.c0 c.i0 sc i h0.1 h0.2.2.2.2.1 hi
  have F1 := fun sc i (hi : i < c.i1.toNat) => face_coord_in u.c1 c.i1 sc i h1.1 h1.2.2.2.2.1 hi
  have F2 := fun sc i (hi : i < c.i2.toNat) => face_coord_in u.c2 c.i2 sc i h2.1 h2.2.2.2.2.1 hi
  have L0 := fun i (hi : i < c.i0.toNat) => from_lo_in u.c0 c.i0 i h0.1 h0.2.2.2.2.1 hi
  have L1 := fun i (hi : i < c.i1.toNat) => from_lo_in u.c1 c.i1 i h1.1 h1.2.2.2.2.1 hi
  have L2 := fun i (hi : i < c.i2.toNat) => from_lo_in u.c2 c.i2 i h2.1 h2.2.2.2.2.1 hi
  have U0 := fun i (hi : i < c.i0.toNat) => from_hi_in u.c0 c.i0 i h0.1 h0.2.2.2.2.1 hi
  have U1 := fun i (hi : i < c.i1.toNat) => from_hi_in u.c1 c.i1 i h1.1 h1.2.2.2.2.1 hi
  have U2 := fun i (hi : i < c.i2.toNat) => from_hi_in u.c2 c.i2 i h2.1 h2.2.2.2.2.1 hi
  intro x hx
  unfold phase_samples at hx
  simp only [List.mem_append, List.mem_flatMap, List.mem_range, mem_grid3] at hx
  rcases hx with ((((hx | hx) | hx) | hx) | hx) | hx
  · obtain ⟨i, hi, j, hj, k, hk, rfl⟩ := hx
    exact ⟨S0 i hi, S1 j hj, S2 k hk⟩
  · obtain ⟨sc, -, i, hi, j, hj, k, hk, rfl⟩ := hx
    exact ⟨F0 sc i hi, H1 j hj, H2 k hk⟩
  · obtain ⟨sc, -, i, hi, j, hj, k, hk, rfl⟩ := hx
    exact ⟨H0 j hj, F1 sc i hi, H2 k hk⟩
  · obtain ⟨sc, -, i, hi, j, hj, k, hk, rfl⟩ := hx
    exact ⟨H0 j hj, H1 k hk, F2 sc i hi⟩
  · obtain ⟨sc, hsc, i, hi, j, hj, k, hk, rfl⟩ := hx
    interval_cases sc
    · exact ⟨L0 i hi, L1 j hj, H2 k hk⟩
    · exact ⟨U0 i hi, L1 j hj, H2 k hk⟩
    · exact ⟨L0 i hi, U1 j hj, H2 k hk⟩
    · exact ⟨U0 i hi, U1 j hj, H2 k hk⟩
    · exact ⟨H0 k hk, L1 i hi, L2 j hj⟩
    · exact ⟨H0 k hk, U1 i hi, L2 j hj⟩
    · exact ⟨H0 k hk, L1 i hi, U2 j hj⟩
    · exact ⟨H0 k hk, U1 i hi, U2 j hj⟩
    · exact ⟨L0 i hi, H1 k hk, L2 j hj⟩
    · exact ⟨U0 i hi, H1 k hk, L2 j hj⟩
    · exact ⟨L0 i hi, H1 k hk, U2 j hj⟩
    · exact ⟨U0 i hi, H1 k hk, U2 j hj⟩
  · obtain ⟨sc, hsc, i, hi, j, hj, k, hk, rfl⟩ := hx
    interval_cases sc
    · exact ⟨L0 i hi, L1 j hj, L2 k hk⟩
    · exact ⟨U0 i hi, L1 j hj, L2 k hk⟩
    · exact ⟨U0 i hi, U1 j hj, L2 k hk⟩
    · exact ⟨L0 i hi, U1 j hj, L2 k hk⟩
    · exact ⟨L0 i hi, L1 j hj, U2 k hk⟩
    · exact ⟨U0 i hi, L1 j hj, U2 k hk⟩
    · exact ⟨U0 i hi, U1 j hj, U2 k hk⟩
    · exact ⟨L0 i hi, U1 j hj, U2 k hk⟩

/-! The values `compute_surface_depths` returns keep the coordinates of an axis
in `[-1,1]` -/

theorem axis_ok_skin (u sk : ℚ) (hu : 0 < u) (hu2 : u ≤ 2) (hs : u / 2 ≤ sk) (h1 : sk ≤ 1) :
    axis_ok u (1 - sk) (static_cast_int (sk / u)) := by
  have hsk : 0 < sk := by linarith
  have hd : 0 ≤ sk / u := by positivity
  have hc := static_cast_int_le hd
  have hcu : ((static_cast_int (sk / u) : Int) : ℚ) * u ≤ sk := by
    calc ((static_cast_int (sk / u) : Int) : ℚ) * u ≤ sk / u * u :=
          mul_le_mul_of_nonneg_right hc hu.le
      _ = sk := by field_simp
  exact ⟨hu, hu2, by linarith, by linarith, by linarith, Or.inl ⟨by linarith, by linarith⟩⟩

theorem axis_ok_normal (rcut spacing : ℚ) (n : Int) (hn : 1 ≤ n) (hr : 0 ≤ rcut)
    (hs : 0 < spacing) :
    axis_ok (2 / (n : ℚ))
      (1 - (if skin_unclamped rcut (2 / (n : ℚ)) spacing > 1 then 1
        else skin_unclamped rcut (2 / (n : ℚ)) spacing))
      (static_cast_int ((if skin_unclamped rcut (2 / (n : ℚ)) spacing > 1 then 1
        else skin_unclamped rcut (2 / (n : ℚ)) spacing) / (2 / (n : ℚ)))) := by
  obtain ⟨hu, hu2⟩ := unit_cell_pos n hn
  have hge := (skin_unclamped_floor rcut (2 / (n : ℚ)) spacing hr hu hs).2
  refine axis_ok_skin _ _ hu hu2 ?_ ?_
  · split_ifs <;> linarith
  · split_ifs with h
    · exact le_refl 1
    · exact not_lt.mp h

theorem axis_ok_one_layer (n : Int) (hn : 1 ≤ n) :
    axis_ok (2 / (n : ℚ)) (1 - 2 / (n : ℚ)) (static_cast_int (2 / (n : ℚ) / (2 / (n : ℚ)))) := by
  obtain ⟨hu, hu2⟩ := unit_cell_pos n hn
  by_cases h1 : n = 1
  · subst h1
    rw [count_of_one_increment _ (ne_of_gt hu)]
    refine ⟨hu, hu2, by norm_num, by norm_num, by norm_num, Or.inr ⟨by norm_num, by norm_num⟩⟩
  · have h2 : (2 : ℚ) ≤ n := by exact_mod_cast (by omega : (2 : Int) ≤ n)
    have hle : 2 / (n : ℚ) ≤ 1 := by
      rw [div_le_one (by linarith)]
      exact h2
    exact axis_ok_skin _ _ hu hu2 (by linarith) hle

/-- For an entity of scale at least 1 on each axis (in normal mode also:
positive node spacing and `CAC_cut ≥ CAC_skin`), the interior factor and layer
count that `compute_surface_depths` returns satisfy `axis_ok` on every axis. -/
theorem compute_surface_depths_axis_ok (sqrt : ℚ → ℚ) (a : Atom) (one_layer_flag : Nat)
    (pos : Nat → Nat → Vec3) (scale : Int3) (poly : Nat)
    (h0 : 1 ≤ scale.i0) (h1 : 1 ≤ scale.i1) (h2 : 1 ≤ scale.i2)
    (hn : one_layer_flag = 0 → a.CAC_skin ≤ a.CAC_cut ∧ 0 < sqrt (ds_sq pos poly) ∧
      0 < sqrt (dt_sq pos poly) ∧ 0 < sqrt (dw_sq pos poly)) :
    axis_ok (2 / (scale.i0 : ℚ))
      (compute_surface_depths sqrt a one_layer_flag pos scale poly).scalex
      (compute_surface_depths sqrt a one_layer_flag pos scale poly).countx ∧
    axis_ok (2 / (scale.i1 : ℚ))
      (compute_surface_depths sqrt a one_layer_flag pos scale poly).scaley
      (compute_surface_depths sqrt a one_layer_flag pos scale poly).county ∧
    axis_ok (2 / (scale.i2 : ℚ))
      (compute_surface_depths sqrt a one_layer_flag pos scale poly).scalez
      (compute_surface_depths sqrt a one_layer_flag pos scale poly).countz := by
  by_cases hf : one_layer_flag = 0
  · subst hf
    obtain ⟨hr, hs, ht, hw⟩ := hn rfl
    have hr0 : 0 ≤ a.CAC_cut - a.CAC_skin := sub_nonneg.mpr hr
    simp only [compute_surface_depths, surface_skin_normal]
    exact ⟨axis_ok_normal _ _ _ h0 hr0 hs, axis_ok_normal _ _ _ h1 hr0 ht,
      axis_ok_normal _ _ _ h2 hr0 hw⟩
  · simp only [compute_surface_depths, surface_skin_one_layer sqrt a one_layer_flag pos scale poly hf]
    exact ⟨axis_ok_one_layer _ h0, axis_ok_one_layer _ h1, axis_ok_one_layer _ h2⟩

/-- The counts and interior factors `bin_atoms_setup` stores for a local
extended entity are the result of its phase loop. -/
theorem bin_atoms_setup_quad_phase (sqrt : ℚ → ℚ) (a : Atom)
    (one_layer_flag maxpoly quad_rule_initialized : Nat) (q : Quad) (scm : Int3) (i : Nat)
    (hi : i < a.nlocal) (hty : a.element_type i ≠ 0) :
    ∃ cs : Int3 × Vec3,
      (bin_atoms_setup_quad sqrt a one_layer_flag maxpoly quad_rule_initialized q
          scm).quad.surface_counts i
        = (phase_surface_counts sqrt a one_layer_flag i cs).1 ∧
      (bin_atoms_setup_quad sqrt a one_layer_flag maxpoly quad_rule_initialized q
          scm).quad.interior_scales i
        = (phase_surface_counts sqrt a one_layer_flag i cs).2 := by
  obtain ⟨e1, e2, -, -, -, -⟩ := bin_atoms_setup_quad_fields sqrt a one_layer_flag maxpoly
    quad_rule_initialized q scm
  obtain ⟨c1, c2, -, -, -⟩ := (surface_counts_loop_spec sqrt a one_layer_flag
    (if quad_rule_initialized = 0 then quadrature_init 2 q else q).surface_counts
    (if quad_rule_initialized = 0 then quadrature_init 2 q else q).interior_scales
    scm).2.1 i hi hty
  exact ⟨_, by rw [e1, c1], by rw [e2, c2]⟩

/-- The stored counts and interior factors of a local extended entity satisfy
`axis_ok` on every axis. -/
theorem bin_atoms_setup_axis_ok (sqrt : ℚ → ℚ) (a : Atom)
    (one_layer_flag maxpoly quad_rule_initialized : Nat) (q : Quad) (scm : Int3) (i : Nat)
    (hi : i < a.nlocal) (hty : a.element_type i ≠ 0) (hpc : 1 ≤ a.poly_count i)
    (h0 : 1 ≤ (a.element_scale i).i0) (h1 : 1 ≤ (a.element_scale i).i1)
    (h2 : 1 ≤ (a.element_scale i).i2)
    (hn : one_layer_flag = 0 → a.CAC_skin ≤ a.CAC_cut ∧ ∀ p, p < a.poly_count i →
      0 < sqrt (ds_sq (a.nodal_positions i) p) ∧ 0 < sqrt (dt_sq (a.nodal_positions i) p) ∧
      0 < sqrt (dw_sq (a.nodal_positions i) p)) :
    axis_ok (2 / ((a.element_scale i).i0 : ℚ))
      ((bin_atoms_setup_quad sqrt a one_layer_flag maxpoly quad_rule_initialized q
          scm).quad.interior_scales i).c0
      ((bin_atoms_setup_quad sqrt a one_layer_flag maxpoly quad_rule_initialized q
          scm).quad.surface_counts i).i0 ∧
    axis_ok (2 / ((a.element_scale i).i1 : ℚ))
      ((bin_atoms_setup_quad sqrt a one_layer_flag maxpoly quad_rule_initialized q
          scm).quad.interior_scales i).c1
      ((bin_atoms_setup_quad sqrt a one_layer_flag maxpoly quad_rule_initialized q
          scm).quad.surface_counts i).i1 ∧
    axis_ok (2 / ((a.element_scale i).i2 : ℚ))
      ((bin_atoms_setup_quad sqrt a one_layer_flag maxpoly quad_rule_initialized q
          scm).quad.interior_scales i).c2
      ((bin_atoms_setup_quad sqrt a one_layer_flag maxpoly quad_rule_initialized q
          scm).quad.surface_counts i).i2 := by
  obtain ⟨cs, e1, e2⟩ := bin_atoms_setup_quad_phase sqrt a one_layer_flag maxpoly
    quad_rule_initialized q scm i hi hty
  have hok := fun p (hp : p < a.poly_count i) =>
    compute_surface_depths_axis_ok sqrt a one_layer_flag (a.nodal_positions i)
      (a.element_scale i) p h0 h1 h2
      (fun hf => ⟨(hn hf).1, (hn hf).2 p hp⟩)
  obtain ⟨⟨p0, hp0, a0, b0, -, -⟩, ⟨p1, hp1, a1, b1, -, -⟩, ⟨p2, hp2, a2, b2, -, -⟩⟩ :=
    phase_surface_counts_spec sqrt a one_layer_flag i cs hpc
  rw [e1, e2, a0, b0, a1, b1, a2, b2]
  exact ⟨(hok p0 hp0).1, (hok p1 hp1).2.1, (hok p2 hp2).2.2⟩

/-! The rows written by `compute_quad_points` -/

theorem put_quad_point_rows (pos : Nat → Nat → Vec3) (npe p c0 : Nat) (rows0 : Nat → Vec3)
    (s t w : ℚ) (qb : QuadBuf) (h : PhaseRows pos npe p c0 rows0 qb) :
    PhaseRows pos npe p c0 rows0 (put_quad_point pos npe p s t w qb) := by
  obtain ⟨h1, h2, h3, h4⟩ := h
  rw [put_quad_point_eq]
  refine ⟨?_, ?_, ?_, ?_⟩
  · show qb.quadrature_counter + 1 = (qb.samples ++ [(⟨s, t, w⟩ : Vec3)]).length
    rw [List.length_append, h1]
    rfl
  · show c0 ≤ qb.quadrature_counter + 1
    omega
  · intro r hr
    show Function.update qb.current_element_quad_points qb.quadrature_counter _ r = rows0 r
    rw [Function.update_noteq (by omega)]
    exact h3 r hr
  · intro r hr smp hs
    have hs' : (qb.samples ++ [(⟨s, t, w⟩ : Vec3)])[r]? = some smp := hs
    show Function.update qb.current_element_quad_points qb.quadrature_counter _ r = _
    by_cases e : r = qb.quadrature_counter
    · subst e
      rw [Function.update_same]
      rw [h1, List.getElem?_append_right (le_refl _), Nat.sub_self] at hs'
      have e2 : (⟨s, t, w⟩ : Vec3) = smp := by
        simpa using hs'
      rw [← e2]
    · have hlt : r < (qb.samples ++ [(⟨s, t, w⟩ : Vec3)]).length := by
        obtain ⟨hl, -⟩ := List.getElem?_eq_some.mp hs'
        exact hl
      rw [List.length_append, List.length_singleton] at hlt
      have hlt' : r < qb.samples.length := by omega
      rw [List.getElem?_append_left hlt'] at hs'
      rw [Function.update_noteq e]
      exact h4 r hr smp hs'

theorem quad_points_of_phase_rows (pos : Nat → Nat → Vec3) (npe : Nat) (u is : Vec3)
    (c : Int3) (n : Nat) (absc : Nat → ℚ) (p c0 : Nat) (rows0 : Nat → Vec3) (qb : QuadBuf)
    (h : PhaseRows pos npe p c0 rows0 qb) :
    PhaseRows pos npe p c0 rows0 (quad_points_of_phase pos npe u is c n absc p qb) := by
  unfold quad_points_of_phase
  simp only []
  repeat' first
    | assumption
    | (apply put_quad_point_rows)
    | (refine forLoop_inv (fun qb : QuadBuf => PhaseRows pos npe p c0 rows0 qb) _ _ _ ?_ ?_)
    | intro _ _ _

theorem phaseRows_start (pos : Nat → Nat → Vec3) (npe p : Nat) (qb : QuadBuf)
    (h : qb.quadrature_counter = qb.samples.length) :
    PhaseRows pos npe p qb.quadrature_counter qb.current_element_quad_points qb :=
  ⟨h, le_refl _, fun _ _ => rfl, fun r hr smp hs => by
    obtain ⟨hl, -⟩ := List.getElem?_eq_some.mp hs
    omega⟩

/-- The rows and samples `compute_quad_points` leaves: with `N` samples per
phase, the buffer holds `poly_count * N` rows, the samples are those of one
phase, and row `r` is the interpolation of the nodes of phase `r / N` at sample
`r`. -/
theorem compute_quad_points_rows (a : Atom) (q : Quad) (i : Nat) (buf : Nat → Vec3) :
    (compute_quad_points a q i buf).quadrature_counter
      = (compute_quad_points a q i buf).samples.length ∧
    (compute_quad_points a q i buf).samples.length
      = a.poly_count i *
        (phase_samples ⟨2 / ((a.element_scale i).i0 : ℚ), 2 / ((a.element_scale i).i1 : ℚ),
          2 / ((a.element_scale i).i2 : ℚ)⟩ (q.interior_scales i) (q.surface_counts i)
          q.quadrature_node_count q.quadrature_abcissae).length ∧
    (∀ x, x ∈ (compute_quad_points a q i buf).samples →
      x ∈ phase_samples ⟨2 / ((a.element_scale i).i0 : ℚ), 2 / ((a.element_scale i).i1 : ℚ),
          2 / ((a.element_scale i).i2 : ℚ)⟩ (q.interior_scales i) (q.surface_counts i)
          q.quadrature_node_count q.quadrature_abcissae) ∧
    ∀ r smp, (compute_quad_points a q i buf).samples[r]? = some smp →
      (compute_quad_points a q i buf).current_element_quad_points r
        = interpolate (a.nodal_positions i) (a.nodes_per_element_list (a.element_type i))
            (r / (phase_samples ⟨2 / ((a.element_scale i).i0 : ℚ),
              2 / ((a.element_scale i).i1 : ℚ), 2 / ((a.element_scale i).i2 : ℚ)⟩
              (q.interior_scales i) (q.surface_counts i)
              q.quadrature_node_count q.quadrature_abcissae).length)
            smp.c0 smp.c1 smp.c2 := by
  unfold compute_quad_points
  simp only []
  generalize hPS : phase_samples ⟨2 / ((a.element_scale i).i0 : ℚ),
    2 / ((a.element_scale i).i1 : ℚ), 2 / ((a.element_scale i).i2 : ℚ)⟩
    (q.interior_scales i) (q.surface_counts i)
    q.quadrature_node_count q.quadrature_abcissae = PS
  refine forLoop_inv_lt (fun k (qb : QuadBuf) =>
    qb.quadrature_counter = qb.samples.length ∧
    qb.samples.length = k * PS.length ∧
    (∀ x, x ∈ qb.samples → x ∈ PS) ∧
    ∀ r smp, qb.samples[r]? = some smp →
      qb.current_element_quad_points r
        = interpolate (a.nodal_positions i) (a.nodes_per_element_list (a.element_type i))
            (r / PS.length) smp.c0 smp.c1 smp.c2) (a.poly_count i) _ _ ?_ ?_
  · refine ⟨rfl, ?_, ?_, ?_⟩
    · simp
    · intro x hx
      cases hx
    · intro r smp hs
      simp at hs
  · intro k _ qb ⟨h1, h2, h3, h4⟩
    obtain ⟨j1, j2, j3, j4⟩ := quad_points_of_phase_rows (a.nodal_positions i)
      (a.nodes_per_element_list (a.element_type i))
      ⟨2 / ((a.element_scale i).i0 : ℚ), 2 / ((a.element_scale i).i1 : ℚ),
        2 / ((a.element_scale i).i2 : ℚ)⟩ (q.interior_scales i) (q.surface_counts i)
      q.quadrature_node_count q.quadrature_abcissae k _ _ qb
      (phaseRows_start (a.nodal_positions i) (a.nodes_per_element_list (a.element_type i)) k qb h1)
    have hsm := quad_points_of_phase_samples (a.nodal_positions i)
      (a.nodes_per_element_list (a.element_type i))
      ⟨2 / ((a.element_scale i).i0 : ℚ), 2 / ((a.element_scale i).i1 : ℚ),
        2 / ((a.element_scale i).i2 : ℚ)⟩ (q.interior_scales i) (q.surface_counts i)
      q.quadrature_node_count q.quadrature_abcissae k qb
    rw [hPS] at hsm
    have hlen : (quad_points_of_phase (a.nodal_positions i)
        (a.nodes_per_element_list (a.element_type i))
        ⟨2 / ((a.element_scale i).i0 : ℚ), 2 / ((a.element_scale i).i1 : ℚ),
          2 / ((a.element_scale i).i2 : ℚ)⟩ (q.interior_scales i) (q.surface_counts i)
        q.quadrature_node_count q.quadrature_abcissae k qb).samples.length
        = (k + 1) * PS.length := by
      rw [hsm, List.length_append, h2, Nat.succ_mul]
    refine ⟨j1, hlen, ?_, ?_⟩
    · intro x hx
      rw [hsm] at hx
      rcases List.mem_append.mp hx with hx | hx
      · exact h3 x hx
      · exact hx
    · intro r smp hs
      by_cases hr : r < qb.samples.length
      · have hs' := hs
        rw [hsm, List.getElem?_append_left hr] at hs'
        rw [j3 r (by omega)]
        exact h4 r smp hs'
      · have hlt : r < (k + 1) * PS.length := by
          obtain ⟨hl, -⟩ := List.getElem?_eq_some.mp hs
          omega
        have hge : k * PS.length ≤ r := by omega
        rw [Nat.div_eq_of_lt_le hge hlt]
        exact j4 r (by omega) smp hs

/-! The abscissae of the 2-point rule -/

theorem quadrature_init_two_abs (q : Quad) (j : Nat) :
    |(quadrature_init 2 q).quadrature_abcissae j| ≤ 1 := by
  have e : (quadrature_init 2 q).quadrature_abcissae j
      = if j = 0 then -(5773502691896258 / 10000000000000000)
        else 5773502691896258 / 10000000000000000 := rfl
  rw [e, abs_le]
  split_ifs <;> constructor <;> norm_num

/-! ## Rounding to the nearest double -/

theorem round_even_floor_le (x : ℚ) : ⌊x⌋ ≤ round_even x := by
  unfold round_even
  split_ifs <;> omega

theorem round_even_le_floor_succ (x : ℚ) : round_even x ≤ ⌊x⌋ + 1 := by
  unfold round_even
  split_ifs <;> omega

theorem round_even_abs (x : ℚ) : |(round_even x : ℚ) - x| ≤ 1 / 2 := by
  have h1 := Int.floor_le x
  have h2 := Int.lt_floor_add_one x
  unfold round_even
  rw [abs_le]
  split_ifs with a b c
  · constructor <;> linarith
  · push_cast; constructor <;> linarith
  · constructor <;> linarith
  · push_cast
    have e : x - (⌊x⌋ : ℚ) = 1 / 2 := le_antisymm (not_lt.mp b) (not_lt.mp a)
    constructor <;> linarith

theorem round_even_eq (x : ℚ) (m : Int) (h : |x - (m : ℚ)| < 1 / 2) : round_even x = m := by
  obtain ⟨h1, h2⟩ := abs_lt.mp h
  have h3 := round_even_abs x
  obtain ⟨h4, h5⟩ := abs_le.mp h3
  have h6 : ((round_even x : Int) : ℚ) - (m : ℚ) < 1 := by linarith
  have h7 : (-1 : ℚ) < ((round_even x : Int) : ℚ) - (m : ℚ) := by linarith
  have h8 : round_even x - m < 1 := by exact_mod_cast h6
  have h9 : -1 < round_even x - m := by exact_mod_cast h7
  omega

theorem round_even_intCast (n : Int) : round_even (n : ℚ) = n :=
  round_even_eq _ n (by simp)

theorem round_even_mono {x y : ℚ} (h : x ≤ y) : round_even x ≤ round_even y := by
  have hf : ⌊x⌋ ≤ ⌊y⌋ := Int.floor_mono h
  rcases hf.lt_or_eq with hlt | heq
  · have h1 := round_even_le_floor_succ x
    have h2 := round_even_floor_le y
    omega
  · unfold round_even
    rw [← heq]
    split_ifs <;> first | omega | (exfalso; linarith)

theorem round_even_ge_of_le (x : ℚ) (n : Int) (h : (n : ℚ) ≤ x) : n ≤ round_even x :=
  le_trans (Int.le_floor.mpr h) (round_even_floor_le x)

theorem round_even_le_of_le (x : ℚ) (n : Int) (h : x ≤ (n : ℚ)) : round_even x ≤ n := by
  have := round_even_mono h
  rwa [round_even_intCast] at this

/-! The binade of a positive rational -/

theorem ulp_pos (q : ℚ) : 0 < ulp q := by
  unfold ulp
  positivity

theorem binade_le (q : ℚ) (hq : 0 < q) : (2 : ℚ) ^ (Int.log 2 q) ≤ q := by
  have := Int.zpow_log_le_self (b := 2) (by norm_num) hq
  simpa using this

theorem lt_binade_succ (q : ℚ) : q < (2 : ℚ) ^ (Int.log 2 q + 1) := by
  have := Int.lt_zpow_succ_log_self (b := 2) (by norm_num) q
  simpa using this

theorem binade_eq (q : ℚ) (e : Int) (h1 : (2 : ℚ) ^ e ≤ q) (h2 : q < (2 : ℚ) ^ (e + 1)) :
    Int.log 2 q = e := by
  have hq : 0 < q := lt_of_lt_of_le (by positivity) h1
  have a : e ≤ Int.log 2 q := by
    rw [← Int.zpow_le_iff_le_log (by norm_num) hq]
    simpa using h1
  have b : Int.log 2 q < e + 1 := by
    rw [← Int.lt_zpow_iff_log_lt (by norm_num) hq]
    simpa using h2
  omega

theorem zpow_split (e : Int) : (2 : ℚ) ^ e = (2 : ℚ) ^ (52 : Int) * (2 : ℚ) ^ (e - 52) := by
  rw [← zpow_add₀ (by norm_num : (2 : ℚ) ≠ 0)]
  congr 1
  omega

theorem zpow_succ_split (e : Int) :
    (2 : ℚ) ^ (e + 1) = (2 : ℚ) ^ (53 : Int) * (2 : ℚ) ^ (e - 52) := by
  rw [← zpow_add₀ (by norm_num : (2 : ℚ) ≠ 0)]
  congr 1
  omega

/-- The scaled significand of a positive rational lies in `[2^52, 2^53)`. -/
theorem scaled_bounds (q : ℚ) (hq : 0 < q) :
    (2 : ℚ) ^ (52 : Int) ≤ q / ulp q ∧ q / ulp q < (2 : ℚ) ^ (53 : Int) := by
  have hu := ulp_pos q
  have h1 := binade_le q hq
  have h2 := lt_binade_succ q
  rw [zpow_split (Int.log 2 q)] at h1
  rw [zpow_succ_split (Int.log 2 q)] at h2
  constructor
  · rw [le_div_iff₀ hu]
    exact h1
  · rw [div_lt_iff₀ hu]
    exact h2

theorem round_pos_eval (q : ℚ) (e m : Int) (h1 : (2 : ℚ) ^ e ≤ q) (h2 : q < (2 : ℚ) ^ (e + 1))
    (hm : |q / (2 : ℚ) ^ (e - 52) - (m : ℚ)| < 1 / 2) :
    round_pos q = (m : ℚ) * (2 : ℚ) ^ (e - 52) := by
  unfold round_pos ulp
  rw [binade_eq q e h1 h2, round_even_eq _ m hm]

theorem round_pos_zero : round_pos 0 = 0 := by
  unfold round_pos
  simp [round_even_intCast, round_even]

/-- Bounds of the rounded value within its binade, and the rounding error. -/
theorem round_pos_bounds (q : ℚ) (hq : 0 < q) :
    (2 : ℚ) ^ (Int.log 2 q) ≤ round_pos q ∧ round_pos q ≤ (2 : ℚ) ^ (Int.log 2 q + 1) ∧
    |round_pos q - q| ≤ ulp q / 2 ∧ ulp q / 2 ≤ q / 2 ^ 53 := by
  have hu := ulp_pos q
  obtain ⟨s1, s2⟩ := scaled_bounds q hq
  have e52 : (2 : ℚ) ^ (52 : Int) = 4503599627370496 := by norm_num
  have e53 : (2 : ℚ) ^ (53 : Int) = 9007199254740992 := by norm_num
  rw [e52] at s1
  rw [e53] at s2
  have r1 : (4503599627370496 : Int) ≤ round_even (q / ulp q) :=
    round_even_ge_of_le _ _ (by push_cast; exact s1)
  have r2 : round_even (q / ulp q) ≤ (9007199254740992 : Int) :=
    round_even_le_of_le _ _ (by push_cast; exact s2.le)
  have r1q : (2 : ℚ) ^ (52 : Int) ≤ (round_even (q / ulp q) : ℚ) := by
    rw [e52]
    exact_mod_cast r1
  have r2q : (round_even (q / ulp q) : ℚ) ≤ (2 : ℚ) ^ (53 : Int) := by
    rw [e53]
    exact_mod_cast r2
  have hq' : q = q / ulp q * ulp q := by field_simp
  refine ⟨?_, ?_, ?_, ?_⟩
  · rw [zpow_split (Int.log 2 q)]
    exact mul_le_mul_of_nonneg_right r1q hu.le
  · rw [zpow_succ_split (Int.log 2 q)]
    exact mul_le_mul_of_nonneg_right r2q hu.le
  · have ha := round_even_abs (q / ulp q)
    have e : round_pos q - q = ((round_even (q / ulp q) : ℚ) - q / ulp q) * ulp q := by
      unfold round_pos
      field_simp
    rw [e, abs_mul, abs_of_pos hu]
    calc |(round_even (q / ulp q) : ℚ) - q / ulp q| * ulp q ≤ 1 / 2 * ulp q :=
          mul_le_mul_of_nonneg_right ha hu.le
      _ = ulp q / 2 := by ring
  · have h1 := binade_le q hq
    rw [zpow_split (Int.log 2 q)] at h1
    rw [e52] at h1
    have : ulp q = (2 : ℚ) ^ (Int.log 2 q - 52) := rfl
    rw [← this] at h1
    rw [div_le_div_iff₀ (by norm_num) (by positivity)]
    nlinarith

theorem round_pos_pos (q : ℚ) (hq : 0 < q) : 0 < round_pos q :=
  lt_of_lt_of_le (by positivity) (round_pos_bounds q hq).1

theorem round_pos_mono (a b : ℚ) (ha : 0 < a) (h : a ≤ b) : round_pos a ≤ round_pos b := by
  have hb : 0 < b := lt_of_lt_of_le ha h
  have hlog : Int.log 2 a ≤ Int.log 2 b := Int.log_mono_right ha h
  rcases hlog.lt_or_eq with hlt | heq
  · have h1 := (round_pos_bounds a ha).2.1
    have h2 := (round_pos_bounds b hb).1
    have h3 : (2 : ℚ) ^ (Int.log 2 a + 1) ≤ (2 : ℚ) ^ (Int.log 2 b) :=
      zpow_le_zpow_right₀ (by norm_num) (by omega)
    linarith
  · have hu : ulp a = ulp b := by
      unfold ulp
      rw [heq]
    unfold round_pos
    rw [hu]
    have hupos := ulp_pos b
    have hdiv : a / ulp b ≤ b / ulp b := div_le_div_of_nonneg_right h hupos.le
    have hr : (round_even (a / ulp b) : ℚ) ≤ (round_even (b / ulp b) : ℚ) := by
      exact_mod_cast round_even_mono hdiv
    exact mul_le_mul_of_nonneg_right hr hupos.le

theorem isDbl_zero : IsDbl 0 := ⟨0, 0, by norm_num, by norm_num⟩

theorem isDbl_neg (x : ℚ) (h : IsDbl x) : IsDbl (-x) := by
  obtain ⟨m, e, hm, hx⟩ := h
  exact ⟨-m, e, by rwa [abs_neg], by rw [hx]; push_cast; ring⟩

theorem isDbl_intCast (n : Int) (h : |n| < 2 ^ 53) : IsDbl (n : ℚ) :=
  ⟨n, 0, h, by simp⟩

theorem isDbl_mul_zpow (x : ℚ) (k : Int) (h : IsDbl x) : IsDbl (x * (2 : ℚ) ^ k) := by
  obtain ⟨m, e, hm, hx⟩ := h
  refine ⟨m, e + k, hm, ?_⟩
  rw [hx, zpow_add₀ (by norm_num : (2 : ℚ) ≠ 0)]
  ring

theorem isDbl_two_mul (x : ℚ) (h : IsDbl x) : IsDbl (2 * x) := by
  have := isDbl_mul_zpow x 1 h
  rw [zpow_one] at this
  rwa [mul_comm]

theorem round_pos_isDbl (q : ℚ) (hq : 0 < q) : IsDbl (round_pos q) := by
  have hu := ulp_pos q
  obtain ⟨s1, s2⟩ := scaled_bounds q hq
  have e52 : (2 : ℚ) ^ (52 : Int) = 4503599627370496 := by norm_num
  have e53 : (2 : ℚ) ^ (53 : Int) = 9007199254740992 := by norm_num
  rw [e52] at s1
  rw [e53] at s2
  have r1 : (4503599627370496 : Int) ≤ round_even (q / ulp q) :=
    round_even_ge_of_le _ _ (by push_cast; exact s1)
  have r2 : round_even (q / ulp q) ≤ (9007199254740992 : Int) :=
    round_even_le_of_le _ _ (by push_cast; exact s2.le)
  rcases r2.lt_or_eq with hlt | heq
  · refine ⟨round_even (q / ulp q), Int.log 2 q - 52, ?_, rfl⟩
    rw [abs_lt]
    constructor <;> norm_num <;> omega
  · refine ⟨1, Int.log 2 q + 1, by norm_num, ?_⟩
    unfold round_pos
    rw [heq, zpow_succ_split (Int.log 2 q), e53]
    unfold ulp
    push_cast
    ring

/-- A positive double is left unchanged. -/
theorem round_pos_exact (q : ℚ) (hq : 0 < q) (h : IsDbl q) : round_pos q = q := by
  obtain ⟨m, k, hm, hx⟩ := h
  have h2 : (0 : ℚ) < (2 : ℚ) ^ k := by positivity
  have hmpos : (0 : ℚ) < (m : ℚ) := by
    rw [hx] at hq
    exact (mul_pos_iff_of_pos_right h2).mp hq
  have hmlt : (m : ℚ) < 2 ^ 53 := by
    have : m < 2 ^ 53 := lt_of_le_of_lt (le_abs_self m) hm
    exact_mod_cast this
  have h1 := binade_le q hq
  have hlt : (2 : ℚ) ^ (Int.log 2 q) < (2 : ℚ) ^ (53 + k) := by
    rw [zpow_add₀ (by norm_num : (2 : ℚ) ≠ 0)]
    calc (2 : ℚ) ^ (Int.log 2 q) ≤ q := h1
      _ = (m : ℚ) * (2 : ℚ) ^ k := hx
      _ < (2 : ℚ) ^ (53 : Int) * (2 : ℚ) ^ k := by
          apply mul_lt_mul_of_pos_right _ h2
          norm_num
          exact hmlt
  have he : Int.log 2 q < 53 + k := by
    by_contra hc
    have : (2 : ℚ) ^ (53 + k) ≤ (2 : ℚ) ^ (Int.log 2 q) :=
      zpow_le_zpow_right₀ (by norm_num) (by omega)
    linarith
  have hu : ulp q = (2 : ℚ) ^ (Int.log 2 q - 52) := rfl
  generalize Int.log 2 q = L at hu he
  obtain ⟨n, hn⟩ : ∃ n : Nat, (n : Int) = k - (L - 52) :=
    ⟨(k - (L - 52)).toNat, Int.toNat_of_nonneg (by omega)⟩
  have hdiv : q / ulp q = ((m * 2 ^ n : Int) : ℚ) := by
    rw [hu, hx, mul_div_assoc, ← zpow_sub₀ (by norm_num : (2 : ℚ) ≠ 0), ← hn, zpow_natCast]
    push_cast
    ring
  unfold round_pos
  rw [hdiv, round_even_intCast, ← hdiv]
  have := ulp_pos q
  field_simp

/-- Two different doubles `a < b` are more than `a / 2^53` apart. -/
theorem isDbl_gap (a b : ℚ) (ha : IsDbl a) (hb : IsDbl b) (hab : a < b) :
    a + a / 2 ^ 53 < b := by
  obtain ⟨m, k, hm, hx⟩ := ha
  obtain ⟨m', k', hm', hx'⟩ := hb
  have p2 : (0 : ℚ) < (2 : ℚ) ^ k := by positivity
  have p2' : (0 : ℚ) < (2 : ℚ) ^ k' := by positivity
  have hmq : (m : ℚ) < 2 ^ 53 := by
    have : m < 2 ^ 53 := lt_of_le_of_lt (le_abs_self m) hm
    exact_mod_cast this
  have hmq' : (m' : ℚ) < 2 ^ 53 := by
    have : m' < 2 ^ 53 := lt_of_le_of_lt (le_abs_self m') hm'
    exact_mod_cast this
  rcases le_or_lt k k' with hk | hk
  · obtain ⟨n, hn⟩ : ∃ n : Nat, (n : Int) = k' - k := ⟨(k' - k).toNat, Int.toNat_of_nonneg (by omega)⟩
    have eb : b = ((m' * 2 ^ n : Int) : ℚ) * (2 : ℚ) ^ k := by
      have : k' = (n : Int) + k := by omega
      rw [hx', this, zpow_add₀ (by norm_num : (2 : ℚ) ≠ 0), zpow_natCast]
      push_cast
      ring
    have hlt : ((m : Int) : ℚ) < ((m' * 2 ^ n : Int) : ℚ) := by
      have : (m : ℚ) * (2 : ℚ) ^ k < ((m' * 2 ^ n : Int) : ℚ) * (2 : ℚ) ^ k := by
        rw [← hx, ← eb]; exact hab
      exact lt_of_mul_lt_mul_right this p2.le
    have hlt' : m < m' * 2 ^ n := by exact_mod_cast hlt
    have hge : (m : ℚ) + 1 ≤ ((m' * 2 ^ n : Int) : ℚ) := by
      exact_mod_cast (by omega : m + 1 ≤ m' * 2 ^ n)
    rw [hx, eb]
    have : (m : ℚ) / 2 ^ 53 < 1 := by
      rw [div_lt_one (by positivity)]
      exact hmq
    have e : (m : ℚ) * (2 : ℚ) ^ k + (m : ℚ) * (2 : ℚ) ^ k / 2 ^ 53
        = ((m : ℚ) + (m : ℚ) / 2 ^ 53) * (2 : ℚ) ^ k := by ring
    rw [e]
    apply mul_lt_mul_of_pos_right _ p2
    linarith
  · obtain ⟨n, hn⟩ : ∃ n : Nat, (n : Int) = k - k' := ⟨(k - k').toNat, Int.toNat_of_nonneg (by omega)⟩
    have ea : a = ((m * 2 ^ n : Int) : ℚ) * (2 : ℚ) ^ k' := by
      have : k = (n : Int) + k' := by omega
      rw [hx, this, zpow_add₀ (by norm_num : (2 : ℚ) ≠ 0), zpow_natCast]
      push_cast
      ring
    have hlt : ((m * 2 ^ n : Int) : ℚ) < ((m' : Int) : ℚ) := by
      have : ((m * 2 ^ n : Int) : ℚ) * (2 : ℚ) ^ k' < (m' : ℚ) * (2 : ℚ) ^ k' := by
        rw [← hx', ← ea]; exact hab
      exact lt_of_mul_lt_mul_right this p2'.le
    have hlt' : m * 2 ^ n < m' := by exact_mod_cast hlt
    have hge : ((m * 2 ^ n : Int) : ℚ) + 1 ≤ (m' : ℚ) := by
      exact_mod_cast (by omega : m * 2 ^ n + 1 ≤ m')
    have hA : ((m * 2 ^ n : Int) : ℚ) < 2 ^ 53 := lt_trans hlt hmq'
    rw [ea, hx']
    have : ((m * 2 ^ n : Int) : ℚ) / 2 ^ 53 < 1 := by
      rw [div_lt_one (by positivity)]
      exact hA
    have e : ((m * 2 ^ n : Int) : ℚ) * (2 : ℚ) ^ k' + ((m * 2 ^ n : Int) : ℚ) * (2 : ℚ) ^ k' / 2 ^ 53
        = (((m * 2 ^ n : Int) : ℚ) + ((m * 2 ^ n : Int) : ℚ) / 2 ^ 53) * (2 : ℚ) ^ k' := by ring
    rw [e]
    apply mul_lt_mul_of_pos_right _ p2'
    linarith

/-! The rounding of a double operation -/

theorem round_dbl_of_nonneg (q : ℚ) (h : 0 ≤ q) : round_dbl q = round_pos q := by
  unfold round_dbl
  rw [if_pos h]

theorem round_dbl_of_neg (q : ℚ) (h : q < 0) : round_dbl q = -round_pos (-q) := by
  unfold round_dbl
  rw [if_neg (not_le.mpr h)]

theorem round_dbl_zero : round_dbl 0 = 0 := by
  rw [round_dbl_of_nonneg 0 le_rfl, round_pos_zero]

theorem round_dbl_neg (q : ℚ) : round_dbl (-q) = -round_dbl q := by
  rcases lt_trichotomy q 0 with h | h | h
  · rw [round_dbl_of_nonneg (-q) (by linarith), round_dbl_of_neg q h, neg_neg]
  · subst h
    simp [round_dbl_zero]
  · rw [round_dbl_of_neg (-q) (by linarith), round_dbl_of_nonneg q h.le, neg_neg]

theorem round_dbl_pos (q : ℚ) (h : 0 < q) : 0 < round_dbl q := by
  rw [round_dbl_of_nonneg q h.le]
  exact round_pos_pos q h

theorem round_dbl_nonneg (q : ℚ) (h : 0 ≤ q) : 0 ≤ round_dbl q := by
  rcases h.lt_or_eq with h | h
  · exact (round_dbl_pos q h).le
  · rw [← h, round_dbl_zero]

theorem round_dbl_neg_of_neg (q : ℚ) (h : q < 0) : round_dbl q < 0 := by
  rw [round_dbl_of_neg q h]
  have := round_pos_pos (-q) (by linarith)
  linarith

theorem round_dbl_nonpos (q : ℚ) (h : q ≤ 0) : round_dbl q ≤ 0 := by
  rcases h.lt_or_eq with h | h
  · exact (round_dbl_neg_of_neg q h).le
  · rw [h, round_dbl_zero]

/-- Rounding is monotone. -/
theorem round_dbl_mono (a b : ℚ) (h : a ≤ b) : round_dbl a ≤ round_dbl b := by
  rcases lt_trichotomy a 0 with ha | ha | ha
  · rcases lt_or_le b 0 with hb | hb
    · rw [round_dbl_of_neg a ha, round_dbl_of_neg b hb]
      have := round_pos_mono (-b) (-a) (by linarith) (by linarith)
      linarith
    · exact le_trans (round_dbl_neg_of_neg a ha).le (round_dbl_nonneg b hb)
  · subst ha
    rw [round_dbl_zero]
    exact round_dbl_nonneg b h
  · rw [round_dbl_of_nonneg a ha.le, round_dbl_of_nonneg b (le_trans ha.le h)]
    exact round_pos_mono a b ha h

/-- The relative error of rounding is at most `2^-53`. -/
theorem round_dbl_err (q : ℚ) : |round_dbl q - q| ≤ |q| / 2 ^ 53 := by
  rcases lt_trichotomy q 0 with h | h | h
  · rw [round_dbl_of_neg q h, abs_of_neg h]
    obtain ⟨-, -, h3, h4⟩ := round_pos_bounds (-q) (by linarith)
    have e : -round_pos (-q) - q = -(round_pos (-q) - -q) := by ring
    rw [e, abs_neg]
    exact le_trans h3 h4
  · subst h
    simp [round_dbl_zero]
  · rw [round_dbl_of_nonneg q h.le, abs_of_pos h]
    obtain ⟨-, -, h3, h4⟩ := round_pos_bounds q h
    exact le_trans h3 h4

theorem round_dbl_isDbl (q : ℚ) : IsDbl (round_dbl q) := by
  rcases lt_trichotomy q 0 with h | h | h
  · rw [round_dbl_of_neg q h]
    exact isDbl_neg _ (round_pos_isDbl (-q) (by linarith))
  · subst h
    rw [round_dbl_zero]
    exact isDbl_zero
  · rw [round_dbl_of_nonneg q h.le]
    exact round_pos_isDbl q h

/-- A double is left unchanged. -/
theorem round_dbl_exact (q : ℚ) (h : IsDbl q) : round_dbl q = q := by
  rcases lt_trichotomy q 0 with hq | hq | hq
  · rw [round_dbl_of_neg q hq, round_pos_exact (-q) (by linarith) (isDbl_neg q h), neg_neg]
  · subst hq
    exact round_dbl_zero
  · rw [round_dbl_of_nonneg q hq.le, round_pos_exact q hq h]

theorem round_dbl_idem (q : ℚ) : round_dbl (round_dbl q) = round_dbl q :=
  round_dbl_exact _ (round_dbl_isDbl q)

/-- Evaluation of a rounding: `q` in the binade `[2^e, 2^(e+1))` with scaled
significand nearer than one half to the integer `m`. -/
theorem round_dbl_eval (q : ℚ) (e m : Int) (h1 : (2 : ℚ) ^ e ≤ q) (h2 : q < (2 : ℚ) ^ (e + 1))
    (hm : |q / (2 : ℚ) ^ (e - 52) - (m : ℚ)| < 1 / 2) :
    round_dbl q = (m : ℚ) * (2 : ℚ) ^ (e - 52) := by
  have hq : 0 < q := lt_of_lt_of_le (by positivity) h1
  rw [round_dbl_of_nonneg q hq.le]
  exact round_pos_eval q e m h1 h2 hm

theorem round_dbl_intCast (n : Int) (h : |n| < 2 ^ 53) : round_dbl (n : ℚ) = n :=
  round_dbl_exact _ (isDbl_intCast n h)

/-! ## 32-bit integers -/

theorem wrap_int32_eq (n : Int) (h1 : INT_MIN ≤ n) (h2 : n ≤ INT_MAX) : wrap_int32 n = n := by
  unfold wrap_int32
  rw [if_pos ⟨h1, h2⟩]

theorem static_cast_int32_eq (d : ℚ) (h1 : -2147483649 < d) (h2 : d < 2147483648) :
    static_cast_int32 d = static_cast_int d := by
  unfold static_cast_int32
  rw [if_pos]
  constructor
  · simp only [INT_MIN]; push_cast; linarith
  · simp only [INT_MAX]; push_cast; linarith

theorem static_cast_int32_overflow (d : ℚ) (h : 2147483648 ≤ d) :
    static_cast_int32 d = INT_MIN := by
  unfold static_cast_int32
  rw [if_neg]
  rintro ⟨-, h2⟩
  simp only [INT_MAX] at h2
  push_cast at h2
  linarith

/-- The truncation of a value below `2^31` in absolute value is an `int`. -/
theorem static_cast_int_bounds (d : ℚ) :
    (0 ≤ d → d < 2147483648 → 0 ≤ static_cast_int d ∧ static_cast_int d ≤ INT_MAX) ∧
    (d ≤ 0 → -2147483648 < d → INT_MIN + 1 ≤ static_cast_int d ∧ static_cast_int d ≤ 0) := by
  constructor
  · intro h0 h1
    refine ⟨static_cast_int_nonneg h0, ?_⟩
    have h2 := static_cast_int_le h0
    have h3 : ((static_cast_int d : Int) : ℚ) < 2147483648 := lt_of_le_of_lt h2 h1
    have h4 : static_cast_int d < 2147483648 := by exact_mod_cast h3
    simp only [INT_MAX]
    omega
  · intro h0 h1
    refine ⟨?_, static_cast_int_nonpos h0⟩
    have h2 := le_static_cast_int h0
    have h3 : (-2147483648 : ℚ) < ((static_cast_int d : Int) : ℚ) := lt_of_lt_of_le h1 h2
    have h4 : -2147483648 < static_cast_int d := by exact_mod_cast h3
    simp only [INT_MIN]
    omega

/-! ## The per-axis cell index in machine arithmetic -/

theorem scaled_offset_nonneg (lo bininv x : ℚ) (hinv : 0 ≤ bininv) (h : lo ≤ x) :
    0 ≤ scaled_offset lo bininv x :=
  round_dbl_nonneg _ (mul_nonneg (round_dbl_nonneg _ (sub_nonneg.mpr h)) hinv)

theorem scaled_offset_nonpos (lo bininv x : ℚ) (hinv : 0 ≤ bininv) (h : x ≤ lo) :
    scaled_offset lo bininv x ≤ 0 :=
  round_dbl_nonpos _ (mul_nonpos_of_nonpos_of_nonneg (round_dbl_nonpos _ (sub_nonpos.mpr h)) hinv)

theorem scaled_offset_mono (lo bininv x y : ℚ) (hinv : 0 ≤ bininv) (h : x ≤ y) :
    scaled_offset lo bininv x ≤ scaled_offset lo bininv y :=
  round_dbl_mono _ _ (mul_le_mul_of_nonneg_right
    (round_dbl_mono _ _ (sub_le_sub_right h lo)) hinv)

/-- Within the reach of 32-bit arithmetic the index is the one of exact integer
arithmetic on the rounded offset. -/
theorem axis_bin_dbl_eq (bboxlo bboxhi bininv : ℚ) (nbin : Int) (x : ℚ)
    (hn : 1 ≤ nbin) (hmax : nbin ≤ INT_MAX) (_hbox : bboxlo ≤ bboxhi) (hinv : 0 ≤ bininv)
    (hfit : axis_fits bboxlo bboxhi bininv nbin x) :
    axis_bin_dbl bboxlo bboxhi bininv nbin x
      = if x ≥ bboxhi then static_cast_int (scaled_offset bboxhi bininv x) + nbin
        else if x ≥ bboxlo then
          min (static_cast_int (scaled_offset bboxlo bininv x)) (nbin - 1)
        else static_cast_int (scaled_offset bboxlo bininv x) - 1 := by
  unfold axis_bin_dbl
  unfold axis_fits at hfit
  have hmax' : nbin ≤ 2147483647 := hmax
  by_cases h1 : x ≥ bboxhi
  · rw [if_pos h1] at hfit ⊢
    rw [if_pos h1]
    have p := scaled_offset_nonneg bboxhi bininv x hinv h1
    have hnq : (1 : ℚ) ≤ (nbin : ℚ) := by exact_mod_cast hn
    have hlt : scaled_offset bboxhi bininv x < 2147483648 := by linarith
    rw [static_cast_int32_eq _ (by linarith) hlt]
    obtain ⟨b1, -⟩ := (static_cast_int_bounds _).1 p hlt
    have b2 := static_cast_int_le p
    have b3 : ((static_cast_int (scaled_offset bboxhi bininv x) + nbin : Int) : ℚ) < 2147483648 := by
      push_cast; linarith
    have b4 : static_cast_int (scaled_offset bboxhi bininv x) + nbin < 2147483648 := by
      exact_mod_cast b3
    exact wrap_int32_eq _ (by simp only [INT_MIN]; omega) (by simp only [INT_MAX]; omega)
  · rw [if_neg h1] at hfit ⊢
    rw [if_neg h1]
    by_cases h2 : x ≥ bboxlo
    · rw [if_pos h2] at hfit ⊢
      rw [if_pos h2]
      have p := scaled_offset_nonneg bboxlo bininv x hinv h2
      rw [static_cast_int32_eq _ (by linarith) hfit,
        wrap_int32_eq _ (by simp only [INT_MIN]; omega) (by simp only [INT_MAX]; omega)]
    · rw [if_neg h2] at hfit ⊢
      rw [if_neg h2]
      have p := scaled_offset_nonpos bboxlo bininv x hinv (not_le.mp h2).le
      rw [static_cast_int32_eq _ (by linarith) (by linarith)]
      obtain ⟨b1, b2⟩ := (static_cast_int_bounds _).2 p hfit
      exact wrap_int32_eq _ (by simp only [INT_MIN] at b1 ⊢; omega)
        (by simp only [INT_MAX]; omega)

/-- C4 (as the code has it): on an axis with `1 ≤ nbin ≤ INT_MAX` interior cells
(`bboxlo ≤ bboxhi`, `bininv ≥ 0`), for every coordinate `x` within the reach of
32-bit arithmetic (`axis_fits`) the per-axis index computed in machine
arithmetic lies in `[0, nbin-1]` when `bboxlo ≤ x < bboxhi`; for `x ≥ bboxhi` it
is the truncation of the rounded `(x-bboxhi)*bininv` plus `nbin`, at least
`nbin`; for `x < bboxlo` it is the truncation of the rounded `(x-bboxlo)*bininv`
minus 1, at most `-1`. -/
theorem axis_bin_dbl_ranges (bboxlo bboxhi bininv : ℚ) (nbin : Int)
    (hn : 1 ≤ nbin) (hmax : nbin ≤ INT_MAX) (hbox : bboxlo ≤ bboxhi) (hinv : 0 ≤ bininv) :
    (∀ x, axis_fits bboxlo bboxhi bininv nbin x → bboxlo ≤ x → x < bboxhi →
      0 ≤ axis_bin_dbl bboxlo bboxhi bininv nbin x ∧
      axis_bin_dbl bboxlo bboxhi bininv nbin x ≤ nbin - 1) ∧
    (∀ x, axis_fits bboxlo bboxhi bininv nbin x → bboxhi ≤ x →
      axis_bin_dbl bboxlo bboxhi bininv nbin x
        = static_cast_int (round_dbl (round_dbl (x - bboxhi) * bininv)) + nbin ∧
      nbin ≤ axis_bin_dbl bboxlo bboxhi bininv nbin x) ∧
    (∀ x, axis_fits bboxlo bboxhi bininv nbin x → x < bboxlo →
      axis_bin_dbl bboxlo bboxhi bininv nbin x
        = static_cast_int (round_dbl (round_dbl (x - bboxlo) * bininv)) - 1 ∧
      axis_bin_dbl bboxlo bboxhi bininv nbin x ≤ -1) := by
  refine ⟨fun x hfit hlo hhi => ?_, fun x hfit hhi => ?_, fun x hfit hlo => ?_⟩
  · rw [axis_bin_dbl_eq _ _ _ _ _ hn hmax hbox hinv hfit, if_neg (not_le.mpr hhi), if_pos hlo]
    have h2 := static_cast_int_nonneg (scaled_offset_nonneg bboxlo bininv x hinv hlo)
    exact ⟨le_min h2 (by omega), min_le_right _ _⟩
  · rw [axis_bin_dbl_eq _ _ _ _ _ hn hmax hbox hinv hfit, if_pos hhi]
    have h2 := static_cast_int_nonneg (scaled_offset_nonneg bboxhi bininv x hinv hhi)
    exact ⟨rfl, by omega⟩
  · rw [axis_bin_dbl_eq _ _ _ _ _ hn hmax hbox hinv hfit,
      if_neg (not_le.mpr (lt_of_lt_of_le hlo hbox)), if_neg (not_le.mpr hlo)]
    have h2 := static_cast_int_nonpos (scaled_offset_nonpos bboxlo bininv x hinv hlo.le)
    exact ⟨rfl, by omega⟩

/-- Monotonicity of the per-axis index within the reach of 32-bit arithmetic. -/
theorem axis_bin_dbl_mono (bboxlo bboxhi bininv : ℚ) (nbin : Int)
    (hn : 1 ≤ nbin) (hmax : nbin ≤ INT_MAX) (hbox : bboxlo ≤ bboxhi) (hinv : 0 ≤ bininv)
    (x y : ℚ) (hx : axis_fits bboxlo bboxhi bininv nbin x)
    (hy : axis_fits bboxlo bboxhi bininv nbin y) (hxy : x ≤ y) :
    axis_bin_dbl bboxlo bboxhi bininv nbin x ≤ axis_bin_dbl bboxlo bboxhi bininv nbin y := by
  rw [axis_bin_dbl_eq _ _ _ _ _ hn hmax hbox hinv hx,
    axis_bin_dbl_eq _ _ _ _ _ hn hmax hbox hinv hy]
  by_cases hx1 : x ≥ bboxhi
  · have hy1 : y ≥ bboxhi := le_trans hx1 hxy
    rw [if_pos hx1, if_pos hy1]
    have := static_cast_int_mono (scaled_offset_mono bboxhi bininv x y hinv hxy)
    omega
  · rw [if_neg hx1]
    by_cases hx2 : x ≥ bboxlo
    · rw [if_pos hx2]
      by_cases hy1 : y ≥ bboxhi
      · rw [if_pos hy1]
        have h1 := static_cast_int_nonneg (scaled_offset_nonneg bboxhi bininv y hinv hy1)
        have h2 := min_le_right (static_cast_int (scaled_offset bboxlo bininv x)) (nbin - 1)
        omega
      · rw [if_neg hy1, if_pos (le_trans hx2 hxy)]
        exact min_le_min_right _
          (static_cast_int_mono (scaled_offset_mono bboxlo bininv x y hinv hxy))
    · rw [if_neg hx2]
      have hxn := static_cast_int_nonpos
        (scaled_offset_nonpos bboxlo bininv x hinv (not_le.mp hx2).le)
      by_cases hy1 : y ≥ bboxhi
      · rw [if_pos hy1]
        have h1 := static_cast_int_nonneg (scaled_offset_nonneg bboxhi bininv y hinv hy1)
        omega
      · rw [if_neg hy1]
        by_cases hy2 : y ≥ bboxlo
        · rw [if_pos hy2]
          have h1 := static_cast_int_nonneg (scaled_offset_nonneg bboxlo bininv y hinv hy2)
          have : (0 : Int) ≤ min (static_cast_int (scaled_offset bboxlo bininv y)) (nbin - 1) :=
            le_min h1 (by omega)
          omega
        · rw [if_neg hy2]
          have := static_cast_int_mono (scaled_offset_mono bboxlo bininv x y hinv hxy)
          omega

theorem inflated_box_dbl_ordered (a : Atom) (i : Nat) (hcut : 0 ≤ a.CAC_cut + a.CAC_skin) :
    (inflated_box_dbl a i).1.c0 ≤ (inflated_box_dbl a i).2.c0 ∧
    (inflated_box_dbl a i).1.c1 ≤ (inflated_box_dbl a i).2.c1 ∧
    (inflated_box_dbl a i).1.c2 ≤ (inflated_box_dbl a i).2.c2 := by
  obtain ⟨b0, b1, b2⟩ := node_bounding_box_ordered (a.nodal_positions i) (a.poly_count i)
    (a.nodes_per_element_list (a.element_type i))
  have hc := round_dbl_nonneg _ hcut
  exact ⟨round_dbl_mono _ _ (by linarith), round_dbl_mono _ _ (by linarith),
    round_dbl_mono _ _ (by linarith)⟩

/-- C34 (as the code has it): on every axis with `1 ≤ nbin ≤ INT_MAX`,
`bboxlo ≤ bboxhi` and `bininv ≥ 0`, the per-axis cell index computed in machine
arithmetic is monotone on the coordinates within the reach of 32-bit
arithmetic.  Hence, for an entity with `CAC_cut + CAC_skin ≥ 0` whose inflated
corners are such coordinates, the indices `ixl, iyl, izl` of the low corner do
not exceed the indices `ixh, iyh, izh` of the high corner. -/
theorem axis_bin_dbl_monotone (g : Grid) (a : Atom) (i : Nat)
    (hnx : 1 ≤ g.nbinx ∧ g.nbinx ≤ INT_MAX) (hny : 1 ≤ g.nbiny ∧ g.nbiny ≤ INT_MAX)
    (hnz : 1 ≤ g.nbinz ∧ g.nbinz ≤ INT_MAX)
    (hbx : g.bboxlo.c0 ≤ g.bboxhi.c0) (hby : g.bboxlo.c1 ≤ g.bboxhi.c1)
    (hbz : g.bboxlo.c2 ≤ g.bboxhi.c2)
    (hix : 0 ≤ g.bininvx) (hiy : 0 ≤ g.bininvy) (hiz : 0 ≤ g.bininvz)
    (hcut : 0 ≤ a.CAC_cut + a.CAC_skin)
    (hlo : axis_fits g.bboxlo.c0 g.bboxhi.c0 g.bininvx g.nbinx (inflated_box_dbl a i).1.c0 ∧
      axis_fits g.bboxlo.c1 g.bboxhi.c1 g.bininvy g.nbiny (inflated_box_dbl a i).1.c1 ∧
      axis_fits g.bboxlo.c2 g.bboxhi.c2 g.bininvz g.nbinz (inflated_box_dbl a i).1.c2)
    (hhi : axis_fits g.bboxlo.c0 g.bboxhi.c0 g.bininvx g.nbinx (inflated_box_dbl a i).2.c0 ∧
      axis_fits g.bboxlo.c1 g.bboxhi.c1 g.bininvy g.nbiny (inflated_box_dbl a i).2.c1 ∧
      axis_fits g.bboxlo.c2 g.bboxhi.c2 g.bininvz g.nbinz (inflated_box_dbl a i).2.c2) :
    (∀ x y : ℚ, axis_fits g.bboxlo.c0 g.bboxhi.c0 g.bininvx g.nbinx x →
      axis_fits g.bboxlo.c0 g.bboxhi.c0 g.bininvx g.nbinx y → x ≤ y →
      axis_bin_dbl g.bboxlo.c0 g.bboxhi.c0 g.bininvx g.nbinx x
        ≤ axis_bin_dbl g.bboxlo.c0 g.bboxhi.c0 g.bininvx g.nbinx y) ∧
    (∀ x y : ℚ, axis_fits g.bboxlo.c1 g.bboxhi.c1 g.bininvy g.nbiny x →
      axis_fits g.bboxlo.c1 g.bboxhi.c1 g.bininvy g.nbiny y → x ≤ y →
      axis_bin_dbl g.bboxlo.c1 g.bboxhi.c1 g.bininvy g.nbiny x
        ≤ axis_bin_dbl g.bboxlo.c1 g.bboxhi.c1 g.bininvy g.nbiny y) ∧
    (∀ x y : ℚ, axis_fits g.bboxlo.c2 g.bboxhi.c2 g.bininvz g.nbinz x →
      axis_fits g.bboxlo.c2 g.bboxhi.c2 g.bininvz g.nbinz y → x ≤ y →
      axis_bin_dbl g.bboxlo.c2 g.bboxhi.c2 g.bininvz g.nbinz x
        ≤ axis_bin_dbl g.bboxlo.c2 g.bboxhi.c2 g.bininvz g.nbinz y) ∧
    (overlapRange_dbl g a i).l0 ≤ (overlapRange_dbl g a i).l3 ∧
    (overlapRange_dbl g a i).l1 ≤ (overlapRange_dbl g a i).l4 ∧
    (overlapRange_dbl g a i).l2 ≤ (overlapRange_dbl g a i).l5 := by
  obtain ⟨o0, o1, o2⟩ := inflated_box_dbl_ordered a i hcut
  exact ⟨fun x y hx hy hxy => axis_bin_dbl_mono _ _ _ _ hnx.1 hnx.2 hbx hix x y hx hy hxy,
    fun x y hx hy hxy => axis_bin_dbl_mono _ _ _ _ hny.1 hny.2 hby hiy x y hx hy hxy,
    fun x y hx hy hxy => axis_bin_dbl_mono _ _ _ _ hnz.1 hnz.2 hbz hiz x y hx hy hxy,
    axis_bin_dbl_mono _ _ _ _ hnx.1 hnx.2 hbx hix _ _ hlo.1 hhi.1 o0,
    axis_bin_dbl_mono _ _ _ _ hny.1 hny.2 hby hiy _ _ hlo.2.1 hhi.2.1 o1,
    axis_bin_dbl_mono _ _ _ _ hnz.1 hnz.2 hbz hiz _ _ hlo.2.2 hhi.2.2 o2⟩

/-! Evaluation of roundings and conversions on the worked configurations -/

theorem round_dbl_exact_of (q : ℚ) (m e : Int) (hm : |m| < 2 ^ 53)
    (hq : q = (m : ℚ) * (2 : ℚ) ^ e) : round_dbl q = q :=
  round_dbl_exact q ⟨m, e, hm, hq⟩

theorem ex_scaled_offset_far : scaled_offset 10 1 1000000000000 = 999999999990 := by
  unfold scaled_offset
  have e1 : round_dbl ((1000000000000 : ℚ) - 10) = 999999999990 := by
    rw [round_dbl_exact_of _ 999999999990 0 (by norm_num) (by norm_num)]
    norm_num
  rw [e1, mul_one]
  exact round_dbl_exact_of _ 999999999990 0 (by norm_num) (by norm_num)

theorem ex_scaled_offset_half : scaled_offset 0 1 (1 / 2) = 1 / 2 := by
  unfold scaled_offset
  have e1 : round_dbl ((1 / 2 : ℚ) - 0) = 1 / 2 := by
    rw [sub_zero]
    exact round_dbl_exact_of _ 1 (-1) (by norm_num) (by norm_num)
  rw [e1, mul_one]
  exact round_dbl_exact_of _ 1 (-1) (by norm_num) (by norm_num)

theorem ex_axis_bin_dbl_far : axis_bin_dbl 0 10 1 10 1000000000000 = -2147483638 := by
  unfold axis_bin_dbl
  rw [if_pos (by norm_num), ex_scaled_offset_far, static_cast_int32_overflow _ (by norm_num)]
  decide

theorem ex_axis_bin_dbl_half : axis_bin_dbl 0 10 1 10 (1 / 2) = 0 := by
  unfold axis_bin_dbl
  rw [if_neg (by norm_num), if_pos (by norm_num), ex_scaled_offset_half,
    static_cast_int32_eq _ (by norm_num) (by norm_num),
    static_cast_int_eq (1 / 2) 0 (Or.inl (by norm_num))]
  decide

/-- C4: the x axis of the worked grid has `nbin = 10` interior cells on
`[0, 10]` with `bininv = 1`.  The finite coordinate `x = 10^12` lies beyond
`bboxhi`; the double `(x - bboxhi) * bininv = 999999999990` exceeds `INT_MAX`,
its conversion gives `INT_MIN`, and the index is `INT_MIN + 10 = -2147483638`,
which is not at least `nbin`. -/
theorem ex_axis_index_overflow :
    (1 : Int) ≤ ex_grid.nbinx ∧ ex_grid.bboxhi.c0 ≤ (1000000000000 : ℚ) ∧
    scaled_offset ex_grid.bboxhi.c0 ex_grid.bininvx 1000000000000 = 999999999990 ∧
    axis_bin_dbl ex_grid.bboxlo.c0 ex_grid.bboxhi.c0 ex_grid.bininvx ex_grid.nbinx 1000000000000
      = -2147483638 ∧
    ¬ ex_grid.nbinx ≤ axis_bin_dbl ex_grid.bboxlo.c0 ex_grid.bboxhi.c0 ex_grid.bininvx
        ex_grid.nbinx 1000000000000 := by
  have e : axis_bin_dbl ex_grid.bboxlo.c0 ex_grid.bboxhi.c0 ex_grid.bininvx ex_grid.nbinx
      1000000000000 = -2147483638 := ex_axis_bin_dbl_far
  refine ⟨by decide, ?_, ex_scaled_offset_far, e, ?_⟩
  · show (10 : ℚ) ≤ 1000000000000
    norm_num
  · rw [e]
    decide

/-- C34: on the x axis of the worked grid the coordinates `x = 1/2` and
`y = 10^12` satisfy `x ≤ y`, the index of `x` is 0 and the index of `y`, whose
offset does not fit an `int`, is `-2147483638`. -/
theorem ex_axis_index_not_monotone :
    (1 : Int) ≤ ex_grid.nbinx ∧ (1 / 2 : ℚ) ≤ 1000000000000 ∧
    axis_bin_dbl ex_grid.bboxlo.c0 ex_grid.bboxhi.c0 ex_grid.bininvx ex_grid.nbinx (1 / 2) = 0 ∧
    axis_bin_dbl ex_grid.bboxlo.c0 ex_grid.bboxhi.c0 ex_grid.bininvx ex_grid.nbinx 1000000000000
      = -2147483638 ∧
    ¬ axis_bin_dbl ex_grid.bboxlo.c0 ex_grid.bboxhi.c0 ex_grid.bininvx ex_grid.nbinx (1 / 2)
      ≤ axis_bin_dbl ex_grid.bboxlo.c0 ex_grid.bboxhi.c0 ex_grid.bininvx ex_grid.nbinx
          1000000000000 := by
  have e1 : axis_bin_dbl ex_grid.bboxlo.c0 ex_grid.bboxhi.c0 ex_grid.bininvx ex_grid.nbinx
      (1 / 2) = 0 := ex_axis_bin_dbl_half
  have e2 : axis_bin_dbl ex_grid.bboxlo.c0 ex_grid.bboxhi.c0 ex_grid.bininvx ex_grid.nbinx
      1000000000000 = -2147483638 := ex_axis_bin_dbl_far
  refine ⟨by decide, by norm_num, e1, e2, ?_⟩
  rw [e1, e2]
  decide

/-- The inflated corners of the cube of the worked configuration. -/
theorem ex_inflated_box_dbl :
    inflated_box_dbl ex_atom 0 = (⟨13 / 4, 13 / 4, 13 / 4⟩, ⟨23 / 4, 23 / 4, 23 / 4⟩) := by
  have hc : round_dbl (ex_atom.CAC_cut + ex_atom.CAC_skin) = 1 := by
    have : ex_atom.CAC_cut + ex_atom.CAC_skin = 1 := by
      simp only [ex_atom]; norm_num
    rw [this]
    exact round_dbl_exact_of _ 1 0 (by norm_num) (by norm_num)
  have hlo : round_dbl ((17 / 4 : ℚ) - 1) = 13 / 4 := by
    rw [round_dbl_exact_of _ 13 (-2) (by norm_num) (by norm_num)]
    norm_num
  have hhi : round_dbl ((19 / 4 : ℚ) + 1) = 23 / 4 := by
    rw [round_dbl_exact_of _ 23 (-2) (by norm_num) (by norm_num)]
    norm_num
  unfold inflated_box_dbl
  simp only [hc]
  rw [show node_bounding_box (ex_atom.nodal_positions 0) (ex_atom.poly_count 0)
      (ex_atom.nodes_per_element_list (ex_atom.element_type 0))
      = (⟨17 / 4, 17 / 4, 17 / 4⟩, ⟨19 / 4, 19 / 4, 19 / 4⟩) from ex_node_bounding_box]
  simp only [hlo, hhi]

theorem ex_axis_fits (x : ℚ) (h0 : 0 ≤ x) (h1 : x < 10) : axis_fits 0 10 1 10 x := by
  unfold axis_fits
  rw [if_neg (by linarith), if_pos (by linarith)]
  have b1 : round_dbl (x - 0) ≤ 10 := by
    have := round_dbl_mono (x - 0) 10 (by linarith)
    rwa [round_dbl_exact_of 10 10 0 (by norm_num) (by norm_num)] at this
  have b2 : scaled_offset 0 1 x ≤ 10 := by
    unfold scaled_offset
    have := round_dbl_mono (round_dbl (x - 0) * 1) 10 (by linarith)
    rwa [round_dbl_exact_of 10 10 0 (by norm_num) (by norm_num)] at this
  linarith

/-- The inflated corners of the cube are within the reach of 32-bit arithmetic
on the three axes of the worked grid. -/
theorem ex_corners_fit :
    (axis_fits ex_grid.bboxlo.c0 ex_grid.bboxhi.c0 ex_grid.bininvx ex_grid.nbinx
        (inflated_box_dbl ex_atom 0).1.c0 ∧
      axis_fits ex_grid.bboxlo.c1 ex_grid.bboxhi.c1 ex_grid.bininvy ex_grid.nbiny
        (inflated_box_dbl ex_atom 0).1.c1 ∧
      axis_fits ex_grid.bboxlo.c2 ex_grid.bboxhi.c2 ex_grid.bininvz ex_grid.nbinz
        (inflated_box_dbl ex_atom 0).1.c2) ∧
    (axis_fits ex_grid.bboxlo.c0 ex_grid.bboxhi.c0 ex_grid.bininvx ex_grid.nbinx
        (inflated_box_dbl ex_atom 0).2.c0 ∧
      axis_fits ex_grid.bboxlo.c1 ex_grid.bboxhi.c1 ex_grid.bininvy ex_grid.nbiny
        (inflated_box_dbl ex_atom 0).2.c1 ∧
      axis_fits ex_grid.bboxlo.c2 ex_grid.bboxhi.c2 ex_grid.bininvz ex_grid.nbinz
        (inflated_box_dbl ex_atom 0).2.c2) := by
  rw [ex_inflated_box_dbl]
  have l := ex_axis_fits (13 / 4) (by norm_num) (by norm_num)
  have h := ex_axis_fits (23 / 4) (by norm_num) (by norm_num)
  exact ⟨⟨l, l, l⟩, ⟨h, h, h⟩⟩

/-! ## The cell size in machine arithmetic -/

theorem round_dbl_lower (q : ℚ) (hq : 0 ≤ q) : q - q / 2 ^ 53 ≤ round_dbl q := by
  have h := round_dbl_err q
  rw [abs_of_nonneg hq] at h
  have := (abs_le.mp h).1
  linarith

theorem round_dbl_upper (q : ℚ) (hq : 0 ≤ q) : round_dbl q ≤ q + q / 2 ^ 53 := by
  have h := round_dbl_err q
  rw [abs_of_nonneg hq] at h
  have := (abs_le.mp h).2
  linarith

theorem round_dbl_two_minus : round_dbl (2 - 2 / 2 ^ 106) = 2 := by
  rw [round_dbl_eval (2 - 2 / 2 ^ 106) 0 9007199254740992 (by norm_num) (by norm_num)
    (by rw [abs_lt]; constructor <;> norm_num)]
  norm_num

/-- The reciprocal of the target size, rounded, times the target size is within
`2^-53` of 1. -/
theorem recip_bounds (h : ℚ) (hh0 : 0 < h) :
    1 - 1 / 2 ^ 53 ≤ h * round_dbl (1 / h) ∧ h * round_dbl (1 / h) ≤ 1 + 1 / 2 ^ 53 := by
  have hp : 0 ≤ 1 / h := by positivity
  have l := round_dbl_lower (1 / h) hp
  have u := round_dbl_upper (1 / h) hp
  have e : h * (1 / h) = 1 := by field_simp
  constructor
  · calc 1 - 1 / 2 ^ 53 = h * (1 / h - 1 / h / 2 ^ 53) := by field_simp; ring
      _ ≤ h * round_dbl (1 / h) := mul_le_mul_of_nonneg_left l hh0.le
  · calc h * round_dbl (1 / h) ≤ h * (1 / h + 1 / h / 2 ^ 53) :=
          mul_le_mul_of_nonneg_left u hh0.le
      _ = 1 + 1 / 2 ^ 53 := by field_simp; ring

/-- The cell count and the cell size of one axis, for an extent `bbox > 0` and a
target size `h > 0` that are doubles, when the product `bbox * (1/h)` as
computed does not exceed `INT_MAX`. -/
theorem axis_binsize_dbl_bounds (bbox h : ℚ) (hb : IsDbl bbox) (hb0 : 0 < bbox)
    (hh : IsDbl h) (hh0 : 0 < h)
    (hfit : round_dbl (bbox * round_dbl (1 / h)) ≤ 2147483647) :
    1 ≤ axis_nbin_dbl bbox (round_dbl (1 / h)) ∧
    (h ≤ bbox →
      (1 - 1 / 2 ^ 51) * h ≤ round_dbl (bbox / (axis_nbin_dbl bbox (round_dbl (1 / h)) : ℚ)) ∧
      round_dbl (bbox / (axis_nbin_dbl bbox (round_dbl (1 / h)) : ℚ)) ≤ 2 * h) ∧
    (bbox < h →
      axis_nbin_dbl bbox (round_dbl (1 / h)) = 1 ∧
      round_dbl (bbox / (axis_nbin_dbl bbox (round_dbl (1 / h)) : ℚ)) = bbox) := by
  obtain ⟨c1, c2⟩ := recip_bounds h hh0
  have hbpos : 0 < round_dbl (1 / h) := round_dbl_pos _ (by positivity)
  generalize hbdef : round_dbl (1 / h) = b at *
  have hy0 : 0 ≤ bbox * b := by positivity
  have hp0 : 0 ≤ round_dbl (bbox * b) := round_dbl_nonneg _ hy0
  have hn0 : static_cast_int32 (round_dbl (bbox * b)) = ⌊round_dbl (bbox * b)⌋ := by
    rw [static_cast_int32_eq _ (by linarith) (by linarith), static_cast_int_of_nonneg hp0]
  have hfl1 : ((⌊round_dbl (bbox * b)⌋ : Int) : ℚ) ≤ round_dbl (bbox * b) := Int.floor_le _
  have hfl2 : round_dbl (bbox * b) < ((⌊round_dbl (bbox * b)⌋ : Int) : ℚ) + 1 :=
    Int.lt_floor_add_one _
  have hfl0 : 0 ≤ ⌊round_dbl (bbox * b)⌋ := Int.floor_nonneg.mpr hp0
  have hflmax : ⌊round_dbl (bbox * b)⌋ ≤ 2147483647 := by
    have : ((⌊round_dbl (bbox * b)⌋ : Int) : ℚ) ≤ ((2147483647 : Int) : ℚ) := by
      push_cast; linarith
    exact_mod_cast this
  have hnb : axis_nbin_dbl bbox b
      = if ⌊round_dbl (bbox * b)⌋ = 0 then 1 else ⌊round_dbl (bbox * b)⌋ := by
    unfold axis_nbin_dbl
    simp only [hn0]
  generalize hpdef : round_dbl (bbox * b) = p at *
  generalize hfdef : ⌊p⌋ = n0 at *
  have hone : round_dbl (bbox / ((1 : Int) : ℚ)) = bbox := by
    rw [Int.cast_one, div_one]
    exact round_dbl_exact bbox hb
  have h2h : round_dbl (2 * h) = 2 * h := round_dbl_exact _ (isDbl_two_mul h hh)
  refine ⟨?_, ?_, ?_⟩
  · rw [hnb]
    split_ifs <;> omega
  · intro hle
    by_cases hz : n0 ≤ 1
    · -- a single cell
      have hn1 : axis_nbin_dbl bbox b = 1 := by
        rw [hnb]
        split_ifs <;> omega
      rw [hn1, hone]
      refine ⟨by nlinarith, ?_⟩
      by_contra hc
      have hgt : 2 * h < bbox := not_le.mp hc
      have hgap := isDbl_gap (2 * h) bbox (isDbl_two_mul h hh) hb hgt
      have hy : 2 - 2 / 2 ^ 106 ≤ bbox * b := by
        have e1 : (2 * h + 2 * h / 2 ^ 53) * b ≤ bbox * b :=
          mul_le_mul_of_nonneg_right hgap.le hbpos.le
        have e2 : (2 * h + 2 * h / 2 ^ 53) * b = (2 + 2 / 2 ^ 53) * (h * b) := by ring
        have e3 : (2 + 2 / 2 ^ 53 : ℚ) * (1 - 1 / 2 ^ 53) ≤ (2 + 2 / 2 ^ 53) * (h * b) :=
          mul_le_mul_of_nonneg_left c1 (by norm_num)
        have e4 : (2 + 2 / 2 ^ 53 : ℚ) * (1 - 1 / 2 ^ 53) = 2 - 2 / 2 ^ 106 := by norm_num
        linarith
      have hp2 : 2 ≤ p := by
        have := round_dbl_mono _ _ hy
        rw [round_dbl_two_minus, hpdef] at this
        exact this
      have : (n0 : ℚ) ≤ 1 := by exact_mod_cast hz
      linarith
    · -- at least two cells
      have hn2 : 2 ≤ n0 := by omega
      have hnn : axis_nbin_dbl bbox b = n0 := by
        rw [hnb]
        split_ifs <;> omega
      rw [hnn]
      have hnq : (2 : ℚ) ≤ (n0 : ℚ) := by exact_mod_cast hn2
      have hnpos : (0 : ℚ) < (n0 : ℚ) := by linarith
      have ht0 : 0 < bbox / (n0 : ℚ) := by positivity
      have hbt : bbox = bbox / (n0 : ℚ) * (n0 : ℚ) := by field_simp
      constructor
      · -- lower bound
        have hup := round_dbl_upper (bbox * b) hy0
        rw [hpdef] at hup
        have h1 : (n0 : ℚ) ≤ bbox * b * (1 + 1 / 2 ^ 53) := by
          have : bbox * b + bbox * b / 2 ^ 53 = bbox * b * (1 + 1 / 2 ^ 53) := by ring
          linarith
        have h2 : (n0 : ℚ) * h ≤ bbox * (1 + 1 / 2 ^ 53) * (1 + 1 / 2 ^ 53) := by
          have e1 : (n0 : ℚ) * h ≤ bbox * b * (1 + 1 / 2 ^ 53) * h :=
            mul_le_mul_of_nonneg_right h1 hh0.le
          have e2 : bbox * b * (1 + 1 / 2 ^ 53) * h = bbox * (1 + 1 / 2 ^ 53) * (h * b) := by ring
          have e3 : bbox * (1 + 1 / 2 ^ 53) * (h * b)
              ≤ bbox * (1 + 1 / 2 ^ 53) * (1 + 1 / 2 ^ 53) :=
            mul_le_mul_of_nonneg_left c2 (by positivity)
          linarith
        have h3 : h ≤ bbox / (n0 : ℚ) * ((1 + 1 / 2 ^ 53) * (1 + 1 / 2 ^ 53)) := by
          have e : bbox / (n0 : ℚ) * ((1 + 1 / 2 ^ 53) * (1 + 1 / 2 ^ 53))
              = bbox * (1 + 1 / 2 ^ 53) * (1 + 1 / 2 ^ 53) / (n0 : ℚ) := by ring
          rw [e, le_div_iff₀ hnpos]
          linarith
        have hlow := round_dbl_lower (bbox / (n0 : ℚ)) ht0.le
        have hnum : ((1 : ℚ) + 1 / 2 ^ 53) * (1 + 1 / 2 ^ 53) * (1 - 1 / 2 ^ 51)
            ≤ 1 - 1 / 2 ^ 53 := by norm_num
        have h4 : (1 - 1 / 2 ^ 51) * h
            ≤ bbox / (n0 : ℚ) * ((1 + 1 / 2 ^ 53) * (1 + 1 / 2 ^ 53) * (1 - 1 / 2 ^ 51)) := by
          have := mul_le_mul_of_nonneg_right h3 (by norm_num : (0 : ℚ) ≤ 1 - 1 / 2 ^ 51)
          linarith
        have h5 : bbox / (n0 : ℚ) * ((1 + 1 / 2 ^ 53) * (1 + 1 / 2 ^ 53) * (1 - 1 / 2 ^ 51))
            ≤ bbox / (n0 : ℚ) * (1 - 1 / 2 ^ 53) :=
          mul_le_mul_of_nonneg_left hnum ht0.le
        have h6 : bbox / (n0 : ℚ) * (1 - 1 / 2 ^ 53)
            = bbox / (n0 : ℚ) - bbox / (n0 : ℚ) / 2 ^ 53 := by ring
        linarith
      · -- upper bound
        have hylt : bbox * b < (n0 : ℚ) + 1 := by
          by_contra hc
          have hge : ((n0 + 1 : Int) : ℚ) ≤ bbox * b := by
            push_cast
            exact not_lt.mp hc
          have := round_dbl_mono _ _ hge
          rw [round_dbl_intCast (n0 + 1) (by rw [abs_lt]; constructor <;> norm_num <;> omega),
            hpdef] at this
          push_cast at this
          linarith
        have h1 : bbox * (1 - 1 / 2 ^ 53) < ((n0 : ℚ) + 1) * h := by
          have e1 : bbox * (1 - 1 / 2 ^ 53) ≤ bbox * (h * b) :=
            mul_le_mul_of_nonneg_left c1 hb0.le
          have e2 : bbox * (h * b) = bbox * b * h := by ring
          have e3 : bbox * b * h < ((n0 : ℚ) + 1) * h := mul_lt_mul_of_pos_right hylt hh0
          linarith
        have h2 : bbox / (n0 : ℚ) ≤ 2 * h := by
          rw [div_le_iff₀ hnpos]
          have e1 : ((n0 : ℚ) + 1) * h ≤ 2 * h * (n0 : ℚ) * (1 - 1 / 2 ^ 53) := by
            have : (n0 : ℚ) + 1 ≤ 2 * (n0 : ℚ) * (1 - 1 / 2 ^ 53) := by
              have : (n0 : ℚ) * (1 / 2 ^ 52) ≤ (n0 : ℚ) * (1 / 2) :=
                mul_le_mul_of_nonneg_left (by norm_num) hnpos.le
              nlinarith
            calc ((n0 : ℚ) + 1) * h ≤ 2 * (n0 : ℚ) * (1 - 1 / 2 ^ 53) * h :=
                  mul_le_mul_of_nonneg_right this hh0.le
              _ = 2 * h * (n0 : ℚ) * (1 - 1 / 2 ^ 53) := by ring
          have e2 : bbox * (1 - 1 / 2 ^ 53) < 2 * h * (n0 : ℚ) * (1 - 1 / 2 ^ 53) := by linarith
          exact (lt_of_mul_lt_mul_right e2 (by norm_num)).le
        have := round_dbl_mono _ _ h2
        rw [h2h] at this
        exact this
  · intro hlt
    have hy : bbox * b ≤ 3 / 2 := by
      have e1 : bbox * b ≤ h * b := mul_le_mul_of_nonneg_right hlt.le hbpos.le
      have e2 : (1 : ℚ) + 1 / 2 ^ 53 ≤ 3 / 2 := by norm_num
      linarith
    have hp : p ≤ 3 / 2 := by
      have := round_dbl_mono _ _ hy
      rw [round_dbl_exact_of (3 / 2) 3 (-1) (by norm_num) (by norm_num), hpdef] at this
      exact this
    have hz : n0 ≤ 1 := by
      have : (n0 : ℚ) < 2 := by linarith
      have : n0 < 2 := by exact_mod_cast this
      omega
    have hn1 : axis_nbin_dbl bbox b = 1 := by
      rw [hnb]
      split_ifs <;> omega
    rw [hn1]
    exact ⟨rfl, hone⟩

/-- The result of `setup_cells_dbl` when the first test of `setup_bins` passes. -/
theorem setup_cells_dbl_ok (inp : SetupInput) (style : Nat) (r : CellSizes)
    (hr : setup_cells_dbl inp style = Except.ok r) :
    (¬ round_dbl (round_dbl (inp.bboxhi.c0 - inp.bboxlo.c0)
        * round_dbl (1 / round_dbl ((1 / 2) * inp.max_search_range))) > (inp.MAXSMALLINT : ℚ) ∧
      ¬ round_dbl (round_dbl (inp.bboxhi.c1 - inp.bboxlo.c1)
        * round_dbl (1 / round_dbl ((1 / 2) * inp.max_search_range))) > (inp.MAXSMALLINT : ℚ) ∧
      ¬ round_dbl (round_dbl (inp.bboxhi.c2 - inp.bboxlo.c2)
        * round_dbl (1 / round_dbl ((1 / 2) * inp.max_search_range))) > (inp.MAXSMALLINT : ℚ)) ∧
    r.nbinx = axis_nbin_dbl (round_dbl (inp.bboxhi.c0 - inp.bboxlo.c0))
      (round_dbl (1 / round_dbl ((1 / 2) * inp.max_search_range))) ∧
    r.nbiny = axis_nbin_dbl (round_dbl (inp.bboxhi.c1 - inp.bboxlo.c1))
      (round_dbl (1 / round_dbl ((1 / 2) * inp.max_search_range))) ∧
    r.nbinz = (if inp.dimension = 3 then axis_nbin_dbl (round_dbl (inp.bboxhi.c2 - inp.bboxlo.c2))
      (round_dbl (1 / round_dbl ((1 / 2) * inp.max_search_range))) else 1) ∧
    r.binsizex = round_dbl (round_dbl (inp.bboxhi.c0 - inp.bboxlo.c0) / (r.nbinx : ℚ)) ∧
    r.binsizey = round_dbl (round_dbl (inp.bboxhi.c1 - inp.bboxlo.c1) / (r.nbiny : ℚ)) ∧
    r.binsizez = round_dbl (round_dbl (inp.bboxhi.c2 - inp.bboxlo.c2) / (r.nbinz : ℚ)) := by
  unfold setup_cells_dbl binsize_optimal_dbl at hr
  simp only [] at hr
  split at hr
  · cases hr
  · rename_i ht
    injection hr with hr
    subst hr
    push_neg at ht
    exact ⟨⟨not_lt.mpr ht.1, not_lt.mpr ht.2.1, not_lt.mpr ht.2.2⟩, rfl, rfl, rfl, rfl, rfl, rfl⟩

/-- C14 (as the code has it): in 3-D, with `h = 0.5 * max_search_range > 0` as
computed and whatever the user bin size, the neighbor cutoffs and the style are,
the cell size `s` that `setup_bins` computes in double arithmetic on an axis
whose extent (as computed) is at least `h` satisfies
`(1 - 2^-51) * h ≤ s ≤ 2 * h`; on an axis whose extent is below `h` there is a
single cell of the size of the extent. -/
theorem setup_cells_dbl_binsize (inp : SetupInput) (style : Nat) (r : CellSizes)
    (hv : inp.Valid) (hdim : inp.dimension = 3) (hM : inp.MAXSMALLINT ≤ INT_MAX)
    (hr : setup_cells_dbl inp style = Except.ok r) :
    (round_dbl ((1 / 2) * inp.max_search_range) ≤ round_dbl (inp.bboxhi.c0 - inp.bboxlo.c0) →
        (1 - 1 / 2 ^ 51) * round_dbl ((1 / 2) * inp.max_search_range) ≤ r.binsizex ∧
          r.binsizex ≤ 2 * round_dbl ((1 / 2) * inp.max_search_range)) ∧
    (round_dbl (inp.bboxhi.c0 - inp.bboxlo.c0) < round_dbl ((1 / 2) * inp.max_search_range) →
        r.nbinx = 1 ∧ r.binsizex = round_dbl (inp.bboxhi.c0 - inp.bboxlo.c0)) ∧
    (round_dbl ((1 / 2) * inp.max_search_range) ≤ round_dbl (inp.bboxhi.c1 - inp.bboxlo.c1) →
        (1 - 1 / 2 ^ 51) * round_dbl ((1 / 2) * inp.max_search_range) ≤ r.binsizey ∧
          r.binsizey ≤ 2 * round_dbl ((1 / 2) * inp.max_search_range)) ∧
    (round_dbl (inp.bboxhi.c1 - inp.bboxlo.c1) < round_dbl ((1 / 2) * inp.max_search_range) →
        r.nbiny = 1 ∧ r.binsizey = round_dbl (inp.bboxhi.c1 - inp.bboxlo.c1)) ∧
    (round_dbl ((1 / 2) * inp.max_search_range) ≤ round_dbl (inp.bboxhi.c2 - inp.bboxlo.c2) →
        (1 - 1 / 2 ^ 51) * round_dbl ((1 / 2) * inp.max_search_range) ≤ r.binsizez ∧
          r.binsizez ≤ 2 * round_dbl ((1 / 2) * inp.max_search_range)) ∧
    (round_dbl (inp.bboxhi.c2 - inp.bboxlo.c2) < round_dbl ((1 / 2) * inp.max_search_range) →
        r.nbinz = 1 ∧ r.binsizez = round_dbl (inp.bboxhi.c2 - inp.bboxlo.c2)) := by
  obtain ⟨⟨t0, t1, t2⟩, nx, ny, nz, sx, sy, sz⟩ := setup_cells_dbl_ok inp style r hr
  obtain ⟨v0, v1, v2, vm⟩ := hv
  rw [if_pos hdim] at nz
  have hMq : (inp.MAXSMALLINT : ℚ) ≤ 2147483647 := by
    have : inp.MAXSMALLINT ≤ 2147483647 := hM
    exact_mod_cast this
  have hh0 : 0 < round_dbl ((1 / 2) * inp.max_search_range) := round_dbl_pos _ (by linarith)
  have hh := round_dbl_isDbl ((1 / 2) * inp.max_search_range)
  have ax := axis_binsize_dbl_bounds (round_dbl (inp.bboxhi.c0 - inp.bboxlo.c0))
    (round_dbl ((1 / 2) * inp.max_search_range)) (round_dbl_isDbl _)
    (round_dbl_pos _ (by linarith)) hh hh0 (by linarith [not_lt.mp t0])
  have ay := axis_binsize_dbl_bounds (round_dbl (inp.bboxhi.c1 - inp.bboxlo.c1))
    (round_dbl ((1 / 2) * inp.max_search_range)) (round_dbl_isDbl _)
    (round_dbl_pos _ (by linarith)) hh hh0 (by linarith [not_lt.mp t1])
  have az := axis_binsize_dbl_bounds (round_dbl (inp.bboxhi.c2 - inp.bboxlo.c2))
    (round_dbl ((1 / 2) * inp.max_search_range)) (round_dbl_isDbl _)
    (round_dbl_pos _ (by linarith)) hh hh0 (by linarith [not_lt.mp t2])
  rw [sx, sy, sz, nx, ny, nz]
  exact ⟨ax.2.1, ax.2.2, ay.2.1, ay.2.2, az.2.1, az.2.2⟩

/-! The two worked settings -/

theorem ex_round_49 : round_dbl (1 / 49) = 5882252574524729 / 288230376151711744 := by
  rw [round_dbl_eval (1 / 49) (-6) 5882252574524729 (by norm_num) (by norm_num)
    (by rw [abs_lt]; constructor <;> norm_num)]
  norm_num

theorem ex_round_98 : round_dbl (98 * (5882252574524729 / 288230376151711744))
    = 9007199254740991 / 4503599627370496 := by
  rw [round_dbl_eval _ 0 9007199254740991 (by norm_num) (by norm_num)
    (by rw [abs_lt]; constructor <;> norm_num)]
  norm_num

theorem ex_axis_nbin_wide : axis_nbin_dbl 98 (round_dbl (1 / 49)) = 1 := by
  unfold axis_nbin_dbl
  rw [ex_round_49, ex_round_98, static_cast_int32_eq _ (by norm_num) (by norm_num),
    static_cast_int_eq _ 1 (Or.inl (by norm_num))]
  decide

theorem ex_round_25 : round_dbl (1 / (5 / 2)) = 3602879701896397 / 9007199254740992 := by
  rw [round_dbl_eval _ (-2) 7205759403792794 (by norm_num) (by norm_num)
    (by rw [abs_lt]; constructor <;> norm_num)]
  norm_num

theorem ex_round_short : round_dbl (8444249301319679 / 1125899906842624
    * (3602879701896397 / 9007199254740992)) = 3 := by
  rw [round_dbl_eval _ 1 6755399441055744 (by norm_num) (by norm_num)
    (by rw [abs_lt]; constructor <;> norm_num)]
  norm_num

theorem ex_axis_nbin_short :
    axis_nbin_dbl (8444249301319679 / 1125899906842624) (round_dbl (1 / (5 / 2))) = 3 := by
  unfold axis_nbin_dbl
  rw [ex_round_25, ex_round_short, static_cast_int32_eq _ (by norm_num) (by norm_num),
    static_cast_int_eq _ 3 (Or.inl (by norm_num))]
  decide

theorem ex_round_third : round_dbl (8444249301319679 / 1125899906842624 / ((3 : Int) : ℚ))
    = 5629499534213119 / 2251799813685248 := by
  rw [round_dbl_eval _ 1 5629499534213119 (by norm_num) (by norm_num)
    (by rw [abs_lt]; constructor <;> norm_num)]
  norm_num

theorem setup_cells_dbl_of_pass (inp : SetupInput) (style : Nat)
    (ht : ¬ (round_dbl (round_dbl (inp.bboxhi.c0 - inp.bboxlo.c0)
          * round_dbl (1 / round_dbl ((1 / 2) * inp.max_search_range))) > (inp.MAXSMALLINT : ℚ) ∨
        round_dbl (round_dbl (inp.bboxhi.c1 - inp.bboxlo.c1)
          * round_dbl (1 / round_dbl ((1 / 2) * inp.max_search_range))) > (inp.MAXSMALLINT : ℚ) ∨
        round_dbl (round_dbl (inp.bboxhi.c2 - inp.bboxlo.c2)
          * round_dbl (1 / round_dbl ((1 / 2) * inp.max_search_range)))
            > (inp.MAXSMALLINT : ℚ))) :
    ∃ r, setup_cells_dbl inp style = Except.ok r := by
  unfold setup_cells_dbl binsize_optimal_dbl
  simp only []
  rw [if_neg ht]
  exact ⟨_, rfl⟩

theorem ex_setup_wide_values :
    round_dbl ((1 / 2) * ex_setup_wide.max_search_range) = 49 ∧
    round_dbl (ex_setup_wide.bboxhi.c0 - ex_setup_wide.bboxlo.c0) = 98 ∧
    round_dbl (ex_setup_wide.bboxhi.c1 - ex_setup_wide.bboxlo.c1) = 98 ∧
    round_dbl (ex_setup_wide.bboxhi.c2 - ex_setup_wide.bboxlo.c2) = 98 := by
  have e : round_dbl ((98 : ℚ) - 0) = 98 := by
    rw [sub_zero]
    exact round_dbl_exact_of _ 98 0 (by norm_num) (by norm_num)
  refine ⟨?_, e, e, e⟩
  show round_dbl ((1 / 2) * (98 : ℚ)) = 49
  rw [round_dbl_exact_of _ 49 0 (by norm_num) (by norm_num)]
  norm_num

theorem ex_setup_short_values :
    round_dbl ((1 / 2) * ex_setup_short.max_search_range) = 5 / 2 ∧
    round_dbl (ex_setup_short.bboxhi.c0 - ex_setup_short.bboxlo.c0)
      = 8444249301319679 / 1125899906842624 ∧
    round_dbl (ex_setup_short.bboxhi.c1 - ex_setup_short.bboxlo.c1)
      = 8444249301319679 / 1125899906842624 ∧
    round_dbl (ex_setup_short.bboxhi.c2 - ex_setup_short.bboxlo.c2)
      = 8444249301319679 / 1125899906842624 := by
  have e : round_dbl ((8444249301319679 / 1125899906842624 : ℚ) - 0)
      = 8444249301319679 / 1125899906842624 := by
    rw [sub_zero]
    exact round_dbl_exact_of _ 8444249301319679 (-50) (by norm_num) (by norm_num)
  refine ⟨?_, e, e, e⟩
  show round_dbl ((1 / 2) * (5 : ℚ)) = 5 / 2
  rw [round_dbl_exact_of _ 5 (-1) (by norm_num) (by norm_num)]
  norm_num

/-- C14: two settings in 3-D.  With the box `[0,98]³` and the search range 98
the target size is `h = 49` and the extent 98 is at least `h`; the product
`98 * (1/49)` of doubles is `2 - 2^-52`, its conversion gives one cell, and the
cell size is `98 = 2h`, not below `2h`.  With the search range 5 (`h = 5/2`) and
the extent `7.5 - 2^-50` the product `extent * (1/h)` rounds to 3, and the size
of the three cells is the double next below `5/2`, below `h`. -/
theorem ex_cell_size_rounding :
    (ex_setup_wide.Valid ∧ ex_setup_wide.dimension = 3 ∧
      round_dbl ((1 / 2) * ex_setup_wide.max_search_range) = 49 ∧
      round_dbl (ex_setup_wide.bboxhi.c0 - ex_setup_wide.bboxlo.c0) = 98 ∧
      ∃ r, setup_cells_dbl ex_setup_wide BIN = Except.ok r ∧ r.nbinx = 1 ∧
        r.binsizex = 98 ∧ ¬ r.binsizex < 2 * 49) ∧
    (ex_setup_short.Valid ∧ ex_setup_short.dimension = 3 ∧
      round_dbl ((1 / 2) * ex_setup_short.max_search_range) = 5 / 2 ∧
      round_dbl (ex_setup_short.bboxhi.c0 - ex_setup_short.bboxlo.c0)
        = 8444249301319679 / 1125899906842624 ∧
      (5 / 2 : ℚ) ≤ 8444249301319679 / 1125899906842624 ∧
      ∃ r, setup_cells_dbl ex_setup_short BIN = Except.ok r ∧ r.nbinx = 3 ∧
        r.binsizex = 5629499534213119 / 2251799813685248 ∧ ¬ (5 / 2 : ℚ) ≤ r.binsizex) := by
  obtain ⟨w0, w1, w2, w3⟩ := ex_setup_wide_values
  obtain ⟨s0, s1, s2, s3⟩ := ex_setup_short_values
  have vw : ex_setup_wide.Valid := by
    unfold SetupInput.Valid
    simp only [ex_setup_wide, ex_setup]
    norm_num
  have vs : ex_setup_short.Valid := by
    unfold SetupInput.Valid
    simp only [ex_setup_short, ex_setup]
    norm_num
  have mw : (ex_setup_wide.MAXSMALLINT : ℚ) = 2147483647 := by
    show ((2147483647 : Int) : ℚ) = 2147483647
    norm_num
  have ms : (ex_setup_short.MAXSMALLINT : ℚ) = 2147483647 := by
    show ((2147483647 : Int) : ℚ) = 2147483647
    norm_num
  refine ⟨⟨vw, rfl, w0, w1, ?_⟩, ⟨vs, rfl, s0, s1, by norm_num, ?_⟩⟩
  · obtain ⟨r, hr⟩ := setup_cells_dbl_of_pass ex_setup_wide BIN (by
      rw [w0, w1, w2, w3, mw, ex_round_49, ex_round_98]
      norm_num)
    obtain ⟨-, nx, -, -, sx, -, -⟩ := setup_cells_dbl_ok ex_setup_wide BIN r hr
    rw [w0, w1] at nx
    rw [w1] at sx
    rw [ex_axis_nbin_wide] at nx
    rw [nx] at sx
    have sx' : r.binsizex = 98 := by
      rw [sx, Int.cast_one, div_one]
      exact round_dbl_exact_of _ 98 0 (by norm_num) (by norm_num)
    refine ⟨r, hr, nx, sx', ?_⟩
    rw [sx']
    norm_num
  · obtain ⟨r, hr⟩ := setup_cells_dbl_of_pass ex_setup_short BIN (by
      rw [s0, s1, s2, s3, ms, ex_round_25, ex_round_short]
      norm_num)
    obtain ⟨-, nx, -, -, sx, -, -⟩ := setup_cells_dbl_ok ex_setup_short BIN r hr
    rw [s0, s1] at nx
    rw [s1] at sx
    rw [ex_axis_nbin_short] at nx
    rw [nx, ex_round_third] at sx
    refine ⟨r, hr, nx, sx, ?_⟩
    rw [sx]
    norm_num

/-- The cell computation of the worked setting: ten cells of size 1 per axis. -/
theorem ex_setup_cells_dbl :
    setup_cells_dbl ex_setup BIN = Except.ok (⟨10, 10, 10, 1, 1, 1⟩ : CellSizes) := by
  have h1 : round_dbl ((1 / 2) * ex_setup.max_search_range) = 1 := by
    show round_dbl ((1 / 2) * (2 : ℚ)) = 1
    rw [round_dbl_exact_of _ 1 0 (by norm_num) (by norm_num)]
    norm_num
  have e : round_dbl ((10 : ℚ) - 0) = 10 := by
    rw [sub_zero]
    exact round_dbl_exact_of _ 10 0 (by norm_num) (by norm_num)
  have b0 : round_dbl (ex_setup.bboxhi.c0 - ex_setup.bboxlo.c0) = 10 := e
  have b1 : round_dbl (ex_setup.bboxhi.c1 - ex_setup.bboxlo.c1) = 10 := e
  have b2 : round_dbl (ex_setup.bboxhi.c2 - ex_setup.bboxlo.c2) = 10 := e
  have m : (ex_setup.MAXSMALLINT : ℚ) = 2147483647 := by
    show ((2147483647 : Int) : ℚ) = 2147483647
    norm_num
  have r1 : round_dbl (1 / 1) = 1 := by
    rw [div_one]
    exact round_dbl_exact_of _ 1 0 (by norm_num) (by norm_num)
  have r2 : round_dbl (10 * 1) = 10 := by
    rw [mul_one]
    exact round_dbl_exact_of _ 10 0 (by norm_num) (by norm_num)
  have n : axis_nbin_dbl 10 1 = 10 := by
    unfold axis_nbin_dbl
    simp only []
    rw [r2, static_cast_int32_eq 10 (by norm_num) (by norm_num),
      static_cast_int_eq 10 10 (Or.inl (by norm_num))]
    rfl
  have s1 : round_dbl ((10 : ℚ) / ((10 : Int) : ℚ)) = 1 := by
    rw [round_dbl_exact_of _ 1 0 (by norm_num) (by norm_num)]
    norm_num
  obtain ⟨r, hr⟩ := setup_cells_dbl_of_pass ex_setup BIN (by
    rw [h1, b0, b1, b2, m, r1, r2]
    norm_num)
  obtain ⟨-, nx, ny, nz, sx, sy, sz⟩ := setup_cells_dbl_ok ex_setup BIN r hr
  rw [h1, b0, r1, n] at nx
  rw [h1, b1, r1, n] at ny
  rw [h1, b2, r1, n, if_pos (by rfl)] at nz
  rw [b0, nx, s1] at sx
  rw [b1, ny, s1] at sy
  rw [b2, nz, s1] at sz
  rw [hr]
  obtain ⟨a, b, c, d, e, f⟩ := r
  simp only at nx ny nz sx sy sz
  subst nx ny nz sx sy sz
  rfl

/-! ## Surface depths in machine arithmetic -/

theorem round_dbl_one : round_dbl 1 = 1 :=
  round_dbl_exact_of 1 1 0 (by norm_num) (by norm_num)

theorem round_dbl_two : round_dbl 2 = 2 :=
  round_dbl_exact_of 2 1 1 (by norm_num) (by norm_num)

/-- The unit-cell increment `2 / double(scale)` of an axis of scale between 1
and `INT_MAX`. -/
theorem unit_cell_dbl_bounds (n : Int) (h1 : 1 ≤ n) (h2 : n ≤ INT_MAX) :
    1 / 2 ^ 30 ≤ round_dbl (2 / (n : ℚ)) ∧ round_dbl (2 / (n : ℚ)) ≤ 2 ∧
    (2 ≤ n → round_dbl (2 / (n : ℚ)) ≤ 1) ∧
    2 - 2 / 2 ^ 53 ≤ (n : ℚ) * round_dbl (2 / (n : ℚ)) ∧
    (n : ℚ) * round_dbl (2 / (n : ℚ)) ≤ 2 + 2 / 2 ^ 53 := by
  have hn1 : (1 : ℚ) ≤ n := by exact_mod_cast h1
  have hn2 : (n : ℚ) ≤ 2147483647 := by
    have : n ≤ 2147483647 := h2
    exact_mod_cast this
  have hn0 : (0 : ℚ) < n := by linarith
  have hq : (0 : ℚ) ≤ 2 / (n : ℚ) := by positivity
  have l := round_dbl_lower (2 / (n : ℚ)) hq
  have u := round_dbl_upper (2 / (n : ℚ)) hq
  have e : (n : ℚ) * (2 / (n : ℚ)) = 2 := by field_simp
  refine ⟨?_, ?_, ?_, ?_, ?_⟩
  · have := round_dbl_mono (1 / 2 ^ 30) (2 / (n : ℚ)) (by
      rw [le_div_iff₀ hn0]
      norm_num
      linarith)
    rwa [round_dbl_exact_of (1 / 2 ^ 30) 1 (-30) (by norm_num) (by norm_num)] at this
  · have := round_dbl_mono (2 / (n : ℚ)) 2 (by
      rw [div_le_iff₀ hn0]
      linarith)
    rwa [round_dbl_two] at this
  · intro h
    have hn3 : (2 : ℚ) ≤ n := by exact_mod_cast h
    have := round_dbl_mono (2 / (n : ℚ)) 1 (by
      rw [div_le_iff₀ hn0]
      linarith)
    rwa [round_dbl_one] at this
  · calc 2 - 2 / 2 ^ 53 = (n : ℚ) * (2 / (n : ℚ) - 2 / (n : ℚ) / 2 ^ 53) := by
          field_simp
          ring
      _ ≤ (n : ℚ) * round_dbl (2 / (n : ℚ)) := mul_le_mul_of_nonneg_left l hn0.le
  · calc (n : ℚ) * round_dbl (2 / (n : ℚ)) ≤ (n : ℚ) * (2 / (n : ℚ) + 2 / (n : ℚ) / 2 ^ 53) :=
          mul_le_mul_of_nonneg_left u hn0.le
      _ = 2 + 2 / 2 ^ 53 := by
          field_simp
          ring

/-- With a non-negative number of increments the skin before the clamp is at
least one increment. -/
theorem skin_unclamped_dbl_ge (u : ℚ) (k : Int) (hu : 0 ≤ u) (hd : IsDbl u) (hk : 0 ≤ k) :
    u ≤ skin_unclamped_dbl u k := by
  unfold skin_unclamped_dbl
  have hkq : (0 : ℚ) ≤ k := by exact_mod_cast hk
  have h1 : 0 ≤ round_dbl (u * (k : ℚ)) := round_dbl_nonneg _ (mul_nonneg hu hkq)
  have := round_dbl_mono u (round_dbl (u * (k : ℚ)) + u) (by linarith)
  rwa [round_dbl_exact u hd] at this

/-- With at least `-1` increments the skin before the clamp is not negative. -/
theorem skin_unclamped_dbl_nonneg (u : ℚ) (k : Int) (hu : 0 ≤ u) (hd : IsDbl u)
    (hk : -1 ≤ k) : 0 ≤ skin_unclamped_dbl u k := by
  unfold skin_unclamped_dbl
  have hkq : (-1 : ℚ) ≤ k := by exact_mod_cast hk
  have h1 : -u ≤ round_dbl (u * (k : ℚ)) := by
    have := round_dbl_mono (-u) (u * (k : ℚ)) (by nlinarith)
    rwa [round_dbl_exact (-u) (isDbl_neg u hd)] at this
  exact round_dbl_nonneg _ (by linarith)

/-- With `m ≤ -1` increments the skin before the clamp is at most `(m + 1) * u`
when `m ≥ -2`; here for the two cases used. -/
theorem skin_unclamped_dbl_nonpos (u : ℚ) (k : Int) (hu : 0 ≤ u) (hd : IsDbl u)
    (hk : k ≤ -1) : skin_unclamped_dbl u k ≤ 0 := by
  unfold skin_unclamped_dbl
  have hkq : (k : ℚ) ≤ -1 := by exact_mod_cast hk
  have h1 : round_dbl (u * (k : ℚ)) ≤ -u := by
    have := round_dbl_mono (u * (k : ℚ)) (-u) (by nlinarith)
    rwa [round_dbl_exact (-u) (isDbl_neg u hd)] at this
  exact round_dbl_nonpos _ (by linarith)

theorem skin_unclamped_dbl_neg (u : ℚ) (k : Int) (hu : 0 ≤ u) (hd : IsDbl u)
    (hk : k ≤ -2) : skin_unclamped_dbl u k ≤ -u := by
  unfold skin_unclamped_dbl
  have hkq : (k : ℚ) ≤ -2 := by exact_mod_cast hk
  have h1 : round_dbl (u * (k : ℚ)) ≤ -(2 * u) := by
    have := round_dbl_mono (u * (k : ℚ)) (-(2 * u)) (by nlinarith)
    rwa [round_dbl_exact (-(2 * u)) (isDbl_neg _ (isDbl_two_mul u hd))] at this
  have := round_dbl_mono (round_dbl (u * (k : ℚ)) + u) (-u) (by linarith)
  rwa [round_dbl_exact (-u) (isDbl_neg u hd)] at this

/-- The reciprocal of the increment, as computed, lies strictly between
`scale / 2 - 1` and `(scale + 1) / 2`. -/
theorem recip_unit_cell_dbl (n : Int) (h1 : 1 ≤ n) (h2 : n ≤ INT_MAX) :
    (n : ℚ) - 2 ≤ 2 * round_dbl (1 / round_dbl (2 / (n : ℚ))) ∧
    2 * round_dbl (1 / round_dbl (2 / (n : ℚ))) < (n : ℚ) + 1 := by
  obtain ⟨b1, b2, -, b4, b5⟩ := unit_cell_dbl_bounds n h1 h2
  have hn1 : (1 : ℚ) ≤ n := by exact_mod_cast h1
  have hn2 : (n : ℚ) ≤ 2147483647 := by
    have : n ≤ 2147483647 := h2
    exact_mod_cast this
  generalize round_dbl (2 / (n : ℚ)) = u at *
  have hu0 : 0 < u := lt_of_lt_of_le (by norm_num) b1
  obtain ⟨c1, c2⟩ := recip_bounds u hu0
  generalize round_dbl (1 / u) = w at *
  have hw0 : 0 ≤ w := by
    by_contra hneg
    have : u * w < 0 := mul_neg_of_pos_of_neg hu0 (not_le.mp hneg)
    linarith [show (0 : ℚ) < 1 - 1 / 2 ^ 53 by norm_num]
  have e : (n : ℚ) * (u * w) = w * ((n : ℚ) * u) := by ring
  have k1 : (n : ℚ) * (1 - 1 / 2 ^ 53) ≤ w * (2 + 2 / 2 ^ 53) := by
    calc (n : ℚ) * (1 - 1 / 2 ^ 53) ≤ (n : ℚ) * (u * w) :=
          mul_le_mul_of_nonneg_left c1 (by linarith)
      _ = w * ((n : ℚ) * u) := e
      _ ≤ w * (2 + 2 / 2 ^ 53) := mul_le_mul_of_nonneg_left b5 hw0
  have k2 : w * (2 - 2 / 2 ^ 53) ≤ (n : ℚ) * (1 + 1 / 2 ^ 53) := by
    calc w * (2 - 2 / 2 ^ 53) ≤ w * ((n : ℚ) * u) := mul_le_mul_of_nonneg_left b4 hw0
      _ = (n : ℚ) * (u * w) := e.symm
      _ ≤ (n : ℚ) * (1 + 1 / 2 ^ 53) := mul_le_mul_of_nonneg_left c2 (by linarith)
  have hw1 : w ≤ 2147483648 := by
    by_contra hbig
    have hb := not_le.mp hbig
    have : (2147483648 : ℚ) * (2 - 2 / 2 ^ 53) < w * (2 - 2 / 2 ^ 53) :=
      mul_lt_mul_of_pos_right hb (by norm_num)
    have q1 : (n : ℚ) * (1 + 1 / 2 ^ 53) ≤ 2147483647 * (1 + 1 / 2 ^ 53) :=
      mul_le_mul_of_nonneg_right hn2 (by norm_num)
    have q2 : (2147483647 : ℚ) * (1 + 1 / 2 ^ 53) < 2147483648 * (2 - 2 / 2 ^ 53) := by
      norm_num
    linarith
  constructor
  · have : w * (2 / 2 ^ 53) ≤ 2147483648 * (2 / 2 ^ 53) :=
      mul_le_mul_of_nonneg_right hw1 (by norm_num)
    have q : (2147483648 : ℚ) * (2 / 2 ^ 53) + 2147483647 * (1 / 2 ^ 53) ≤ 2 := by norm_num
    have : (n : ℚ) * (1 / 2 ^ 53) ≤ 2147483647 * (1 / 2 ^ 53) :=
      mul_le_mul_of_nonneg_right hn2 (by norm_num)
    linarith
  · have : w * (2 / 2 ^ 53) ≤ 2147483648 * (2 / 2 ^ 53) :=
      mul_le_mul_of_nonneg_right hw1 (by norm_num)
    have q : (2147483648 : ℚ) * (2 / 2 ^ 53) + 2147483647 * (1 / 2 ^ 53) < 1 := by norm_num
    have : (n : ℚ) * (1 / 2 ^ 53) ≤ 2147483647 * (1 / 2 ^ 53) :=
      mul_le_mul_of_nonneg_right hn2 (by norm_num)
    linarith

/-- The layer count `(int)(skin / u)` of a skin in `[0, 1]`. -/
theorem count_dbl_bounds (n : Int) (h1 : 1 ≤ n) (h2 : n ≤ INT_MAX) (sk : ℚ)
    (hs0 : 0 ≤ sk) (hs1 : sk ≤ 1) :
    static_cast_int32 (round_dbl (sk / round_dbl (2 / (n : ℚ))))
      = ⌊round_dbl (sk / round_dbl (2 / (n : ℚ)))⌋ ∧
    0 ≤ round_dbl (sk / round_dbl (2 / (n : ℚ))) ∧
    round_dbl (sk / round_dbl (2 / (n : ℚ))) ≤ round_dbl (1 / round_dbl (2 / (n : ℚ))) ∧
    0 ≤ static_cast_int32 (round_dbl (sk / round_dbl (2 / (n : ℚ)))) ∧
    2 * static_cast_int32 (round_dbl (sk / round_dbl (2 / (n : ℚ)))) ≤ n ∧
    (round_dbl (2 / (n : ℚ)) ≤ sk →
      1 ≤ static_cast_int32 (round_dbl (sk / round_dbl (2 / (n : ℚ))))) := by
  obtain ⟨b1, -, -, -, -⟩ := unit_cell_dbl_bounds n h1 h2
  obtain ⟨-, r2⟩ := recip_unit_cell_dbl n h1 h2
  have hn2 : (n : ℚ) ≤ 2147483647 := by
    have : n ≤ 2147483647 := h2
    exact_mod_cast this
  generalize round_dbl (2 / (n : ℚ)) = u at *
  have hu0 : 0 < u := lt_of_lt_of_le (by norm_num) b1
  have hv0 : 0 ≤ round_dbl (sk / u) := round_dbl_nonneg _ (by positivity)
  have hvw : round_dbl (sk / u) ≤ round_dbl (1 / u) :=
    round_dbl_mono _ _ (div_le_div_of_nonneg_right hs1 hu0.le)
  have e : static_cast_int32 (round_dbl (sk / u)) = ⌊round_dbl (sk / u)⌋ := by
    rw [static_cast_int32_eq _ (by linarith) (by linarith), static_cast_int_of_nonneg hv0]
  have f1 : ((⌊round_dbl (sk / u)⌋ : Int) : ℚ) ≤ round_dbl (sk / u) := Int.floor_le _
  refine ⟨e, hv0, hvw, ?_, ?_, ?_⟩
  · rw [e]
    exact Int.floor_nonneg.mpr hv0
  · rw [e]
    have : (2 : ℚ) * ((⌊round_dbl (sk / u)⌋ : Int) : ℚ) < (n : ℚ) + 1 := by linarith
    have : 2 * ⌊round_dbl (sk / u)⌋ < n + 1 := by exact_mod_cast this
    omega
  · intro hle
    rw [e]
    have : round_dbl 1 ≤ round_dbl (sk / u) :=
      round_dbl_mono _ _ (by rw [le_div_iff₀ hu0]; linarith)
    rw [round_dbl_one] at this
    exact Int.le_floor.mpr (by exact_mod_cast this)

theorem static_cast_int32_nonpos (d : ℚ) (h : d ≤ 0) : static_cast_int32 d ≤ 0 := by
  unfold static_cast_int32
  split_ifs
  · exact static_cast_int_nonpos h
  · decide

theorem static_cast_int32_le_max (d : ℚ) : static_cast_int32 d ≤ INT_MAX := by
  unfold static_cast_int32
  split_ifs with h
  · obtain ⟨h1, h2⟩ := h
    have e : ((INT_MAX : Int) : ℚ) = 2147483647 := by
      simp only [INT_MAX]
      norm_num
    rw [e] at h2
    by_cases h0 : 0 ≤ d
    · rw [static_cast_int_of_nonneg h0]
      have : ⌊d⌋ < 2147483648 := Int.floor_lt.mpr (by push_cast; linarith)
      simp only [INT_MAX]
      omega
    · have := static_cast_int_nonpos (not_le.mp h0).le
      simp only [INT_MAX]
      omega
  · decide

theorem skin_increments_le_max (sqrt : ℚ → ℚ) (rcut u sum : ℚ) :
    skin_increments sqrt rcut u sum ≤ INT_MAX := by
  unfold skin_increments
  split_ifs
  · decide
  · exact static_cast_int32_le_max _

/-- A non-negative number of increments is the truncation of the quotient that
the code forms: the sum under the root is not negative, the root not zero and
the quotient within the range of `int`. -/
theorem skin_increments_of_nonneg (sqrt : ℚ → ℚ) (rcut u sum : ℚ)
    (h : 0 ≤ skin_increments sqrt rcut u sum) :
    0 ≤ sum ∧ round_dbl (sqrt sum) ≠ 0 ∧
    skin_increments sqrt rcut u sum
      = static_cast_int
          (round_dbl (round_dbl (round_dbl (2 * rcut) / round_dbl (sqrt sum)) / u)) := by
  unfold skin_increments at h ⊢
  split_ifs at h ⊢ with hc
  · exact absurd h (by decide)
  · push_neg at hc
    refine ⟨hc.1, hc.2, ?_⟩
    unfold static_cast_int32 at h ⊢
    split_ifs at h ⊢
    · rfl
    · exact absurd h (by decide)

/-! The fields of the result in normal and in single-layer mode -/

theorem surface_skin_dbl_normal (sqrt : ℚ → ℚ) (a : Atom) (pos : Nat → Nat → Vec3)
    (scale : Int3) (poly : Nat) :
    surface_skin_dbl sqrt a 0 pos scale poly
      = ⟨if skin_unclamped_dbl (round_dbl (2 / (scale.i0 : ℚ)))
            (surface_increments sqrt a pos scale poly).i0 > 1 then 1
          else skin_unclamped_dbl (round_dbl (2 / (scale.i0 : ℚ)))
            (surface_increments sqrt a pos scale poly).i0,
         if skin_unclamped_dbl (round_dbl (2 / (scale.i1 : ℚ)))
            (surface_increments sqrt a pos scale poly).i1 > 1 then 1
          else skin_unclamped_dbl (round_dbl (2 / (scale.i1 : ℚ)))
            (surface_increments sqrt a pos scale poly).i1,
         if skin_unclamped_dbl (round_dbl (2 / (scale.i2 : ℚ)))
            (surface_increments sqrt a pos scale poly).i2 > 1 then 1
          else skin_unclamped_dbl (round_dbl (2 / (scale.i2 : ℚ)))
            (surface_increments sqrt a pos scale poly).i2⟩ := rfl

theorem surface_skin_dbl_one_layer (sqrt : ℚ → ℚ) (a : Atom) (one_layer_flag : Nat)
    (pos : Nat → Nat → Vec3) (scale : Int3) (poly : Nat) (hflag : one_layer_flag ≠ 0) :
    surface_skin_dbl sqrt a one_layer_flag pos scale poly
      = ⟨round_dbl (2 / (scale.i0 : ℚ)), round_dbl (2 / (scale.i1 : ℚ)),
         round_dbl (2 / (scale.i2 : ℚ))⟩ := by
  unfold surface_skin_dbl
  simp only []
  rw [if_pos hflag]

/-! One axis in normal mode -/

/-- The layer count of one axis in normal mode: with a non-negative number of
increments `k` it lies in `[0, scale / 2]`; on an axis of scale at least 2 it
is at least 1 exactly when `k` is non-negative. -/
theorem axis_count_dbl (n : Int) (h1 : 1 ≤ n) (h2 : n ≤ INT_MAX) (k : Int) :
    (0 ≤ k →
      0 ≤ 2 * static_cast_int32 (round_dbl
        ((if skin_unclamped_dbl (round_dbl (2 / (n : ℚ))) k > 1 then 1
          else skin_unclamped_dbl (round_dbl (2 / (n : ℚ))) k) / round_dbl (2 / (n : ℚ)))) ∧
      2 * static_cast_int32 (round_dbl
        ((if skin_unclamped_dbl (round_dbl (2 / (n : ℚ))) k > 1 then 1
          else skin_unclamped_dbl (round_dbl (2 / (n : ℚ))) k) / round_dbl (2 / (n : ℚ)))) ≤ n) ∧
    (2 ≤ n →
      (1 ≤ static_cast_int32 (round_dbl
        ((if skin_unclamped_dbl (round_dbl (2 / (n : ℚ))) k > 1 then 1
          else skin_unclamped_dbl (round_dbl (2 / (n : ℚ))) k) / round_dbl (2 / (n : ℚ))))
        ↔ 0 ≤ k)) := by
  obtain ⟨b1, b2, b3, -, -⟩ := unit_cell_dbl_bounds n h1 h2
  have hd := round_dbl_isDbl (2 / (n : ℚ))
  have cb := count_dbl_bounds n h1 h2
  generalize round_dbl (2 / (n : ℚ)) = u at *
  have hu0 : 0 < u := lt_of_lt_of_le (by norm_num) b1
  have key : 0 ≤ k →
      0 ≤ (if skin_unclamped_dbl u k > 1 then 1 else skin_unclamped_dbl u k) ∧
      (if skin_unclamped_dbl u k > 1 then 1 else skin_unclamped_dbl u k) ≤ 1 ∧
      (2 ≤ n → u ≤ (if skin_unclamped_dbl u k > 1 then 1 else skin_unclamped_dbl u k)) := by
    intro hk
    have hge := skin_unclamped_dbl_ge u k hu0.le hd hk
    split_ifs with hgt
    · exact ⟨by norm_num, le_refl 1, fun hn => b3 hn⟩
    · exact ⟨by linarith, not_lt.mp hgt, fun _ => hge⟩
  constructor
  · intro hk
    obtain ⟨s0, s1, -⟩ := key hk
    obtain ⟨-, -, -, c0, c1, -⟩ := cb _ s0 s1
    exact ⟨by omega, c1⟩
  · intro hn
    constructor
    · intro hc
      by_contra hneg
      have hle := skin_unclamped_dbl_nonpos u k hu0.le hd (by omega)
      rw [if_neg (by linarith)] at hc
      have : round_dbl (skin_unclamped_dbl u k / u) ≤ 0 :=
        round_dbl_nonpos _ (div_nonpos_of_nonpos_of_nonneg hle hu0.le)
      have := static_cast_int32_nonpos _ this
      omega
    · intro hk
      obtain ⟨s0, s1, s2⟩ := key hk
      obtain ⟨-, -, -, -, -, c2⟩ := cb _ s0 s1
      exact c2 (s2 hn)

/-- The skin ratio and the interior factor of one axis in normal mode: the skin
ratio is at most 1 and the interior factor at least 0; the interior factor is
at most 1 exactly when the number of increments is at least `-1`. -/
theorem axis_factor_dbl (n : Int) (h1 : 1 ≤ n) (h2 : n ≤ INT_MAX) (k : Int) :
    (if skin_unclamped_dbl (round_dbl (2 / (n : ℚ))) k > 1 then 1
      else skin_unclamped_dbl (round_dbl (2 / (n : ℚ))) k) ≤ 1 ∧
    0 ≤ round_dbl (1 - (if skin_unclamped_dbl (round_dbl (2 / (n : ℚ))) k > 1 then 1
      else skin_unclamped_dbl (round_dbl (2 / (n : ℚ))) k)) ∧
    (round_dbl (1 - (if skin_unclamped_dbl (round_dbl (2 / (n : ℚ))) k > 1 then 1
      else skin_unclamped_dbl (round_dbl (2 / (n : ℚ))) k)) ≤ 1 ↔ -1 ≤ k) := by
  obtain ⟨b1, -, -, -, -⟩ := unit_cell_dbl_bounds n h1 h2
  have hd := round_dbl_isDbl (2 / (n : ℚ))
  generalize round_dbl (2 / (n : ℚ)) = u at *
  have hu0 : 0 < u := lt_of_lt_of_le (by norm_num) b1
  have hle : (if skin_unclamped_dbl u k > 1 then 1 else skin_unclamped_dbl u k) ≤ 1 := by
    split_ifs with hgt
    · exact le_refl 1
    · exact not_lt.mp hgt
  refine ⟨hle, round_dbl_nonneg _ (by linarith), ?_⟩
  constructor
  · intro hf
    by_contra hneg
    have hs := skin_unclamped_dbl_neg u k hu0.le hd (by omega)
    rw [if_neg (by linarith)] at hf
    have := round_dbl_mono (1 + 1 / 2 ^ 30) (1 - skin_unclamped_dbl u k) (by linarith)
    rw [round_dbl_exact_of (1 + 1 / 2 ^ 30) 1073741825 (-30) (by norm_num) (by norm_num)] at this
    linarith [show (0 : ℚ) < 1 / 2 ^ 30 by norm_num]
  · intro hk
    have hs := skin_unclamped_dbl_nonneg u k hu0.le hd hk
    have h0 : 0 ≤ (if skin_unclamped_dbl u k > 1 then 1 else skin_unclamped_dbl u k) := by
      split_ifs
      · norm_num
      · exact hs
    have := round_dbl_mono (1 - (if skin_unclamped_dbl u k > 1 then 1
      else skin_unclamped_dbl u k)) 1 (by linarith)
    rwa [round_dbl_one] at this

/-- The skin ratio `2 / scale` of single-layer mode is at most 1, and the
interior factor in `[0, 1]`, exactly on an axis of scale at least 2. -/
theorem axis_factor_one_layer_dbl (n : Int) (h1 : 1 ≤ n) (h2 : n ≤ INT_MAX) :
    (round_dbl (2 / (n : ℚ)) ≤ 1 ∧ 0 ≤ round_dbl (1 - round_dbl (2 / (n : ℚ))) ∧
      round_dbl (1 - round_dbl (2 / (n : ℚ))) ≤ 1) ↔ 2 ≤ n := by
  obtain ⟨b1, -, b3, -, -⟩ := unit_cell_dbl_bounds n h1 h2
  constructor
  · rintro ⟨hle, -, -⟩
    by_contra hneg
    have e : n = 1 := by omega
    rw [e] at hle
    have e2 : (2 : ℚ) / ((1 : Int) : ℚ) = 2 := by norm_num
    rw [e2, round_dbl_two] at hle
    norm_num at hle
  · intro hn
    have hu := b3 hn
    have hu0 : 0 < round_dbl (2 / (n : ℚ)) := lt_of_lt_of_le (by norm_num) b1
    refine ⟨hu, round_dbl_nonneg _ (by linarith), ?_⟩
    have := round_dbl_mono (1 - round_dbl (2 / (n : ℚ))) 1 (by linarith)
    rwa [round_dbl_one] at this

/-- The skin of one axis before the clamp and the layer count, for a
non-negative number of increments `k`: the skin is `u * (k + 1)` up to a
relative error of `2^-51`; when it is at most 1 the layer count is `k` or
`k + 1`; when it exceeds 1 the layer count is `scale / 2` or `scale / 2 - 1`. -/
theorem axis_skin_dbl (n : Int) (h1 : 1 ≤ n) (h2 : n ≤ INT_MAX) (k : Int) (hk : 0 ≤ k)
    (hk2 : k ≤ INT_MAX) :
    |skin_unclamped_dbl (round_dbl (2 / (n : ℚ))) k - round_dbl (2 / (n : ℚ)) * ((k : ℚ) + 1)|
      ≤ round_dbl (2 / (n : ℚ)) * ((k : ℚ) + 1) / 2 ^ 51 ∧
    (skin_unclamped_dbl (round_dbl (2 / (n : ℚ))) k ≤ 1 →
      static_cast_int32 (round_dbl
        (skin_unclamped_dbl (round_dbl (2 / (n : ℚ))) k / round_dbl (2 / (n : ℚ)))) = k ∨
      static_cast_int32 (round_dbl
        (skin_unclamped_dbl (round_dbl (2 / (n : ℚ))) k / round_dbl (2 / (n : ℚ)))) = k + 1) ∧
    (n / 2 - 1 ≤ static_cast_int32 (round_dbl (1 / round_dbl (2 / (n : ℚ)))) ∧
      static_cast_int32 (round_dbl (1 / round_dbl (2 / (n : ℚ)))) ≤ n / 2) := by
  obtain ⟨b1, -, -, -, -⟩ := unit_cell_dbl_bounds n h1 h2
  obtain ⟨r1, r2⟩ := recip_unit_cell_dbl n h1 h2
  have hd := round_dbl_isDbl (2 / (n : ℚ))
  have cb := count_dbl_bounds n h1 h2
  generalize round_dbl (2 / (n : ℚ)) = u at *
  have hu0 : 0 < u := lt_of_lt_of_le (by norm_num) b1
  have hkq : (0 : ℚ) ≤ k := by exact_mod_cast hk
  have hkm : (k : ℚ) ≤ 2147483647 := by
    have : k ≤ 2147483647 := hk2
    exact_mod_cast this
  have hge := skin_unclamped_dbl_ge u k hu0.le hd hk
  have ha : 0 ≤ u * (k : ℚ) := mul_nonneg hu0.le hkq
  have e1 := round_dbl_err (u * (k : ℚ))
  rw [abs_of_nonneg ha] at e1
  obtain ⟨e1l, e1u⟩ := abs_le.mp e1
  have hb : 0 ≤ round_dbl (u * (k : ℚ)) + u := by
    have := round_dbl_nonneg _ ha
    linarith
  have e2 := round_dbl_err (round_dbl (u * (k : ℚ)) + u)
  rw [abs_of_nonneg hb] at e2
  obtain ⟨e2l, e2u⟩ := abs_le.mp e2
  have hs : skin_unclamped_dbl u k = round_dbl (round_dbl (u * (k : ℚ)) + u) := rfl
  have hT : u * ((k : ℚ) + 1) = u * (k : ℚ) + u := by ring
  have herr : |skin_unclamped_dbl u k - u * ((k : ℚ) + 1)| ≤ u * ((k : ℚ) + 1) / 2 ^ 51 := by
    rw [hs, hT, abs_le]
    constructor <;> linarith
  refine ⟨herr, ?_, ?_⟩
  · intro hle1
    obtain ⟨c0, -, -, -, -, -⟩ := cb _ (by linarith) hle1
    rw [c0]
    obtain ⟨el, eu⟩ := abs_le.mp herr
    have hT0 : 0 < u * ((k : ℚ) + 1) := by positivity
    have q1 : (k : ℚ) ≤ skin_unclamped_dbl u k / u := by
      rw [le_div_iff₀ hu0]
      have h51 : (k : ℚ) + 1 ≤ 2 ^ 51 := by linarith
      have hm := mul_le_mul_of_nonneg_left h51 hu0.le
      have : u * ((k : ℚ) + 1) / 2 ^ 51 ≤ u := by
        rw [div_le_iff₀ (by norm_num)]
        exact hm
      linarith
    have q2 : skin_unclamped_dbl u k / u ≤ (k : ℚ) + 3 / 2 := by
      rw [div_le_iff₀ hu0]
      have h50 : (k : ℚ) + 1 ≤ 2 ^ 50 := by linarith
      have hm := mul_le_mul_of_nonneg_left h50 hu0.le
      have : u * ((k : ℚ) + 1) / 2 ^ 51 ≤ u / 2 := by
        rw [div_le_iff₀ (by norm_num)]
        linarith
      linarith
    have p1 := round_dbl_mono _ _ q1
    rw [round_dbl_intCast k (by rw [abs_of_nonneg hk]; simp only [INT_MAX] at hk2; omega)] at p1
    have p2 := round_dbl_mono _ _ q2
    rw [round_dbl_exact_of ((k : ℚ) + 3 / 2) (2 * k + 3) (-1)
      (by rw [abs_of_nonneg (by omega)]; simp only [INT_MAX] at hk2; omega)
      (by push_cast; norm_num; ring)] at p2
    have f1 : k ≤ ⌊round_dbl (skin_unclamped_dbl u k / u)⌋ := Int.le_floor.mpr p1
    have f2 : ⌊round_dbl (skin_unclamped_dbl u k / u)⌋ < k + 2 :=
      Int.floor_lt.mpr (by push_cast; linarith)
    omega
  · obtain ⟨c0, -, -, -, c4, -⟩ := cb 1 (by norm_num) (le_refl 1)
    refine ⟨?_, by omega⟩
    rw [c0]
    have f := Int.lt_floor_add_one (round_dbl (1 / u))
    have : (n : ℚ) - 4 < 2 * ((⌊round_dbl (1 / u)⌋ : Int) : ℚ) := by linarith
    have : n - 4 < 2 * ⌊round_dbl (1 / u)⌋ := by exact_mod_cast this
    omega

/-- C36 (as the code has it): in normal mode, for an entity whose scale on each
axis is an `int` of at least 1, on every axis where the number of increments
`k = (int)(requiredSkin / u)` that the code forms at line 944 (954, 964) is not
negative the layer count that `compute_surface_depths` returns in machine
arithmetic satisfies `0 ≤ 2 * count ≤ scale`, and `count ≥ 1` when the scale is
at least 2; on an axis of scale at least 2 a layer count of at least 1 occurs
only with `k ≥ 0`. -/
theorem compute_surface_depths_dbl_count_bounds (sqrt : ℚ → ℚ) (a : Atom)
    (pos : Nat → Nat → Vec3) (scale : Int3) (poly : Nat)
    (h0 : 1 ≤ scale.i0 ∧ scale.i0 ≤ INT_MAX) (h1 : 1 ≤ scale.i1 ∧ scale.i1 ≤ INT_MAX)
    (h2 : 1 ≤ scale.i2 ∧ scale.i2 ≤ INT_MAX) :
    ((0 ≤ (surface_increments sqrt a pos scale poly).i0 →
        0 ≤ 2 * (compute_surface_depths_dbl sqrt a 0 pos scale poly).countx ∧
        2 * (compute_surface_depths_dbl sqrt a 0 pos scale poly).countx ≤ scale.i0 ∧
        (2 ≤ scale.i0 → 1 ≤ (compute_surface_depths_dbl sqrt a 0 pos scale poly).countx)) ∧
      (2 ≤ scale.i0 → 1 ≤ (compute_surface_depths_dbl sqrt a 0 pos scale poly).countx →
        0 ≤ (surface_increments sqrt a pos scale poly).i0)) ∧
    ((0 ≤ (surface_increments sqrt a pos scale poly).i1 →
        0 ≤ 2 * (compute_surface_depths_dbl sqrt a 0 pos scale poly).county ∧
        2 * (compute_surface_depths_dbl sqrt a 0 pos scale poly).county ≤ scale.i1 ∧
        (2 ≤ scale.i1 → 1 ≤ (compute_surface_depths_dbl sqrt a 0 pos scale poly).county)) ∧
      (2 ≤ scale.i1 → 1 ≤ (compute_surface_depths_dbl sqrt a 0 pos scale poly).county →
        0 ≤ (surface_increments sqrt a pos scale poly).i1)) ∧
    ((0 ≤ (surface_increments sqrt a pos scale poly).i2 →
        0 ≤ 2 * (compute_surface_depths_dbl sqrt a 0 pos scale poly).countz ∧
        2 * (compute_surface_depths_dbl sqrt a 0 pos scale poly).countz ≤ scale.i2 ∧
        (2 ≤ scale.i2 → 1 ≤ (compute_surface_depths_dbl sqrt a 0 pos scale poly).countz)) ∧
      (2 ≤ scale.i2 → 1 ≤ (compute_surface_depths_dbl sqrt a 0 pos scale poly).countz →
        0 ≤ (surface_increments sqrt a pos scale poly).i2)) := by
  have ex : (compute_surface_depths_dbl sqrt a 0 pos scale poly).countx
      = static_cast_int32 (round_dbl ((surface_skin_dbl sqrt a 0 pos scale poly).c0
          / round_dbl (2 / (scale.i0 : ℚ)))) := rfl
  have ey : (compute_surface_depths_dbl sqrt a 0 pos scale poly).county
      = static_cast_int32 (round_dbl ((surface_skin_dbl sqrt a 0 pos scale poly).c1
          / round_dbl (2 / (scale.i1 : ℚ)))) := rfl
  have ez : (compute_surface_depths_dbl sqrt a 0 pos scale poly).countz
      = static_cast_int32 (round_dbl ((surface_skin_dbl sqrt a 0 pos scale poly).c2
          / round_dbl (2 / (scale.i2 : ℚ)))) := rfl
  rw [ex, ey, ez, surface_skin_dbl_normal]
  simp only []
  obtain ⟨a0, b0⟩ := axis_count_dbl scale.i0 h0.1 h0.2 (surface_increments sqrt a pos scale poly).i0
  obtain ⟨a1, b1⟩ := axis_count_dbl scale.i1 h1.1 h1.2 (surface_increments sqrt a pos scale poly).i1
  obtain ⟨a2, b2⟩ := axis_count_dbl scale.i2 h2.1 h2.2 (surface_increments sqrt a pos scale poly).i2
  exact ⟨⟨fun hk => ⟨(a0 hk).1, (a0 hk).2, fun hn => (b0 hn).mpr hk⟩, fun hn hc => (b0 hn).mp hc⟩,
    ⟨fun hk => ⟨(a1 hk).1, (a1 hk).2, fun hn => (b1 hn).mpr hk⟩, fun hn hc => (b1 hn).mp hc⟩,
    ⟨fun hk => ⟨(a2 hk).1, (a2 hk).2, fun hn => (b2 hn).mpr hk⟩, fun hn hc => (b2 hn).mp hc⟩⟩

/-- C21 (as the code has it): for an entity whose scale on each axis is an `int`
of at least 1, in both modes the interior factor is the double `1 - skinRatio`.
In normal mode the skin ratio is at most 1 and the interior factor at least 0
on every axis, and the interior factor is at most 1 exactly on the axes where
the number of increments `k = (int)(requiredSkin / u)` that the code forms at
line 944 (954, 964) is at least `-1`.  In single-layer mode the skin ratio is
the double `2 / scale`, so that it is at most 1 and the interior factor lies in
`[0, 1]` exactly on the axes of scale at least 2. -/
theorem compute_surface_depths_dbl_interior_factor (sqrt : ℚ → ℚ) (a : Atom)
    (one_layer_flag : Nat) (pos : Nat → Nat → Vec3) (scale : Int3) (poly : Nat)
    (h0 : 1 ≤ scale.i0 ∧ scale.i0 ≤ INT_MAX) (h1 : 1 ≤ scale.i1 ∧ scale.i1 ≤ INT_MAX)
    (h2 : 1 ≤ scale.i2 ∧ scale.i2 ≤ INT_MAX) :
    ((compute_surface_depths_dbl sqrt a one_layer_flag pos scale poly).scalex
        = round_dbl (1 - (surface_skin_dbl sqrt a one_layer_flag pos scale poly).c0) ∧
      (compute_surface_depths_dbl sqrt a one_layer_flag pos scale poly).scaley
        = round_dbl (1 - (surface_skin_dbl sqrt a one_layer_flag pos scale poly).c1) ∧
      (compute_surface_depths_dbl sqrt a one_layer_flag pos scale poly).scalez
        = round_dbl (1 - (surface_skin_dbl sqrt a one_layer_flag pos scale poly).c2)) ∧
    (one_layer_flag = 0 →
      ((surface_skin_dbl sqrt a one_layer_flag pos scale poly).c0 ≤ 1 ∧
        0 ≤ (compute_surface_depths_dbl sqrt a one_layer_flag pos scale poly).scalex ∧
        ((compute_surface_depths_dbl sqrt a one_layer_flag pos scale poly).scalex ≤ 1
          ↔ -1 ≤ (surface_increments sqrt a pos scale poly).i0)) ∧
      ((surface_skin_dbl sqrt a one_layer_flag pos scale poly).c1 ≤ 1 ∧
        0 ≤ (compute_surface_depths_dbl sqrt a one_layer_flag pos scale poly).scaley ∧
        ((compute_surface_depths_dbl sqrt a one_layer_flag pos scale poly).scaley ≤ 1
          ↔ -1 ≤ (surface_increments sqrt a pos scale poly).i1)) ∧
      ((surface_skin_dbl sqrt a one_layer_flag pos scale poly).c2 ≤ 1 ∧
        0 ≤ (compute_surface_depths_dbl sqrt a one_layer_flag pos scale poly).scalez ∧
        ((compute_surface_depths_dbl sqrt a one_layer_flag pos scale poly).scalez ≤ 1
          ↔ -1 ≤ (surface_increments sqrt a pos scale poly).i2))) ∧
    (one_layer_flag ≠ 0 →
      ((surface_skin_dbl sqrt a one_layer_flag pos scale poly).c0
          = round_dbl (2 / (scale.i0 : ℚ)) ∧
        (((surface_skin_dbl sqrt a one_layer_flag pos scale poly).c0 ≤ 1 ∧
          0 ≤ (compute_surface_depths_dbl sqrt a one_layer_flag pos scale poly).scalex ∧
          (compute_surface_depths_dbl sqrt a one_layer_flag pos scale poly).scalex ≤ 1)
            ↔ 2 ≤ scale.i0)) ∧
      ((surface_skin_dbl sqrt a one_layer_flag pos scale poly).c1
          = round_dbl (2 / (scale.i1 : ℚ)) ∧
        (((surface_skin_dbl sqrt a one_layer_flag pos scale poly).c1 ≤ 1 ∧
          0 ≤ (compute_surface_depths_dbl sqrt a one_layer_flag pos scale poly).scaley ∧
          (compute_surface_depths_dbl sqrt a one_layer_flag pos scale poly).scaley ≤ 1)
            ↔ 2 ≤ scale.i1)) ∧
      ((surface_skin_dbl sqrt a one_layer_flag pos scale poly).c2
          = round_dbl (2 / (scale.i2 : ℚ)) ∧
        (((surface_skin_dbl sqrt a one_layer_flag pos scale poly).c2 ≤ 1 ∧
          0 ≤ (compute_surface_depths_dbl sqrt a one_layer_flag pos scale poly).scalez ∧
          (compute_surface_depths_dbl sqrt a one_layer_flag pos scale poly).scalez ≤ 1)
            ↔ 2 ≤ scale.i2))) := by
  have ex : (compute_surface_depths_dbl sqrt a one_layer_flag pos scale poly).scalex
      = round_dbl (1 - (surface_skin_dbl sqrt a one_layer_flag pos scale poly).c0) := rfl
  have ey : (compute_surface_depths_dbl sqrt a one_layer_flag pos scale poly).scaley
      = round_dbl (1 - (surface_skin_dbl sqrt a one_layer_flag pos scale poly).c1) := rfl
  have ez : (compute_surface_depths_dbl sqrt a one_layer_flag pos scale poly).scalez
      = round_dbl (1 - (surface_skin_dbl sqrt a one_layer_flag pos scale poly).c2) := rfl
  refine ⟨⟨ex, ey, ez⟩, ?_, ?_⟩
  · intro hz
    subst hz
    rw [ex, ey, ez, surface_skin_dbl_normal]
    simp only []
    exact ⟨axis_factor_dbl scale.i0 h0.1 h0.2 _, axis_factor_dbl scale.i1 h1.1 h1.2 _,
      axis_factor_dbl scale.i2 h2.1 h2.2 _⟩
  · intro hflag
    rw [ex, ey, ez, surface_skin_dbl_one_layer sqrt a one_layer_flag pos scale poly hflag]
    simp only []
    exact ⟨⟨trivial, axis_factor_one_layer_dbl scale.i0 h0.1 h0.2⟩,
      ⟨trivial, axis_factor_one_layer_dbl scale.i1 h1.1 h1.2⟩,
      ⟨trivial, axis_factor_one_layer_dbl scale.i2 h2.1 h2.2⟩⟩

/-- One axis of the statement on the quantised skin. -/
theorem axis_quantised_dbl (sqrt : ℚ → ℚ) (rcut sum : ℚ) (n : Int) (h1 : 1 ≤ n)
    (h2 : n ≤ INT_MAX)
    (hk : 0 ≤ skin_increments sqrt rcut (round_dbl (2 / (n : ℚ))) sum) :
    (0 ≤ sum ∧ round_dbl (sqrt sum) ≠ 0 ∧
      skin_increments sqrt rcut (round_dbl (2 / (n : ℚ))) sum
        = static_cast_int (round_dbl (round_dbl (round_dbl (2 * rcut) / round_dbl (sqrt sum))
            / round_dbl (2 / (n : ℚ))))) ∧
    |skin_unclamped_dbl (round_dbl (2 / (n : ℚ)))
          (skin_increments sqrt rcut (round_dbl (2 / (n : ℚ))) sum)
        - round_dbl (2 / (n : ℚ))
          * (((skin_increments sqrt rcut (round_dbl (2 / (n : ℚ))) sum : Int) : ℚ) + 1)|
      ≤ round_dbl (2 / (n : ℚ))
          * (((skin_increments sqrt rcut (round_dbl (2 / (n : ℚ))) sum : Int) : ℚ) + 1) / 2 ^ 51 ∧
    (skin_unclamped_dbl (round_dbl (2 / (n : ℚ)))
          (skin_increments sqrt rcut (round_dbl (2 / (n : ℚ))) sum) ≤ 1 →
      (if skin_unclamped_dbl (round_dbl (2 / (n : ℚ)))
            (skin_increments sqrt rcut (round_dbl (2 / (n : ℚ))) sum) > 1 then 1
        else skin_unclamped_dbl (round_dbl (2 / (n : ℚ)))
            (skin_increments sqrt rcut (round_dbl (2 / (n : ℚ))) sum))
        = skin_unclamped_dbl (round_dbl (2 / (n : ℚ)))
            (skin_increments sqrt rcut (round_dbl (2 / (n : ℚ))) sum) ∧
      (static_cast_int32 (round_dbl
          ((if skin_unclamped_dbl (round_dbl (2 / (n : ℚ)))
              (skin_increments sqrt rcut (round_dbl (2 / (n : ℚ))) sum) > 1 then 1
            else skin_unclamped_dbl (round_dbl (2 / (n : ℚ)))
              (skin_increments sqrt rcut (round_dbl (2 / (n : ℚ))) sum))
            / round_dbl (2 / (n : ℚ))))
          = skin_increments sqrt rcut (round_dbl (2 / (n : ℚ))) sum ∨
        static_cast_int32 (round_dbl
          ((if skin_unclamped_dbl (round_dbl (2 / (n : ℚ)))
              (skin_increments sqrt rcut (round_dbl (2 / (n : ℚ))) sum) > 1 then 1
            else skin_unclamped_dbl (round_dbl (2 / (n : ℚ)))
              (skin_increments sqrt rcut (round_dbl (2 / (n : ℚ))) sum))
            / round_dbl (2 / (n : ℚ))))
          = skin_increments sqrt rcut (round_dbl (2 / (n : ℚ))) sum + 1)) ∧
    (1 < skin_unclamped_dbl (round_dbl (2 / (n : ℚ)))
          (skin_increments sqrt rcut (round_dbl (2 / (n : ℚ))) sum) →
      (if skin_unclamped_dbl (round_dbl (2 / (n : ℚ)))
            (skin_increments sqrt rcut (round_dbl (2 / (n : ℚ))) sum) > 1 then 1
        else skin_unclamped_dbl (round_dbl (2 / (n : ℚ)))
            (skin_increments sqrt rcut (round_dbl (2 / (n : ℚ))) sum)) = 1 ∧
      n / 2 - 1 ≤ static_cast_int32 (round_dbl
          ((if skin_unclamped_dbl (round_dbl (2 / (n : ℚ)))
              (skin_increments sqrt rcut (round_dbl (2 / (n : ℚ))) sum) > 1 then 1
            else skin_unclamped_dbl (round_dbl (2 / (n : ℚ)))
              (skin_increments sqrt rcut (round_dbl (2 / (n : ℚ))) sum))
            / round_dbl (2 / (n : ℚ)))) ∧
      static_cast_int32 (round_dbl
          ((if skin_unclamped_dbl (round_dbl (2 / (n : ℚ)))
              (skin_increments sqrt rcut (round_dbl (2 / (n : ℚ))) sum) > 1 then 1
            else skin_unclamped_dbl (round_dbl (2 / (n : ℚ)))
              (skin_increments sqrt rcut (round_dbl (2 / (n : ℚ))) sum))
            / round_dbl (2 / (n : ℚ)))) ≤ n / 2) := by
  have hq := skin_increments_of_nonneg sqrt rcut (round_dbl (2 / (n : ℚ))) sum hk
  have hm := skin_increments_le_max sqrt rcut (round_dbl (2 / (n : ℚ))) sum
  generalize skin_increments sqrt rcut (round_dbl (2 / (n : ℚ))) sum = k at *
  obtain ⟨s1, s2, s3⟩ := axis_skin_dbl n h1 h2 k hk hm
  refine ⟨hq, s1, ?_, ?_⟩
  · intro hle
    rw [if_neg (not_lt.mpr hle)]
    exact ⟨rfl, s2 hle⟩
  · intro hgt
    rw [if_pos hgt]
    exact ⟨rfl, s3⟩

/-- C22 (as the code has it): in normal mode, for an entity whose scale on each
axis is an `int` of at least 1, on every axis where the number of increments
`k = (int)(requiredSkin / u)` that the code forms at line 944 (954, 964) is not
negative, `k` is the truncation of the quotient of the doubles
`requiredSkin = 2 * (CAC_cut - CAC_skin) / sqrt(sum)` and `u = 2 / scale`, and
the skin ratio before the clamp is the double `u * k + u`, within a relative
error of `2^-51` of `u * (k + 1)`: one increment more than the required skin
quantised down.  When this value is at most 1 it is the skin ratio and the
layer count is `k` or `k + 1`; otherwise the skin ratio is 1 and the layer count
is `scale / 2` rounded down, or one less. -/
theorem compute_surface_depths_dbl_quantised (sqrt : ℚ → ℚ) (a : Atom)
    (pos : Nat → Nat → Vec3) (scale : Int3) (poly : Nat)
    (h0 : 1 ≤ scale.i0 ∧ scale.i0 ≤ INT_MAX) (h1 : 1 ≤ scale.i1 ∧ scale.i1 ≤ INT_MAX)
    (h2 : 1 ≤ scale.i2 ∧ scale.i2 ≤ INT_MAX) :
    (0 ≤ (surface_increments sqrt a pos scale poly).i0 →
      (0 ≤ ds_sq_dbl pos poly ∧ round_dbl (sqrt (ds_sq_dbl pos poly)) ≠ 0 ∧
        (surface_increments sqrt a pos scale poly).i0
          = static_cast_int (round_dbl (round_dbl (round_dbl (2 * round_dbl (a.CAC_cut - a.CAC_skin))
              / round_dbl (sqrt (ds_sq_dbl pos poly))) / round_dbl (2 / (scale.i0 : ℚ))))) ∧
      |skin_unclamped_dbl (round_dbl (2 / (scale.i0 : ℚ)))
          (surface_increments sqrt a pos scale poly).i0
          - round_dbl (2 / (scale.i0 : ℚ))
            * ((((surface_increments sqrt a pos scale poly).i0 : Int) : ℚ) + 1)|
        ≤ round_dbl (2 / (scale.i0 : ℚ))
            * ((((surface_increments sqrt a pos scale poly).i0 : Int) : ℚ) + 1) / 2 ^ 51 ∧
      (skin_unclamped_dbl (round_dbl (2 / (scale.i0 : ℚ)))
          (surface_increments sqrt a pos scale poly).i0 ≤ 1 →
        (surface_skin_dbl sqrt a 0 pos scale poly).c0
          = skin_unclamped_dbl (round_dbl (2 / (scale.i0 : ℚ)))
          (surface_increments sqrt a pos scale poly).i0 ∧
        ((compute_surface_depths_dbl sqrt a 0 pos scale poly).countx
            = (surface_increments sqrt a pos scale poly).i0 ∨
          (compute_surface_depths_dbl sqrt a 0 pos scale poly).countx
            = (surface_increments sqrt a pos scale poly).i0 + 1)) ∧
      (1 < skin_unclamped_dbl (round_dbl (2 / (scale.i0 : ℚ)))
          (surface_increments sqrt a pos scale poly).i0 →
        (surface_skin_dbl sqrt a 0 pos scale poly).c0 = 1 ∧
        scale.i0 / 2 - 1 ≤ (compute_surface_depths_dbl sqrt a 0 pos scale poly).countx ∧
        (compute_surface_depths_dbl sqrt a 0 pos scale poly).countx ≤ scale.i0 / 2)) ∧
    (0 ≤ (surface_increments sqrt a pos scale poly).i1 →
      (0 ≤ dt_sq_dbl pos poly ∧ round_dbl (sqrt (dt_sq_dbl pos poly)) ≠ 0 ∧
        (surface_increments sqrt a pos scale poly).i1
          = static_cast_int (round_dbl (round_dbl (round_dbl (2 * round_dbl (a.CAC_cut - a.CAC_skin))
              / round_dbl (sqrt (dt_sq_dbl pos poly))) / round_dbl (2 / (scale.i1 : ℚ))))) ∧
      |skin_unclamped_dbl (round_dbl (2 / (scale.i1 : ℚ)))
          (surface_increments sqrt a pos scale poly).i1
          - round_dbl (2 / (scale.i1 : ℚ))
            * ((((surface_increments sqrt a pos scale poly).i1 : Int) : ℚ) + 1)|
        ≤ round_dbl (2 / (scale.i1 : ℚ))
            * ((((surface_increments sqrt a pos scale poly).i1 : Int) : ℚ) + 1) / 2 ^ 51 ∧
      (skin_unclamped_dbl (round_dbl (2 / (scale.i1 : ℚ)))
          (surface_increments sqrt a pos scale poly).i1 ≤ 1 →
        (surface_skin_dbl sqrt a 0 pos scale poly).c1
          = skin_unclamped_dbl (round_dbl (2 / (scale.i1 : ℚ)))
          (surface_increments sqrt a pos scale poly).i1 ∧
        ((compute_surface_depths_dbl sqrt a 0 pos scale poly).county
            = (surface_increments sqrt a pos scale poly).i1 ∨
          (compute_surface_depths_dbl sqrt a 0 pos scale poly).county
            = (surface_increments sqrt a pos scale poly).i1 + 1)) ∧
      (1 < skin_unclamped_dbl (round_dbl (2 / (scale.i1 : ℚ)))
          (surface_increments sqrt a pos scale poly).i1 →
        (surface_skin_dbl sqrt a 0 pos scale poly).c1 = 1 ∧
        scale.i1 / 2 - 1 ≤ (compute_surface_depths_dbl sqrt a 0 pos scale poly).county ∧
        (compute_surface_depths_dbl sqrt a 0 pos scale poly).county ≤ scale.i1 / 2)) ∧
    (0 ≤ (surface_increments sqrt a pos scale poly).i2 →
      (0 ≤ dw_sq_dbl pos poly ∧ round_dbl (sqrt (dw_sq_dbl pos poly)) ≠ 0 ∧
        (surface_increments sqrt a pos scale poly).i2
          = static_cast_int (round_dbl (round_dbl (round_dbl (2 * round_dbl (a.CAC_cut - a.CAC_skin))
              / round_dbl (sqrt (dw_sq_dbl pos poly))) / round_dbl (2 / (scale.i2 : ℚ))))) ∧
      |skin_unclamped_dbl (round_dbl (2 / (scale.i2 : ℚ)))
          (surface_increments sqrt a pos scale poly).i2
          - round_dbl (2 / (scale.i2 : ℚ))
            * ((((surface_increments sqrt a pos scale poly).i2 : Int) : ℚ) + 1)|
        ≤ round_dbl (2 / (scale.i2 : ℚ))
            * ((((surface_increments sqrt a pos scale poly).i2 : Int) : ℚ) + 1) / 2 ^ 51 ∧
      (skin_unclamped_dbl (round_dbl (2 / (scale.i2 : ℚ)))
          (surface_increments sqrt a pos scale poly).i2 ≤ 1 →
        (surface_skin_dbl sqrt a 0 pos scale poly).c2
          = skin_unclamped_dbl (round_dbl (2 / (scale.i2 : ℚ)))
          (surface_increments sqrt a pos scale poly).i2 ∧
        ((compute_surface_depths_dbl sqrt a 0 pos scale poly).countz
            = (surface_increments sqrt a pos scale poly).i2 ∨
          (compute_surface_depths_dbl sqrt a 0 pos scale poly).countz
            = (surface_increments sqrt a pos scale poly).i2 + 1)) ∧
      (1 < skin_unclamped_dbl (round_dbl (2 / (scale.i2 : ℚ)))
          (surface_increments sqrt a pos scale poly).i2 →
        (surface_skin_dbl sqrt a 0 pos scale poly).c2 = 1 ∧
        scale.i2 / 2 - 1 ≤ (compute_surface_depths_dbl sqrt a 0 pos scale poly).countz ∧
        (compute_surface_depths_dbl sqrt a 0 pos scale poly).countz ≤ scale.i2 / 2)) := by
  exact ⟨fun hk => axis_quantised_dbl sqrt _ _ scale.i0 h0.1 h0.2 hk,
    fun hk => axis_quantised_dbl sqrt _ _ scale.i1 h1.1 h1.2 hk,
    fun hk => axis_quantised_dbl sqrt _ _ scale.i2 h2.1 h2.2 hk⟩

/-! Evaluation of the surface depths on the worked entities -/

theorem round_even_tie (x : ℚ) (f : Int) (h : x = (f : ℚ) + 1 / 2) :
    round_even x = if f % 2 = 0 then f else f + 1 := by
  have hf : ⌊x⌋ = f := by
    rw [Int.floor_eq_iff, h]
    constructor <;> linarith
  unfold round_even
  rw [hf, h]
  have e : (f : ℚ) + 1 / 2 - (f : ℚ) = 1 / 2 := by ring
  rw [e, if_neg (lt_irrefl _), if_neg (lt_irrefl _)]

/-- Evaluation of a rounding at a tie: `q` in the binade `[2^e, 2^(e+1))` with
scaled significand `f + 1/2` goes to the even one of `f` and `f + 1`. -/
theorem round_dbl_eval_tie (q : ℚ) (e f : Int) (h1 : (2 : ℚ) ^ e ≤ q)
    (h2 : q < (2 : ℚ) ^ (e + 1)) (hm : q / (2 : ℚ) ^ (e - 52) = (f : ℚ) + 1 / 2) :
    round_dbl q = (((if f % 2 = 0 then f else f + 1 : Int)) : ℚ) * (2 : ℚ) ^ (e - 52) := by
  have hq : 0 < q := lt_of_lt_of_le (by positivity) h1
  rw [round_dbl_of_nonneg q hq.le]
  unfold round_pos ulp
  rw [binade_eq q e h1 h2, round_even_tie _ f hm]

theorem skin_increments_eval (sqrt : ℚ → ℚ) (rcut u sum root r2 q1 q2 : ℚ) (k : Int)
    (hs : 0 ≤ sum) (hroot : round_dbl (sqrt sum) = root) (h0 : root ≠ 0)
    (h2 : round_dbl (2 * rcut) = r2) (h1 : round_dbl (r2 / root) = q1)
    (hq : round_dbl (q1 / u) = q2) (hk : static_cast_int32 q2 = k) :
    skin_increments sqrt rcut u sum = k := by
  unfold skin_increments
  rw [hroot, if_neg (by push_neg; exact ⟨hs, h0⟩), h2, h1, hq, hk]

theorem skin_increments_of_neg (sqrt : ℚ → ℚ) (rcut u sum : ℚ) (h : sum < 0) :
    skin_increments sqrt rcut u sum = INT_MIN := by
  unfold skin_increments
  rw [if_pos (Or.inl h)]

theorem skin_unclamped_dbl_eval (u : ℚ) (k : Int) (p s : ℚ)
    (hp : round_dbl (u * (k : ℚ)) = p) (hs : round_dbl (p + u) = s) :
    skin_unclamped_dbl u k = s := by
  unfold skin_unclamped_dbl
  rw [hp, hs]

/-- The fields of the result of `compute_surface_depths` in normal mode. -/
theorem compute_surface_depths_dbl_normal (sqrt : ℚ → ℚ) (a : Atom)
    (pos : Nat → Nat → Vec3) (scale : Int3) (poly : Nat) :
    compute_surface_depths_dbl sqrt a 0 pos scale poly
      = { scalex := round_dbl (1 - (if skin_unclamped_dbl (round_dbl (2 / (scale.i0 : ℚ)))
              (surface_increments sqrt a pos scale poly).i0 > 1 then 1
            else skin_unclamped_dbl (round_dbl (2 / (scale.i0 : ℚ)))
              (surface_increments sqrt a pos scale poly).i0)),
          scaley := round_dbl (1 - (if skin_unclamped_dbl (round_dbl (2 / (scale.i1 : ℚ)))
              (surface_increments sqrt a pos scale poly).i1 > 1 then 1
            else skin_unclamped_dbl (round_dbl (2 / (scale.i1 : ℚ)))
              (surface_increments sqrt a pos scale poly).i1)),
          scalez := round_dbl (1 - (if skin_unclamped_dbl (round_dbl (2 / (scale.i2 : ℚ)))
              (surface_increments sqrt a pos scale poly).i2 > 1 then 1
            else skin_unclamped_dbl (round_dbl (2 / (scale.i2 : ℚ)))
              (surface_increments sqrt a pos scale poly).i2)),
          countx := static_cast_int32 (round_dbl
            ((if skin_unclamped_dbl (round_dbl (2 / (scale.i0 : ℚ)))
              (surface_increments sqrt a pos scale poly).i0 > 1 then 1
            else skin_unclamped_dbl (round_dbl (2 / (scale.i0 : ℚ)))
              (surface_increments sqrt a pos scale poly).i0) / round_dbl (2 / (scale.i0 : ℚ)))),
          county := static_cast_int32 (round_dbl
            ((if skin_unclamped_dbl (round_dbl (2 / (scale.i1 : ℚ)))
              (surface_increments sqrt a pos scale poly).i1 > 1 then 1
            else skin_unclamped_dbl (round_dbl (2 / (scale.i1 : ℚ)))
              (surface_increments sqrt a pos scale poly).i1) / round_dbl (2 / (scale.i1 : ℚ)))),
          countz := static_cast_int32 (round_dbl
            ((if skin_unclamped_dbl (round_dbl (2 / (scale.i2 : ℚ)))
              (surface_increments sqrt a pos scale poly).i2 > 1 then 1
            else skin_unclamped_dbl (round_dbl (2 / (scale.i2 : ℚ)))
              (surface_increments sqrt a pos scale poly).i2) / round_dbl (2 / (scale.i2 : ℚ)))) } :=
  rfl

/-- The three sums of the cube `[0,4]³`, each 16. -/
theorem ex_fine_sums_dbl (a : Atom) (h : a.nodal_positions = ex_fine_atom.nodal_positions) :
    ds_sq_dbl (a.nodal_positions 0) 0 = 16 ∧
    dt_sq_dbl (a.nodal_positions 0) 0 = 16 ∧
    dw_sq_dbl (a.nodal_positions 0) 0 = 16 := by
  have r4 : round_dbl (-4) = -4 := round_dbl_exact_of _ (-4) 0 (by norm_num) (by norm_num)
  have r16 : round_dbl 16 = 16 := round_dbl_exact_of _ 16 0 (by norm_num) (by norm_num)
  rw [h]
  simp only [ds_sq_dbl, dt_sq_dbl, dw_sq_dbl, ex_fine_atom, ex_fine_node]
  norm_num [round_dbl_zero, r4, r16]

theorem ex_sqrt_16 : round_dbl (Rat.sqrt 16) = 4 := by
  rw [show (16 : ℚ) = 4 * 4 by norm_num, rat_sqrt_sq _ (by norm_num)]
  exact round_dbl_exact_of _ 4 0 (by norm_num) (by norm_num)

/-- The increments of an entity on the cube `[0,4]³`, from the numerical values
of one axis. -/
theorem ex_fine_increments_of (a : Atom) (h : a.nodal_positions = ex_fine_atom.nodal_positions)
    (n k : Int) (r2 q1 q2 : ℚ)
    (h2 : round_dbl (2 * round_dbl (a.CAC_cut - a.CAC_skin)) = r2)
    (h1 : round_dbl (r2 / 4) = q1) (hq : round_dbl (q1 / round_dbl (2 / (n : ℚ))) = q2)
    (hk : static_cast_int32 q2 = k) :
    surface_increments Rat.sqrt a (a.nodal_positions 0) ⟨n, n, n⟩ 0 = ⟨k, k, k⟩ := by
  obtain ⟨s0, s1, s2⟩ := ex_fine_sums_dbl a h
  unfold surface_increments
  simp only []
  rw [s0, s1, s2, skin_increments_eval Rat.sqrt _ _ 16 4 r2 q1 q2 k (by norm_num) ex_sqrt_16
    (by norm_num) h2 h1 hq hk]

theorem ex_u20 : round_dbl (2 / ((20 : Int) : ℚ)) = 3602879701896397 / 36028797018963968 := by
  rw [round_dbl_eval _ (-4) 7205759403792794 (by norm_num) (by norm_num)
    (by rw [abs_lt]; constructor <;> norm_num)]
  norm_num

/-- The cube `[0,4]³` of scale 20 with `CAC_cut - CAC_skin = 1/2`: two whole
increments on every axis. -/
theorem ex_fine_increments :
    surface_increments Rat.sqrt ex_fine_atom (ex_fine_atom.nodal_positions 0)
      (ex_fine_atom.element_scale 0) 0 = ⟨2, 2, 2⟩ := by
  have c : round_dbl (ex_fine_atom.CAC_cut - ex_fine_atom.CAC_skin) = 1 / 2 := by
    show round_dbl ((3 / 4 : ℚ) - 1 / 4) = 1 / 2
    rw [round_dbl_exact_of _ 1 (-1) (by norm_num) (by norm_num)]
    norm_num
  exact ex_fine_increments_of ex_fine_atom rfl 20 2 1 (1 / 4) (5 / 2)
    (by
      rw [c, round_dbl_exact_of _ 1 0 (by norm_num) (by norm_num)]
      norm_num)
    (round_dbl_exact_of _ 1 (-2) (by norm_num) (by norm_num))
    (by
      rw [ex_u20, round_dbl_eval _ 1 5629499534213120 (by norm_num) (by norm_num)
        (by rw [abs_lt]; constructor <;> norm_num)]
      norm_num)
    (by
      rw [static_cast_int32_eq _ (by norm_num) (by norm_num)]
      exact static_cast_int_eq _ 2 (Or.inl (by norm_num)))

/-- The cube `[0,4]³` of scale 20 with `CAC_cut - CAC_skin = -1/2`: the
truncated quotient is `-2` on every axis. -/
theorem ex_thick_increments :
    surface_increments Rat.sqrt ex_thick_skin_atom (ex_thick_skin_atom.nodal_positions 0)
      (ex_thick_skin_atom.element_scale 0) 0 = ⟨-2, -2, -2⟩ := by
  have c : round_dbl (ex_thick_skin_atom.CAC_cut - ex_thick_skin_atom.CAC_skin) = -(1 / 2) := by
    show round_dbl ((1 / 4 : ℚ) - 3 / 4) = -(1 / 2)
    rw [round_dbl_exact_of _ (-1) (-1) (by norm_num) (by norm_num)]
    norm_num
  exact ex_fine_increments_of ex_thick_skin_atom rfl 20 (-2) (-1) (-(1 / 4)) (-(5 / 2))
    (by
      rw [c, round_dbl_exact_of _ (-1) 0 (by norm_num) (by norm_num)]
      norm_num)
    (by
      rw [round_dbl_exact_of _ (-1) (-2) (by norm_num) (by norm_num)]
      norm_num)
    (by
      rw [ex_u20, show -(1 / 4 : ℚ) / (3602879701896397 / 36028797018963968)
          = -((1 / 4) / (3602879701896397 / 36028797018963968)) by ring, round_dbl_neg,
        round_dbl_eval _ 1 5629499534213120 (by norm_num) (by norm_num)
          (by rw [abs_lt]; constructor <;> norm_num)]
      norm_num)
    (by
      rw [static_cast_int32_eq _ (by norm_num) (by norm_num)]
      exact static_cast_int_eq _ (-2) (Or.inr (by norm_num)))

/-- The skin before the clamp of that entity is `-u`, with `u` the double
nearest to `1/10`. -/
theorem ex_thick_skin_unclamped :
    skin_unclamped_dbl (round_dbl (2 / ((20 : Int) : ℚ))) (-2)
      = -(3602879701896397 / 36028797018963968) := by
  rw [ex_u20]
  refine skin_unclamped_dbl_eval _ _ (-(3602879701896397 / 18014398509481984)) _ ?_ ?_
  · rw [round_dbl_exact_of _ (-3602879701896397) (-54) (by norm_num) (by norm_num)]
    norm_num
  · rw [round_dbl_exact_of _ (-3602879701896397) (-55) (by norm_num) (by norm_num)]
    norm_num

/-- Evaluation of `compute_surface_depths` in normal mode for an entity with the
same scale and the same number of increments on the three axes, from the
numerical values of one axis. -/
theorem compute_surface_depths_dbl_eval (sqrt : ℚ → ℚ) (a : Atom) (pos : Nat → Nat → Vec3)
    (n k : Int) (poly : Nat) (s f : ℚ) (c : Int)
    (hk : surface_increments sqrt a pos ⟨n, n, n⟩ poly = ⟨k, k, k⟩)
    (hs : (if skin_unclamped_dbl (round_dbl (2 / (n : ℚ))) k > 1 then 1
      else skin_unclamped_dbl (round_dbl (2 / (n : ℚ))) k) = s)
    (hf : round_dbl (1 - s) = f)
    (hc : static_cast_int32 (round_dbl (s / round_dbl (2 / (n : ℚ)))) = c) :
    compute_surface_depths_dbl sqrt a 0 pos ⟨n, n, n⟩ poly = ⟨f, f, f, c, c, c⟩ := by
  rw [compute_surface_depths_dbl_normal, hk]
  simp only []
  rw [hs, hf, hc]

/-- The result of `compute_surface_depths` for that entity: layer count `-1`
and interior factor `1.1` on every axis. -/
theorem ex_thick_depths :
    compute_surface_depths_dbl Rat.sqrt ex_thick_skin_atom 0
      (ex_thick_skin_atom.nodal_positions 0) (ex_thick_skin_atom.element_scale 0) 0
      = ⟨2476979795053773 / 2251799813685248, 2476979795053773 / 2251799813685248,
         2476979795053773 / 2251799813685248, -1, -1, -1⟩ := by
  refine compute_surface_depths_dbl_eval Rat.sqrt ex_thick_skin_atom _ 20 (-2) 0
    (-(3602879701896397 / 36028797018963968)) _ _ ex_thick_increments ?_ ?_ ?_
  · rw [ex_thick_skin_unclamped, if_neg (by norm_num)]
  · rw [round_dbl_eval _ 0 4953959590107546 (by norm_num) (by norm_num)
      (by rw [abs_lt]; constructor <;> norm_num)]
    norm_num
  · rw [ex_u20, round_dbl_exact_of _ (-1) 0 (by norm_num) (by norm_num),
      static_cast_int32_eq _ (by norm_num) (by norm_num)]
    exact static_cast_int_eq _ (-1) (Or.inr (by norm_num))

/-- The skin before the clamp of the cube `[0,4]³` of scale 20 with two whole
increments: the sum `0.2 + 0.1` of doubles lies halfway between two doubles and
goes to the even one, `0.30000000000000004`. -/
theorem ex_fine_skin_unclamped :
    skin_unclamped_dbl (round_dbl (2 / ((20 : Int) : ℚ))) 2
      = 1351079888211149 / 4503599627370496 := by
  rw [ex_u20]
  refine skin_unclamped_dbl_eval _ _ (3602879701896397 / 18014398509481984) _ ?_ ?_
  · rw [round_dbl_exact_of _ 3602879701896397 (-54) (by norm_num) (by norm_num)]
    norm_num
  · rw [round_dbl_eval_tie _ (-2) 5404319552844595 (by norm_num) (by norm_num) (by norm_num),
      if_neg (by decide)]
    norm_num

/-- The result of `compute_surface_depths` for the cube `[0,4]³` of scale 20
with `CAC_cut - CAC_skin = 1/2`: interior factor `0.7` and three layers on every
axis. -/
theorem ex_fine_depths_dbl :
    compute_surface_depths_dbl Rat.sqrt ex_fine_atom 0 (ex_fine_atom.nodal_positions 0)
      (ex_fine_atom.element_scale 0) 0
      = ⟨3152519739159347 / 4503599627370496, 3152519739159347 / 4503599627370496,
         3152519739159347 / 4503599627370496, 3, 3, 3⟩ := by
  refine compute_surface_depths_dbl_eval Rat.sqrt ex_fine_atom _ 20 2 0
    (1351079888211149 / 4503599627370496) _ _ ex_fine_increments ?_ ?_ ?_
  · rw [ex_fine_skin_unclamped, if_neg (by norm_num)]
  · rw [round_dbl_eval _ (-1) 6305039478318694 (by norm_num) (by norm_num)
      (by rw [abs_lt]; constructor <;> norm_num)]
    norm_num
  · rw [ex_u20, round_dbl_eval _ 1 6755399441055745 (by norm_num) (by norm_num)
        (by rw [abs_lt]; constructor <;> norm_num),
      static_cast_int32_eq _ (by norm_num) (by norm_num)]
    exact static_cast_int_eq _ 3 (Or.inl (by norm_num))

/-- The cube `[0,4]³` of scale 20 with `CAC_cut - CAC_skin = 9/8`: five whole
increments on every axis. -/
theorem ex_deep_increments :
    surface_increments Rat.sqrt ex_deep_skin_atom (ex_deep_skin_atom.nodal_positions 0)
      (ex_deep_skin_atom.element_scale 0) 0 = ⟨5, 5, 5⟩ := by
  have c : round_dbl (ex_deep_skin_atom.CAC_cut - ex_deep_skin_atom.CAC_skin) = 9 / 8 := by
    show round_dbl ((11 / 8 : ℚ) - 1 / 4) = 9 / 8
    rw [round_dbl_exact_of _ 9 (-3) (by norm_num) (by norm_num)]
    norm_num
  exact ex_fine_increments_of ex_deep_skin_atom rfl 20 5 (9 / 4) (9 / 16) (45 / 8)
    (by
      rw [c, round_dbl_exact_of _ 9 (-2) (by norm_num) (by norm_num)]
      norm_num)
    (by
      rw [round_dbl_exact_of _ 9 (-4) (by norm_num) (by norm_num)]
      norm_num)
    (by
      rw [ex_u20, round_dbl_eval _ 2 6333186975989760 (by norm_num) (by norm_num)
        (by rw [abs_lt]; constructor <;> norm_num)]
      norm_num)
    (by
      rw [static_cast_int32_eq _ (by norm_num) (by norm_num)]
      exact static_cast_int_eq _ 5 (Or.inl (by norm_num)))

/-- For that entity the skin before the clamp is the double
`0.6 = 5404319552844595 / 2^53`, and the layer count is 5, the number of whole
increments itself: the quotient of the doubles `0.6` and `0.1` is
`5.999999999999999`. -/
theorem ex_deep_depths :
    skin_unclamped_dbl (round_dbl (2 / ((20 : Int) : ℚ))) 5
      = 5404319552844595 / 9007199254740992 ∧
    compute_surface_depths_dbl Rat.sqrt ex_deep_skin_atom 0 (ex_deep_skin_atom.nodal_positions 0)
      (ex_deep_skin_atom.element_scale 0) 0
      = ⟨3602879701896397 / 9007199254740992, 3602879701896397 / 9007199254740992,
         3602879701896397 / 9007199254740992, 5, 5, 5⟩ := by
  have hs : skin_unclamped_dbl (round_dbl (2 / ((20 : Int) : ℚ))) 5
      = 5404319552844595 / 9007199254740992 := by
    rw [ex_u20]
    refine skin_unclamped_dbl_eval _ _ (1 / 2) _ ?_ ?_
    · rw [round_dbl_eval _ (-1) 4503599627370496 (by norm_num) (by norm_num)
        (by rw [abs_lt]; constructor <;> norm_num)]
      norm_num
    · rw [round_dbl_eval _ (-1) 5404319552844595 (by norm_num) (by norm_num)
        (by rw [abs_lt]; constructor <;> norm_num)]
      norm_num
  refine ⟨hs, ?_⟩
  refine compute_surface_depths_dbl_eval Rat.sqrt ex_deep_skin_atom _ 20 5 0
    (5404319552844595 / 9007199254740992) _ _ ex_deep_increments ?_ ?_ ?_
  · rw [hs, if_neg (by norm_num)]
  · rw [round_dbl_eval _ (-2) 7205759403792794 (by norm_num) (by norm_num)
      (by rw [abs_lt]; constructor <;> norm_num)]
    norm_num
  · rw [ex_u20, round_dbl_eval _ 2 6755399441055743 (by norm_num) (by norm_num)
        (by rw [abs_lt]; constructor <;> norm_num),
      static_cast_int32_eq _ (by norm_num) (by norm_num)]
    exact static_cast_int_eq _ 5 (Or.inl (by norm_num))

theorem ex_u16 : round_dbl (2 / ((16 : Int) : ℚ)) = 1 / 8 := by
  rw [round_dbl_exact_of _ 1 (-3) (by norm_num) (by norm_num)]
  norm_num

/-- The cube `[0,4]³` of scale 16 with `CAC_cut - CAC_skin = -5/2`: the
truncated quotient is `-10` on every axis. -/
theorem ex_outside_increments :
    surface_increments Rat.sqrt ex_outside_atom (ex_outside_atom.nodal_positions 0)
      (ex_outside_atom.element_scale 0) 0 = ⟨-10, -10, -10⟩ := by
  have c : round_dbl (ex_outside_atom.CAC_cut - ex_outside_atom.CAC_skin) = -(5 / 2) := by
    show round_dbl ((0 : ℚ) - 5 / 2) = -(5 / 2)
    rw [round_dbl_exact_of _ (-5) (-1) (by norm_num) (by norm_num)]
    norm_num
  exact ex_fine_increments_of ex_outside_atom rfl 16 (-10) (-5) (-(5 / 4)) (-10)
    (by
      rw [c, round_dbl_exact_of _ (-5) 0 (by norm_num) (by norm_num)]
      norm_num)
    (by
      rw [round_dbl_exact_of _ (-5) (-2) (by norm_num) (by norm_num)]
      norm_num)
    (by
      rw [ex_u16, round_dbl_exact_of _ (-10) 0 (by norm_num) (by norm_num)]
      norm_num)
    (by
      rw [static_cast_int32_eq _ (by norm_num) (by norm_num)]
      exact static_cast_int_eq _ (-10) (Or.inr (by norm_num)))

/-- The result of `compute_surface_depths` for that entity: interior factor
`17/8` and layer count `-9` on every axis. -/
theorem ex_outside_depths :
    compute_surface_depths_dbl Rat.sqrt ex_outside_atom 0 (ex_outside_atom.nodal_positions 0)
      (ex_outside_atom.element_scale 0) 0 = ⟨17 / 8, 17 / 8, 17 / 8, -9, -9, -9⟩ := by
  have hs : skin_unclamped_dbl (round_dbl (2 / ((16 : Int) : ℚ))) (-10) = -(9 / 8) := by
    rw [ex_u16]
    refine skin_unclamped_dbl_eval _ _ (-(5 / 4)) _ ?_ ?_
    · rw [round_dbl_exact_of _ (-5) (-2) (by norm_num) (by norm_num)]
      norm_num
    · rw [round_dbl_exact_of _ (-9) (-3) (by norm_num) (by norm_num)]
      norm_num
  refine compute_surface_depths_dbl_eval Rat.sqrt ex_outside_atom _ 16 (-10) 0
    (-(9 / 8)) _ _ ex_outside_increments ?_ ?_ ?_
  · rw [hs, if_neg (by norm_num)]
  · rw [round_dbl_exact_of _ 17 (-3) (by norm_num) (by norm_num)]
    norm_num
  · rw [ex_u16, round_dbl_exact_of _ (-9) 0 (by norm_num) (by norm_num),
      static_cast_int32_eq _ (by norm_num) (by norm_num)]
    exact static_cast_int_eq _ (-9) (Or.inr (by norm_num))

/-- The sheared cell: the sum of line 963 is `0 + 3 * (-11) + 16 = -17`. -/
theorem ex_shear_sum : dw_sq_dbl (ex_shear_atom.nodal_positions 0) 0 = -17 := by
  have r3 : round_dbl 3 = 3 := round_dbl_exact_of _ 3 0 (by norm_num) (by norm_num)
  have r4 : round_dbl (-4) = -4 := round_dbl_exact_of _ (-4) 0 (by norm_num) (by norm_num)
  have r11 : round_dbl (-11) = -11 := round_dbl_exact_of _ (-11) 0 (by norm_num) (by norm_num)
  have r16 : round_dbl 16 = 16 := round_dbl_exact_of _ 16 0 (by norm_num) (by norm_num)
  have r33 : round_dbl (-33) = -33 := round_dbl_exact_of _ (-33) 0 (by norm_num) (by norm_num)
  have r17 : round_dbl (-17) = -17 := round_dbl_exact_of _ (-17) 0 (by norm_num) (by norm_num)
  simp only [dw_sq_dbl, ex_shear_atom, ex_shear_node]
  norm_num [round_dbl_zero, r3, r4, r11, r16, r33, r17]

/-- The z axis of the sheared cell: the conversion of line 964 gives `INT_MIN`,
the skin is `-214748364.70000002`, the interior factor `214748365.70000002` and
the layer count `-2147483647`. -/
theorem ex_shear_depths :
    (surface_increments Rat.sqrt ex_shear_atom (ex_shear_atom.nodal_positions 0)
      (ex_shear_atom.element_scale 0) 0).i2 = INT_MIN ∧
    (surface_skin_dbl Rat.sqrt ex_shear_atom 0 (ex_shear_atom.nodal_positions 0)
      (ex_shear_atom.element_scale 0) 0).c2 = -(7205759400437351 / 33554432) ∧
    (compute_surface_depths_dbl Rat.sqrt ex_shear_atom 0 (ex_shear_atom.nodal_positions 0)
      (ex_shear_atom.element_scale 0) 0).scalez = 7205759433991783 / 33554432 ∧
    (compute_surface_depths_dbl Rat.sqrt ex_shear_atom 0 (ex_shear_atom.nodal_positions 0)
      (ex_shear_atom.element_scale 0) 0).countz = -2147483647 := by
  have hk : (surface_increments Rat.sqrt ex_shear_atom (ex_shear_atom.nodal_positions 0)
      (ex_shear_atom.element_scale 0) 0).i2 = INT_MIN := by
    show skin_increments Rat.sqrt _ _ (dw_sq_dbl (ex_shear_atom.nodal_positions 0) 0) = INT_MIN
    rw [ex_shear_sum]
    exact skin_increments_of_neg _ _ _ _ (by norm_num)
  have hs : skin_unclamped_dbl (round_dbl (2 / ((20 : Int) : ℚ))) INT_MIN
      = -(7205759400437351 / 33554432) := by
    rw [ex_u20]
    refine skin_unclamped_dbl_eval _ _ (-(3602879701896397 / 16777216)) _ ?_ ?_
    · simp only [INT_MIN]
      rw [round_dbl_exact_of _ (-3602879701896397) (-24) (by norm_num) (by norm_num)]
      norm_num
    · rw [show -(3602879701896397 / 16777216 : ℚ) + 3602879701896397 / 36028797018963968
          = -(3602879701896397 / 16777216 - 3602879701896397 / 36028797018963968) by ring,
        round_dbl_neg, round_dbl_eval _ 27 7205759400437351 (by norm_num) (by norm_num)
          (by rw [abs_lt]; constructor <;> norm_num)]
      norm_num
  have hsk : (surface_skin_dbl Rat.sqrt ex_shear_atom 0 (ex_shear_atom.nodal_positions 0)
      (ex_shear_atom.element_scale 0) 0).c2 = -(7205759400437351 / 33554432) := by
    rw [surface_skin_dbl_normal]
    simp only []
    rw [hk]
    show (if skin_unclamped_dbl (round_dbl (2 / ((20 : Int) : ℚ))) INT_MIN > 1 then 1
      else skin_unclamped_dbl (round_dbl (2 / ((20 : Int) : ℚ))) INT_MIN) = _
    rw [hs, if_neg (by norm_num)]
  refine ⟨hk, hsk, ?_, ?_⟩
  · show round_dbl (1 - (surface_skin_dbl Rat.sqrt ex_shear_atom 0
      (ex_shear_atom.nodal_positions 0) (ex_shear_atom.element_scale 0) 0).c2) = _
    rw [hsk, round_dbl_eval _ 27 7205759433991783 (by norm_num) (by norm_num)
      (by rw [abs_lt]; constructor <;> norm_num)]
    norm_num
  · show static_cast_int32 (round_dbl ((surface_skin_dbl Rat.sqrt ex_shear_atom 0
      (ex_shear_atom.nodal_positions 0) (ex_shear_atom.element_scale 0) 0).c2
        / round_dbl (2 / ((20 : Int) : ℚ)))) = _
    rw [hsk, ex_u20, show -(7205759400437351 / 33554432 : ℚ)
          / (3602879701896397 / 36028797018963968)
          = -(7205759400437351 / 33554432 / (3602879701896397 / 36028797018963968)) by ring,
      round_dbl_neg, round_dbl_eval _ 30 9007199250546688 (by norm_num) (by norm_num)
        (by rw [abs_lt]; constructor <;> norm_num),
      static_cast_int32_eq _ (by norm_num) (by norm_num)]
    exact static_cast_int_eq _ (-2147483647) (Or.inr (by norm_num))

/-- C36: two entities of scale 20 in normal mode.  For the cube `[0,4]³` with
`CAC_cut - CAC_skin = -1/2` the conversion of line 944 gives `-2` and the layer
count is `-1`.  For the sheared cell with edges `(5,0,0)`, `(0,11,0)` and
`(0,-3,4)`, `CAC_cut = 3/4` and `CAC_skin = 1/4`, the sum under the root of line
963 is `-17`, the conversion of line 964 gives `INT_MIN` and the layer count of
the z axis is `-2147483647`.  In both, `0 ≤ 2 * count` fails. -/
theorem ex_layer_count_negative :
    (1 ≤ (ex_thick_skin_atom.element_scale 0).i0 ∧
      (surface_increments Rat.sqrt ex_thick_skin_atom (ex_thick_skin_atom.nodal_positions 0)
        (ex_thick_skin_atom.element_scale 0) 0).i0 = -2 ∧
      (compute_surface_depths_dbl Rat.sqrt ex_thick_skin_atom 0
        (ex_thick_skin_atom.nodal_positions 0) (ex_thick_skin_atom.element_scale 0) 0).countx
        = -1 ∧
      ¬ 0 ≤ 2 * (compute_surface_depths_dbl Rat.sqrt ex_thick_skin_atom 0
        (ex_thick_skin_atom.nodal_positions 0) (ex_thick_skin_atom.element_scale 0) 0).countx) ∧
    (1 ≤ (ex_shear_atom.element_scale 0).i2 ∧ ex_shear_atom.CAC_skin ≤ ex_shear_atom.CAC_cut ∧
      dw_sq_dbl (ex_shear_atom.nodal_positions 0) 0 = -17 ∧
      (surface_increments Rat.sqrt ex_shear_atom (ex_shear_atom.nodal_positions 0)
        (ex_shear_atom.element_scale 0) 0).i2 = INT_MIN ∧
      (compute_surface_depths_dbl Rat.sqrt ex_shear_atom 0 (ex_shear_atom.nodal_positions 0)
        (ex_shear_atom.element_scale 0) 0).countz = -2147483647 ∧
      ¬ 0 ≤ 2 * (compute_surface_depths_dbl Rat.sqrt ex_shear_atom 0
        (ex_shear_atom.nodal_positions 0) (ex_shear_atom.element_scale 0) 0).countz) := by
  obtain ⟨k, -, -, c⟩ := ex_shear_depths
  refine ⟨⟨by decide, by rw [ex_thick_increments], by rw [ex_thick_depths], ?_⟩,
    ⟨by decide, by simp only [ex_shear_atom, ex_fine_atom]; norm_num, ex_shear_sum, k, c, ?_⟩⟩
  · rw [ex_thick_depths]
    decide
  · rw [c]
    decide

/-- The result of `compute_surface_depths` in single-layer mode for the cube of
the worked configuration, of scale 1: skin ratio 2, interior factor `-1`. -/
theorem ex_cube_one_layer_dbl :
    (surface_skin_dbl Rat.sqrt ex_atom 1 (ex_atom.nodal_positions 0)
      (ex_atom.element_scale 0) 0).c0 = 2 ∧
    (compute_surface_depths_dbl Rat.sqrt ex_atom 1 (ex_atom.nodal_positions 0)
      (ex_atom.element_scale 0) 0).scalex = -1 := by
  have hs : (surface_skin_dbl Rat.sqrt ex_atom 1 (ex_atom.nodal_positions 0)
      (ex_atom.element_scale 0) 0).c0 = 2 := by
    rw [surface_skin_dbl_one_layer _ _ _ _ _ _ (by decide)]
    show round_dbl (2 / ((1 : Int) : ℚ)) = 2
    rw [round_dbl_exact_of _ 1 1 (by norm_num) (by norm_num)]
    norm_num
  refine ⟨hs, ?_⟩
  show round_dbl (1 - (surface_skin_dbl Rat.sqrt ex_atom 1 (ex_atom.nodal_positions 0)
    (ex_atom.element_scale 0) 0).c0) = -1
  rw [hs, round_dbl_exact_of _ (-1) 0 (by norm_num) (by norm_num)]
  norm_num

/-- C21: three entities of scale at least 1 whose edges have positive length.
In single-layer mode the cube of the worked configuration (scale 1) gets the
skin ratio 2 and the interior factor `-1`.  In normal mode the cube `[0,4]³` of
scale 20 with `CAC_cut - CAC_skin = -1/2` gets the interior factor `1.1`, and
the sheared cell of scale 20 with `CAC_cut = 3/4`, `CAC_skin = 1/4` gets on the
z axis the interior factor `214748365.70000002`. -/
theorem ex_interior_factor_outside :
    (1 ≤ (ex_atom.element_scale 0).i0 ∧
      (surface_skin_dbl Rat.sqrt ex_atom 1 (ex_atom.nodal_positions 0)
        (ex_atom.element_scale 0) 0).c0 = 2 ∧
      (compute_surface_depths_dbl Rat.sqrt ex_atom 1 (ex_atom.nodal_positions 0)
        (ex_atom.element_scale 0) 0).scalex = -1) ∧
    (1 ≤ (ex_thick_skin_atom.element_scale 0).i0 ∧
      (compute_surface_depths_dbl Rat.sqrt ex_thick_skin_atom 0
        (ex_thick_skin_atom.nodal_positions 0) (ex_thick_skin_atom.element_scale 0) 0).scalex
        = 2476979795053773 / 2251799813685248 ∧
      ¬ (compute_surface_depths_dbl Rat.sqrt ex_thick_skin_atom 0
        (ex_thick_skin_atom.nodal_positions 0) (ex_thick_skin_atom.element_scale 0) 0).scalex
          ≤ 1) ∧
    (1 ≤ (ex_shear_atom.element_scale 0).i2 ∧ ex_shear_atom.CAC_skin ≤ ex_shear_atom.CAC_cut ∧
      (compute_surface_depths_dbl Rat.sqrt ex_shear_atom 0 (ex_shear_atom.nodal_positions 0)
        (ex_shear_atom.element_scale 0) 0).scalez = 7205759433991783 / 33554432 ∧
      ¬ (compute_surface_depths_dbl Rat.sqrt ex_shear_atom 0 (ex_shear_atom.nodal_positions 0)
        (ex_shear_atom.element_scale 0) 0).scalez ≤ 1) := by
  obtain ⟨-, -, f, -⟩ := ex_shear_depths
  refine ⟨⟨by decide, ex_cube_one_layer_dbl.1, ex_cube_one_layer_dbl.2⟩,
    ⟨by decide, by rw [ex_thick_depths], ?_⟩,
    ⟨by decide, by simp only [ex_shear_atom, ex_fine_atom]; norm_num, f, ?_⟩⟩
  · rw [ex_thick_depths]
    norm_num
  · rw [f]
    norm_num

/-- C22: for the cube `[0,4]³` of scale 20 with `CAC_cut - CAC_skin = 1/2` the
required skin is `2 * (1/2) / 4 = 1/4` and `u` is the double `0.1`, so that
`requiredSkin / u` has the integer part 2 and quantising down gives the double
`0.2`; `compute_surface_depths` yields, before and after the clamp, the skin
ratio `0.30000000000000004`, and the layer count 3. -/
theorem ex_skin_one_increment_more :
    round_dbl (round_dbl (2 * round_dbl (ex_fine_atom.CAC_cut - ex_fine_atom.CAC_skin))
      / round_dbl (Rat.sqrt (ds_sq_dbl (ex_fine_atom.nodal_positions 0) 0))) = 1 / 4 ∧
    round_dbl (2 / (((ex_fine_atom.element_scale 0).i0 : Int) : ℚ))
      = 3602879701896397 / 36028797018963968 ∧
    ⌊(1 / 4 : ℚ) / (3602879701896397 / 36028797018963968)⌋ = 2 ∧
    round_dbl ((3602879701896397 / 36028797018963968 : ℚ) * ((2 : Int) : ℚ))
      = 3602879701896397 / 18014398509481984 ∧
    skin_unclamped_dbl (round_dbl (2 / (((ex_fine_atom.element_scale 0).i0 : Int) : ℚ)))
      (surface_increments Rat.sqrt ex_fine_atom (ex_fine_atom.nodal_positions 0)
        (ex_fine_atom.element_scale 0) 0).i0 = 1351079888211149 / 4503599627370496 ∧
    (surface_skin_dbl Rat.sqrt ex_fine_atom 0 (ex_fine_atom.nodal_positions 0)
      (ex_fine_atom.element_scale 0) 0).c0 = 1351079888211149 / 4503599627370496 ∧
    (1351079888211149 / 4503599627370496 : ℚ) ≠ 3602879701896397 / 18014398509481984 ∧
    (compute_surface_depths_dbl Rat.sqrt ex_fine_atom 0 (ex_fine_atom.nodal_positions 0)
      (ex_fine_atom.element_scale 0) 0).countx = 3 := by
  have hu : round_dbl (2 / (((ex_fine_atom.element_scale 0).i0 : Int) : ℚ))
      = 3602879701896397 / 36028797018963968 := ex_u20
  have hs : skin_unclamped_dbl (round_dbl (2 / (((ex_fine_atom.element_scale 0).i0 : Int) : ℚ)))
      (surface_increments Rat.sqrt ex_fine_atom (ex_fine_atom.nodal_positions 0)
        (ex_fine_atom.element_scale 0) 0).i0 = 1351079888211149 / 4503599627370496 := by
    rw [ex_fine_increments]
    exact ex_fine_skin_unclamped
  refine ⟨?_, hu, ?_, ?_, hs, ?_, by norm_num, by rw [ex_fine_depths_dbl]⟩
  · rw [(ex_fine_sums_dbl ex_fine_atom rfl).1, ex_sqrt_16]
    show round_dbl (round_dbl (2 * round_dbl ((3 / 4 : ℚ) - 1 / 4)) / 4) = 1 / 4
    rw [round_dbl_exact_of ((3 / 4 : ℚ) - 1 / 4) 1 (-1) (by norm_num) (by norm_num),
      round_dbl_exact_of (2 * ((3 / 4 : ℚ) - 1 / 4)) 1 0 (by norm_num) (by norm_num),
      round_dbl_exact_of _ 1 (-2) (by norm_num) (by norm_num)]
    norm_num
  · rw [Int.floor_eq_iff]
    norm_num
  · rw [round_dbl_exact_of _ 3602879701896397 (-54) (by norm_num) (by norm_num)]
    norm_num
  · rw [surface_skin_dbl_normal]
    simp only []
    rw [if_neg (by rw [hs]; norm_num), hs]

/-! ## The sampling coordinates with the surface depths of machine arithmetic -/

/-- A skin ratio between the increment and 1 on an axis of scale at least 2:
the interior factor and the layer count computed from it satisfy `axis_ok` for
the exact increment `2 / scale`. -/
theorem axis_ok_skin_dbl (n : Int) (h1 : 2 ≤ n) (h2 : n ≤ INT_MAX) (sk : ℚ)
    (hs0 : round_dbl (2 / (n : ℚ)) ≤ sk) (hs1 : sk ≤ 1) :
    axis_ok (2 / (n : ℚ)) (round_dbl (1 - sk))
      (static_cast_int32 (round_dbl (sk / round_dbl (2 / (n : ℚ))))) := by
  obtain ⟨b1, -, -, b4, -⟩ := unit_cell_dbl_bounds n (by omega) h2
  have hu0 : 0 < round_dbl (2 / (n : ℚ)) := lt_of_lt_of_le (by norm_num) b1
  obtain ⟨-, -, -, c0, c1, -⟩ := count_dbl_bounds n (by omega) h2 sk (by linarith) hs1
  have hn2 : (2 : ℚ) ≤ n := by exact_mod_cast h1
  have hnm : (n : ℚ) ≤ 2147483647 := by
    have : n ≤ 2147483647 := h2
    exact_mod_cast this
  have hn0 : (0 : ℚ) < n := by linarith
  have hf0 : 0 ≤ round_dbl (1 - sk) := round_dbl_nonneg _ (by linarith)
  have hf1 : round_dbl (1 - sk) ≤ 1 := by
    have := round_dbl_mono (1 - sk) 1 (by linarith)
    rwa [round_dbl_one] at this
  have hup := round_dbl_upper (1 - sk) (by linarith)
  generalize round_dbl (1 - sk) = f at *
  generalize static_cast_int32 (round_dbl (sk / round_dbl (2 / (n : ℚ)))) = c at *
  generalize round_dbl (2 / (n : ℚ)) = u at *
  have hcq : (2 : ℚ) * (c : ℚ) ≤ n := by exact_mod_cast c1
  have hc0 : (0 : ℚ) ≤ c := by exact_mod_cast c0
  have hfu : f ≤ (1 - u) + (1 - u) / 2 ^ 53 := by linarith
  have hnf : (n : ℚ) * f ≤ (n : ℚ) * ((1 - u) + (1 - u) / 2 ^ 53) :=
    mul_le_mul_of_nonneg_left hfu hn0.le
  have e : (n : ℚ) * ((1 - u) + (1 - u) / 2 ^ 53)
      = ((n : ℚ) - (n : ℚ) * u) + ((n : ℚ) - (n : ℚ) * u) / 2 ^ 53 := by ring
  rw [e] at hnf
  generalize (n : ℚ) * u = P at *
  have hkey : (n : ℚ) * f ≤ (n : ℚ) - 1 := by linarith
  refine ⟨by positivity, by rw [div_le_iff₀ hn0]; linarith, by linarith, hf1, ?_,
    Or.inl ⟨hf0, ?_⟩⟩
  · have : (c : ℚ) * (2 / (n : ℚ)) = 2 * (c : ℚ) / (n : ℚ) := by ring
    rw [this, div_le_iff₀ hn0]
    linarith
  · have : f + 2 / (n : ℚ) / 2 = (f * (n : ℚ) + 1) / (n : ℚ) := by
      field_simp
      ring
    rw [this, div_le_iff₀ hn0]
    linarith

/-- One axis in normal mode with a non-negative number of increments. -/
theorem axis_ok_normal_dbl (n : Int) (h1 : 1 ≤ n) (h2 : n ≤ INT_MAX) (k : Int) (hk : 0 ≤ k) :
    axis_ok (2 / (n : ℚ))
      (round_dbl (1 - (if skin_unclamped_dbl (round_dbl (2 / (n : ℚ))) k > 1 then 1
        else skin_unclamped_dbl (round_dbl (2 / (n : ℚ))) k)))
      (static_cast_int32 (round_dbl
        ((if skin_unclamped_dbl (round_dbl (2 / (n : ℚ))) k > 1 then 1
          else skin_unclamped_dbl (round_dbl (2 / (n : ℚ))) k) / round_dbl (2 / (n : ℚ))))) := by
  obtain ⟨b1, -, b3, -, -⟩ := unit_cell_dbl_bounds n h1 h2
  have hd := round_dbl_isDbl (2 / (n : ℚ))
  have hu0 : 0 < round_dbl (2 / (n : ℚ)) := lt_of_lt_of_le (by norm_num) b1
  have hge := skin_unclamped_dbl_ge (round_dbl (2 / (n : ℚ))) k hu0.le hd hk
  by_cases hn : 2 ≤ n
  · refine axis_ok_skin_dbl n hn h2 _ ?_ ?_
    · split_ifs
      · exact b3 hn
      · exact hge
    · split_ifs with hgt
      · exact le_refl 1
      · exact not_lt.mp hgt
  · have e : n = 1 := by omega
    subst e
    have hu : round_dbl (2 / ((1 : Int) : ℚ)) = 2 := by
      rw [show (2 : ℚ) / ((1 : Int) : ℚ) = 2 by norm_num]
      exact round_dbl_two
    rw [hu] at hge ⊢
    rw [if_pos (by linarith)]
    have f : round_dbl (1 - 1) = 0 := by
      rw [sub_self]
      exact round_dbl_zero
    have c : static_cast_int32 (round_dbl (1 / 2)) = 0 := by
      rw [round_dbl_exact_of (1 / 2) 1 (-1) (by norm_num) (by norm_num),
        static_cast_int32_eq _ (by norm_num) (by norm_num)]
      exact static_cast_int_eq _ 0 (Or.inl (by norm_num))
    rw [f, c]
    unfold axis_ok
    norm_num

/-- One axis in single-layer mode. -/
theorem axis_ok_one_layer_dbl (n : Int) (h1 : 1 ≤ n) (h2 : n ≤ INT_MAX) :
    axis_ok (2 / (n : ℚ)) (round_dbl (1 - round_dbl (2 / (n : ℚ))))
      (static_cast_int32 (round_dbl (round_dbl (2 / (n : ℚ)) / round_dbl (2 / (n : ℚ))))) := by
  obtain ⟨b1, -, b3, -, -⟩ := unit_cell_dbl_bounds n h1 h2
  by_cases hn : 2 ≤ n
  · exact axis_ok_skin_dbl n hn h2 _ (le_refl _) (b3 hn)
  · have e : n = 1 := by omega
    subst e
    have hu : round_dbl (2 / ((1 : Int) : ℚ)) = 2 := by
      rw [show (2 : ℚ) / ((1 : Int) : ℚ) = 2 by norm_num]
      exact round_dbl_two
    rw [hu]
    have f : round_dbl (1 - 2) = -1 := by
      rw [round_dbl_exact_of _ (-1) 0 (by norm_num) (by norm_num)]
      norm_num
    have c : static_cast_int32 (round_dbl (2 / 2)) = 1 := by
      rw [round_dbl_exact_of (2 / 2) 1 0 (by norm_num) (by norm_num),
        static_cast_int32_eq _ (by norm_num) (by norm_num)]
      exact static_cast_int_eq _ 1 (Or.inl (by norm_num))
    rw [f, c]
    unfold axis_ok
    norm_num

/-- For an entity whose scale on each axis is an `int` of at least 1, the
interior factor and the layer count that `compute_surface_depths` returns in
machine arithmetic satisfy `axis_ok` on every axis: in single-layer mode always,
in normal mode on the axes with a non-negative number of increments. -/
theorem compute_surface_depths_dbl_axis_ok (sqrt : ℚ → ℚ) (a : Atom) (one_layer_flag : Nat)
    (pos : Nat → Nat → Vec3) (scale : Int3) (poly : Nat)
    (h0 : 1 ≤ scale.i0 ∧ scale.i0 ≤ INT_MAX) (h1 : 1 ≤ scale.i1 ∧ scale.i1 ≤ INT_MAX)
    (h2 : 1 ≤ scale.i2 ∧ scale.i2 ≤ INT_MAX) :
    ((one_layer_flag = 0 → 0 ≤ (surface_increments sqrt a pos scale poly).i0) →
      axis_ok (2 / (scale.i0 : ℚ))
        (compute_surface_depths_dbl sqrt a one_layer_flag pos scale poly).scalex
        (compute_surface_depths_dbl sqrt a one_layer_flag pos scale poly).countx) ∧
    ((one_layer_flag = 0 → 0 ≤ (surface_increments sqrt a pos scale poly).i1) →
      axis_ok (2 / (scale.i1 : ℚ))
        (compute_surface_depths_dbl sqrt a one_layer_flag pos scale poly).scaley
        (compute_surface_depths_dbl sqrt a one_layer_flag pos scale poly).county) ∧
    ((one_layer_flag = 0 → 0 ≤ (surface_increments sqrt a pos scale poly).i2) →
      axis_ok (2 / (scale.i2 : ℚ))
        (compute_surface_depths_dbl sqrt a one_layer_flag pos scale poly).scalez
        (compute_surface_depths_dbl sqrt a one_layer_flag pos scale poly).countz) := by
  by_cases hflag : one_layer_flag = 0
  · subst hflag
    rw [compute_surface_depths_dbl_normal]
    simp only []
    exact ⟨fun hk => axis_ok_normal_dbl _ h0.1 h0.2 _ (hk trivial),
      fun hk => axis_ok_normal_dbl _ h1.1 h1.2 _ (hk trivial),
      fun hk => axis_ok_normal_dbl _ h2.1 h2.2 _ (hk trivial)⟩
  · have ex : (compute_surface_depths_dbl sqrt a one_layer_flag pos scale poly).scalex
        = round_dbl (1 - (surface_skin_dbl sqrt a one_layer_flag pos scale poly).c0) := rfl
    have ey : (compute_surface_depths_dbl sqrt a one_layer_flag pos scale poly).scaley
        = round_dbl (1 - (surface_skin_dbl sqrt a one_layer_flag pos scale poly).c1) := rfl
    have ez : (compute_surface_depths_dbl sqrt a one_layer_flag pos scale poly).scalez
        = round_dbl (1 - (surface_skin_dbl sqrt a one_layer_flag pos scale poly).c2) := rfl
    have cx : (compute_surface_depths_dbl sqrt a one_layer_flag pos scale poly).countx
        = static_cast_int32 (round_dbl ((surface_skin_dbl sqrt a one_layer_flag pos scale poly).c0
            / round_dbl (2 / (scale.i0 : ℚ)))) := rfl
    have cy : (compute_surface_depths_dbl sqrt a one_layer_flag pos scale poly).county
        = static_cast_int32 (round_dbl ((surface_skin_dbl sqrt a one_layer_flag pos scale poly).c1
            / round_dbl (2 / (scale.i1 : ℚ)))) := rfl
    have cz : (compute_surface_depths_dbl sqrt a one_layer_flag pos scale poly).countz
        = static_cast_int32 (round_dbl ((surface_skin_dbl sqrt a one_layer_flag pos scale poly).c2
            / round_dbl (2 / (scale.i2 : ℚ)))) := rfl
    rw [ex, ey, ez, cx, cy, cz,
      surface_skin_dbl_one_layer sqrt a one_layer_flag pos scale poly hflag]
    simp only []
    exact ⟨fun _ => axis_ok_one_layer_dbl _ h0.1 h0.2, fun _ => axis_ok_one_layer_dbl _ h1.1 h1.2,
      fun _ => axis_ok_one_layer_dbl _ h2.1 h2.2⟩

/-- C35 (as the code has it): for an entity with eight nodes whose scale on each
axis is an `int` of at least 1, and whose stored interior factor and layer count
are, on each axis, those that `compute_surface_depths` returns in machine
arithmetic for one of its phases (in normal mode a phase for which the number of
increments `(int)(requiredSkin / u)` of that axis, formed at line 944, 954 or
964, is not negative; in single-layer mode any phase), with abscissae in
`[-1,1]`, every parametric coordinate at which `compute_quad_points` interpolates
lies in `[-1,1]³`; every row `r` it writes is the interpolation of the eight
nodes of the phase `p` in whose turn it was written (`p = r / N`, with `N`
samples per phase) at such a coordinate, with non-negative weights of sum 1, and
lies in the axis-aligned bounding box of the nodes of phase `p`.  The sampling
arithmetic of `compute_quad_points` itself is exact here. -/
theorem compute_quad_points_dbl_in_box (sqrt : ℚ → ℚ) (a : Atom) (one_layer_flag : Nat)
    (Q : Quad) (i : Nat) (buf : Nat → Vec3)
    (hnpe : a.nodes_per_element_list (a.element_type i) = 8)
    (h0 : 1 ≤ (a.element_scale i).i0 ∧ (a.element_scale i).i0 ≤ INT_MAX)
    (h1 : 1 ≤ (a.element_scale i).i1 ∧ (a.element_scale i).i1 ≤ INT_MAX)
    (h2 : 1 ≤ (a.element_scale i).i2 ∧ (a.element_scale i).i2 ≤ INT_MAX)
    (hx : ∃ p, p < a.poly_count i ∧
      (Q.interior_scales i).c0 = (compute_surface_depths_dbl sqrt a one_layer_flag
        (a.nodal_positions i) (a.element_scale i) p).scalex ∧
      (Q.surface_counts i).i0 = (compute_surface_depths_dbl sqrt a one_layer_flag
        (a.nodal_positions i) (a.element_scale i) p).countx ∧
      (one_layer_flag = 0 →
        0 ≤ (surface_increments sqrt a (a.nodal_positions i) (a.element_scale i) p).i0))
    (hy : ∃ p, p < a.poly_count i ∧
      (Q.interior_scales i).c1 = (compute_surface_depths_dbl sqrt a one_layer_flag
        (a.nodal_positions i) (a.element_scale i) p).scaley ∧
      (Q.surface_counts i).i1 = (compute_surface_depths_dbl sqrt a one_layer_flag
        (a.nodal_positions i) (a.element_scale i) p).county ∧
      (one_layer_flag = 0 →
        0 ≤ (surface_increments sqrt a (a.nodal_positions i) (a.element_scale i) p).i1))
    (hz : ∃ p, p < a.poly_count i ∧
      (Q.interior_scales i).c2 = (compute_surface_depths_dbl sqrt a one_layer_flag
        (a.nodal_positions i) (a.element_scale i) p).scalez ∧
      (Q.surface_counts i).i2 = (compute_surface_depths_dbl sqrt a one_layer_flag
        (a.nodal_positions i) (a.element_scale i) p).countz ∧
      (one_layer_flag = 0 →
        0 ≤ (surface_increments sqrt a (a.nodal_positions i) (a.element_scale i) p).i2))
    (habs : ∀ j, j < Q.quadrature_node_count → |Q.quadrature_abcissae j| ≤ 1) :
    (∀ x, x ∈ (compute_quad_points a Q i buf).samples → in_cube x) ∧
    ∀ r, r < (compute_quad_points a Q i buf).quadrature_counter →
      ∃ p s t w, p < a.poly_count i ∧
        p = r / (phase_samples ⟨2 / ((a.element_scale i).i0 : ℚ), 2 / ((a.element_scale i).i1 : ℚ),
          2 / ((a.element_scale i).i2 : ℚ)⟩ (Q.interior_scales i) (Q.surface_counts i)
          Q.quadrature_node_count Q.quadrature_abcissae).length ∧
        (compute_quad_points a Q i buf).samples[r]? = some ⟨s, t, w⟩ ∧
        in_cube ⟨s, t, w⟩ ∧
        (∀ k, 0 ≤ shape_function s t w 2 k) ∧
        shape_function s t w 2 1 + shape_function s t w 2 2 + shape_function s t w 2 3
          + shape_function s t w 2 4 + shape_function s t w 2 5 + shape_function s t w 2 6
          + shape_function s t w 2 7 + shape_function s t w 2 8 = 1 ∧
        (compute_quad_points a Q i buf).current_element_quad_points r
          = interpolate (a.nodal_positions i) 8 p s t w ∧
        in_box (node_bounding_box (fun k _ => a.nodal_positions i k p) 1 8)
          ((compute_quad_points a Q i buf).current_element_quad_points r) := by
  obtain ⟨p0, -, e0, f0, g0⟩ := hx
  obtain ⟨p1, -, e1, f1, g1⟩ := hy
  obtain ⟨p2, -, e2, f2, g2⟩ := hz
  have ok0 : axis_ok (2 / ((a.element_scale i).i0 : ℚ)) (Q.interior_scales i).c0
      (Q.surface_counts i).i0 := by
    rw [e0, f0]
    exact (compute_surface_depths_dbl_axis_ok sqrt a one_layer_flag (a.nodal_positions i)
      (a.element_scale i) p0 h0 h1 h2).1 g0
  have ok1 : axis_ok (2 / ((a.element_scale i).i1 : ℚ)) (Q.interior_scales i).c1
      (Q.surface_counts i).i1 := by
    rw [e1, f1]
    exact (compute_surface_depths_dbl_axis_ok sqrt a one_layer_flag (a.nodal_positions i)
      (a.element_scale i) p1 h0 h1 h2).2.1 g1
  have ok2 : axis_ok (2 / ((a.element_scale i).i2 : ℚ)) (Q.interior_scales i).c2
      (Q.surface_counts i).i2 := by
    rw [e2, f2]
    exact (compute_surface_depths_dbl_axis_ok sqrt a one_layer_flag (a.nodal_positions i)
      (a.element_scale i) p2 h0 h1 h2).2.2 g2
  obtain ⟨c1, c2, c3, c4⟩ := compute_quad_points_rows a Q i buf
  have hcube : ∀ x, x ∈ (compute_quad_points a Q i buf).samples → in_cube x :=
    fun x hx => phase_samples_in_cube ⟨2 / ((a.element_scale i).i0 : ℚ),
      2 / ((a.element_scale i).i1 : ℚ), 2 / ((a.element_scale i).i2 : ℚ)⟩ _ _ _ _
      ok0 ok1 ok2 habs x (c3 x hx)
  refine ⟨hcube, ?_⟩
  intro r hr
  rw [c1] at hr
  have hs := List.getElem?_eq_getElem hr
  have hmem := List.getElem_mem hr
  generalize (compute_quad_points a Q i buf).samples[r] = smp at hs hmem
  have hrow := c4 r smp hs
  rw [hnpe] at hrow
  have hc := hcube smp hmem
  have hp : r / (phase_samples ⟨2 / ((a.element_scale i).i0 : ℚ), 2 / ((a.element_scale i).i1 : ℚ),
      2 / ((a.element_scale i).i2 : ℚ)⟩ (Q.interior_scales i) (Q.surface_counts i)
      Q.quadrature_node_count Q.quadrature_abcissae).length < a.poly_count i := by
    apply Nat.div_lt_of_lt_mul
    rw [Nat.mul_comm, ← c2]
    exact hr
  obtain ⟨s, t, w⟩ := smp
  refine ⟨_, s, t, w, hp, rfl, hs, hc, fun k => shape_function_nonneg s t w hc.1 hc.2.1 hc.2.2 k,
    shape_function_sum s t w, hrow, ?_⟩
  rw [hrow]
  exact interpolate_in_box _ _ s t w hc

/-- The first sample of a phase is the first interior one. -/
theorem phase_samples_head (u is : Vec3) (c : Int3) (absc : Nat → ℚ) :
    (phase_samples u is c 2 absc)[0]?
      = some ⟨snap u.c0 (is.c0 * absc 0), snap u.c1 (is.c1 * absc 0),
          snap u.c2 (is.c2 * absc 0)⟩ := rfl

theorem ex_outside_quad_fields :
    ex_outside_quad.interior_scales 0 = ⟨17 / 8, 17 / 8, 17 / 8⟩ ∧
    ex_outside_quad.surface_counts 0 = ⟨-9, -9, -9⟩ ∧
    ex_outside_quad.quadrature_node_count = 2 ∧
    ex_outside_quad.quadrature_abcissae = ex_quad.quadrature_abcissae := by
  refine ⟨?_, ?_, rfl, rfl⟩
  · show (⟨(compute_surface_depths_dbl Rat.sqrt ex_outside_atom 0
        (ex_outside_atom.nodal_positions 0) (ex_outside_atom.element_scale 0) 0).scalex,
      (compute_surface_depths_dbl Rat.sqrt ex_outside_atom 0
        (ex_outside_atom.nodal_positions 0) (ex_outside_atom.element_scale 0) 0).scaley,
      (compute_surface_depths_dbl Rat.sqrt ex_outside_atom 0
        (ex_outside_atom.nodal_positions 0) (ex_outside_atom.element_scale 0) 0).scalez⟩ : Vec3)
      = _
    rw [ex_outside_depths]
  · show (⟨(compute_surface_depths_dbl Rat.sqrt ex_outside_atom 0
        (ex_outside_atom.nodal_positions 0) (ex_outside_atom.element_scale 0) 0).countx,
      (compute_surface_depths_dbl Rat.sqrt ex_outside_atom 0
        (ex_outside_atom.nodal_positions 0) (ex_outside_atom.element_scale 0) 0).county,
      (compute_surface_depths_dbl Rat.sqrt ex_outside_atom 0
        (ex_outside_atom.nodal_positions 0) (ex_outside_atom.element_scale 0) 0).countz⟩ : Int3)
      = _
    rw [ex_outside_depths]

/-- The snapped first abscissa of the 2-point rule for the interior factor
`17/8` and the increment `1/8`: `-9/8`. -/
theorem ex_outside_snap :
    snap (2 / ((16 : Int) : ℚ)) (17 / 8 * ex_quad.quadrature_abcissae 0) = -(9 / 8) := by
  unfold snap
  rw [ex_quad_abscissae, if_pos rfl, static_cast_int_eq _ (-9) (Or.inr (by norm_num))]
  norm_num

theorem ex_outside_samples_head :
    (compute_quad_points ex_outside_atom ex_outside_quad 0 (fun _ => ⟨0, 0, 0⟩)).samples[0]?
      = some ⟨-(9 / 8), -(9 / 8), -(9 / 8)⟩ := by
  obtain ⟨e1, e2, e3, e4⟩ := ex_outside_quad_fields
  rw [compute_quad_points_samples ex_outside_atom ex_outside_quad 0 _ rfl, e1, e2, e3, e4,
    phase_samples_head]
  show some (⟨snap (2 / ((16 : Int) : ℚ)) (17 / 8 * ex_quad.quadrature_abcissae 0),
    snap (2 / ((16 : Int) : ℚ)) (17 / 8 * ex_quad.quadrature_abcissae 0),
    snap (2 / ((16 : Int) : ℚ)) (17 / 8 * ex_quad.quadrature_abcissae 0)⟩ : Vec3) = _
  rw [ex_outside_snap]

theorem ex_fine_bounding_box (a : Atom) (h : a.nodal_positions = ex_fine_atom.nodal_positions) :
    node_bounding_box (fun k _ => a.nodal_positions 0 k 0) 1 8 = (⟨0, 0, 0⟩, ⟨4, 4, 4⟩) := by
  rw [h]
  simp only [node_bounding_box, forLoop, ex_fine_atom, ex_fine_node, Vec3.get, Vec3.set]
  norm_num

/-- C35: the cube `[0,4]³`, a local element of scale 16 on each axis, with
`CAC_cut = 0` and `CAC_skin = 5/2`.  In normal mode `compute_surface_depths`
gives it the interior factor `17/8` and the layer count `-9` on every axis.
With these and the 2-point rule the first coordinate at which
`compute_quad_points` interpolates is `(-9/8, -9/8, -9/8)`, outside `[-1,1]³`,
and the row written for it is `(-1/4, -1/4, -1/4)`, outside the bounding box
`[0,4]³` of the nodes. -/
theorem ex_sample_outside_cube :
    (0 < ex_outside_atom.nlocal ∧ ex_outside_atom.element_type 0 ≠ 0 ∧
      1 ≤ (ex_outside_atom.element_scale 0).i0 ∧ 1 ≤ (ex_outside_atom.element_scale 0).i1 ∧
      1 ≤ (ex_outside_atom.element_scale 0).i2) ∧
    compute_surface_depths_dbl Rat.sqrt ex_outside_atom 0 (ex_outside_atom.nodal_positions 0)
      (ex_outside_atom.element_scale 0) 0 = ⟨17 / 8, 17 / 8, 17 / 8, -9, -9, -9⟩ ∧
    ex_outside_quad.interior_scales 0 = ⟨17 / 8, 17 / 8, 17 / 8⟩ ∧
    ex_outside_quad.surface_counts 0 = ⟨-9, -9, -9⟩ ∧
    (compute_quad_points ex_outside_atom ex_outside_quad 0 (fun _ => ⟨0, 0, 0⟩)).samples[0]?
      = some ⟨-(9 / 8), -(9 / 8), -(9 / 8)⟩ ∧
    ¬ in_cube ⟨-(9 / 8), -(9 / 8), -(9 / 8)⟩ ∧
    0 < (compute_quad_points ex_outside_atom ex_outside_quad 0
      (fun _ => ⟨0, 0, 0⟩)).quadrature_counter ∧
    (compute_quad_points ex_outside_atom ex_outside_quad 0
      (fun _ => ⟨0, 0, 0⟩)).current_element_quad_points 0 = ⟨-(1 / 4), -(1 / 4), -(1 / 4)⟩ ∧
    node_bounding_box (fun k _ => ex_outside_atom.nodal_positions 0 k 0) 1 8
      = (⟨0, 0, 0⟩, ⟨4, 4, 4⟩) ∧
    ¬ in_box (⟨0, 0, 0⟩, ⟨4, 4, 4⟩) ⟨-(1 / 4), -(1 / 4), -(1 / 4)⟩ := by
  obtain ⟨e1, e2, -, -⟩ := ex_outside_quad_fields
  obtain ⟨c1, -, -, c4⟩ := compute_quad_points_rows ex_outside_atom ex_outside_quad 0
    (fun _ => ⟨0, 0, 0⟩)
  have hs := ex_outside_samples_head
  refine ⟨⟨by decide, by decide, by decide, by decide, by decide⟩, ex_outside_depths, e1, e2,
    hs, ?_, ?_, ?_, ex_fine_bounding_box ex_outside_atom rfl, ?_⟩
  · unfold in_cube
    norm_num
  · rw [c1]
    by_contra hlen
    have : (compute_quad_points ex_outside_atom ex_outside_quad 0
        (fun _ => ⟨0, 0, 0⟩)).samples = [] := by
      apply List.eq_nil_of_length_eq_zero
      omega
    rw [this] at hs
    cases hs
  · rw [c4 0 _ hs, Nat.zero_div]
    show interpolate (ex_outside_atom.nodal_positions 0) 8 0 (-(9 / 8)) (-(9 / 8)) (-(9 / 8)) = _
    rw [interpolate_eight]
    simp only [ex_outside_atom, ex_fine_atom, ex_fine_node, shape_function]
    norm_num
  · unfold in_box
    norm_num

/-! ## Negative layer counts and the length of `quad2bin` -/

/-- The surface depths of the cube `[0,4]³` of scale 20 with
`CAC_cut - CAC_skin = -1/2`: skin `-1/10`, interior factor `11/10` and layer
count `-1` on every axis. -/
theorem ex_thick_depths_exact :
    compute_surface_depths Rat.sqrt ex_thick_skin_atom 0 (ex_thick_skin_atom.nodal_positions 0)
      (ex_thick_skin_atom.element_scale 0) 0 = ⟨11 / 10, 11 / 10, 11 / 10, -1, -1, -1⟩ := by
  obtain ⟨e0, e1, e2⟩ := ex_fine_spacing ex_thick_skin_atom rfl
  have hu : skin_unclamped (ex_thick_skin_atom.CAC_cut - ex_thick_skin_atom.CAC_skin)
      (2 / ((20 : Int) : ℚ)) 4 = -(1 / 10) := by
    rw [skin_unclamped_eval _ _ _ (-2) (Or.inr (by
      simp only [ex_thick_skin_atom, ex_fine_atom]; norm_num))]
    norm_num
  have hsk : surface_skin Rat.sqrt ex_thick_skin_atom 0 (ex_thick_skin_atom.nodal_positions 0)
      (ex_thick_skin_atom.element_scale 0) 0 = ⟨-(1 / 10), -(1 / 10), -(1 / 10)⟩ := by
    rw [surface_skin_normal, e0, e1, e2, rat_sqrt_sq _ (by norm_num)]
    show (⟨_, _, _⟩ : Vec3) = _
    simp only [show ex_thick_skin_atom.element_scale 0 = ⟨20, 20, 20⟩ from rfl, hu]
    norm_num
  have hc : static_cast_int (-(1 / 10 : ℚ) / (2 / ((20 : Int) : ℚ))) = -1 :=
    static_cast_int_eq _ (-1) (Or.inr (by norm_num))
  simp only [compute_surface_depths, hsk]
  simp only [show ex_thick_skin_atom.element_scale 0 = ⟨20, 20, 20⟩ from rfl, hc]
  norm_num

/-- For that entity `bin_atoms_setup` stores the layer counts `(-1,-1,-1)`. -/
theorem ex_thick_setup_counts :
    (bin_atoms_setup_quad Rat.sqrt ex_thick_skin_atom 0 1 0 ex_quad
      (⟨0, 0, 0⟩ : Int3)).quad.surface_counts 0 = ⟨-1, -1, -1⟩ := by
  rw [(bin_atoms_setup_quad_fields _ _ _ _ _ _ _).1,
    ((surface_counts_loop_spec _ _ _ _ _ _).2.1 0 (by decide) (by decide)).1,
    phase_surface_counts_one _ _ _ _ _ rfl, ex_thick_depths_exact]

theorem ex_thick_overlapRange :
    overlapRange ex_grid ex_thick_skin_atom 0 = ⟨-2, -2, -2, 5, 5, 5⟩ := by
  have hp : ex_thick_skin_atom.poly_count 0 = 1 := rfl
  have hn : ex_thick_skin_atom.nodes_per_element_list (ex_thick_skin_atom.element_type 0) = 8 :=
    rfl
  have hb : node_bounding_box (ex_thick_skin_atom.nodal_positions 0) 1 8
      = (⟨0, 0, 0⟩, ⟨4, 4, 4⟩) := by
    simp only [node_bounding_box, forLoop, ex_thick_skin_atom, ex_fine_atom, ex_fine_node,
      Vec3.get, Vec3.set]
    norm_num
  have hlo : axis_bin 0 10 1 10 (0 - (1 / 4 + 3 / 4)) = -2 := by
    have h1 : ¬ ((0 : ℚ) - (1 / 4 + 3 / 4) ≥ 10) := by norm_num
    have h2 : ¬ ((0 : ℚ) - (1 / 4 + 3 / 4) ≥ 0) := by norm_num
    have h3 : static_cast_int (((0 : ℚ) - (1 / 4 + 3 / 4) - 0) * 1) = -1 :=
      static_cast_int_eq _ _ (Or.inr (by norm_num))
    simp only [axis_bin, h1, h2, if_false, h3]
    rfl
  have hhi : axis_bin 0 10 1 10 (4 + (1 / 4 + 3 / 4)) = 5 :=
    ex_axis_bin_interior _ 5 (by norm_num) (by norm_num) (by norm_num) (by norm_num)
  unfold overlapRange
  rw [hp, hn, hb]
  simp only [ex_grid, ex_thick_skin_atom, ex_fine_atom, hlo, hhi]

theorem ex_thick_home_cell :
    ∀ i, i < ex_thick_skin_atom.nlocal + ex_thick_skin_atom.nghost →
      0 ≤ home_cell ex_grid ex_thick_skin_atom i ∧
      home_cell ex_grid ex_thick_skin_atom i < (ex_grid.mbins : Int) := by
  intro i hi
  have hi1 : i < 1 := hi
  have h0 : i = 0 := by omega
  subst h0
  have ht : ex_thick_skin_atom.element_type 0 ≠ 0 := by decide
  simp only [home_cell, if_neg ht, ex_thick_overlapRange]
  decide

/-- C28: the cube `[0,4]³`, one local element of scale 20 with `CAC_cut = 1/4`
and `CAC_skin = 3/4`, on the grid and the store of the worked configuration,
with no include-group.  `bin_atoms_setup` stores the layer counts `(-1,-1,-1)`
and, with `q = 2`, gives `quad2bin` the length
`8 + 2·4·(-3) + 4·2·3 + 8·(-1) = 0`; `bin_atoms` then writes the 8 entries of the
interior points of that entity. -/
theorem ex_quad2bin_exceeds_length :
    ex_thick_skin_atom.nlocal = 1 ∧ ex_thick_skin_atom.element_type 0 ≠ 0 ∧
    ex_thick_skin_atom.poly_count 0 = 1 ∧
    (bin_atoms_setup_quad Rat.sqrt ex_thick_skin_atom 0 1 0 ex_quad
      (⟨0, 0, 0⟩ : Int3)).quad.surface_counts 0 = ⟨-1, -1, -1⟩ ∧
    (bin_atoms_setup_quad Rat.sqrt ex_thick_skin_atom 0 1 0 ex_quad
      (⟨0, 0, 0⟩ : Int3)).quad.quadrature_node_count = 2 ∧
    (1 : Int) * ((2 : Int) ^ 3 + 2 * (2 : Int) ^ 2 * (-1 + -1 + -1)
      + 4 * 2 * (-1 * -1 + -1 * -1 + -1 * -1) + 8 * -1 * -1 * -1) = 0 ∧
    (bin_atoms_setup_quad Rat.sqrt ex_thick_skin_atom 0 1 0 ex_quad
      (⟨0, 0, 0⟩ : Int3)).quadrature_point_count = 0 ∧
    ∃ s', bin_atoms (fun _ => 0) ex_grid ex_thick_skin_atom
        (bin_atoms_setup_quad Rat.sqrt ex_thick_skin_atom 0 1 0 ex_quad (⟨0, 0, 0⟩ : Int3)).quad
        0 0 ex_state = some s' ∧
      s'.quad2bin.length = 8 := by
  have hq : (bin_atoms_setup_quad Rat.sqrt ex_thick_skin_atom 0 1 0 ex_quad
      (⟨0, 0, 0⟩ : Int3)).quad.quadrature_node_count = 2 :=
    (bin_atoms_setup_quad_fields _ _ _ _ _ _ _).2.2.2.2.2 rfl
  have hcount : (bin_atoms_setup_quad Rat.sqrt ex_thick_skin_atom 0 1 0 ex_quad
      (⟨0, 0, 0⟩ : Int3)).quadrature_point_count = 0 := by
    have e : (bin_atoms_setup_quad Rat.sqrt ex_thick_skin_atom 0 1 0 ex_quad
        (⟨0, 0, 0⟩ : Int3)).quadrature_point_count
        = 0 + (((bin_atoms_setup_quad Rat.sqrt ex_thick_skin_atom 0 1 0 ex_quad
        (⟨0, 0, 0⟩ : Int3)).quad.quadrature_node_count : Int) * ((bin_atoms_setup_quad Rat.sqrt ex_thick_skin_atom 0 1 0 ex_quad
        (⟨0, 0, 0⟩ : Int3)).quad.quadrature_node_count : Int) * ((bin_atoms_setup_quad Rat.sqrt ex_thick_skin_atom 0 1 0 ex_quad
        (⟨0, 0, 0⟩ : Int3)).quad.quadrature_node_count : Int)
      + 2 * ((bin_atoms_setup_quad Rat.sqrt ex_thick_skin_atom 0 1 0 ex_quad
        (⟨0, 0, 0⟩ : Int3)).quad.surface_counts 0).i0 * ((bin_atoms_setup_quad Rat.sqrt ex_thick_skin_atom 0 1 0 ex_quad
        (⟨0, 0, 0⟩ : Int3)).quad.quadrature_node_count : Int) * ((bin_atoms_setup_quad Rat.sqrt ex_thick_skin_atom 0 1 0 ex_quad
        (⟨0, 0, 0⟩ : Int3)).quad.quadrature_node_count : Int)
      + 2 * ((bin_atoms_setup_quad Rat.sqrt ex_thick_skin_atom 0 1 0 ex_quad
        (⟨0, 0, 0⟩ : Int3)).quad.surface_counts 0).i1 * ((bin_atoms_setup_quad Rat.sqrt ex_thick_skin_atom 0 1 0 ex_quad
        (⟨0, 0, 0⟩ : Int3)).quad.quadrature_node_count : Int) * ((bin_atoms_setup_quad Rat.sqrt ex_thick_skin_atom 0 1 0 ex_quad
        (⟨0, 0, 0⟩ : Int3)).quad.quadrature_node_count : Int)
      + 2 * ((bin_atoms_setup_quad Rat.sqrt ex_thick_skin_atom 0 1 0 ex_quad
        (⟨0, 0, 0⟩ : Int3)).quad.surface_counts 0).i2 * ((bin_atoms_setup_quad Rat.sqrt ex_thick_skin_atom 0 1 0 ex_quad
        (⟨0, 0, 0⟩ : Int3)).quad.quadrature_node_count : Int) * ((bin_atoms_setup_quad Rat.sqrt ex_thick_skin_atom 0 1 0 ex_quad
        (⟨0, 0, 0⟩ : Int3)).quad.quadrature_node_count : Int)
      + 4 * ((bin_atoms_setup_quad Rat.sqrt ex_thick_skin_atom 0 1 0 ex_quad
        (⟨0, 0, 0⟩ : Int3)).quad.surface_counts 0).i0 * ((bin_atoms_setup_quad Rat.sqrt ex_thick_skin_atom 0 1 0 ex_quad
        (⟨0, 0, 0⟩ : Int3)).quad.surface_counts 0).i1 * ((bin_atoms_setup_quad Rat.sqrt ex_thick_skin_atom 0 1 0 ex_quad
        (⟨0, 0, 0⟩ : Int3)).quad.quadrature_node_count : Int)
      + 4 * ((bin_atoms_setup_quad Rat.sqrt ex_thick_skin_atom 0 1 0 ex_quad
        (⟨0, 0, 0⟩ : Int3)).quad.surface_counts 0).i2 * ((bin_atoms_setup_quad Rat.sqrt ex_thick_skin_atom 0 1 0 ex_quad
        (⟨0, 0, 0⟩ : Int3)).quad.surface_counts 0).i1 * ((bin_atoms_setup_quad Rat.sqrt ex_thick_skin_atom 0 1 0 ex_quad
        (⟨0, 0, 0⟩ : Int3)).quad.quadrature_node_count : Int)
      + 4 * ((bin_atoms_setup_quad Rat.sqrt ex_thick_skin_atom 0 1 0 ex_quad
        (⟨0, 0, 0⟩ : Int3)).quad.surface_counts 0).i0 * ((bin_atoms_setup_quad Rat.sqrt ex_thick_skin_atom 0 1 0 ex_quad
        (⟨0, 0, 0⟩ : Int3)).quad.surface_counts 0).i2 * ((bin_atoms_setup_quad Rat.sqrt ex_thick_skin_atom 0 1 0 ex_quad
        (⟨0, 0, 0⟩ : Int3)).quad.quadrature_node_count : Int)
      + 8 * ((bin_atoms_setup_quad Rat.sqrt ex_thick_skin_atom 0 1 0 ex_quad
        (⟨0, 0, 0⟩ : Int3)).quad.surface_counts 0).i0 * ((bin_atoms_setup_quad Rat.sqrt ex_thick_skin_atom 0 1 0 ex_quad
        (⟨0, 0, 0⟩ : Int3)).quad.surface_counts 0).i1 * ((bin_atoms_setup_quad Rat.sqrt ex_thick_skin_atom 0 1 0 ex_quad
        (⟨0, 0, 0⟩ : Int3)).quad.surface_counts 0).i2)
      * (ex_thick_skin_atom.poly_count 0 : Int) := rfl
    rw [e, hq, ex_thick_setup_counts]
    rfl
  refine ⟨rfl, by decide, rfl, ex_thick_setup_counts, hq, by decide, hcount, ?_⟩
  have hord : bin_order ex_thick_skin_atom 0 0
      = List.range (ex_thick_skin_atom.nlocal + ex_thick_skin_atom.nghost) := by
    simp [bin_order]
  obtain ⟨s', hs, -⟩ := bin_atoms_spec (fun _ => 0) ex_grid ex_thick_skin_atom
    (bin_atoms_setup_quad Rat.sqrt ex_thick_skin_atom 0 1 0 ex_quad (⟨0, 0, 0⟩ : Int3)).quad
    0 0 ex_state ex_store_ok.1 ex_store_ok.2
    (by rw [hord]; intro i hi; exact ex_thick_home_cell i (List.mem_range.mp hi))
  obtain ⟨L, hL, hprop⟩ := bin_atoms_quad2bin (fun _ => 0) ex_grid ex_thick_skin_atom _ 0
    ex_state s' hs
  refine ⟨s', hs, ?_⟩
  have h0 := (hprop 0 (by decide)).2 (by decide)
  rw [compute_quad_points_counter, hq, ex_thick_setup_counts] at h0
  rw [hL]
  show (L 0 ++ []).length = 8
  rw [List.append_nil, h0]
  rfl

/-! ## The theorems on the worked configurations -/

theorem data_atom_scale_unchecked_witness :
    (ex_zero_scale_line.element_type_read = "Eight_Node") ∧
    (data_atom 1 8 1 (fun t => if t = 0 then 1 else 8) ex_zero_scale_line ex_slot = Except.ok ex_zero_scale_slot) ∧
    (ex_zero_scale_slot.element_type = 1 ∧
    ex_zero_scale_slot.element_scale = ⟨ex_zero_scale_line.ints 3, ex_zero_scale_line.ints 4, ex_zero_scale_line.ints 5⟩ ∧
    data_atom 1 8 1 (fun t => if t = 0 then 1 else 8) (with_scale ex_zero_scale_line (⟨0, 0, 0⟩ : Int3)) ex_slot
      = Except.ok { ex_zero_scale_slot with element_scale := (⟨0, 0, 0⟩ : Int3) } ∧
    ∀ (sqrt : ℚ → ℚ) (a : Atom) (one_layer_flag maxpoly' quad_rule_initialized : Nat) (q : Quad)
      (scm : Int3) (i : Nat), i < a.nlocal → a.element_type i ≠ 0 → a.poly_count i = 1 →
      (bin_atoms_setup_quad sqrt a one_layer_flag maxpoly' quad_rule_initialized q
          scm).quad.surface_counts i
        = ⟨(compute_surface_depths sqrt a one_layer_flag (a.nodal_positions i)
              (a.element_scale i) 0).countx,
           (compute_surface_depths sqrt a one_layer_flag (a.nodal_positions i)
              (a.element_scale i) 0).county,
           (compute_surface_depths sqrt a one_layer_flag (a.nodal_positions i)
              (a.element_scale i) 0).countz⟩ ∧
      (bin_atoms_setup_quad sqrt a one_layer_flag maxpoly' quad_rule_initialized q
          scm).quad.interior_scales i
        = ⟨(compute_surface_depths sqrt a one_layer_flag (a.nodal_positions i)
              (a.element_scale i) 0).scalex,
           (compute_surface_depths sqrt a one_layer_flag (a.nodal_positions i)
              (a.element_scale i) 0).scaley,
           (compute_surface_depths sqrt a one_layer_flag (a.nodal_positions i)
              (a.element_scale i) 0).scalez⟩) :=
  ⟨rfl,
    ex_zero_scale_slot_ok,
    data_atom_scale_unchecked 1 8 1 (fun t => if t = 0 then 1 else 8) ex_zero_scale_line ex_slot
      ex_zero_scale_slot (⟨0, 0, 0⟩ : Int3) rfl ex_zero_scale_slot_ok⟩

theorem bin_atoms_extended_range_witness :
    (ex_grid.mbins ≤ ex_state.store.maxbin) ∧
    (ex_state.store.CapInv) ∧
    (∀ i, i < ex_atom.nlocal + ex_atom.nghost → 0 ≤ home_cell ex_grid ex_atom i ∧ home_cell ex_grid ex_atom i < (ex_grid.mbins : Int)) ∧
    ((∀ i, ex_atom.element_type i ≠ 0 → ∀ (group : Bool) (t : BinState),
      (bin_entity (fun _ => 0) ex_grid ex_atom ex_quad group i t).map (fun t' => t'.store)
        = insert_all (fun _ => 0)
            ((range_cells ex_grid (element2bins ex_grid ex_atom i t.bin_overlap_limits).2).map (fun b => (b, i)))
            t.store ∧
      (∀ t', bin_entity (fun _ => 0) ex_grid ex_atom ex_quad group i t = some t' →
        t'.bin_overlap_limits = (element2bins ex_grid ex_atom i t.bin_overlap_limits).2) ∧
      range_cells ex_grid (element2bins ex_grid ex_atom i t.bin_overlap_limits).2
        = [flat_bin ex_grid (element2bins ex_grid ex_atom i t.bin_overlap_limits).2.l0
            (element2bins ex_grid ex_atom i t.bin_overlap_limits).2.l1
            (element2bins ex_grid ex_atom i t.bin_overlap_limits).2.l2]) ∧
    (∀ j, ex_atom.element_type j = 0 → ∀ (group : Bool) (t : BinState) (lim : Limits),
      (bin_entity (fun _ => 0) ex_grid ex_atom ex_quad group j { t with bin_overlap_limits := lim }).map
          (fun t' => t'.store)
        = insert_member (fun _ => 0) t.store (quad2bins ex_grid (ex_atom.x j)) j ∧
      ∀ t', bin_entity (fun _ => 0) ex_grid ex_atom ex_quad group j { t with bin_overlap_limits := lim } = some t' →
        t'.bin_overlap_limits = lim) ∧
    ∃ s', bin_atoms (fun _ => 0) ex_grid ex_atom ex_quad 0 0 ex_state = some s' ∧
      (∀ i, i < ex_atom.nlocal + ex_atom.nghost → ex_atom.element_type i ≠ 0 →
        ∀ (lim : Limits) (b : Nat), b < ex_grid.mbins →
          (s'.store.members b).count i
            = (range_cells ex_grid (element2bins ex_grid ex_atom i lim).2).count (b : Int)) ∧
      (∀ j, j < ex_atom.nlocal + ex_atom.nghost → ex_atom.element_type j = 0 →
        ∀ b, b < ex_grid.mbins →
          (s'.store.members b).count j = if (b : Int) = quad2bins ex_grid (ex_atom.x j) then 1 else 0)) :=
  ⟨ex_store_ok.1,
    ex_store_ok.2,
    ex_home_cells_in_grid,
    bin_atoms_extended_range (fun _ => 0) ex_grid ex_atom ex_quad 0 ex_state ex_store_ok.1
      ex_store_ok.2 ex_home_cells_in_grid⟩

theorem bin_atoms_setup_surface_counts_witness :
    (0 < ex_atom.nlocal) ∧
    (ex_atom.element_type 0 ≠ 0) ∧
    (1 ≤ ex_atom.poly_count 0) ∧
    ((∃ p, p < ex_atom.poly_count 0 ∧
      ((bin_atoms_setup_quad Rat.sqrt ex_atom 0 1 0 ex_quad (⟨0, 0, 0⟩ : Int3)).quad.surface_counts 0).i0
        = (compute_surface_depths Rat.sqrt ex_atom 0 (ex_atom.nodal_positions 0)
            (ex_atom.element_scale 0) p).countx ∧
      ((bin_atoms_setup_quad Rat.sqrt ex_atom 0 1 0 ex_quad (⟨0, 0, 0⟩ : Int3)).quad.interior_scales 0).c0
        = (compute_surface_depths Rat.sqrt ex_atom 0 (ex_atom.nodal_positions 0)
            (ex_atom.element_scale 0) p).scalex ∧
      (∀ p', p' < ex_atom.poly_count 0 →
        (compute_surface_depths Rat.sqrt ex_atom 0 (ex_atom.nodal_positions 0)
            (ex_atom.element_scale 0) p').countx
          ≤ (compute_surface_depths Rat.sqrt ex_atom 0 (ex_atom.nodal_positions 0)
            (ex_atom.element_scale 0) p).countx) ∧
      ∀ p', p' < p →
        (compute_surface_depths Rat.sqrt ex_atom 0 (ex_atom.nodal_positions 0)
            (ex_atom.element_scale 0) p').countx
          < (compute_surface_depths Rat.sqrt ex_atom 0 (ex_atom.nodal_positions 0)
            (ex_atom.element_scale 0) p).countx) ∧
    (∃ p, p < ex_atom.poly_count 0 ∧
      ((bin_atoms_setup_quad Rat.sqrt ex_atom 0 1 0 ex_quad (⟨0, 0, 0⟩ : Int3)).quad.surface_counts 0).i1
        = (compute_surface_depths Rat.sqrt ex_atom 0 (ex_atom.nodal_positions 0)
            (ex_atom.element_scale 0) p).county ∧
      ((bin_atoms_setup_quad Rat.sqrt ex_atom 0 1 0 ex_quad (⟨0, 0, 0⟩ : Int3)).quad.interior_scales 0).c1
        = (compute_surface_depths Rat.sqrt ex_atom 0 (ex_atom.nodal_positions 0)
            (ex_atom.element_scale 0) p).scaley ∧
      (∀ p', p' < ex_atom.poly_count 0 →
        (compute_surface_depths Rat.sqrt ex_atom 0 (ex_atom.nodal_positions 0)
            (ex_atom.element_scale 0) p').county
          ≤ (compute_surface_depths Rat.sqrt ex_atom 0 (ex_atom.nodal_positions 0)
            (ex_atom.element_scale 0) p).county) ∧
      ∀ p', p' < p →
        (compute_surface_depths Rat.sqrt ex_atom 0 (ex_atom.nodal_positions 0)
            (ex_atom.element_scale 0) p').county
          < (compute_surface_depths Rat.sqrt ex_atom 0 (ex_atom.nodal_positions 0)
            (ex_atom.element_scale 0) p).county) ∧
    (∃ p, p < ex_atom.poly_count 0 ∧
      ((bin_atoms_setup_quad Rat.sqrt ex_atom 0 1 0 ex_quad (⟨0, 0, 0⟩ : Int3)).quad.surface_counts 0).i2
        = (compute_surface_depths Rat.sqrt ex_atom 0 (ex_atom.nodal_positions 0)
            (ex_atom.element_scale 0) p).countz ∧
      ((bin_atoms_setup_quad Rat.sqrt ex_atom 0 1 0 ex_quad (⟨0, 0, 0⟩ : Int3)).quad.interior_scales 0).c2
        = (compute_surface_depths Rat.sqrt ex_atom 0 (ex_atom.nodal_positions 0)
            (ex_atom.element_scale 0) p).scalez ∧
      (∀ p', p' < ex_atom.poly_count 0 →
        (compute_surface_depths Rat.sqrt ex_atom 0 (ex_atom.nodal_positions 0)
            (ex_atom.element_scale 0) p').countz
          ≤ (compute_surface_depths Rat.sqrt ex_atom 0 (ex_atom.nodal_positions 0)
            (ex_atom.element_scale 0) p).countz) ∧
      ∀ p', p' < p →
        (compute_surface_depths Rat.sqrt ex_atom 0 (ex_atom.nodal_positions 0)
            (ex_atom.element_scale 0) p').countz
          < (compute_surface_depths Rat.sqrt ex_atom 0 (ex_atom.nodal_positions 0)
            (ex_atom.element_scale 0) p).countz) ∧
    ((bin_atoms_setup_quad Rat.sqrt ex_atom 0 1 0 ex_quad (⟨0, 0, 0⟩ : Int3)).quad.surface_counts 0).i0
      ≤ (bin_atoms_setup_quad Rat.sqrt ex_atom 0 1 0 ex_quad (⟨0, 0, 0⟩ : Int3)).surface_counts_max.i0 ∧
    ((bin_atoms_setup_quad Rat.sqrt ex_atom 0 1 0 ex_quad (⟨0, 0, 0⟩ : Int3)).quad.surface_counts 0).i1
      ≤ (bin_atoms_setup_quad Rat.sqrt ex_atom 0 1 0 ex_quad (⟨0, 0, 0⟩ : Int3)).surface_counts_max.i1 ∧
    ((bin_atoms_setup_quad Rat.sqrt ex_atom 0 1 0 ex_quad (⟨0, 0, 0⟩ : Int3)).quad.surface_counts 0).i2
      ≤ (bin_atoms_setup_quad Rat.sqrt ex_atom 0 1 0 ex_quad (⟨0, 0, 0⟩ : Int3)).surface_counts_max.i2) :=
  ⟨(by decide),
    (by decide),
    (by decide),
    bin_atoms_setup_surface_counts Rat.sqrt ex_atom 0 1 0 ex_quad (⟨0, 0, 0⟩ : Int3) 0 (by decide)
      (by decide) (by decide)⟩

theorem unpack_pack_exchange_witness :
    (∀ n : Int, static_cast_int ((fun n : Int => (n : ℚ)) n) = n) ∧
    ((unpack_exchange static_cast_int (fun t => if t = 0 then 1 else 8)
        (pack_exchange (fun n : Int => (n : ℚ)) (fun t => if t = 0 then 1 else 8) ex_atom_vec 0 (fun _ => 0)).2 ex_atom_vec_empty).1
      = (pack_exchange (fun n : Int => (n : ℚ)) (fun t => if t = 0 then 1 else 8) ex_atom_vec 0 (fun _ => 0)).1 ∧
    (pack_exchange (fun n : Int => (n : ℚ)) (fun t => if t = 0 then 1 else 8) ex_atom_vec 0 (fun _ => 0)).1
      = 16 + ex_atom_vec.poly_count 0 + 12 * (fun t => if t = 0 then 1 else 8) (ex_atom_vec.element_type 0) * ex_atom_vec.poly_count 0 ∧
    (pack_exchange (fun n : Int => (n : ℚ)) (fun t => if t = 0 then 1 else 8) ex_atom_vec 0 (fun _ => 0)).2 0
      = (((pack_exchange (fun n : Int => (n : ℚ)) (fun t => if t = 0 then 1 else 8) ex_atom_vec 0 (fun _ => 0)).1 : Nat) : ℚ) ∧
    (unpack_exchange static_cast_int (fun t => if t = 0 then 1 else 8)
        (pack_exchange (fun n : Int => (n : ℚ)) (fun t => if t = 0 then 1 else 8) ex_atom_vec 0 (fun _ => 0)).2 ex_atom_vec_empty).2.nlocal = ex_atom_vec_empty.nlocal + 1 ∧
    (unpack_exchange static_cast_int (fun t => if t = 0 then 1 else 8)
        (pack_exchange (fun n : Int => (n : ℚ)) (fun t => if t = 0 then 1 else 8) ex_atom_vec 0 (fun _ => 0)).2 ex_atom_vec_empty).2.x ex_atom_vec_empty.nlocal = ex_atom_vec.x 0 ∧
    (unpack_exchange static_cast_int (fun t => if t = 0 then 1 else 8)
        (pack_exchange (fun n : Int => (n : ℚ)) (fun t => if t = 0 then 1 else 8) ex_atom_vec 0 (fun _ => 0)).2 ex_atom_vec_empty).2.v ex_atom_vec_empty.nlocal = ex_atom_vec.v 0 ∧
    (unpack_exchange static_cast_int (fun t => if t = 0 then 1 else 8)
        (pack_exchange (fun n : Int => (n : ℚ)) (fun t => if t = 0 then 1 else 8) ex_atom_vec 0 (fun _ => 0)).2 ex_atom_vec_empty).2.tag ex_atom_vec_empty.nlocal = ex_atom_vec.tag 0 ∧
    (unpack_exchange static_cast_int (fun t => if t = 0 then 1 else 8)
        (pack_exchange (fun n : Int => (n : ℚ)) (fun t => if t = 0 then 1 else 8) ex_atom_vec 0 (fun _ => 0)).2 ex_atom_vec_empty).2.type ex_atom_vec_empty.nlocal
      = ex_atom_vec.type 0 ∧
    (unpack_exchange static_cast_int (fun t => if t = 0 then 1 else 8)
        (pack_exchange (fun n : Int => (n : ℚ)) (fun t => if t = 0 then 1 else 8) ex_atom_vec 0 (fun _ => 0)).2 ex_atom_vec_empty).2.mask ex_atom_vec_empty.nlocal
      = ex_atom_vec.mask 0 ∧
    (unpack_exchange static_cast_int (fun t => if t = 0 then 1 else 8)
        (pack_exchange (fun n : Int => (n : ℚ)) (fun t => if t = 0 then 1 else 8) ex_atom_vec 0 (fun _ => 0)).2 ex_atom_vec_empty).2.image ex_atom_vec_empty.nlocal
      = ex_atom_vec.image 0 ∧
    (unpack_exchange static_cast_int (fun t => if t = 0 then 1 else 8)
        (pack_exchange (fun n : Int => (n : ℚ)) (fun t => if t = 0 then 1 else 8) ex_atom_vec 0 (fun _ => 0)).2 ex_atom_vec_empty).2.element_type ex_atom_vec_empty.nlocal
      = ex_atom_vec.element_type 0 ∧
    (unpack_exchange static_cast_int (fun t => if t = 0 then 1 else 8)
        (pack_exchange (fun n : Int => (n : ℚ)) (fun t => if t = 0 then 1 else 8) ex_atom_vec 0 (fun _ => 0)).2 ex_atom_vec_empty).2.element_scale ex_atom_vec_empty.nlocal
      = ex_atom_vec.element_scale 0 ∧
    (unpack_exchange static_cast_int (fun t => if t = 0 then 1 else 8)
        (pack_exchange (fun n : Int => (n : ℚ)) (fun t => if t = 0 then 1 else 8) ex_atom_vec 0 (fun _ => 0)).2 ex_atom_vec_empty).2.poly_count ex_atom_vec_empty.nlocal
      = ex_atom_vec.poly_count 0 ∧
    (∀ t, t < ex_atom_vec.poly_count 0 →
      (unpack_exchange static_cast_int (fun t => if t = 0 then 1 else 8)
          (pack_exchange (fun n : Int => (n : ℚ)) (fun t => if t = 0 then 1 else 8) ex_atom_vec 0 (fun _ => 0)).2 ex_atom_vec_empty).2.node_types ex_atom_vec_empty.nlocal t
        = ex_atom_vec.node_types 0 t) ∧
    ∀ k, k < (fun t => if t = 0 then 1 else 8) (ex_atom_vec.element_type 0) → ∀ p, p < ex_atom_vec.poly_count 0 →
      (unpack_exchange static_cast_int (fun t => if t = 0 then 1 else 8)
          (pack_exchange (fun n : Int => (n : ℚ)) (fun t => if t = 0 then 1 else 8) ex_atom_vec 0 (fun _ => 0)).2 ex_atom_vec_empty).2.nodal_positions
          ex_atom_vec_empty.nlocal k p = ex_atom_vec.nodal_positions 0 k p ∧
      (unpack_exchange static_cast_int (fun t => if t = 0 then 1 else 8)
          (pack_exchange (fun n : Int => (n : ℚ)) (fun t => if t = 0 then 1 else 8) ex_atom_vec 0 (fun _ => 0)).2 ex_atom_vec_empty).2.initial_nodal_positions
          ex_atom_vec_empty.nlocal k p = ex_atom_vec.initial_nodal_positions 0 k p ∧
      (unpack_exchange static_cast_int (fun t => if t = 0 then 1 else 8)
          (pack_exchange (fun n : Int => (n : ℚ)) (fun t => if t = 0 then 1 else 8) ex_atom_vec 0 (fun _ => 0)).2 ex_atom_vec_empty).2.nodal_gradients
          ex_atom_vec_empty.nlocal k p = ex_atom_vec.nodal_gradients 0 k p ∧
      (unpack_exchange static_cast_int (fun t => if t = 0 then 1 else 8)
          (pack_exchange (fun n : Int => (n : ℚ)) (fun t => if t = 0 then 1 else 8) ex_atom_vec 0 (fun _ => 0)).2 ex_atom_vec_empty).2.nodal_velocities
          ex_atom_vec_empty.nlocal k p = ex_atom_vec.nodal_velocities 0 k p) :=
  ⟨static_cast_int_intCast,
    unpack_pack_exchange (fun n : Int => (n : ℚ)) static_cast_int
      (fun t => if t = 0 then 1 else 8) ex_atom_vec 0 (fun _ => 0) ex_atom_vec_empty
      static_cast_int_intCast⟩

theorem bin_atoms_quad2bin_count_witness :
    (ex_grid.mbins ≤ ex_state.store.maxbin) ∧
    (ex_state.store.CapInv) ∧
    (∀ i, i < ex_atom.nlocal + ex_atom.nghost → 0 ≤ home_cell ex_grid ex_atom i ∧ home_cell ex_grid ex_atom i < (ex_grid.mbins : Int)) ∧
    (∀ i, i < ex_atom.nlocal → ex_atom.element_type i ≠ 0 →
      0 ≤ ((bin_atoms_setup_quad Rat.sqrt ex_atom 0 1 0 ex_quad (⟨0, 0, 0⟩ : Int3)).quad.surface_counts i).i0 ∧
      0 ≤ ((bin_atoms_setup_quad Rat.sqrt ex_atom 0 1 0 ex_quad (⟨0, 0, 0⟩ : Int3)).quad.surface_counts i).i1 ∧
      0 ≤ ((bin_atoms_setup_quad Rat.sqrt ex_atom 0 1 0 ex_quad (⟨0, 0, 0⟩ : Int3)).quad.surface_counts i).i2) ∧
    (∃ (s' : BinState) (L : Nat → List Int),
      bin_atoms (fun _ => 0) ex_grid ex_atom (bin_atoms_setup_quad Rat.sqrt ex_atom 0 1 0 ex_quad (⟨0, 0, 0⟩ : Int3)).quad
        0 0 ex_state = some s' ∧
      s'.quad2bin = (List.range ex_atom.nlocal).flatMap L ∧
      (∀ i, i < ex_atom.nlocal →
        (ex_atom.element_type i = 0 → L i = [quad2bins ex_grid (ex_atom.x i)]) ∧
        (ex_atom.element_type i ≠ 0 → (L i).length
          = (compute_quad_points ex_atom (bin_atoms_setup_quad Rat.sqrt ex_atom 0 1 0 ex_quad (⟨0, 0, 0⟩ : Int3)).quad i
              (fun _ => ⟨0, 0, 0⟩)).quadrature_counter)) ∧
      ((∀ i, i < ex_atom.nlocal → ex_atom.element_type i ≠ 0 →
          0 ≤ ((bin_atoms_setup_quad Rat.sqrt ex_atom 0 1 0 ex_quad (⟨0, 0, 0⟩ : Int3)).quad.surface_counts i).i0 ∧
          0 ≤ ((bin_atoms_setup_quad Rat.sqrt ex_atom 0 1 0 ex_quad (⟨0, 0, 0⟩ : Int3)).quad.surface_counts i).i1 ∧
          0 ≤ ((bin_atoms_setup_quad Rat.sqrt ex_atom 0 1 0 ex_quad (⟨0, 0, 0⟩ : Int3)).quad.surface_counts i).i2) →
        (∀ i, i < ex_atom.nlocal → ex_atom.element_type i ≠ 0 → ((L i).length : Int)
          = (ex_atom.poly_count i : Int) *
            (((bin_atoms_setup_quad Rat.sqrt ex_atom 0 1 0 ex_quad (⟨0, 0, 0⟩ : Int3)).quad.quadrature_node_count : Int) ^ 3
              + 2 * ((bin_atoms_setup_quad Rat.sqrt ex_atom 0 1 0 ex_quad (⟨0, 0, 0⟩ : Int3)).quad.quadrature_node_count : Int) ^ 2 *
                (((bin_atoms_setup_quad Rat.sqrt ex_atom 0 1 0 ex_quad (⟨0, 0, 0⟩ : Int3)).quad.surface_counts i).i0
                  + ((bin_atoms_setup_quad Rat.sqrt ex_atom 0 1 0 ex_quad (⟨0, 0, 0⟩ : Int3)).quad.surface_counts i).i1
                  + ((bin_atoms_setup_quad Rat.sqrt ex_atom 0 1 0 ex_quad (⟨0, 0, 0⟩ : Int3)).quad.surface_counts i).i2)
              + 4 * ((bin_atoms_setup_quad Rat.sqrt ex_atom 0 1 0 ex_quad (⟨0, 0, 0⟩ : Int3)).quad.quadrature_node_count : Int) *
                (((bin_atoms_setup_quad Rat.sqrt ex_atom 0 1 0 ex_quad (⟨0, 0, 0⟩ : Int3)).quad.surface_counts i).i0
                    * ((bin_atoms_setup_quad Rat.sqrt ex_atom 0 1 0 ex_quad (⟨0, 0, 0⟩ : Int3)).quad.surface_counts i).i1
                  + ((bin_atoms_setup_quad Rat.sqrt ex_atom 0 1 0 ex_quad (⟨0, 0, 0⟩ : Int3)).quad.surface_counts i).i1
                    * ((bin_atoms_setup_quad Rat.sqrt ex_atom 0 1 0 ex_quad (⟨0, 0, 0⟩ : Int3)).quad.surface_counts i).i2
                  + ((bin_atoms_setup_quad Rat.sqrt ex_atom 0 1 0 ex_quad (⟨0, 0, 0⟩ : Int3)).quad.surface_counts i).i0
                    * ((bin_atoms_setup_quad Rat.sqrt ex_atom 0 1 0 ex_quad (⟨0, 0, 0⟩ : Int3)).quad.surface_counts i).i2)
              + 8 * ((bin_atoms_setup_quad Rat.sqrt ex_atom 0 1 0 ex_quad (⟨0, 0, 0⟩ : Int3)).quad.surface_counts i).i0
                * ((bin_atoms_setup_quad Rat.sqrt ex_atom 0 1 0 ex_quad (⟨0, 0, 0⟩ : Int3)).quad.surface_counts i).i1
                * ((bin_atoms_setup_quad Rat.sqrt ex_atom 0 1 0 ex_quad (⟨0, 0, 0⟩ : Int3)).quad.surface_counts i).i2)) ∧
        (s'.quad2bin.length : Int)
          = (bin_atoms_setup_quad Rat.sqrt ex_atom 0 1 0 ex_quad (⟨0, 0, 0⟩ : Int3)).quadrature_point_count)) :=
  ⟨ex_store_ok.1,
    ex_store_ok.2,
    ex_home_cells_in_grid,
    (ex_setup_counts_nonneg 1 0 ex_quad ⟨0, 0, 0⟩),
    bin_atoms_quad2bin_count Rat.sqrt (fun _ => 0) ex_grid ex_atom 0 1 0 ex_quad
      (⟨0, 0, 0⟩ : Int3) 0 ex_state ex_store_ok.1 ex_store_ok.2 ex_home_cells_in_grid⟩

theorem ex_axis_fits_outside :
    axis_fits 0 10 1 10 12 ∧ axis_fits 0 10 1 10 (-3) := by
  have e1 : scaled_offset 10 1 12 = 2 := by
    unfold scaled_offset
    rw [show (12 : ℚ) - 10 = 2 by norm_num, round_dbl_exact_of 2 2 0 (by norm_num) (by norm_num),
      mul_one, round_dbl_exact_of 2 2 0 (by norm_num) (by norm_num)]
  have e2 : scaled_offset 0 1 (-3) = -3 := by
    unfold scaled_offset
    rw [sub_zero, round_dbl_exact_of (-3) (-3) 0 (by norm_num) (by norm_num),
      mul_one, round_dbl_exact_of (-3) (-3) 0 (by norm_num) (by norm_num)]
  constructor
  · unfold axis_fits
    rw [if_pos (by norm_num), e1]
    norm_num
  · unfold axis_fits
    rw [if_neg (by norm_num), if_neg (by norm_num), e2]
    norm_num

theorem axis_bin_dbl_ranges_witness :
    (1 ≤ (10 : Int)) ∧
    ((10 : Int) ≤ INT_MAX) ∧
    ((0 : ℚ) ≤ (10 : ℚ)) ∧
    (0 ≤ (1 : ℚ)) ∧
    (axis_fits 0 10 1 10 (1 / 2) ∧ 0 ≤ axis_bin_dbl 0 10 1 10 (1 / 2) ∧
      axis_bin_dbl 0 10 1 10 (1 / 2) ≤ 10 - 1) ∧
    (axis_fits 0 10 1 10 12 ∧
      axis_bin_dbl 0 10 1 10 12
        = static_cast_int (round_dbl (round_dbl (12 - (10 : ℚ)) * (1 : ℚ))) + 10 ∧
      10 ≤ axis_bin_dbl 0 10 1 10 12) ∧
    (axis_fits 0 10 1 10 (-3) ∧
      axis_bin_dbl 0 10 1 10 (-3)
        = static_cast_int (round_dbl (round_dbl (-3 - (0 : ℚ)) * (1 : ℚ))) - 1 ∧
      axis_bin_dbl 0 10 1 10 (-3) ≤ -1) :=
  ⟨(by decide),
    (by decide),
    (by norm_num),
    (by norm_num),
    ⟨ex_axis_fits (1 / 2) (by norm_num) (by norm_num),
      (axis_bin_dbl_ranges (0 : ℚ) (10 : ℚ) (1 : ℚ) (10 : Int) (by decide) (by decide)
        (by norm_num) (by norm_num)).1 (1 / 2) (ex_axis_fits (1 / 2) (by norm_num) (by norm_num))
        (by norm_num) (by norm_num)⟩,
    ⟨ex_axis_fits_outside.1,
      (axis_bin_dbl_ranges (0 : ℚ) (10 : ℚ) (1 : ℚ) (10 : Int) (by decide) (by decide)
        (by norm_num) (by norm_num)).2.1 12 ex_axis_fits_outside.1 (by norm_num)⟩,
    ⟨ex_axis_fits_outside.2,
      (axis_bin_dbl_ranges (0 : ℚ) (10 : ℚ) (1 : ℚ) (10 : Int) (by decide) (by decide)
        (by norm_num) (by norm_num)).2.2 (-3) ex_axis_fits_outside.2 (by norm_num)⟩⟩

theorem axis_bin_dbl_monotone_witness :
    (1 ≤ ex_grid.nbinx ∧ ex_grid.nbinx ≤ INT_MAX) ∧
    (1 ≤ ex_grid.nbiny ∧ ex_grid.nbiny ≤ INT_MAX) ∧
    (1 ≤ ex_grid.nbinz ∧ ex_grid.nbinz ≤ INT_MAX) ∧
    (ex_grid.bboxlo.c0 ≤ ex_grid.bboxhi.c0) ∧
    (ex_grid.bboxlo.c1 ≤ ex_grid.bboxhi.c1) ∧
    (ex_grid.bboxlo.c2 ≤ ex_grid.bboxhi.c2) ∧
    (0 ≤ ex_grid.bininvx) ∧
    (0 ≤ ex_grid.bininvy) ∧
    (0 ≤ ex_grid.bininvz) ∧
    (0 ≤ ex_atom.CAC_cut + ex_atom.CAC_skin) ∧
    (axis_fits ex_grid.bboxlo.c0 ex_grid.bboxhi.c0 ex_grid.bininvx ex_grid.nbinx (inflated_box_dbl ex_atom 0).1.c0 ∧ axis_fits ex_grid.bboxlo.c1 ex_grid.bboxhi.c1 ex_grid.bininvy ex_grid.nbiny (inflated_box_dbl ex_atom 0).1.c1 ∧ axis_fits ex_grid.bboxlo.c2 ex_grid.bboxhi.c2 ex_grid.bininvz ex_grid.nbinz (inflated_box_dbl ex_atom 0).1.c2) ∧
    (axis_fits ex_grid.bboxlo.c0 ex_grid.bboxhi.c0 ex_grid.bininvx ex_grid.nbinx (inflated_box_dbl ex_atom 0).2.c0 ∧ axis_fits ex_grid.bboxlo.c1 ex_grid.bboxhi.c1 ex_grid.bininvy ex_grid.nbiny (inflated_box_dbl ex_atom 0).2.c1 ∧ axis_fits ex_grid.bboxlo.c2 ex_grid.bboxhi.c2 ex_grid.bininvz ex_grid.nbinz (inflated_box_dbl ex_atom 0).2.c2) ∧
    ((∀ x y : ℚ, axis_fits ex_grid.bboxlo.c0 ex_grid.bboxhi.c0 ex_grid.bininvx ex_grid.nbinx x →
      axis_fits ex_grid.bboxlo.c0 ex_grid.bboxhi.c0 ex_grid.bininvx ex_grid.nbinx y → x ≤ y →
      axis_bin_dbl ex_grid.bboxlo.c0 ex_grid.bboxhi.c0 ex_grid.bininvx ex_grid.nbinx x
        ≤ axis_bin_dbl ex_grid.bboxlo.c0 ex_grid.bboxhi.c0 ex_grid.bininvx ex_grid.nbinx y) ∧
    (∀ x y : ℚ, axis_fits ex_grid.bboxlo.c1 ex_grid.bboxhi.c1 ex_grid.bininvy ex_grid.nbiny x →
      axis_fits ex_grid.bboxlo.c1 ex_grid.bboxhi.c1 ex_grid.bininvy ex_grid.nbiny y → x ≤ y →
      axis_bin_dbl ex_grid.bboxlo.c1 ex_grid.bboxhi.c1 ex_grid.bininvy ex_grid.nbiny x
        ≤ axis_bin_dbl ex_grid.bboxlo.c1 ex_grid.bboxhi.c1 ex_grid.bininvy ex_grid.nbiny y) ∧
    (∀ x y : ℚ, axis_fits ex_grid.bboxlo.c2 ex_grid.bboxhi.c2 ex_grid.bininvz ex_grid.nbinz x →
      axis_fits ex_grid.bboxlo.c2 ex_grid.bboxhi.c2 ex_grid.bininvz ex_grid.nbinz y → x ≤ y →
      axis_bin_dbl ex_grid.bboxlo.c2 ex_grid.bboxhi.c2 ex_grid.bininvz ex_grid.nbinz x
        ≤ axis_bin_dbl ex_grid.bboxlo.c2 ex_grid.bboxhi.c2 ex_grid.bininvz ex_grid.nbinz y) ∧
    (overlapRange_dbl ex_grid ex_atom 0).l0 ≤ (overlapRange_dbl ex_grid ex_atom 0).l3 ∧
    (overlapRange_dbl ex_grid ex_atom 0).l1 ≤ (overlapRange_dbl ex_grid ex_atom 0).l4 ∧
    (overlapRange_dbl ex_grid ex_atom 0).l2 ≤ (overlapRange_dbl ex_grid ex_atom 0).l5) :=
  ⟨(by decide),
    (by decide),
    (by decide),
    (by simp only [ex_grid]; norm_num),
    (by simp only [ex_grid]; norm_num),
    (by simp only [ex_grid]; norm_num),
    (by simp only [ex_grid]; norm_num),
    (by simp only [ex_grid]; norm_num),
    (by simp only [ex_grid]; norm_num),
    (by simp only [ex_atom]; norm_num),
    ex_corners_fit.1,
    ex_corners_fit.2,
    axis_bin_dbl_monotone ex_grid ex_atom 0 (by decide) (by decide) (by decide)
      (by simp only [ex_grid]; norm_num) (by simp only [ex_grid]; norm_num)
      (by simp only [ex_grid]; norm_num) (by simp only [ex_grid]; norm_num)
      (by simp only [ex_grid]; norm_num) (by simp only [ex_grid]; norm_num)
      (by simp only [ex_atom]; norm_num) ex_corners_fit.1 ex_corners_fit.2⟩

theorem setup_cells_dbl_binsize_witness :
    (ex_setup.Valid) ∧
    (ex_setup.dimension = 3) ∧
    (ex_setup.MAXSMALLINT ≤ INT_MAX) ∧
    (setup_cells_dbl ex_setup BIN = Except.ok (⟨10, 10, 10, 1, 1, 1⟩ : CellSizes)) ∧
    ((round_dbl ((1 / 2) * ex_setup.max_search_range) ≤ round_dbl (ex_setup.bboxhi.c0 - ex_setup.bboxlo.c0) →
        (1 - 1 / 2 ^ 51) * round_dbl ((1 / 2) * ex_setup.max_search_range) ≤ (⟨10, 10, 10, 1, 1, 1⟩ : CellSizes).binsizex ∧
          (⟨10, 10, 10, 1, 1, 1⟩ : CellSizes).binsizex ≤ 2 * round_dbl ((1 / 2) * ex_setup.max_search_range)) ∧
    (round_dbl (ex_setup.bboxhi.c0 - ex_setup.bboxlo.c0) < round_dbl ((1 / 2) * ex_setup.max_search_range) →
        (⟨10, 10, 10, 1, 1, 1⟩ : CellSizes).nbinx = 1 ∧ (⟨10, 10, 10, 1, 1, 1⟩ : CellSizes).binsizex = round_dbl (ex_setup.bboxhi.c0 - ex_setup.bboxlo.c0)) ∧
    (round_dbl ((1 / 2) * ex_setup.max_search_range) ≤ round_dbl (ex_setup.bboxhi.c1 - ex_setup.bboxlo.c1) →
        (1 - 1 / 2 ^ 51) * round_dbl ((1 / 2) * ex_setup.max_search_range) ≤ (⟨10, 10, 10, 1, 1, 1⟩ : CellSizes).binsizey ∧
          (⟨10, 10, 10, 1, 1, 1⟩ : CellSizes).binsizey ≤ 2 * round_dbl ((1 / 2) * ex_setup.max_search_range)) ∧
    (round_dbl (ex_setup.bboxhi.c1 - ex_setup.bboxlo.c1) < round_dbl ((1 / 2) * ex_setup.max_search_range) →
        (⟨10, 10, 10, 1, 1, 1⟩ : CellSizes).nbiny = 1 ∧ (⟨10, 10, 10, 1, 1, 1⟩ : CellSizes).binsizey = round_dbl (ex_setup.bboxhi.c1 - ex_setup.bboxlo.c1)) ∧
    (round_dbl ((1 / 2) * ex_setup.max_search_range) ≤ round_dbl (ex_setup.bboxhi.c2 - ex_setup.bboxlo.c2) →
        (1 - 1 / 2 ^ 51) * round_dbl ((1 / 2) * ex_setup.max_search_range) ≤ (⟨10, 10, 10, 1, 1, 1⟩ : CellSizes).binsizez ∧
          (⟨10, 10, 10, 1, 1, 1⟩ : CellSizes).binsizez ≤ 2 * round_dbl ((1 / 2) * ex_setup.max_search_range)) ∧
    (round_dbl (ex_setup.bboxhi.c2 - ex_setup.bboxlo.c2) < round_dbl ((1 / 2) * ex_setup.max_search_range) →
        (⟨10, 10, 10, 1, 1, 1⟩ : CellSizes).nbinz = 1 ∧ (⟨10, 10, 10, 1, 1, 1⟩ : CellSizes).binsizez = round_dbl (ex_setup.bboxhi.c2 - ex_setup.bboxlo.c2))) :=
  ⟨ex_setup_valid,
    rfl,
    (by decide),
    ex_setup_cells_dbl,
    setup_cells_dbl_binsize ex_setup BIN (⟨10, 10, 10, 1, 1, 1⟩ : CellSizes) ex_setup_valid rfl
      (by decide) ex_setup_cells_dbl⟩

theorem compute_surface_depths_dbl_count_bounds_witness :
    (1 ≤ (ex_fine_atom.element_scale 0).i0 ∧ (ex_fine_atom.element_scale 0).i0 ≤ INT_MAX) ∧
    (1 ≤ (ex_fine_atom.element_scale 0).i1 ∧ (ex_fine_atom.element_scale 0).i1 ≤ INT_MAX) ∧
    (1 ≤ (ex_fine_atom.element_scale 0).i2 ∧ (ex_fine_atom.element_scale 0).i2 ≤ INT_MAX) ∧
    (surface_increments Rat.sqrt ex_fine_atom (ex_fine_atom.nodal_positions 0)
      (ex_fine_atom.element_scale 0) 0 = ⟨2, 2, 2⟩) ∧
    (((0 ≤ (surface_increments Rat.sqrt ex_fine_atom (ex_fine_atom.nodal_positions 0) (ex_fine_atom.element_scale 0) 0).i0 →
        0 ≤ 2 * (compute_surface_depths_dbl Rat.sqrt ex_fine_atom 0 (ex_fine_atom.nodal_positions 0) (ex_fine_atom.element_scale 0) 0).countx ∧
        2 * (compute_surface_depths_dbl Rat.sqrt ex_fine_atom 0 (ex_fine_atom.nodal_positions 0) (ex_fine_atom.element_scale 0) 0).countx ≤ (ex_fine_atom.element_scale 0).i0 ∧
        (2 ≤ (ex_fine_atom.element_scale 0).i0 → 1 ≤ (compute_surface_depths_dbl Rat.sqrt ex_fine_atom 0 (ex_fine_atom.nodal_positions 0) (ex_fine_atom.element_scale 0) 0).countx)) ∧
      (2 ≤ (ex_fine_atom.element_scale 0).i0 → 1 ≤ (compute_surface_depths_dbl Rat.sqrt ex_fine_atom 0 (ex_fine_atom.nodal_positions 0) (ex_fine_atom.element_scale 0) 0).countx →
        0 ≤ (surface_increments Rat.sqrt ex_fine_atom (ex_fine_atom.nodal_positions 0) (ex_fine_atom.element_scale 0) 0).i0)) ∧
    ((0 ≤ (surface_increments Rat.sqrt ex_fine_atom (ex_fine_atom.nodal_positions 0) (ex_fine_atom.element_scale 0) 0).i1 →
        0 ≤ 2 * (compute_surface_depths_dbl Rat.sqrt ex_fine_atom 0 (ex_fine_atom.nodal_positions 0) (ex_fine_atom.element_scale 0) 0).county ∧
        2 * (compute_surface_depths_dbl Rat.sqrt ex_fine_atom 0 (ex_fine_atom.nodal_positions 0) (ex_fine_atom.element_scale 0) 0).county ≤ (ex_fine_atom.element_scale 0).i1 ∧
        (2 ≤ (ex_fine_atom.element_scale 0).i1 → 1 ≤ (compute_surface_depths_dbl Rat.sqrt ex_fine_atom 0 (ex_fine_atom.nodal_positions 0) (ex_fine_atom.element_scale 0) 0).county)) ∧
      (2 ≤ (ex_fine_atom.element_scale 0).i1 → 1 ≤ (compute_surface_depths_dbl Rat.sqrt ex_fine_atom 0 (ex_fine_atom.nodal_positions 0) (ex_fine_atom.element_scale 0) 0).county →
        0 ≤ (surface_increments Rat.sqrt ex_fine_atom (ex_fine_atom.nodal_positions 0) (ex_fine_atom.element_scale 0) 0).i1)) ∧
    ((0 ≤ (surface_increments Rat.sqrt ex_fine_atom (ex_fine_atom.nodal_positions 0) (ex_fine_atom.element_scale 0) 0).i2 →
        0 ≤ 2 * (compute_surface_depths_dbl Rat.sqrt ex_fine_atom 0 (ex_fine_atom.nodal_positions 0) (ex_fine_atom.element_scale 0) 0).countz ∧
        2 * (compute_surface_depths_dbl Rat.sqrt ex_fine_atom 0 (ex_fine_atom.nodal_positions 0) (ex_fine_atom.element_scale 0) 0).countz ≤ (ex_fine_atom.element_scale 0).i2 ∧
        (2 ≤ (ex_fine_atom.element_scale 0).i2 → 1 ≤ (compute_surface_depths_dbl Rat.sqrt ex_fine_atom 0 (ex_fine_atom.nodal_positions 0) (ex_fine_atom.element_scale 0) 0).countz)) ∧
      (2 ≤ (ex_fine_atom.element_scale 0).i2 → 1 ≤ (compute_surface_depths_dbl Rat.sqrt ex_fine_atom 0 (ex_fine_atom.nodal_positions 0) (ex_fine_atom.element_scale 0) 0).countz →
        0 ≤ (surface_increments Rat.sqrt ex_fine_atom (ex_fine_atom.nodal_positions 0) (ex_fine_atom.element_scale 0) 0).i2))) :=
  ⟨(by decide),
    (by decide),
    (by decide),
    ex_fine_increments,
    compute_surface_depths_dbl_count_bounds Rat.sqrt ex_fine_atom (ex_fine_atom.nodal_positions 0)
      (ex_fine_atom.element_scale 0) 0 (by decide) (by decide) (by decide)⟩

theorem compute_surface_depths_dbl_interior_factor_witness :
    (1 ≤ (ex_fine_atom.element_scale 0).i0 ∧ (ex_fine_atom.element_scale 0).i0 ≤ INT_MAX) ∧
    (1 ≤ (ex_fine_atom.element_scale 0).i1 ∧ (ex_fine_atom.element_scale 0).i1 ≤ INT_MAX) ∧
    (1 ≤ (ex_fine_atom.element_scale 0).i2 ∧ (ex_fine_atom.element_scale 0).i2 ≤ INT_MAX) ∧
    (surface_increments Rat.sqrt ex_fine_atom (ex_fine_atom.nodal_positions 0)
      (ex_fine_atom.element_scale 0) 0 = ⟨2, 2, 2⟩) ∧
    (((compute_surface_depths_dbl Rat.sqrt ex_fine_atom 0 (ex_fine_atom.nodal_positions 0) (ex_fine_atom.element_scale 0) 0).scalex
        = round_dbl (1 - (surface_skin_dbl Rat.sqrt ex_fine_atom 0 (ex_fine_atom.nodal_positions 0) (ex_fine_atom.element_scale 0) 0).c0) ∧
      (compute_surface_depths_dbl Rat.sqrt ex_fine_atom 0 (ex_fine_atom.nodal_positions 0) (ex_fine_atom.element_scale 0) 0).scaley
        = round_dbl (1 - (surface_skin_dbl Rat.sqrt ex_fine_atom 0 (ex_fine_atom.nodal_positions 0) (ex_fine_atom.element_scale 0) 0).c1) ∧
      (compute_surface_depths_dbl Rat.sqrt ex_fine_atom 0 (ex_fine_atom.nodal_positions 0) (ex_fine_atom.element_scale 0) 0).scalez
        = round_dbl (1 - (surface_skin_dbl Rat.sqrt ex_fine_atom 0 (ex_fine_atom.nodal_positions 0) (ex_fine_atom.element_scale 0) 0).c2)) ∧
    (0 = 0 →
      ((surface_skin_dbl Rat.sqrt ex_fine_atom 0 (ex_fine_atom.nodal_positions 0) (ex_fine_atom.element_scale 0) 0).c0 ≤ 1 ∧
        0 ≤ (compute_surface_depths_dbl Rat.sqrt ex_fine_atom 0 (ex_fine_atom.nodal_positions 0) (ex_fine_atom.element_scale 0) 0).scalex ∧
        ((compute_surface_depths_dbl Rat.sqrt ex_fine_atom 0 (ex_fine_atom.nodal_positions 0) (ex_fine_atom.element_scale 0) 0).scalex ≤ 1
          ↔ -1 ≤ (surface_increments Rat.sqrt ex_fine_atom (ex_fine_atom.nodal_positions 0) (ex_fine_atom.element_scale 0) 0).i0)) ∧
      ((surface_skin_dbl Rat.sqrt ex_fine_atom 0 (ex_fine_atom.nodal_positions 0) (ex_fine_atom.element_scale 0) 0).c1 ≤ 1 ∧
        0 ≤ (compute_surface_depths_dbl Rat.sqrt ex_fine_atom 0 (ex_fine_atom.nodal_positions 0) (ex_fine_atom.element_scale 0) 0).scaley ∧
        ((compute_surface_depths_dbl Rat.sqrt ex_fine_atom 0 (ex_fine_atom.nodal_positions 0) (ex_fine_atom.element_scale 0) 0).scaley ≤ 1
          ↔ -1 ≤ (surface_increments Rat.sqrt ex_fine_atom (ex_fine_atom.nodal_positions 0) (ex_fine_atom.element_scale 0) 0).i1)) ∧
      ((surface_skin_dbl Rat.sqrt ex_fine_atom 0 (ex_fine_atom.nodal_positions 0) (ex_fine_atom.element_scale 0) 0).c2 ≤ 1 ∧
        0 ≤ (compute_surface_depths_dbl Rat.sqrt ex_fine_atom 0 (ex_fine_atom.nodal_positions 0) (ex_fine_atom.element_scale 0) 0).scalez ∧
        ((compute_surface_depths_dbl Rat.sqrt ex_fine_atom 0 (ex_fine_atom.nodal_positions 0) (ex_fine_atom.element_scale 0) 0).scalez ≤ 1
          ↔ -1 ≤ (surface_increments Rat.sqrt ex_fine_atom (ex_fine_atom.nodal_positions 0) (ex_fine_atom.element_scale 0) 0).i2))) ∧
    (0 ≠ 0 →
      ((surface_skin_dbl Rat.sqrt ex_fine_atom 0 (ex_fine_atom.nodal_positions 0) (ex_fine_atom.element_scale 0) 0).c0
          = round_dbl (2 / ((ex_fine_atom.element_scale 0).i0 : ℚ)) ∧
        (((surface_skin_dbl Rat.sqrt ex_fine_atom 0 (ex_fine_atom.nodal_positions 0) (ex_fine_atom.element_scale 0) 0).c0 ≤ 1 ∧
          0 ≤ (compute_surface_depths_dbl Rat.sqrt ex_fine_atom 0 (ex_fine_atom.nodal_positions 0) (ex_fine_atom.element_scale 0) 0).scalex ∧
          (compute_surface_depths_dbl Rat.sqrt ex_fine_atom 0 (ex_fine_atom.nodal_positions 0) (ex_fine_atom.element_scale 0) 0).scalex ≤ 1)
            ↔ 2 ≤ (ex_fine_atom.element_scale 0).i0)) ∧
      ((surface_skin_dbl Rat.sqrt ex_fine_atom 0 (ex_fine_atom.nodal_positions 0) (ex_fine_atom.element_scale 0) 0).c1
          = round_dbl (2 / ((ex_fine_atom.element_scale 0).i1 : ℚ)) ∧
        (((surface_skin_dbl Rat.sqrt ex_fine_atom 0 (ex_fine_atom.nodal_positions 0) (ex_fine_atom.element_scale 0) 0).c1 ≤ 1 ∧
          0 ≤ (compute_surface_depths_dbl Rat.sqrt ex_fine_atom 0 (ex_fine_atom.nodal_positions 0) (ex_fine_atom.element_scale 0) 0).scaley ∧
          (compute_surface_depths_dbl Rat.sqrt ex_fine_atom 0 (ex_fine_atom.nodal_positions 0) (ex_fine_atom.element_scale 0) 0).scaley ≤ 1)
            ↔ 2 ≤ (ex_fine_atom.element_scale 0).i1)) ∧
      ((surface_skin_dbl Rat.sqrt ex_fine_atom 0 (ex_fine_atom.nodal_positions 0) (ex_fine_atom.element_scale 0) 0).c2
          = round_dbl (2 / ((ex_fine_atom.element_scale 0).i2 : ℚ)) ∧
        (((surface_skin_dbl Rat.sqrt ex_fine_atom 0 (ex_fine_atom.nodal_positions 0) (ex_fine_atom.element_scale 0) 0).c2 ≤ 1 ∧
          0 ≤ (compute_surface_depths_dbl Rat.sqrt ex_fine_atom 0 (ex_fine_atom.nodal_positions 0) (ex_fine_atom.element_scale 0) 0).scalez ∧
          (compute_surface_depths_dbl Rat.sqrt ex_fine_atom 0 (ex_fine_atom.nodal_positions 0) (ex_fine_atom.element_scale 0) 0).scalez ≤ 1)
            ↔ 2 ≤ (ex_fine_atom.element_scale 0).i2)))) :=
  ⟨(by decide),
    (by decide),
    (by decide),
    ex_fine_increments,
    compute_surface_depths_dbl_interior_factor Rat.sqrt ex_fine_atom 0
      (ex_fine_atom.nodal_positions 0) (ex_fine_atom.element_scale 0) 0 (by decide) (by decide)
      (by decide)⟩

theorem compute_surface_depths_dbl_quantised_witness :
    (1 ≤ (ex_fine_atom.element_scale 0).i0 ∧ (ex_fine_atom.element_scale 0).i0 ≤ INT_MAX) ∧
    (1 ≤ (ex_fine_atom.element_scale 0).i1 ∧ (ex_fine_atom.element_scale 0).i1 ≤ INT_MAX) ∧
    (1 ≤ (ex_fine_atom.element_scale 0).i2 ∧ (ex_fine_atom.element_scale 0).i2 ≤ INT_MAX) ∧
    (surface_increments Rat.sqrt ex_fine_atom (ex_fine_atom.nodal_positions 0)
      (ex_fine_atom.element_scale 0) 0 = ⟨2, 2, 2⟩) ∧
    ((0 ≤ (surface_increments Rat.sqrt ex_fine_atom (ex_fine_atom.nodal_positions 0) (ex_fine_atom.element_scale 0) 0).i0 →
      (0 ≤ ds_sq_dbl (ex_fine_atom.nodal_positions 0) 0 ∧ round_dbl (Rat.sqrt (ds_sq_dbl (ex_fine_atom.nodal_positions 0) 0)) ≠ 0 ∧
        (surface_increments Rat.sqrt ex_fine_atom (ex_fine_atom.nodal_positions 0) (ex_fine_atom.element_scale 0) 0).i0
          = static_cast_int (round_dbl (round_dbl (round_dbl (2 * round_dbl (ex_fine_atom.CAC_cut - ex_fine_atom.CAC_skin))
              / round_dbl (Rat.sqrt (ds_sq_dbl (ex_fine_atom.nodal_positions 0) 0))) / round_dbl (2 / ((ex_fine_atom.element_scale 0).i0 : ℚ))))) ∧
      |skin_unclamped_dbl (round_dbl (2 / ((ex_fine_atom.element_scale 0).i0 : ℚ)))
          (surface_increments Rat.sqrt ex_fine_atom (ex_fine_atom.nodal_positions 0) (ex_fine_atom.element_scale 0) 0).i0
          - round_dbl (2 / ((ex_fine_atom.element_scale 0).i0 : ℚ))
            * ((((surface_increments Rat.sqrt ex_fine_atom (ex_fine_atom.nodal_positions 0) (ex_fine_atom.element_scale 0) 0).i0 : Int) : ℚ) + 1)|
        ≤ round_dbl (2 / ((ex_fine_atom.element_scale 0).i0 : ℚ))
            * ((((surface_increments Rat.sqrt ex_fine_atom (ex_fine_atom.nodal_positions 0) (ex_fine_atom.element_scale 0) 0).i0 : Int) : ℚ) + 1) / 2 ^ 51 ∧
      (skin_unclamped_dbl (round_dbl (2 / ((ex_fine_atom.element_scale 0).i0 : ℚ)))
          (surface_increments Rat.sqrt ex_fine_atom (ex_fine_atom.nodal_positions 0) (ex_fine_atom.element_scale 0) 0).i0 ≤ 1 →
        (surface_skin_dbl Rat.sqrt ex_fine_atom 0 (ex_fine_atom.nodal_positions 0) (ex_fine_atom.element_scale 0) 0).c0
          = skin_unclamped_dbl (round_dbl (2 / ((ex_fine_atom.element_scale 0).i0 : ℚ)))
          (surface_increments Rat.sqrt ex_fine_atom (ex_fine_atom.nodal_positions 0) (ex_fine_atom.element_scale 0) 0).i0 ∧
        ((compute_surface_depths_dbl Rat.sqrt ex_fine_atom 0 (ex_fine_atom.nodal_positions 0) (ex_fine_atom.element_scale 0) 0).countx
            = (surface_increments Rat.sqrt ex_fine_atom (ex_fine_atom.nodal_positions 0) (ex_fine_atom.element_scale 0) 0).i0 ∨
          (compute_surface_depths_dbl Rat.sqrt ex_fine_atom 0 (ex_fine_atom.nodal_positions 0) (ex_fine_atom.element_scale 0) 0).countx
            = (surface_increments Rat.sqrt ex_fine_atom (ex_fine_atom.nodal_positions 0) (ex_fine_atom.element_scale 0) 0).i0 + 1)) ∧
      (1 < skin_unclamped_dbl (round_dbl (2 / ((ex_fine_atom.element_scale 0).i0 : ℚ)))
          (surface_increments Rat.sqrt ex_fine_atom (ex_fine_atom.nodal_positions 0) (ex_fine_atom.element_scale 0) 0).i0 →
        (surface_skin_dbl Rat.sqrt ex_fine_atom 0 (ex_fine_atom.nodal_positions 0) (ex_fine_atom.element_scale 0) 0).c0 = 1 ∧
        (ex_fine_atom.element_scale 0).i0 / 2 - 1 ≤ (compute_surface_depths_dbl Rat.sqrt ex_fine_atom 0 (ex_fine_atom.nodal_positions 0) (ex_fine_atom.element_scale 0) 0).countx ∧
        (compute_surface_depths_dbl Rat.sqrt ex_fine_atom 0 (ex_fine_atom.nodal_positions 0) (ex_fine_atom.element_scale 0) 0).countx ≤ (ex_fine_atom.element_scale 0).i0 / 2)) ∧
    (0 ≤ (surface_increments Rat.sqrt ex_fine_atom (ex_fine_atom.nodal_positions 0) (ex_fine_atom.element_scale 0) 0).i1 →
      (0 ≤ dt_sq_dbl (ex_fine_atom.nodal_positions 0) 0 ∧ round_dbl (Rat.sqrt (dt_sq_dbl (ex_fine_atom.nodal_positions 0) 0)) ≠ 0 ∧
        (surface_increments Rat.sqrt ex_fine_atom (ex_fine_atom.nodal_positions 0) (ex_fine_atom.element_scale 0) 0).i1
          = static_cast_int (round_dbl (round_dbl (round_dbl (2 * round_dbl (ex_fine_atom.CAC_cut - ex_fine_atom.CAC_skin))
              / round_dbl (Rat.sqrt (dt_sq_dbl (ex_fine_atom.nodal_positions 0) 0))) / round_dbl (2 / ((ex_fine_atom.element_scale 0).i1 : ℚ))))) ∧
      |skin_unclamped_dbl (round_dbl (2 / ((ex_fine_atom.element_scale 0).i1 : ℚ)))
          (surface_increments Rat.sqrt ex_fine_atom (ex_fine_atom.nodal_positions 0) (ex_fine_atom.element_scale 0) 0).i1
          - round_dbl (2 / ((ex_fine_atom.element_scale 0).i1 : ℚ))
            * ((((surface_increments Rat.sqrt ex_fine_atom (ex_fine_atom.nodal_positions 0) (ex_fine_atom.element_scale 0) 0).i1 : Int) : ℚ) + 1)|
        ≤ round_dbl (2 / ((ex_fine_atom.element_scale 0).i1 : ℚ))
            * ((((surface_increments Rat.sqrt ex_fine_atom (ex_fine_atom.nodal_positions 0) (ex_fine_atom.element_scale 0) 0).i1 : Int) : ℚ) + 1) / 2 ^ 51 ∧
      (skin_unclamped_dbl (round_dbl (2 / ((ex_fine_atom.element_scale 0).i1 : ℚ)))
          (surface_increments Rat.sqrt ex_fine_atom (ex_fine_atom.nodal_positions 0) (ex_fine_atom.element_scale 0) 0).i1 ≤ 1 →
        (surface_skin_dbl Rat.sqrt ex_fine_atom 0 (ex_fine_atom.nodal_positions 0) (ex_fine_atom.element_scale 0) 0).c1
          = skin_unclamped_dbl (round_dbl (2 / ((ex_fine_atom.element_scale 0).i1 : ℚ)))
          (surface_increments Rat.sqrt ex_fine_atom (ex_fine_atom.nodal_positions 0) (ex_fine_atom.element_scale 0) 0).i1 ∧
        ((compute_surface_depths_dbl Rat.sqrt ex_fine_atom 0 (ex_fine_atom.nodal_positions 0) (ex_fine_atom.element_scale 0) 0).county
            = (surface_increments Rat.sqrt ex_fine_atom (ex_fine_atom.nodal_positions 0) (ex_fine_atom.element_scale 0) 0).i1 ∨
          (compute_surface_depths_dbl Rat.sqrt ex_fine_atom 0 (ex_fine_atom.nodal_positions 0) (ex_fine_atom.element_scale 0) 0).county
            = (surface_increments Rat.sqrt ex_fine_atom (ex_fine_atom.nodal_positions 0) (ex_fine_atom.element_scale 0) 0).i1 + 1)) ∧
      (1 < skin_unclamped_dbl (round_dbl (2 / ((ex_fine_atom.element_scale 0).i1 : ℚ)))
          (surface_increments Rat.sqrt ex_fine_atom (ex_fine_atom.nodal_positions 0) (ex_fine_atom.element_scale 0) 0).i1 →
        (surface_skin_dbl Rat.sqrt ex_fine_atom 0 (ex_fine_atom.nodal_positions 0) (ex_fine_atom.element_scale 0) 0).c1 = 1 ∧
        (ex_fine_atom.element_scale 0).i1 / 2 - 1 ≤ (compute_surface_depths_dbl Rat.sqrt ex_fine_atom 0 (ex_fine_atom.nodal_positions 0) (ex_fine_atom.element_scale 0) 0).county ∧
        (compute_surface_depths_dbl Rat.sqrt ex_fine_atom 0 (ex_fine_atom.nodal_positions 0) (ex_fine_atom.element_scale 0) 0).county ≤ (ex_fine_atom.element_scale 0).i1 / 2)) ∧
    (0 ≤ (surface_increments Rat.sqrt ex_fine_atom (ex_fine_atom.nodal_positions 0) (ex_fine_atom.element_scale 0) 0).i2 →
      (0 ≤ dw_sq_dbl (ex_fine_atom.nodal_positions 0) 0 ∧ round_dbl (Rat.sqrt (dw_sq_dbl (ex_fine_atom.nodal_positions 0) 0)) ≠ 0 ∧
        (surface_increments Rat.sqrt ex_fine_atom (ex_fine_atom.nodal_positions 0) (ex_fine_atom.element_scale 0) 0).i2
          = static_cast_int (round_dbl (round_dbl (round_dbl (2 * round_dbl (ex_fine_atom.CAC_cut - ex_fine_atom.CAC_skin))
              / round_dbl (Rat.sqrt (dw_sq_dbl (ex_fine_atom.nodal_positions 0) 0))) / round_dbl (2 / ((ex_fine_atom.element_scale 0).i2 : ℚ))))) ∧
      |skin_unclamped_dbl (round_dbl (2 / ((ex_fine_atom.element_scale 0).i2 : ℚ)))
          (surface_increments Rat.sqrt ex_fine_atom (ex_fine_atom.nodal_positions 0) (ex_fine_atom.element_scale 0) 0).i2
          - round_dbl (2 / ((ex_fine_atom.element_scale 0).i2 : ℚ))
            * ((((surface_increments Rat.sqrt ex_fine_atom (ex_fine_atom.nodal_positions 0) (ex_fine_atom.element_scale 0) 0).i2 : Int) : ℚ) + 1)|
        ≤ round_dbl (2 / ((ex_fine_atom.element_scale 0).i2 : ℚ))
            * ((((surface_increments Rat.sqrt ex_fine_atom (ex_fine_atom.nodal_positions 0) (ex_fine_atom.element_scale 0) 0).i2 : Int) : ℚ) + 1) / 2 ^ 51 ∧
      (skin_unclamped_dbl (round_dbl (2 / ((ex_fine_atom.element_scale 0).i2 : ℚ)))
          (surface_increments Rat.sqrt ex_fine_atom (ex_fine_atom.nodal_positions 0) (ex_fine_atom.element_scale 0) 0).i2 ≤ 1 →
        (surface_skin_dbl Rat.sqrt ex_fine_atom 0 (ex_fine_atom.nodal_positions 0) (ex_fine_atom.element_scale 0) 0).c2
          = skin_unclamped_dbl (round_dbl (2 / ((ex_fine_atom.element_scale 0).i2 : ℚ)))
          (surface_increments Rat.sqrt ex_fine_atom (ex_fine_atom.nodal_positions 0) (ex_fine_atom.element_scale 0) 0).i2 ∧
        ((compute_surface_depths_dbl Rat.sqrt ex_fine_atom 0 (ex_fine_atom.nodal_positions 0) (ex_fine_atom.element_scale 0) 0).countz
            = (surface_increments Rat.sqrt ex_fine_atom (ex_fine_atom.nodal_positions 0) (ex_fine_atom.element_scale 0) 0).i2 ∨
          (compute_surface_depths_dbl Rat.sqrt ex_fine_atom 0 (ex_fine_atom.nodal_positions 0) (ex_fine_atom.element_scale 0) 0).countz
            = (surface_increments Rat.sqrt ex_fine_atom (ex_fine_atom.nodal_positions 0) (ex_fine_atom.element_scale 0) 0).i2 + 1)) ∧
      (1 < skin_unclamped_dbl (round_dbl (2 / ((ex_fine_atom.element_scale 0).i2 : ℚ)))
          (surface_increments Rat.sqrt ex_fine_atom (ex_fine_atom.nodal_positions 0) (ex_fine_atom.element_scale 0) 0).i2 →
        (surface_skin_dbl Rat.sqrt ex_fine_atom 0 (ex_fine_atom.nodal_positions 0) (ex_fine_atom.element_scale 0) 0).c2 = 1 ∧
        (ex_fine_atom.element_scale 0).i2 / 2 - 1 ≤ (compute_surface_depths_dbl Rat.sqrt ex_fine_atom 0 (ex_fine_atom.nodal_positions 0) (ex_fine_atom.element_scale 0) 0).countz ∧
        (compute_surface_depths_dbl Rat.sqrt ex_fine_atom 0 (ex_fine_atom.nodal_positions 0) (ex_fine_atom.element_scale 0) 0).countz ≤ (ex_fine_atom.element_scale 0).i2 / 2))) :=
  ⟨(by decide),
    (by decide),
    (by decide),
    ex_fine_increments,
    compute_surface_depths_dbl_quantised Rat.sqrt ex_fine_atom (ex_fine_atom.nodal_positions 0)
      (ex_fine_atom.element_scale 0) 0 (by decide) (by decide) (by decide)⟩

theorem compute_quad_points_dbl_in_box_witness :
    (ex_fine_atom.nodes_per_element_list (ex_fine_atom.element_type 0) = 8) ∧
    (1 ≤ (ex_fine_atom.element_scale 0).i0 ∧ (ex_fine_atom.element_scale 0).i0 ≤ INT_MAX) ∧
    (1 ≤ (ex_fine_atom.element_scale 0).i1 ∧ (ex_fine_atom.element_scale 0).i1 ≤ INT_MAX) ∧
    (1 ≤ (ex_fine_atom.element_scale 0).i2 ∧ (ex_fine_atom.element_scale 0).i2 ≤ INT_MAX) ∧
    (∃ p, p < ex_fine_atom.poly_count 0 ∧ (ex_fine_quad.interior_scales 0).c0 = (compute_surface_depths_dbl Rat.sqrt ex_fine_atom 0 (ex_fine_atom.nodal_positions 0) (ex_fine_atom.element_scale 0) p).scalex ∧ (ex_fine_quad.surface_counts 0).i0 = (compute_surface_depths_dbl Rat.sqrt ex_fine_atom 0 (ex_fine_atom.nodal_positions 0) (ex_fine_atom.element_scale 0) p).countx ∧ (0 = 0 → 0 ≤ (surface_increments Rat.sqrt ex_fine_atom (ex_fine_atom.nodal_positions 0) (ex_fine_atom.element_scale 0) p).i0)) ∧
    (∃ p, p < ex_fine_atom.poly_count 0 ∧ (ex_fine_quad.interior_scales 0).c1 = (compute_surface_depths_dbl Rat.sqrt ex_fine_atom 0 (ex_fine_atom.nodal_positions 0) (ex_fine_atom.element_scale 0) p).scaley ∧ (ex_fine_quad.surface_counts 0).i1 = (compute_surface_depths_dbl Rat.sqrt ex_fine_atom 0 (ex_fine_atom.nodal_positions 0) (ex_fine_atom.element_scale 0) p).county ∧ (0 = 0 → 0 ≤ (surface_increments Rat.sqrt ex_fine_atom (ex_fine_atom.nodal_positions 0) (ex_fine_atom.element_scale 0) p).i1)) ∧
    (∃ p, p < ex_fine_atom.poly_count 0 ∧ (ex_fine_quad.interior_scales 0).c2 = (compute_surface_depths_dbl Rat.sqrt ex_fine_atom 0 (ex_fine_atom.nodal_positions 0) (ex_fine_atom.element_scale 0) p).scalez ∧ (ex_fine_quad.surface_counts 0).i2 = (compute_surface_depths_dbl Rat.sqrt ex_fine_atom 0 (ex_fine_atom.nodal_positions 0) (ex_fine_atom.element_scale 0) p).countz ∧ (0 = 0 → 0 ≤ (surface_increments Rat.sqrt ex_fine_atom (ex_fine_atom.nodal_positions 0) (ex_fine_atom.element_scale 0) p).i2)) ∧
    (∀ j, j < ex_fine_quad.quadrature_node_count → |ex_fine_quad.quadrature_abcissae j| ≤ 1) ∧
    ((∀ x, x ∈ (compute_quad_points ex_fine_atom ex_fine_quad 0 (fun _ => (⟨0, 0, 0⟩ : Vec3))).samples → in_cube x) ∧
    ∀ r, r < (compute_quad_points ex_fine_atom ex_fine_quad 0 (fun _ => (⟨0, 0, 0⟩ : Vec3))).quadrature_counter →
      ∃ p s t w, p < ex_fine_atom.poly_count 0 ∧
        p = r / (phase_samples ⟨2 / ((ex_fine_atom.element_scale 0).i0 : ℚ), 2 / ((ex_fine_atom.element_scale 0).i1 : ℚ),
          2 / ((ex_fine_atom.element_scale 0).i2 : ℚ)⟩ (ex_fine_quad.interior_scales 0) (ex_fine_quad.surface_counts 0)
          ex_fine_quad.quadrature_node_count ex_fine_quad.quadrature_abcissae).length ∧
        (compute_quad_points ex_fine_atom ex_fine_quad 0 (fun _ => (⟨0, 0, 0⟩ : Vec3))).samples[r]? = some ⟨s, t, w⟩ ∧
        in_cube ⟨s, t, w⟩ ∧
        (∀ k, 0 ≤ shape_function s t w 2 k) ∧
        shape_function s t w 2 1 + shape_function s t w 2 2 + shape_function s t w 2 3
          + shape_function s t w 2 4 + shape_function s t w 2 5 + shape_function s t w 2 6
          + shape_function s t w 2 7 + shape_function s t w 2 8 = 1 ∧
        (compute_quad_points ex_fine_atom ex_fine_quad 0 (fun _ => (⟨0, 0, 0⟩ : Vec3))).current_element_quad_points r
          = interpolate (ex_fine_atom.nodal_positions 0) 8 p s t w ∧
        in_box (node_bounding_box (fun k _ => ex_fine_atom.nodal_positions 0 k p) 1 8)
          ((compute_quad_points ex_fine_atom ex_fine_quad 0 (fun _ => (⟨0, 0, 0⟩ : Vec3))).current_element_quad_points r)) :=
  ⟨rfl,
    (by decide),
    (by decide),
    (by decide),
    ⟨0, by decide, rfl, rfl, fun _ => by rw [ex_fine_increments]; decide⟩,
    ⟨0, by decide, rfl, rfl, fun _ => by rw [ex_fine_increments]; decide⟩,
    ⟨0, by decide, rfl, rfl, fun _ => by rw [ex_fine_increments]; decide⟩,
    (fun j hj => (ex_abscissae_lt_one j hj).le),
    compute_quad_points_dbl_in_box Rat.sqrt ex_fine_atom 0 ex_fine_quad 0
      (fun _ => (⟨0, 0, 0⟩ : Vec3)) rfl (by decide) (by decide) (by decide)
      ⟨0, by decide, rfl, rfl, fun _ => by rw [ex_fine_increments]; decide⟩
      ⟨0, by decide, rfl, rfl, fun _ => by rw [ex_fine_increments]; decide⟩
      ⟨0, by decide, rfl, rfl, fun _ => by rw [ex_fine_increments]; decide⟩
      (fun j hj => (ex_abscissae_lt_one j hj).le)⟩

end NBinCAC
